import Mathlib

/-!
# The mujs parser (`jsparse.c`): a shallow embedding and its properties

The embedding follows `src/ext/mujs/jsparse.c` function by function.

* A C pointer `js_Ast *` is a value of `js_Ast`; the null pointer is `js_Ast.NULL`.
  The tree is a pure value: the fields `parent`, `gcnext`, `jumps` and `casejump`
  (never read by the parse functions) are not part of it.
* The functions that allocate, link, rewrite and free nodes (`jsP_newnode`,
  `jsP_setnumnode`, `jsP_foldconst`, `jsP_freeparse`) are given a second time on an
  explicit memory, `Arena`, in which a pointer is an address and a node a block
  with all the fields of `struct js_Ast`.
* The parser state `js_State` holds the fields of `J` that the parser reads or
  writes, together with the input still held by the token source.
* A parse function is a function `js_State → Res α`: it returns a value and the
  next state, or raises the syntax error (`js_throw`).  Recursion between the
  parse functions goes through a handle `Rec`, tied by `run` with a depth bound.
* A C `double` is a value of `Dbl`, with IEEE-754 binary64 rounding
  (round to nearest, ties to even).
* A C string is a `String` with one character for each `char`; the buffers of
  256 bytes that `jsP_error` formats into keep the first 255 characters.
-/

namespace Mujs

/-! ## Doubles -/

/-- A C `double`: NaN, an infinity, negative zero, or a finite value `fin q`
(`fin 0` is positive zero). -/
inductive Dbl where
  | nan
  | inf (neg : Bool)
  | negzero
  | fin (q : ℚ)
deriving DecidableEq

namespace Dbl

/-- Round a natural quotient `n / d` to the nearest natural, ties to even. -/
def roundHalfEven (n d : Nat) : Nat :=
  let m := n / d
  let r := n % d
  if 2 * r < d then m
  else if d < 2 * r then m + 1
  else if m % 2 = 0 then m else m + 1

/-- The binade exponent of a positive rational `n / d`: the `e` with
`2 ^ e ≤ n / d < 2 ^ (e + 1)`, not below the binary64 minimum `-1022`. -/
def binade (n d : Nat) : Int :=
  let e0 : Int := (Nat.log2 n : Int) - (Nat.log2 d : Int)
  let e : Int := if e0 < 0 then (if n * 2 ^ (-e0).toNat < d then e0 - 1 else e0)
    else (if n < d * 2 ^ e0.toNat then e0 - 1 else e0)
  max e (-1022)

/-- The binary64 value nearest to the rational `q` (53 significant bits,
ties to even, overflow to an infinity, underflow to a zero). -/
def round (q : ℚ) : Dbl :=
  if q = 0 then fin 0 else
  let n := q.num.natAbs
  let d := q.den
  let s : Int := binade n d - 52
  let m : Nat := if 0 ≤ s then roundHalfEven n (d * 2 ^ s.toNat)
    else roundHalfEven (n * 2 ^ (-s).toNat) d
  let r : ℚ := if 0 ≤ s then (m : ℚ) * 2 ^ s.toNat else (m : ℚ) / 2 ^ (-s).toNat
  if (2 : ℚ) ^ 1024 ≤ r then inf (decide (q < 0))
  else if r = 0 then (if q < 0 then negzero else fin 0)
  else fin (if q < 0 then -r else r)

/-- Conversion of a C `int` or `unsigned int` to `double` (always exact). -/
def ofInt (n : Int) : Dbl := fin n

/-- Whether the sign bit is set. -/
def signbit : Dbl → Bool
  | nan => false
  | inf s => s
  | negzero => true
  | fin q => decide (q < 0)

/-- The value of a finite double. -/
def val : Dbl → ℚ
  | fin q => q
  | _ => 0

/-- C `isfinite`. -/
def isfinite : Dbl → Bool
  | nan => false
  | inf _ => false
  | _ => true

/-- Whether the double is a zero (`d == 0`). -/
def isZero : Dbl → Bool
  | negzero => true
  | fin q => decide (q = 0)
  | _ => false

/-- A zero of the given sign. -/
def zero (s : Bool) : Dbl := if s then negzero else fin 0

/-- Unary minus `-x`. -/
def neg : Dbl → Dbl
  | nan => nan
  | inf s => inf (!s)
  | negzero => fin 0
  | fin q => if q = 0 then negzero else fin (-q)

/-- Addition `x + y`. -/
def add : Dbl → Dbl → Dbl
  | nan, _ => nan
  | _, nan => nan
  | inf s, inf t => if s = t then inf s else nan
  | inf s, _ => inf s
  | _, inf t => inf t
  | x, y =>
    if x.val + y.val = 0 then zero (x.signbit && y.signbit) else round (x.val + y.val)

/-- Subtraction `x - y`. -/
def sub (x y : Dbl) : Dbl := add x (neg y)

/-- Multiplication `x * y`. -/
def mul : Dbl → Dbl → Dbl
  | nan, _ => nan
  | _, nan => nan
  | inf s, y => if y.isZero then nan else inf (xor s y.signbit)
  | x, inf t => if x.isZero then nan else inf (xor x.signbit t)
  | x, y =>
    if x.val * y.val = 0 then zero (xor x.signbit y.signbit) else round (x.val * y.val)

/-- Division `x / y`. -/
def div : Dbl → Dbl → Dbl
  | nan, _ => nan
  | _, nan => nan
  | inf _, inf _ => nan
  | inf s, y => inf (xor s y.signbit)
  | x, inf t => zero (xor x.signbit t)
  | x, y =>
    if y.isZero then (if x.isZero then nan else inf (xor x.signbit y.signbit))
    else if x.isZero then zero (xor x.signbit y.signbit)
    else round (x.val / y.val)

/-- Truncation toward zero of a rational. -/
def truncQ (q : ℚ) : Int := if 0 ≤ q then ⌊q⌋ else ⌈q⌉

/-- C `fmod(x, y)`: the exact remainder `x - n * y` with `n` the quotient
truncated toward zero; it has the sign of `x`. -/
def fmod : Dbl → Dbl → Dbl
  | nan, _ => nan
  | _, nan => nan
  | inf _, _ => nan
  | x, inf _ => x
  | x, y =>
    if y.isZero then nan
    else if x.isZero then x
    else
      let r := x.val - (truncQ (x.val / y.val) : ℚ) * y.val
      if r = 0 then zero x.signbit else fin r

/-- C `floor`. -/
def floor : Dbl → Dbl
  | fin q => fin (⌊q⌋ : Int)
  | x => x

/-- C `ceil`. -/
def ceil : Dbl → Dbl
  | fin q => if q < 0 ∧ ⌈q⌉ = 0 then negzero else fin (⌈q⌉ : Int)
  | x => x

/-- Comparison `x >= y`. -/
def ge : Dbl → Dbl → Bool
  | nan, _ => false
  | _, nan => false
  | inf s, inf t => !s || t
  | inf s, _ => !s
  | _, inf t => t
  | x, y => decide (y.val ≤ x.val)

/-- Conversion of an integral `double` to a C `int` (truncation). -/
def toInt : Dbl → Int
  | fin q => truncQ q
  | _ => 0

end Dbl

/-! ## Tokens and the token source -/

/-- The token kinds of `jslex.h` that the parser tests for.  A single-character
token is named after its character; `EOF` is the token `0`. -/
inductive Tok where
  | EOF
  /-- The token `;`. -/
  | SEMI
  /-- The token `}`. -/
  | RBRACE
  /-- The token `{`. -/
  | LBRACE
  /-- The token `(`. -/
  | LPAREN
  /-- The token `)`. -/
  | RPAREN
  /-- The token `[`. -/
  | LBRACK
  /-- The token `]`. -/
  | RBRACK
  /-- The token `,`. -/
  | COMMA
  /-- The token `:`. -/
  | COLON
  /-- The token `.`. -/
  | DOT
  /-- The token `+`. -/
  | PLUS
  /-- The token `-`. -/
  | MINUS
  /-- The token `~`. -/
  | TILDE
  /-- The token `!`. -/
  | BANG
  /-- The token `*`. -/
  | STAR
  /-- The token `/`. -/
  | SLASH
  /-- The token `%`. -/
  | PERCENT
  /-- The token `<`. -/
  | LT
  /-- The token `>`. -/
  | GT
  /-- The token `&`. -/
  | AMP
  /-- The token `^`. -/
  | CARET
  /-- The token `|`. -/
  | BAR
  /-- The token `?`. -/
  | QUESTION
  /-- The token `=`. -/
  | ASSIGN
  | TK_IDENTIFIER | TK_NUMBER | TK_STRING | TK_REGEXP
  | TK_LE | TK_GE | TK_EQ | TK_NE | TK_STRICTEQ | TK_STRICTNE
  | TK_SHL | TK_SHR | TK_USHR | TK_AND | TK_OR
  | TK_ADD_ASS | TK_SUB_ASS | TK_MUL_ASS | TK_DIV_ASS | TK_MOD_ASS
  | TK_SHL_ASS | TK_SHR_ASS | TK_USHR_ASS | TK_AND_ASS | TK_OR_ASS | TK_XOR_ASS
  | TK_INC | TK_DEC
  | TK_BREAK | TK_CASE | TK_CATCH | TK_CONTINUE | TK_DEBUGGER | TK_DEFAULT
  | TK_DELETE | TK_DO | TK_ELSE | TK_FALSE | TK_FINALLY | TK_FOR | TK_FUNCTION
  | TK_IF | TK_IMPORT | TK_IN | TK_INSTANCEOF | TK_NEW | TK_NULL | TK_RETURN
  | TK_SWITCH | TK_THIS | TK_THROW | TK_TRUE | TK_TRY | TK_TYPEOF | TK_VAR
  | TK_VOID | TK_WHILE | TK_WITH
deriving DecidableEq, Repr

/-- Modelled from the spec: the enumeration of `jslex.h` is not part of the
sources; the test `J->lookahead >= TK_BREAK` of `identifiername` selects the
keyword tokens ("any identifier-or-keyword token"), which the enumeration
lists last. -/
def Tok.isKeyword : Tok → Bool
  | .TK_BREAK | .TK_CASE | .TK_CATCH | .TK_CONTINUE | .TK_DEBUGGER | .TK_DEFAULT
  | .TK_DELETE | .TK_DO | .TK_ELSE | .TK_FALSE | .TK_FINALLY | .TK_FOR | .TK_FUNCTION
  | .TK_IF | .TK_IMPORT | .TK_IN | .TK_INSTANCEOF | .TK_NEW | .TK_NULL | .TK_RETURN
  | .TK_SWITCH | .TK_THIS | .TK_THROW | .TK_TRUE | .TK_TRY | .TK_TYPEOF | .TK_VAR
  | .TK_VOID | .TK_WHILE | .TK_WITH => true
  | _ => false

/-- Modelled from the spec: `jsY_tokenstring` of the lexer, "a human-readable
name for any token kind (used only in error messages)". -/
def jsY_tokenstring : Tok → String
  | .EOF => "(end-of-file)"
  | .SEMI => "';'" | .RBRACE => "'\x7d'" | .LBRACE => "'\x7b'"
  | .LPAREN => "'('" | .RPAREN => "')'" | .LBRACK => "'['" | .RBRACK => "']'"
  | .COMMA => "','" | .COLON => "':'" | .DOT => "'.'" | .PLUS => "'+'"
  | .MINUS => "'-'" | .TILDE => "'~'" | .BANG => "'!'" | .STAR => "'*'"
  | .SLASH => "'/'" | .PERCENT => "'%'" | .LT => "'<'" | .GT => "'>'"
  | .AMP => "'&'" | .CARET => "'^'" | .BAR => "'|'" | .QUESTION => "'?'"
  | .ASSIGN => "'='"
  | .TK_IDENTIFIER => "(identifier)" | .TK_NUMBER => "(number)"
  | .TK_STRING => "(string)" | .TK_REGEXP => "(regexp)"
  | .TK_LE => "'<='" | .TK_GE => "'>='" | .TK_EQ => "'=='" | .TK_NE => "'!='"
  | .TK_STRICTEQ => "'==='" | .TK_STRICTNE => "'!=='"
  | .TK_SHL => "'<<'" | .TK_SHR => "'>>'" | .TK_USHR => "'>>>'"
  | .TK_AND => "'&&'" | .TK_OR => "'||'"
  | .TK_ADD_ASS => "'+='" | .TK_SUB_ASS => "'-='" | .TK_MUL_ASS => "'*='"
  | .TK_DIV_ASS => "'/='" | .TK_MOD_ASS => "'%='" | .TK_SHL_ASS => "'<<='"
  | .TK_SHR_ASS => "'>>='" | .TK_USHR_ASS => "'>>>='" | .TK_AND_ASS => "'&='"
  | .TK_OR_ASS => "'|='" | .TK_XOR_ASS => "'^='"
  | .TK_INC => "'++'" | .TK_DEC => "'--'"
  | .TK_BREAK => "'break'" | .TK_CASE => "'case'" | .TK_CATCH => "'catch'"
  | .TK_CONTINUE => "'continue'" | .TK_DEBUGGER => "'debugger'"
  | .TK_DEFAULT => "'default'" | .TK_DELETE => "'delete'" | .TK_DO => "'do'"
  | .TK_ELSE => "'else'" | .TK_FALSE => "'false'" | .TK_FINALLY => "'finally'"
  | .TK_FOR => "'for'" | .TK_FUNCTION => "'function'" | .TK_IF => "'if'"
  | .TK_IMPORT => "'import'" | .TK_IN => "'in'" | .TK_INSTANCEOF => "'instanceof'"
  | .TK_NEW => "'new'" | .TK_NULL => "'null'" | .TK_RETURN => "'return'"
  | .TK_SWITCH => "'switch'" | .TK_THIS => "'this'" | .TK_THROW => "'throw'"
  | .TK_TRUE => "'true'" | .TK_TRY => "'try'" | .TK_TYPEOF => "'typeof'"
  | .TK_VAR => "'var'" | .TK_VOID => "'void'" | .TK_WHILE => "'while'"
  | .TK_WITH => "'with'"

/-- Modelled from the spec: one token as the token source supplies it,
`{kind, text, numericValue, line, precededByNewline}`. -/
structure Token where
  kind : Tok
  text : String
  number : Dbl
  line : Nat
  newline : Bool
deriving DecidableEq

/-! ## The syntax tree -/

/-- The node kinds `enum js_AstType` that `jsparse.c` builds. -/
inductive js_AstType where
  | AST_LIST | AST_FUNDEC | AST_IDENTIFIER
  | EXP_IDENTIFIER | EXP_NUMBER | EXP_STRING | EXP_REGEXP
  | EXP_UNDEF | EXP_NULL | EXP_TRUE | EXP_FALSE | EXP_THIS
  | EXP_ARRAY | EXP_OBJECT | EXP_PROP_VAL | EXP_PROP_GET | EXP_PROP_SET
  | EXP_FUN | EXP_INDEX | EXP_MEMBER | EXP_CALL | EXP_NEW
  | EXP_POSTINC | EXP_POSTDEC
  | EXP_DELETE | EXP_IMPORT | EXP_VOID | EXP_TYPEOF | EXP_PREINC | EXP_PREDEC
  | EXP_POS | EXP_NEG | EXP_BITNOT | EXP_LOGNOT
  | EXP_MOD | EXP_DIV | EXP_MUL | EXP_SUB | EXP_ADD
  | EXP_USHR | EXP_SHR | EXP_SHL
  | EXP_IN | EXP_INSTANCEOF | EXP_GE | EXP_LE | EXP_GT | EXP_LT
  | EXP_STRICTNE | EXP_STRICTEQ | EXP_NE | EXP_EQ
  | EXP_BITAND | EXP_BITXOR | EXP_BITOR | EXP_LOGAND | EXP_LOGOR | EXP_COND
  | EXP_ASS | EXP_ASS_MUL | EXP_ASS_DIV | EXP_ASS_MOD | EXP_ASS_ADD | EXP_ASS_SUB
  | EXP_ASS_SHL | EXP_ASS_SHR | EXP_ASS_USHR
  | EXP_ASS_BITAND | EXP_ASS_BITXOR | EXP_ASS_BITOR
  | EXP_COMMA | EXP_VAR
  | STM_BLOCK | STM_EMPTY | STM_VAR | STM_IF | STM_DO | STM_WHILE
  | STM_FOR | STM_FOR_VAR | STM_FOR_IN | STM_FOR_IN_VAR
  | STM_CONTINUE | STM_BREAK | STM_RETURN | STM_WITH | STM_SWITCH | STM_THROW
  | STM_TRY | STM_DEBUGGER | STM_LABEL | STM_CASE | STM_DEFAULT
deriving DecidableEq, Repr

/-- A pointer `js_Ast *`: the null pointer, or a node with its kind, line, four
child slots, numeric payload and string payload (`none` for `NULL`). -/
inductive js_Ast where
  | NULL
  | node (type : js_AstType) (line : Nat) (a b c d : js_Ast) (number : Dbl)
      (string : Option String)
deriving DecidableEq

namespace js_Ast

/-- The test `if (p)` on a pointer. -/
def isNull : js_Ast → Bool
  | NULL => true
  | _ => false

/-- The field `node->type`. -/
def type? : js_Ast → Option js_AstType
  | NULL => none
  | node t _ _ _ _ _ _ _ => some t

/-- The field `node->line`. -/
def line? : js_Ast → Option Nat
  | NULL => none
  | node _ l _ _ _ _ _ _ => some l

/-- The field `node->a`. -/
def a : js_Ast → js_Ast
  | NULL => NULL
  | node _ _ x _ _ _ _ _ => x

/-- The field `node->b`. -/
def b : js_Ast → js_Ast
  | NULL => NULL
  | node _ _ _ x _ _ _ _ => x

/-- The field `node->c`. -/
def c : js_Ast → js_Ast
  | NULL => NULL
  | node _ _ _ _ x _ _ _ => x

/-- The field `node->d`. -/
def d : js_Ast → js_Ast
  | NULL => NULL
  | node _ _ _ _ _ x _ _ => x

/-- The field `node->number`. -/
def number : js_Ast → Dbl
  | NULL => Dbl.fin 0
  | node _ _ _ _ _ _ n _ => n

/-- The field `node->string`. -/
def string : js_Ast → Option String
  | NULL => none
  | node _ _ _ _ _ _ _ s => s

/-- The assignment `node->type = t`. -/
def setType (p : js_Ast) (t : js_AstType) : js_Ast :=
  match p with
  | NULL => NULL
  | node _ l a b c d n s => node t l a b c d n s

/-- The assignment `node->b = x`. -/
def setB (p : js_Ast) (x : js_Ast) : js_Ast :=
  match p with
  | NULL => NULL
  | node t l a _ c d n s => node t l a x c d n s

/-- The assignment `node->number = x`. -/
def setNumber (p : js_Ast) (x : Dbl) : js_Ast :=
  match p with
  | NULL => NULL
  | node t l a b c d _ s => node t l a b c d x s

/-- The assignment `node->string = s`. -/
def setString (p : js_Ast) (s : String) : js_Ast :=
  match p with
  | NULL => NULL
  | node t l a b c d n _ => node t l a b c d n (some s)

/-- A node as `jsP_newnode` fills it: the given kind, line and children,
`number = 0` and `string = NULL`. -/
def new (t : js_AstType) (line : Nat) (a b c d : js_Ast) : js_Ast :=
  node t line a b c d (Dbl.fin 0) none

/-- A node as `jsP_newnumnode` fills it. -/
def numnode (t : js_AstType) (line : Nat) (x : Dbl) : js_Ast :=
  node t line NULL NULL NULL NULL x none

/-- A node as `jsP_newstrnode` fills it. -/
def strnode (t : js_AstType) (line : Nat) (s : String) : js_Ast :=
  node t line NULL NULL NULL NULL (Dbl.fin 0) (some s)

end js_Ast

/-! ## The parser state -/

/-- The fields of `js_State` used by the parser, the input that the token
source has not delivered yet (`source`), and the lines written to the
diagnostic stream (`stderr`). -/
structure js_State where
  filename : String
  source : List Token
  lexline : Nat
  astline : Nat
  lookahead : Tok
  text : String
  number : Dbl
  newline : Bool
  strict : Bool
  stderr : List String
deriving DecidableEq

/-- The outcome of a parse function: a value and the state after it, the
syntax error raised by `jsP_error`, or `nofuel` when the depth bound of `run`
is reached. -/
inductive Res (α : Type) where
  | ok (val : α) (J : js_State)
  | error (msg : String)
  | nofuel
deriving DecidableEq

/-- A function taking `js_State *J`. -/
def P (α : Type) : Type := js_State → Res α

/-- Sequencing: run `x`, then `f` on its value, unless `x` raised. -/
def P.bind {α β : Type} (x : P α) (f : α → P β) : P β := fun J =>
  match x J with
  | .ok v J1 => f v J1
  | .error m => .error m
  | .nofuel => .nofuel

/-- Return a value, leaving `J` as it is. -/
def P.pure {α : Type} (v : α) : P α := fun J => .ok v J

instance : Monad P where
  pure := P.pure
  bind := P.bind

/-- Read `J`. -/
def getJ : P js_State := fun J => .ok J J

/-- Modelled from the spec: `jsY_lex` of the token source "discards current
lookahead, computes the next one, updates current line and newline-preceded
flag"; it returns the token kind.  Past the end of the input it keeps
returning end-of-input. -/
def jsY_lex : P Tok := fun J =>
  match J.source with
  | [] => .ok Tok.EOF { J with newline := false }
  | t :: ts => .ok t.kind
      { J with source := ts, text := t.text, number := t.number,
               lexline := t.line, newline := t.newline }

/-- Modelled from the spec: `jsY_initlex` "initializes the token source over a
filename+text pair". -/
def jsY_initlex (filename : String) (source : List Token) : P Unit := fun J =>
  .ok () { J with filename := filename, source := source }

/-- The text that `snprintf(buf, 256, ...)` and `vsnprintf(msgbuf, 256, ...)`
store for the formatted text `s`: its first 255 characters.  A C string is a
`String` with one character for each `char`. -/
def snprintf256 (s : String) : String := ⟨s.data.take 255⟩

/-- The function `jsP_error`, called with the formatted text `msg`: it cuts the
text to `msgbuf`, cuts the prefix `<file>:<line>: ` to `buf`, appends `msgbuf`
to `buf` and raises the syntax error with that message. -/
def jsP_error {α : Type} (msg : String) : P α := fun J =>
  let msgbuf := snprintf256 msg
  let buf := snprintf256 (J.filename ++ ":" ++ toString J.lexline ++ ": ")
  .error (buf ++ msgbuf)

/-- The function `jsP_warning`: write the warning to the diagnostic stream. -/
def jsP_warning (msg : String) : P Unit := fun J =>
  .ok () { J with stderr := J.stderr ++
    [J.filename ++ ":" ++ toString J.lexline ++ ": warning: " ++ msg] }

/-- The function `jsP_newnode`: a node of the given kind and children, stamped
with `J->astline`, with `number = 0` and `string = NULL`. -/
def jsP_newnode (type : js_AstType) (a b c d : js_Ast) : P js_Ast := fun J =>
  .ok (js_Ast.new type J.astline a b c d) J

/-- The function `jsP_list`: it only sets parent pointers and returns `head`. -/
def jsP_list (head : js_Ast) : js_Ast := head

/-- The function `jsP_newstrnode`. -/
def jsP_newstrnode (type : js_AstType) (s : String) : P js_Ast := do
  let node ← jsP_newnode type .NULL .NULL .NULL .NULL
  pure (node.setString s)

/-- The function `jsP_newnumnode`. -/
def jsP_newnumnode (type : js_AstType) (n : Dbl) : P js_Ast := do
  let node ← jsP_newnode type .NULL .NULL .NULL .NULL
  pure (node.setNumber n)

/-- The macro `LIST(h)`. -/
def LIST (h : js_Ast) : P js_Ast := jsP_newnode .AST_LIST h .NULL .NULL .NULL

/-- The macros `EXP0(x)` and `STM0(x)`. -/
def EXP0 (x : js_AstType) : P js_Ast := jsP_newnode x .NULL .NULL .NULL .NULL

/-- The macros `EXP1(x,a)` and `STM1(x,a)`. -/
def EXP1 (x : js_AstType) (a : js_Ast) : P js_Ast := jsP_newnode x a .NULL .NULL .NULL

/-- The macros `EXP2(x,a,b)` and `STM2(x,a,b)`. -/
def EXP2 (x : js_AstType) (a b : js_Ast) : P js_Ast := jsP_newnode x a b .NULL .NULL

/-- The macros `EXP3(x,a,b,c)` and `STM3(x,a,b,c)`. -/
def EXP3 (x : js_AstType) (a b c : js_Ast) : P js_Ast := jsP_newnode x a b c .NULL

/-- The macro `STM4(x,a,b,c,d)`. -/
def STM4 (x : js_AstType) (a b c d : js_Ast) : P js_Ast := jsP_newnode x a b c d

/-! ## Lookahead -/

/-- The function `jsP_next`. -/
def jsP_next : P Unit := fun J =>
  match jsY_lex { J with astline := J.lexline } with
  | .ok t J1 => .ok () { J1 with lookahead := t }
  | .error m => .error m
  | .nofuel => .nofuel

/-- The function `jsP_accept`. -/
def jsP_accept (x : Tok) : P Bool := fun J =>
  if J.lookahead = x then
    match jsP_next J with
    | .ok _ J1 => .ok true J1
    | .error m => .error m
    | .nofuel => .nofuel
  else .ok false J

/-- The function `jsP_expect`. -/
def jsP_expect (x : Tok) : P Unit := do
  if !(← jsP_accept x) then
    let J ← getJ
    jsP_error ("unexpected token: " ++ jsY_tokenstring J.lookahead ++
      " (expected " ++ jsY_tokenstring x ++ ")")

/-- The function `jsP_semicolon`. -/
def jsP_semicolon : P Unit := do
  let J ← getJ
  if J.lookahead = Tok.SEMI then
    jsP_next
  else if J.newline || J.lookahead = Tok.RBRACE || J.lookahead = Tok.EOF then
    pure ()
  else
    jsP_error ("unexpected token: " ++ jsY_tokenstring J.lookahead ++ " (expected ';')")

/-! ## Recursion between the parse functions

The functions declared ahead in `jsparse.c` (`expression`, `assignment`,
`memberexp`, `statement`, `funbody`), the functions that call themselves and
the back edge of every loop are reached through a handle `R : Rec`; every
other call is direct. -/

/-- The recursive entry points: forward-declared functions, self-recursive
functions, and one entry per loop (a loop entry carries the loop variables). -/
inductive Fn where
  | expression (notin : Bool)
  | assignment (notin : Bool)
  | memberexp
  | statement
  | funbody
  | unary
  | logand (notin : Bool)
  | logor (notin : Bool)
  | arrayliteral_loop
  | objectliteral_loop
  | parameters_loop
  | arguments_loop
  | memberexp_loop (a : js_Ast)
  | callexp_loop (a : js_Ast)
  | multiplicative_loop (a : js_Ast)
  | additive_loop (a : js_Ast)
  | shift_loop (a : js_Ast)
  | relational_loop (notin : Bool) (a : js_Ast)
  | equality_loop (notin : Bool) (a : js_Ast)
  | bitand_loop (notin : Bool) (a : js_Ast)
  | bitxor_loop (notin : Bool) (a : js_Ast)
  | bitor_loop (notin : Bool) (a : js_Ast)
  | expression_loop (notin : Bool) (a : js_Ast)
  | vardeclist_loop (notin : Bool)
  | statementlist_loop
  | caselist_loop
  | script_loop (terminator : Tok)

/-- The handle through which a parse function calls a recursive entry point. -/
abbrev Rec : Type := Fn → P js_Ast

/-! ## Literals -/

/-- The table `futurewords`. -/
def futurewords : List String :=
  ["class", "const", "enum", "export", "extends", "super"]

/-- The table `strictfuturewords`. -/
def strictfuturewords : List String :=
  ["implements", "interface", "let", "package", "private", "protected",
   "public", "static", "yield"]

/-- Modelled from the spec: `jsY_findword(s, list, n) >= 0` of the lexer, the
search of a word in a word list ("checked against two word lists"). -/
def jsY_findword (s : String) (list : List String) : Bool := list.contains s

/-- The function `checkfutureword`. -/
def checkfutureword (s : String) : P Unit := do
  let J ← getJ
  if jsY_findword s futurewords then
    jsP_error ("'" ++ s ++ "' is a future reserved word")
  else if J.strict && jsY_findword s strictfuturewords then
    jsP_error ("'" ++ s ++ "' is a strict mode future reserved word")
  else
    pure ()

/-- The function `identifier`. -/
def identifier : P js_Ast := do
  let J ← getJ
  if J.lookahead = Tok.TK_IDENTIFIER then
    checkfutureword J.text
    let a ← jsP_newstrnode .AST_IDENTIFIER J.text
    jsP_next
    pure a
  else
    jsP_error ("unexpected token: " ++ jsY_tokenstring J.lookahead ++
      " (expected identifier)")

/-- The function `identifieropt`. -/
def identifieropt : P js_Ast := do
  let J ← getJ
  if J.lookahead = Tok.TK_IDENTIFIER then identifier else pure .NULL

/-- The function `identifiername`. -/
def identifiername : P js_Ast := do
  let J ← getJ
  if J.lookahead = Tok.TK_IDENTIFIER || J.lookahead.isKeyword then
    let a ← jsP_newstrnode .AST_IDENTIFIER J.text
    jsP_next
    pure a
  else
    jsP_error ("unexpected token: " ++ jsY_tokenstring J.lookahead ++
      " (expected identifier or keyword)")

/-- The function `arrayelement`. -/
def arrayelement (R : Rec) : P js_Ast := do
  let J ← getJ
  if J.lookahead = Tok.COMMA then EXP0 .EXP_UNDEF else R (.assignment false)

/-- The loop of `arrayliteral`; it returns the cells linked after `tail`. -/
def arrayliteral_loop (R : Rec) : P js_Ast := do
  if (← jsP_accept Tok.COMMA) then
    let J ← getJ
    if J.lookahead ≠ Tok.RBRACK then
      let e ← arrayelement R
      let cell ← LIST e
      let rest ← R .arrayliteral_loop
      pure (cell.setB rest)
    else
      R .arrayliteral_loop
  else
    pure .NULL

/-- The function `arrayliteral`. -/
def arrayliteral (R : Rec) : P js_Ast := do
  let J ← getJ
  if J.lookahead = Tok.RBRACK then
    pure .NULL
  else
    let e ← arrayelement R
    let head ← LIST e
    let rest ← arrayliteral_loop R
    pure (jsP_list (head.setB rest))

/-- The function `propname`. -/
def propname : P js_Ast := do
  let J ← getJ
  if J.lookahead = Tok.TK_NUMBER then
    let name ← jsP_newnumnode .EXP_NUMBER J.number
    jsP_next
    pure name
  else if J.lookahead = Tok.TK_STRING then
    let name ← jsP_newstrnode .EXP_STRING J.text
    jsP_next
    pure name
  else
    identifiername

/-- The function `parameters`, its loop first. -/
def parameters_loop (R : Rec) : P js_Ast := do
  if (← jsP_accept Tok.COMMA) then
    let e ← identifier
    let cell ← LIST e
    let rest ← R .parameters_loop
    pure (cell.setB rest)
  else
    pure .NULL

/-- The function `parameters`. -/
def parameters (R : Rec) : P js_Ast := do
  let J ← getJ
  if J.lookahead = Tok.RPAREN then
    pure .NULL
  else
    let e ← identifier
    let head ← LIST e
    let rest ← parameters_loop R
    pure (jsP_list (head.setB rest))

/-- The function `propassign`. -/
def propassign (R : Rec) : P js_Ast := do
  let name ← propname
  let J ← getJ
  if J.lookahead ≠ Tok.COLON ∧ name.type? = some .AST_IDENTIFIER ∧
      name.string = some "get" then
    let name ← propname
    jsP_expect Tok.LPAREN
    jsP_expect Tok.RPAREN
    let body ← R .funbody
    EXP3 .EXP_PROP_GET name .NULL body
  else if J.lookahead ≠ Tok.COLON ∧ name.type? = some .AST_IDENTIFIER ∧
      name.string = some "set" then
    let name ← propname
    jsP_expect Tok.LPAREN
    let arg ← identifier
    jsP_expect Tok.RPAREN
    let body ← R .funbody
    let l ← LIST arg
    EXP3 .EXP_PROP_SET name l body
  else
    jsP_expect Tok.COLON
    let value ← R (.assignment false)
    EXP2 .EXP_PROP_VAL name value

/-- The loop of `objectliteral`; it returns the cells linked after `tail`. -/
def objectliteral_loop (R : Rec) : P js_Ast := do
  let c1 ← jsP_accept Tok.COMMA
  let c2 ← if c1 then pure true else jsP_accept Tok.SEMI
  let J ← getJ
  if c2 || J.newline then
    if J.lookahead = Tok.RBRACE then
      pure .NULL
    else
      let e ← propassign R
      let cell ← LIST e
      let rest ← R .objectliteral_loop
      pure (cell.setB rest)
  else
    pure .NULL

/-- The function `objectliteral`. -/
def objectliteral (R : Rec) : P js_Ast := do
  let J ← getJ
  if J.lookahead = Tok.RBRACE then
    pure .NULL
  else
    let e ← propassign R
    let head ← LIST e
    let rest ← objectliteral_loop R
    pure (jsP_list (head.setB rest))

/-! ## Functions -/

/-- The function `fundec`. -/
def fundec (R : Rec) : P js_Ast := do
  let a ← identifier
  jsP_expect Tok.LPAREN
  let b ← parameters R
  jsP_expect Tok.RPAREN
  let c ← R .funbody
  jsP_newnode .AST_FUNDEC a b c .NULL

/-- The function `funstm`. -/
def funstm (R : Rec) : P js_Ast := do
  let a ← identifier
  jsP_expect Tok.LPAREN
  let b ← parameters R
  jsP_expect Tok.RPAREN
  let c ← R .funbody
  let f ← EXP3 .EXP_FUN a b c
  let v ← EXP2 .EXP_VAR a f
  let l ← LIST v
  EXP1 .STM_VAR l

/-- The function `funexp`. -/
def funexp (R : Rec) : P js_Ast := do
  let a ← identifieropt
  jsP_expect Tok.LPAREN
  let b ← parameters R
  jsP_expect Tok.RPAREN
  let c ← R .funbody
  EXP3 .EXP_FUN a b c

/-! ## Expressions -/

/-- The function `primary`. -/
def primary (R : Rec) : P js_Ast := do
  let J ← getJ
  if J.lookahead = Tok.TK_IDENTIFIER then
    checkfutureword J.text
    let a ← jsP_newstrnode .EXP_IDENTIFIER J.text
    jsP_next
    pure a
  else if J.lookahead = Tok.TK_STRING then
    let a ← jsP_newstrnode .EXP_STRING J.text
    jsP_next
    pure a
  else if J.lookahead = Tok.TK_REGEXP then
    let a ← jsP_newstrnode .EXP_REGEXP J.text
    let a := a.setNumber J.number
    jsP_next
    pure a
  else if J.lookahead = Tok.TK_NUMBER then
    let a ← jsP_newnumnode .EXP_NUMBER J.number
    jsP_next
    pure a
  else if (← jsP_accept Tok.TK_THIS) then EXP0 .EXP_THIS
  else if (← jsP_accept Tok.TK_NULL) then EXP0 .EXP_NULL
  else if (← jsP_accept Tok.TK_TRUE) then EXP0 .EXP_TRUE
  else if (← jsP_accept Tok.TK_FALSE) then EXP0 .EXP_FALSE
  else if (← jsP_accept Tok.LBRACE) then
    let l ← objectliteral R
    let a ← EXP1 .EXP_OBJECT l
    jsP_expect Tok.RBRACE
    pure a
  else if (← jsP_accept Tok.LBRACK) then
    let l ← arrayliteral R
    let a ← EXP1 .EXP_ARRAY l
    jsP_expect Tok.RBRACK
    pure a
  else if (← jsP_accept Tok.LPAREN) then
    let a ← R (.expression false)
    jsP_expect Tok.RPAREN
    pure a
  else
    let J ← getJ
    jsP_error ("unexpected token in expression: " ++ jsY_tokenstring J.lookahead)

/-- The loop of `arguments`; it returns the cells linked after `tail`. -/
def arguments_loop (R : Rec) : P js_Ast := do
  if (← jsP_accept Tok.COMMA) then
    let e ← R (.assignment false)
    let cell ← LIST e
    let rest ← R .arguments_loop
    pure (cell.setB rest)
  else
    pure .NULL

/-- The function `arguments`. -/
def arguments (R : Rec) : P js_Ast := do
  let J ← getJ
  if J.lookahead = Tok.RPAREN then
    pure .NULL
  else
    let e ← R (.assignment false)
    let head ← LIST e
    let rest ← arguments_loop R
    pure (jsP_list (head.setB rest))

/-- The function `newexp`. -/
def newexp (R : Rec) : P js_Ast := do
  if (← jsP_accept Tok.TK_NEW) then
    let a ← R .memberexp
    if (← jsP_accept Tok.LPAREN) then
      let b ← arguments R
      jsP_expect Tok.RPAREN
      EXP2 .EXP_NEW a b
    else
      EXP1 .EXP_NEW a
  else if (← jsP_accept Tok.TK_FUNCTION) then
    funexp R
  else
    primary R

/-- The loop of `memberexp` (label `loop`). -/
def memberexp_loop (R : Rec) (a : js_Ast) : P js_Ast := do
  if (← jsP_accept Tok.DOT) then
    let b ← identifiername
    let a ← EXP2 .EXP_MEMBER a b
    R (.memberexp_loop a)
  else if (← jsP_accept Tok.LBRACK) then
    let b ← R (.expression false)
    let a ← EXP2 .EXP_INDEX a b
    jsP_expect Tok.RBRACK
    R (.memberexp_loop a)
  else
    pure a

/-- The function `memberexp`. -/
def memberexp (R : Rec) : P js_Ast := do
  let a ← newexp R
  memberexp_loop R a

/-- The loop of `callexp` (label `loop`). -/
def callexp_loop (R : Rec) (a : js_Ast) : P js_Ast := do
  if (← jsP_accept Tok.DOT) then
    let b ← identifiername
    let a ← EXP2 .EXP_MEMBER a b
    R (.callexp_loop a)
  else if (← jsP_accept Tok.LBRACK) then
    let b ← R (.expression false)
    let a ← EXP2 .EXP_INDEX a b
    jsP_expect Tok.RBRACK
    R (.callexp_loop a)
  else if (← jsP_accept Tok.LPAREN) then
    let b ← arguments R
    let a ← EXP2 .EXP_CALL a b
    jsP_expect Tok.RPAREN
    R (.callexp_loop a)
  else
    pure a

/-- The function `callexp`. -/
def callexp (R : Rec) : P js_Ast := do
  let a ← newexp R
  callexp_loop R a

/-- The function `postfix` of `jsparse.c` (the word is reserved in Lean). -/
def postfixexp (R : Rec) : P js_Ast := do
  let a ← callexp R
  let J ← getJ
  if (← if !J.newline then jsP_accept Tok.TK_INC else pure false) then
    EXP1 .EXP_POSTINC a
  else
    let J ← getJ
    if (← if !J.newline then jsP_accept Tok.TK_DEC else pure false) then
      EXP1 .EXP_POSTDEC a
    else
      pure a

/-- The function `unary`. -/
def unary (R : Rec) : P js_Ast := do
  if (← jsP_accept Tok.TK_DELETE) then EXP1 .EXP_DELETE (← R .unary)
  else if (← jsP_accept Tok.TK_IMPORT) then EXP1 .EXP_IMPORT (← R .unary)
  else if (← jsP_accept Tok.TK_VOID) then EXP1 .EXP_VOID (← R .unary)
  else if (← jsP_accept Tok.TK_TYPEOF) then EXP1 .EXP_TYPEOF (← R .unary)
  else if (← jsP_accept Tok.TK_INC) then EXP1 .EXP_PREINC (← R .unary)
  else if (← jsP_accept Tok.TK_DEC) then EXP1 .EXP_PREDEC (← R .unary)
  else if (← jsP_accept Tok.PLUS) then EXP1 .EXP_POS (← R .unary)
  else if (← jsP_accept Tok.MINUS) then EXP1 .EXP_NEG (← R .unary)
  else if (← jsP_accept Tok.TILDE) then EXP1 .EXP_BITNOT (← R .unary)
  else if (← jsP_accept Tok.BANG) then EXP1 .EXP_LOGNOT (← R .unary)
  else postfixexp R

/-- The loop of `multiplicative` (label `loop`), entered with the left operand `a`. -/
def multiplicative_loop (R : Rec) (a : js_Ast) : P js_Ast := do
  if (← jsP_accept Tok.STAR) then
    let b ← unary R
    let a ← EXP2 .EXP_MUL a b
    R (.multiplicative_loop a)
  else if (← jsP_accept Tok.SLASH) then
    let b ← unary R
    let a ← EXP2 .EXP_DIV a b
    R (.multiplicative_loop a)
  else if (← jsP_accept Tok.PERCENT) then
    let b ← unary R
    let a ← EXP2 .EXP_MOD a b
    R (.multiplicative_loop a)
  else
    pure a

/-- The function `multiplicative`. -/
def multiplicative (R : Rec) : P js_Ast := do
  let a ← unary R
  multiplicative_loop R a

/-- The loop of `additive` (label `loop`), entered with the left operand `a`. -/
def additive_loop (R : Rec) (a : js_Ast) : P js_Ast := do
  if (← jsP_accept Tok.PLUS) then
    let b ← multiplicative R
    let a ← EXP2 .EXP_ADD a b
    R (.additive_loop a)
  else if (← jsP_accept Tok.MINUS) then
    let b ← multiplicative R
    let a ← EXP2 .EXP_SUB a b
    R (.additive_loop a)
  else
    pure a

/-- The function `additive`. -/
def additive (R : Rec) : P js_Ast := do
  let a ← multiplicative R
  additive_loop R a

/-- The loop of `shift` (label `loop`), entered with the left operand `a`. -/
def shift_loop (R : Rec) (a : js_Ast) : P js_Ast := do
  if (← jsP_accept Tok.TK_SHL) then
    let b ← additive R
    let a ← EXP2 .EXP_SHL a b
    R (.shift_loop a)
  else if (← jsP_accept Tok.TK_SHR) then
    let b ← additive R
    let a ← EXP2 .EXP_SHR a b
    R (.shift_loop a)
  else if (← jsP_accept Tok.TK_USHR) then
    let b ← additive R
    let a ← EXP2 .EXP_USHR a b
    R (.shift_loop a)
  else
    pure a

/-- The function `shift`. -/
def shift (R : Rec) : P js_Ast := do
  let a ← additive R
  shift_loop R a

/-- The loop of `relational` (label `loop`), entered with the left operand `a`. -/
def relational_loop (R : Rec) (notin : Bool) (a : js_Ast) : P js_Ast := do
  if (← jsP_accept Tok.LT) then
    let b ← shift R
    let a ← EXP2 .EXP_LT a b
    R (.relational_loop notin a)
  else if (← jsP_accept Tok.GT) then
    let b ← shift R
    let a ← EXP2 .EXP_GT a b
    R (.relational_loop notin a)
  else if (← jsP_accept Tok.TK_LE) then
    let b ← shift R
    let a ← EXP2 .EXP_LE a b
    R (.relational_loop notin a)
  else if (← jsP_accept Tok.TK_GE) then
    let b ← shift R
    let a ← EXP2 .EXP_GE a b
    R (.relational_loop notin a)
  else if (← jsP_accept Tok.TK_INSTANCEOF) then
    let b ← shift R
    let a ← EXP2 .EXP_INSTANCEOF a b
    R (.relational_loop notin a)
  else if (← if !notin then jsP_accept Tok.TK_IN else pure false) then
    let b ← shift R
    let a ← EXP2 .EXP_IN a b
    R (.relational_loop notin a)
  else
    pure a

/-- The function `relational`. -/
def relational (R : Rec) (notin : Bool) : P js_Ast := do
  let a ← shift R
  relational_loop R notin a

/-- The loop of `equality` (label `loop`), entered with the left operand `a`. -/
def equality_loop (R : Rec) (notin : Bool) (a : js_Ast) : P js_Ast := do
  if (← jsP_accept Tok.TK_EQ) then
    let b ← relational R notin
    let a ← EXP2 .EXP_EQ a b
    R (.equality_loop notin a)
  else if (← jsP_accept Tok.TK_NE) then
    let b ← relational R notin
    let a ← EXP2 .EXP_NE a b
    R (.equality_loop notin a)
  else if (← jsP_accept Tok.TK_STRICTEQ) then
    let b ← relational R notin
    let a ← EXP2 .EXP_STRICTEQ a b
    R (.equality_loop notin a)
  else if (← jsP_accept Tok.TK_STRICTNE) then
    let b ← relational R notin
    let a ← EXP2 .EXP_STRICTNE a b
    R (.equality_loop notin a)
  else
    pure a

/-- The function `equality`. -/
def equality (R : Rec) (notin : Bool) : P js_Ast := do
  let a ← relational R notin
  equality_loop R notin a

/-- The `while` loop of `bitand`, entered with the left operand `a`. -/
def bitand_loop (R : Rec) (notin : Bool) (a : js_Ast) : P js_Ast := do
  if (← jsP_accept Tok.AMP) then
    let b ← equality R notin
    let a ← EXP2 .EXP_BITAND a b
    R (.bitand_loop notin a)
  else
    pure a

/-- The function `bitand`. -/
def bitand (R : Rec) (notin : Bool) : P js_Ast := do
  let a ← equality R notin
  bitand_loop R notin a

/-- The `while` loop of `bitxor`, entered with the left operand `a`. -/
def bitxor_loop (R : Rec) (notin : Bool) (a : js_Ast) : P js_Ast := do
  if (← jsP_accept Tok.CARET) then
    let b ← bitand R notin
    let a ← EXP2 .EXP_BITXOR a b
    R (.bitxor_loop notin a)
  else
    pure a

/-- The function `bitxor`. -/
def bitxor (R : Rec) (notin : Bool) : P js_Ast := do
  let a ← bitand R notin
  bitxor_loop R notin a

/-- The `while` loop of `bitor`, entered with the left operand `a`. -/
def bitor_loop (R : Rec) (notin : Bool) (a : js_Ast) : P js_Ast := do
  if (← jsP_accept Tok.BAR) then
    let b ← bitxor R notin
    let a ← EXP2 .EXP_BITOR a b
    R (.bitor_loop notin a)
  else
    pure a

/-- The function `bitor`. -/
def bitor (R : Rec) (notin : Bool) : P js_Ast := do
  let a ← bitxor R notin
  bitor_loop R notin a

/-- The function `logand`. -/
def logand (R : Rec) (notin : Bool) : P js_Ast := do
  let a ← bitor R notin
  if (← jsP_accept Tok.TK_AND) then
    let b ← R (.logand notin)
    EXP2 .EXP_LOGAND a b
  else
    pure a

/-- The function `logor`. -/
def logor (R : Rec) (notin : Bool) : P js_Ast := do
  let a ← logand R notin
  if (← jsP_accept Tok.TK_OR) then
    let b ← R (.logor notin)
    EXP2 .EXP_LOGOR a b
  else
    pure a

/-- The function `conditional`. -/
def conditional (R : Rec) (notin : Bool) : P js_Ast := do
  let a ← logor R notin
  if (← jsP_accept Tok.QUESTION) then
    let b ← R (.assignment false)
    jsP_expect Tok.COLON
    let c ← R (.assignment notin)
    EXP3 .EXP_COND a b c
  else
    pure a

/-- The function `assignment`. -/
def assignment (R : Rec) (notin : Bool) : P js_Ast := do
  let a ← conditional R notin
  if (← jsP_accept Tok.ASSIGN) then EXP2 .EXP_ASS a (← R (.assignment notin))
  else if (← jsP_accept Tok.TK_MUL_ASS) then EXP2 .EXP_ASS_MUL a (← R (.assignment notin))
  else if (← jsP_accept Tok.TK_DIV_ASS) then EXP2 .EXP_ASS_DIV a (← R (.assignment notin))
  else if (← jsP_accept Tok.TK_MOD_ASS) then EXP2 .EXP_ASS_MOD a (← R (.assignment notin))
  else if (← jsP_accept Tok.TK_ADD_ASS) then EXP2 .EXP_ASS_ADD a (← R (.assignment notin))
  else if (← jsP_accept Tok.TK_SUB_ASS) then EXP2 .EXP_ASS_SUB a (← R (.assignment notin))
  else if (← jsP_accept Tok.TK_SHL_ASS) then EXP2 .EXP_ASS_SHL a (← R (.assignment notin))
  else if (← jsP_accept Tok.TK_SHR_ASS) then EXP2 .EXP_ASS_SHR a (← R (.assignment notin))
  else if (← jsP_accept Tok.TK_USHR_ASS) then EXP2 .EXP_ASS_USHR a (← R (.assignment notin))
  else if (← jsP_accept Tok.TK_AND_ASS) then EXP2 .EXP_ASS_BITAND a (← R (.assignment notin))
  else if (← jsP_accept Tok.TK_XOR_ASS) then EXP2 .EXP_ASS_BITXOR a (← R (.assignment notin))
  else if (← jsP_accept Tok.TK_OR_ASS) then EXP2 .EXP_ASS_BITOR a (← R (.assignment notin))
  else pure a

/-- The `while` loop of `expression`, entered with the left operand `a`. -/
def expression_loop (R : Rec) (notin : Bool) (a : js_Ast) : P js_Ast := do
  if (← jsP_accept Tok.COMMA) then
    let b ← assignment R notin
    let a ← EXP2 .EXP_COMMA a b
    R (.expression_loop notin a)
  else
    pure a

/-- The function `expression`. -/
def expression (R : Rec) (notin : Bool) : P js_Ast := do
  let a ← assignment R notin
  expression_loop R notin a

/-! ## Statements -/

/-- The function `vardec`. -/
def vardec (R : Rec) (notin : Bool) : P js_Ast := do
  let a ← identifier
  if (← jsP_accept Tok.ASSIGN) then
    let b ← assignment R notin
    EXP2 .EXP_VAR a b
  else
    EXP1 .EXP_VAR a

/-- The loop of `vardeclist`; it returns the cells linked after `tail`. -/
def vardeclist_loop (R : Rec) (notin : Bool) : P js_Ast := do
  if (← jsP_accept Tok.COMMA) then
    let e ← vardec R notin
    let cell ← LIST e
    let rest ← R (.vardeclist_loop notin)
    pure (cell.setB rest)
  else
    pure .NULL

/-- The function `vardeclist`. -/
def vardeclist (R : Rec) (notin : Bool) : P js_Ast := do
  let e ← vardec R notin
  let head ← LIST e
  let rest ← vardeclist_loop R notin
  pure (jsP_list (head.setB rest))

/-- The loop of `statementlist`; it returns the cells linked after `tail`. -/
def statementlist_loop (R : Rec) : P js_Ast := do
  let J ← getJ
  if J.lookahead ≠ Tok.RBRACE ∧ J.lookahead ≠ Tok.TK_CASE ∧
      J.lookahead ≠ Tok.TK_DEFAULT then
    let e ← R .statement
    let cell ← LIST e
    let rest ← R .statementlist_loop
    pure (cell.setB rest)
  else
    pure .NULL

/-- The function `statementlist`. -/
def statementlist (R : Rec) : P js_Ast := do
  let J ← getJ
  if J.lookahead = Tok.RBRACE ∨ J.lookahead = Tok.TK_CASE ∨
      J.lookahead = Tok.TK_DEFAULT then
    pure .NULL
  else
    let e ← R .statement
    let head ← LIST e
    let rest ← statementlist_loop R
    pure (jsP_list (head.setB rest))

/-- The function `caseclause`. -/
def caseclause (R : Rec) : P js_Ast := do
  if (← jsP_accept Tok.TK_CASE) then
    let a ← expression R false
    jsP_expect Tok.COLON
    let b ← statementlist R
    EXP2 .STM_CASE a b
  else if (← jsP_accept Tok.TK_DEFAULT) then
    jsP_expect Tok.COLON
    let a ← statementlist R
    EXP1 .STM_DEFAULT a
  else
    let J ← getJ
    jsP_error ("unexpected token in switch: " ++ jsY_tokenstring J.lookahead ++
      " (expected 'case' or 'default')")

/-- The loop of `caselist`; it returns the cells linked after `tail`. -/
def caselist_loop (R : Rec) : P js_Ast := do
  let J ← getJ
  if J.lookahead ≠ Tok.RBRACE then
    let e ← caseclause R
    let cell ← LIST e
    let rest ← R .caselist_loop
    pure (cell.setB rest)
  else
    pure .NULL

/-- The function `caselist`. -/
def caselist (R : Rec) : P js_Ast := do
  let J ← getJ
  if J.lookahead = Tok.RBRACE then
    pure .NULL
  else
    let e ← caseclause R
    let head ← LIST e
    let rest ← caselist_loop R
    pure (jsP_list (head.setB rest))

/-- The function `block`. -/
def block (R : Rec) : P js_Ast := do
  jsP_expect Tok.LBRACE
  let a ← statementlist R
  jsP_expect Tok.RBRACE
  EXP1 .STM_BLOCK a

/-- The function `forexpression`. -/
def forexpression (R : Rec) (end_ : Tok) : P js_Ast := do
  let J ← getJ
  let a ← if J.lookahead ≠ end_ then expression R false else pure .NULL
  jsP_expect end_
  pure a

/-- The function `forstatement`. -/
def forstatement (R : Rec) : P js_Ast := do
  jsP_expect Tok.LPAREN
  if (← jsP_accept Tok.TK_VAR) then
    let a ← vardeclist R true
    if (← jsP_accept Tok.SEMI) then
      let b ← forexpression R Tok.SEMI
      let c ← forexpression R Tok.RPAREN
      let d ← R .statement
      STM4 .STM_FOR_VAR a b c d
    else if (← jsP_accept Tok.TK_IN) then
      let b ← expression R false
      jsP_expect Tok.RPAREN
      let c ← R .statement
      EXP3 .STM_FOR_IN_VAR a b c
    else
      let J ← getJ
      jsP_error ("unexpected token in for-var-statement: " ++ jsY_tokenstring J.lookahead)
  else
    let J ← getJ
    let a ← if J.lookahead ≠ Tok.SEMI then expression R true else pure .NULL
    if (← jsP_accept Tok.SEMI) then
      let b ← forexpression R Tok.SEMI
      let c ← forexpression R Tok.RPAREN
      let d ← R .statement
      STM4 .STM_FOR a b c d
    else if (← jsP_accept Tok.TK_IN) then
      let b ← expression R false
      jsP_expect Tok.RPAREN
      let c ← R .statement
      EXP3 .STM_FOR_IN a b c
    else
      let J ← getJ
      jsP_error ("unexpected token in for-statement: " ++ jsY_tokenstring J.lookahead)

/-- The function `statement`. -/
def statement (R : Rec) : P js_Ast := do
  let J ← getJ
  if J.lookahead = Tok.LBRACE then
    block R
  else if (← jsP_accept Tok.TK_VAR) then
    let a ← vardeclist R false
    jsP_semicolon
    EXP1 .STM_VAR a
  else if (← jsP_accept Tok.SEMI) then
    EXP0 .STM_EMPTY
  else if (← jsP_accept Tok.TK_IF) then
    jsP_expect Tok.LPAREN
    let a ← expression R false
    jsP_expect Tok.RPAREN
    let b ← R .statement
    let c ← if (← jsP_accept Tok.TK_ELSE) then R .statement else pure .NULL
    EXP3 .STM_IF a b c
  else if (← jsP_accept Tok.TK_DO) then
    let a ← R .statement
    jsP_expect Tok.TK_WHILE
    jsP_expect Tok.LPAREN
    let b ← expression R false
    jsP_expect Tok.RPAREN
    jsP_semicolon
    EXP2 .STM_DO a b
  else if (← jsP_accept Tok.TK_WHILE) then
    jsP_expect Tok.LPAREN
    let a ← expression R false
    jsP_expect Tok.RPAREN
    let b ← R .statement
    EXP2 .STM_WHILE a b
  else if (← jsP_accept Tok.TK_FOR) then
    forstatement R
  else if (← jsP_accept Tok.TK_CONTINUE) then
    let a ← identifieropt
    jsP_semicolon
    EXP1 .STM_CONTINUE a
  else if (← jsP_accept Tok.TK_BREAK) then
    let a ← identifieropt
    jsP_semicolon
    EXP1 .STM_BREAK a
  else if (← jsP_accept Tok.TK_RETURN) then
    let J ← getJ
    let a ← if J.lookahead ≠ Tok.SEMI ∧ J.lookahead ≠ Tok.RBRACE ∧ J.lookahead ≠ Tok.EOF
      then expression R false else pure .NULL
    jsP_semicolon
    EXP1 .STM_RETURN a
  else if (← jsP_accept Tok.TK_WITH) then
    let J ← getJ
    if J.strict then
      jsP_error "'with' statements are not allowed in strict mode"
    else
      jsP_expect Tok.LPAREN
      let a ← expression R false
      jsP_expect Tok.RPAREN
      let b ← R .statement
      EXP2 .STM_WITH a b
  else if (← jsP_accept Tok.TK_SWITCH) then
    jsP_expect Tok.LPAREN
    let a ← expression R false
    jsP_expect Tok.RPAREN
    jsP_expect Tok.LBRACE
    let b ← caselist R
    jsP_expect Tok.RBRACE
    EXP2 .STM_SWITCH a b
  else if (← jsP_accept Tok.TK_THROW) then
    let a ← expression R false
    jsP_semicolon
    EXP1 .STM_THROW a
  else if (← jsP_accept Tok.TK_TRY) then
    let a ← block R
    let bc ← if (← jsP_accept Tok.TK_CATCH) then (do
        jsP_expect Tok.LPAREN
        let b ← identifier
        jsP_expect Tok.RPAREN
        let c ← block R
        pure (b, c))
      else pure (js_Ast.NULL, js_Ast.NULL)
    let d ← if (← jsP_accept Tok.TK_FINALLY) then block R else pure .NULL
    if bc.1.isNull && d.isNull then
      let J ← getJ
      jsP_error ("unexpected token in try: " ++ jsY_tokenstring J.lookahead ++
        " (expected 'catch' or 'finally')")
    else
      STM4 .STM_TRY a bc.1 bc.2 d
  else if (← jsP_accept Tok.TK_DEBUGGER) then
    jsP_semicolon
    EXP0 .STM_DEBUGGER
  else if (← jsP_accept Tok.TK_FUNCTION) then
    jsP_warning "function statements are not standard"
    funstm R
  else
    let J ← getJ
    if J.lookahead = Tok.TK_IDENTIFIER then
      let a ← expression R false
      if (← if a.type? = some .EXP_IDENTIFIER then jsP_accept Tok.COLON else pure false) then
        let a := a.setType .AST_IDENTIFIER
        let b ← R .statement
        EXP2 .STM_LABEL a b
      else
        jsP_semicolon
        pure a
    else
      let a ← expression R false
      jsP_semicolon
      pure a

/-! ## Program -/

/-- The function `scriptelement`. -/
def scriptelement (R : Rec) : P js_Ast := do
  if (← jsP_accept Tok.TK_FUNCTION) then fundec R else statement R

/-- The loop of `script`; it returns the cells linked after `tail`. -/
def script_loop (R : Rec) (terminator : Tok) : P js_Ast := do
  let J ← getJ
  if J.lookahead ≠ terminator then
    let e ← scriptelement R
    let cell ← LIST e
    let rest ← R (.script_loop terminator)
    pure (cell.setB rest)
  else
    pure .NULL

/-- The function `script`. -/
def script (R : Rec) (terminator : Tok) : P js_Ast := do
  let J ← getJ
  if J.lookahead = terminator then
    pure .NULL
  else
    let e ← scriptelement R
    let head ← LIST e
    let rest ← script_loop R terminator
    pure (jsP_list (head.setB rest))

/-- The function `funbody`. -/
def funbody (R : Rec) : P js_Ast := do
  jsP_expect Tok.LBRACE
  let a ← script R Tok.RBRACE
  jsP_expect Tok.RBRACE
  pure a

/-- One unfolding of the recursive entry points. -/
def step (R : Rec) : Rec
  | .expression notin => expression R notin
  | .assignment notin => assignment R notin
  | .memberexp => memberexp R
  | .statement => statement R
  | .funbody => funbody R
  | .unary => unary R
  | .logand notin => logand R notin
  | .logor notin => logor R notin
  | .arrayliteral_loop => arrayliteral_loop R
  | .objectliteral_loop => objectliteral_loop R
  | .parameters_loop => parameters_loop R
  | .arguments_loop => arguments_loop R
  | .memberexp_loop a => memberexp_loop R a
  | .callexp_loop a => callexp_loop R a
  | .multiplicative_loop a => multiplicative_loop R a
  | .additive_loop a => additive_loop R a
  | .shift_loop a => shift_loop R a
  | .relational_loop notin a => relational_loop R notin a
  | .equality_loop notin a => equality_loop R notin a
  | .bitand_loop notin a => bitand_loop R notin a
  | .bitxor_loop notin a => bitxor_loop R notin a
  | .bitor_loop notin a => bitor_loop R notin a
  | .expression_loop notin a => expression_loop R notin a
  | .vardeclist_loop notin => vardeclist_loop R notin
  | .statementlist_loop => statementlist_loop R
  | .caselist_loop => caselist_loop R
  | .script_loop terminator => script_loop R terminator

/-- The recursive entry points with recursion depth at most `fuel`. -/
def run : Nat → Rec
  | 0 => fun _ _ => .nofuel
  | fuel + 1 => step (run fuel)

/-! ## Constant folding -/

/-- A mathematical integer as a C `int`: its residue in `[-2^31, 2^31)`. -/
def wrap32 (n : Int) : Int :=
  let r := n % 4294967296
  if 2147483648 ≤ r then r - 4294967296 else r

/-- The function `toint32`. -/
def toint32 (d : Dbl) : Int :=
  let two32 := Dbl.fin 4294967296
  let two31 := Dbl.fin 2147483648
  if !d.isfinite || d.isZero then 0
  else
    let d := Dbl.fmod d two32
    let d := if Dbl.ge d (Dbl.fin 0) then Dbl.floor d else Dbl.add (Dbl.ceil d) two32
    if Dbl.ge d two31 then (Dbl.sub d two32).toInt else d.toInt

/-- The function `touint32`: the cast `(unsigned int)toint32(d)`. -/
def touint32 (d : Dbl) : Nat := (toint32 d % 4294967296).toNat

/-- The function `jsP_setnumnode`: the rewritten node and the returned `1`. -/
def jsP_setnumnode (node : js_Ast) (x : Dbl) : js_Ast × Bool :=
  match node with
  | .NULL => (.NULL, true)
  | .node _ line _ _ _ _ _ string =>
    (.node .EXP_NUMBER line .NULL .NULL .NULL .NULL x string, true)

/-- The function `jsP_foldconst`: the tree after folding and the returned
`int`.  The guards `node->a ? ... : 0` are the `NULL` case. -/
def jsP_foldconst : js_Ast → js_Ast × Bool
  | .NULL => (.NULL, false)
  | .node type line a b c d number string =>
    if type = .EXP_NUMBER then (.node type line a b c d number string, true)
    else
      let ra := jsP_foldconst a
      let rb := jsP_foldconst b
      let rc := jsP_foldconst c
      let rd := jsP_foldconst d
      let node := js_Ast.node type line ra.1 rb.1 rc.1 rd.1 number string
      if ra.2 then
        let x := ra.1.number
        match type with
        | .EXP_NEG => jsP_setnumnode node (Dbl.neg x)
        | .EXP_POS => jsP_setnumnode node x
        | .EXP_BITNOT => jsP_setnumnode node (Dbl.ofInt (-(toint32 x) - 1))
        | _ =>
          if rb.2 then
            let y := rb.1.number
            match type with
            | .EXP_MUL => jsP_setnumnode node (Dbl.mul x y)
            | .EXP_DIV => jsP_setnumnode node (Dbl.div x y)
            | .EXP_MOD => jsP_setnumnode node (Dbl.fmod x y)
            | .EXP_ADD => jsP_setnumnode node (Dbl.add x y)
            | .EXP_SUB => jsP_setnumnode node (Dbl.sub x y)
            | .EXP_SHL => jsP_setnumnode node
                (Dbl.ofInt (wrap32 (toint32 x * 2 ^ (touint32 y % 32))))
            | .EXP_SHR => jsP_setnumnode node
                (Dbl.ofInt (toint32 x >>> (touint32 y % 32)))
            | .EXP_USHR => jsP_setnumnode node
                (Dbl.ofInt ((touint32 x >>> (touint32 y % 32) : Nat) : Int))
            | .EXP_BITAND => jsP_setnumnode node
                (Dbl.ofInt (wrap32 ((touint32 x &&& touint32 y : Nat) : Int)))
            | .EXP_BITXOR => jsP_setnumnode node
                (Dbl.ofInt (wrap32 ((touint32 x ^^^ touint32 y : Nat) : Int)))
            | .EXP_BITOR => jsP_setnumnode node
                (Dbl.ofInt (wrap32 ((touint32 x ||| touint32 y : Nat) : Int)))
            | _ => (node, false)
          else (node, false)
      else (node, false)

/-! ## Main entry points -/

/-- The function `jsP_parse`, with recursion depth at most `fuel`. -/
def jsP_parse (fuel : Nat) (filename : String) (source : List Token) : P js_Ast := do
  jsY_initlex filename source
  jsP_next
  let p ← script (run fuel) Tok.EOF
  if !p.isNull then pure (jsP_foldconst p).1 else pure p

/-- The function `jsP_parsefunction`; `params = none` is the null pointer. -/
def jsP_parsefunction (fuel : Nat) (filename : String) (params : Option (List Token))
    (body : List Token) : P js_Ast := do
  let p ← match params with
    | some ps => (do
        jsY_initlex filename ps
        jsP_next
        parameters (run fuel))
    | none => pure .NULL
  let b ← jsP_parse fuel filename body
  EXP3 .EXP_FUN .NULL p b

/-! ## Statements about runs -/

/-- The state after `jsP_next`: `astline` takes the old `lexline` and the
lookahead is the next token of the source (end-of-input when it is exhausted). -/
def nextState (J : js_State) : js_State :=
  match J.source with
  | [] => { J with astline := J.lexline, newline := false, lookahead := Tok.EOF }
  | t :: ts =>
    { J with astline := J.lexline, source := ts, text := t.text, number := t.number,
             lexline := t.line, newline := t.newline, lookahead := t.kind }

/-- The parse function `F` run from state `J` has the outcome `r`: it does so
for every large enough bound on the recursion depth. -/
def Yields {α : Type} (F : Rec → P α) (J : js_State) (r : Res α) : Prop :=
  ∃ n, ∀ m, n ≤ m → F (run m) J = r

/-- The binary operator tokens of the ten precedence levels, multiplicative (1)
to logical OR (10), each with the node kind its level builds for it; `in` is
an operator only when `notin` is clear. -/
def binop (notin : Bool) : Tok → Option (Nat × js_AstType)
  | .STAR => some (1, .EXP_MUL)
  | .SLASH => some (1, .EXP_DIV)
  | .PERCENT => some (1, .EXP_MOD)
  | .PLUS => some (2, .EXP_ADD)
  | .MINUS => some (2, .EXP_SUB)
  | .TK_SHL => some (3, .EXP_SHL)
  | .TK_SHR => some (3, .EXP_SHR)
  | .TK_USHR => some (3, .EXP_USHR)
  | .LT => some (4, .EXP_LT)
  | .GT => some (4, .EXP_GT)
  | .TK_LE => some (4, .EXP_LE)
  | .TK_GE => some (4, .EXP_GE)
  | .TK_INSTANCEOF => some (4, .EXP_INSTANCEOF)
  | .TK_IN => if notin then none else some (4, .EXP_IN)
  | .TK_EQ => some (5, .EXP_EQ)
  | .TK_NE => some (5, .EXP_NE)
  | .TK_STRICTEQ => some (5, .EXP_STRICTEQ)
  | .TK_STRICTNE => some (5, .EXP_STRICTNE)
  | .AMP => some (6, .EXP_BITAND)
  | .CARET => some (7, .EXP_BITXOR)
  | .BAR => some (8, .EXP_BITOR)
  | .TK_AND => some (9, .EXP_LOGAND)
  | .TK_OR => some (10, .EXP_LOGOR)
  | _ => none

/-- The assignment operator tokens, each with the node kind `assignment` builds. -/
def assignop : Tok → Option js_AstType
  | .ASSIGN => some .EXP_ASS
  | .TK_MUL_ASS => some .EXP_ASS_MUL
  | .TK_DIV_ASS => some .EXP_ASS_DIV
  | .TK_MOD_ASS => some .EXP_ASS_MOD
  | .TK_ADD_ASS => some .EXP_ASS_ADD
  | .TK_SUB_ASS => some .EXP_ASS_SUB
  | .TK_SHL_ASS => some .EXP_ASS_SHL
  | .TK_SHR_ASS => some .EXP_ASS_SHR
  | .TK_USHR_ASS => some .EXP_ASS_USHR
  | .TK_AND_ASS => some .EXP_ASS_BITAND
  | .TK_XOR_ASS => some .EXP_ASS_BITXOR
  | .TK_OR_ASS => some .EXP_ASS_BITOR
  | _ => none

/-- The parse function of a precedence level: `unary` (0), the ten binary
levels `multiplicative` (1) to `logor` (10), `conditional` (11), `assignment`
(12) and `expression` (13 and above). -/
def levelFn (notin : Bool) (k : Nat) : Rec → P js_Ast :=
  if k = 0 then fun R => unary R
  else if k = 1 then fun R => multiplicative R
  else if k = 2 then fun R => additive R
  else if k = 3 then fun R => shift R
  else if k = 4 then fun R => relational R notin
  else if k = 5 then fun R => equality R notin
  else if k = 6 then fun R => bitand R notin
  else if k = 7 then fun R => bitxor R notin
  else if k = 8 then fun R => bitor R notin
  else if k = 9 then fun R => logand R notin
  else if k = 10 then fun R => logor R notin
  else if k = 11 then fun R => conditional R notin
  else if k = 12 then fun R => assignment R notin
  else fun R => expression R notin

/-- The loop of a left-associating binary level (1 to 8), entered with the
left operand `a`. -/
def loopFn (notin : Bool) (k : Nat) : Rec → js_Ast → P js_Ast :=
  if k = 1 then fun R a => multiplicative_loop R a
  else if k = 2 then fun R a => additive_loop R a
  else if k = 3 then fun R a => shift_loop R a
  else if k = 4 then fun R a => relational_loop R notin a
  else if k = 5 then fun R a => equality_loop R notin a
  else if k = 6 then fun R a => bitand_loop R notin a
  else if k = 7 then fun R a => bitxor_loop R notin a
  else fun R a => bitor_loop R notin a

/-- A token that continues no expression: not a binary operator, `?`, an
assignment operator or `,`. -/
def endsExpression (notin : Bool) (t : Tok) : Prop :=
  binop notin t = none ∧ assignop t = none ∧ t ≠ Tok.QUESTION ∧ t ≠ Tok.COMMA

instance (notin : Bool) (t : Tok) : Decidable (endsExpression notin t) := by
  unfold endsExpression; infer_instance

/-- The tokens at which `unary` or `newexp` does not go on to `primary`: the
prefix operators, `new` and `function`. -/
def prefixTok : Tok → Bool
  | .TK_DELETE | .TK_IMPORT | .TK_VOID | .TK_TYPEOF | .TK_INC | .TK_DEC
  | .PLUS | .MINUS | .TILDE | .BANG | .TK_NEW | .TK_FUNCTION => true
  | _ => false

/-- A state in which no token after an operand continues it at the postfix
level: the lookahead is none of `.`, `[`, `(`, and it is `++` or `--` only
when preceded by a newline. -/
def endsOperand (J : js_State) : Prop :=
  J.lookahead ≠ Tok.DOT ∧ J.lookahead ≠ Tok.LBRACK ∧ J.lookahead ≠ Tok.LPAREN ∧
  (J.newline = true ∨ (J.lookahead ≠ Tok.TK_INC ∧ J.lookahead ≠ Tok.TK_DEC))

instance (J : js_State) : Decidable (endsOperand J) := by
  unfold endsOperand; infer_instance

/-! ## Example inputs -/

/-- A parser state before any input is attached. -/
def initState : js_State :=
  { filename := "", source := [], lexline := 0, astline := 0, lookahead := Tok.EOF,
    text := "", number := Dbl.fin 0, newline := false, strict := false, stderr := [] }

/-- The state in which `jsP_parse` calls `script` on the tokens `toks`. -/
def startOf (toks : List Token) : js_State :=
  nextState { initState with source := toks }

/-- A token without payload on line 1, not preceded by a newline. -/
def Token.of (k : Tok) : Token := ⟨k, "", Dbl.fin 0, 1, false⟩

/-- The number token of a literal of value `q` on line 1. -/
def Token.num (q : ℚ) : Token := ⟨Tok.TK_NUMBER, "", Dbl.fin q, 1, false⟩

/-- The identifier token `s` on line 1. -/
def Token.ident (s : String) : Token := ⟨Tok.TK_IDENTIFIER, s, Dbl.fin 0, 1, false⟩

/-- The same token on line 2, preceded by a newline. -/
def Token.nl (t : Token) : Token := { t with line := 2, newline := true }

/-- The state `J` has just taken its lookahead from the head of `toks`: it is
the state after `jsP_next` in a state whose source was `toks`. -/
def At (J : js_State) (toks : List Token) : Prop :=
  ∃ J0 : js_State, J0.source = toks ∧ J = nextState J0

/-- The tokens at which `statement` takes one of its keyword branches, a block,
an empty statement or the label test, instead of the plain expression statement. -/
def statementTok : Tok → Bool
  | .LBRACE | .TK_VAR | .SEMI | .TK_IF | .TK_DO | .TK_WHILE | .TK_FOR | .TK_CONTINUE
  | .TK_BREAK | .TK_RETURN | .TK_WITH | .TK_SWITCH | .TK_THROW | .TK_TRY | .TK_DEBUGGER
  | .TK_FUNCTION | .TK_IDENTIFIER => true
  | _ => false

/-- The tree `A` folds to the numeric literal `v`: `jsP_foldconst` returns 1
and leaves an `EXP_NUMBER` leaf of value `v`. -/
def FoldsTo (A : js_Ast) (v : ℚ) : Prop :=
  ∃ line, jsP_foldconst A = (js_Ast.numnode .EXP_NUMBER line (Dbl.fin v), true)

/-! ## Programs of integer literals with `+`, `-` and `*` -/

/-- The place of a token: its line and whether a newline precedes it. -/
structure Layout where
  line : Nat
  newline : Bool

/-- An integer literal and its place. -/
structure Lit where
  value : Nat
  place : Layout

/-- The number token of an integer literal. -/
def Lit.tok (l : Lit) : Token :=
  ⟨Tok.TK_NUMBER, "", Dbl.fin l.value, l.place.line, l.place.newline⟩

/-- An operator token at a place. -/
def opTok (k : Tok) (y : Layout) : Token := ⟨k, "", Dbl.fin 0, y.line, y.newline⟩

/-- A product `l0 * l1 * ... * lk` of literals; each `*` has its place. -/
structure Product where
  first : Lit
  rest : List (Layout × Lit)

/-- A sum `p0 ± p1 ± ... ± pk` of products; `true` is `+`, `false` is `-`. -/
structure Sum where
  first : Product
  rest : List ((Bool × Layout) × Product)

/-- The tokens `* l1 * ... * lk`. -/
def mulToks : List (Layout × Lit) → List Token
  | [] => []
  | (y, l) :: r => opTok Tok.STAR y :: l.tok :: mulToks r

/-- The tokens of a product. -/
def Product.toks (p : Product) : List Token := p.first.tok :: mulToks p.rest

/-- The tokens `± p1 ± ... ± pk`. -/
def addToks : List ((Bool × Layout) × Product) → List Token
  | [] => []
  | ((s, y), p) :: r => opTok (if s then Tok.PLUS else Tok.MINUS) y :: (p.toks ++ addToks r)

/-- The tokens of a sum: the whole program. -/
def Sum.toks (s : Sum) : List Token := s.first.toks ++ addToks s.rest

/-- The value of `acc * l1 * ... * lk`, multiplying from the left. -/
def mulRun (acc : Int) : List (Layout × Lit) → Int
  | [] => acc
  | (_, l) :: r => mulRun (acc * l.value) r

/-- The value of a product. -/
def Product.value (p : Product) : Int := mulRun p.first.value p.rest

/-- The value of `acc ± p1 ± ... ± pk`, adding from the left. -/
def addRun (acc : Int) : List ((Bool × Layout) × Product) → Int
  | [] => acc
  | ((s, _), p) :: r => addRun (if s then acc + p.value else acc - p.value) r

/-- The value of a sum under ordinary precedence and left associativity. -/
def Sum.value (s : Sum) : Int := addRun s.first.value s.rest

/-- Every literal and every intermediate product is at most `2 ^ 53`. -/
def mulExact (acc : Int) : List (Layout × Lit) → Prop
  | [] => True
  | (_, l) :: r => (l.value : Int) ≤ 2 ^ 53 ∧ acc * l.value ≤ 2 ^ 53 ∧ mulExact (acc * l.value) r

/-- Every value met while evaluating the product is exact as a double. -/
def Product.exact (p : Product) : Prop :=
  (p.first.value : Int) ≤ 2 ^ 53 ∧ mulExact p.first.value p.rest

/-- Every product is exact and every intermediate sum has magnitude at most `2 ^ 53`. -/
def addExact (acc : Int) : List ((Bool × Layout) × Product) → Prop
  | [] => True
  | ((s, _), p) :: r =>
    p.exact ∧ |if s then acc + p.value else acc - p.value| ≤ 2 ^ 53 ∧
      addExact (if s then acc + p.value else acc - p.value) r

/-- Every value met while evaluating the sum is exact as a double. -/
def Sum.exact (s : Sum) : Prop := s.first.exact ∧ addExact s.first.value s.rest

/-- The program `1 + 2 * 3` on one line. -/
def sum123 : Sum :=
  { first := { first := ⟨1, ⟨1, false⟩⟩, rest := [] },
    rest := [((true, ⟨1, false⟩),
      { first := ⟨2, ⟨1, false⟩⟩, rest := [(⟨1, false⟩, ⟨3, ⟨1, false⟩⟩)] })] }

/-- The tokens of `a op b op c` on one line. -/
def abc (op : Tok) : List Token :=
  [.ident "a", .of op, .ident "b", .of op, .ident "c"]

/-- The tokens of `return`, newline, `1`. -/
def returnNewline1 : List Token := [.of .TK_RETURN, (Token.num 1).nl]

/-- The state in which `jsP_parse "f.js"` calls `script` on the tokens `toks`,
starting from `initState`. -/
def startOfFile (toks : List Token) : js_State :=
  nextState { initState with filename := "f.js", source := toks }

/-- The tokens of `x`, newline, `++y`. -/
def xNewlineIncY : List Token := [.ident "x", (Token.of .TK_INC).nl, (Token.ident "y").nl]

/-- The initial clause of a `for` head without `var`, as `forstatement` reads
it: omitted (null) at `;`, otherwise an expression parsed with `notin` set. -/
def forInit (R : Rec) : P js_Ast := fun J =>
  if J.lookahead ≠ Tok.SEMI then expression R true J else .ok .NULL J

/-- The tokens of `for (;;) ;`. -/
def forEmpty : List Token :=
  [.of .TK_FOR, .of .LPAREN, .of .SEMI, .of .SEMI, .of .RPAREN, .of .SEMI]

/-- The tokens of `for (var i = 0; i < 10; i++) ;`. -/
def forVar : List Token :=
  [.of .TK_FOR, .of .LPAREN, .of .TK_VAR, .ident "i", .of .ASSIGN, .num 0, .of .SEMI,
   .ident "i", .of .LT, .num 10, .of .SEMI, .ident "i", .of .TK_INC, .of .RPAREN, .of .SEMI]

/-- The tokens of `for (var k in obj) ;`. -/
def forInVar : List Token :=
  [.of .TK_FOR, .of .LPAREN, .of .TK_VAR, .ident "k", .of .TK_IN, .ident "obj",
   .of .RPAREN, .of .SEMI]

/-- The state after `n` further calls of `jsP_next`. -/
def advance : Nat → js_State → js_State
  | 0, J => J
  | n + 1, J => nextState (advance n J)

/-- The tokens of `for (x in obj) ;`. -/
def forIn : List Token :=
  [.of .TK_FOR, .of .LPAREN, .ident "x", .of .TK_IN, .ident "obj", .of .RPAREN, .of .SEMI]

/-- The tokens of `for (var x )`. -/
def forVarBad : List Token := [.of .TK_FOR, .of .LPAREN, .of .TK_VAR, .ident "x", .of .RPAREN]

/-- The tokens of `for (x )`. -/
def forBad : List Token := [.of .TK_FOR, .of .LPAREN, .ident "x", .of .RPAREN]

/-- The tokens of `try { a(); }`. -/
def tryAlone : List Token :=
  [.of .TK_TRY, .of .LBRACE, .ident "a", .of .LPAREN, .of .RPAREN, .of .SEMI, .of .RBRACE]

/-- The tokens of `try {a();} catch(e){} finally{}`. -/
def tryBoth : List Token :=
  [.of .TK_TRY, .of .LBRACE, .ident "a", .of .LPAREN, .of .RPAREN, .of .SEMI, .of .RBRACE,
   .of .TK_CATCH, .of .LPAREN, .ident "e", .of .RPAREN, .of .LBRACE, .of .RBRACE,
   .of .TK_FINALLY, .of .LBRACE, .of .RBRACE]

/-- The tokens of `try {} catch(e){}`. -/
def tryCatch : List Token :=
  [.of .TK_TRY, .of .LBRACE, .of .RBRACE,
   .of .TK_CATCH, .of .LPAREN, .ident "e", .of .RPAREN, .of .LBRACE, .of .RBRACE]

/-- The tokens of `try {} finally{}`. -/
def tryFinally : List Token :=
  [.of .TK_TRY, .of .LBRACE, .of .RBRACE, .of .TK_FINALLY, .of .LBRACE, .of .RBRACE]

/-! ## Statements about constant folding -/

/-- The node is a numeric literal: a node (not the null pointer) of kind
`EXP_NUMBER`. -/
def js_Ast.isNumber (p : js_Ast) : Bool := decide (p.type? = some .EXP_NUMBER)

/-- The kinds `EXP_NEG`, `EXP_POS` and `EXP_BITNOT`. -/
def foldsUnary : js_AstType → Bool
  | .EXP_NEG | .EXP_POS | .EXP_BITNOT => true
  | _ => false

/-- The eleven binary arithmetic and bitwise kinds, `EXP_MUL` to `EXP_BITOR`. -/
def foldsBinary : js_AstType → Bool
  | .EXP_MUL | .EXP_DIV | .EXP_MOD | .EXP_ADD | .EXP_SUB | .EXP_SHL | .EXP_SHR
  | .EXP_USHR | .EXP_BITAND | .EXP_BITXOR | .EXP_BITOR => true
  | _ => false

/-- A kind over child slots `a` and `b` that calls for a rewrite: one of the
unary kinds over a numeric literal, or one of the binary kinds over two. -/
def foldable (t : js_AstType) (a b : js_Ast) : Bool :=
  (foldsUnary t && a.isNumber) || (foldsBinary t && a.isNumber && b.isNumber)

/-- No node of the tree has a foldable kind over numeric literals. -/
def js_Ast.folded : js_Ast → Bool
  | .NULL => true
  | .node t _ a b c d _ _ =>
    !foldable t a b && a.folded && b.folded && c.folded && d.folded

/-- Every `EXP_NUMBER` node of the tree has four null child slots. -/
def js_Ast.numLeaves : js_Ast → Bool
  | .NULL => true
  | .node t _ a b c d _ _ =>
    (t != .EXP_NUMBER || (a.isNull && b.isNull && c.isNull && d.isNull)) &&
      a.numLeaves && b.numLeaves && c.numLeaves && d.numLeaves

/-- The node that a loop entry carries as its left operand (null for the
other entries). -/
def Fn.arg : Fn → js_Ast
  | .memberexp_loop a | .callexp_loop a | .multiplicative_loop a | .additive_loop a
  | .shift_loop a | .relational_loop _ a | .equality_loop _ a | .bitand_loop _ a
  | .bitxor_loop _ a | .bitor_loop _ a | .expression_loop _ a => a
  | _ => .NULL

/-- Every tree that the parse function returns satisfies `Q`. -/
structure Post {α : Type} (Q : α → Prop) (F : P α) : Prop where
  out : ∀ J v J1, F J = .ok v J1 → Q v

/-- The conversion ToInt32 of ECMAScript, in the words of the standard: NaN,
the zeros and the infinities give 0; otherwise take the integer of the same
sign as the number and of magnitude `floor(abs(number))`, reduce it modulo
`2^32`, and subtract `2^32` when the residue is at least `2^31`. -/
def ToInt32 : Dbl → Int
  | .fin q =>
    let posInt : Int := (if q < 0 then -1 else 1) * ⌊|q|⌋
    let int32bit : Int := posInt % 2 ^ 32
    if 2 ^ 31 ≤ int32bit then int32bit - 2 ^ 32 else int32bit
  | _ => 0

/-- The tokens of `~0`. -/
def bitnotZero : List Token := [.of .TILDE, .num 0]

/-! ## Further example inputs -/

/-- The string token `s` on line 1. -/
def Token.str (s : String) : Token := ⟨Tok.TK_STRING, s, Dbl.fin 0, 1, false⟩

/-- The tokens of `a.class`. -/
def aDotClass : List Token := [.ident "a", .of .DOT, .ident "class"]

/-- The tokens of a bare `class`. -/
def bareClass : List Token := [.ident "class"]

/-- The tokens of `function f(){}`. -/
def funTop : List Token :=
  [.of .TK_FUNCTION, .ident "f", .of .LPAREN, .of .RPAREN, .of .LBRACE, .of .RBRACE]

/-- The tokens of the block `{ function f(){} }`. -/
def funInBlock : List Token :=
  [.of .LBRACE, .of .TK_FUNCTION, .ident "f", .of .LPAREN, .of .RPAREN, .of .LBRACE,
   .of .RBRACE, .of .RBRACE]

/-- The tokens of `function f(){ function g(){} }`. -/
def funInFun : List Token :=
  [.of .TK_FUNCTION, .ident "f", .of .LPAREN, .of .RPAREN, .of .LBRACE,
   .of .TK_FUNCTION, .ident "g", .of .LPAREN, .of .RPAREN, .of .LBRACE, .of .RBRACE,
   .of .RBRACE]

/-- The state after `jsP_warning` has written the warning of a function
statement. -/
def funWarned (J : js_State) : js_State :=
  { J with stderr := J.stderr ++
      [J.filename ++ ":" ++ toString J.lexline ++ ": warning: " ++
        "function statements are not standard"] }

/-- The tokens of `a + b : c`. -/
def sumColon : List Token := [.ident "a", .of .PLUS, .ident "b", .of .COLON, .ident "c"]

/-- The tokens of `L : x`. -/
def labelled : List Token := [.ident "L", .of .COLON, .ident "x"]

/-- The tokens of the property `get : 1`. -/
def getValue : List Token := [.ident "get", .of .COLON, .num 1]

/-- The tokens of the object literal `{get: 1}`. -/
def objGetValue : List Token := .of .LBRACE :: (getValue ++ [.of .RBRACE])

/-- The tokens of the accessor `get x(){}`. -/
def getter : List Token :=
  [.ident "get", .ident "x", .of .LPAREN, .of .RPAREN, .of .LBRACE, .of .RBRACE]

/-- The tokens of the accessor `set x(v){}`. -/
def setter : List Token :=
  [.ident "set", .ident "x", .of .LPAREN, .ident "v", .of .RPAREN, .of .LBRACE, .of .RBRACE]

/-- The tokens of `"get" x(){}`, a string-literal name where an accessor would
have `get`. -/
def strGetter : List Token :=
  [.str "get", .ident "x", .of .LPAREN, .of .RPAREN, .of .LBRACE, .of .RBRACE]

/-- The tokens of the property `"get" : 1`. -/
def strGetValue : List Token := [.str "get", .of .COLON, .num 1]

/-! ## Array literals of number literals and missing elements -/

/-- The tokens of one element position: a number literal, or nothing where
the element is missing. -/
def elemToks : Option ℚ → List Token
  | none => []
  | some q => [.num q]

/-- The tokens `, x1 , x2 ... , xn` of the positions after the first. -/
def restToks : List (Option ℚ) → List Token
  | [] => []
  | x :: r => .of .COMMA :: (elemToks x ++ restToks r)

/-- The tokens between `[` and `]` of the array literal whose element
positions are `x0` and then `rest`. -/
def arrayToks (x0 : Option ℚ) (rest : List (Option ℚ)) : List Token :=
  elemToks x0 ++ restToks rest

/-- The positions after the first that are given a cell: all of them, except
a missing element right before the closing bracket. -/
def restCells : List (Option ℚ) → List (Option ℚ)
  | [] => []
  | [none] => []
  | x :: r => x :: restCells r

/-- The positions of an array literal that are given a cell (none for `[]`). -/
def arrayCells (x0 : Option ℚ) (rest : List (Option ℚ)) : List (Option ℚ) :=
  if x0 = none ∧ rest = [] then [] else x0 :: restCells rest

/-- The kind and numeric payload expected of the cell of a position:
`EXP_UNDEF` for a missing element, the number literal otherwise. -/
def cellKind : Option ℚ → Option js_AstType × Dbl
  | none => (some .EXP_UNDEF, Dbl.fin 0)
  | some q => (some .EXP_NUMBER, Dbl.fin q)

/-- The elements of a list: the first child of each `AST_LIST` cell along the
chain of second children. -/
def js_Ast.elements : js_Ast → List js_Ast
  | .node .AST_LIST _ a b _ _ _ _ => a :: b.elements
  | _ => []

/-- The kind and numeric payload of each element of a list. -/
def js_Ast.elementKinds (l : js_Ast) : List (Option js_AstType × Dbl) :=
  l.elements.map fun e => (e.type?, e.number)

/-- The tokens of `[1,,2]`. -/
def array1Hole2 : List Token :=
  [.of .LBRACK, .num 1, .of .COMMA, .of .COMMA, .num 2, .of .RBRACK]

/-- The tokens of `[,1]`. -/
def arrayHole1 : List Token := [.of .LBRACK, .of .COMMA, .num 1, .of .RBRACK]

/-! ## Example inputs and notions for the later statements -/

/-- The tokens of `[1,]`. -/
def array1Comma : List Token := [.of .LBRACK, .num 1, .of .COMMA, .of .RBRACK]

/-- The tokens `, x1 , x2 ... , xn` of the parameter names after the first. -/
def paramRest : List String → List Token
  | [] => []
  | x :: r => .of .COMMA :: .ident x :: paramRest r

/-- The tokens of the parameter text `x0, x1, ..., xn`. -/
def paramToks (x0 : String) (rest : List String) : List Token :=
  .ident x0 :: paramRest rest

/-- The kind and string payload of each element of a list. -/
def js_Ast.elementNames (l : js_Ast) : List (Option js_AstType × Option String) :=
  l.elements.map fun e => (e.type?, e.string)

/-- A name that `checkfutureword` lets through in either mode. -/
def plainName (x : String) : Prop :=
  jsY_findword x futurewords = false ∧ jsY_findword x strictfuturewords = false

instance (x : String) : Decidable (plainName x) := by
  unfold plainName
  infer_instance

/-- The tokens of `x in obj`. -/
def xInObj : List Token := [.ident "x", .of .TK_IN, .ident "obj"]

/-- The tokens of `with (o) ;`. -/
def withStm : List Token :=
  [.of .TK_WITH, .of .LPAREN, .ident "o", .of .RPAREN, .of .SEMI]

/-- The tokens of `with }`. -/
def withBrace : List Token := [.of .TK_WITH, .of .RBRACE]

/-- The state in which `script` is called on the tokens `toks` of the file
`f.js` when strict mode is active. -/
def strictStartOfFile (toks : List Token) : js_State :=
  nextState { initState with filename := "f.js", source := toks, strict := true }

/-- The conversion ToUint32 of ECMAScript, in the words of the standard: NaN,
the zeros and the infinities give 0; otherwise take the integer of the same
sign as the number and of magnitude `floor(abs(number))` and reduce it modulo
`2^32`. -/
def ToUint32 : Dbl → Int
  | .fin q =>
    let posInt : Int := (if q < 0 then -1 else 1) * ⌊|q|⌋
    posInt % 2 ^ 32
  | _ => 0

/-- The tokens of `1 << 32`. -/
def oneShl32 : List Token := [.num 1, .of .TK_SHL, .num 32]

/-- The tokens of `-1 >>> 0`. -/
def negOneUshr0 : List Token := [.of .MINUS, .num 1, .of .TK_USHR, .num 0]

/-! ## The arena: nodes as blocks of memory

The parse functions above build their trees as values.  The functions that
allocate, link, rewrite and free nodes are given here a second time, on an
explicit memory, with the fields `parent`, `jumps`, `casejump` and `gcnext`
of `struct js_Ast` and the list head `J->gcast`. -/

/-- A pointer to a node: the null pointer or the address of a block. -/
abbrev Ptr : Type := Option Nat

/-- Modelled from the spec: a cell of the "auxiliary jump-list" of a node, "a
separate small owned list per node"; the type `js_JumpList` is declared
outside the sources at hand.  Its fields are not read here. -/
structure js_JumpList where
  type : js_AstType
  inst : Int
deriving DecidableEq

/-- The fields of `struct js_Ast`.  The chain `jumps` of a node is kept as the
list of its cells. -/
structure Node where
  type : js_AstType
  line : Nat
  parent : Ptr
  a : Ptr
  b : Ptr
  c : Ptr
  d : Ptr
  number : Dbl
  string : Option String
  jumps : List js_JumpList
  casejump : Int
  gcnext : Ptr
deriving DecidableEq

/-- The content of a block that `js_malloc` has just handed out.  In C it is
indeterminate; `jsP_newnode` assigns every field before any of them is read,
so that the choice made here shows in no result. -/
def Node.blank : Node :=
  { type := .AST_LIST, line := 0, parent := none, a := none, b := none, c := none,
    d := none, number := Dbl.fin 0, string := none, jumps := [], casejump := 0,
    gcnext := none }

/-- The memory side of `js_State`: the live blocks (`mem`), the address of the
next block that `js_malloc` hands out (`brk`), the fields `J->gcast` and
`J->astline`, the node blocks passed to `js_free` so far, latest first
(`freed`), and the number of jump cells passed to it (`freedJumps`). -/
structure Arena where
  mem : Nat → Option Node
  brk : Nat
  gcast : Ptr
  astline : Nat
  freed : List Nat
  freedJumps : Nat

/-- A function on the arena.  It returns a value, or fails (`none`) when it
reads, writes or frees a block that is not live or reaches the bound on its
depth; the arena after it is returned in both cases. -/
def Act (α : Type) : Type := Arena → Option α × Arena

/-- Sequencing: run `x`, then `f` on its value, unless `x` failed. -/
def Act.bind {α β : Type} (x : Act α) (f : α → Act β) : Act β := fun H =>
  match x H with
  | (some v, H1) => f v H1
  | (none, H1) => (none, H1)

/-- Return a value, leaving the arena as it is. -/
def Act.pure {α : Type} (v : α) : Act α := fun H => (some v, H)

instance : Monad Act where
  pure := Act.pure
  bind := Act.bind

namespace Arena

/-- Fail. -/
def fail {α : Type} : Act α := fun H => (none, H)

/-- Read the arena. -/
def getH : Act Arena := fun H => (some H, H)

/-- Read the block at `p`. -/
def load (p : Nat) : Act Node := fun H => (H.mem p, H)

/-- Assign to fields of the block at `p`. -/
def modify (p : Nat) (f : Node → Node) : Act Unit := fun H =>
  match H.mem p with
  | some n => (some (), { H with mem := Function.update H.mem p (some (f n)) })
  | none => (none, H)

/-- The assignment `J->gcast = p`. -/
def setGcast (p : Ptr) : Act Unit := fun H => (some (), { H with gcast := p })

/-- Modelled from the spec: `js_malloc` "allocates a node"; it hands out a
block that was not live before. -/
def js_malloc : Act Nat := fun H =>
  (some H.brk, { H with mem := Function.update H.mem H.brk (some Node.blank),
                        brk := H.brk + 1 })

/-- Modelled from the spec: `js_free` reclaims a live node block; freeing a
block that is not live fails. -/
def js_free (p : Nat) : Act Unit := fun H =>
  match H.mem p with
  | some _ => (some (), { H with mem := Function.update H.mem p none, freed := p :: H.freed })
  | none => (none, H)

/-- The statement `if (x) x->parent = node;`. -/
def setParent (x : Ptr) (node : Nat) : Act Unit :=
  match x with
  | none => pure ()
  | some p => modify p fun n => { n with parent := some node }

/-- The function `jsP_newnode` on the arena. -/
def jsP_newnode (type : js_AstType) (a b c d : Ptr) : Act Nat := do
  let node ← js_malloc
  let J ← getH
  modify node fun n =>
    { n with type := type, line := J.astline, a := a, b := b, c := c, d := d,
             number := Dbl.fin 0, string := none, jumps := [], casejump := 0 }
  modify node fun n => { n with parent := none }
  setParent a node
  setParent b node
  setParent c node
  setParent d node
  let J ← getH
  modify node fun n => { n with gcnext := J.gcast }
  setGcast (some node)
  pure node

/-- The function `jsP_newstrnode` on the arena. -/
def jsP_newstrnode (type : js_AstType) (s : String) : Act Nat := do
  let node ← jsP_newnode type none none none none
  modify node fun n => { n with string := some s }
  pure node

/-- The function `jsP_newnumnode` on the arena. -/
def jsP_newnumnode (type : js_AstType) (x : Dbl) : Act Nat := do
  let node ← jsP_newnode type none none none none
  modify node fun n => { n with number := x }
  pure node

/-- Modelled from the spec: `js_free` on a cell of a jump list; the cell is
counted as freed. -/
def js_freeJump (_ : js_JumpList) : Act Unit := fun H =>
  (some (), { H with freedJumps := H.freedJumps + 1 })

/-- The function `jsP_freejumps`: each cell of the chain is passed to `js_free`. -/
def jsP_freejumps : List js_JumpList → Act Unit
  | [] => pure ()
  | node :: next => do
    js_freeJump node
    jsP_freejumps next

/-- The loop of `jsP_freeparse`, with at most `fuel` rounds. -/
def jsP_freeparse_loop : Nat → Ptr → Act Unit
  | _, none => pure ()
  | 0, some _ => fail
  | fuel + 1, some node => do
    let n ← load node
    let next := n.gcnext
    jsP_freejumps n.jumps
    js_free node
    jsP_freeparse_loop fuel next

/-- The function `jsP_freeparse`, its loop making at most `fuel` rounds. -/
def jsP_freeparse (fuel : Nat) : Act Unit := do
  let J ← getH
  jsP_freeparse_loop fuel J.gcast
  setGcast none

/-- The function `jsP_setnumnode` on the arena. -/
def jsP_setnumnode (node : Nat) (x : Dbl) : Act Bool := do
  modify node fun n => { n with type := .EXP_NUMBER }
  modify node fun n => { n with number := x }
  modify node fun n => { n with a := none, b := none, c := none, d := none }
  pure true

/-- The field `p->number` of a non-null pointer. -/
def numberAt (p : Ptr) : Act Dbl :=
  match p with
  | none => fail
  | some q => do
    let n ← load q
    pure n.number

/-- The expression `p ? f(p) : 0`. -/
def orZero (f : Nat → Act Bool) (p : Ptr) : Act Bool :=
  match p with
  | none => pure false
  | some q => f q

/-- The function `jsP_foldconst` on the arena, with recursion depth at most
`fuel`; each `switch` is the chain of its cases. -/
def jsP_foldconst : Nat → Nat → Act Bool
  | 0, _ => fail
  | fuel + 1, node => do
    if (← load node).type = .EXP_NUMBER then
      pure true
    else
      let a ← orZero (jsP_foldconst fuel) (← load node).a
      let b ← orZero (jsP_foldconst fuel) (← load node).b
      let _ ← orZero (jsP_foldconst fuel) (← load node).c
      let _ ← orZero (jsP_foldconst fuel) (← load node).d
      if a then
        let x ← numberAt (← load node).a
        let type := (← load node).type
        if type = .EXP_NEG then jsP_setnumnode node (Dbl.neg x)
        else if type = .EXP_POS then jsP_setnumnode node x
        else if type = .EXP_BITNOT then jsP_setnumnode node (Dbl.ofInt (-(toint32 x) - 1))
        else if b then
          let y ← numberAt (← load node).b
          let type := (← load node).type
          if type = .EXP_MUL then jsP_setnumnode node (Dbl.mul x y)
          else if type = .EXP_DIV then jsP_setnumnode node (Dbl.div x y)
          else if type = .EXP_MOD then jsP_setnumnode node (Dbl.fmod x y)
          else if type = .EXP_ADD then jsP_setnumnode node (Dbl.add x y)
          else if type = .EXP_SUB then jsP_setnumnode node (Dbl.sub x y)
          else if type = .EXP_SHL then
            jsP_setnumnode node (Dbl.ofInt (wrap32 (toint32 x * 2 ^ (touint32 y % 32))))
          else if type = .EXP_SHR then
            jsP_setnumnode node (Dbl.ofInt (toint32 x >>> (touint32 y % 32)))
          else if type = .EXP_USHR then
            jsP_setnumnode node (Dbl.ofInt ((touint32 x >>> (touint32 y % 32) : Nat) : Int))
          else if type = .EXP_BITAND then
            jsP_setnumnode node (Dbl.ofInt (wrap32 ((touint32 x &&& touint32 y : Nat) : Int)))
          else if type = .EXP_BITXOR then
            jsP_setnumnode node (Dbl.ofInt (wrap32 ((touint32 x ^^^ touint32 y : Nat) : Int)))
          else if type = .EXP_BITOR then
            jsP_setnumnode node (Dbl.ofInt (wrap32 ((touint32 x ||| touint32 y : Nat) : Int)))
          else pure false
        else pure false
      else pure false

/-- The ownership list: `l` is the sequence of the blocks met from `p` along
the field `gcnext`, up to the null pointer. -/
def Chain (H : Arena) : Ptr → List Nat → Prop
  | p, [] => p = none
  | p, q :: l => p = some q ∧ ∃ n, H.mem q = some n ∧ Chain H n.gcnext l

/-- The arena owns exactly the nodes `l`: they are the ownership list from
`J->gcast`, each occurs once, and no block that `js_malloc` has yet to hand
out is live. -/
structure Owns (H : Arena) (l : List Nat) : Prop where
  chain : H.Chain H.gcast l
  nodup : l.Nodup
  fresh : ∀ q, H.brk ≤ q → H.mem q = none

/-- A pointer that may be passed as a child: null, or the address of a live block. -/
def Valid (H : Arena) (p : Ptr) : Prop :=
  ∀ q, p = some q → ∃ n, H.mem q = some n

/-- The arena `H1` differs from `H` at most in the kind, the number and the
four child slots of live blocks: the same blocks are live, and everything else
is the same, the ownership links among it. -/
structure Frame (H H1 : Arena) : Prop where
  brk : H1.brk = H.brk
  gcast : H1.gcast = H.gcast
  astline : H1.astline = H.astline
  freed : H1.freed = H.freed
  freedJumps : H1.freedJumps = H.freedJumps
  dead : ∀ q, H.mem q = none → H1.mem q = none
  live : ∀ q n, H.mem q = some n → ∃ n1, H1.mem q = some n1 ∧ n1.gcnext = n.gcnext ∧
    n1.parent = n.parent ∧ n1.line = n.line ∧ n1.string = n.string ∧
    n1.jumps = n.jumps ∧ n1.casejump = n.casejump

/-- An arena without any block. -/
def empty : Arena :=
  { mem := fun _ => none, brk := 0, gcast := none, astline := 1, freed := [], freedJumps := 0 }

end Arena

/-- One step of a parse session on the arena: a node is created (plain, with a
string or with a number), a node is rewritten to a numeric literal, or a tree
is folded. -/
inductive ArenaOp where
  | newnode (type : js_AstType) (a b c d : Ptr)
  | newstrnode (type : js_AstType) (s : String)
  | newnumnode (type : js_AstType) (x : Dbl)
  | setnumnode (node : Nat) (x : Dbl)
  | foldconst (fuel : Nat) (node : Nat)

/-- Run one step. -/
def ArenaOp.run : ArenaOp → Act Unit
  | .newnode type a b c d => do
    let _ ← Arena.jsP_newnode type a b c d
    pure ()
  | .newstrnode type s => do
    let _ ← Arena.jsP_newstrnode type s
    pure ()
  | .newnumnode type x => do
    let _ ← Arena.jsP_newnumnode type x
    pure ()
  | .setnumnode node x => do
    let _ ← Arena.jsP_setnumnode node x
    pure ()
  | .foldconst fuel node => do
    let _ ← Arena.jsP_foldconst fuel node
    pure ()

/-- Run the steps in order, up to the first that fails. -/
def ArenaOp.runAll : List ArenaOp → Act Unit
  | [] => pure ()
  | op :: ops => do
    op.run
    ArenaOp.runAll ops

/-- The child pointers handed to a step that creates a node are null or
addresses of live blocks. -/
def ArenaOp.valid : ArenaOp → Arena → Prop
  | .newnode _ a b c d, H => H.Valid a ∧ H.Valid b ∧ H.Valid c ∧ H.Valid d
  | _, _ => True

/-- Each step finds its child pointers null or live when its turn comes. -/
def ArenaOp.allValid : List ArenaOp → Arena → Prop
  | [], _ => True
  | op :: ops, H => op.valid H ∧ ArenaOp.allValid ops (op.run H).2

/-- The number of nodes that the steps create. -/
def ArenaOp.created : List ArenaOp → Nat
  | [] => 0
  | .newnode _ _ _ _ _ :: ops => ArenaOp.created ops + 1
  | .newstrnode _ _ :: ops => ArenaOp.created ops + 1
  | .newnumnode _ _ :: ops => ArenaOp.created ops + 1
  | _ :: ops => ArenaOp.created ops

/-! ## Further inputs and invariants -/

/-- The tokens of `break`, newline, `foo`. -/
def breakNewlineFoo : List Token := [.of .TK_BREAK, (Token.ident "foo").nl]

/-- The tokens of `continue`, newline, `foo`. -/
def continueNewlineFoo : List Token := [.of .TK_CONTINUE, (Token.ident "foo").nl]

/-- The tokens of `m + n + x`. -/
def sumLeft (m n : ℚ) (x : String) : List Token :=
  [.num m, .of .PLUS, .num n, .of .PLUS, .ident x]

/-- The tokens of `x + m + n`. -/
def sumRight (x : String) (m n : ℚ) : List Token :=
  [.ident x, .of .PLUS, .num m, .of .PLUS, .num n]

/-- The tokens of `{a:1, b:2}`. -/
def objComma : List Token :=
  [.of .LBRACE, .ident "a", .of .COLON, .num 1, .of .COMMA, .ident "b", .of .COLON, .num 2,
   .of .RBRACE]

/-- The tokens of `{a:1; b:2}`. -/
def objSemi : List Token :=
  [.of .LBRACE, .ident "a", .of .COLON, .num 1, .of .SEMI, .ident "b", .of .COLON, .num 2,
   .of .RBRACE]

/-- The tokens of `{a:1`, newline, `b:2}`. -/
def objNewline : List Token :=
  [.of .LBRACE, .ident "a", .of .COLON, .num 1, (Token.ident "b").nl,
   { Token.of .COLON with line := 2 }, { Token.num 2 with line := 2 },
   { Token.of .RBRACE with line := 2 }]

/-- The tokens of `{a:1,}`. -/
def objTrailing : List Token :=
  [.of .LBRACE, .ident "a", .of .COLON, .num 1, .of .COMMA, .of .RBRACE]

/-- The tokens of `{a:1 b:2}`, all on one line. -/
def objNoSep : List Token :=
  [.of .LBRACE, .ident "a", .of .COLON, .num 1, .ident "b", .of .COLON, .num 2,
   .of .RBRACE]

/-- The state `J1` is reached from `J` by calls of `jsP_next` and of
`jsP_warning` only. -/
inductive Reach (J : js_State) : js_State → Prop where
  | refl : Reach J J
  | next {J1 : js_State} : Reach J J1 → Reach J (nextState J1)
  | warn {J1 : js_State} (w : String) :
      Reach J J1 → Reach J { J1 with stderr := J1.stderr ++ [w] }

/-- Whenever the parse function returns, the state after it is reached from
the state before it by calls of `jsP_next` and of `jsP_warning` only. -/
structure Moves {α : Type} (F : P α) : Prop where
  out : ∀ J v J1, F J = .ok v J1 → Reach J J1

/-- The number of tokens not consumed yet: the lookahead, unless it is
end-of-input, and the tokens left in the source. -/
def js_State.size (J : js_State) : Nat :=
  J.source.length + (if J.lookahead = Tok.EOF then 0 else 1)

/-- The entry points that consume a token whenever they return. -/
def Fn.strict : Fn → Bool
  | .expression _ | .assignment _ | .memberexp | .statement | .funbody | .unary
  | .logand _ | .logor _ => true
  | _ => false

/-- The entry point that calls through the handle before it consumes a
token: the loop of `statementlist`, which starts with `statement`. -/
def Fn.rank : Fn → Nat
  | .statementlist_loop => 1
  | _ => 0

/-- The recursion depth that the entry point `fn` needs in state `J`: two
levels for every token not consumed yet, and one more for the loop of
`statementlist`. -/
def Fn.depth (fn : Fn) (J : js_State) : Nat := 2 * J.size + fn.rank

/-- The handles `R` and `R1` are settled below depth `n`: on every entry point
and state that need a depth less than `n` they give the same outcome, which
is not `nofuel`, and a returned state has no more tokens left than the state
before, and fewer for the entry points that consume. -/
structure Settled (n : Int) (R R1 : Rec) : Prop where
  out : ∀ fn J, (fn.depth J : Int) < n →
    R fn J = R1 fn J ∧ R fn J ≠ .nofuel ∧
    ∀ v J1, R fn J = .ok v J1 → J1.size + (if fn.strict then 1 else 0) ≤ J.size

/-- On every state with at most `k` tokens left, `x` and `x1` give the same
outcome, which is not `nofuel`, and a returned state has at most `k1` tokens
left. -/
structure Total {α : Type} (k k1 : Int) (x x1 : P α) : Prop where
  out : ∀ J, (J.size : Int) ≤ k →
    x J = x1 J ∧ x J ≠ .nofuel ∧ ∀ v J1, x J = .ok v J1 → (J1.size : Int) ≤ k1

/-- Whenever `x` gives an outcome other than `nofuel`, `x1` gives the same
outcome. -/
structure Stable {α : Type} (x x1 : P α) : Prop where
  out : ∀ J, x J ≠ .nofuel → x1 J = x J

/-- A well-formed list: null, or an `AST_LIST` cell whose third and fourth
children are null and whose second child is a well-formed list. -/
def js_Ast.isList : js_Ast → Bool
  | .NULL => true
  | .node .AST_LIST _ _ b c d _ _ => c.isNull && d.isNull && b.isList
  | _ => false

/-- The trees `es` are what successive calls of `scriptelement` return from
the state `J` on, in order, up to the state `J1` whose lookahead is the
terminator `t`. -/
inductive ScriptElements (t : Tok) : js_State → List js_Ast → js_State → Prop where
  | nil {J : js_State} : J.lookahead = t → ScriptElements t J [] J
  | cons {J J1 J2 : js_State} {e : js_Ast} {es : List js_Ast} :
      J.lookahead ≠ t → Yields (fun R => scriptelement R) J (.ok e J1) →
      ScriptElements t J1 es J2 → ScriptElements t J (e :: es) J2

/-- No token of the source is end-of-input, and the lookahead is end-of-input
only when the source is exhausted: end-of-input comes after the last token. -/
def EofLast (J : js_State) : Prop :=
  (∀ t ∈ J.source, t.kind ≠ Tok.EOF) ∧ (J.lookahead = Tok.EOF → J.source = [])

namespace Arena

/-- The loop of `jsP_list` on the arena, with at most `fuel` rounds: `prev`
and `node` are its two variables. -/
def jsP_list_loop : Nat → Nat → Ptr → Act Unit
  | _, _, none => pure ()
  | 0, _, some _ => fail
  | fuel + 1, prev, some node => do
    modify node fun n => { n with parent := some prev }
    let n ← load node
    jsP_list_loop fuel node n.b

/-- The function `jsP_list` on the arena, its loop making at most `fuel`
rounds. -/
def jsP_list (fuel : Nat) (head : Nat) : Act Nat := do
  let h ← load head
  jsP_list_loop fuel head h.b
  pure head

/-- The cells `l` are the blocks met from `p` along the child slot `b`, up to
the null pointer. -/
def Cells (H : Arena) : Ptr → List Nat → Prop
  | p, [] => p = none
  | p, q :: l => p = some q ∧ ∃ n, H.mem q = some n ∧ Cells H n.b l

/-- From the arena `H` to the arena `H1`, each cell of `l` has got as parent
the cell before it, the first one `prev`, and kept every other field. -/
def ParentsSet (H H1 : Arena) : Nat → List Nat → Prop
  | _, [] => True
  | prev, q :: l =>
    (∃ n, H.mem q = some n ∧ H1.mem q = some { n with parent := some prev }) ∧
    ParentsSet H H1 q l

/-- From `p` on, the cells `l` are `AST_LIST` nodes linked through the child
slot `b` up to the null pointer, their first children are the elements `es`
in order, the parent of the first cell is `first`, and the parent of every
further cell is `par q` for the cell `q` before it. -/
def ListAt (H : Arena) (par : Nat → Ptr) : Ptr → Ptr → List Nat → List Ptr → Prop
  | _, p, [], [] => p = none
  | first, p, q :: l, e :: es =>
    p = some q ∧ ∃ n, H.mem q = some n ∧ n.type = .AST_LIST ∧ n.a = e ∧
      n.parent = first ∧ ListAt H par (par q) n.b l es
  | _, _, _, _ => False

/-- The statements `tail = tail->b = LIST(e)` of the list loops, once for each
element of `es`. -/
def listExtend : Nat → List Ptr → Act Unit
  | _, [] => pure ()
  | tail, e :: es => do
    let cell ← jsP_newnode .AST_LIST e none none none
    modify tail fun n => { n with b := some cell }
    listExtend cell es

/-- The statements by which `parameters`, `arguments`, `vardeclist`,
`statementlist`, `caselist` and `script` build their list, on elements that
are parsed already: `head = tail = LIST(e)`, then `tail = tail->b = LIST(e)`
for each further element, then `return jsP_list(head)`. -/
def listBuild (fuel : Nat) (e : Ptr) (es : List Ptr) : Act Nat := do
  let head ← jsP_newnode .AST_LIST e none none none
  listExtend head es
  jsP_list fuel head

end Arena

/-! ## The lines of the nodes -/

/-- The lines of the nodes of a tree in depth-first, left-to-right order: a
node, then its children `a`, `b`, `c`, `d`. -/
def js_Ast.linesPre : js_Ast → List Nat
  | .NULL => []
  | .node _ line a b c d _ _ =>
    line :: (a.linesPre ++ b.linesPre ++ c.linesPre ++ d.linesPre)

/-- The lines of the nodes of a tree in depth-first, left-to-right order, a
node after its children `a`, `b`, `c`, `d`. -/
def js_Ast.linesPost : js_Ast → List Nat
  | .NULL => []
  | .node _ line a b c d _ _ =>
    a.linesPost ++ b.linesPost ++ c.linesPost ++ d.linesPost ++ [line]

/-- The lines of a tree rise towards the root: the line of a node is at least
the line of every node below it; for a list cell this holds of its element
only, and every node in the rest of the list has at least the line of the
cell. -/
def js_Ast.lineOrdered : js_Ast → Bool
  | .NULL => true
  | .node t line a b c d _ _ =>
    a.lineOrdered && b.lineOrdered && c.lineOrdered && d.lineOrdered &&
    a.linesPre.all (fun l => decide (l ≤ line)) &&
    c.linesPre.all (fun l => decide (l ≤ line)) &&
    d.linesPre.all (fun l => decide (l ≤ line)) &&
    (if t = .AST_LIST then b.linesPre.all (fun l => decide (line ≤ l))
     else b.linesPre.all (fun l => decide (l ≤ line)))

/-- The lines of the state are in file order: `astline` is at most `lexline`,
which is at most the line of every token left in the source, and the lines of
those tokens do not decrease. -/
def js_State.inOrder (J : js_State) : Prop :=
  J.astline ≤ J.lexline ∧ (∀ t ∈ J.source, J.lexline ≤ t.line) ∧
  J.source.Pairwise fun t u => t.line ≤ u.line

/-- The lines of the tree `v` rise towards the root and lie between `s` and
`e`. -/
def Span (s : Nat) (v : js_Ast) (e : Nat) : Prop :=
  s ≤ e ∧ v.lineOrdered = true ∧ ∀ l ∈ v.linesPre, s ≤ l ∧ l ≤ e

/-- Two trees whose lines rise towards the root and lie between `s` and `e`. -/
def PairSpan (s : Nat) (v : js_Ast × js_Ast) (e : Nat) : Prop :=
  Span s v.1 e ∧ Span s v.2 e

/-- From a state whose lines are in file order and whose `astline` is at least
`lo`, whenever the parse function returns, the lines of the state after it
are in file order, `astline` has not decreased, and the value returned
satisfies `Q` with the `astline` after. -/
structure Lined {α : Type} (lo : Nat) (Q : α → Nat → Prop) (F : P α) : Prop where
  out : ∀ J v J1, J.inOrder → lo ≤ J.astline → F J = .ok v J1 →
    J1.inOrder ∧ J.astline ≤ J1.astline ∧ Q v J1.astline

/-- A parser state before any input is attached whose lexer stands on line 1,
the line of the first token of the example inputs. -/
def lineOne : js_State := { initState with lexline := 1 }

/-- The tokens of `a +`, newline, `b`. -/
def aPlusNewlineB : List Token := [.ident "a", .of .PLUS, (Token.ident "b").nl]

/-- The tokens of `a`, newline, `b`. -/
def aNewlineB : List Token := [.ident "a", (Token.ident "b").nl]

/-! ## A long file name -/

/-- A file name of 300 characters. -/
def longName : String := ⟨List.replicate 300 'a'⟩

/-- A parser state under the long file name, before any input is attached:
the lookahead is end-of-input and the line is 0. -/
def longNameState : js_State := { initState with filename := longName }

end Mujs

/-! # The terrain image context of the map grid

A model of `map_image_context_context_matches_tiles` and
`map_image_context_get_terrain_image` of `src/grid/image_context.cpp`.  The
tables of the file are global arrays of `terrain_image_context`; the model
passes them as a value and returns the tables after the call. -/

namespace ImageContext

/-- Modelled from the spec: the constant `MAP_IMAGE_MAX_TILES` of the header,
the "8 positions" around a tile. -/
def MAP_IMAGE_MAX_TILES : Nat := 8

/-- The record `terrain_image_context`; arrays are read by index and every
field is an `unsigned char`. -/
structure terrain_image_context where
  tiles : Nat → Nat
  offset_for_orientation : Nat → Nat
  canal_offset : Nat
  max_item_offset : Nat
  current_item_offset : Nat

/-- The record `image_context_t`: a table of patterns and its length. -/
structure image_context_t where
  context : Nat → terrain_image_context
  size : Int

/-- Modelled from the spec: the record `terrain_image` of the header, with the
fields the function assigns ("valid result", "offsets", "item_offset"). -/
structure terrain_image where
  is_valid : Nat
  group_offset : Nat
  item_offset : Nat
  canal_offset : Nat
deriving DecidableEq

/-- Modelled from the spec: `image_tiles_vec` of the header, the "tile value"
at each position. -/
abbrev image_tiles_vec : Type := Nat → Int

/-- The loop of `map_image_context_context_matches_tiles` from index `i`, with
`n` positions left. -/
def matches_tiles_loop (context : terrain_image_context) (tiles : image_tiles_vec) :
    Nat → Nat → Bool
  | 0, _ => true
  | n + 1, i =>
    if context.tiles i ≠ 2 ∧ tiles i ≠ (context.tiles i : Int) then false
    else matches_tiles_loop context tiles n (i + 1)

/-- The function `map_image_context_context_matches_tiles`. -/
def map_image_context_context_matches_tiles (context : terrain_image_context)
    (tiles : image_tiles_vec) : Bool :=
  matches_tiles_loop context tiles MAP_IMAGE_MAX_TILES 0

/-- The array `g_context_pointers`, read by group. -/
abbrev Tables : Type := Nat → image_context_t

/-- The assignment to the `i`-th pattern of the table of `group`. -/
def Tables.set (G : Tables) (group i : Nat) (c : terrain_image_context) : Tables :=
  fun g => if g = group then
    { G g with context := fun j => if j = i then c else (G g).context j }
  else G g

/-- The loop of `map_image_context_get_terrain_image` from index `i`, with `n`
patterns left; `orientation` is the value of `city_view_orientation()`. -/
def get_terrain_image_loop (group : Nat) (tiles : image_tiles_vec) (orientation : Nat) :
    Nat → Nat → terrain_image → Tables → terrain_image × Tables
  | 0, _, result, G => (result, G)
  | n + 1, i, result, G =>
    let context := (G group).context i
    if map_image_context_context_matches_tiles context tiles then
      let cur := (context.current_item_offset + 1) % 256
      let cur := if cur ≥ context.max_item_offset then 0 else cur
      ({ is_valid := 1,
         group_offset := context.offset_for_orientation (orientation / 2),
         item_offset := cur,
         canal_offset := context.canal_offset },
       G.set group i { context with current_item_offset := cur })
    else get_terrain_image_loop group tiles orientation n (i + 1) result G

/-- The function `map_image_context_get_terrain_image`; `result` is the local
as declared, before `is_valid` is cleared. -/
def map_image_context_get_terrain_image (group : Nat) (tiles : image_tiles_vec)
    (orientation : Nat) (result : terrain_image) (G : Tables) : terrain_image × Tables :=
  get_terrain_image_loop group tiles orientation (G group).size.toNat 0
    { result with is_valid := 0 } G

/-- A pattern matches the tiles, in the words of the specification: at each of
the 8 positions its entry is 2 or equals the tile value. -/
def Matches (p : terrain_image_context) (tiles : image_tiles_vec) : Prop :=
  ∀ i, i < 8 → p.tiles i = 2 ∨ tiles i = (p.tiles i : Int)

/-- A table entry given by its initialiser `{tiles, offsets, canal, max}`. -/
def pattern (tiles offsets : List Nat) (canal max : Nat) : terrain_image_context :=
  { tiles := fun i => tiles.getD i 0, offset_for_orientation := fun i => offsets.getD i 0,
    canal_offset := canal, max_item_offset := max, current_item_offset := 0 }

/-- The first entries of `terrain_images_water`, as a table of its own. -/
def waterHead : image_context_t :=
  { context := fun i =>
      [pattern [1, 2, 1, 2, 1, 2, 1, 2] [79, 79, 79, 79] 0 1,
       pattern [1, 2, 1, 2, 1, 2, 0, 2] [47, 46, 45, 44] 0 1,
       pattern [0, 2, 1, 2, 1, 2, 1, 2] [44, 47, 46, 45] 0 1,
       pattern [1, 2, 0, 2, 1, 2, 1, 2] [45, 44, 47, 46] 0 1,
       pattern [1, 2, 1, 2, 0, 2, 1, 2] [46, 45, 44, 47] 0 1,
       pattern [1, 2, 0, 2, 1, 2, 0, 2] [40, 42, 40, 42] 0 2].getD i
        (pattern [] [] 0 0),
    size := 6 }

/-- Tiles with water at the positions 0 and 4 only, and a shore between. -/
def tilesEastWest : image_tiles_vec := fun i => [1, 0, 0, 0, 1, 0, 0, 0].getD i 0

end ImageContext

namespace Mujs

/-! ## Basic facts about the parser monad and the lookahead functions -/

@[simp] theorem bind_apply {α β : Type} (x : P α) (f : α → P β) (J : js_State) :
    (x >>= f) J = match x J with
      | .ok v J1 => f v J1
      | .error m => .error m
      | .nofuel => .nofuel := rfl

@[simp] theorem pure_apply {α : Type} (v : α) (J : js_State) :
    (pure v : P α) J = .ok v J := rfl

@[simp] theorem getJ_apply (J : js_State) : getJ J = .ok J J := rfl

@[simp] theorem jsP_next_apply (J : js_State) : jsP_next J = .ok () (nextState J) := by
  unfold jsP_next jsY_lex nextState
  cases h : J.source <;> simp [h]

theorem jsP_accept_eq {x : Tok} {J : js_State} (h : J.lookahead = x) :
    jsP_accept x J = .ok true (nextState J) := by
  simp [jsP_accept, h]

theorem jsP_accept_ne {x : Tok} {J : js_State} (h : J.lookahead ≠ x) :
    jsP_accept x J = .ok false J := by
  simp [jsP_accept, h]

theorem jsP_accept_apply (x : Tok) (J : js_State) :
    jsP_accept x J = if J.lookahead = x then .ok true (nextState J) else .ok false J := by
  by_cases h : J.lookahead = x
  · simp [jsP_accept_eq h, h]
  · simp [jsP_accept_ne h, h]

@[simp] theorem jsP_newnode_apply (t : js_AstType) (a b c d : js_Ast) (J : js_State) :
    jsP_newnode t a b c d J = .ok (js_Ast.new t J.astline a b c d) J := rfl

@[simp] theorem EXP0_apply (t : js_AstType) (J : js_State) :
    EXP0 t J = .ok (js_Ast.new t J.astline .NULL .NULL .NULL .NULL) J := rfl

@[simp] theorem EXP1_apply (t : js_AstType) (a : js_Ast) (J : js_State) :
    EXP1 t a J = .ok (js_Ast.new t J.astline a .NULL .NULL .NULL) J := rfl

@[simp] theorem EXP2_apply (t : js_AstType) (a b : js_Ast) (J : js_State) :
    EXP2 t a b J = .ok (js_Ast.new t J.astline a b .NULL .NULL) J := rfl

@[simp] theorem EXP3_apply (t : js_AstType) (a b c : js_Ast) (J : js_State) :
    EXP3 t a b c J = .ok (js_Ast.new t J.astline a b c .NULL) J := rfl

@[simp] theorem STM4_apply (t : js_AstType) (a b c d : js_Ast) (J : js_State) :
    STM4 t a b c d J = .ok (js_Ast.new t J.astline a b c d) J := rfl

@[simp] theorem LIST_apply (h : js_Ast) (J : js_State) :
    LIST h J = .ok (js_Ast.new .AST_LIST J.astline h .NULL .NULL .NULL) J := rfl

@[simp] theorem run_succ (n : Nat) (fn : Fn) : run (n + 1) fn = step (run n) fn := rfl

@[simp] theorem new_setB (t : js_AstType) (l : Nat) (a b c d x : js_Ast) :
    (js_Ast.new t l a b c d).setB x = js_Ast.new t l a x c d := rfl

@[simp] theorem new_type (t : js_AstType) (l : Nat) (a b c d : js_Ast) :
    (js_Ast.new t l a b c d).type? = some t := rfl

@[simp] theorem new_isNull (t : js_AstType) (l : Nat) (a b c d : js_Ast) :
    (js_Ast.new t l a b c d).isNull = false := rfl

@[simp] theorem jsP_list_eq (head : js_Ast) : jsP_list head = head := rfl

/-- An outcome that does not depend on the recursion handle. -/
theorem Yields.of_eq {α : Type} {F : Rec → P α} {J : js_State} {r : Res α}
    (h : ∀ R, F R J = r) : Yields F J r :=
  ⟨0, fun m _ => h (run m)⟩

/-- A call through the handle is a call of the function itself. -/
theorem Yields.call {fn : Fn} {J : js_State} {r : Res js_Ast}
    (h : Yields (fun R => step R fn) J r) : Yields (fun R => R fn) J r := by
  obtain ⟨n, h⟩ := h
  refine ⟨n + 1, fun m hm => ?_⟩
  obtain ⟨j, rfl⟩ : ∃ j, m = j + 1 := ⟨m - 1, by omega⟩
  exact h j (by omega)

/-- Two outcomes of the same run are equal. -/
theorem Yields.unique {α : Type} {F : Rec → P α} {J : js_State} {r r' : Res α}
    (h : Yields F J r) (h' : Yields F J r') : r = r' := by
  obtain ⟨n, h⟩ := h
  obtain ⟨n', h'⟩ := h'
  rw [← h (max n n') (by omega), ← h' (max n n') (by omega)]

/-! ## The binary precedence levels -/

theorem binop_some {notin : Bool} {t : Tok} {k : Nat} {ty : js_AstType}
    (h : binop notin t = some (k, ty)) :
    (k = 1 ∧ t = .STAR ∧ ty = .EXP_MUL) ∨ (k = 1 ∧ t = .SLASH ∧ ty = .EXP_DIV) ∨
    (k = 1 ∧ t = .PERCENT ∧ ty = .EXP_MOD) ∨
    (k = 2 ∧ t = .PLUS ∧ ty = .EXP_ADD) ∨ (k = 2 ∧ t = .MINUS ∧ ty = .EXP_SUB) ∨
    (k = 3 ∧ t = .TK_SHL ∧ ty = .EXP_SHL) ∨ (k = 3 ∧ t = .TK_SHR ∧ ty = .EXP_SHR) ∨
    (k = 3 ∧ t = .TK_USHR ∧ ty = .EXP_USHR) ∨
    (k = 4 ∧ t = .LT ∧ ty = .EXP_LT) ∨ (k = 4 ∧ t = .GT ∧ ty = .EXP_GT) ∨
    (k = 4 ∧ t = .TK_LE ∧ ty = .EXP_LE) ∨ (k = 4 ∧ t = .TK_GE ∧ ty = .EXP_GE) ∨
    (k = 4 ∧ t = .TK_INSTANCEOF ∧ ty = .EXP_INSTANCEOF) ∨
    (k = 4 ∧ t = .TK_IN ∧ ty = .EXP_IN) ∨
    (k = 5 ∧ t = .TK_EQ ∧ ty = .EXP_EQ) ∨ (k = 5 ∧ t = .TK_NE ∧ ty = .EXP_NE) ∨
    (k = 5 ∧ t = .TK_STRICTEQ ∧ ty = .EXP_STRICTEQ) ∨
    (k = 5 ∧ t = .TK_STRICTNE ∧ ty = .EXP_STRICTNE) ∨
    (k = 6 ∧ t = .AMP ∧ ty = .EXP_BITAND) ∨ (k = 7 ∧ t = .CARET ∧ ty = .EXP_BITXOR) ∨
    (k = 8 ∧ t = .BAR ∧ ty = .EXP_BITOR) ∨
    (k = 9 ∧ t = .TK_AND ∧ ty = .EXP_LOGAND) ∨ (k = 10 ∧ t = .TK_OR ∧ ty = .EXP_LOGOR) := by
  cases t <;> cases notin <;> simp [binop] at h <;> obtain ⟨rfl, rfl⟩ := h <;> simp

theorem binop_in {notin : Bool} {x : Nat × js_AstType}
    (h : binop notin .TK_IN = some x) : notin = false := by
  cases notin <;> simp [binop] at h ⊢

theorem ne_of_binop {notin : Bool} {t x : Tok} {k : Nat} {ty0 : js_AstType}
    (hno : ∀ ty, binop notin t ≠ some (k, ty)) (hx : binop notin x = some (k, ty0)) :
    t ≠ x := fun h => hno ty0 (h ▸ hx)

/-! ## The text of a syntax error -/

theorem jsP_error_apply {α : Type} (msg : String) (J : js_State) :
    (jsP_error msg : P α) J =
      .error (snprintf256 (J.filename ++ ":" ++ toString J.lexline ++ ": ") ++
        snprintf256 msg) := rfl

/-- A text of at most 255 characters is stored whole. -/
theorem snprintf256_of_le {s : String} (h : s.length ≤ 255) : snprintf256 s = s := by
  cases s with
  | mk l => simp only [snprintf256, String.length] at h ⊢; rw [List.take_of_length_le h]

/-- The stored text has at most 255 characters. -/
theorem snprintf256_length_le (s : String) : (snprintf256 s).length ≤ 255 := by
  show (List.take 255 s.data).length ≤ 255
  rw [List.length_take]
  omega

/-- The name of a token has at most 13 characters. -/
theorem jsY_tokenstring_length (t : Tok) : (jsY_tokenstring t).length ≤ 13 := by
  cases t <;> decide

/-- The text `<head><token>` of an error that names a token is stored whole. -/
theorem snprintf256_token (a : String) (t : Tok) (h : a.length ≤ 200) :
    snprintf256 (a ++ jsY_tokenstring t) = a ++ jsY_tokenstring t :=
  snprintf256_of_le (by
    have := jsY_tokenstring_length t
    rw [String.length_append]
    omega)

/-- The text `<head><token><tail>` of an error that names a token is stored
whole. -/
theorem snprintf256_token_tail (a b : String) (t : Tok) (h : a.length + b.length ≤ 200) :
    snprintf256 (a ++ jsY_tokenstring t ++ b) = a ++ jsY_tokenstring t ++ b :=
  snprintf256_of_le (by
    have := jsY_tokenstring_length t
    rw [String.length_append, String.length_append]
    omega)

/-- The text `<head><token><middle><token><tail>` of an error that names two
tokens is stored whole. -/
theorem snprintf256_token_token (a b c : String) (t u : Tok)
    (h : a.length + b.length + c.length ≤ 200) :
    snprintf256 (a ++ jsY_tokenstring t ++ b ++ jsY_tokenstring u ++ c) =
      a ++ jsY_tokenstring t ++ b ++ jsY_tokenstring u ++ c :=
  snprintf256_of_le (by
    have := jsY_tokenstring_length t
    have := jsY_tokenstring_length u
    rw [String.length_append, String.length_append, String.length_append,
      String.length_append]
    omega)

/-- What follows the first 255 characters is cut. -/
theorem snprintf256_append (a b : String) (h : 255 ≤ a.length) :
    snprintf256 (a ++ b) = snprintf256 a := by
  unfold snprintf256
  rw [String.data_append, List.take_append_of_le_length h]

/-- A loop of a left-associating level stops at a token that is not one of
its operators. -/
theorem loop_done {notin : Bool} {k : Nat} {A : js_Ast} {J : js_State}
    (hk : 1 ≤ k ∧ k ≤ 8) (hno : ∀ ty, binop notin J.lookahead ≠ some (k, ty)) :
    Yields (fun R => loopFn notin k R A) J (.ok A J) := by
  refine ⟨0, fun m _ => ?_⟩
  obtain ⟨h1, h8⟩ := hk
  interval_cases k
  · have a1 := ne_of_binop hno (x := .STAR) rfl
    have a2 := ne_of_binop hno (x := .SLASH) rfl
    have a3 := ne_of_binop hno (x := .PERCENT) rfl
    simp [loopFn, multiplicative_loop, jsP_accept_ne, a1, a2, a3]
  · have a1 := ne_of_binop hno (x := .PLUS) rfl
    have a2 := ne_of_binop hno (x := .MINUS) rfl
    simp [loopFn, additive_loop, jsP_accept_ne, a1, a2]
  · have a1 := ne_of_binop hno (x := .TK_SHL) rfl
    have a2 := ne_of_binop hno (x := .TK_SHR) rfl
    have a3 := ne_of_binop hno (x := .TK_USHR) rfl
    simp [loopFn, shift_loop, jsP_accept_ne, a1, a2, a3]
  · have a1 := ne_of_binop hno (x := .LT) rfl
    have a2 := ne_of_binop hno (x := .GT) rfl
    have a3 := ne_of_binop hno (x := .TK_LE) rfl
    have a4 := ne_of_binop hno (x := .TK_GE) rfl
    have a5 := ne_of_binop hno (x := .TK_INSTANCEOF) rfl
    cases notin
    · have a6 := ne_of_binop hno (x := .TK_IN) rfl
      simp [loopFn, relational_loop, jsP_accept_ne, a1, a2, a3, a4, a5, a6]
    · simp [loopFn, relational_loop, jsP_accept_ne, a1, a2, a3, a4, a5]
  · have a1 := ne_of_binop hno (x := .TK_EQ) rfl
    have a2 := ne_of_binop hno (x := .TK_NE) rfl
    have a3 := ne_of_binop hno (x := .TK_STRICTEQ) rfl
    have a4 := ne_of_binop hno (x := .TK_STRICTNE) rfl
    simp [loopFn, equality_loop, jsP_accept_ne, a1, a2, a3, a4]
  · have a1 := ne_of_binop hno (x := .AMP) rfl
    simp [loopFn, bitand_loop, jsP_accept_ne, a1]
  · have a1 := ne_of_binop hno (x := .CARET) rfl
    simp [loopFn, bitxor_loop, jsP_accept_ne, a1]
  · have a1 := ne_of_binop hno (x := .BAR) rfl
    simp [loopFn, bitor_loop, jsP_accept_ne, a1]

/-- A loop of a left-associating level at one of its operators: it parses the
right operand at the next tighter level, builds the node and goes round again. -/
theorem loop_step {notin : Bool} {k : Nat} {ty : js_AstType} {A B : js_Ast}
    {J J2 : js_State} {r : Res js_Ast}
    (hk : 1 ≤ k ∧ k ≤ 8) (hop : binop notin J.lookahead = some (k, ty))
    (hB : Yields (levelFn notin (k - 1)) (nextState J) (.ok B J2))
    (hr : Yields (fun R => loopFn notin k R (js_Ast.new ty J2.astline A B .NULL .NULL)) J2 r) :
    Yields (fun R => loopFn notin k R A) J r := by
  obtain ⟨n1, hB⟩ := hB
  obtain ⟨n2, hr⟩ := hr
  refine ⟨max n1 n2 + 1, fun m hm => ?_⟩
  obtain ⟨j, rfl⟩ : ∃ j, m = j + 1 := ⟨m - 1, by omega⟩
  have hB := hB (j + 1) (by omega)
  have hr := hr j (by omega)
  have hn : J.lookahead = .TK_IN → notin = false := fun h => binop_in (h ▸ hop)
  have hs := binop_some hop
  repeat' (refine Or.elim hs (fun hs => ?_) (fun hs => ?_))
  all_goals obtain ⟨rfl, ht, rfl⟩ := hs
  all_goals first
    | (exfalso; omega)
    | (have hn' := hn ht
       subst hn'
       simp [levelFn, loopFn] at hB hr ⊢
       simp only [relational_loop, bind_apply, jsP_accept_apply,
         ht, hB, EXP2_apply, pure_apply, reduceCtorEq, ↓reduceIte, Bool.not_false]
       simp only [run_succ, step, hr])
    | (simp [levelFn, loopFn] at hB hr ⊢
       simp only [multiplicative_loop, additive_loop, shift_loop, relational_loop,
         equality_loop, bitand_loop, bitxor_loop, bitor_loop, bind_apply, jsP_accept_apply,
         ht, hB, EXP2_apply, pure_apply, reduceCtorEq, ↓reduceIte, Bool.not_false]
       simp only [run_succ, step, hr])

/-- A left-associating level parses its first operand at the next tighter
level and enters its loop. -/
theorem level_loop {notin : Bool} {k : Nat} {A : js_Ast} {J J1 : js_State}
    {r : Res js_Ast} (hk : 1 ≤ k ∧ k ≤ 8)
    (hA : Yields (levelFn notin (k - 1)) J (.ok A J1))
    (hr : Yields (fun R => loopFn notin k R A) J1 r) :
    Yields (levelFn notin k) J r := by
  obtain ⟨n1, hA⟩ := hA
  obtain ⟨n2, hr⟩ := hr
  refine ⟨max n1 n2, fun m hm => ?_⟩
  have hA := hA m (by omega)
  have hr := hr m (by omega)
  obtain ⟨h1, h8⟩ := hk
  interval_cases k <;> simp [levelFn, loopFn] at hA hr ⊢
  · simp only [multiplicative, bind_apply, hA, hr]
  · simp only [additive, bind_apply, hA, hr]
  · simp only [shift, bind_apply, hA, hr]
  · simp only [relational, bind_apply, hA, hr]
  · simp only [equality, bind_apply, hA, hr]
  · simp only [bitand, bind_apply, hA, hr]
  · simp only [bitxor, bind_apply, hA, hr]
  · simp only [bitor, bind_apply, hA, hr]

theorem levelFn_zero (notin : Bool) : levelFn notin 0 = fun R => unary R := rfl

theorem levelFn_nine (notin : Bool) : levelFn notin 9 = fun R => logand R notin := by
  simp [levelFn]

theorem levelFn_ten (notin : Bool) : levelFn notin 10 = fun R => logor R notin := by
  simp [levelFn]

theorem levelFn_eleven (notin : Bool) :
    levelFn notin 11 = fun R => conditional R notin := by
  simp [levelFn]

theorem levelFn_twelve (notin : Bool) :
    levelFn notin 12 = fun R => assignment R notin := by
  simp [levelFn]

theorem levelFn_thirteen (notin : Bool) :
    levelFn notin 13 = fun R => expression R notin := by
  simp [levelFn]

/-- The levels `logand` and `logor` at a token that is not their operator. -/
theorem level_pass_right {notin : Bool} {k : Nat} {A : js_Ast} {J J1 : js_State}
    (hk : k = 9 ∨ k = 10) (hA : Yields (levelFn notin (k - 1)) J (.ok A J1))
    (hno : ∀ ty, binop notin J1.lookahead ≠ some (k, ty)) :
    Yields (levelFn notin k) J (.ok A J1) := by
  obtain ⟨n1, hA⟩ := hA
  refine ⟨n1, fun m hm => ?_⟩
  have hA := hA m hm
  rcases hk with rfl | rfl
  · have a1 := ne_of_binop hno (x := .TK_AND) rfl
    simp [levelFn] at hA ⊢
    simp [logand, hA, jsP_accept_ne a1]
  · have a1 := ne_of_binop hno (x := .TK_OR) rfl
    simp [levelFn] at hA ⊢
    simp [logor, hA, jsP_accept_ne a1]

/-- The levels `logand` and `logor` at their operator: the right operand is
parsed by the level itself. -/
theorem level_right {notin : Bool} {k : Nat} {ty : js_AstType} {A B : js_Ast}
    {J J1 J2 : js_State} (hk : k = 9 ∨ k = 10)
    (hA : Yields (levelFn notin (k - 1)) J (.ok A J1))
    (hop : binop notin J1.lookahead = some (k, ty))
    (hB : Yields (levelFn notin k) (nextState J1) (.ok B J2)) :
    Yields (levelFn notin k) J (.ok (js_Ast.new ty J2.astline A B .NULL .NULL) J2) := by
  obtain ⟨n1, hA⟩ := hA
  obtain ⟨n2, hB⟩ := hB
  refine ⟨max n1 n2 + 1, fun m hm => ?_⟩
  obtain ⟨j, rfl⟩ : ∃ j, m = j + 1 := ⟨m - 1, by omega⟩
  have hA := hA (j + 1) (by omega)
  have hB := hB j (by omega)
  have hs := binop_some hop
  rcases hk with rfl | rfl
  · have ht : J1.lookahead = .TK_AND ∧ ty = .EXP_LOGAND := by
      repeat' (refine Or.elim hs (fun hs => ?_) (fun hs => ?_))
      all_goals first
        | exact ⟨hs.2.1, hs.2.2⟩
        | exact absurd hs.1 (by decide)
    obtain ⟨ht, rfl⟩ := ht
    simp [levelFn] at hA hB ⊢
    rw [logand]
    simp [hA, jsP_accept_eq ht, step, hB]
  · have ht : J1.lookahead = .TK_OR ∧ ty = .EXP_LOGOR := by
      repeat' (refine Or.elim hs (fun hs => ?_) (fun hs => ?_))
      all_goals first
        | exact ⟨hs.2.1, hs.2.2⟩
        | exact absurd hs.1 (by decide)
    obtain ⟨ht, rfl⟩ := ht
    simp [levelFn] at hA hB ⊢
    rw [logor]
    simp [hA, jsP_accept_eq ht, step, hB]

/-- A binary level whose first operand is not followed by one of its
operators returns that operand. -/
theorem level_pass {notin : Bool} {k : Nat} {A : js_Ast} {J J1 : js_State}
    (hk : 1 ≤ k ∧ k ≤ 10) (hA : Yields (levelFn notin (k - 1)) J (.ok A J1))
    (hno : ∀ ty, binop notin J1.lookahead ≠ some (k, ty)) :
    Yields (levelFn notin k) J (.ok A J1) := by
  by_cases h8 : k ≤ 8
  · exact level_loop ⟨hk.1, h8⟩ hA (loop_done ⟨hk.1, h8⟩ hno)
  · exact level_pass_right (by omega) hA hno

/-- A binary level on `A op B`, with `op` one of its operators and no
operator of the level after `B`. -/
theorem level_bin {notin : Bool} {k : Nat} {ty : js_AstType} {A B : js_Ast}
    {J J1 J2 : js_State} (hk : 1 ≤ k ∧ k ≤ 10)
    (hA : Yields (levelFn notin (k - 1)) J (.ok A J1))
    (hop : binop notin J1.lookahead = some (k, ty))
    (hB : Yields (levelFn notin (k - 1)) (nextState J1) (.ok B J2))
    (hno : ∀ ty, binop notin J2.lookahead ≠ some (k, ty)) :
    Yields (levelFn notin k) J (.ok (js_Ast.new ty J2.astline A B .NULL .NULL) J2) := by
  by_cases h8 : k ≤ 8
  · exact level_loop ⟨hk.1, h8⟩ hA
      (loop_step ⟨hk.1, h8⟩ hop hB (loop_done ⟨hk.1, h8⟩ hno))
  · exact level_right (by omega) hA hop (level_pass_right (by omega) hB hno)

/-- An operand parsed at level `j` is returned unchanged by every level up to
`k` when the token after it is no operator of the levels in between. -/
theorem level_lift {notin : Bool} {j k : Nat} {A : js_Ast} {J J1 : js_State}
    (hjk : j ≤ k) (hk : k ≤ 10) (hA : Yields (levelFn notin j) J (.ok A J1))
    (hno : ∀ i ty, j < i → i ≤ k → binop notin J1.lookahead ≠ some (i, ty)) :
    Yields (levelFn notin k) J (.ok A J1) := by
  induction k, hjk using Nat.le_induction with
  | base => exact hA
  | succ n hjn ih =>
    have h := ih (by omega) (fun i ty h1 h2 => hno i ty h1 (by omega))
    exact level_pass (k := n + 1) ⟨by omega, hk⟩ (by simpa using h)
      (fun ty => hno (n + 1) ty (by omega) (by omega))

/-- The level `conditional` without a `?`. -/
theorem conditional_pass {notin : Bool} {A : js_Ast} {J J1 : js_State}
    (hA : Yields (levelFn notin 10) J (.ok A J1)) (hq : J1.lookahead ≠ Tok.QUESTION) :
    Yields (levelFn notin 11) J (.ok A J1) := by
  obtain ⟨n1, hA⟩ := hA
  refine ⟨n1, fun m hm => ?_⟩
  have hA := hA m hm
  rw [levelFn_ten] at hA
  rw [levelFn_eleven]
  simp [conditional, hA, jsP_accept_ne hq]

theorem assignop_some {t : Tok} {ty : js_AstType} (h : assignop t = some ty) :
    (t = .ASSIGN ∧ ty = .EXP_ASS) ∨ (t = .TK_MUL_ASS ∧ ty = .EXP_ASS_MUL) ∨
    (t = .TK_DIV_ASS ∧ ty = .EXP_ASS_DIV) ∨ (t = .TK_MOD_ASS ∧ ty = .EXP_ASS_MOD) ∨
    (t = .TK_ADD_ASS ∧ ty = .EXP_ASS_ADD) ∨ (t = .TK_SUB_ASS ∧ ty = .EXP_ASS_SUB) ∨
    (t = .TK_SHL_ASS ∧ ty = .EXP_ASS_SHL) ∨ (t = .TK_SHR_ASS ∧ ty = .EXP_ASS_SHR) ∨
    (t = .TK_USHR_ASS ∧ ty = .EXP_ASS_USHR) ∨ (t = .TK_AND_ASS ∧ ty = .EXP_ASS_BITAND) ∨
    (t = .TK_XOR_ASS ∧ ty = .EXP_ASS_BITXOR) ∨ (t = .TK_OR_ASS ∧ ty = .EXP_ASS_BITOR) := by
  cases t <;> simp [assignop] at h <;> subst h <;> simp

theorem ne_of_assignop {t x : Tok} {ty0 : js_AstType}
    (hno : assignop t = none) (hx : assignop x = some ty0) : t ≠ x :=
  fun h => by rw [h, hx] at hno; exact absurd hno (by simp)

/-- The level `assignment` without an assignment operator. -/
theorem assignment_pass {notin : Bool} {A : js_Ast} {J J1 : js_State}
    (hA : Yields (levelFn notin 11) J (.ok A J1)) (hno : assignop J1.lookahead = none) :
    Yields (levelFn notin 12) J (.ok A J1) := by
  obtain ⟨n1, hA⟩ := hA
  refine ⟨n1, fun m hm => ?_⟩
  have hA := hA m hm
  rw [levelFn_eleven] at hA
  rw [levelFn_twelve]
  simp [assignment, hA, jsP_accept_ne (ne_of_assignop hno (x := .ASSIGN) rfl),
    jsP_accept_ne (ne_of_assignop hno (x := .TK_MUL_ASS) rfl),
    jsP_accept_ne (ne_of_assignop hno (x := .TK_DIV_ASS) rfl),
    jsP_accept_ne (ne_of_assignop hno (x := .TK_MOD_ASS) rfl),
    jsP_accept_ne (ne_of_assignop hno (x := .TK_ADD_ASS) rfl),
    jsP_accept_ne (ne_of_assignop hno (x := .TK_SUB_ASS) rfl),
    jsP_accept_ne (ne_of_assignop hno (x := .TK_SHL_ASS) rfl),
    jsP_accept_ne (ne_of_assignop hno (x := .TK_SHR_ASS) rfl),
    jsP_accept_ne (ne_of_assignop hno (x := .TK_USHR_ASS) rfl),
    jsP_accept_ne (ne_of_assignop hno (x := .TK_AND_ASS) rfl),
    jsP_accept_ne (ne_of_assignop hno (x := .TK_XOR_ASS) rfl),
    jsP_accept_ne (ne_of_assignop hno (x := .TK_OR_ASS) rfl)]

/-- The level `assignment` at an assignment operator: the right operand is
parsed by `assignment` itself. -/
theorem assignment_right {notin : Bool} {ty : js_AstType} {A B : js_Ast}
    {J J1 J2 : js_State} (hA : Yields (levelFn notin 11) J (.ok A J1))
    (hop : assignop J1.lookahead = some ty)
    (hB : Yields (levelFn notin 12) (nextState J1) (.ok B J2)) :
    Yields (levelFn notin 12) J (.ok (js_Ast.new ty J2.astline A B .NULL .NULL) J2) := by
  obtain ⟨n1, hA⟩ := hA
  obtain ⟨n2, hB⟩ := hB
  refine ⟨max n1 n2 + 1, fun m hm => ?_⟩
  obtain ⟨j, rfl⟩ : ∃ j, m = j + 1 := ⟨m - 1, by omega⟩
  have hA := hA (j + 1) (by omega)
  have hB := hB j (by omega)
  rw [levelFn_eleven] at hA
  rw [levelFn_twelve] at hB ⊢
  dsimp only at hA hB ⊢
  rw [assignment]
  have hs := assignop_some hop
  repeat' (refine Or.elim hs (fun hs => ?_) (fun hs => ?_))
  all_goals obtain ⟨ht, rfl⟩ := hs
  all_goals simp [hA, jsP_accept_apply, ht, step, hB]

/-- The loop of `expression` stops at a token other than `,`. -/
theorem expression_loop_done {notin : Bool} {A : js_Ast} {J : js_State}
    (hc : J.lookahead ≠ Tok.COMMA) :
    Yields (fun R => expression_loop R notin A) J (.ok A J) :=
  Yields.of_eq fun R => by simp [expression_loop, jsP_accept_ne hc]

/-- The loop of `expression` at `,`. -/
theorem expression_loop_step {notin : Bool} {A B : js_Ast} {J J2 : js_State}
    {r : Res js_Ast} (hc : J.lookahead = Tok.COMMA)
    (hB : Yields (levelFn notin 12) (nextState J) (.ok B J2))
    (hr : Yields (fun R => expression_loop R notin
      (js_Ast.new .EXP_COMMA J2.astline A B .NULL .NULL)) J2 r) :
    Yields (fun R => expression_loop R notin A) J r := by
  obtain ⟨n1, hB⟩ := hB
  obtain ⟨n2, hr⟩ := hr
  refine ⟨max n1 n2 + 1, fun m hm => ?_⟩
  obtain ⟨j, rfl⟩ : ∃ j, m = j + 1 := ⟨m - 1, by omega⟩
  have hB := hB (j + 1) (by omega)
  have hr := hr j (by omega)
  rw [levelFn_twelve] at hB
  dsimp only at hB hr ⊢
  rw [expression_loop]
  simp [jsP_accept_eq hc, hB, step, hr]

/-- The function `expression` parses an `assignment` and enters its loop. -/
theorem expression_loop_enter {notin : Bool} {A : js_Ast} {J J1 : js_State}
    {r : Res js_Ast} (hA : Yields (levelFn notin 12) J (.ok A J1))
    (hr : Yields (fun R => expression_loop R notin A) J1 r) :
    Yields (fun R => expression R notin) J r := by
  obtain ⟨n1, hA⟩ := hA
  obtain ⟨n2, hr⟩ := hr
  refine ⟨max n1 n2, fun m hm => ?_⟩
  have hA := hA m (by omega)
  have hr := hr m (by omega)
  rw [levelFn_twelve] at hA
  dsimp only at hA hr ⊢
  simp [expression, hA, hr]

/-- An operand parsed at a binary level `k` and followed by a token that
continues no expression is the result of `expression`. -/
theorem expression_of_level {notin : Bool} {k : Nat} {A : js_Ast} {J J1 : js_State}
    (hk : k ≤ 10) (hA : Yields (levelFn notin k) J (.ok A J1))
    (hend : endsExpression notin J1.lookahead) :
    Yields (fun R => expression R notin) J (.ok A J1) := by
  obtain ⟨h1, h2, h3, h4⟩ := hend
  have h10 := level_lift hk (le_refl 10) hA (fun i ty _ _ => by simp [h1])
  exact expression_loop_enter (assignment_pass (conditional_pass h10 h3) h2)
    (expression_loop_done h4)

/-! ## Operands -/

@[simp] theorem jsP_newnumnode_apply (t : js_AstType) (x : Dbl) (J : js_State) :
    jsP_newnumnode t x J = .ok (js_Ast.numnode t J.astline x) J := rfl

@[simp] theorem jsP_newstrnode_apply (t : js_AstType) (s : String) (J : js_State) :
    jsP_newstrnode t s J = .ok (js_Ast.strnode t J.astline s) J := rfl

/-- The function `checkfutureword` accepts a word outside both lists. -/
theorem checkfutureword_ok {s : String} {J : js_State}
    (h1 : jsY_findword s futurewords = false)
    (h2 : J.strict = false ∨ jsY_findword s strictfuturewords = false) :
    checkfutureword s J = .ok () J := by
  rcases h2 with h2 | h2 <;> simp [checkfutureword, h1, h2]

/-- The function `primary` on a number token. -/
theorem primary_number {R : Rec} {J : js_State} (h : J.lookahead = Tok.TK_NUMBER) :
    primary R J = .ok (js_Ast.numnode .EXP_NUMBER J.astline J.number) (nextState J) := by
  simp [primary, h]

/-- The function `primary` on an identifier token that is no reserved word. -/
theorem primary_identifier {R : Rec} {J : js_State} (h : J.lookahead = Tok.TK_IDENTIFIER)
    (h1 : jsY_findword J.text futurewords = false)
    (h2 : J.strict = false ∨ jsY_findword J.text strictfuturewords = false) :
    primary R J = .ok (js_Ast.strnode .EXP_IDENTIFIER J.astline J.text) (nextState J) := by
  simp [primary, h, checkfutureword_ok h1 h2]

/-- An operand that `primary` parses is the result of `unary` when no prefix
operator starts it and no postfix-level token follows it. -/
theorem unary_of_primary {A : js_Ast} {J J1 : js_State}
    (hp : Yields (fun R => primary R) J (.ok A J1)) (h0 : prefixTok J.lookahead = false)
    (h1 : endsOperand J1) : Yields (fun R => unary R) J (.ok A J1) := by
  obtain ⟨n, hp⟩ := hp
  refine ⟨n, fun m hm => ?_⟩
  have hp := hp m hm
  dsimp only at hp ⊢
  obtain ⟨e1, e2, e3, e4⟩ := h1
  have a : ∀ x, prefixTok x = true → jsP_accept x J = .ok false J := fun x hx =>
    jsP_accept_ne (fun h => by rw [h, hx] at h0; exact absurd h0 (by simp))
  simp only [unary, bind_apply, a _ (rfl : prefixTok .TK_DELETE = true),
    a _ (rfl : prefixTok .TK_IMPORT = true), a _ (rfl : prefixTok .TK_VOID = true),
    a _ (rfl : prefixTok .TK_TYPEOF = true), a _ (rfl : prefixTok .TK_INC = true),
    a _ (rfl : prefixTok .TK_DEC = true), a _ (rfl : prefixTok .PLUS = true),
    a _ (rfl : prefixTok .MINUS = true), a _ (rfl : prefixTok .TILDE = true),
    a _ (rfl : prefixTok .BANG = true), postfixexp, callexp, newexp,
    a _ (rfl : prefixTok .TK_NEW = true), a _ (rfl : prefixTok .TK_FUNCTION = true), hp,
    callexp_loop, jsP_accept_ne e1, jsP_accept_ne e2, jsP_accept_ne e3, getJ_apply,
    pure_apply, Bool.false_eq_true, ↓reduceIte]
  rcases e4 with e4 | ⟨e4, e5⟩
  · simp [e4]
  · cases hn : J1.newline <;> simp [hn, jsP_accept_ne e4, jsP_accept_ne e5]

/-- The function `unary` on a number token. -/
theorem unary_number {J : js_State} (h : J.lookahead = Tok.TK_NUMBER)
    (h1 : endsOperand (nextState J)) :
    Yields (fun R => unary R) J
      (.ok (js_Ast.numnode .EXP_NUMBER J.astline J.number) (nextState J)) :=
  unary_of_primary (Yields.of_eq fun _ => primary_number h) (by simp [h, prefixTok]) h1

/-- The function `unary` on an identifier token that is no reserved word. -/
theorem unary_identifier {J : js_State} (h : J.lookahead = Tok.TK_IDENTIFIER)
    (hw1 : jsY_findword J.text futurewords = false)
    (hw2 : J.strict = false ∨ jsY_findword J.text strictfuturewords = false)
    (h1 : endsOperand (nextState J)) :
    Yields (fun R => unary R) J
      (.ok (js_Ast.strnode .EXP_IDENTIFIER J.astline J.text) (nextState J)) :=
  unary_of_primary (Yields.of_eq fun _ => primary_identifier h hw1 hw2)
    (by simp [h, prefixTok]) h1

theorem binop_range {notin : Bool} {t : Tok} {k : Nat} {ty : js_AstType}
    (h : binop notin t = some (k, ty)) : 1 ≤ k ∧ k ≤ 10 := by
  have hs := binop_some h
  repeat' (refine Or.elim hs (fun hs => ?_) (fun hs => ?_))
  all_goals omega

theorem binop_level_ne {notin : Bool} {t : Tok} {k i : Nat} {ty ty' : js_AstType}
    (h : binop notin t = some (k, ty)) (hne : i ≠ k) : binop notin t ≠ some (i, ty') := by
  intro h'
  rw [h] at h'
  simp at h'
  omega

/-! ## Exact arithmetic on small integers -/

theorem Dbl.roundHalfEven_one (n : Nat) : Dbl.roundHalfEven n 1 = n := by
  simp [Dbl.roundHalfEven, Nat.mod_one]

theorem Dbl.roundHalfEven_mul (m d : Nat) (hd : 0 < d) : Dbl.roundHalfEven (m * d) d = m := by
  have h1 : m * d / d = m := Nat.mul_div_cancel m hd
  have h2 : m * d % d = 0 := Nat.mul_mod_left m d
  simp [Dbl.roundHalfEven, h1, h2, hd]

theorem Dbl.binade_nat (N : Nat) (hN : 0 < N) : Dbl.binade N 1 = (Nat.log2 N : Int) := by
  have h1 : Nat.log2 1 = 0 := by simp [Nat.log2]
  have h2 : 2 ^ Nat.log2 N ≤ N := Nat.log2_self_le (by omega)
  simp only [Dbl.binade, h1]
  simp
  omega

theorem Dbl.round_of_int (q : ℚ) (hq : q ≠ 0) (hden : q.den = 1)
    (hb : q.num.natAbs ≤ 2 ^ 53) : Dbl.round q = Dbl.fin q := by
  have hnum : q.num ≠ 0 := fun h => hq (Rat.zero_of_num_zero h)
  have hN : 0 < q.num.natAbs := Int.natAbs_pos.mpr hnum
  have hL : Nat.log2 q.num.natAbs < 54 :=
    (Nat.log2_lt (by omega)).mpr (lt_of_le_of_lt hb (by norm_num))
  have hpow : 2 ^ Nat.log2 q.num.natAbs ≤ q.num.natAbs := Nat.log2_self_le (by omega)
  have habs : |q| = (q.num.natAbs : ℚ) := by
    have h1 : (q.num : ℚ) = q := by
      have := Rat.num_div_den q
      rw [hden] at this
      simpa using this
    calc |q| = |(q.num : ℚ)| := by rw [h1]
      _ = ((|q.num| : Int) : ℚ) := by rw [Int.cast_abs]
      _ = (q.num.natAbs : ℚ) := by rw [Int.abs_eq_natAbs, Int.cast_natCast]
  have hr : (if 0 ≤ ((Nat.log2 q.num.natAbs : Int) - 52) then
      ((if 0 ≤ ((Nat.log2 q.num.natAbs : Int) - 52) then
          Dbl.roundHalfEven q.num.natAbs (1 * 2 ^ ((Nat.log2 q.num.natAbs : Int) - 52).toNat)
        else Dbl.roundHalfEven
          (q.num.natAbs * 2 ^ (-((Nat.log2 q.num.natAbs : Int) - 52)).toNat) 1 : Nat) : ℚ) *
        2 ^ ((Nat.log2 q.num.natAbs : Int) - 52).toNat
      else ((if 0 ≤ ((Nat.log2 q.num.natAbs : Int) - 52) then
          Dbl.roundHalfEven q.num.natAbs (1 * 2 ^ ((Nat.log2 q.num.natAbs : Int) - 52).toNat)
        else Dbl.roundHalfEven
          (q.num.natAbs * 2 ^ (-((Nat.log2 q.num.natAbs : Int) - 52)).toNat) 1 : Nat) : ℚ) /
        2 ^ (-((Nat.log2 q.num.natAbs : Int) - 52)).toNat) = (q.num.natAbs : ℚ) := by
    by_cases hs : 0 ≤ ((Nat.log2 q.num.natAbs : Int) - 52)
    · simp only [hs, if_true]
      have h52 : Nat.log2 q.num.natAbs = 52 ∨ Nat.log2 q.num.natAbs = 53 := by omega
      rcases h52 with h52 | h52
      · simp [h52, Dbl.roundHalfEven_one]
      · have hN53 : q.num.natAbs = 2 ^ 53 := by
          rw [h52] at hpow
          omega
        rw [h52, hN53]
        have : Dbl.roundHalfEven (2 ^ 53) (1 * 2 ^ ((53 : Int) - 52).toNat) = 2 ^ 52 := by
          have h := Dbl.roundHalfEven_mul (2 ^ 52) 2 (by norm_num)
          norm_num at h ⊢
          exact h
        simp only [Nat.cast_ofNat] at this ⊢
        rw [this]
        norm_num
    · simp only [hs, if_false, Dbl.roundHalfEven_one]
      push_cast
      field_simp
  unfold Dbl.round
  simp only [hq, if_false, hden, Dbl.binade_nat _ hN]
  rw [hr]
  have h1 : ¬ (2 : ℚ) ^ 1024 ≤ (q.num.natAbs : ℚ) := by
    have : (q.num.natAbs : ℚ) ≤ 2 ^ 53 := by exact_mod_cast hb
    have h2 : (2 : ℚ) ^ 53 < 2 ^ 1024 := by norm_num
    linarith
  have h2 : (q.num.natAbs : ℚ) ≠ 0 := by exact_mod_cast (by omega : q.num.natAbs ≠ 0)
  simp only [h1, h2, if_false]
  congr 1
  rw [← habs]
  split
  · rename_i h
    rw [abs_of_neg h, neg_neg]
  · rename_i h
    rw [abs_of_nonneg (not_lt.mp h)]

/-- Rounding leaves an integer of magnitude at most `2 ^ 53` as it is. -/
theorem Dbl.round_int (n : Int) (hb : |n| ≤ 2 ^ 53) : Dbl.round (n : ℚ) = Dbl.fin n := by
  by_cases h0 : n = 0
  · subst h0
    simp [Dbl.round]
  · apply Dbl.round_of_int
    · exact_mod_cast h0
    · simp
    · simp only [Rat.num_intCast]
      have : (n.natAbs : Int) = |n| := (Int.abs_eq_natAbs n).symm
      omega

/-- The sum of two integers is exact when it has magnitude at most `2 ^ 53`. -/
theorem Dbl.add_int (a b : Int) (h : |a + b| ≤ 2 ^ 53) :
    Dbl.add (Dbl.fin a) (Dbl.fin b) = Dbl.fin ((a + b : Int) : ℚ) := by
  have hr := Dbl.round_int (a + b) h
  by_cases h0 : a + b = 0
  · have h0' : (a : ℚ) + (b : ℚ) = 0 := by exact_mod_cast h0
    have hs : ¬ (a < 0 ∧ b < 0) := by omega
    have hs' : ((decide ((a : ℚ) < 0)) && (decide ((b : ℚ) < 0))) = false := by
      simp only [Int.cast_lt_zero, Bool.and_eq_false_imp, decide_eq_true_eq, decide_eq_false_iff_not]
      omega
    simp only [Dbl.add, Dbl.val, Dbl.signbit, h0', Dbl.zero, h0, hs', if_true]
    simp
  · have h0' : ¬ ((a : ℚ) + (b : ℚ) = 0) := by exact_mod_cast h0
    simp only [Dbl.add, Dbl.val, h0', if_false]
    rw [← hr]
    push_cast
    rfl

/-- The difference of two integers is exact when it has magnitude at most `2 ^ 53`. -/
theorem Dbl.sub_int (a b : Int) (h : |a - b| ≤ 2 ^ 53) :
    Dbl.sub (Dbl.fin a) (Dbl.fin b) = Dbl.fin ((a - b : Int) : ℚ) := by
  by_cases hb : b = 0
  · subst hb
    have hr := Dbl.round_int a (by simpa using h)
    by_cases ha : a = 0
    · subst ha
      simp [Dbl.sub, Dbl.neg, Dbl.add, Dbl.val, Dbl.signbit, Dbl.zero]
    · have ha' : ¬ ((a : ℚ) = 0) := by exact_mod_cast ha
      simp [Dbl.sub, Dbl.neg, Dbl.add, Dbl.val, ha', hr]
  · have hb' : ¬ ((b : ℚ) = 0) := by exact_mod_cast hb
    have h1 := Dbl.add_int a (-b) (by simpa [sub_eq_add_neg] using h)
    simp only [Dbl.sub, Dbl.neg, hb', if_false]
    rw [show (-(b : ℚ)) = ((-b : Int) : ℚ) by push_cast; rfl, h1]
    simp [sub_eq_add_neg]

/-- The product of two non-negative integers is exact when it is at most `2 ^ 53`. -/
theorem Dbl.mul_int (a b : Int) (ha : 0 ≤ a) (hb : 0 ≤ b) (h : a * b ≤ 2 ^ 53) :
    Dbl.mul (Dbl.fin a) (Dbl.fin b) = Dbl.fin ((a * b : Int) : ℚ) := by
  have hab : 0 ≤ a * b := mul_nonneg ha hb
  have hr := Dbl.round_int (a * b) (by rw [abs_of_nonneg hab]; exact h)
  have sa : decide ((a : ℚ) < 0) = false := by
    simp only [Int.cast_lt_zero, decide_eq_false_iff_not]
    omega
  have sb : decide ((b : ℚ) < 0) = false := by
    simp only [Int.cast_lt_zero, decide_eq_false_iff_not]
    omega
  by_cases h0 : a * b = 0
  · have h0' : (a : ℚ) * (b : ℚ) = 0 := by exact_mod_cast h0
    simp only [Dbl.mul, Dbl.val, h0', if_true, Dbl.signbit, sa, sb, Dbl.zero, h0]
    simp
  · have h0' : ¬ ((a : ℚ) * (b : ℚ) = 0) := by exact_mod_cast h0
    simp only [Dbl.mul, Dbl.val, h0', if_false]
    rw [← hr]
    push_cast
    rfl

/-! ## Token positions -/

theorem At.start (J : js_State) : At (nextState J) J.source := ⟨J, rfl, rfl⟩

theorem At.cons {J : js_State} {t : Token} {ts : List Token} (h : At J (t :: ts)) :
    J.lookahead = t.kind ∧ J.number = t.number ∧ J.text = t.text ∧
      J.newline = t.newline ∧ J.source = ts := by
  obtain ⟨J0, h0, rfl⟩ := h
  simp [nextState, h0]

theorem At.nil {J : js_State} (h : At J []) : J.lookahead = Tok.EOF ∧ J.source = [] := by
  obtain ⟨J0, h0, rfl⟩ := h
  simp [nextState, h0]

theorem At.next {J : js_State} {t : Token} {ts : List Token} (h : At J (t :: ts)) :
    At (nextState J) ts := by
  have := At.start J
  rwa [h.cons.2.2.2.2] at this

/-! ## Statement termination, expression statements and the program level -/

/-- The function `jsP_semicolon` at `;`: it consumes the token. -/
theorem jsP_semicolon_semi {J : js_State} (h : J.lookahead = Tok.SEMI) :
    jsP_semicolon J = .ok () (nextState J) := by
  simp [jsP_semicolon, h]

/-- The function `jsP_semicolon` at a token preceded by a newline, at `}` or at
end of input: it consumes nothing. -/
theorem jsP_semicolon_auto {J : js_State} (h : J.lookahead ≠ Tok.SEMI)
    (h1 : J.newline = true ∨ J.lookahead = Tok.RBRACE ∨ J.lookahead = Tok.EOF) :
    jsP_semicolon J = .ok () J := by
  rcases h1 with h1 | h1 | h1 <;> simp [jsP_semicolon, h, h1]

/-- The function `jsP_semicolon` in every other state: the syntax error. -/
theorem jsP_semicolon_error {J : js_State} (h : J.lookahead ≠ Tok.SEMI)
    (h1 : J.newline = false) (h2 : J.lookahead ≠ Tok.RBRACE) (h3 : J.lookahead ≠ Tok.EOF) :
    jsP_semicolon J = .error (snprintf256 (J.filename ++ ":" ++ toString J.lexline ++ ": ") ++
      ("unexpected token: " ++ jsY_tokenstring J.lookahead ++ " (expected ';')")) := by
  simp [jsP_semicolon, h, h1, h2, h3, jsP_error,
    snprintf256_token_tail "unexpected token: " " (expected ';')" _ (by decide)]

theorem jsP_accept_statementTok {x : Tok} {J : js_State}
    (h0 : statementTok J.lookahead = false) (hx : statementTok x = true) :
    jsP_accept x J = .ok false J :=
  jsP_accept_ne (fun h => by rw [h, hx] at h0; exact absurd h0 (by simp))

/-- The plain expression statement: `statement` at a token that starts none of
its other branches parses an expression and the statement terminator. -/
theorem statement_expression {A : js_Ast} {J J1 J2 : js_State}
    (h0 : statementTok J.lookahead = false)
    (hA : Yields (fun R => expression R false) J (.ok A J1))
    (hs : jsP_semicolon J1 = .ok () J2) :
    Yields (fun R => statement R) J (.ok A J2) := by
  obtain ⟨n, hA⟩ := hA
  refine ⟨n, fun m hm => ?_⟩
  have hA := hA m hm
  dsimp only at hA ⊢
  have a := fun x hx => jsP_accept_statementTok (x := x) h0 hx
  have b1 : J.lookahead ≠ Tok.LBRACE := fun h => by simp [h, statementTok] at h0
  have b2 : J.lookahead ≠ Tok.TK_IDENTIFIER := fun h => by simp [h, statementTok] at h0
  simp only [statement, bind_apply, getJ_apply, b1, b2, ↓reduceIte,
    a _ (rfl : statementTok .TK_VAR = true), a _ (rfl : statementTok .SEMI = true),
    a _ (rfl : statementTok .TK_IF = true), a _ (rfl : statementTok .TK_DO = true),
    a _ (rfl : statementTok .TK_WHILE = true), a _ (rfl : statementTok .TK_FOR = true),
    a _ (rfl : statementTok .TK_CONTINUE = true), a _ (rfl : statementTok .TK_BREAK = true),
    a _ (rfl : statementTok .TK_RETURN = true), a _ (rfl : statementTok .TK_WITH = true),
    a _ (rfl : statementTok .TK_SWITCH = true), a _ (rfl : statementTok .TK_THROW = true),
    a _ (rfl : statementTok .TK_TRY = true), a _ (rfl : statementTok .TK_DEBUGGER = true),
    a _ (rfl : statementTok .TK_FUNCTION = true), Bool.false_eq_true, hA, hs, pure_apply]

/-- The function `scriptelement` at a token other than `function`. -/
theorem scriptelement_statement {J : js_State} {r : Res js_Ast}
    (h0 : J.lookahead ≠ Tok.TK_FUNCTION) (hA : Yields (fun R => statement R) J r) :
    Yields (fun R => scriptelement R) J r := by
  obtain ⟨n, hA⟩ := hA
  refine ⟨n, fun m hm => ?_⟩
  have hA := hA m hm
  dsimp only at hA ⊢
  simp [scriptelement, jsP_accept_ne h0, hA]

/-- The loop of `script` stops at the terminator. -/
theorem script_loop_done {terminator : Tok} {J : js_State} (h : J.lookahead = terminator) :
    Yields (fun R => script_loop R terminator) J (.ok .NULL J) :=
  Yields.of_eq fun R => by simp [script_loop, h]

/-- The loop of `script` before the terminator: one more cell. -/
theorem script_loop_step {terminator : Tok} {e rest : js_Ast} {J J1 J2 : js_State}
    (h : J.lookahead ≠ terminator)
    (he : Yields (fun R => scriptelement R) J (.ok e J1))
    (hr : Yields (fun R => script_loop R terminator) J1 (.ok rest J2)) :
    Yields (fun R => script_loop R terminator) J
      (.ok (js_Ast.new .AST_LIST J1.astline e rest .NULL .NULL) J2) := by
  obtain ⟨n1, he⟩ := he
  obtain ⟨n2, hr⟩ := hr
  refine ⟨max n1 n2 + 1, fun m hm => ?_⟩
  obtain ⟨j, rfl⟩ : ∃ j, m = j + 1 := ⟨m - 1, by omega⟩
  have he := he (j + 1) (by omega)
  have hr := hr j (by omega)
  dsimp only at he hr ⊢
  rw [script_loop]
  simp [h, he, step, hr]

/-- The function `script` before the terminator: the first cell and the loop. -/
theorem script_cons {terminator : Tok} {e rest : js_Ast} {J J1 J2 : js_State}
    (h : J.lookahead ≠ terminator)
    (he : Yields (fun R => scriptelement R) J (.ok e J1))
    (hr : Yields (fun R => script_loop R terminator) J1 (.ok rest J2)) :
    Yields (fun R => script R terminator) J
      (.ok (js_Ast.new .AST_LIST J1.astline e rest .NULL .NULL) J2) := by
  obtain ⟨n1, he⟩ := he
  obtain ⟨n2, hr⟩ := hr
  refine ⟨max n1 n2, fun m hm => ?_⟩
  have he := he m (by omega)
  have hr := hr m (by omega)
  dsimp only at he hr ⊢
  simp [script, h, he, hr]

/-- The function `jsP_parse` runs `script` from the first token and folds the
list it returns. -/
theorem jsP_parse_of_script {filename : String} {toks : List Token} {p : js_Ast}
    {J J1 : js_State}
    (h : Yields (fun R => script R Tok.EOF)
      (nextState { J with filename := filename, source := toks }) (.ok p J1)) :
    ∃ n, ∀ m, n ≤ m → jsP_parse m filename toks J =
      .ok (if p.isNull then p else (jsP_foldconst p).1) J1 := by
  obtain ⟨n, h⟩ := h
  refine ⟨n, fun m hm => ?_⟩
  have h := h m hm
  dsimp only at h
  cases hp : p.isNull <;> simp [jsP_parse, jsY_initlex, h, hp]

/-! ## C1: precedence between two binary operators of different levels -/

/-- C1.  For operands `a`, `b`, `c` (any operands that `unary` parses, primary
expressions in particular) and binary operators `op_l` of level `kl` and `op_t`
of a strictly tighter level `kt < kl`, among the ten levels from multiplicative
(1) to logical OR (10): parsing `a op_l b op_t c` as an expression yields
`op_l(a, op_t(b, c))`, and parsing `a op_t b op_l c` yields `op_l(op_t(a, b), c)`.
The sequence is read off the run: `unary` yields `a` and leaves the operator as
the lookahead, and so on; the token after `c` continues no expression. -/
theorem precedence_of_two_levels (notin : Bool) (kl kt : Nat) (tyl tyt : js_AstType)
    (hlt : kt < kl) :
    (∀ (J J1 J2 J3 : js_State) (A B C : js_Ast),
      Yields (fun R => unary R) J (.ok A J1) →
      binop notin J1.lookahead = some (kl, tyl) →
      Yields (fun R => unary R) (nextState J1) (.ok B J2) →
      binop notin J2.lookahead = some (kt, tyt) →
      Yields (fun R => unary R) (nextState J2) (.ok C J3) →
      endsExpression notin J3.lookahead →
      Yields (fun R => expression R notin) J
        (.ok (js_Ast.new tyl J3.astline A
          (js_Ast.new tyt J3.astline B C .NULL .NULL) .NULL .NULL) J3)) ∧
    (∀ (J J1 J2 J3 : js_State) (A B C : js_Ast),
      Yields (fun R => unary R) J (.ok A J1) →
      binop notin J1.lookahead = some (kt, tyt) →
      Yields (fun R => unary R) (nextState J1) (.ok B J2) →
      binop notin J2.lookahead = some (kl, tyl) →
      Yields (fun R => unary R) (nextState J2) (.ok C J3) →
      endsExpression notin J3.lookahead →
      Yields (fun R => expression R notin) J
        (.ok (js_Ast.new tyl J3.astline
          (js_Ast.new tyt J2.astline A B .NULL .NULL) C .NULL .NULL) J3)) := by
  constructor
  · intro J J1 J2 J3 A B C hA h1 hB h2 hC h3
    have rl := binop_range h1
    have rt := binop_range h2
    have hno3 : ∀ i ty, binop notin J3.lookahead ≠ some (i, ty) := fun i ty => by simp [h3.1]
    have hA' : Yields (levelFn notin (kl - 1)) J (.ok A J1) :=
      level_lift (Nat.zero_le _) (by omega) hA
        (fun i ty _ hi => binop_level_ne h1 (by omega))
    have hB' : Yields (levelFn notin (kt - 1)) (nextState J1) (.ok B J2) :=
      level_lift (Nat.zero_le _) (by omega) hB
        (fun i ty _ hi => binop_level_ne h2 (by omega))
    have hC' : Yields (levelFn notin (kt - 1)) (nextState J2) (.ok C J3) :=
      level_lift (Nat.zero_le _) (by omega) hC (fun i ty _ _ => hno3 i ty)
    have hBC := level_bin ⟨rt.1, rt.2⟩ hB' h2 hC' (hno3 kt)
    have hBC' := level_lift (k := kl - 1) (by omega) (by omega) hBC
      (fun i ty _ _ => hno3 i ty)
    exact expression_of_level rl.2 (level_bin rl hA' h1 hBC' (hno3 kl)) h3
  · intro J J1 J2 J3 A B C hA h1 hB h2 hC h3
    have rt := binop_range h1
    have rl := binop_range h2
    have hno3 : ∀ i ty, binop notin J3.lookahead ≠ some (i, ty) := fun i ty => by simp [h3.1]
    have hA' : Yields (levelFn notin (kt - 1)) J (.ok A J1) :=
      level_lift (Nat.zero_le _) (by omega) hA
        (fun i ty _ hi => binop_level_ne h1 (by omega))
    have hB' : Yields (levelFn notin (kt - 1)) (nextState J1) (.ok B J2) :=
      level_lift (Nat.zero_le _) (by omega) hB
        (fun i ty _ hi => binop_level_ne h2 (by omega))
    have hAB := level_bin rt hA' h1 hB' (fun ty => binop_level_ne h2 (by omega))
    have hAB' := level_lift (k := kl - 1) (by omega) (by omega) hAB
      (fun i ty _ _ => binop_level_ne h2 (by omega))
    have hC' : Yields (levelFn notin (kl - 1)) (nextState J2) (.ok C J3) :=
      level_lift (Nat.zero_le _) (by omega) hC (fun i ty _ _ => hno3 i ty)
    exact expression_of_level rl.2 (level_bin rl hAB' h2 hC' (hno3 kl)) h3

/-- C1 at `1 + 2 * 3`: the expression parses to `ADD(1, MUL(2, 3))`. -/
theorem precedence_of_two_levels_witness :
    Yields (fun R => expression R false)
      (startOf [.num 1, .of .PLUS, .num 2, .of .STAR, .num 3])
      (.ok (js_Ast.new .EXP_ADD 1 (js_Ast.numnode .EXP_NUMBER 0 (Dbl.fin 1))
        (js_Ast.new .EXP_MUL 1 (js_Ast.numnode .EXP_NUMBER 1 (Dbl.fin 2))
          (js_Ast.numnode .EXP_NUMBER 1 (Dbl.fin 3)) .NULL .NULL) .NULL .NULL)
        (nextState (nextState (nextState (nextState (nextState
          (startOf [.num 1, .of .PLUS, .num 2, .of .STAR, .num 3]))))))) :=
  (precedence_of_two_levels false 2 1 .EXP_ADD .EXP_MUL (by decide)).1
    (startOf [.num 1, .of .PLUS, .num 2, .of .STAR, .num 3])
    (nextState (startOf [.num 1, .of .PLUS, .num 2, .of .STAR, .num 3]))
    (nextState (nextState (nextState
      (startOf [.num 1, .of .PLUS, .num 2, .of .STAR, .num 3]))))
    (nextState (nextState (nextState (nextState (nextState
      (startOf [.num 1, .of .PLUS, .num 2, .of .STAR, .num 3]))))))
    _ _ _
    (unary_number rfl (by decide)) rfl (unary_number rfl (by decide)) rfl
    (unary_number rfl (by decide)) (by decide)

/-! ## C2: programs of integer literals fold to their value -/

theorem foldsTo_numnode (line : Nat) (v : ℚ) :
    FoldsTo (js_Ast.numnode .EXP_NUMBER line (Dbl.fin v)) v :=
  ⟨line, by simp [js_Ast.numnode, jsP_foldconst]⟩

theorem foldsTo_mul {A B : js_Ast} {a b : Int} (line : Nat) (hA : FoldsTo A a)
    (hB : FoldsTo B b) (ha : 0 ≤ a) (hb : 0 ≤ b) (h : a * b ≤ 2 ^ 53) :
    FoldsTo (js_Ast.new .EXP_MUL line A B .NULL .NULL) ((a * b : Int) : ℚ) := by
  obtain ⟨la, hA⟩ := hA
  obtain ⟨lb, hB⟩ := hB
  refine ⟨line, ?_⟩
  simp [js_Ast.new, jsP_foldconst, hA, hB, js_Ast.numnode, js_Ast.number, jsP_setnumnode,
    Dbl.mul_int a b ha hb h]

theorem foldsTo_add {A B : js_Ast} {a b : Int} (line : Nat) (hA : FoldsTo A a)
    (hB : FoldsTo B b) (h : |a + b| ≤ 2 ^ 53) :
    FoldsTo (js_Ast.new .EXP_ADD line A B .NULL .NULL) ((a + b : Int) : ℚ) := by
  obtain ⟨la, hA⟩ := hA
  obtain ⟨lb, hB⟩ := hB
  refine ⟨line, ?_⟩
  simp [js_Ast.new, jsP_foldconst, hA, hB, js_Ast.numnode, js_Ast.number, jsP_setnumnode,
    Dbl.add_int a b h]

theorem foldsTo_sub {A B : js_Ast} {a b : Int} (line : Nat) (hA : FoldsTo A a)
    (hB : FoldsTo B b) (h : |a - b| ≤ 2 ^ 53) :
    FoldsTo (js_Ast.new .EXP_SUB line A B .NULL .NULL) ((a - b : Int) : ℚ) := by
  obtain ⟨la, hA⟩ := hA
  obtain ⟨lb, hB⟩ := hB
  refine ⟨line, ?_⟩
  simp [js_Ast.new, jsP_foldconst, hA, hB, js_Ast.numnode, js_Ast.number, jsP_setnumnode,
    Dbl.sub_int a b h]

/-- The function `unary` on the token of an integer literal that no
postfix-level token follows. -/
theorem unary_lit {l : Lit} {ts : List Token} {J : js_State} (h : At J (l.tok :: ts))
    (he : endsOperand (nextState J)) :
    ∃ A, Yields (fun R => unary R) J (.ok A (nextState J)) ∧ FoldsTo A ((l.value : Int) : ℚ) ∧
      At (nextState J) ts := by
  obtain ⟨h1, h2, -⟩ := h.cons
  refine ⟨_, unary_number h1 he, ?_, h.next⟩
  rw [h2]
  simpa [Lit.tok] using foldsTo_numnode J.astline (l.value : ℚ)

theorem mulRun_nonneg {acc : Int} (h : 0 ≤ acc) (rest : List (Layout × Lit)) :
    0 ≤ mulRun acc rest := by
  induction rest generalizing acc with
  | nil => simpa [mulRun] using h
  | cons x r ih =>
    simp only [mulRun]
    exact ih (mul_nonneg h (by positivity))

/-- The loop of `multiplicative` on `* l1 * ... * lk`: it returns a tree that
folds to the running product. -/
theorem mul_chain (tail : List Token)
    (htail : ∀ J', At J' tail → endsOperand J' ∧ ∀ ty, binop false J'.lookahead ≠ some (1, ty))
    (rest : List (Layout × Lit)) :
    ∀ (A : js_Ast) (acc : Int) (J : js_State), At J (mulToks rest ++ tail) →
      FoldsTo A acc → 0 ≤ acc → mulExact acc rest →
      ∃ A' J', Yields (fun R => multiplicative_loop R A) J (.ok A' J') ∧
        FoldsTo A' ((mulRun acc rest : Int) : ℚ) ∧ At J' tail := by
  induction rest with
  | nil =>
    intro A acc J hJ hA _ _
    simp only [mulToks, List.nil_append] at hJ
    exact ⟨A, J, @loop_done false 1 _ _ ⟨le_refl 1, by omega⟩ (htail J hJ).2,
      by simpa [mulRun] using hA, hJ⟩
  | cons x r ih =>
    intro A acc J hJ hA hacc hex
    obtain ⟨y, l⟩ := x
    simp only [mulToks, List.cons_append] at hJ
    obtain ⟨hl1, hl2, hex'⟩ := hex
    have hop : binop false J.lookahead = some (1, .EXP_MUL) := by
      rw [hJ.cons.1]
      rfl
    have hnext : endsOperand (nextState (nextState J)) := by
      cases r with
      | nil => exact (htail _ hJ.next.next).1
      | cons z r' =>
        have := hJ.next.next
        simp only [mulToks, List.cons_append] at this
        have hk := this.cons.1
        simp [endsOperand, hk, opTok]
    obtain ⟨B, hB, hBf, hBat⟩ := unary_lit hJ.next hnext
    have hAB := foldsTo_mul (nextState (nextState J)).astline hA hBf hacc (by positivity) hl2
    obtain ⟨A', J', h1, h2, h3⟩ := ih _ (acc * l.value) _ hBat hAB
      (mul_nonneg hacc (by positivity)) hex'
    exact ⟨A', J', @loop_step false 1 _ _ _ _ _ _ ⟨le_refl 1, by omega⟩ hop
      (by simpa [levelFn] using hB) h1, by simpa [mulRun] using h2, h3⟩

/-- The function `multiplicative` on the tokens of a product: it returns a
tree that folds to the value of the product. -/
theorem product_parse (tail : List Token)
    (htail : ∀ J', At J' tail → endsOperand J' ∧ ∀ ty, binop false J'.lookahead ≠ some (1, ty))
    (p : Product) (J : js_State) (hJ : At J (p.toks ++ tail)) (hex : p.exact) :
    ∃ A' J', Yields (fun R => multiplicative R) J (.ok A' J') ∧
      FoldsTo A' ((p.value : Int) : ℚ) ∧ At J' tail := by
  simp only [Product.toks, List.cons_append] at hJ
  have hnext : endsOperand (nextState J) := by
    cases hr : p.rest with
    | nil =>
      rw [hr] at hJ
      exact (htail _ hJ.next).1
    | cons z r' =>
      rw [hr] at hJ
      have := hJ.next
      simp only [mulToks, List.cons_append] at this
      have hk := this.cons.1
      simp [endsOperand, hk, opTok]
  obtain ⟨A, hA, hAf, hAat⟩ := unary_lit hJ hnext
  obtain ⟨A', J', h1, h2, h3⟩ := mul_chain tail htail p.rest A p.first.value _ hAat hAf
    (by positivity) hex.2
  exact ⟨A', J', @level_loop false 1 _ _ _ _ ⟨le_refl 1, by omega⟩
    (by simpa [levelFn] using hA) h1, h2, h3⟩

theorem addToks_head (rest : List ((Bool × Layout) × Product)) (tail : List Token)
    (J' : js_State) (h : At J' (addToks rest ++ tail))
    (htail : ∀ J', At J' tail → endsOperand J' ∧ ∀ ty, binop false J'.lookahead ≠ some (1, ty)) :
    endsOperand J' ∧ ∀ ty, binop false J'.lookahead ≠ some (1, ty) := by
  cases rest with
  | nil => exact htail J' (by simpa [addToks] using h)
  | cons x r =>
    obtain ⟨⟨s, y⟩, p⟩ := x
    simp only [addToks, List.cons_append] at h
    have hk := h.cons.1
    cases s <;> simp [endsOperand, hk, opTok, binop]

/-- The loop of `additive` on `± p1 ± ... ± pk`: it returns a tree that folds
to the running sum. -/
theorem add_chain (tail : List Token)
    (htail : ∀ J', At J' tail → endsOperand J' ∧ (∀ ty, binop false J'.lookahead ≠ some (1, ty)) ∧
      ∀ ty, binop false J'.lookahead ≠ some (2, ty))
    (rest : List ((Bool × Layout) × Product)) :
    ∀ (A : js_Ast) (acc : Int) (J : js_State), At J (addToks rest ++ tail) →
      FoldsTo A acc → addExact acc rest →
      ∃ A' J', Yields (fun R => additive_loop R A) J (.ok A' J') ∧
        FoldsTo A' ((addRun acc rest : Int) : ℚ) ∧ At J' tail := by
  induction rest with
  | nil =>
    intro A acc J hJ hA _
    simp only [addToks, List.nil_append] at hJ
    exact ⟨A, J, @loop_done false 2 _ _ ⟨by omega, by omega⟩ (htail J hJ).2.2,
      by simpa [addRun] using hA, hJ⟩
  | cons x r ih =>
    intro A acc J hJ hA hex
    obtain ⟨⟨s, y⟩, p⟩ := x
    simp only [addToks, List.cons_append] at hJ
    obtain ⟨hp, hb, hex'⟩ := hex
    have hJ' : At (nextState J) (p.toks ++ (addToks r ++ tail)) := by
      simpa [List.append_assoc] using hJ.next
    obtain ⟨B, J2, hB, hBf, hBat⟩ := product_parse (addToks r ++ tail)
      (fun J' h => addToks_head r tail J' h (fun J'' h' => ⟨(htail J'' h').1, (htail J'' h').2.1⟩))
      p (nextState J) hJ' hp
    cases s with
    | true =>
      have hop : binop false J.lookahead = some (2, .EXP_ADD) := by
        rw [hJ.cons.1]
        rfl
      simp only [if_true] at hb hex'
      have hAB := foldsTo_add J2.astline hA hBf hb
      obtain ⟨A', J', h1, h2, h3⟩ := ih _ (acc + p.value) _ hBat hAB hex'
      exact ⟨A', J', @loop_step false 2 _ _ _ _ _ _ ⟨by omega, by omega⟩ hop
        (by simpa [levelFn] using hB) h1, by simpa [addRun] using h2, h3⟩
    | false =>
      have hop : binop false J.lookahead = some (2, .EXP_SUB) := by
        rw [hJ.cons.1]
        rfl
      simp only [Bool.false_eq_true, if_false] at hb hex'
      have hAB := foldsTo_sub J2.astline hA hBf hb
      obtain ⟨A', J', h1, h2, h3⟩ := ih _ (acc - p.value) _ hBat hAB hex'
      exact ⟨A', J', @loop_step false 2 _ _ _ _ _ _ ⟨by omega, by omega⟩ hop
        (by simpa [levelFn] using hB) h1, by simpa [addRun] using h2, h3⟩

/-- The function `additive` on the tokens of a whole sum, up to end of input. -/
theorem sum_parse (s : Sum) (J : js_State) (hJ : At J s.toks) (hex : s.exact) :
    ∃ A' J', Yields (fun R => additive R) J (.ok A' J') ∧
      FoldsTo A' ((s.value : Int) : ℚ) ∧ At J' [] := by
  have hnil : ∀ J', At J' [] → endsOperand J' ∧ (∀ ty, binop false J'.lookahead ≠ some (1, ty)) ∧
      ∀ ty, binop false J'.lookahead ≠ some (2, ty) := fun J' h => by
    simp [endsOperand, h.nil.1, binop]
  have hJ' : At J (s.first.toks ++ (addToks s.rest ++ [])) := by
    simpa [Sum.toks] using hJ
  obtain ⟨A, J1, hA, hAf, hAat⟩ := product_parse (addToks s.rest ++ [])
    (fun J' h => addToks_head s.rest [] J' h (fun J'' h' => ⟨(hnil J'' h').1, (hnil J'' h').2.1⟩))
    s.first J hJ' hex.1
  obtain ⟨A', J', h1, h2, h3⟩ := add_chain [] hnil s.rest A s.first.value J1 hAat hAf hex.2
  exact ⟨A', J', @level_loop false 2 _ _ _ _ ⟨by omega, by omega⟩
    (by simpa [levelFn] using hA) h1, h2, h3⟩

theorem jsP_foldconst_list_of_foldsTo {A : js_Ast} {v : ℚ} (line : Nat) (h : FoldsTo A v) :
    ∃ line', (jsP_foldconst (js_Ast.new .AST_LIST line A .NULL .NULL .NULL)).1 =
      js_Ast.new .AST_LIST line (js_Ast.numnode .EXP_NUMBER line' (Dbl.fin v))
        .NULL .NULL .NULL := by
  obtain ⟨l, h⟩ := h
  exact ⟨l, by simp [js_Ast.new, jsP_foldconst, h]⟩

/-- C2.  For every one-statement program that is an expression built from
integer literals with binary `+`, `-` and `*`, all values met on the way being
exact (at most `2 ^ 53` in magnitude), `jsP_parse` returns, for every large
enough depth bound, a one-cell list whose element is an `EXP_NUMBER` node with
all four child slots null and whose value is the value of the expression under
ordinary precedence and left associativity. -/
theorem jsP_parse_literal_program (s : Sum) (hex : s.exact) (filename : String)
    (J : js_State) :
    ∃ n, ∀ m, n ≤ m → ∃ line line' J', jsP_parse m filename s.toks J =
      .ok (js_Ast.new .AST_LIST line
        (js_Ast.numnode .EXP_NUMBER line' (Dbl.fin ((s.value : Int) : ℚ)))
        .NULL .NULL .NULL) J' := by
  have hJ0 := At.start { J with filename := filename, source := s.toks }
  simp only at hJ0
  have hfirst : (nextState { J with filename := filename, source := s.toks }).lookahead =
      Tok.TK_NUMBER := by
    have h := hJ0
    simp only [Sum.toks, Product.toks, List.cons_append] at h
    exact h.cons.1
  obtain ⟨A, J1, hA, hAf, hAat⟩ := sum_parse s _ hJ0 hex
  have hEOF := hAat.nil.1
  have hexp := @expression_of_level false 2 _ _ _ (by omega)
    (by simpa [levelFn] using hA) (by rw [hEOF]; decide)
  have hstm := statement_expression (by rw [hfirst]; rfl) hexp
    (jsP_semicolon_auto (by rw [hEOF]; decide) (Or.inr (Or.inr hEOF)))
  have hscr := @script_cons Tok.EOF _ _ _ _ _ (by rw [hfirst]; decide)
    (scriptelement_statement (by rw [hfirst]; decide) hstm) (script_loop_done hEOF)
  obtain ⟨n, hn⟩ := jsP_parse_of_script hscr
  obtain ⟨line', hl⟩ := jsP_foldconst_list_of_foldsTo J1.astline hAf
  refine ⟨n, fun m hm => ⟨J1.astline, line', J1, ?_⟩⟩
  rw [hn m hm, ← hl]
  simp

/-- C2 at `1 + 2 * 3`: the program is exact, its value is 7, and `jsP_parse`
returns the one-cell list of the literal 7. -/
theorem jsP_parse_literal_program_witness :
    sum123.exact ∧ sum123.value = 7 ∧
    ∃ n, ∀ m, n ≤ m → ∃ line line' J', jsP_parse m "f.js" sum123.toks initState =
      .ok (js_Ast.new .AST_LIST line
        (js_Ast.numnode .EXP_NUMBER line' (Dbl.fin ((sum123.value : Int) : ℚ)))
        .NULL .NULL .NULL) J' :=
  have hex : sum123.exact := by
    simp [Sum.exact, Product.exact, mulExact, addExact, Product.value, mulRun, sum123]
  ⟨hex, by decide, jsP_parse_literal_program sum123 hex "f.js" initState⟩

/-! ## C3: left associativity within a level -/

/-- An operand that `unary` parses, followed by a token that continues no
conditional or binary expression (so at most an assignment operator or `,`
comes next), is the result of `conditional`. -/
theorem conditional_of_unary {notin : Bool} {A : js_Ast} {J J1 : js_State}
    (hA : Yields (fun R => unary R) J (.ok A J1)) (hb : binop notin J1.lookahead = none)
    (hq : J1.lookahead ≠ Tok.QUESTION) :
    Yields (levelFn notin 11) J (.ok A J1) :=
  conditional_pass (level_lift (j := 0) (Nat.zero_le _) (le_refl 10) hA
    (fun i ty _ _ => by simp [hb])) hq

/-- An operand that `unary` parses, followed by a token that continues no
assignment expression, is the result of `assignment`. -/
theorem assignment_of_unary {notin : Bool} {A : js_Ast} {J J1 : js_State}
    (hA : Yields (fun R => unary R) J (.ok A J1)) (hb : binop notin J1.lookahead = none)
    (hq : J1.lookahead ≠ Tok.QUESTION) (ha : assignop J1.lookahead = none) :
    Yields (levelFn notin 12) J (.ok A J1) :=
  assignment_pass (conditional_of_unary hA hb hq) ha

/-- C3.  For every left-associating binary level `k` (multiplicative 1 to
bitwise OR 8) and operators `op1`, `op2` of that level, `a op1 b op2 c` parses
to `op2(op1(a, b), c)`; so does `a , b , c` at the comma level.  In particular
`2 - 3 - 4` parses to `SUB(SUB(2, 3), 4)`, which constant folding rewrites to
the literal `-5`. -/
theorem left_associativity (notin : Bool) :
    (∀ (k : Nat) (ty1 ty2 : js_AstType) (J J1 J2 J3 : js_State) (A B C : js_Ast),
      1 ≤ k → k ≤ 8 →
      Yields (levelFn notin (k - 1)) J (.ok A J1) →
      binop notin J1.lookahead = some (k, ty1) →
      Yields (levelFn notin (k - 1)) (nextState J1) (.ok B J2) →
      binop notin J2.lookahead = some (k, ty2) →
      Yields (levelFn notin (k - 1)) (nextState J2) (.ok C J3) →
      endsExpression notin J3.lookahead →
      Yields (fun R => expression R notin) J
        (.ok (js_Ast.new ty2 J3.astline
          (js_Ast.new ty1 J2.astline A B .NULL .NULL) C .NULL .NULL) J3)) ∧
    (∀ (J J1 J2 J3 : js_State) (A B C : js_Ast),
      Yields (fun R => assignment R notin) J (.ok A J1) →
      J1.lookahead = Tok.COMMA →
      Yields (fun R => assignment R notin) (nextState J1) (.ok B J2) →
      J2.lookahead = Tok.COMMA →
      Yields (fun R => assignment R notin) (nextState J2) (.ok C J3) →
      J3.lookahead ≠ Tok.COMMA →
      Yields (fun R => expression R notin) J
        (.ok (js_Ast.new .EXP_COMMA J3.astline
          (js_Ast.new .EXP_COMMA J2.astline A B .NULL .NULL) C .NULL .NULL) J3)) ∧
    (∃ J3, Yields (fun R => expression R notin)
        (startOf [.num 2, .of .MINUS, .num 3, .of .MINUS, .num 4])
        (.ok (js_Ast.new .EXP_SUB 1
          (js_Ast.new .EXP_SUB 1 (js_Ast.numnode .EXP_NUMBER 0 (Dbl.fin 2))
            (js_Ast.numnode .EXP_NUMBER 1 (Dbl.fin 3)) .NULL .NULL)
          (js_Ast.numnode .EXP_NUMBER 1 (Dbl.fin 4)) .NULL .NULL) J3)) ∧
    jsP_foldconst (js_Ast.new .EXP_SUB 1
      (js_Ast.new .EXP_SUB 1 (js_Ast.numnode .EXP_NUMBER 0 (Dbl.fin 2))
        (js_Ast.numnode .EXP_NUMBER 1 (Dbl.fin 3)) .NULL .NULL)
      (js_Ast.numnode .EXP_NUMBER 1 (Dbl.fin 4)) .NULL .NULL) =
      (js_Ast.numnode .EXP_NUMBER 1 (Dbl.fin (-5)), true) := by
  have part1 : ∀ (k : Nat) (ty1 ty2 : js_AstType) (J J1 J2 J3 : js_State) (A B C : js_Ast),
      1 ≤ k → k ≤ 8 →
      Yields (levelFn notin (k - 1)) J (.ok A J1) →
      binop notin J1.lookahead = some (k, ty1) →
      Yields (levelFn notin (k - 1)) (nextState J1) (.ok B J2) →
      binop notin J2.lookahead = some (k, ty2) →
      Yields (levelFn notin (k - 1)) (nextState J2) (.ok C J3) →
      endsExpression notin J3.lookahead →
      Yields (fun R => expression R notin) J
        (.ok (js_Ast.new ty2 J3.astline
          (js_Ast.new ty1 J2.astline A B .NULL .NULL) C .NULL .NULL) J3) := by
    intro k ty1 ty2 J J1 J2 J3 A B C h1 h8 hA hop1 hB hop2 hC hend
    have hno : ∀ ty, binop notin J3.lookahead ≠ some (k, ty) := fun ty => by simp [hend.1]
    exact expression_of_level (by omega)
      (level_loop ⟨h1, h8⟩ hA (loop_step ⟨h1, h8⟩ hop1 hB
        (loop_step ⟨h1, h8⟩ hop2 hC (loop_done ⟨h1, h8⟩ hno)))) hend
  refine ⟨part1, ?_, ?_, ?_⟩
  · intro J J1 J2 J3 A B C hA h1 hB h2 hC h3
    exact expression_loop_enter (by rw [levelFn_twelve]; exact hA)
      (expression_loop_step h1 (by rw [levelFn_twelve]; exact hB)
        (expression_loop_step h2 (by rw [levelFn_twelve]; exact hC)
          (expression_loop_done h3)))
  · refine ⟨_, part1 2 .EXP_SUB .EXP_SUB
      (startOf [.num 2, .of .MINUS, .num 3, .of .MINUS, .num 4])
      (nextState (startOf [.num 2, .of .MINUS, .num 3, .of .MINUS, .num 4]))
      (nextState (nextState (nextState
        (startOf [.num 2, .of .MINUS, .num 3, .of .MINUS, .num 4]))))
      (nextState (nextState (nextState (nextState (nextState
        (startOf [.num 2, .of .MINUS, .num 3, .of .MINUS, .num 4]))))))
      _ _ _ (by decide) (by decide) ?_ ?_ ?_ ?_ ?_ ?_⟩
    · exact level_lift (j := 0) (k := 1) (by omega) (by omega) (unary_number rfl (by decide))
        (fun i ty _ _ => by cases notin <;> simp [nextState, startOf, binop, Token.of] <;> omega)
    · cases notin <;> rfl
    · exact level_lift (j := 0) (k := 1) (by omega) (by omega) (unary_number rfl (by decide))
        (fun i ty _ _ => by cases notin <;> simp [nextState, startOf, binop, Token.of] <;> omega)
    · cases notin <;> rfl
    · exact level_lift (j := 0) (k := 1) (by omega) (by omega) (unary_number rfl (by decide))
        (fun i ty _ _ => by cases notin <;> simp [nextState, startOf, binop])
    · cases notin <;> decide
  · have h1 : Dbl.sub (Dbl.fin 2) (Dbl.fin 3) = Dbl.fin (-1) := by decide!
    have h2 : Dbl.sub (Dbl.fin (-1)) (Dbl.fin 4) = Dbl.fin (-5) := by decide!
    simp [js_Ast.new, js_Ast.numnode, jsP_foldconst, jsP_setnumnode, js_Ast.number, h1, h2]

/-- C3 at `2 - 3 - 4` (additive level) and at `a , b , c` (comma level). -/
theorem left_associativity_witness :
    Yields (fun R => expression R false)
      (startOf [.num 2, .of .MINUS, .num 3, .of .MINUS, .num 4])
      (.ok (js_Ast.new .EXP_SUB 1
        (js_Ast.new .EXP_SUB 1 (js_Ast.numnode .EXP_NUMBER 0 (Dbl.fin 2))
          (js_Ast.numnode .EXP_NUMBER 1 (Dbl.fin 3)) .NULL .NULL)
        (js_Ast.numnode .EXP_NUMBER 1 (Dbl.fin 4)) .NULL .NULL)
        (nextState (nextState (nextState (nextState (nextState
          (startOf [.num 2, .of .MINUS, .num 3, .of .MINUS, .num 4]))))))) ∧
    Yields (fun R => expression R false)
      (startOf [.ident "a", .of .COMMA, .ident "b", .of .COMMA, .ident "c"])
      (.ok (js_Ast.new .EXP_COMMA 1
        (js_Ast.new .EXP_COMMA 1 (js_Ast.strnode .EXP_IDENTIFIER 0 "a")
          (js_Ast.strnode .EXP_IDENTIFIER 1 "b") .NULL .NULL)
        (js_Ast.strnode .EXP_IDENTIFIER 1 "c") .NULL .NULL)
        (nextState (nextState (nextState (nextState (nextState
          (startOf [.ident "a", .of .COMMA, .ident "b", .of .COMMA, .ident "c"]))))))) :=
  ⟨(left_associativity false).1 2 .EXP_SUB .EXP_SUB
      (startOf [.num 2, .of .MINUS, .num 3, .of .MINUS, .num 4])
      (nextState (startOf [.num 2, .of .MINUS, .num 3, .of .MINUS, .num 4]))
      (nextState (nextState (nextState
        (startOf [.num 2, .of .MINUS, .num 3, .of .MINUS, .num 4]))))
      (nextState (nextState (nextState (nextState (nextState
        (startOf [.num 2, .of .MINUS, .num 3, .of .MINUS, .num 4]))))))
      _ _ _ (by decide) (by decide)
      (level_lift (j := 0) (k := 1) (by omega) (by omega) (unary_number rfl (by decide))
        (fun i ty _ _ => by simp [nextState, startOf, binop, Token.of]; omega))
      rfl
      (level_lift (j := 0) (k := 1) (by omega) (by omega) (unary_number rfl (by decide))
        (fun i ty _ _ => by simp [nextState, startOf, binop, Token.of]; omega))
      rfl
      (level_lift (j := 0) (k := 1) (by omega) (by omega) (unary_number rfl (by decide))
        (fun i ty _ _ => by simp [nextState, startOf, binop]))
      (by decide),
   (left_associativity false).2.1
      (startOf [.ident "a", .of .COMMA, .ident "b", .of .COMMA, .ident "c"])
      (nextState (startOf [.ident "a", .of .COMMA, .ident "b", .of .COMMA, .ident "c"]))
      (nextState (nextState (nextState
        (startOf [.ident "a", .of .COMMA, .ident "b", .of .COMMA, .ident "c"]))))
      (nextState (nextState (nextState (nextState (nextState
        (startOf [.ident "a", .of .COMMA, .ident "b", .of .COMMA, .ident "c"]))))))
      _ _ _
      (by
        have h := @assignment_of_unary false _ _ _
          (unary_identifier (J := startOf [.ident "a", .of .COMMA, .ident "b", .of .COMMA,
            .ident "c"]) rfl (by decide) (Or.inl rfl) (by decide)) rfl (by decide) rfl
        rw [levelFn_twelve] at h
        exact h)
      rfl
      (by
        have h := @assignment_of_unary false _ _ _
          (unary_identifier (J := nextState (nextState (startOf [.ident "a", .of .COMMA,
            .ident "b", .of .COMMA, .ident "c"]))) rfl (by decide) (Or.inl rfl) (by decide))
          rfl (by decide) rfl
        rw [levelFn_twelve] at h
        exact h)
      rfl
      (by
        have h := @assignment_of_unary false _ _ _
          (unary_identifier (J := nextState (nextState (nextState (nextState (startOf
            [.ident "a", .of .COMMA, .ident "b", .of .COMMA, .ident "c"])))))
            rfl (by decide) (Or.inl rfl) (by decide))
          rfl (by decide) rfl
        rw [levelFn_twelve] at h
        exact h)
      (by decide)⟩

/-! ## C4: right associativity of assignment and of the logical operators -/

/-- An operand that `unary` parses is the result of every binary level up to
`k` when the token after it is no operator of the levels 1 to `k`. -/
theorem level_of_unary {notin : Bool} {A : js_Ast} {J J1 : js_State} (k : Nat) (hk : k ≤ 10)
    (hA : Yields (fun R => unary R) J (.ok A J1))
    (hno : ∀ i ty, i ≤ k → binop notin J1.lookahead ≠ some (i, ty)) :
    Yields (levelFn notin k) J (.ok A J1) :=
  level_lift (j := 0) (Nat.zero_le _) hk hA (fun i ty _ hi => hno i ty hi)

/-- C4.  Assignment and the logical operators right-associate: with operands
parsed at the next tighter level, `a = b = c` parses to `ASS(a, ASS(b, c))`
(and likewise for any two assignment operators), `a && b && c` parses to
`LOGAND(a, LOGAND(b, c))` and `a || b || c` parses to `LOGOR(a, LOGOR(b, c))`. -/
theorem right_associativity (notin : Bool) :
    (∀ (ty1 ty2 : js_AstType) (J J1 J2 J3 : js_State) (A B C : js_Ast),
      Yields (fun R => conditional R notin) J (.ok A J1) →
      assignop J1.lookahead = some ty1 →
      Yields (fun R => conditional R notin) (nextState J1) (.ok B J2) →
      assignop J2.lookahead = some ty2 →
      Yields (fun R => conditional R notin) (nextState J2) (.ok C J3) →
      assignop J3.lookahead = none → J3.lookahead ≠ Tok.COMMA →
      Yields (fun R => expression R notin) J
        (.ok (js_Ast.new ty1 J3.astline A
          (js_Ast.new ty2 J3.astline B C .NULL .NULL) .NULL .NULL) J3)) ∧
    (∀ (J J1 J2 J3 : js_State) (A B C : js_Ast),
      Yields (fun R => bitor R notin) J (.ok A J1) → J1.lookahead = Tok.TK_AND →
      Yields (fun R => bitor R notin) (nextState J1) (.ok B J2) → J2.lookahead = Tok.TK_AND →
      Yields (fun R => bitor R notin) (nextState J2) (.ok C J3) →
      endsExpression notin J3.lookahead →
      Yields (fun R => expression R notin) J
        (.ok (js_Ast.new .EXP_LOGAND J3.astline A
          (js_Ast.new .EXP_LOGAND J3.astline B C .NULL .NULL) .NULL .NULL) J3)) ∧
    (∀ (J J1 J2 J3 : js_State) (A B C : js_Ast),
      Yields (fun R => logand R notin) J (.ok A J1) → J1.lookahead = Tok.TK_OR →
      Yields (fun R => logand R notin) (nextState J1) (.ok B J2) → J2.lookahead = Tok.TK_OR →
      Yields (fun R => logand R notin) (nextState J2) (.ok C J3) →
      endsExpression notin J3.lookahead →
      Yields (fun R => expression R notin) J
        (.ok (js_Ast.new .EXP_LOGOR J3.astline A
          (js_Ast.new .EXP_LOGOR J3.astline B C .NULL .NULL) .NULL .NULL) J3)) := by
  have l8 : levelFn notin 8 = fun R => bitor R notin := by simp [levelFn]
  refine ⟨?_, ?_, ?_⟩
  · intro ty1 ty2 J J1 J2 J3 A B C hA h1 hB h2 hC h3 h4
    rw [← levelFn_eleven] at hA hB hC
    exact expression_loop_enter
      (assignment_right hA h1 (assignment_right hB h2 (assignment_pass hC h3)))
      (expression_loop_done h4)
  · intro J J1 J2 J3 A B C hA h1 hB h2 hC h3
    rw [← l8] at hA hB hC
    have hno : ∀ ty, binop notin J3.lookahead ≠ some (9, ty) := fun ty => by simp [h3.1]
    exact expression_of_level (by omega)
      (level_right (k := 9) (Or.inl rfl) hA (by rw [h1]; rfl)
        (level_right (k := 9) (Or.inl rfl) hB (by rw [h2]; rfl)
          (level_pass_right (k := 9) (Or.inl rfl) hC hno))) h3
  · intro J J1 J2 J3 A B C hA h1 hB h2 hC h3
    rw [← levelFn_nine] at hA hB hC
    have hno : ∀ ty, binop notin J3.lookahead ≠ some (10, ty) := fun ty => by simp [h3.1]
    exact expression_of_level (by omega)
      (level_right (k := 10) (Or.inr rfl) hA (by rw [h1]; rfl)
        (level_right (k := 10) (Or.inr rfl) hB (by rw [h2]; rfl)
          (level_pass_right (k := 10) (Or.inr rfl) hC hno))) h3

theorem bitor_of_unary {notin : Bool} {A : js_Ast} {J J1 : js_State}
    (hA : Yields (fun R => unary R) J (.ok A J1))
    (hno : ∀ i ty, i ≤ 8 → binop notin J1.lookahead ≠ some (i, ty)) :
    Yields (fun R => bitor R notin) J (.ok A J1) := by
  have h := level_of_unary 8 (by omega) hA hno
  simpa [levelFn] using h

theorem logand_of_unary {notin : Bool} {A : js_Ast} {J J1 : js_State}
    (hA : Yields (fun R => unary R) J (.ok A J1))
    (hno : ∀ i ty, i ≤ 9 → binop notin J1.lookahead ≠ some (i, ty)) :
    Yields (fun R => logand R notin) J (.ok A J1) := by
  have h := level_of_unary 9 (by omega) hA hno
  simpa [levelFn] using h

theorem conditional_of_unary_fn {notin : Bool} {A : js_Ast} {J J1 : js_State}
    (hA : Yields (fun R => unary R) J (.ok A J1)) (hb : binop notin J1.lookahead = none)
    (hq : J1.lookahead ≠ Tok.QUESTION) :
    Yields (fun R => conditional R notin) J (.ok A J1) := by
  have h := conditional_of_unary hA hb hq
  rwa [levelFn_eleven] at h

/-- C4 at `a = b = c`, `a && b && c` and `a || b || c`. -/
theorem right_associativity_witness :
    Yields (fun R => expression R false) (startOf (abc .ASSIGN))
      (.ok (js_Ast.new .EXP_ASS 1 (js_Ast.strnode .EXP_IDENTIFIER 0 "a")
        (js_Ast.new .EXP_ASS 1 (js_Ast.strnode .EXP_IDENTIFIER 1 "b")
          (js_Ast.strnode .EXP_IDENTIFIER 1 "c") .NULL .NULL) .NULL .NULL)
        (nextState (nextState (nextState (nextState (nextState
          (startOf (abc .ASSIGN)))))))) ∧
    Yields (fun R => expression R false) (startOf (abc .TK_AND))
      (.ok (js_Ast.new .EXP_LOGAND 1 (js_Ast.strnode .EXP_IDENTIFIER 0 "a")
        (js_Ast.new .EXP_LOGAND 1 (js_Ast.strnode .EXP_IDENTIFIER 1 "b")
          (js_Ast.strnode .EXP_IDENTIFIER 1 "c") .NULL .NULL) .NULL .NULL)
        (nextState (nextState (nextState (nextState (nextState
          (startOf (abc .TK_AND)))))))) ∧
    Yields (fun R => expression R false) (startOf (abc .TK_OR))
      (.ok (js_Ast.new .EXP_LOGOR 1 (js_Ast.strnode .EXP_IDENTIFIER 0 "a")
        (js_Ast.new .EXP_LOGOR 1 (js_Ast.strnode .EXP_IDENTIFIER 1 "b")
          (js_Ast.strnode .EXP_IDENTIFIER 1 "c") .NULL .NULL) .NULL .NULL)
        (nextState (nextState (nextState (nextState (nextState
          (startOf (abc .TK_OR)))))))) :=
  ⟨(right_associativity false).1 .EXP_ASS .EXP_ASS (startOf (abc .ASSIGN))
      (nextState (startOf (abc .ASSIGN)))
      (nextState (nextState (nextState (startOf (abc .ASSIGN)))))
      (nextState (nextState (nextState (nextState (nextState (startOf (abc .ASSIGN)))))))
      _ _ _
      (conditional_of_unary_fn
        (unary_identifier rfl (by decide) (Or.inl rfl) (by decide)) rfl (by decide))
      rfl
      (conditional_of_unary_fn
        (unary_identifier rfl (by decide) (Or.inl rfl) (by decide)) rfl (by decide))
      rfl
      (conditional_of_unary_fn
        (unary_identifier rfl (by decide) (Or.inl rfl) (by decide)) rfl (by decide))
      rfl (by decide),
   (right_associativity false).2.1 (startOf (abc .TK_AND))
      (nextState (startOf (abc .TK_AND)))
      (nextState (nextState (nextState (startOf (abc .TK_AND)))))
      (nextState (nextState (nextState (nextState (nextState (startOf (abc .TK_AND)))))))
      _ _ _
      (bitor_of_unary (unary_identifier rfl (by decide) (Or.inl rfl) (by decide))
        (fun i ty hi => by simp [nextState, startOf, abc, Token.of, binop]; omega))
      rfl
      (bitor_of_unary (unary_identifier rfl (by decide) (Or.inl rfl) (by decide))
        (fun i ty hi => by simp [nextState, startOf, abc, Token.of, binop]; omega))
      rfl
      (bitor_of_unary (unary_identifier rfl (by decide) (Or.inl rfl) (by decide))
        (fun i ty hi => by simp [nextState, startOf, abc, binop]))
      (by decide),
   (right_associativity false).2.2 (startOf (abc .TK_OR))
      (nextState (startOf (abc .TK_OR)))
      (nextState (nextState (nextState (startOf (abc .TK_OR)))))
      (nextState (nextState (nextState (nextState (nextState (startOf (abc .TK_OR)))))))
      _ _ _
      (logand_of_unary (unary_identifier rfl (by decide) (Or.inl rfl) (by decide))
        (fun i ty hi => by simp [nextState, startOf, abc, Token.of, binop]; omega))
      rfl
      (logand_of_unary (unary_identifier rfl (by decide) (Or.inl rfl) (by decide))
        (fun i ty hi => by simp [nextState, startOf, abc, Token.of, binop]; omega))
      rfl
      (logand_of_unary (unary_identifier rfl (by decide) (Or.inl rfl) (by decide))
        (fun i ty hi => by simp [nextState, startOf, abc, binop]))
      (by decide)⟩

/-! ## C5: `return` and the newline flag -/

/-- The `return` branch of `statement` when the next token is none of `;`,
`}` and end of input: an expression is parsed, whatever the newline flag. -/
theorem statement_return_expression {A : js_Ast} {J J1 J2 : js_State}
    (h : J.lookahead = Tok.TK_RETURN)
    (hn : (nextState J).lookahead ≠ Tok.SEMI ∧ (nextState J).lookahead ≠ Tok.RBRACE ∧
      (nextState J).lookahead ≠ Tok.EOF)
    (hA : Yields (fun R => expression R false) (nextState J) (.ok A J1))
    (hs : jsP_semicolon J1 = .ok () J2) :
    Yields (fun R => statement R) J
      (.ok (js_Ast.new .STM_RETURN J2.astline A .NULL .NULL .NULL) J2) := by
  obtain ⟨n, hA⟩ := hA
  refine ⟨n, fun m hm => ?_⟩
  have hA := hA m hm
  dsimp only at hA ⊢
  simp [statement, jsP_accept_apply, h, hn, hA, hs]

/-- The `return` branch of `statement` when the next token is `;`, `}` or end
of input: no expression is parsed. -/
theorem statement_return_empty {J J2 : js_State} (h : J.lookahead = Tok.TK_RETURN)
    (hn : (nextState J).lookahead = Tok.SEMI ∨ (nextState J).lookahead = Tok.RBRACE ∨
      (nextState J).lookahead = Tok.EOF)
    (hs : jsP_semicolon (nextState J) = .ok () J2) :
    Yields (fun R => statement R) J
      (.ok (js_Ast.new .STM_RETURN J2.astline .NULL .NULL .NULL .NULL) J2) := by
  refine Yields.of_eq fun R => ?_
  rcases hn with hn | hn | hn <;> simp [statement, jsP_accept_apply, h, hn, hs]

/-- The function `expression` on a single number token that ends the expression. -/
theorem expression_number {notin : Bool} {J : js_State} (h : J.lookahead = Tok.TK_NUMBER)
    (he : endsOperand (nextState J)) (hend : endsExpression notin (nextState J).lookahead) :
    Yields (fun R => expression R notin) J
      (.ok (js_Ast.numnode .EXP_NUMBER J.astline J.number) (nextState J)) := by
  have h0 : Yields (levelFn notin 0) J
      (.ok (js_Ast.numnode .EXP_NUMBER J.astline J.number) (nextState J)) := by
    rw [levelFn_zero]
    exact unary_number h he
  exact expression_of_level (Nat.zero_le _) h0 hend

/-- What `jsP_parse` returns on `return`, newline, `1`: one statement, a
`return` whose expression is the literal 1. -/
theorem jsP_parse_returnNewline1 :
    ∃ n, ∀ m, n ≤ m → jsP_parse m "f.js" returnNewline1 initState =
      .ok (js_Ast.new .AST_LIST 2
        (js_Ast.new .STM_RETURN 2 (js_Ast.numnode .EXP_NUMBER 1 (Dbl.fin 1)) .NULL .NULL .NULL)
        .NULL .NULL .NULL)
        (nextState (nextState (startOfFile returnNewline1))) := by
  have hexp : Yields (fun R => expression R false) (nextState (startOfFile returnNewline1))
      (.ok (js_Ast.numnode .EXP_NUMBER 1 (Dbl.fin 1))
        (nextState (nextState (startOfFile returnNewline1)))) :=
    expression_number rfl (by decide) (by decide)
  have hstm := statement_return_expression (J := startOfFile returnNewline1) rfl (by decide)
    hexp (jsP_semicolon_auto (by decide) (Or.inr (Or.inr rfl)))
  have hscr := script_cons (J := startOfFile returnNewline1) (by decide)
    (scriptelement_statement (by decide) hstm) (script_loop_done rfl)
  obtain ⟨n, hn⟩ := jsP_parse_of_script (J := initState) hscr
  refine ⟨n, fun m hm => ?_⟩
  rw [hn m hm]
  simp [js_Ast.new, js_Ast.numnode, jsP_foldconst, js_Ast.isNull]
  rfl

/-- C5, as stated, fails: on `return`, newline, `1` the parser does not yield
the two statements `return` (no expression) and `1`. -/
theorem return_newline_counterexample :
    ¬ ∃ n, ∀ m, n ≤ m → ∃ (l1 l2 l3 l4 : Nat) (J' : js_State),
      jsP_parse m "f.js" returnNewline1 initState =
        .ok (js_Ast.new .AST_LIST l1
          (js_Ast.new .STM_RETURN l2 .NULL .NULL .NULL .NULL)
          (js_Ast.new .AST_LIST l3 (js_Ast.numnode .EXP_NUMBER l4 (Dbl.fin 1))
            .NULL .NULL .NULL) .NULL .NULL) J' := by
  rintro ⟨n, h⟩
  obtain ⟨n0, h0⟩ := jsP_parse_returnNewline1
  obtain ⟨l1, l2, l3, l4, J', h1⟩ := h (max n n0) (le_max_left _ _)
  rw [h0 (max n n0) (le_max_right _ _)] at h1
  simp [js_Ast.new] at h1

/-- C5, amended.  A `return` takes no expression exactly when its next token
is `;`, `}` or end of input; before any other token it parses an expression,
whether or not a newline precedes that token.  So `return`, newline, `1` is the
single statement `return 1`. -/
theorem return_expression_rule :
    (∀ (J J1 J2 : js_State) (A : js_Ast), J.lookahead = Tok.TK_RETURN →
      ((nextState J).lookahead ≠ Tok.SEMI ∧ (nextState J).lookahead ≠ Tok.RBRACE ∧
        (nextState J).lookahead ≠ Tok.EOF) →
      Yields (fun R => expression R false) (nextState J) (.ok A J1) →
      jsP_semicolon J1 = .ok () J2 →
      Yields (fun R => statement R) J
        (.ok (js_Ast.new .STM_RETURN J2.astline A .NULL .NULL .NULL) J2)) ∧
    (∀ (J J2 : js_State), J.lookahead = Tok.TK_RETURN →
      ((nextState J).lookahead = Tok.SEMI ∨ (nextState J).lookahead = Tok.RBRACE ∨
        (nextState J).lookahead = Tok.EOF) →
      jsP_semicolon (nextState J) = .ok () J2 →
      Yields (fun R => statement R) J
        (.ok (js_Ast.new .STM_RETURN J2.astline .NULL .NULL .NULL .NULL) J2)) ∧
    (∃ n, ∀ m, n ≤ m → jsP_parse m "f.js" returnNewline1 initState =
      .ok (js_Ast.new .AST_LIST 2
        (js_Ast.new .STM_RETURN 2 (js_Ast.numnode .EXP_NUMBER 1 (Dbl.fin 1)) .NULL .NULL .NULL)
        .NULL .NULL .NULL)
        (nextState (nextState (startOfFile returnNewline1)))) :=
  ⟨fun _ _ _ _ h hn hA hs => statement_return_expression h hn hA hs,
   fun _ _ h hn hs => statement_return_empty h hn hs,
   jsP_parse_returnNewline1⟩

/-- C5 amended, at `return`, newline, `1` (an expression is parsed although a
newline precedes `1`) and at `return ;` (no expression). -/
theorem return_expression_rule_witness :
    (startOfFile returnNewline1).lookahead = Tok.TK_RETURN ∧
    (nextState (startOfFile returnNewline1)).newline = true ∧
    Yields (fun R => statement R) (startOfFile returnNewline1)
      (.ok (js_Ast.new .STM_RETURN 2 (js_Ast.numnode .EXP_NUMBER 1 (Dbl.fin 1))
        .NULL .NULL .NULL) (nextState (nextState (startOfFile returnNewline1)))) ∧
    Yields (fun R => statement R) (startOf [.of .TK_RETURN, .of .SEMI])
      (.ok (js_Ast.new .STM_RETURN 1 .NULL .NULL .NULL .NULL)
        (nextState (nextState (startOf [.of .TK_RETURN, .of .SEMI])))) :=
  ⟨rfl, rfl,
   return_expression_rule.1 (startOfFile returnNewline1) _ _ _ rfl (by decide)
     (expression_number rfl (by decide) (by decide))
     (jsP_semicolon_auto (by decide) (Or.inr (Or.inr rfl))),
   return_expression_rule.2.1 (startOf [.of .TK_RETURN, .of .SEMI]) _ rfl (Or.inl rfl)
     (jsP_semicolon_semi rfl)⟩

/-! ## C6: postfix `++`/`--` and the newline flag -/

/-- The function `postfix` at `++` not preceded by a newline. -/
theorem postfixexp_inc {A : js_Ast} {J J1 : js_State}
    (hA : Yields (fun R => callexp R) J (.ok A J1)) (hn : J1.newline = false)
    (ht : J1.lookahead = Tok.TK_INC) :
    Yields (fun R => postfixexp R) J
      (.ok (js_Ast.new .EXP_POSTINC (nextState J1).astline A .NULL .NULL .NULL)
        (nextState J1)) := by
  obtain ⟨n, hA⟩ := hA
  refine ⟨n, fun m hm => ?_⟩
  have hA := hA m hm
  dsimp only at hA ⊢
  simp [postfixexp, hA, hn, jsP_accept_eq ht]

/-- The function `postfix` at `--` not preceded by a newline. -/
theorem postfixexp_dec {A : js_Ast} {J J1 : js_State}
    (hA : Yields (fun R => callexp R) J (.ok A J1)) (hn : J1.newline = false)
    (ht : J1.lookahead = Tok.TK_DEC) :
    Yields (fun R => postfixexp R) J
      (.ok (js_Ast.new .EXP_POSTDEC (nextState J1).astline A .NULL .NULL .NULL)
        (nextState J1)) := by
  obtain ⟨n, hA⟩ := hA
  refine ⟨n, fun m hm => ?_⟩
  have hA := hA m hm
  dsimp only at hA ⊢
  have ht' : J1.lookahead ≠ Tok.TK_INC := by rw [ht]; decide
  simp [postfixexp, hA, hn, jsP_accept_ne ht', jsP_accept_eq ht]

/-- The function `postfix` at a token preceded by a newline, or at a token that
is neither `++` nor `--`: the operand is returned unwrapped and nothing is
consumed. -/
theorem postfixexp_pass {A : js_Ast} {J J1 : js_State}
    (hA : Yields (fun R => callexp R) J (.ok A J1))
    (h : J1.newline = true ∨ (J1.lookahead ≠ Tok.TK_INC ∧ J1.lookahead ≠ Tok.TK_DEC)) :
    Yields (fun R => postfixexp R) J (.ok A J1) := by
  obtain ⟨n, hA⟩ := hA
  refine ⟨n, fun m hm => ?_⟩
  have hA := hA m hm
  dsimp only at hA ⊢
  rcases h with h | ⟨h1, h2⟩
  · simp [postfixexp, hA, h]
  · cases hn : J1.newline <;> simp [postfixexp, hA, hn, jsP_accept_ne h1, jsP_accept_ne h2]

/-- The function `unary` at a prefix `++`. -/
theorem unary_preinc {A : js_Ast} {J J1 : js_State} (h : J.lookahead = Tok.TK_INC)
    (hA : Yields (fun R => unary R) (nextState J) (.ok A J1)) :
    Yields (fun R => unary R) J
      (.ok (js_Ast.new .EXP_PREINC J1.astline A .NULL .NULL .NULL) J1) := by
  obtain ⟨n, hA⟩ := hA
  refine ⟨n + 1, fun m hm => ?_⟩
  obtain ⟨j, rfl⟩ : ∃ j, m = j + 1 := ⟨m - 1, by omega⟩
  have hA := hA j (by omega)
  dsimp only at hA ⊢
  rw [unary]
  simp [jsP_accept_apply, h, step, hA]

/-- A statement that starts with an identifier and is not a label: the
expression is the statement, subject to the statement terminator. -/
theorem statement_identifier_expression {A : js_Ast} {J J1 J2 : js_State}
    (h : J.lookahead = Tok.TK_IDENTIFIER)
    (hA : Yields (fun R => expression R false) J (.ok A J1))
    (hl : A.type? ≠ some .EXP_IDENTIFIER ∨ J1.lookahead ≠ Tok.COLON)
    (hs : jsP_semicolon J1 = .ok () J2) :
    Yields (fun R => statement R) J (.ok A J2) := by
  obtain ⟨n, hA⟩ := hA
  refine ⟨n, fun m hm => ?_⟩
  have hA := hA m hm
  dsimp only at hA ⊢
  rcases hl with hl | hl
  · simp [statement, jsP_accept_apply, h, hA, hl, hs]
  · by_cases ht : A.type? = some .EXP_IDENTIFIER <;>
      simp [statement, jsP_accept_apply, h, hA, hl, ht, hs]

/-- The function `expression` on a single identifier token that is no reserved
word and ends the expression. -/
theorem expression_identifier {notin : Bool} {J : js_State}
    (h : J.lookahead = Tok.TK_IDENTIFIER)
    (hw1 : jsY_findword J.text futurewords = false)
    (hw2 : J.strict = false ∨ jsY_findword J.text strictfuturewords = false)
    (he : endsOperand (nextState J)) (hend : endsExpression notin (nextState J).lookahead) :
    Yields (fun R => expression R notin) J
      (.ok (js_Ast.strnode .EXP_IDENTIFIER J.astline J.text) (nextState J)) := by
  have h0 : Yields (levelFn notin 0) J
      (.ok (js_Ast.strnode .EXP_IDENTIFIER J.astline J.text) (nextState J)) := by
    rw [levelFn_zero]
    exact unary_identifier h hw1 hw2 he
  exact expression_of_level (Nat.zero_le _) h0 hend

/-- What `jsP_parse` returns on `x`, newline, `++y`: the expression statement
`x` followed by the statement `PREINC(y)`. -/
theorem jsP_parse_xNewlineIncY :
    ∃ n, ∀ m, n ≤ m → jsP_parse m "f.js" xNewlineIncY initState =
      .ok (js_Ast.new .AST_LIST 1 (js_Ast.strnode .EXP_IDENTIFIER 0 "x")
        (js_Ast.new .AST_LIST 2
          (js_Ast.new .EXP_PREINC 2 (js_Ast.strnode .EXP_IDENTIFIER 2 "y") .NULL .NULL .NULL)
          .NULL .NULL .NULL) .NULL .NULL)
        (nextState (nextState (nextState (startOfFile xNewlineIncY)))) := by
  have hx : Yields (fun R => expression R false) (startOfFile xNewlineIncY)
      (.ok (js_Ast.strnode .EXP_IDENTIFIER 0 "x") (nextState (startOfFile xNewlineIncY))) :=
    expression_identifier rfl (by decide) (Or.inl rfl) (by decide) (by decide)
  have hs1 := statement_identifier_expression rfl hx (Or.inr (by decide))
    (jsP_semicolon_auto (by decide) (Or.inl rfl))
  have hy : Yields (fun R => unary R) (nextState (nextState (startOfFile xNewlineIncY)))
      (.ok (js_Ast.strnode .EXP_IDENTIFIER 2 "y")
        (nextState (nextState (nextState (startOfFile xNewlineIncY))))) :=
    unary_identifier rfl (by decide) (Or.inl rfl) (by decide)
  have hinc := unary_preinc (J := nextState (startOfFile xNewlineIncY)) rfl hy
  have hexp := @expression_of_level false 0 _ _ _ (Nat.zero_le _)
    (by rw [levelFn_zero]; exact hinc) (by decide)
  have hs2 := statement_expression (J := nextState (startOfFile xNewlineIncY)) rfl hexp
    (jsP_semicolon_auto (by decide) (Or.inr (Or.inr rfl)))
  have hscr := script_cons (J := startOfFile xNewlineIncY) (by decide)
    (scriptelement_statement (by decide) hs1)
    (script_loop_step (J := nextState (startOfFile xNewlineIncY)) (by decide)
      (scriptelement_statement (by decide) hs2) (script_loop_done rfl))
  obtain ⟨n, hn⟩ := jsP_parse_of_script (J := initState) hscr
  refine ⟨n, fun m hm => ?_⟩
  rw [hn m hm]
  simp [js_Ast.new, js_Ast.strnode, jsP_foldconst, js_Ast.isNull]
  exact ⟨rfl, rfl⟩

/-- C6.  The function `postfix` wraps its operand in `POSTINC`/`POSTDEC` only
when the `++`/`--` token is not flagged as preceded by a newline: without the
flag it wraps and consumes the token, with the flag (or at any other token) it
returns the operand and consumes nothing.  Consequently `x`, newline, `++y`
parses as two statements, the expression statement `x` followed by
`PREINC(y)`. -/
theorem postfix_newline_rule :
    (∀ (J J1 : js_State) (A : js_Ast), Yields (fun R => callexp R) J (.ok A J1) →
      J1.newline = false → J1.lookahead = Tok.TK_INC →
      Yields (fun R => postfixexp R) J
        (.ok (js_Ast.new .EXP_POSTINC (nextState J1).astline A .NULL .NULL .NULL)
          (nextState J1))) ∧
    (∀ (J J1 : js_State) (A : js_Ast), Yields (fun R => callexp R) J (.ok A J1) →
      J1.newline = false → J1.lookahead = Tok.TK_DEC →
      Yields (fun R => postfixexp R) J
        (.ok (js_Ast.new .EXP_POSTDEC (nextState J1).astline A .NULL .NULL .NULL)
          (nextState J1))) ∧
    (∀ (J J1 : js_State) (A : js_Ast), Yields (fun R => callexp R) J (.ok A J1) →
      (J1.newline = true ∨ (J1.lookahead ≠ Tok.TK_INC ∧ J1.lookahead ≠ Tok.TK_DEC)) →
      Yields (fun R => postfixexp R) J (.ok A J1)) ∧
    (∃ n, ∀ m, n ≤ m → jsP_parse m "f.js" xNewlineIncY initState =
      .ok (js_Ast.new .AST_LIST 1 (js_Ast.strnode .EXP_IDENTIFIER 0 "x")
        (js_Ast.new .AST_LIST 2
          (js_Ast.new .EXP_PREINC 2 (js_Ast.strnode .EXP_IDENTIFIER 2 "y") .NULL .NULL .NULL)
          .NULL .NULL .NULL) .NULL .NULL)
        (nextState (nextState (nextState (startOfFile xNewlineIncY))))) :=
  ⟨fun _ _ _ hA hn ht => postfixexp_inc hA hn ht,
   fun _ _ _ hA hn ht => postfixexp_dec hA hn ht,
   fun _ _ _ hA h => postfixexp_pass hA h,
   jsP_parse_xNewlineIncY⟩

/-- The function `callexp` on an identifier token that is no reserved word and
that no `.`, `[` or `(` follows. -/
theorem callexp_identifier {J : js_State} (h : J.lookahead = Tok.TK_IDENTIFIER)
    (hw1 : jsY_findword J.text futurewords = false)
    (hw2 : J.strict = false ∨ jsY_findword J.text strictfuturewords = false)
    (h1 : (nextState J).lookahead ≠ Tok.DOT) (h2 : (nextState J).lookahead ≠ Tok.LBRACK)
    (h3 : (nextState J).lookahead ≠ Tok.LPAREN) :
    Yields (fun R => callexp R) J
      (.ok (js_Ast.strnode .EXP_IDENTIFIER J.astline J.text) (nextState J)) :=
  Yields.of_eq fun R => by
    simp [callexp, newexp, jsP_accept_apply, h, primary_identifier h hw1 hw2, callexp_loop,
      h1, h2, h3]

/-- C6 at `x ++` on one line (wrapped in `POSTINC`), at `x --` (wrapped in
`POSTDEC`) and at `x`, newline, `++` (returned unwrapped, `++` not consumed). -/
theorem postfix_newline_rule_witness :
    Yields (fun R => postfixexp R) (startOf [.ident "x", .of .TK_INC])
      (.ok (js_Ast.new .EXP_POSTINC 1 (js_Ast.strnode .EXP_IDENTIFIER 0 "x") .NULL .NULL .NULL)
        (nextState (nextState (startOf [.ident "x", .of .TK_INC])))) ∧
    Yields (fun R => postfixexp R) (startOf [.ident "x", .of .TK_DEC])
      (.ok (js_Ast.new .EXP_POSTDEC 1 (js_Ast.strnode .EXP_IDENTIFIER 0 "x") .NULL .NULL .NULL)
        (nextState (nextState (startOf [.ident "x", .of .TK_DEC])))) ∧
    Yields (fun R => postfixexp R) (startOfFile xNewlineIncY)
      (.ok (js_Ast.strnode .EXP_IDENTIFIER 0 "x") (nextState (startOfFile xNewlineIncY))) :=
  ⟨postfix_newline_rule.1 (startOf [.ident "x", .of .TK_INC]) _ _
     (callexp_identifier rfl (by decide) (Or.inl rfl) (by decide) (by decide) (by decide))
     rfl rfl,
   postfix_newline_rule.2.1 (startOf [.ident "x", .of .TK_DEC]) _ _
     (callexp_identifier rfl (by decide) (Or.inl rfl) (by decide) (by decide) (by decide))
     rfl rfl,
   postfix_newline_rule.2.2.1 (startOfFile xNewlineIncY) _ _
     (callexp_identifier rfl (by decide) (Or.inl rfl) (by decide) (by decide) (by decide))
     (Or.inl rfl)⟩

/-! ## C7: the statement terminator -/

theorem nextState_source (J : js_State) : (nextState J).source = J.source.tail := by
  unfold nextState
  cases h : J.source <;> simp

/-- C7.  The function `jsP_semicolon` succeeds if and only if the lookahead is
`;`, `}` or end of input, or is flagged as preceded by a newline.  At `;` it
consumes exactly that token (the state after it is the state after `jsP_next`,
with one token less in the source); in the other success cases it leaves the
state unchanged; in every other state it raises a syntax error, whose message
is the first 255 characters of `<file>:<line>: ` followed by
`unexpected token: <seen> (expected ';')`. -/
theorem jsP_semicolon_spec (J : js_State) :
    ((∃ J', jsP_semicolon J = .ok () J') ↔
      (J.lookahead = Tok.SEMI ∨ J.lookahead = Tok.RBRACE ∨ J.lookahead = Tok.EOF ∨
        J.newline = true)) ∧
    (J.lookahead = Tok.SEMI →
      jsP_semicolon J = .ok () (nextState J) ∧ (nextState J).source = J.source.tail) ∧
    (J.lookahead ≠ Tok.SEMI →
      (J.lookahead = Tok.RBRACE ∨ J.lookahead = Tok.EOF ∨ J.newline = true) →
      jsP_semicolon J = .ok () J) ∧
    (¬ (J.lookahead = Tok.SEMI ∨ J.lookahead = Tok.RBRACE ∨ J.lookahead = Tok.EOF ∨
        J.newline = true) →
      jsP_semicolon J = .error (snprintf256 (J.filename ++ ":" ++ toString J.lexline ++ ": ") ++
        ("unexpected token: " ++ jsY_tokenstring J.lookahead ++ " (expected ';')"))) := by
  have hsemi : J.lookahead = Tok.SEMI →
      jsP_semicolon J = .ok () (nextState J) ∧ (nextState J).source = J.source.tail :=
    fun h => ⟨jsP_semicolon_semi h, nextState_source J⟩
  have hauto : J.lookahead ≠ Tok.SEMI →
      (J.lookahead = Tok.RBRACE ∨ J.lookahead = Tok.EOF ∨ J.newline = true) →
      jsP_semicolon J = .ok () J := fun h h1 =>
    jsP_semicolon_auto h (by tauto)
  have herr : ¬ (J.lookahead = Tok.SEMI ∨ J.lookahead = Tok.RBRACE ∨ J.lookahead = Tok.EOF ∨
        J.newline = true) →
      jsP_semicolon J = .error (snprintf256 (J.filename ++ ":" ++ toString J.lexline ++ ": ") ++
        ("unexpected token: " ++ jsY_tokenstring J.lookahead ++ " (expected ';')")) := by
    intro h
    push_neg at h
    exact jsP_semicolon_error h.1 (by simpa using h.2.2.2) h.2.1 h.2.2.1
  refine ⟨⟨?_, ?_⟩, hsemi, hauto, herr⟩
  · rintro ⟨J', hJ'⟩
    by_contra hc
    rw [herr hc] at hJ'
    cases hJ'
  · intro h
    by_cases hs : J.lookahead = Tok.SEMI
    · exact ⟨_, (hsemi hs).1⟩
    · exact ⟨_, hauto hs (by tauto)⟩

/-- C7 at `;` (consumed), at end of input (nothing consumed) and at `1 2` on
one line (the lookahead `2` after `1` is a syntax error). -/
theorem jsP_semicolon_spec_witness :
    jsP_semicolon (startOf [.of .SEMI, .num 1]) =
      .ok () (nextState (startOf [.of .SEMI, .num 1])) ∧
    (nextState (startOf [.of .SEMI, .num 1])).source = [] ∧
    jsP_semicolon (startOf []) = .ok () (startOf []) ∧
    (∃ msg, jsP_semicolon (startOf [.num 2]) = .error msg) :=
  ⟨((jsP_semicolon_spec (startOf [.of .SEMI, .num 1])).2.1 rfl).1,
   ((jsP_semicolon_spec (startOf [.of .SEMI, .num 1])).2.1 rfl).2,
   (jsP_semicolon_spec (startOf [])).2.2.1 (by decide) (Or.inr (Or.inl rfl)),
   ⟨_, (jsP_semicolon_spec (startOf [.num 2])).2.2.2 (by decide)⟩⟩

/-! ## C8: the head of a `for` statement -/

/-- The function `jsP_expect` at the expected token. -/
theorem jsP_expect_eq {x : Tok} {J : js_State} (h : J.lookahead = x) :
    jsP_expect x J = .ok () (nextState J) := by
  simp [jsP_expect, jsP_accept_eq h]

/-- The function `jsP_expect` at any other token: the syntax error naming the
token seen and the token expected. -/
theorem jsP_expect_ne {x : Tok} {J : js_State} (h : J.lookahead ≠ x) :
    jsP_expect x J = .error (snprintf256 (J.filename ++ ":" ++ toString J.lexline ++ ": ") ++
      ("unexpected token: " ++ jsY_tokenstring J.lookahead ++
        " (expected " ++ jsY_tokenstring x ++ ")")) := by
  simp [jsP_expect, jsP_accept_ne h, jsP_error,
    snprintf256_token_token "unexpected token: " " (expected " ")" _ _ (by decide)]

/-- The function `identifier` on an identifier token that is no reserved word. -/
theorem identifier_ok {J : js_State} (h : J.lookahead = Tok.TK_IDENTIFIER)
    (h1 : jsY_findword J.text futurewords = false)
    (h2 : J.strict = false ∨ jsY_findword J.text strictfuturewords = false) :
    identifier J = .ok (js_Ast.strnode .AST_IDENTIFIER J.astline J.text) (nextState J) := by
  simp [identifier, h, checkfutureword_ok h1 h2]

/-- The function `forexpression` at its end token: the clause is omitted. -/
theorem forexpression_empty {R : Rec} {end_ : Tok} {J : js_State} (h : J.lookahead = end_) :
    forexpression R end_ J = .ok .NULL (nextState J) := by
  simp [forexpression, h, jsP_expect_eq]

/-- The function `forexpression` before a clause: the expression, then the end token. -/
theorem forexpression_expression {end_ : Tok} {A : js_Ast} {J J1 : js_State}
    (h : J.lookahead ≠ end_) (hA : Yields (fun R => expression R false) J (.ok A J1))
    (h1 : J1.lookahead = end_) :
    Yields (fun R => forexpression R end_) J (.ok A (nextState J1)) := by
  obtain ⟨n, hA⟩ := hA
  refine ⟨n, fun m hm => ?_⟩
  have hA := hA m hm
  dsimp only at hA ⊢
  simp [forexpression, h, hA, jsP_expect_eq h1]

/-- The head `( var decls ; b ; c ) body`. -/
theorem forstatement_var {a b c d : js_Ast} {J J2 J3 J4 J5 : js_State}
    (h0 : J.lookahead = Tok.LPAREN) (h1 : (nextState J).lookahead = Tok.TK_VAR)
    (ha : Yields (fun R => vardeclist R true) (nextState (nextState J)) (.ok a J2))
    (h2 : J2.lookahead = Tok.SEMI)
    (hb : Yields (fun R => forexpression R Tok.SEMI) (nextState J2) (.ok b J3))
    (hc : Yields (fun R => forexpression R Tok.RPAREN) J3 (.ok c J4))
    (hd : Yields (fun R => statement R) J4 (.ok d J5)) :
    Yields (fun R => forstatement R) J (.ok (js_Ast.new .STM_FOR_VAR J5.astline a b c d) J5) := by
  obtain ⟨na, ha⟩ := ha
  obtain ⟨nb, hb⟩ := hb
  obtain ⟨nc, hc⟩ := hc
  obtain ⟨nd, hd⟩ := hd
  refine ⟨max (max na nb) (max nc nd) + 1, fun m hm => ?_⟩
  obtain ⟨j, rfl⟩ : ∃ j, m = j + 1 := ⟨m - 1, by omega⟩
  have ha := ha (j + 1) (by omega)
  have hb := hb (j + 1) (by omega)
  have hc := hc (j + 1) (by omega)
  have hd := hd j (by omega)
  dsimp only at ha hb hc hd ⊢
  rw [forstatement]
  simp [jsP_expect_eq h0, jsP_accept_apply, h1, ha, h2, hb, hc, step, hd]

/-- The head `( var decls in b ) body`. -/
theorem forstatement_in_var {a b c : js_Ast} {J J2 J3 J4 : js_State}
    (h0 : J.lookahead = Tok.LPAREN) (h1 : (nextState J).lookahead = Tok.TK_VAR)
    (ha : Yields (fun R => vardeclist R true) (nextState (nextState J)) (.ok a J2))
    (h2 : J2.lookahead = Tok.TK_IN)
    (hb : Yields (fun R => expression R false) (nextState J2) (.ok b J3))
    (h3 : J3.lookahead = Tok.RPAREN)
    (hc : Yields (fun R => statement R) (nextState J3) (.ok c J4)) :
    Yields (fun R => forstatement R) J
      (.ok (js_Ast.new .STM_FOR_IN_VAR J4.astline a b c .NULL) J4) := by
  obtain ⟨na, ha⟩ := ha
  obtain ⟨nb, hb⟩ := hb
  obtain ⟨nc, hc⟩ := hc
  refine ⟨max (max na nb) nc + 1, fun m hm => ?_⟩
  obtain ⟨j, rfl⟩ : ∃ j, m = j + 1 := ⟨m - 1, by omega⟩
  have ha := ha (j + 1) (by omega)
  have hb := hb (j + 1) (by omega)
  have hc := hc j (by omega)
  dsimp only at ha hb hc ⊢
  rw [forstatement]
  simp [jsP_expect_eq h0, jsP_accept_apply, h1, ha, h2, hb, jsP_expect_eq h3, step, hc]

/-- The head `( var decls` followed by a token other than `;` and `in`. -/
theorem forstatement_var_error {a : js_Ast} {J J2 : js_State}
    (h0 : J.lookahead = Tok.LPAREN) (h1 : (nextState J).lookahead = Tok.TK_VAR)
    (ha : Yields (fun R => vardeclist R true) (nextState (nextState J)) (.ok a J2))
    (h2 : J2.lookahead ≠ Tok.SEMI) (h3 : J2.lookahead ≠ Tok.TK_IN) :
    Yields (fun R => forstatement R) J
      (.error (snprintf256 (J2.filename ++ ":" ++ toString J2.lexline ++ ": ") ++
        ("unexpected token in for-var-statement: " ++ jsY_tokenstring J2.lookahead))) := by
  obtain ⟨na, ha⟩ := ha
  refine ⟨na, fun m hm => ?_⟩
  have ha := ha m hm
  dsimp only at ha ⊢
  simp [forstatement, jsP_expect_eq h0, jsP_accept_apply, h1, ha, h2, h3, jsP_error,
    snprintf256_token "unexpected token in for-var-statement: " _ (by decide)]

/-- The head `( init ; b ; c ) body` without `var`. -/
theorem forstatement_plain {a b c d : js_Ast} {J J2 J3 J4 J5 : js_State}
    (h0 : J.lookahead = Tok.LPAREN) (h1 : (nextState J).lookahead ≠ Tok.TK_VAR)
    (ha : Yields (fun R => forInit R) (nextState J) (.ok a J2))
    (h2 : J2.lookahead = Tok.SEMI)
    (hb : Yields (fun R => forexpression R Tok.SEMI) (nextState J2) (.ok b J3))
    (hc : Yields (fun R => forexpression R Tok.RPAREN) J3 (.ok c J4))
    (hd : Yields (fun R => statement R) J4 (.ok d J5)) :
    Yields (fun R => forstatement R) J (.ok (js_Ast.new .STM_FOR J5.astline a b c d) J5) := by
  obtain ⟨na, ha⟩ := ha
  obtain ⟨nb, hb⟩ := hb
  obtain ⟨nc, hc⟩ := hc
  obtain ⟨nd, hd⟩ := hd
  refine ⟨max (max na nb) (max nc nd) + 1, fun m hm => ?_⟩
  obtain ⟨j, rfl⟩ : ∃ j, m = j + 1 := ⟨m - 1, by omega⟩
  have ha := ha (j + 1) (by omega)
  have hb := hb (j + 1) (by omega)
  have hc := hc (j + 1) (by omega)
  have hd := hd j (by omega)
  dsimp only [forInit] at ha hb hc hd ⊢
  rw [forstatement]
  by_cases hs : (nextState J).lookahead = Tok.SEMI
  · simp only [hs, ne_eq, not_true_eq_false, if_false] at ha
    cases ha
    simp [jsP_expect_eq h0, jsP_accept_apply, h1, hs, hb, hc, step, hd]
  · simp only [hs, ne_eq, not_false_eq_true, if_true] at ha
    simp [jsP_expect_eq h0, jsP_accept_apply, h1, hs, ha, h2, hb, hc, step, hd]

/-- The head `( init in b ) body` without `var`. -/
theorem forstatement_in {a b c : js_Ast} {J J2 J3 J4 : js_State}
    (h0 : J.lookahead = Tok.LPAREN) (h1 : (nextState J).lookahead ≠ Tok.TK_VAR)
    (ha : Yields (fun R => forInit R) (nextState J) (.ok a J2))
    (h2 : J2.lookahead = Tok.TK_IN)
    (hb : Yields (fun R => expression R false) (nextState J2) (.ok b J3))
    (h3 : J3.lookahead = Tok.RPAREN)
    (hc : Yields (fun R => statement R) (nextState J3) (.ok c J4)) :
    Yields (fun R => forstatement R) J
      (.ok (js_Ast.new .STM_FOR_IN J4.astline a b c .NULL) J4) := by
  obtain ⟨na, ha⟩ := ha
  obtain ⟨nb, hb⟩ := hb
  obtain ⟨nc, hc⟩ := hc
  refine ⟨max (max na nb) nc + 1, fun m hm => ?_⟩
  obtain ⟨j, rfl⟩ : ∃ j, m = j + 1 := ⟨m - 1, by omega⟩
  have ha := ha (j + 1) (by omega)
  have hb := hb (j + 1) (by omega)
  have hc := hc j (by omega)
  dsimp only [forInit] at ha hb hc ⊢
  rw [forstatement]
  by_cases hs : (nextState J).lookahead = Tok.SEMI
  · simp only [hs, ne_eq, not_true_eq_false, if_false] at ha
    cases ha
    rw [hs] at h2
    cases h2
  · simp only [hs, ne_eq, not_false_eq_true, if_true] at ha
    simp [jsP_expect_eq h0, jsP_accept_apply, h1, hs, ha, h2, hb, jsP_expect_eq h3, step, hc]

/-- The head `( init` without `var`, followed by a token other than `;` and `in`. -/
theorem forstatement_error {a : js_Ast} {J J2 : js_State}
    (h0 : J.lookahead = Tok.LPAREN) (h1 : (nextState J).lookahead ≠ Tok.TK_VAR)
    (ha : Yields (fun R => forInit R) (nextState J) (.ok a J2))
    (h2 : J2.lookahead ≠ Tok.SEMI) (h3 : J2.lookahead ≠ Tok.TK_IN) :
    Yields (fun R => forstatement R) J
      (.error (snprintf256 (J2.filename ++ ":" ++ toString J2.lexline ++ ": ") ++
        ("unexpected token in for-statement: " ++ jsY_tokenstring J2.lookahead))) := by
  obtain ⟨na, ha⟩ := ha
  refine ⟨na, fun m hm => ?_⟩
  have ha := ha m hm
  dsimp only [forInit] at ha ⊢
  by_cases hs : (nextState J).lookahead = Tok.SEMI
  · simp only [hs, ne_eq, not_true_eq_false, if_false] at ha
    cases ha
    exact absurd hs h2
  · simp only [hs, ne_eq, not_false_eq_true, if_true] at ha
    simp [forstatement, jsP_expect_eq h0, jsP_accept_apply, h1, hs, ha, h2, h3, jsP_error,
      snprintf256_token "unexpected token in for-statement: " _ (by decide)]

/-- An omitted initial clause is the null pointer. -/
theorem forInit_empty {R : Rec} {J : js_State} (h : J.lookahead = Tok.SEMI) :
    forInit R J = .ok .NULL J := by
  simp [forInit, h]

/-- The `for` branch of `statement`. -/
theorem statement_for {J : js_State} {r : Res js_Ast} (h : J.lookahead = Tok.TK_FOR)
    (hr : Yields (fun R => forstatement R) (nextState J) r) :
    Yields (fun R => statement R) J r := by
  obtain ⟨n, hr⟩ := hr
  refine ⟨n, fun m hm => ?_⟩
  have hr := hr m hm
  dsimp only at hr ⊢
  simp [statement, jsP_accept_apply, h, hr]

/-- The empty statement. -/
theorem statement_empty {R : Rec} {J : js_State} (h : J.lookahead = Tok.SEMI) :
    statement R J =
      .ok (js_Ast.new .STM_EMPTY (nextState J).astline .NULL .NULL .NULL .NULL)
        (nextState J) := by
  simp [statement, jsP_accept_apply, h]

@[simp] theorem advance_zero (J : js_State) : advance 0 J = J := rfl

theorem advance_succ (n : Nat) (J : js_State) :
    advance (n + 1) J = nextState (advance n J) := rfl

/-- The function `unary` at a token that is no prefix operator is `postfix`. -/
theorem unary_of_postfixexp {J : js_State} {r : Res js_Ast}
    (h0 : prefixTok J.lookahead = false)
    (hp : Yields (fun R => postfixexp R) J r) : Yields (fun R => unary R) J r := by
  obtain ⟨n, hp⟩ := hp
  refine ⟨n, fun m hm => ?_⟩
  have hp := hp m hm
  dsimp only at hp ⊢
  have a : ∀ x, prefixTok x = true → jsP_accept x J = .ok false J := fun x hx =>
    jsP_accept_ne (fun h => by rw [h, hx] at h0; exact absurd h0 (by simp))
  simp only [unary, bind_apply, a _ (rfl : prefixTok .TK_DELETE = true),
    a _ (rfl : prefixTok .TK_IMPORT = true), a _ (rfl : prefixTok .TK_VOID = true),
    a _ (rfl : prefixTok .TK_TYPEOF = true), a _ (rfl : prefixTok .TK_INC = true),
    a _ (rfl : prefixTok .TK_DEC = true), a _ (rfl : prefixTok .PLUS = true),
    a _ (rfl : prefixTok .MINUS = true), a _ (rfl : prefixTok .TILDE = true),
    a _ (rfl : prefixTok .BANG = true), Bool.false_eq_true, ↓reduceIte, hp]

/-- The function `vardec` on a name without initialiser. -/
theorem vardec_plain {R : Rec} {notin : Bool} {J : js_State}
    (h : J.lookahead = Tok.TK_IDENTIFIER)
    (h1 : jsY_findword J.text futurewords = false)
    (h2 : J.strict = false ∨ jsY_findword J.text strictfuturewords = false)
    (h3 : (nextState J).lookahead ≠ Tok.ASSIGN) :
    vardec R notin J =
      .ok (js_Ast.new .EXP_VAR (nextState J).astline
        (js_Ast.strnode .AST_IDENTIFIER J.astline J.text) .NULL .NULL .NULL) (nextState J) := by
  simp [vardec, identifier_ok h h1 h2, jsP_accept_ne h3]

/-- The function `vardec` on a name with initialiser. -/
theorem vardec_init {notin : Bool} {B : js_Ast} {J J2 : js_State}
    (h : J.lookahead = Tok.TK_IDENTIFIER)
    (h1 : jsY_findword J.text futurewords = false)
    (h2 : J.strict = false ∨ jsY_findword J.text strictfuturewords = false)
    (h3 : (nextState J).lookahead = Tok.ASSIGN)
    (hB : Yields (fun R => assignment R notin) (nextState (nextState J)) (.ok B J2)) :
    Yields (fun R => vardec R notin) J
      (.ok (js_Ast.new .EXP_VAR J2.astline
        (js_Ast.strnode .AST_IDENTIFIER J.astline J.text) B .NULL .NULL) J2) := by
  obtain ⟨n, hB⟩ := hB
  refine ⟨n, fun m hm => ?_⟩
  have hB := hB m hm
  dsimp only at hB ⊢
  simp [vardec, identifier_ok h h1 h2, jsP_accept_eq h3, hB]

/-- The function `vardeclist` on a single declaration. -/
theorem vardeclist_single {notin : Bool} {e : js_Ast} {J J1 : js_State}
    (he : Yields (fun R => vardec R notin) J (.ok e J1)) (h : J1.lookahead ≠ Tok.COMMA) :
    Yields (fun R => vardeclist R notin) J
      (.ok (js_Ast.new .AST_LIST J1.astline e .NULL .NULL .NULL) J1) := by
  obtain ⟨n, he⟩ := he
  refine ⟨n, fun m hm => ?_⟩
  have he := he m hm
  dsimp only at he ⊢
  simp [vardeclist, he, vardeclist_loop, jsP_accept_ne h]

/-- The statement `for (;;) ;`. -/
theorem statement_forEmpty :
    Yields (fun R => statement R) (startOf forEmpty)
      (.ok (js_Ast.new .STM_FOR 1 .NULL .NULL .NULL
        (js_Ast.new .STM_EMPTY 1 .NULL .NULL .NULL .NULL)) (advance 6 (startOf forEmpty))) :=
  statement_for rfl
    (forstatement_plain (J := advance 1 (startOf forEmpty)) rfl (by decide)
      (Yields.of_eq fun _ => forInit_empty rfl) rfl
      (Yields.of_eq fun _ => forexpression_empty rfl)
      (Yields.of_eq fun _ => forexpression_empty (J := advance 4 (startOf forEmpty)) rfl)
      (Yields.of_eq fun _ => statement_empty (J := advance 5 (startOf forEmpty)) rfl))

/-- The statement `for (var k in obj) ;`. -/
theorem statement_forInVar :
    Yields (fun R => statement R) (startOf forInVar)
      (.ok (js_Ast.new .STM_FOR_IN_VAR 1
        (js_Ast.new .AST_LIST 1
          (js_Ast.new .EXP_VAR 1 (js_Ast.strnode .AST_IDENTIFIER 1 "k") .NULL .NULL .NULL)
          .NULL .NULL .NULL)
        (js_Ast.strnode .EXP_IDENTIFIER 1 "obj")
        (js_Ast.new .STM_EMPTY 1 .NULL .NULL .NULL .NULL) .NULL)
        (advance 8 (startOf forInVar))) :=
  statement_for rfl
    (forstatement_in_var (J := advance 1 (startOf forInVar)) rfl rfl
      (vardeclist_single
        (Yields.of_eq fun _ => vardec_plain (J := advance 3 (startOf forInVar)) rfl
          (by decide) (Or.inl rfl) (by decide))
        (by decide))
      rfl
      (expression_identifier (J := advance 5 (startOf forInVar)) rfl (by decide) (Or.inl rfl)
        (by decide) (by decide))
      rfl
      (Yields.of_eq fun _ => statement_empty (J := advance 7 (startOf forInVar)) rfl))

/-- The declaration list `i = 0` of `for (var i = 0; i < 10; i++) ;`. -/
theorem forVar_decl :
    Yields (fun R => vardeclist R true) (advance 3 (startOf forVar))
      (.ok (js_Ast.new .AST_LIST 1
          (js_Ast.new .EXP_VAR 1 (js_Ast.strnode .AST_IDENTIFIER 1 "i")
            (js_Ast.numnode .EXP_NUMBER 1 (Dbl.fin 0)) .NULL .NULL)
          .NULL .NULL .NULL) (advance 6 (startOf forVar))) := by
  have hinit : Yields (fun R => assignment R true) (advance 5 (startOf forVar))
      (.ok (js_Ast.numnode .EXP_NUMBER 1 (Dbl.fin 0)) (advance 6 (startOf forVar))) := by
    have h := @assignment_of_unary true _ _ _
      (unary_number (J := advance 5 (startOf forVar)) rfl (by decide)) rfl (by decide) rfl
    rw [levelFn_twelve] at h
    exact h
  exact vardeclist_single
    (vardec_init (J := advance 3 (startOf forVar)) rfl (by decide) (Or.inl rfl) rfl hinit)
    (by decide)

/-- The clause `i < 10 ;` of `for (var i = 0; i < 10; i++) ;`. -/
theorem forVar_cond :
    Yields (fun R => forexpression R Tok.SEMI) (advance 7 (startOf forVar))
      (.ok (js_Ast.new .EXP_LT 1 (js_Ast.strnode .EXP_IDENTIFIER 1 "i")
          (js_Ast.numnode .EXP_NUMBER 1 (Dbl.fin 10)) .NULL .NULL)
        (advance 11 (startOf forVar))) := by
  have hi : Yields (levelFn false 3) (advance 7 (startOf forVar))
      (.ok (js_Ast.strnode .EXP_IDENTIFIER 1 "i") (advance 8 (startOf forVar))) :=
    level_of_unary 3 (by omega)
      (unary_identifier (J := advance 7 (startOf forVar)) rfl (by decide) (Or.inl rfl)
        (by decide))
      (fun i ty hi h => by
        have h' : binop false Tok.LT = some (i, ty) := h
        simp [binop] at h'
        omega)
  have h10 : Yields (levelFn false 3) (advance 9 (startOf forVar))
      (.ok (js_Ast.numnode .EXP_NUMBER 1 (Dbl.fin 10)) (advance 10 (startOf forVar))) :=
    level_of_unary 3 (by omega)
      (unary_number (J := advance 9 (startOf forVar)) rfl (by decide))
      (fun i ty _ h => by
        have h' : binop false Tok.SEMI = some (i, ty) := h
        simp [binop] at h')
  have hlt := level_bin (k := 4) ⟨by omega, by omega⟩ hi rfl h10
    (fun ty h => by
      have h' : binop false Tok.SEMI = some (4, ty) := h
      simp [binop] at h')
  exact @forexpression_expression Tok.SEMI _ (advance 7 (startOf forVar)) _ (by decide)
    (expression_of_level (by omega) hlt (by decide)) rfl

/-- The clause `i++ )` of `for (var i = 0; i < 10; i++) ;`. -/
theorem forVar_step :
    Yields (fun R => forexpression R Tok.RPAREN) (advance 11 (startOf forVar))
      (.ok (js_Ast.new .EXP_POSTINC 1 (js_Ast.strnode .EXP_IDENTIFIER 1 "i") .NULL .NULL .NULL)
        (advance 14 (startOf forVar))) := by
  have hinc := unary_of_postfixexp (J := advance 11 (startOf forVar)) rfl
    (postfixexp_inc
      (callexp_identifier (J := advance 11 (startOf forVar)) rfl (by decide) (Or.inl rfl)
        (by decide) (by decide) (by decide)) rfl rfl)
  exact @forexpression_expression Tok.RPAREN _ (advance 11 (startOf forVar)) _ (by decide)
    (@expression_of_level false 0 _ _ _ (Nat.zero_le _)
      (by rw [levelFn_zero]; exact hinc) (by decide)) rfl

/-- The statement `for (var i = 0; i < 10; i++) ;`. -/
theorem statement_forVar :
    Yields (fun R => statement R) (startOf forVar)
      (.ok (js_Ast.new .STM_FOR_VAR 1
        (js_Ast.new .AST_LIST 1
          (js_Ast.new .EXP_VAR 1 (js_Ast.strnode .AST_IDENTIFIER 1 "i")
            (js_Ast.numnode .EXP_NUMBER 1 (Dbl.fin 0)) .NULL .NULL)
          .NULL .NULL .NULL)
        (js_Ast.new .EXP_LT 1 (js_Ast.strnode .EXP_IDENTIFIER 1 "i")
          (js_Ast.numnode .EXP_NUMBER 1 (Dbl.fin 10)) .NULL .NULL)
        (js_Ast.new .EXP_POSTINC 1 (js_Ast.strnode .EXP_IDENTIFIER 1 "i") .NULL .NULL .NULL)
        (js_Ast.new .STM_EMPTY 1 .NULL .NULL .NULL .NULL))
        (advance 15 (startOf forVar))) :=
  statement_for rfl
    (forstatement_var (J := advance 1 (startOf forVar)) rfl rfl forVar_decl rfl forVar_cond
      forVar_step
      (Yields.of_eq fun _ => statement_empty (J := advance 14 (startOf forVar)) rfl))

/-- C8.  The head of a `for` statement, from the `(` on.  With `var`, a
declaration list followed by `;` yields `STM_FOR_VAR` and followed by `in`
yields `STM_FOR_IN_VAR`; without `var`, an optional initial expression followed
by `;` yields `STM_FOR` and followed by `in` yields `STM_FOR_IN`; any other
following token raises a syntax error.  Every omitted clause is a null child.
So `for (;;) ;` yields `STM_FOR` with three null clauses and an `STM_EMPTY`
body, `for (var i = 0; i < 10; i++) ;` yields `STM_FOR_VAR` and
`for (var k in obj) ;` yields `STM_FOR_IN_VAR`. -/
theorem for_head_dispatch :
    (∀ (J J2 J3 J4 J5 : js_State) (a b c d : js_Ast),
      J.lookahead = Tok.LPAREN → (nextState J).lookahead = Tok.TK_VAR →
      Yields (fun R => vardeclist R true) (nextState (nextState J)) (.ok a J2) →
      J2.lookahead = Tok.SEMI →
      Yields (fun R => forexpression R Tok.SEMI) (nextState J2) (.ok b J3) →
      Yields (fun R => forexpression R Tok.RPAREN) J3 (.ok c J4) →
      Yields (fun R => statement R) J4 (.ok d J5) →
      Yields (fun R => forstatement R) J
        (.ok (js_Ast.new .STM_FOR_VAR J5.astline a b c d) J5)) ∧
    (∀ (J J2 J3 J4 : js_State) (a b c : js_Ast),
      J.lookahead = Tok.LPAREN → (nextState J).lookahead = Tok.TK_VAR →
      Yields (fun R => vardeclist R true) (nextState (nextState J)) (.ok a J2) →
      J2.lookahead = Tok.TK_IN →
      Yields (fun R => expression R false) (nextState J2) (.ok b J3) →
      J3.lookahead = Tok.RPAREN →
      Yields (fun R => statement R) (nextState J3) (.ok c J4) →
      Yields (fun R => forstatement R) J
        (.ok (js_Ast.new .STM_FOR_IN_VAR J4.astline a b c .NULL) J4)) ∧
    (∀ (J J2 : js_State) (a : js_Ast),
      J.lookahead = Tok.LPAREN → (nextState J).lookahead = Tok.TK_VAR →
      Yields (fun R => vardeclist R true) (nextState (nextState J)) (.ok a J2) →
      J2.lookahead ≠ Tok.SEMI → J2.lookahead ≠ Tok.TK_IN →
      ∃ msg, Yields (fun R => forstatement R) J (.error msg)) ∧
    (∀ (J J2 J3 J4 J5 : js_State) (a b c d : js_Ast),
      J.lookahead = Tok.LPAREN → (nextState J).lookahead ≠ Tok.TK_VAR →
      Yields (fun R => forInit R) (nextState J) (.ok a J2) →
      J2.lookahead = Tok.SEMI →
      Yields (fun R => forexpression R Tok.SEMI) (nextState J2) (.ok b J3) →
      Yields (fun R => forexpression R Tok.RPAREN) J3 (.ok c J4) →
      Yields (fun R => statement R) J4 (.ok d J5) →
      Yields (fun R => forstatement R) J (.ok (js_Ast.new .STM_FOR J5.astline a b c d) J5)) ∧
    (∀ (J J2 J3 J4 : js_State) (a b c : js_Ast),
      J.lookahead = Tok.LPAREN → (nextState J).lookahead ≠ Tok.TK_VAR →
      Yields (fun R => forInit R) (nextState J) (.ok a J2) →
      J2.lookahead = Tok.TK_IN →
      Yields (fun R => expression R false) (nextState J2) (.ok b J3) →
      J3.lookahead = Tok.RPAREN →
      Yields (fun R => statement R) (nextState J3) (.ok c J4) →
      Yields (fun R => forstatement R) J
        (.ok (js_Ast.new .STM_FOR_IN J4.astline a b c .NULL) J4)) ∧
    (∀ (J J2 : js_State) (a : js_Ast),
      J.lookahead = Tok.LPAREN → (nextState J).lookahead ≠ Tok.TK_VAR →
      Yields (fun R => forInit R) (nextState J) (.ok a J2) →
      J2.lookahead ≠ Tok.SEMI → J2.lookahead ≠ Tok.TK_IN →
      ∃ msg, Yields (fun R => forstatement R) J (.error msg)) ∧
    (∀ (R : Rec) (J : js_State), J.lookahead = Tok.SEMI → forInit R J = .ok .NULL J) ∧
    (∀ (R : Rec) (end_ : Tok) (J : js_State), J.lookahead = end_ →
      forexpression R end_ J = .ok .NULL (nextState J)) ∧
    Yields (fun R => statement R) (startOf forEmpty)
      (.ok (js_Ast.new .STM_FOR 1 .NULL .NULL .NULL
        (js_Ast.new .STM_EMPTY 1 .NULL .NULL .NULL .NULL)) (advance 6 (startOf forEmpty))) ∧
    (∃ a b c d, Yields (fun R => statement R) (startOf forVar)
      (.ok (js_Ast.new .STM_FOR_VAR 1 a b c d) (advance 15 (startOf forVar)))) ∧
    (∃ a b c, Yields (fun R => statement R) (startOf forInVar)
      (.ok (js_Ast.new .STM_FOR_IN_VAR 1 a b c .NULL) (advance 8 (startOf forInVar)))) :=
  ⟨fun _ _ _ _ _ _ _ _ _ h0 h1 ha h2 hb hc hd => forstatement_var h0 h1 ha h2 hb hc hd,
   fun _ _ _ _ _ _ _ h0 h1 ha h2 hb h3 hc => forstatement_in_var h0 h1 ha h2 hb h3 hc,
   fun _ _ _ h0 h1 ha h2 h3 => ⟨_, forstatement_var_error h0 h1 ha h2 h3⟩,
   fun _ _ _ _ _ _ _ _ _ h0 h1 ha h2 hb hc hd => forstatement_plain h0 h1 ha h2 hb hc hd,
   fun _ _ _ _ _ _ _ h0 h1 ha h2 hb h3 hc => forstatement_in h0 h1 ha h2 hb h3 hc,
   fun _ _ _ h0 h1 ha h2 h3 => ⟨_, forstatement_error h0 h1 ha h2 h3⟩,
   fun _ _ h => forInit_empty h,
   fun _ _ _ h => forexpression_empty h,
   statement_forEmpty, ⟨_, _, _, _, statement_forVar⟩, ⟨_, _, _, statement_forInVar⟩⟩

/-- C8 at `for (var i = 0; i < 10; i++) ;`, `for (var k in obj) ;`,
`for (var x )`, `for (;;) ;`, `for (x in obj) ;` and `for (x )`, from the `(` on. -/
theorem for_head_dispatch_witness :
    Yields (fun R => forstatement R) (advance 1 (startOf forVar))
      (.ok (js_Ast.new .STM_FOR_VAR 1
        (js_Ast.new .AST_LIST 1
          (js_Ast.new .EXP_VAR 1 (js_Ast.strnode .AST_IDENTIFIER 1 "i")
            (js_Ast.numnode .EXP_NUMBER 1 (Dbl.fin 0)) .NULL .NULL)
          .NULL .NULL .NULL)
        (js_Ast.new .EXP_LT 1 (js_Ast.strnode .EXP_IDENTIFIER 1 "i")
          (js_Ast.numnode .EXP_NUMBER 1 (Dbl.fin 10)) .NULL .NULL)
        (js_Ast.new .EXP_POSTINC 1 (js_Ast.strnode .EXP_IDENTIFIER 1 "i") .NULL .NULL .NULL)
        (js_Ast.new .STM_EMPTY 1 .NULL .NULL .NULL .NULL))
        (advance 15 (startOf forVar))) ∧
    Yields (fun R => forstatement R) (advance 1 (startOf forInVar))
      (.ok (js_Ast.new .STM_FOR_IN_VAR 1
        (js_Ast.new .AST_LIST 1
          (js_Ast.new .EXP_VAR 1 (js_Ast.strnode .AST_IDENTIFIER 1 "k") .NULL .NULL .NULL)
          .NULL .NULL .NULL)
        (js_Ast.strnode .EXP_IDENTIFIER 1 "obj")
        (js_Ast.new .STM_EMPTY 1 .NULL .NULL .NULL .NULL) .NULL)
        (advance 8 (startOf forInVar))) ∧
    (∃ msg, Yields (fun R => forstatement R) (advance 1 (startOf forVarBad)) (.error msg)) ∧
    Yields (fun R => forstatement R) (advance 1 (startOf forEmpty))
      (.ok (js_Ast.new .STM_FOR 1 .NULL .NULL .NULL
        (js_Ast.new .STM_EMPTY 1 .NULL .NULL .NULL .NULL)) (advance 6 (startOf forEmpty))) ∧
    Yields (fun R => forstatement R) (advance 1 (startOf forIn))
      (.ok (js_Ast.new .STM_FOR_IN 1 (js_Ast.strnode .EXP_IDENTIFIER 1 "x")
        (js_Ast.strnode .EXP_IDENTIFIER 1 "obj")
        (js_Ast.new .STM_EMPTY 1 .NULL .NULL .NULL .NULL) .NULL)
        (advance 7 (startOf forIn))) ∧
    (∃ msg, Yields (fun R => forstatement R) (advance 1 (startOf forBad)) (.error msg)) :=
  ⟨for_head_dispatch.1 (advance 1 (startOf forVar)) _ _ _ _ _ _ _ _ rfl rfl forVar_decl rfl
      forVar_cond forVar_step
      (Yields.of_eq fun _ => statement_empty (J := advance 14 (startOf forVar)) rfl),
   for_head_dispatch.2.1 (advance 1 (startOf forInVar)) _ _ _ _ _ _ rfl rfl
      (vardeclist_single
        (Yields.of_eq fun _ => vardec_plain (J := advance 3 (startOf forInVar)) rfl
          (by decide) (Or.inl rfl) (by decide))
        (by decide))
      rfl
      (expression_identifier (J := advance 5 (startOf forInVar)) rfl (by decide) (Or.inl rfl)
        (by decide) (by decide))
      rfl
      (Yields.of_eq fun _ => statement_empty (J := advance 7 (startOf forInVar)) rfl),
   for_head_dispatch.2.2.1 (advance 1 (startOf forVarBad)) _ _ rfl rfl
      (vardeclist_single
        (Yields.of_eq fun _ => vardec_plain (J := advance 3 (startOf forVarBad)) rfl
          (by decide) (Or.inl rfl) (by decide))
        (by decide))
      (by decide) (by decide),
   for_head_dispatch.2.2.2.1 (advance 1 (startOf forEmpty)) _ _ _ _ _ _ _ _ rfl (by decide)
      (Yields.of_eq fun _ => forInit_empty rfl) rfl
      (Yields.of_eq fun _ => forexpression_empty rfl)
      (Yields.of_eq fun _ => forexpression_empty (J := advance 4 (startOf forEmpty)) rfl)
      (Yields.of_eq fun _ => statement_empty (J := advance 5 (startOf forEmpty)) rfl),
   for_head_dispatch.2.2.2.2.1 (advance 1 (startOf forIn)) _ _ _ _ _ _ rfl (by decide)
      (expression_identifier (J := advance 2 (startOf forIn)) rfl (by decide) (Or.inl rfl)
        (by decide) (by decide))
      rfl
      (expression_identifier (J := advance 4 (startOf forIn)) rfl (by decide) (Or.inl rfl)
        (by decide) (by decide))
      rfl
      (Yields.of_eq fun _ => statement_empty (J := advance 6 (startOf forIn)) rfl),
   for_head_dispatch.2.2.2.2.2.1 (advance 1 (startOf forBad)) _ _ rfl (by decide)
      (expression_identifier (J := advance 2 (startOf forBad)) rfl (by decide) (Or.inl rfl)
        (by decide) (by decide))
      (by decide) (by decide)⟩

/-! ## C9: `try` needs `catch` or `finally` -/

/-- The function `identifier` never returns the null pointer. -/
theorem identifier_nonnull {J J1 : js_State} {b : js_Ast} (h : identifier J = .ok b J1) :
    b.isNull = false := by
  unfold identifier at h
  simp only [bind_apply, getJ_apply] at h
  split at h
  · cases hc : checkfutureword J.text J with
    | ok v J' =>
      simp only [bind_apply, hc, jsP_newstrnode_apply, jsP_next_apply, pure_apply,
        Res.ok.injEq] at h
      rw [← h.1]
      rfl
    | error m => simp [bind_apply, hc] at h
    | nofuel => simp [bind_apply, hc] at h
  · simp [jsP_error] at h

/-- The function `block` never returns the null pointer. -/
theorem block_nonnull {R : Rec} {J J1 : js_State} {d : js_Ast} (h : block R J = .ok d J1) :
    d.isNull = false := by
  unfold block at h
  simp only [bind_apply] at h
  cases h1 : jsP_expect Tok.LBRACE J with
  | ok v1 J' =>
    rw [h1] at h
    simp only at h
    cases h2 : statementlist R J' with
    | ok v2 J'' =>
      rw [h2] at h
      simp only at h
      cases h3 : jsP_expect Tok.RBRACE J'' with
      | ok v3 J''' =>
        rw [h3] at h
        simp at h
        rw [← h.1]
        rfl
      | error m => rw [h3] at h; simp at h
      | nofuel => rw [h3] at h; simp at h
    | error m => rw [h2] at h; simp at h
    | nofuel => rw [h2] at h; simp at h
  | error m => rw [h1] at h; simp at h
  | nofuel => rw [h1] at h; simp at h

theorem block_nonnull_of_yields {J J1 : js_State} {d : js_Ast}
    (h : Yields (fun R => block R) J (.ok d J1)) : d.isNull = false := by
  obtain ⟨n, h⟩ := h
  exact block_nonnull (h n (le_refl n))

/-- The empty block `{}`. -/
theorem block_empty {R : Rec} {J : js_State} (h : J.lookahead = Tok.LBRACE)
    (h1 : (nextState J).lookahead = Tok.RBRACE) :
    block R J = .ok (js_Ast.new .STM_BLOCK (advance 2 J).astline .NULL .NULL .NULL .NULL)
      (advance 2 J) := by
  simp [block, jsP_expect_eq h, statementlist, h1, jsP_expect_eq h1, advance]

/-- The block `{ s }` of one statement. -/
theorem block_single {s : js_Ast} {J J1 : js_State} (h : J.lookahead = Tok.LBRACE)
    (h1 : (nextState J).lookahead ≠ Tok.RBRACE ∧ (nextState J).lookahead ≠ Tok.TK_CASE ∧
      (nextState J).lookahead ≠ Tok.TK_DEFAULT)
    (hs : Yields (fun R => statement R) (nextState J) (.ok s J1))
    (h2 : J1.lookahead = Tok.RBRACE) :
    Yields (fun R => block R) J
      (.ok (js_Ast.new .STM_BLOCK (nextState J1).astline
        (js_Ast.new .AST_LIST J1.astline s .NULL .NULL .NULL) .NULL .NULL .NULL)
        (nextState J1)) := by
  obtain ⟨n, hs⟩ := hs
  refine ⟨n + 1, fun m hm => ?_⟩
  obtain ⟨j, rfl⟩ : ∃ j, m = j + 1 := ⟨m - 1, by omega⟩
  have hs := hs j (by omega)
  dsimp only at hs ⊢
  simp [block, jsP_expect_eq h, statementlist, h1, step, hs, statementlist_loop, h2,
    jsP_expect_eq h2]

/-- The function `callexp` on a call `f()` without arguments. -/
theorem callexp_call0 {J : js_State} (h : J.lookahead = Tok.TK_IDENTIFIER)
    (hw1 : jsY_findword J.text futurewords = false)
    (hw2 : J.strict = false ∨ jsY_findword J.text strictfuturewords = false)
    (h1 : (advance 1 J).lookahead = Tok.LPAREN) (h2 : (advance 2 J).lookahead = Tok.RPAREN)
    (h3 : (advance 3 J).lookahead ≠ Tok.DOT ∧ (advance 3 J).lookahead ≠ Tok.LBRACK ∧
      (advance 3 J).lookahead ≠ Tok.LPAREN) :
    Yields (fun R => callexp R) J
      (.ok (js_Ast.new .EXP_CALL (advance 2 J).astline
        (js_Ast.strnode .EXP_IDENTIFIER J.astline J.text) .NULL .NULL .NULL) (advance 3 J)) := by
  refine ⟨1, fun m hm => ?_⟩
  obtain ⟨j, rfl⟩ : ∃ j, m = j + 1 := ⟨m - 1, by omega⟩
  simp only [advance] at h1 h2 h3
  dsimp only
  simp [callexp, newexp, jsP_accept_apply, h, primary_identifier h hw1 hw2, callexp_loop,
    h1, arguments, h2, jsP_expect_eq h2, step, h3, advance]

/-- A `try` block followed by a `catch` clause and a `finally` clause. -/
theorem statement_try_catch_finally {a b c d : js_Ast} {J J1 Jb J2 J3 : js_State}
    (h : J.lookahead = Tok.TK_TRY) (ha : Yields (fun R => block R) (nextState J) (.ok a J1))
    (h1 : J1.lookahead = Tok.TK_CATCH) (h2 : (nextState J1).lookahead = Tok.LPAREN)
    (hb : identifier (nextState (nextState J1)) = .ok b Jb) (h3 : Jb.lookahead = Tok.RPAREN)
    (hc : Yields (fun R => block R) (nextState Jb) (.ok c J2))
    (h4 : J2.lookahead = Tok.TK_FINALLY)
    (hd : Yields (fun R => block R) (nextState J2) (.ok d J3)) :
    Yields (fun R => statement R) J (.ok (js_Ast.new .STM_TRY J3.astline a b c d) J3) := by
  have hbn := identifier_nonnull hb
  obtain ⟨na, ha⟩ := ha
  obtain ⟨nc, hc⟩ := hc
  obtain ⟨nd, hd⟩ := hd
  refine ⟨max na (max nc nd), fun m hm => ?_⟩
  have ha := ha m (by omega)
  have hc := hc m (by omega)
  have hd := hd m (by omega)
  dsimp only at ha hc hd ⊢
  simp [statement, jsP_accept_apply, h, ha, h1, jsP_expect_eq h2, hb, jsP_expect_eq h3, hc,
    h4, hd, hbn]

/-- A `try` block followed by a `catch` clause only. -/
theorem statement_try_catch {a b c : js_Ast} {J J1 Jb J2 : js_State}
    (h : J.lookahead = Tok.TK_TRY) (ha : Yields (fun R => block R) (nextState J) (.ok a J1))
    (h1 : J1.lookahead = Tok.TK_CATCH) (h2 : (nextState J1).lookahead = Tok.LPAREN)
    (hb : identifier (nextState (nextState J1)) = .ok b Jb) (h3 : Jb.lookahead = Tok.RPAREN)
    (hc : Yields (fun R => block R) (nextState Jb) (.ok c J2))
    (h4 : J2.lookahead ≠ Tok.TK_FINALLY) :
    Yields (fun R => statement R) J (.ok (js_Ast.new .STM_TRY J2.astline a b c .NULL) J2) := by
  have hbn := identifier_nonnull hb
  obtain ⟨na, ha⟩ := ha
  obtain ⟨nc, hc⟩ := hc
  refine ⟨max na nc, fun m hm => ?_⟩
  have ha := ha m (by omega)
  have hc := hc m (by omega)
  dsimp only at ha hc ⊢
  simp [statement, jsP_accept_apply, h, ha, h1, jsP_expect_eq h2, hb, jsP_expect_eq h3, hc,
    h4, hbn]

/-- A `try` block followed by a `finally` clause only. -/
theorem statement_try_finally {a d : js_Ast} {J J1 J3 : js_State}
    (h : J.lookahead = Tok.TK_TRY) (ha : Yields (fun R => block R) (nextState J) (.ok a J1))
    (h4 : J1.lookahead = Tok.TK_FINALLY)
    (hd : Yields (fun R => block R) (nextState J1) (.ok d J3)) :
    Yields (fun R => statement R) J
      (.ok (js_Ast.new .STM_TRY J3.astline a .NULL .NULL d) J3) := by
  have hdn := block_nonnull_of_yields hd
  obtain ⟨na, ha⟩ := ha
  obtain ⟨nd, hd⟩ := hd
  refine ⟨max na nd, fun m hm => ?_⟩
  have ha := ha m (by omega)
  have hd := hd m (by omega)
  dsimp only at ha hd ⊢
  have hnull : js_Ast.NULL.isNull = true := rfl
  have h1 : J1.lookahead ≠ Tok.TK_CATCH := by rw [h4]; decide
  simp [statement, jsP_accept_apply, h, ha, h1, h4, hd, hdn, hnull]

/-- A `try` block followed by neither `catch` nor `finally`: the syntax error. -/
theorem statement_try_error {a : js_Ast} {J J1 : js_State}
    (h : J.lookahead = Tok.TK_TRY) (ha : Yields (fun R => block R) (nextState J) (.ok a J1))
    (h1 : J1.lookahead ≠ Tok.TK_CATCH) (h4 : J1.lookahead ≠ Tok.TK_FINALLY) :
    Yields (fun R => statement R) J
      (.error (snprintf256 (J1.filename ++ ":" ++ toString J1.lexline ++ ": ") ++
        ("unexpected token in try: " ++ jsY_tokenstring J1.lookahead ++
          " (expected 'catch' or 'finally')"))) := by
  obtain ⟨na, ha⟩ := ha
  refine ⟨na, fun m hm => ?_⟩
  have ha := ha m hm
  dsimp only at ha ⊢
  simp [statement, jsP_accept_apply, h, ha, h1, h4, js_Ast.isNull, jsP_error,
    snprintf256_token_tail "unexpected token in try: " " (expected 'catch' or 'finally')" _
      (by decide)]

/-- The block `{ f(); }`. -/
theorem block_of_call {J : js_State} (h0 : J.lookahead = Tok.LBRACE)
    (h1 : (advance 1 J).lookahead = Tok.TK_IDENTIFIER)
    (hw1 : jsY_findword (advance 1 J).text futurewords = false)
    (hw2 : (advance 1 J).strict = false ∨
      jsY_findword (advance 1 J).text strictfuturewords = false)
    (h2 : (advance 2 J).lookahead = Tok.LPAREN) (h3 : (advance 3 J).lookahead = Tok.RPAREN)
    (h4 : (advance 4 J).lookahead = Tok.SEMI) (h5 : (advance 5 J).lookahead = Tok.RBRACE) :
    Yields (fun R => block R) J
      (.ok (js_Ast.new .STM_BLOCK (advance 6 J).astline
        (js_Ast.new .AST_LIST (advance 5 J).astline
          (js_Ast.new .EXP_CALL (advance 3 J).astline
            (js_Ast.strnode .EXP_IDENTIFIER (advance 1 J).astline (advance 1 J).text)
            .NULL .NULL .NULL) .NULL .NULL .NULL) .NULL .NULL .NULL) (advance 6 J)) := by
  have hcall := callexp_call0 (J := advance 1 J) h1 hw1 hw2 h2 h3
    (by
      have e : (advance 3 (advance 1 J)).lookahead = Tok.SEMI := h4
      rw [e]
      decide)
  have hpost := postfixexp_pass hcall (Or.inr (by
    have e : (advance 3 (advance 1 J)).lookahead = Tok.SEMI := h4
    rw [e]
    decide))
  have hun := unary_of_postfixexp (by rw [h1]; rfl) hpost
  have hexp := @expression_of_level false 0 _ _ _ (Nat.zero_le _)
    (by rw [levelFn_zero]; exact hun) (by
      have e : (advance 3 (advance 1 J)).lookahead = Tok.SEMI := h4
      rw [e]
      decide)
  have hstm := statement_identifier_expression h1 hexp (Or.inl (by simp))
    (jsP_semicolon_semi (J := advance 3 (advance 1 J)) h4)
  exact block_single h0 (by
      have e : (nextState J).lookahead = Tok.TK_IDENTIFIER := h1
      rw [e]
      decide) hstm h5

/-- C9.  A `try` statement parses successfully if and only if its block is
followed by a `catch` clause, a `finally` clause, or both: each of the three
forms yields `STM_TRY` (an absent clause being null), and a block followed by
neither `catch` nor `finally` raises a syntax error, so a successful parse has
one of them after the block.  `try { a(); }` raises a syntax error, and
`try {a();} catch(e){} finally{}` yields `STM_TRY` with the block, the catch
identifier, the catch block and the finally block all non-null. -/
theorem try_needs_handler :
    (∀ (J J1 Jb J2 J3 : js_State) (a b c d : js_Ast), J.lookahead = Tok.TK_TRY →
      Yields (fun R => block R) (nextState J) (.ok a J1) →
      J1.lookahead = Tok.TK_CATCH → (nextState J1).lookahead = Tok.LPAREN →
      identifier (nextState (nextState J1)) = .ok b Jb → Jb.lookahead = Tok.RPAREN →
      Yields (fun R => block R) (nextState Jb) (.ok c J2) →
      J2.lookahead = Tok.TK_FINALLY →
      Yields (fun R => block R) (nextState J2) (.ok d J3) →
      Yields (fun R => statement R) J (.ok (js_Ast.new .STM_TRY J3.astline a b c d) J3) ∧
        a.isNull = false ∧ b.isNull = false ∧ c.isNull = false ∧ d.isNull = false) ∧
    (∀ (J J1 Jb J2 : js_State) (a b c : js_Ast), J.lookahead = Tok.TK_TRY →
      Yields (fun R => block R) (nextState J) (.ok a J1) →
      J1.lookahead = Tok.TK_CATCH → (nextState J1).lookahead = Tok.LPAREN →
      identifier (nextState (nextState J1)) = .ok b Jb → Jb.lookahead = Tok.RPAREN →
      Yields (fun R => block R) (nextState Jb) (.ok c J2) →
      J2.lookahead ≠ Tok.TK_FINALLY →
      Yields (fun R => statement R) J
        (.ok (js_Ast.new .STM_TRY J2.astline a b c .NULL) J2)) ∧
    (∀ (J J1 J3 : js_State) (a d : js_Ast), J.lookahead = Tok.TK_TRY →
      Yields (fun R => block R) (nextState J) (.ok a J1) →
      J1.lookahead = Tok.TK_FINALLY →
      Yields (fun R => block R) (nextState J1) (.ok d J3) →
      Yields (fun R => statement R) J
        (.ok (js_Ast.new .STM_TRY J3.astline a .NULL .NULL d) J3)) ∧
    (∀ (J J1 : js_State) (a : js_Ast), J.lookahead = Tok.TK_TRY →
      Yields (fun R => block R) (nextState J) (.ok a J1) →
      J1.lookahead ≠ Tok.TK_CATCH → J1.lookahead ≠ Tok.TK_FINALLY →
      ∃ msg, Yields (fun R => statement R) J (.error msg)) ∧
    (∀ (J J1 J' : js_State) (a t : js_Ast), J.lookahead = Tok.TK_TRY →
      Yields (fun R => block R) (nextState J) (.ok a J1) →
      Yields (fun R => statement R) J (.ok t J') →
      J1.lookahead = Tok.TK_CATCH ∨ J1.lookahead = Tok.TK_FINALLY) ∧
    (∃ msg, Yields (fun R => statement R) (startOf tryAlone) (.error msg)) ∧
    (∃ a b c d, Yields (fun R => statement R) (startOf tryBoth)
        (.ok (js_Ast.new .STM_TRY 1 a b c d) (advance 16 (startOf tryBoth))) ∧
      a.isNull = false ∧ b.isNull = false ∧ c.isNull = false ∧ d.isNull = false) := by
  refine ⟨?_, ?_, ?_, ?_, ?_, ?_, ?_⟩
  · intro J J1 Jb J2 J3 a b c d h ha h1 h2 hb h3 hc h4 hd
    exact ⟨statement_try_catch_finally h ha h1 h2 hb h3 hc h4 hd, block_nonnull_of_yields ha,
      identifier_nonnull hb, block_nonnull_of_yields hc, block_nonnull_of_yields hd⟩
  · intro J J1 Jb J2 a b c h ha h1 h2 hb h3 hc h4
    exact statement_try_catch h ha h1 h2 hb h3 hc h4
  · intro J J1 J3 a d h ha h4 hd
    exact statement_try_finally h ha h4 hd
  · intro J J1 a h ha h1 h4
    exact ⟨_, statement_try_error h ha h1 h4⟩
  · intro J J1 J' a t h ha hok
    by_contra hc
    push_neg at hc
    have herr := statement_try_error h ha hc.1 hc.2
    exact absurd (hok.unique herr) (by simp)
  · exact ⟨_, statement_try_error (J := startOf tryAlone) rfl
      (block_of_call (J := advance 1 (startOf tryAlone)) rfl rfl (by decide) (Or.inl rfl)
        rfl rfl rfl rfl) (by decide) (by decide)⟩
  · have ha := block_of_call (J := advance 1 (startOf tryBoth)) rfl rfl (by decide)
      (Or.inl rfl) rfl rfl rfl rfl
    have hb := identifier_ok (J := advance 9 (startOf tryBoth)) rfl (by decide) (Or.inl rfl)
    have hc : Yields (fun R => block R) (advance 11 (startOf tryBoth)) _ :=
      Yields.of_eq fun _ => block_empty rfl rfl
    have hd : Yields (fun R => block R) (advance 14 (startOf tryBoth)) _ :=
      Yields.of_eq fun _ => block_empty rfl rfl
    exact ⟨_, _, _, _, statement_try_catch_finally (J := startOf tryBoth) rfl ha rfl rfl hb
      rfl hc rfl hd, rfl, rfl, rfl, rfl⟩

/-- C9 at `try {a();} catch(e){} finally{}`, `try {} catch(e){}`,
`try {} finally{}` and `try { a(); }`. -/
theorem try_needs_handler_witness :
    (∃ a b c d, Yields (fun R => statement R) (startOf tryBoth)
        (.ok (js_Ast.new .STM_TRY 1 a b c d) (advance 16 (startOf tryBoth))) ∧
      a.isNull = false ∧ b.isNull = false ∧ c.isNull = false ∧ d.isNull = false) ∧
    Yields (fun R => statement R) (startOf tryCatch)
      (.ok (js_Ast.new .STM_TRY 1 (js_Ast.new .STM_BLOCK 1 .NULL .NULL .NULL .NULL)
        (js_Ast.strnode .AST_IDENTIFIER 1 "e")
        (js_Ast.new .STM_BLOCK 1 .NULL .NULL .NULL .NULL) .NULL)
        (advance 9 (startOf tryCatch))) ∧
    Yields (fun R => statement R) (startOf tryFinally)
      (.ok (js_Ast.new .STM_TRY 1 (js_Ast.new .STM_BLOCK 1 .NULL .NULL .NULL .NULL)
        .NULL .NULL (js_Ast.new .STM_BLOCK 1 .NULL .NULL .NULL .NULL))
        (advance 6 (startOf tryFinally))) ∧
    (∃ msg, Yields (fun R => statement R) (startOf tryAlone) (.error msg)) ∧
    ((advance 3 (startOf tryFinally)).lookahead = Tok.TK_CATCH ∨
      (advance 3 (startOf tryFinally)).lookahead = Tok.TK_FINALLY) :=
  have hF : Yields (fun R => statement R) (startOf tryFinally)
      (.ok (js_Ast.new .STM_TRY 1 (js_Ast.new .STM_BLOCK 1 .NULL .NULL .NULL .NULL)
        .NULL .NULL (js_Ast.new .STM_BLOCK 1 .NULL .NULL .NULL .NULL))
        (advance 6 (startOf tryFinally))) :=
    try_needs_handler.2.2.1 (startOf tryFinally) (advance 3 (startOf tryFinally)) _ _ _ rfl
      (Yields.of_eq fun _ => block_empty (J := advance 1 (startOf tryFinally)) rfl rfl)
      rfl
      (Yields.of_eq fun _ => block_empty (J := advance 4 (startOf tryFinally)) rfl rfl)
  ⟨⟨_, _, _, _,
    try_needs_handler.1 (startOf tryBoth) (advance 7 (startOf tryBoth))
      (advance 10 (startOf tryBoth)) (advance 13 (startOf tryBoth))
      (advance 16 (startOf tryBoth)) _ _ _ _ rfl
      (block_of_call (J := advance 1 (startOf tryBoth)) rfl rfl (by decide) (Or.inl rfl)
        rfl rfl rfl rfl)
      rfl rfl
      (identifier_ok (J := advance 9 (startOf tryBoth)) rfl (by decide) (Or.inl rfl))
      rfl
      (Yields.of_eq fun _ => block_empty (J := advance 11 (startOf tryBoth)) rfl rfl)
      rfl
      (Yields.of_eq fun _ => block_empty (J := advance 14 (startOf tryBoth)) rfl rfl)⟩,
   try_needs_handler.2.1 (startOf tryCatch) (advance 3 (startOf tryCatch))
      (advance 6 (startOf tryCatch)) (advance 9 (startOf tryCatch)) _ _ _ rfl
      (Yields.of_eq fun _ => block_empty (J := advance 1 (startOf tryCatch)) rfl rfl)
      rfl rfl
      (identifier_ok (J := advance 5 (startOf tryCatch)) rfl (by decide) (Or.inl rfl))
      rfl
      (Yields.of_eq fun _ => block_empty (J := advance 7 (startOf tryCatch)) rfl rfl)
      (by decide),
   hF,
   try_needs_handler.2.2.2.1 (startOf tryAlone) (advance 7 (startOf tryAlone)) _ rfl
      (block_of_call (J := advance 1 (startOf tryAlone)) rfl rfl (by decide) (Or.inl rfl)
        rfl rfl rfl rfl)
      (by decide) (by decide),
   try_needs_handler.2.2.2.2.1 (startOf tryFinally) (advance 3 (startOf tryFinally)) _ _ _ rfl
      (Yields.of_eq fun _ => block_empty (J := advance 1 (startOf tryFinally)) rfl rfl) hF⟩

/-! ## C10: the value returned by `jsP_foldconst` -/

/-- The function `jsP_setnumnode` leaves an `EXP_NUMBER` node and returns 1. -/
theorem jsP_setnumnode_node (t : js_AstType) (line : Nat) (a b c d : js_Ast) (n : Dbl)
    (s : Option String) (x : Dbl) :
    jsP_setnumnode (.node t line a b c d n s) x =
      (.node .EXP_NUMBER line .NULL .NULL .NULL .NULL x s, true) := rfl

/-- C10.  The function `jsP_foldconst` returns 1 if and only if the node is an
`EXP_NUMBER` node when the call returns, and returns 0 exactly when the kind of
the node is left unchanged and is not `EXP_NUMBER`. -/
theorem jsP_foldconst_returns (t : js_Ast) :
    ((jsP_foldconst t).2 = true ↔ (jsP_foldconst t).1.type? = some .EXP_NUMBER) ∧
    ((jsP_foldconst t).2 = false ↔
      ((jsP_foldconst t).1.type? = t.type? ∧ t.type? ≠ some .EXP_NUMBER)) := by
  cases t with
  | NULL => simp [jsP_foldconst, js_Ast.type?]
  | node type line a b c d number string =>
    by_cases h : type = .EXP_NUMBER
    · subst h
      simp [jsP_foldconst, js_Ast.type?]
    · cases ha : (jsP_foldconst a).2 <;> cases hb : (jsP_foldconst b).2 <;>
        cases type <;>
        simp [jsP_foldconst, ha, hb, jsP_setnumnode_node, js_Ast.type?] at h ⊢

/-! ## C11: which nodes `jsP_foldconst` rewrites -/

/-- The value returned by `jsP_foldconst` tells whether the node is a numeric
literal when the call returns. -/
theorem jsP_foldconst_snd (t : js_Ast) :
    (jsP_foldconst t).2 = (jsP_foldconst t).1.isNumber := by
  cases t with
  | NULL => simp [jsP_foldconst, js_Ast.isNumber, js_Ast.type?]
  | node type line a b c d number string =>
    by_cases h : type = .EXP_NUMBER
    · subst h
      simp [jsP_foldconst, js_Ast.isNumber, js_Ast.type?]
    · cases ha : (jsP_foldconst a).2 <;> cases hb : (jsP_foldconst b).2 <;>
        cases type <;>
        simp [jsP_foldconst, ha, hb, jsP_setnumnode_node, js_Ast.isNumber, js_Ast.type?] at h ⊢

/-- A node of a kind other than `EXP_NUMBER` whose folded children do not call
for a rewrite keeps its kind and its child slots, and the call returns 0. -/
theorem jsP_foldconst_keep (type : js_AstType) (line : Nat) (a b c d : js_Ast)
    (number : Dbl) (string : Option String) (h : type ≠ .EXP_NUMBER)
    (hf : foldable type (jsP_foldconst a).1 (jsP_foldconst b).1 = false) :
    jsP_foldconst (.node type line a b c d number string) =
      (.node type line (jsP_foldconst a).1 (jsP_foldconst b).1 (jsP_foldconst c).1
        (jsP_foldconst d).1 number string, false) := by
  have ha := jsP_foldconst_snd a
  have hb := jsP_foldconst_snd b
  cases ha' : (jsP_foldconst a).1.isNumber <;> cases hb' : (jsP_foldconst b).1.isNumber <;>
    rw [ha'] at ha <;> rw [hb'] at hb <;> cases type <;>
    simp [jsP_foldconst, ha, hb, foldable, foldsUnary, foldsBinary, ha', hb'] at h hf ⊢

/-- A node of a kind other than `EXP_NUMBER` whose folded children call for a
rewrite becomes a numeric literal without children, and the call returns 1. -/
theorem jsP_foldconst_rewrite (type : js_AstType) (line : Nat) (a b c d : js_Ast)
    (number : Dbl) (string : Option String)
    (hf : foldable type (jsP_foldconst a).1 (jsP_foldconst b).1 = true) :
    ∃ x, jsP_foldconst (.node type line a b c d number string) =
      (.node .EXP_NUMBER line .NULL .NULL .NULL .NULL x string, true) := by
  have ha := jsP_foldconst_snd a
  have hb := jsP_foldconst_snd b
  cases ha' : (jsP_foldconst a).1.isNumber <;> cases hb' : (jsP_foldconst b).1.isNumber <;>
    rw [ha'] at ha <;> rw [hb'] at hb <;> cases type <;>
    simp [jsP_foldconst, ha, hb, foldable, foldsUnary, foldsBinary, ha', hb',
      jsP_setnumnode_node] at hf ⊢

/-- C11.  For a node of a kind other than `EXP_NUMBER` (the kind at which
`jsP_foldconst` returns before it folds any child), with its children folded:
the node is rewritten if and only if its kind is `EXP_NEG`, `EXP_POS` or
`EXP_BITNOT` over a numeric first child, or one of the eleven binary kinds over
numeric first and second children; a rewritten node is a numeric literal with
null child slots and the call returns 1; in every other case the call returns
0 and the node keeps its kind and its (folded) child slots. -/
theorem jsP_foldconst_rewrites (type : js_AstType) (line : Nat) (a b c d : js_Ast)
    (number : Dbl) (string : Option String) (h : type ≠ .EXP_NUMBER) :
    ((jsP_foldconst (.node type line a b c d number string)).1 ≠
        .node type line (jsP_foldconst a).1 (jsP_foldconst b).1 (jsP_foldconst c).1
          (jsP_foldconst d).1 number string ↔
      ((foldsUnary type = true ∧ (jsP_foldconst a).1.isNumber = true) ∨
        (foldsBinary type = true ∧ (jsP_foldconst a).1.isNumber = true ∧
          (jsP_foldconst b).1.isNumber = true))) ∧
    (((foldsUnary type = true ∧ (jsP_foldconst a).1.isNumber = true) ∨
        (foldsBinary type = true ∧ (jsP_foldconst a).1.isNumber = true ∧
          (jsP_foldconst b).1.isNumber = true)) →
      ∃ x, jsP_foldconst (.node type line a b c d number string) =
        (.node .EXP_NUMBER line .NULL .NULL .NULL .NULL x string, true)) ∧
    (¬ ((foldsUnary type = true ∧ (jsP_foldconst a).1.isNumber = true) ∨
        (foldsBinary type = true ∧ (jsP_foldconst a).1.isNumber = true ∧
          (jsP_foldconst b).1.isNumber = true)) →
      jsP_foldconst (.node type line a b c d number string) =
        (.node type line (jsP_foldconst a).1 (jsP_foldconst b).1 (jsP_foldconst c).1
          (jsP_foldconst d).1 number string, false)) := by
  have key : ((foldsUnary type = true ∧ (jsP_foldconst a).1.isNumber = true) ∨
      (foldsBinary type = true ∧ (jsP_foldconst a).1.isNumber = true ∧
        (jsP_foldconst b).1.isNumber = true)) ↔
      foldable type (jsP_foldconst a).1 (jsP_foldconst b).1 = true := by
    simp [foldable, and_assoc]
  refine ⟨?_, ?_, ?_⟩
  · rw [key]
    constructor
    · intro hne
      by_contra hf
      exact hne (by rw [jsP_foldconst_keep type line a b c d number string h (by simpa using hf)])
    · intro hf
      obtain ⟨x, hx⟩ := jsP_foldconst_rewrite type line a b c d number string hf
      rw [hx]
      intro heq
      injection heq with h1
      exact h h1.symm
  · intro hf
    exact jsP_foldconst_rewrite type line a b c d number string (key.mp hf)
  · intro hf
    exact jsP_foldconst_keep type line a b c d number string h
      (by simpa using (not_congr key).mp hf)

/-- C11, on `1 + x`: a sum of a numeric literal and an identifier is kept as it
is and the call returns 0; the sum `1 + 2` is rewritten. -/
theorem jsP_foldconst_rewrites_witness :
    jsP_foldconst (js_Ast.new .EXP_ADD 1 (js_Ast.numnode .EXP_NUMBER 1 (Dbl.fin 1))
        (js_Ast.strnode .EXP_IDENTIFIER 1 "x") .NULL .NULL) =
      (js_Ast.new .EXP_ADD 1 (js_Ast.numnode .EXP_NUMBER 1 (Dbl.fin 1))
        (js_Ast.strnode .EXP_IDENTIFIER 1 "x") .NULL .NULL, false) ∧
    ∃ x, jsP_foldconst (js_Ast.new .EXP_ADD 1 (js_Ast.numnode .EXP_NUMBER 1 (Dbl.fin 1))
        (js_Ast.numnode .EXP_NUMBER 1 (Dbl.fin 2)) .NULL .NULL) =
      (.node .EXP_NUMBER 1 .NULL .NULL .NULL .NULL x none, true) := by
  have h1 : jsP_foldconst (js_Ast.numnode .EXP_NUMBER 1 (Dbl.fin 1)) =
      (js_Ast.numnode .EXP_NUMBER 1 (Dbl.fin 1), true) := by
    simp [js_Ast.numnode, jsP_foldconst]
  have h2 : jsP_foldconst (js_Ast.numnode .EXP_NUMBER 1 (Dbl.fin 2)) =
      (js_Ast.numnode .EXP_NUMBER 1 (Dbl.fin 2), true) := by
    simp [js_Ast.numnode, jsP_foldconst]
  have hx : jsP_foldconst (js_Ast.strnode .EXP_IDENTIFIER 1 "x") =
      (js_Ast.strnode .EXP_IDENTIFIER 1 "x", false) := by
    simp [js_Ast.strnode, jsP_foldconst]
  have hn : jsP_foldconst js_Ast.NULL = (js_Ast.NULL, false) := by simp [jsP_foldconst]
  constructor
  · have h := (jsP_foldconst_rewrites .EXP_ADD 1 (js_Ast.numnode .EXP_NUMBER 1 (Dbl.fin 1))
      (js_Ast.strnode .EXP_IDENTIFIER 1 "x") .NULL .NULL (Dbl.fin 0) none (by decide)).2.2
    rw [h1, hx, hn] at h
    exact h (by simp [foldsUnary, js_Ast.isNumber, js_Ast.strnode, js_Ast.type?])
  · have h := (jsP_foldconst_rewrites .EXP_ADD 1 (js_Ast.numnode .EXP_NUMBER 1 (Dbl.fin 1))
      (js_Ast.numnode .EXP_NUMBER 1 (Dbl.fin 2)) .NULL .NULL (Dbl.fin 0) none (by decide)).2.1
    rw [h1, h2] at h
    exact h (Or.inr (by simp [foldsBinary, js_Ast.isNumber, js_Ast.numnode, js_Ast.type?]))

/-! ## C12: constant folding is idempotent -/

/-- C12.  Folding a folded tree changes no node and returns the same value:
the second run of `jsP_foldconst` returns the tree it was given, which is the
result of the first run, together with the value the first run returned. -/
theorem jsP_foldconst_idempotent (t : js_Ast) :
    jsP_foldconst (jsP_foldconst t).1 = ((jsP_foldconst t).1, (jsP_foldconst t).2) := by
  induction t with
  | NULL => simp [jsP_foldconst]
  | node type line a b c d number string iha ihb ihc ihd =>
    by_cases h : type = .EXP_NUMBER
    · subst h
      simp [jsP_foldconst]
    · by_cases hf : foldable type (jsP_foldconst a).1 (jsP_foldconst b).1 = true
      · obtain ⟨x, hx⟩ := jsP_foldconst_rewrite type line a b c d number string hf
        rw [hx]
        simp [jsP_foldconst]
      · have hf' : foldable type (jsP_foldconst a).1 (jsP_foldconst b).1 = false := by
          simpa using hf
        rw [jsP_foldconst_keep type line a b c d number string h hf']
        have hk := jsP_foldconst_keep type line (jsP_foldconst a).1 (jsP_foldconst b).1
          (jsP_foldconst c).1 (jsP_foldconst d).1 number string h
        rw [iha, ihb, ihc, ihd] at hk
        exact hk hf'

/-! ## C13: the tree returned by `jsP_parse` is fully folded -/

theorem Post.bind {α β : Type} {Q1 : α → Prop} {Q : β → Prop} {x : P α} {f : α → P β}
    (hx : Post Q1 x) (hf : ∀ v, Q1 v → Post Q (f v)) : Post Q (x >>= f) := by
  refine ⟨fun J v J1 h => ?_⟩
  simp only [bind_apply] at h
  cases hxJ : x J with
  | ok w J2 =>
    rw [hxJ] at h
    exact (hf w (hx.out J w J2 hxJ)).out J2 v J1 h
  | error m => rw [hxJ] at h; cases h
  | nofuel => rw [hxJ] at h; cases h

theorem Post.bind_any {α β : Type} {Q : β → Prop} {x : P α} {f : α → P β}
    (hf : ∀ v, Post Q (f v)) : Post Q (x >>= f) :=
  @Post.bind _ _ (fun _ => True) _ _ _ ⟨fun _ _ _ _ => trivial⟩ (fun v _ => hf v)

theorem Post.bind_ast {β : Type} {Q : β → Prop} {x : P js_Ast} {f : js_Ast → P β}
    (hx : Post (fun v => v.numLeaves = true) x)
    (hf : ∀ v, v.numLeaves = true → Post Q (f v)) : Post Q (x >>= f) :=
  Post.bind hx hf

theorem Post.bind_pair {β : Type} {Q : β → Prop} {x : P (js_Ast × js_Ast)}
    {f : js_Ast × js_Ast → P β}
    (hx : Post (fun v => v.1.numLeaves = true ∧ v.2.numLeaves = true) x)
    (hf : ∀ v, v.1.numLeaves = true ∧ v.2.numLeaves = true → Post Q (f v)) :
    Post Q (x >>= f) :=
  Post.bind hx hf

theorem Post.pure {α : Type} {Q : α → Prop} {v : α} (h : Q v) : Post Q (pure v : P α) := by
  refine ⟨fun J w J1 hw => ?_⟩
  simp only [pure_apply, Res.ok.injEq] at hw
  rw [← hw.1]
  exact h

theorem Post.error {α : Type} {Q : α → Prop} (msg : String) :
    Post Q (jsP_error msg : P α) := by
  refine ⟨fun J w J1 hw => ?_⟩
  simp [jsP_error] at hw

theorem Post.ite {α : Type} {Q : α → Prop} {c : Prop} [Decidable c] {x y : P α}
    (hx : Post Q x) (hy : Post Q y) : Post Q (if c then x else y) := by
  split
  · exact hx
  · exact hy

theorem Post.newnode {t : js_AstType} {a b c d : js_Ast} (ht : t ≠ .EXP_NUMBER)
    (ha : a.numLeaves = true) (hb : b.numLeaves = true) (hc : c.numLeaves = true)
    (hd : d.numLeaves = true) :
    Post (fun v => v.numLeaves = true) (jsP_newnode t a b c d) := by
  refine ⟨fun J w J1 hw => ?_⟩
  simp only [jsP_newnode_apply, Res.ok.injEq] at hw
  rw [← hw.1]
  simp [js_Ast.new, js_Ast.numLeaves, ha, hb, hc, hd, ht]

theorem Post.newstrnode (t : js_AstType) (s : String) :
    Post (fun v => v.numLeaves = true) (jsP_newstrnode t s) := by
  refine ⟨fun J w J1 hw => ?_⟩
  simp only [jsP_newstrnode_apply, Res.ok.injEq] at hw
  rw [← hw.1]
  simp [js_Ast.strnode, js_Ast.numLeaves, js_Ast.isNull]

theorem Post.newnumnode (t : js_AstType) (x : Dbl) :
    Post (fun v => v.numLeaves = true) (jsP_newnumnode t x) := by
  refine ⟨fun J w J1 hw => ?_⟩
  simp only [jsP_newnumnode_apply, Res.ok.injEq] at hw
  rw [← hw.1]
  simp [js_Ast.numnode, js_Ast.numLeaves, js_Ast.isNull]

theorem Post.LIST_bind {β : Type} {Q : β → Prop} {e : js_Ast} {f : js_Ast → P β}
    (hf : ∀ line, Post Q (f (js_Ast.new .AST_LIST line e .NULL .NULL .NULL))) :
    Post Q (LIST e >>= f) := by
  refine ⟨fun J v J1 h => ?_⟩
  simp only [bind_apply, LIST_apply] at h
  exact (hf _).out J v J1 h

theorem numLeaves_list {line : Nat} {e rest : js_Ast} (he : e.numLeaves = true)
    (hr : rest.numLeaves = true) :
    (js_Ast.new .AST_LIST line e rest .NULL .NULL).numLeaves = true := by
  simp [js_Ast.new, js_Ast.numLeaves, he, hr]

theorem numLeaves_setType {a : js_Ast} {t : js_AstType} (ht : t ≠ .EXP_NUMBER)
    (ha : a.numLeaves = true) : (a.setType t).numLeaves = true := by
  cases a with
  | NULL => rfl
  | node t0 l a b c d n s =>
    simp only [js_Ast.setType, js_Ast.numLeaves, Bool.and_eq_true, Bool.or_eq_true,
      bne_iff_ne] at ha ⊢
    exact ⟨⟨⟨⟨Or.inl ht, ha.1.1.1.2⟩, ha.1.1.2⟩, ha.1.2⟩, ha.2⟩

theorem numLeaves_setNumber {a : js_Ast} {x : Dbl} (ha : a.numLeaves = true) :
    (a.setNumber x).numLeaves = true := by
  cases a with
  | NULL => rfl
  | node t0 l a b c d n s => simpa [js_Ast.setNumber, js_Ast.numLeaves] using ha

theorem numLeaves_null : js_Ast.NULL.numLeaves = true := rfl

theorem numLeaves_cell {line : Nat} {e : js_Ast} (he : e.numLeaves = true) :
    (js_Ast.new .AST_LIST line e .NULL .NULL .NULL).numLeaves = true :=
  numLeaves_list he numLeaves_null

theorem numLeaves_label {a : js_Ast} (ha : a.numLeaves = true) :
    (a.setType .AST_IDENTIFIER).numLeaves = true := numLeaves_setType (by decide) ha

/-! Every parse function returns a tree whose `EXP_NUMBER` nodes have no
children, provided the calls through the handle do. -/

theorem identifier_numLeaves :
    Post (fun v => v.numLeaves = true) (identifier) := by
  simp only [identifier, EXP0, EXP1, EXP2, EXP3, STM4, jsP_list]
  repeat' first
    | exact numLeaves_null
    | assumption
    | contradiction
    | with_reducible apply Post.newstrnode
    | with_reducible apply Post.pure
    | with_reducible apply Post.error
    | with_reducible apply Post.ite
    | with_reducible apply Post.bind_ast
    | with_reducible apply Post.bind_any
    | intro _

theorem identifieropt_numLeaves :
    Post (fun v => v.numLeaves = true) (identifieropt) := by
  simp only [identifieropt, EXP0, EXP1, EXP2, EXP3, STM4, jsP_list]
  repeat' first
    | exact numLeaves_null
    | assumption
    | contradiction
    | with_reducible apply identifier_numLeaves
    | with_reducible apply Post.pure
    | with_reducible apply Post.ite
    | with_reducible apply Post.bind_ast
    | with_reducible apply Post.bind_any
    | intro _

theorem identifiername_numLeaves :
    Post (fun v => v.numLeaves = true) (identifiername) := by
  simp only [identifiername, EXP0, EXP1, EXP2, EXP3, STM4, jsP_list]
  repeat' first
    | exact numLeaves_null
    | assumption
    | contradiction
    | with_reducible apply identifier_numLeaves
    | with_reducible apply Post.newstrnode
    | with_reducible apply Post.pure
    | with_reducible apply Post.error
    | with_reducible apply Post.ite
    | with_reducible apply Post.bind_ast
    | with_reducible apply Post.bind_any
    | intro _

theorem arrayelement_numLeaves {R : Rec}
    (hR : ∀ fn, fn.arg.numLeaves = true → Post (fun v => v.numLeaves = true) (R fn)) :
    Post (fun v => v.numLeaves = true) (arrayelement R) := by
  simp only [arrayelement, EXP0, EXP1, EXP2, EXP3, STM4, jsP_list]
  repeat' first
    | exact numLeaves_null
    | assumption
    | contradiction
    | with_reducible apply hR
    | with_reducible apply Post.pure
    | with_reducible apply Post.ite
    | with_reducible apply Post.bind_ast
    | with_reducible apply Post.bind_any
    | with_reducible apply Post.newnode
    | intro _

theorem arrayliteral_loop_numLeaves {R : Rec}
    (hR : ∀ fn, fn.arg.numLeaves = true → Post (fun v => v.numLeaves = true) (R fn)) :
    Post (fun v => v.numLeaves = true) (arrayliteral_loop R) := by
  simp only [arrayliteral_loop, EXP0, EXP1, EXP2, EXP3, STM4, jsP_list]
  repeat' first
    | exact numLeaves_null
    | assumption
    | contradiction
    | exact numLeaves_list (by assumption) (by assumption)
    | exact numLeaves_cell (by assumption)
    | with_reducible apply hR
    | with_reducible apply arrayelement_numLeaves hR
    | with_reducible apply Post.pure
    | with_reducible apply Post.ite
    | with_reducible apply Post.LIST_bind
    | with_reducible apply Post.bind_ast
    | with_reducible apply Post.bind_any
    | intro _

theorem arrayliteral_numLeaves {R : Rec}
    (hR : ∀ fn, fn.arg.numLeaves = true → Post (fun v => v.numLeaves = true) (R fn)) :
    Post (fun v => v.numLeaves = true) (arrayliteral R) := by
  simp only [arrayliteral, EXP0, EXP1, EXP2, EXP3, STM4, jsP_list]
  repeat' first
    | exact numLeaves_null
    | assumption
    | contradiction
    | exact numLeaves_list (by assumption) (by assumption)
    | exact numLeaves_cell (by assumption)
    | with_reducible apply hR
    | with_reducible apply arrayelement_numLeaves hR
    | with_reducible apply arrayliteral_loop_numLeaves hR
    | with_reducible apply Post.pure
    | with_reducible apply Post.ite
    | with_reducible apply Post.LIST_bind
    | with_reducible apply Post.bind_ast
    | with_reducible apply Post.bind_any
    | intro _

theorem propname_numLeaves :
    Post (fun v => v.numLeaves = true) (propname) := by
  simp only [propname, EXP0, EXP1, EXP2, EXP3, STM4, jsP_list]
  repeat' first
    | exact numLeaves_null
    | assumption
    | contradiction
    | with_reducible apply identifiername_numLeaves
    | with_reducible apply Post.newstrnode
    | with_reducible apply Post.newnumnode
    | with_reducible apply Post.pure
    | with_reducible apply Post.ite
    | with_reducible apply Post.bind_ast
    | with_reducible apply Post.bind_any
    | intro _

theorem parameters_loop_numLeaves {R : Rec}
    (hR : ∀ fn, fn.arg.numLeaves = true → Post (fun v => v.numLeaves = true) (R fn)) :
    Post (fun v => v.numLeaves = true) (parameters_loop R) := by
  simp only [parameters_loop, EXP0, EXP1, EXP2, EXP3, STM4, jsP_list]
  repeat' first
    | exact numLeaves_null
    | assumption
    | contradiction
    | exact numLeaves_list (by assumption) (by assumption)
    | exact numLeaves_cell (by assumption)
    | with_reducible apply hR
    | with_reducible apply identifier_numLeaves
    | with_reducible apply Post.pure
    | with_reducible apply Post.ite
    | with_reducible apply Post.LIST_bind
    | with_reducible apply Post.bind_ast
    | with_reducible apply Post.bind_any
    | intro _

theorem parameters_numLeaves {R : Rec}
    (hR : ∀ fn, fn.arg.numLeaves = true → Post (fun v => v.numLeaves = true) (R fn)) :
    Post (fun v => v.numLeaves = true) (parameters R) := by
  simp only [parameters, EXP0, EXP1, EXP2, EXP3, STM4, jsP_list]
  repeat' first
    | exact numLeaves_null
    | assumption
    | contradiction
    | exact numLeaves_list (by assumption) (by assumption)
    | exact numLeaves_cell (by assumption)
    | with_reducible apply hR
    | with_reducible apply identifier_numLeaves
    | with_reducible apply parameters_loop_numLeaves hR
    | with_reducible apply Post.pure
    | with_reducible apply Post.ite
    | with_reducible apply Post.LIST_bind
    | with_reducible apply Post.bind_ast
    | with_reducible apply Post.bind_any
    | intro _

theorem propassign_numLeaves {R : Rec}
    (hR : ∀ fn, fn.arg.numLeaves = true → Post (fun v => v.numLeaves = true) (R fn)) :
    Post (fun v => v.numLeaves = true) (propassign R) := by
  simp only [propassign, EXP0, EXP1, EXP2, EXP3, STM4, jsP_list]
  repeat' first
    | exact numLeaves_null
    | assumption
    | contradiction
    | exact numLeaves_cell (by assumption)
    | with_reducible apply hR
    | with_reducible apply identifier_numLeaves
    | with_reducible apply propname_numLeaves
    | with_reducible apply Post.pure
    | with_reducible apply Post.ite
    | with_reducible apply Post.LIST_bind
    | with_reducible apply Post.bind_ast
    | with_reducible apply Post.bind_any
    | with_reducible apply Post.newnode
    | intro _

theorem objectliteral_loop_numLeaves {R : Rec}
    (hR : ∀ fn, fn.arg.numLeaves = true → Post (fun v => v.numLeaves = true) (R fn)) :
    Post (fun v => v.numLeaves = true) (objectliteral_loop R) := by
  simp only [objectliteral_loop, EXP0, EXP1, EXP2, EXP3, STM4, jsP_list]
  repeat' first
    | exact numLeaves_null
    | assumption
    | contradiction
    | exact numLeaves_list (by assumption) (by assumption)
    | exact numLeaves_cell (by assumption)
    | with_reducible apply hR
    | with_reducible apply propassign_numLeaves hR
    | with_reducible apply Post.pure
    | with_reducible apply Post.ite
    | with_reducible apply Post.LIST_bind
    | with_reducible apply Post.bind_ast
    | with_reducible apply Post.bind_any
    | intro _

theorem objectliteral_numLeaves {R : Rec}
    (hR : ∀ fn, fn.arg.numLeaves = true → Post (fun v => v.numLeaves = true) (R fn)) :
    Post (fun v => v.numLeaves = true) (objectliteral R) := by
  simp only [objectliteral, EXP0, EXP1, EXP2, EXP3, STM4, jsP_list]
  repeat' first
    | exact numLeaves_null
    | assumption
    | contradiction
    | exact numLeaves_list (by assumption) (by assumption)
    | exact numLeaves_cell (by assumption)
    | with_reducible apply hR
    | with_reducible apply objectliteral_loop_numLeaves hR
    | with_reducible apply propassign_numLeaves hR
    | with_reducible apply Post.pure
    | with_reducible apply Post.ite
    | with_reducible apply Post.LIST_bind
    | with_reducible apply Post.bind_ast
    | with_reducible apply Post.bind_any
    | intro _

theorem fundec_numLeaves {R : Rec}
    (hR : ∀ fn, fn.arg.numLeaves = true → Post (fun v => v.numLeaves = true) (R fn)) :
    Post (fun v => v.numLeaves = true) (fundec R) := by
  simp only [fundec, EXP0, EXP1, EXP2, EXP3, STM4, jsP_list]
  repeat' first
    | exact numLeaves_null
    | assumption
    | contradiction
    | with_reducible apply hR
    | with_reducible apply identifier_numLeaves
    | with_reducible apply parameters_numLeaves hR
    | with_reducible apply Post.pure
    | with_reducible apply Post.ite
    | with_reducible apply Post.bind_ast
    | with_reducible apply Post.bind_any
    | with_reducible apply Post.newnode
    | intro _

theorem funstm_numLeaves {R : Rec}
    (hR : ∀ fn, fn.arg.numLeaves = true → Post (fun v => v.numLeaves = true) (R fn)) :
    Post (fun v => v.numLeaves = true) (funstm R) := by
  simp only [funstm, EXP0, EXP1, EXP2, EXP3, STM4, jsP_list]
  repeat' first
    | exact numLeaves_null
    | assumption
    | contradiction
    | exact numLeaves_cell (by assumption)
    | with_reducible apply hR
    | with_reducible apply identifier_numLeaves
    | with_reducible apply parameters_numLeaves hR
    | with_reducible apply Post.pure
    | with_reducible apply Post.ite
    | with_reducible apply Post.LIST_bind
    | with_reducible apply Post.bind_ast
    | with_reducible apply Post.bind_any
    | with_reducible apply Post.newnode
    | intro _

theorem funexp_numLeaves {R : Rec}
    (hR : ∀ fn, fn.arg.numLeaves = true → Post (fun v => v.numLeaves = true) (R fn)) :
    Post (fun v => v.numLeaves = true) (funexp R) := by
  simp only [funexp, EXP0, EXP1, EXP2, EXP3, STM4, jsP_list]
  repeat' first
    | exact numLeaves_null
    | assumption
    | contradiction
    | with_reducible apply hR
    | with_reducible apply identifieropt_numLeaves
    | with_reducible apply parameters_numLeaves hR
    | with_reducible apply Post.pure
    | with_reducible apply Post.ite
    | with_reducible apply Post.bind_ast
    | with_reducible apply Post.bind_any
    | with_reducible apply Post.newnode
    | intro _

theorem primary_numLeaves {R : Rec}
    (hR : ∀ fn, fn.arg.numLeaves = true → Post (fun v => v.numLeaves = true) (R fn)) :
    Post (fun v => v.numLeaves = true) (primary R) := by
  simp only [primary, EXP0, EXP1, EXP2, EXP3, STM4, jsP_list]
  repeat' first
    | exact numLeaves_null
    | assumption
    | contradiction
    | exact numLeaves_setNumber (by assumption)
    | with_reducible apply hR
    | with_reducible apply arrayliteral_numLeaves hR
    | with_reducible apply objectliteral_numLeaves hR
    | with_reducible apply Post.newstrnode
    | with_reducible apply Post.newnumnode
    | with_reducible apply Post.pure
    | with_reducible apply Post.error
    | with_reducible apply Post.ite
    | with_reducible apply Post.bind_ast
    | with_reducible apply Post.bind_any
    | with_reducible apply Post.newnode
    | intro _

theorem arguments_loop_numLeaves {R : Rec}
    (hR : ∀ fn, fn.arg.numLeaves = true → Post (fun v => v.numLeaves = true) (R fn)) :
    Post (fun v => v.numLeaves = true) (arguments_loop R) := by
  simp only [arguments_loop, EXP0, EXP1, EXP2, EXP3, STM4, jsP_list]
  repeat' first
    | exact numLeaves_null
    | assumption
    | contradiction
    | exact numLeaves_list (by assumption) (by assumption)
    | exact numLeaves_cell (by assumption)
    | with_reducible apply hR
    | with_reducible apply Post.pure
    | with_reducible apply Post.ite
    | with_reducible apply Post.LIST_bind
    | with_reducible apply Post.bind_ast
    | with_reducible apply Post.bind_any
    | intro _

theorem arguments_numLeaves {R : Rec}
    (hR : ∀ fn, fn.arg.numLeaves = true → Post (fun v => v.numLeaves = true) (R fn)) :
    Post (fun v => v.numLeaves = true) (arguments R) := by
  simp only [arguments, EXP0, EXP1, EXP2, EXP3, STM4, jsP_list]
  repeat' first
    | exact numLeaves_null
    | assumption
    | contradiction
    | exact numLeaves_list (by assumption) (by assumption)
    | exact numLeaves_cell (by assumption)
    | with_reducible apply hR
    | with_reducible apply arguments_loop_numLeaves hR
    | with_reducible apply Post.pure
    | with_reducible apply Post.ite
    | with_reducible apply Post.LIST_bind
    | with_reducible apply Post.bind_ast
    | with_reducible apply Post.bind_any
    | intro _

theorem newexp_numLeaves {R : Rec}
    (hR : ∀ fn, fn.arg.numLeaves = true → Post (fun v => v.numLeaves = true) (R fn)) :
    Post (fun v => v.numLeaves = true) (newexp R) := by
  simp only [newexp, EXP0, EXP1, EXP2, EXP3, STM4, jsP_list]
  repeat' first
    | exact numLeaves_null
    | assumption
    | contradiction
    | with_reducible apply hR
    | with_reducible apply arguments_numLeaves hR
    | with_reducible apply funexp_numLeaves hR
    | with_reducible apply primary_numLeaves hR
    | with_reducible apply Post.pure
    | with_reducible apply Post.ite
    | with_reducible apply Post.bind_ast
    | with_reducible apply Post.bind_any
    | with_reducible apply Post.newnode
    | intro _

theorem memberexp_loop_numLeaves {R : Rec}
    (hR : ∀ fn, fn.arg.numLeaves = true → Post (fun v => v.numLeaves = true) (R fn))
    (a : js_Ast) (ha : a.numLeaves = true) :
    Post (fun v => v.numLeaves = true) (memberexp_loop R a) := by
  simp only [memberexp_loop, EXP0, EXP1, EXP2, EXP3, STM4, jsP_list]
  repeat' first
    | exact numLeaves_null
    | assumption
    | contradiction
    | with_reducible apply hR
    | with_reducible apply identifiername_numLeaves
    | with_reducible apply Post.pure
    | with_reducible apply Post.ite
    | with_reducible apply Post.bind_ast
    | with_reducible apply Post.bind_any
    | with_reducible apply Post.newnode
    | intro _

theorem memberexp_numLeaves {R : Rec}
    (hR : ∀ fn, fn.arg.numLeaves = true → Post (fun v => v.numLeaves = true) (R fn)) :
    Post (fun v => v.numLeaves = true) (memberexp R) := by
  simp only [memberexp, EXP0, EXP1, EXP2, EXP3, STM4, jsP_list]
  repeat' first
    | exact numLeaves_null
    | assumption
    | contradiction
    | with_reducible apply hR
    | with_reducible apply memberexp_loop_numLeaves hR
    | with_reducible apply newexp_numLeaves hR
    | with_reducible apply Post.pure
    | with_reducible apply Post.ite
    | with_reducible apply Post.bind_ast

theorem callexp_loop_numLeaves {R : Rec}
    (hR : ∀ fn, fn.arg.numLeaves = true → Post (fun v => v.numLeaves = true) (R fn))
    (a : js_Ast) (ha : a.numLeaves = true) :
    Post (fun v => v.numLeaves = true) (callexp_loop R a) := by
  simp only [callexp_loop, EXP0, EXP1, EXP2, EXP3, STM4, jsP_list]
  repeat' first
    | exact numLeaves_null
    | assumption
    | contradiction
    | with_reducible apply hR
    | with_reducible apply arguments_numLeaves hR
    | with_reducible apply identifiername_numLeaves
    | with_reducible apply Post.pure
    | with_reducible apply Post.ite
    | with_reducible apply Post.bind_ast
    | with_reducible apply Post.bind_any
    | with_reducible apply Post.newnode
    | intro _

theorem callexp_numLeaves {R : Rec}
    (hR : ∀ fn, fn.arg.numLeaves = true → Post (fun v => v.numLeaves = true) (R fn)) :
    Post (fun v => v.numLeaves = true) (callexp R) := by
  simp only [callexp, EXP0, EXP1, EXP2, EXP3, STM4, jsP_list]
  repeat' first
    | exact numLeaves_null
    | assumption
    | contradiction
    | with_reducible apply hR
    | with_reducible apply callexp_loop_numLeaves hR
    | with_reducible apply newexp_numLeaves hR
    | with_reducible apply Post.pure
    | with_reducible apply Post.ite
    | with_reducible apply Post.bind_ast

theorem postfixexp_numLeaves {R : Rec}
    (hR : ∀ fn, fn.arg.numLeaves = true → Post (fun v => v.numLeaves = true) (R fn)) :
    Post (fun v => v.numLeaves = true) (postfixexp R) := by
  simp only [postfixexp, EXP0, EXP1, EXP2, EXP3, STM4, jsP_list]
  repeat' first
    | exact numLeaves_null
    | assumption
    | contradiction
    | with_reducible apply hR
    | with_reducible apply callexp_numLeaves hR
    | with_reducible apply Post.pure
    | with_reducible apply Post.ite
    | with_reducible apply Post.bind_ast
    | with_reducible apply Post.bind_any
    | with_reducible apply Post.newnode
    | intro _

theorem unary_numLeaves {R : Rec}
    (hR : ∀ fn, fn.arg.numLeaves = true → Post (fun v => v.numLeaves = true) (R fn)) :
    Post (fun v => v.numLeaves = true) (unary R) := by
  simp only [unary, EXP0, EXP1, EXP2, EXP3, STM4, jsP_list]
  repeat' first
    | exact numLeaves_null
    | assumption
    | contradiction
    | with_reducible apply hR
    | with_reducible apply postfixexp_numLeaves hR
    | with_reducible apply Post.pure
    | with_reducible apply Post.ite
    | with_reducible apply Post.bind_ast
    | with_reducible apply Post.bind_any
    | with_reducible apply Post.newnode
    | intro _

theorem multiplicative_loop_numLeaves {R : Rec}
    (hR : ∀ fn, fn.arg.numLeaves = true → Post (fun v => v.numLeaves = true) (R fn))
    (a : js_Ast) (ha : a.numLeaves = true) :
    Post (fun v => v.numLeaves = true) (multiplicative_loop R a) := by
  simp only [multiplicative_loop, EXP0, EXP1, EXP2, EXP3, STM4, jsP_list]
  repeat' first
    | exact numLeaves_null
    | assumption
    | contradiction
    | with_reducible apply hR
    | with_reducible apply unary_numLeaves hR
    | with_reducible apply Post.pure
    | with_reducible apply Post.ite
    | with_reducible apply Post.bind_ast
    | with_reducible apply Post.bind_any
    | with_reducible apply Post.newnode
    | intro _

theorem multiplicative_numLeaves {R : Rec}
    (hR : ∀ fn, fn.arg.numLeaves = true → Post (fun v => v.numLeaves = true) (R fn)) :
    Post (fun v => v.numLeaves = true) (multiplicative R) := by
  simp only [multiplicative, EXP0, EXP1, EXP2, EXP3, STM4, jsP_list]
  repeat' first
    | exact numLeaves_null
    | assumption
    | contradiction
    | with_reducible apply hR
    | with_reducible apply multiplicative_loop_numLeaves hR
    | with_reducible apply unary_numLeaves hR
    | with_reducible apply Post.pure
    | with_reducible apply Post.ite
    | with_reducible apply Post.bind_ast

theorem additive_loop_numLeaves {R : Rec}
    (hR : ∀ fn, fn.arg.numLeaves = true → Post (fun v => v.numLeaves = true) (R fn))
    (a : js_Ast) (ha : a.numLeaves = true) :
    Post (fun v => v.numLeaves = true) (additive_loop R a) := by
  simp only [additive_loop, EXP0, EXP1, EXP2, EXP3, STM4, jsP_list]
  repeat' first
    | exact numLeaves_null
    | assumption
    | contradiction
    | with_reducible apply hR
    | with_reducible apply multiplicative_numLeaves hR
    | with_reducible apply Post.pure
    | with_reducible apply Post.ite
    | with_reducible apply Post.bind_ast
    | with_reducible apply Post.bind_any
    | with_reducible apply Post.newnode
    | intro _

theorem additive_numLeaves {R : Rec}
    (hR : ∀ fn, fn.arg.numLeaves = true → Post (fun v => v.numLeaves = true) (R fn)) :
    Post (fun v => v.numLeaves = true) (additive R) := by
  simp only [additive, EXP0, EXP1, EXP2, EXP3, STM4, jsP_list]
  repeat' first
    | exact numLeaves_null
    | assumption
    | contradiction
    | with_reducible apply hR
    | with_reducible apply additive_loop_numLeaves hR
    | with_reducible apply multiplicative_numLeaves hR
    | with_reducible apply Post.pure
    | with_reducible apply Post.ite
    | with_reducible apply Post.bind_ast

theorem shift_loop_numLeaves {R : Rec}
    (hR : ∀ fn, fn.arg.numLeaves = true → Post (fun v => v.numLeaves = true) (R fn))
    (a : js_Ast) (ha : a.numLeaves = true) :
    Post (fun v => v.numLeaves = true) (shift_loop R a) := by
  simp only [shift_loop, EXP0, EXP1, EXP2, EXP3, STM4, jsP_list]
  repeat' first
    | exact numLeaves_null
    | assumption
    | contradiction
    | with_reducible apply hR
    | with_reducible apply additive_numLeaves hR
    | with_reducible apply Post.pure
    | with_reducible apply Post.ite
    | with_reducible apply Post.bind_ast
    | with_reducible apply Post.bind_any
    | with_reducible apply Post.newnode
    | intro _

theorem shift_numLeaves {R : Rec}
    (hR : ∀ fn, fn.arg.numLeaves = true → Post (fun v => v.numLeaves = true) (R fn)) :
    Post (fun v => v.numLeaves = true) (shift R) := by
  simp only [shift, EXP0, EXP1, EXP2, EXP3, STM4, jsP_list]
  repeat' first
    | exact numLeaves_null
    | assumption
    | contradiction
    | with_reducible apply hR
    | with_reducible apply additive_numLeaves hR
    | with_reducible apply shift_loop_numLeaves hR
    | with_reducible apply Post.pure
    | with_reducible apply Post.ite
    | with_reducible apply Post.bind_ast

theorem relational_loop_numLeaves {R : Rec}
    (hR : ∀ fn, fn.arg.numLeaves = true → Post (fun v => v.numLeaves = true) (R fn))
    (notin : Bool) (a : js_Ast) (ha : a.numLeaves = true) :
    Post (fun v => v.numLeaves = true) (relational_loop R notin a) := by
  simp only [relational_loop, EXP0, EXP1, EXP2, EXP3, STM4, jsP_list]
  repeat' first
    | exact numLeaves_null
    | assumption
    | contradiction
    | with_reducible apply hR
    | with_reducible apply shift_numLeaves hR
    | with_reducible apply Post.pure
    | with_reducible apply Post.ite
    | with_reducible apply Post.bind_ast
    | with_reducible apply Post.bind_any
    | with_reducible apply Post.newnode
    | intro _

theorem relational_numLeaves {R : Rec}
    (hR : ∀ fn, fn.arg.numLeaves = true → Post (fun v => v.numLeaves = true) (R fn))
    (notin : Bool) :
    Post (fun v => v.numLeaves = true) (relational R notin) := by
  simp only [relational, EXP0, EXP1, EXP2, EXP3, STM4, jsP_list]
  repeat' first
    | exact numLeaves_null
    | assumption
    | contradiction
    | with_reducible apply hR
    | with_reducible apply relational_loop_numLeaves hR
    | with_reducible apply shift_numLeaves hR
    | with_reducible apply Post.pure
    | with_reducible apply Post.ite
    | with_reducible apply Post.bind_ast

theorem equality_loop_numLeaves {R : Rec}
    (hR : ∀ fn, fn.arg.numLeaves = true → Post (fun v => v.numLeaves = true) (R fn))
    (notin : Bool) (a : js_Ast) (ha : a.numLeaves = true) :
    Post (fun v => v.numLeaves = true) (equality_loop R notin a) := by
  simp only [equality_loop, EXP0, EXP1, EXP2, EXP3, STM4, jsP_list]
  repeat' first
    | exact numLeaves_null
    | assumption
    | contradiction
    | with_reducible apply hR
    | with_reducible apply relational_numLeaves hR
    | with_reducible apply Post.pure
    | with_reducible apply Post.ite
    | with_reducible apply Post.bind_ast
    | with_reducible apply Post.bind_any
    | with_reducible apply Post.newnode
    | intro _

theorem equality_numLeaves {R : Rec}
    (hR : ∀ fn, fn.arg.numLeaves = true → Post (fun v => v.numLeaves = true) (R fn))
    (notin : Bool) :
    Post (fun v => v.numLeaves = true) (equality R notin) := by
  simp only [equality, EXP0, EXP1, EXP2, EXP3, STM4, jsP_list]
  repeat' first
    | exact numLeaves_null
    | assumption
    | contradiction
    | with_reducible apply hR
    | with_reducible apply equality_loop_numLeaves hR
    | with_reducible apply relational_numLeaves hR
    | with_reducible apply Post.pure
    | with_reducible apply Post.ite
    | with_reducible apply Post.bind_ast

theorem bitand_loop_numLeaves {R : Rec}
    (hR : ∀ fn, fn.arg.numLeaves = true → Post (fun v => v.numLeaves = true) (R fn))
    (notin : Bool) (a : js_Ast) (ha : a.numLeaves = true) :
    Post (fun v => v.numLeaves = true) (bitand_loop R notin a) := by
  simp only [bitand_loop, EXP0, EXP1, EXP2, EXP3, STM4, jsP_list]
  repeat' first
    | exact numLeaves_null
    | assumption
    | contradiction
    | with_reducible apply hR
    | with_reducible apply equality_numLeaves hR
    | with_reducible apply Post.pure
    | with_reducible apply Post.ite
    | with_reducible apply Post.bind_ast
    | with_reducible apply Post.bind_any
    | with_reducible apply Post.newnode
    | intro _

theorem bitand_numLeaves {R : Rec}
    (hR : ∀ fn, fn.arg.numLeaves = true → Post (fun v => v.numLeaves = true) (R fn))
    (notin : Bool) :
    Post (fun v => v.numLeaves = true) (bitand R notin) := by
  simp only [bitand, EXP0, EXP1, EXP2, EXP3, STM4, jsP_list]
  repeat' first
    | exact numLeaves_null
    | assumption
    | contradiction
    | with_reducible apply hR
    | with_reducible apply bitand_loop_numLeaves hR
    | with_reducible apply equality_numLeaves hR
    | with_reducible apply Post.pure
    | with_reducible apply Post.ite
    | with_reducible apply Post.bind_ast

theorem bitxor_loop_numLeaves {R : Rec}
    (hR : ∀ fn, fn.arg.numLeaves = true → Post (fun v => v.numLeaves = true) (R fn))
    (notin : Bool) (a : js_Ast) (ha : a.numLeaves = true) :
    Post (fun v => v.numLeaves = true) (bitxor_loop R notin a) := by
  simp only [bitxor_loop, EXP0, EXP1, EXP2, EXP3, STM4, jsP_list]
  repeat' first
    | exact numLeaves_null
    | assumption
    | contradiction
    | with_reducible apply hR
    | with_reducible apply bitand_numLeaves hR
    | with_reducible apply Post.pure
    | with_reducible apply Post.ite
    | with_reducible apply Post.bind_ast
    | with_reducible apply Post.bind_any
    | with_reducible apply Post.newnode
    | intro _

theorem bitxor_numLeaves {R : Rec}
    (hR : ∀ fn, fn.arg.numLeaves = true → Post (fun v => v.numLeaves = true) (R fn))
    (notin : Bool) :
    Post (fun v => v.numLeaves = true) (bitxor R notin) := by
  simp only [bitxor, EXP0, EXP1, EXP2, EXP3, STM4, jsP_list]
  repeat' first
    | exact numLeaves_null
    | assumption
    | contradiction
    | with_reducible apply hR
    | with_reducible apply bitand_numLeaves hR
    | with_reducible apply bitxor_loop_numLeaves hR
    | with_reducible apply Post.pure
    | with_reducible apply Post.ite
    | with_reducible apply Post.bind_ast

theorem bitor_loop_numLeaves {R : Rec}
    (hR : ∀ fn, fn.arg.numLeaves = true → Post (fun v => v.numLeaves = true) (R fn))
    (notin : Bool) (a : js_Ast) (ha : a.numLeaves = true) :
    Post (fun v => v.numLeaves = true) (bitor_loop R notin a) := by
  simp only [bitor_loop, EXP0, EXP1, EXP2, EXP3, STM4, jsP_list]
  repeat' first
    | exact numLeaves_null
    | assumption
    | contradiction
    | with_reducible apply hR
    | with_reducible apply bitxor_numLeaves hR
    | with_reducible apply Post.pure
    | with_reducible apply Post.ite
    | with_reducible apply Post.bind_ast
    | with_reducible apply Post.bind_any
    | with_reducible apply Post.newnode
    | intro _

theorem bitor_numLeaves {R : Rec}
    (hR : ∀ fn, fn.arg.numLeaves = true → Post (fun v => v.numLeaves = true) (R fn))
    (notin : Bool) :
    Post (fun v => v.numLeaves = true) (bitor R notin) := by
  simp only [bitor, EXP0, EXP1, EXP2, EXP3, STM4, jsP_list]
  repeat' first
    | exact numLeaves_null
    | assumption
    | contradiction
    | with_reducible apply hR
    | with_reducible apply bitor_loop_numLeaves hR
    | with_reducible apply bitxor_numLeaves hR
    | with_reducible apply Post.pure
    | with_reducible apply Post.ite
    | with_reducible apply Post.bind_ast

theorem logand_numLeaves {R : Rec}
    (hR : ∀ fn, fn.arg.numLeaves = true → Post (fun v => v.numLeaves = true) (R fn))
    (notin : Bool) :
    Post (fun v => v.numLeaves = true) (logand R notin) := by
  simp only [logand, EXP0, EXP1, EXP2, EXP3, STM4, jsP_list]
  repeat' first
    | exact numLeaves_null
    | assumption
    | contradiction
    | with_reducible apply hR
    | with_reducible apply bitor_numLeaves hR
    | with_reducible apply Post.pure
    | with_reducible apply Post.ite
    | with_reducible apply Post.bind_ast
    | with_reducible apply Post.bind_any
    | with_reducible apply Post.newnode
    | intro _

theorem logor_numLeaves {R : Rec}
    (hR : ∀ fn, fn.arg.numLeaves = true → Post (fun v => v.numLeaves = true) (R fn))
    (notin : Bool) :
    Post (fun v => v.numLeaves = true) (logor R notin) := by
  simp only [logor, EXP0, EXP1, EXP2, EXP3, STM4, jsP_list]
  repeat' first
    | exact numLeaves_null
    | assumption
    | contradiction
    | with_reducible apply hR
    | with_reducible apply logand_numLeaves hR
    | with_reducible apply Post.pure
    | with_reducible apply Post.ite
    | with_reducible apply Post.bind_ast
    | with_reducible apply Post.bind_any
    | with_reducible apply Post.newnode
    | intro _

theorem conditional_numLeaves {R : Rec}
    (hR : ∀ fn, fn.arg.numLeaves = true → Post (fun v => v.numLeaves = true) (R fn))
    (notin : Bool) :
    Post (fun v => v.numLeaves = true) (conditional R notin) := by
  simp only [conditional, EXP0, EXP1, EXP2, EXP3, STM4, jsP_list]
  repeat' first
    | exact numLeaves_null
    | assumption
    | contradiction
    | with_reducible apply hR
    | with_reducible apply logor_numLeaves hR
    | with_reducible apply Post.pure
    | with_reducible apply Post.ite
    | with_reducible apply Post.bind_ast
    | with_reducible apply Post.bind_any
    | with_reducible apply Post.newnode
    | intro _

theorem assignment_numLeaves {R : Rec}
    (hR : ∀ fn, fn.arg.numLeaves = true → Post (fun v => v.numLeaves = true) (R fn))
    (notin : Bool) :
    Post (fun v => v.numLeaves = true) (assignment R notin) := by
  simp only [assignment, EXP0, EXP1, EXP2, EXP3, STM4, jsP_list]
  repeat' first
    | exact numLeaves_null
    | assumption
    | contradiction
    | with_reducible apply hR
    | with_reducible apply conditional_numLeaves hR
    | with_reducible apply Post.pure
    | with_reducible apply Post.ite
    | with_reducible apply Post.bind_ast
    | with_reducible apply Post.bind_any
    | with_reducible apply Post.newnode
    | intro _

theorem expression_loop_numLeaves {R : Rec}
    (hR : ∀ fn, fn.arg.numLeaves = true → Post (fun v => v.numLeaves = true) (R fn))
    (notin : Bool) (a : js_Ast) (ha : a.numLeaves = true) :
    Post (fun v => v.numLeaves = true) (expression_loop R notin a) := by
  simp only [expression_loop, EXP0, EXP1, EXP2, EXP3, STM4, jsP_list]
  repeat' first
    | exact numLeaves_null
    | assumption
    | contradiction
    | with_reducible apply hR
    | with_reducible apply assignment_numLeaves hR
    | with_reducible apply Post.pure
    | with_reducible apply Post.ite
    | with_reducible apply Post.bind_ast
    | with_reducible apply Post.bind_any
    | with_reducible apply Post.newnode
    | intro _

theorem expression_numLeaves {R : Rec}
    (hR : ∀ fn, fn.arg.numLeaves = true → Post (fun v => v.numLeaves = true) (R fn))
    (notin : Bool) :
    Post (fun v => v.numLeaves = true) (expression R notin) := by
  simp only [expression, EXP0, EXP1, EXP2, EXP3, STM4, jsP_list]
  repeat' first
    | exact numLeaves_null
    | assumption
    | contradiction
    | with_reducible apply hR
    | with_reducible apply assignment_numLeaves hR
    | with_reducible apply expression_loop_numLeaves hR
    | with_reducible apply Post.pure
    | with_reducible apply Post.ite
    | with_reducible apply Post.bind_ast

theorem vardec_numLeaves {R : Rec}
    (hR : ∀ fn, fn.arg.numLeaves = true → Post (fun v => v.numLeaves = true) (R fn))
    (notin : Bool) :
    Post (fun v => v.numLeaves = true) (vardec R notin) := by
  simp only [vardec, EXP0, EXP1, EXP2, EXP3, STM4, jsP_list]
  repeat' first
    | exact numLeaves_null
    | assumption
    | contradiction
    | with_reducible apply hR
    | with_reducible apply assignment_numLeaves hR
    | with_reducible apply identifier_numLeaves
    | with_reducible apply Post.pure
    | with_reducible apply Post.ite
    | with_reducible apply Post.bind_ast
    | with_reducible apply Post.bind_any
    | with_reducible apply Post.newnode
    | intro _

theorem vardeclist_loop_numLeaves {R : Rec}
    (hR : ∀ fn, fn.arg.numLeaves = true → Post (fun v => v.numLeaves = true) (R fn))
    (notin : Bool) :
    Post (fun v => v.numLeaves = true) (vardeclist_loop R notin) := by
  simp only [vardeclist_loop, EXP0, EXP1, EXP2, EXP3, STM4, jsP_list]
  repeat' first
    | exact numLeaves_null
    | assumption
    | contradiction
    | exact numLeaves_list (by assumption) (by assumption)
    | exact numLeaves_cell (by assumption)
    | with_reducible apply hR
    | with_reducible apply vardec_numLeaves hR
    | with_reducible apply Post.pure
    | with_reducible apply Post.ite
    | with_reducible apply Post.LIST_bind
    | with_reducible apply Post.bind_ast
    | with_reducible apply Post.bind_any
    | intro _

theorem vardeclist_numLeaves {R : Rec}
    (hR : ∀ fn, fn.arg.numLeaves = true → Post (fun v => v.numLeaves = true) (R fn))
    (notin : Bool) :
    Post (fun v => v.numLeaves = true) (vardeclist R notin) := by
  simp only [vardeclist, EXP0, EXP1, EXP2, EXP3, STM4, jsP_list]
  repeat' first
    | exact numLeaves_null
    | assumption
    | contradiction
    | exact numLeaves_list (by assumption) (by assumption)
    | exact numLeaves_cell (by assumption)
    | with_reducible apply hR
    | with_reducible apply vardec_numLeaves hR
    | with_reducible apply vardeclist_loop_numLeaves hR
    | with_reducible apply Post.pure
    | with_reducible apply Post.ite
    | with_reducible apply Post.LIST_bind
    | with_reducible apply Post.bind_ast
    | with_reducible apply Post.bind_any
    | intro _

theorem statementlist_loop_numLeaves {R : Rec}
    (hR : ∀ fn, fn.arg.numLeaves = true → Post (fun v => v.numLeaves = true) (R fn)) :
    Post (fun v => v.numLeaves = true) (statementlist_loop R) := by
  simp only [statementlist_loop, EXP0, EXP1, EXP2, EXP3, STM4, jsP_list]
  repeat' first
    | exact numLeaves_null
    | assumption
    | contradiction
    | exact numLeaves_list (by assumption) (by assumption)
    | exact numLeaves_cell (by assumption)
    | with_reducible apply hR
    | with_reducible apply Post.pure
    | with_reducible apply Post.ite
    | with_reducible apply Post.LIST_bind
    | with_reducible apply Post.bind_ast
    | with_reducible apply Post.bind_any
    | intro _

theorem statementlist_numLeaves {R : Rec}
    (hR : ∀ fn, fn.arg.numLeaves = true → Post (fun v => v.numLeaves = true) (R fn)) :
    Post (fun v => v.numLeaves = true) (statementlist R) := by
  simp only [statementlist, EXP0, EXP1, EXP2, EXP3, STM4, jsP_list]
  repeat' first
    | exact numLeaves_null
    | assumption
    | contradiction
    | exact numLeaves_list (by assumption) (by assumption)
    | exact numLeaves_cell (by assumption)
    | with_reducible apply hR
    | with_reducible apply statementlist_loop_numLeaves hR
    | with_reducible apply Post.pure
    | with_reducible apply Post.ite
    | with_reducible apply Post.LIST_bind
    | with_reducible apply Post.bind_ast
    | with_reducible apply Post.bind_any
    | intro _

theorem caseclause_numLeaves {R : Rec}
    (hR : ∀ fn, fn.arg.numLeaves = true → Post (fun v => v.numLeaves = true) (R fn)) :
    Post (fun v => v.numLeaves = true) (caseclause R) := by
  simp only [caseclause, EXP0, EXP1, EXP2, EXP3, STM4, jsP_list]
  repeat' first
    | exact numLeaves_null
    | assumption
    | contradiction
    | with_reducible apply hR
    | with_reducible apply expression_numLeaves hR
    | with_reducible apply statementlist_numLeaves hR
    | with_reducible apply Post.pure
    | with_reducible apply Post.error
    | with_reducible apply Post.ite
    | with_reducible apply Post.bind_ast
    | with_reducible apply Post.bind_any
    | with_reducible apply Post.newnode
    | intro _

theorem caselist_loop_numLeaves {R : Rec}
    (hR : ∀ fn, fn.arg.numLeaves = true → Post (fun v => v.numLeaves = true) (R fn)) :
    Post (fun v => v.numLeaves = true) (caselist_loop R) := by
  simp only [caselist_loop, EXP0, EXP1, EXP2, EXP3, STM4, jsP_list]
  repeat' first
    | exact numLeaves_null
    | assumption
    | contradiction
    | exact numLeaves_list (by assumption) (by assumption)
    | exact numLeaves_cell (by assumption)
    | with_reducible apply hR
    | with_reducible apply caseclause_numLeaves hR
    | with_reducible apply Post.pure
    | with_reducible apply Post.ite
    | with_reducible apply Post.LIST_bind
    | with_reducible apply Post.bind_ast
    | with_reducible apply Post.bind_any
    | intro _

theorem caselist_numLeaves {R : Rec}
    (hR : ∀ fn, fn.arg.numLeaves = true → Post (fun v => v.numLeaves = true) (R fn)) :
    Post (fun v => v.numLeaves = true) (caselist R) := by
  simp only [caselist, EXP0, EXP1, EXP2, EXP3, STM4, jsP_list]
  repeat' first
    | exact numLeaves_null
    | assumption
    | contradiction
    | exact numLeaves_list (by assumption) (by assumption)
    | exact numLeaves_cell (by assumption)
    | with_reducible apply hR
    | with_reducible apply caseclause_numLeaves hR
    | with_reducible apply caselist_loop_numLeaves hR
    | with_reducible apply Post.pure
    | with_reducible apply Post.ite
    | with_reducible apply Post.LIST_bind
    | with_reducible apply Post.bind_ast
    | with_reducible apply Post.bind_any
    | intro _

theorem block_numLeaves {R : Rec}
    (hR : ∀ fn, fn.arg.numLeaves = true → Post (fun v => v.numLeaves = true) (R fn)) :
    Post (fun v => v.numLeaves = true) (block R) := by
  simp only [block, EXP0, EXP1, EXP2, EXP3, STM4, jsP_list]
  repeat' first
    | exact numLeaves_null
    | assumption
    | contradiction
    | with_reducible apply hR
    | with_reducible apply statementlist_numLeaves hR
    | with_reducible apply Post.pure
    | with_reducible apply Post.ite
    | with_reducible apply Post.bind_ast
    | with_reducible apply Post.bind_any
    | with_reducible apply Post.newnode
    | intro _

theorem forexpression_numLeaves {R : Rec}
    (hR : ∀ fn, fn.arg.numLeaves = true → Post (fun v => v.numLeaves = true) (R fn))
    (end_ : Tok) :
    Post (fun v => v.numLeaves = true) (forexpression R end_) := by
  simp only [forexpression, EXP0, EXP1, EXP2, EXP3, STM4, jsP_list]
  repeat' first
    | exact numLeaves_null
    | assumption
    | contradiction
    | with_reducible apply hR
    | with_reducible apply expression_numLeaves hR
    | with_reducible apply Post.pure
    | with_reducible apply Post.ite
    | with_reducible apply Post.bind_ast
    | with_reducible apply Post.bind_any
    | intro _

theorem forstatement_numLeaves {R : Rec}
    (hR : ∀ fn, fn.arg.numLeaves = true → Post (fun v => v.numLeaves = true) (R fn)) :
    Post (fun v => v.numLeaves = true) (forstatement R) := by
  simp only [forstatement, EXP0, EXP1, EXP2, EXP3, STM4, jsP_list]
  repeat' first
    | exact numLeaves_null
    | assumption
    | contradiction
    | with_reducible apply hR
    | with_reducible apply expression_numLeaves hR
    | with_reducible apply forexpression_numLeaves hR
    | with_reducible apply vardeclist_numLeaves hR
    | with_reducible apply Post.pure
    | with_reducible apply Post.error
    | with_reducible apply Post.ite
    | with_reducible apply Post.bind_ast
    | with_reducible apply Post.bind_any
    | with_reducible apply Post.newnode
    | intro _

theorem statement_numLeaves {R : Rec}
    (hR : ∀ fn, fn.arg.numLeaves = true → Post (fun v => v.numLeaves = true) (R fn)) :
    Post (fun v => v.numLeaves = true) (statement R) := by
  simp only [statement, EXP0, EXP1, EXP2, EXP3, STM4, jsP_list]
  repeat' first
    | exact numLeaves_null
    | assumption
    | contradiction
    | exact numLeaves_label (by assumption)
    | exact ⟨by assumption, by assumption⟩
    | exact ⟨numLeaves_null, numLeaves_null⟩
    | exact (And.left (by assumption))
    | exact (And.right (by assumption))
    | with_reducible apply hR
    | with_reducible apply block_numLeaves hR
    | with_reducible apply caselist_numLeaves hR
    | with_reducible apply expression_numLeaves hR
    | with_reducible apply forstatement_numLeaves hR
    | with_reducible apply funstm_numLeaves hR
    | with_reducible apply identifier_numLeaves
    | with_reducible apply identifieropt_numLeaves
    | with_reducible apply vardeclist_numLeaves hR
    | with_reducible apply Post.pure
    | with_reducible apply Post.error
    | with_reducible apply Post.ite
    | with_reducible apply Post.bind_ast
    | with_reducible apply Post.bind_pair
    | with_reducible apply Post.bind_any
    | with_reducible apply Post.newnode
    | intro _

theorem scriptelement_numLeaves {R : Rec}
    (hR : ∀ fn, fn.arg.numLeaves = true → Post (fun v => v.numLeaves = true) (R fn)) :
    Post (fun v => v.numLeaves = true) (scriptelement R) := by
  simp only [scriptelement, EXP0, EXP1, EXP2, EXP3, STM4, jsP_list]
  repeat' first
    | exact numLeaves_null
    | assumption
    | contradiction
    | with_reducible apply hR
    | with_reducible apply fundec_numLeaves hR
    | with_reducible apply statement_numLeaves hR
    | with_reducible apply Post.pure
    | with_reducible apply Post.ite
    | with_reducible apply Post.bind_ast
    | with_reducible apply Post.bind_any
    | intro _

theorem script_loop_numLeaves {R : Rec}
    (hR : ∀ fn, fn.arg.numLeaves = true → Post (fun v => v.numLeaves = true) (R fn))
    (terminator : Tok) :
    Post (fun v => v.numLeaves = true) (script_loop R terminator) := by
  simp only [script_loop, EXP0, EXP1, EXP2, EXP3, STM4, jsP_list]
  repeat' first
    | exact numLeaves_null
    | assumption
    | contradiction
    | exact numLeaves_list (by assumption) (by assumption)
    | exact numLeaves_cell (by assumption)
    | with_reducible apply hR
    | with_reducible apply scriptelement_numLeaves hR
    | with_reducible apply Post.pure
    | with_reducible apply Post.ite
    | with_reducible apply Post.LIST_bind
    | with_reducible apply Post.bind_ast
    | with_reducible apply Post.bind_any
    | intro _

theorem script_numLeaves {R : Rec}
    (hR : ∀ fn, fn.arg.numLeaves = true → Post (fun v => v.numLeaves = true) (R fn))
    (terminator : Tok) :
    Post (fun v => v.numLeaves = true) (script R terminator) := by
  simp only [script, EXP0, EXP1, EXP2, EXP3, STM4, jsP_list]
  repeat' first
    | exact numLeaves_null
    | assumption
    | contradiction
    | exact numLeaves_list (by assumption) (by assumption)
    | exact numLeaves_cell (by assumption)
    | with_reducible apply hR
    | with_reducible apply script_loop_numLeaves hR
    | with_reducible apply scriptelement_numLeaves hR
    | with_reducible apply Post.pure
    | with_reducible apply Post.ite
    | with_reducible apply Post.LIST_bind
    | with_reducible apply Post.bind_ast
    | with_reducible apply Post.bind_any
    | intro _

theorem funbody_numLeaves {R : Rec}
    (hR : ∀ fn, fn.arg.numLeaves = true → Post (fun v => v.numLeaves = true) (R fn)) :
    Post (fun v => v.numLeaves = true) (funbody R) := by
  simp only [funbody, EXP0, EXP1, EXP2, EXP3, STM4, jsP_list]
  repeat' first
    | exact numLeaves_null
    | assumption
    | contradiction
    | with_reducible apply hR
    | with_reducible apply script_numLeaves hR
    | with_reducible apply Post.pure
    | with_reducible apply Post.ite
    | with_reducible apply Post.bind_ast
    | with_reducible apply Post.bind_any
    | intro _

theorem step_numLeaves {R : Rec}
    (hR : ∀ fn, fn.arg.numLeaves = true → Post (fun v => v.numLeaves = true) (R fn)) (fn : Fn)
    (h : fn.arg.numLeaves = true) : Post (fun v => v.numLeaves = true) (step R fn) := by
  cases fn <;> simp only [Fn.arg] at h <;> simp only [step]
  · exact expression_numLeaves hR _
  · exact assignment_numLeaves hR _
  · exact memberexp_numLeaves hR
  · exact statement_numLeaves hR
  · exact funbody_numLeaves hR
  · exact unary_numLeaves hR
  · exact logand_numLeaves hR _
  · exact logor_numLeaves hR _
  · exact arrayliteral_loop_numLeaves hR
  · exact objectliteral_loop_numLeaves hR
  · exact parameters_loop_numLeaves hR
  · exact arguments_loop_numLeaves hR
  · exact memberexp_loop_numLeaves hR _ h
  · exact callexp_loop_numLeaves hR _ h
  · exact multiplicative_loop_numLeaves hR _ h
  · exact additive_loop_numLeaves hR _ h
  · exact shift_loop_numLeaves hR _ h
  · exact relational_loop_numLeaves hR _ _ h
  · exact equality_loop_numLeaves hR _ _ h
  · exact bitand_loop_numLeaves hR _ _ h
  · exact bitxor_loop_numLeaves hR _ _ h
  · exact bitor_loop_numLeaves hR _ _ h
  · exact expression_loop_numLeaves hR _ _ h
  · exact vardeclist_loop_numLeaves hR _
  · exact statementlist_loop_numLeaves hR
  · exact caselist_loop_numLeaves hR
  · exact script_loop_numLeaves hR _

theorem run_numLeaves (n : Nat) (fn : Fn) (h : fn.arg.numLeaves = true) :
    Post (fun v => v.numLeaves = true) (run n fn) := by
  induction n generalizing fn with
  | zero => exact ⟨fun J v J1 hv => by simp [run] at hv⟩
  | succ n ih => exact step_numLeaves ih fn h

/-- Folding a tree whose `EXP_NUMBER` nodes have no children leaves no
foldable node. -/
theorem jsP_foldconst_folded (t : js_Ast) (h : t.numLeaves = true) :
    (jsP_foldconst t).1.folded = true := by
  induction t with
  | NULL => simp [jsP_foldconst, js_Ast.folded]
  | node type line a b c d number string iha ihb ihc ihd =>
    simp only [js_Ast.numLeaves, Bool.and_eq_true, Bool.or_eq_true, bne_iff_ne] at h
    obtain ⟨⟨⟨⟨h0, ha⟩, hb⟩, hc⟩, hd⟩ := h
    by_cases ht : type = .EXP_NUMBER
    · subst ht
      have h0' := h0.resolve_left (by simp)
      simp only [js_Ast.isNull] at h0'
      obtain ⟨⟨⟨ea, eb⟩, ec⟩, ed⟩ := h0'
      cases a <;> cases b <;> cases c <;> cases d <;> simp at ea eb ec ed
      simp [jsP_foldconst, js_Ast.folded, foldable, foldsUnary, foldsBinary]
    · by_cases hf : foldable type (jsP_foldconst a).1 (jsP_foldconst b).1 = true
      · obtain ⟨x, hx⟩ := jsP_foldconst_rewrite type line a b c d number string hf
        rw [hx]
        simp [js_Ast.folded, foldable, foldsUnary, foldsBinary]
      · have hf' : foldable type (jsP_foldconst a).1 (jsP_foldconst b).1 = false := by
          simpa using hf
        rw [jsP_foldconst_keep type line a b c d number string ht hf']
        simp [js_Ast.folded, hf', iha ha, ihb hb, ihc hc, ihd hd]

/-- The function `script` returns a tree whose `EXP_NUMBER` nodes have no
children, whatever the bound on the recursion depth. -/
theorem script_run_numLeaves (n : Nat) (terminator : Tok) :
    Post (fun v => v.numLeaves = true) (script (run n) terminator) :=
  script_numLeaves (run_numLeaves n) terminator

/-- The tree returned by `jsP_parse` is the folded tree of `script`. -/
theorem jsP_parse_ok {fuel : Nat} {filename : String} {source : List Token}
    {J J1 : js_State} {p : js_Ast} (h : jsP_parse fuel filename source J = .ok p J1) :
    ∃ p0 J0, script (run fuel) Tok.EOF J0 = .ok p0 J1 ∧
      p = if p0.isNull then p0 else (jsP_foldconst p0).1 := by
  simp only [jsP_parse, bind_apply, jsY_initlex, jsP_next_apply] at h
  cases hs : script (run fuel) Tok.EOF
      (nextState { J with filename := filename, source := source }) with
  | ok p0 J2 =>
    rw [hs] at h
    refine ⟨p0, nextState { J with filename := filename, source := source }, ?_, ?_⟩
    · cases hn : p0.isNull <;> simp [hn] at h <;> rw [hs, h.2]
    · cases hn : p0.isNull <;> simp [hn] at h <;> simp [h.1]
  | error m => rw [hs] at h; cases h
  | nofuel => rw [hs] at h; cases h

theorem unary_bitnot {A : js_Ast} {J J1 : js_State} (h : J.lookahead = Tok.TILDE)
    (hA : Yields (fun R => unary R) (nextState J) (.ok A J1)) :
    Yields (fun R => unary R) J
      (.ok (js_Ast.new .EXP_BITNOT J1.astline A .NULL .NULL .NULL) J1) := by
  obtain ⟨n, hA⟩ := hA
  refine ⟨n + 1, fun m hm => ?_⟩
  obtain ⟨j, rfl⟩ : ∃ j, m = j + 1 := ⟨m - 1, by omega⟩
  have hA := hA j (by omega)
  dsimp only at hA ⊢
  rw [unary]
  simp [jsP_accept_apply, h, step, hA]

theorem toint32_zero : toint32 (Dbl.fin 0) = 0 := by
  simp [toint32, Dbl.isZero]

/-- What `jsP_parse` returns on `~0`: one statement, the numeric literal -1. -/
theorem jsP_parse_bitnotZero :
    ∃ n, ∀ m, n ≤ m → jsP_parse m "f.js" bitnotZero initState =
      .ok (js_Ast.new .AST_LIST 1 (js_Ast.numnode .EXP_NUMBER 1 (Dbl.fin (-1)))
        .NULL .NULL .NULL) (nextState (nextState (startOfFile bitnotZero))) := by
  have h0 : Yields (fun R => unary R) (nextState (startOfFile bitnotZero))
      (.ok (js_Ast.numnode .EXP_NUMBER 1 (Dbl.fin 0))
        (nextState (nextState (startOfFile bitnotZero)))) :=
    unary_number rfl (by decide)
  have hn := unary_bitnot (J := startOfFile bitnotZero) rfl h0
  have hexp := @expression_of_level false 0 _ _ _ (Nat.zero_le _)
    (by rw [levelFn_zero]; exact hn) (by decide)
  have hs := statement_expression (J := startOfFile bitnotZero) rfl hexp
    (jsP_semicolon_auto (by decide) (Or.inr (Or.inr rfl)))
  have hscr := script_cons (J := startOfFile bitnotZero) (by decide)
    (scriptelement_statement (by decide) hs) (script_loop_done rfl)
  obtain ⟨n, hn⟩ := jsP_parse_of_script (J := initState) hscr
  refine ⟨n, fun m hm => ?_⟩
  rw [hn m hm]
  simp [js_Ast.new, js_Ast.numnode, jsP_foldconst, js_Ast.isNull, jsP_setnumnode,
    js_Ast.number, toint32_zero, Dbl.ofInt]
  rfl

/-- C13.  Folding leaves no foldable node in a tree whose `EXP_NUMBER` nodes
have no children; the parser builds only such trees; hence the tree returned
by a successful `jsP_parse` has no node of kind `EXP_NEG`, `EXP_POS` or
`EXP_BITNOT` over a numeric literal, and no node of one of the eleven binary
kinds over two numeric literals. -/
theorem jsP_parse_folded :
    (∀ t : js_Ast, t.numLeaves = true → (jsP_foldconst t).1.folded = true) ∧
    (∀ (fuel : Nat) (terminator : Tok) (J J1 : js_State) (p : js_Ast),
      script (run fuel) terminator J = .ok p J1 → p.numLeaves = true) ∧
    (∀ (fuel : Nat) (filename : String) (source : List Token) (J J1 : js_State)
      (p : js_Ast), jsP_parse fuel filename source J = .ok p J1 → p.folded = true) := by
  refine ⟨jsP_foldconst_folded, ?_, ?_⟩
  · intro fuel terminator J J1 p h
    exact (script_run_numLeaves fuel terminator).out J p J1 h
  · intro fuel filename source J J1 p h
    obtain ⟨p0, J0, hs, rfl⟩ := jsP_parse_ok h
    cases hn : p0.isNull
    · simp only [Bool.false_eq_true, if_false]
      exact jsP_foldconst_folded p0 ((script_run_numLeaves fuel Tok.EOF).out J0 p0 J1 hs)
    · cases p0
      · simp [js_Ast.folded]
      · simp [js_Ast.isNull] at hn

/-- C13, on `~0`: the parse succeeds and the tree returned has no foldable node. -/
theorem jsP_parse_folded_witness :
    ∃ n p J1, jsP_parse n "f.js" bitnotZero initState = .ok p J1 ∧ p.folded = true := by
  obtain ⟨n, h⟩ := jsP_parse_bitnotZero
  exact ⟨n, _, _, h n le_rfl, jsP_parse_folded.2.2 n _ _ _ _ _ (h n le_rfl)⟩

/-! ## C14: folding `~x` -/

theorem Dbl.truncQ_intCast (n : Int) : Dbl.truncQ (n : ℚ) = n := by
  unfold Dbl.truncQ
  split <;> simp

theorem wrap32_range (n : Int) : -2147483648 ≤ wrap32 n ∧ wrap32 n < 2147483648 := by
  unfold wrap32
  simp only
  split <;> omega

theorem wrap32_add_mul (n k : Int) : wrap32 (n + k * 4294967296) = wrap32 n := by
  unfold wrap32
  simp [Int.add_mul_emod_self]

/-- The last step of `toint32` on an integral value between 0 and `2^32`. -/
theorem toint32_tail (s : Int) (h0 : 0 ≤ s) (h1 : s ≤ 4294967296) :
    (if Dbl.ge (Dbl.fin (s : ℚ)) (Dbl.fin 2147483648) = true
      then (Dbl.sub (Dbl.fin (s : ℚ)) (Dbl.fin 4294967296)).toInt
      else (Dbl.fin (s : ℚ)).toInt) = wrap32 s := by
  have e : ((4294967296 : Int) : ℚ) = 4294967296 := by norm_num
  have hge : Dbl.ge (Dbl.fin (s : ℚ)) (Dbl.fin 2147483648) = decide (2147483648 ≤ s) := by
    simp only [Dbl.ge, Dbl.val]
    congr 1
    rw [← Int.cast_le (R := ℚ)]
    norm_num
  rw [hge]
  by_cases h : 2147483648 ≤ s
  · have hs := Dbl.sub_int s 4294967296 (by rw [abs_le]; constructor <;> norm_num <;> omega)
    rw [e] at hs
    simp only [h, decide_True, if_true, hs, Dbl.toInt, Dbl.truncQ_intCast]
    unfold wrap32
    simp only
    split <;> omega
  · simp only [h, decide_False, Bool.false_eq_true, if_false, Dbl.toInt, Dbl.truncQ_intCast]
    unfold wrap32
    simp only
    split <;> omega

/-- The function `toint32` on a finite double: the integer part of the value,
reduced to the range of a 32-bit `int`. -/
theorem toint32_fin (q : ℚ) : toint32 (Dbl.fin q) = wrap32 (Dbl.truncQ q) := by
  by_cases hq : q = 0
  · subst hq
    simp [toint32, Dbl.isZero, Dbl.truncQ, wrap32]
  have hT : (0 : ℚ) < 4294967296 := by norm_num
  have e : ((4294967296 : Int) : ℚ) = 4294967296 := by norm_num
  have hfm : Dbl.fmod (Dbl.fin q) (Dbl.fin 4294967296) =
      if q - (Dbl.truncQ (q / 4294967296) : ℚ) * 4294967296 = 0 then Dbl.zero (decide (q < 0))
      else Dbl.fin (q - (Dbl.truncQ (q / 4294967296) : ℚ) * 4294967296) := by
    simp [Dbl.fmod, Dbl.isZero, Dbl.val, Dbl.signbit, hq]
  have hto : toint32 (Dbl.fin q) =
      if Dbl.ge (if Dbl.ge (Dbl.fmod (Dbl.fin q) (Dbl.fin 4294967296)) (Dbl.fin 0) = true
          then Dbl.floor (Dbl.fmod (Dbl.fin q) (Dbl.fin 4294967296))
          else Dbl.add (Dbl.ceil (Dbl.fmod (Dbl.fin q) (Dbl.fin 4294967296)))
            (Dbl.fin 4294967296)) (Dbl.fin 2147483648) = true
      then (Dbl.sub (if Dbl.ge (Dbl.fmod (Dbl.fin q) (Dbl.fin 4294967296)) (Dbl.fin 0) = true
          then Dbl.floor (Dbl.fmod (Dbl.fin q) (Dbl.fin 4294967296))
          else Dbl.add (Dbl.ceil (Dbl.fmod (Dbl.fin q) (Dbl.fin 4294967296)))
            (Dbl.fin 4294967296)) (Dbl.fin 4294967296)).toInt
      else (if Dbl.ge (Dbl.fmod (Dbl.fin q) (Dbl.fin 4294967296)) (Dbl.fin 0) = true
          then Dbl.floor (Dbl.fmod (Dbl.fin q) (Dbl.fin 4294967296))
          else Dbl.add (Dbl.ceil (Dbl.fmod (Dbl.fin q) (Dbl.fin 4294967296)))
            (Dbl.fin 4294967296)).toInt := by
    simp [toint32, Dbl.isfinite, Dbl.isZero, hq]
  rw [hto, hfm]
  rcases lt_or_gt_of_ne hq with hneg | hpos
  · -- a negative value: the quotient is truncated upward
    have hdiv : q / 4294967296 < 0 := div_neg_of_neg_of_pos hneg hT
    have htr : Dbl.truncQ (q / 4294967296) = ⌈q / 4294967296⌉ := by
      simp [Dbl.truncQ, not_le.mpr hdiv]
    have htq : Dbl.truncQ q = ⌈q⌉ := by simp [Dbl.truncQ, not_le.mpr hneg]
    rw [htr, htq]
    have h1 : q / 4294967296 ≤ (⌈q / 4294967296⌉ : ℚ) := Int.le_ceil _
    have h2 : (⌈q / 4294967296⌉ : ℚ) < q / 4294967296 + 1 := Int.ceil_lt_add_one _
    have hr0 : q - (⌈q / 4294967296⌉ : ℚ) * 4294967296 ≤ 0 := by
      have := (div_le_iff₀ hT).mp h1
      linarith
    have hr1 : -4294967296 < q - (⌈q / 4294967296⌉ : ℚ) * 4294967296 := by
      have := (lt_div_iff₀ hT).mp (by linarith : (⌈q / 4294967296⌉ : ℚ) - 1 < q / 4294967296)
      linarith
    have hc : ⌈q - (⌈q / 4294967296⌉ : ℚ) * 4294967296⌉ = ⌈q⌉ - ⌈q / 4294967296⌉ * 4294967296 := by
      rw [← Int.ceil_sub_int]
      congr 1
      push_cast
      ring
    have hw : wrap32 ⌈q⌉ = wrap32 (⌈q⌉ - ⌈q / 4294967296⌉ * 4294967296 + 4294967296) := by
      have := wrap32_add_mul ⌈q⌉ (1 - ⌈q / 4294967296⌉)
      rw [← this]
      congr 1
      ring
    by_cases hr : q - (⌈q / 4294967296⌉ : ℚ) * 4294967296 = 0
    · have hcz : ⌈q⌉ - ⌈q / 4294967296⌉ * 4294967296 = 0 := by
        rw [← hc, hr]
        simp
      have : ⌈q⌉ = 0 + ⌈q / 4294967296⌉ * 4294967296 := by omega
      rw [this, wrap32_add_mul]
      have hge0 : Dbl.ge Dbl.negzero (Dbl.fin 0) = true := by simp [Dbl.ge, Dbl.val]
      have hge1 : Dbl.ge Dbl.negzero (Dbl.fin 2147483648) = false := by simp [Dbl.ge, Dbl.val]
      simp only [hr, if_true, hneg, decide_True, Dbl.zero, hge0, Dbl.floor, hge1,
        Bool.false_eq_true, if_false, Dbl.toInt]
      simp [wrap32]
    · have hrneg : q - (⌈q / 4294967296⌉ : ℚ) * 4294967296 < 0 := lt_of_le_of_ne hr0 hr
      have hge : Dbl.ge (Dbl.fin (q - (⌈q / 4294967296⌉ : ℚ) * 4294967296)) (Dbl.fin 0) = false := by
        simp only [Dbl.ge, Dbl.val, decide_eq_false_iff_not, not_le]
        exact hrneg
      simp only [hr, if_false, hge, Bool.false_eq_true]
      by_cases hz : ⌈q - (⌈q / 4294967296⌉ : ℚ) * 4294967296⌉ = 0
      · have hceil : Dbl.ceil (Dbl.fin (q - (⌈q / 4294967296⌉ : ℚ) * 4294967296)) = Dbl.negzero := by
          simp [Dbl.ceil, hrneg, hz]
        have hadd : Dbl.add Dbl.negzero (Dbl.fin 4294967296) = Dbl.fin ((4294967296 : Int) : ℚ) := by
          have hr' := Dbl.round_int 4294967296 (by norm_num)
          rw [e] at hr'
          simp [Dbl.add, Dbl.val, hr']
        rw [hceil, hadd, toint32_tail 4294967296 (by norm_num) (by norm_num), hw, ← hc, hz,
          zero_add]
      · have hceil : Dbl.ceil (Dbl.fin (q - (⌈q / 4294967296⌉ : ℚ) * 4294967296)) =
            Dbl.fin ((⌈q - (⌈q / 4294967296⌉ : ℚ) * 4294967296⌉ : Int) : ℚ) := by
          simp [Dbl.ceil, hz]
        have hcle : ⌈q - (⌈q / 4294967296⌉ : ℚ) * 4294967296⌉ ≤ 0 := by
          rw [Int.ceil_le]
          simpa using hr0
        have hclt : -4294967296 < ⌈q - (⌈q / 4294967296⌉ : ℚ) * 4294967296⌉ := by
          rw [Int.lt_ceil]
          simpa using hr1
        have hadd := Dbl.add_int ⌈q - (⌈q / 4294967296⌉ : ℚ) * 4294967296⌉ 4294967296
          (by rw [abs_le]; constructor <;> norm_num <;> omega)
        rw [e] at hadd
        rw [hceil, hadd, toint32_tail _ (by omega) (by omega), hw, hc]
  · -- a positive value: the quotient is truncated downward
    have hdiv : 0 ≤ q / 4294967296 := le_of_lt (div_pos hpos hT)
    have htr : Dbl.truncQ (q / 4294967296) = ⌊q / 4294967296⌋ := by
      simp [Dbl.truncQ, hdiv]
    have htq : Dbl.truncQ q = ⌊q⌋ := by simp [Dbl.truncQ, le_of_lt hpos]
    rw [htr, htq]
    have h1 : (⌊q / 4294967296⌋ : ℚ) ≤ q / 4294967296 := Int.floor_le _
    have h2 : q / 4294967296 < (⌊q / 4294967296⌋ : ℚ) + 1 := Int.lt_floor_add_one _
    have hr0 : 0 ≤ q - (⌊q / 4294967296⌋ : ℚ) * 4294967296 := by
      have := (le_div_iff₀ hT).mp h1
      linarith
    have hr1 : q - (⌊q / 4294967296⌋ : ℚ) * 4294967296 < 4294967296 := by
      have := (div_lt_iff₀ hT).mp h2
      linarith
    have hc : ⌊q - (⌊q / 4294967296⌋ : ℚ) * 4294967296⌋ = ⌊q⌋ - ⌊q / 4294967296⌋ * 4294967296 := by
      rw [← Int.floor_sub_int]
      congr 1
      push_cast
      ring
    have hw : wrap32 ⌊q⌋ = wrap32 (⌊q⌋ - ⌊q / 4294967296⌋ * 4294967296) := by
      have := wrap32_add_mul ⌊q⌋ (- ⌊q / 4294967296⌋)
      rw [← this]
      congr 1
      ring
    have hfl0 : 0 ≤ ⌊q - (⌊q / 4294967296⌋ : ℚ) * 4294967296⌋ := Int.floor_nonneg.mpr hr0
    have hfl1 : ⌊q - (⌊q / 4294967296⌋ : ℚ) * 4294967296⌋ < 4294967296 := by
      rw [Int.floor_lt]
      simpa using hr1
    by_cases hr : q - (⌊q / 4294967296⌋ : ℚ) * 4294967296 = 0
    · have hcz : ⌊q⌋ - ⌊q / 4294967296⌋ * 4294967296 = 0 := by
        rw [← hc, hr]
        simp
      rw [hw, hcz]
      have hge0 : Dbl.ge (Dbl.fin 0) (Dbl.fin 0) = true := by simp [Dbl.ge, Dbl.val]
      have hfl : Dbl.floor (Dbl.fin 0) = Dbl.fin ((0 : Int) : ℚ) := by simp [Dbl.floor]
      simp only [hr, if_true, not_lt.mpr (le_of_lt hpos), decide_False, Dbl.zero,
        Bool.false_eq_true, if_false, hge0, hfl]
      exact toint32_tail 0 le_rfl (by norm_num)
    · have hge : Dbl.ge (Dbl.fin (q - (⌊q / 4294967296⌋ : ℚ) * 4294967296)) (Dbl.fin 0) = true := by
        simp [Dbl.ge, Dbl.val, hr0]
      simp only [hr, if_false, hge, if_true, Dbl.floor]
      rw [toint32_tail _ hfl0 (by omega), hw, hc]

/-- The function `toint32` computes the conversion ToInt32 of the standard. -/
theorem toint32_eq_ToInt32 (x : Dbl) : toint32 x = ToInt32 x := by
  cases x with
  | nan => simp [toint32, ToInt32, Dbl.isfinite]
  | inf s => simp [toint32, ToInt32, Dbl.isfinite]
  | negzero => simp [toint32, ToInt32, Dbl.isfinite, Dbl.isZero]
  | fin q =>
    rw [toint32_fin]
    have hp : (if q < 0 then (-1 : Int) else 1) * ⌊|q|⌋ = Dbl.truncQ q := by
      unfold Dbl.truncQ
      by_cases h : 0 ≤ q
      · simp [h, not_lt.mpr h, abs_of_nonneg h]
      · have h' : q < 0 := not_le.mp h
        simp [h, h', abs_of_neg h', Int.floor_neg]
    simp only [ToInt32, hp, wrap32]
    norm_num

/-- C14.  Folding `EXP_BITNOT` over a numeric literal of value `x` rewrites
the node to the numeric literal `-(ToInt32(x)) - 1`, with `ToInt32` the
conversion of the standard (this holds for every `x`, finite or not); the new
value lies in `[-2^31, 2^31)`; and the program `~0` parses to the one
statement `-1`. -/
theorem jsP_foldconst_bitnot :
    (∀ (x : Dbl) (line la : Nat) (aa ab ac ad b c d : js_Ast) (n : Dbl)
      (s sa : Option String),
      jsP_foldconst (.node .EXP_BITNOT line (.node .EXP_NUMBER la aa ab ac ad x sa) b c d n s) =
        (.node .EXP_NUMBER line .NULL .NULL .NULL .NULL
          (Dbl.fin ((-(ToInt32 x) - 1 : Int) : ℚ)) s, true) ∧
      -2147483648 ≤ -(ToInt32 x) - 1 ∧ -(ToInt32 x) - 1 < 2147483648) ∧
    ToInt32 (Dbl.fin 0) = 0 ∧
    jsP_foldconst (js_Ast.new .EXP_BITNOT 1 (js_Ast.numnode .EXP_NUMBER 1 (Dbl.fin 0))
        .NULL .NULL .NULL) = (js_Ast.numnode .EXP_NUMBER 1 (Dbl.fin (-1)), true) ∧
    (∃ k, ∀ m, k ≤ m → jsP_parse m "f.js" bitnotZero initState =
      .ok (js_Ast.new .AST_LIST 1 (js_Ast.numnode .EXP_NUMBER 1 (Dbl.fin (-1)))
        .NULL .NULL .NULL) (nextState (nextState (startOfFile bitnotZero)))) := by
  refine ⟨?_, ?_, ?_, jsP_parse_bitnotZero⟩
  · intro x line la aa ab ac ad b c d n s sa
    have hr : -2147483648 ≤ -(ToInt32 x) - 1 ∧ -(ToInt32 x) - 1 < 2147483648 := by
      rw [← toint32_eq_ToInt32]
      cases x with
      | nan => simp [toint32, Dbl.isfinite]
      | inf s => simp [toint32, Dbl.isfinite]
      | negzero => simp [toint32, Dbl.isfinite, Dbl.isZero]
      | fin q =>
        rw [toint32_fin]
        have := wrap32_range (Dbl.truncQ q)
        omega
    refine ⟨?_, hr⟩
    simp [jsP_foldconst, jsP_setnumnode, js_Ast.number, Dbl.ofInt, toint32_eq_ToInt32]
  · rw [← toint32_eq_ToInt32, toint32_zero]
  · simp [js_Ast.new, js_Ast.numnode, jsP_foldconst, jsP_setnumnode, js_Ast.number,
      toint32_zero, Dbl.ofInt]

/-! ## C15: `jsP_accept` and `jsP_expect` -/

/-- The lookahead after `jsP_next` is the next token of the source, or
end-of-input when the source is exhausted. -/
theorem nextState_lookahead (J : js_State) :
    (nextState J).lookahead = (J.source.head?.map Token.kind).getD Tok.EOF := by
  unfold nextState
  cases h : J.source <;> simp

/-- C15, counterexample.  In a state whose file name has 300 characters and
whose lookahead is end-of-input, `jsP_expect(';')` does not raise the message
`<file>:<line>: unexpected token: <seen> (expected <x>)`: the message it raises
is the first 255 characters of the file name followed by
`unexpected token: (end-of-file) (expected ';')`, the rest of the file name and
`:<line>: ` being cut. -/
theorem expect_message_counterexample :
    longNameState.lookahead ≠ Tok.SEMI ∧
    jsP_expect Tok.SEMI longNameState ≠
      .error (longNameState.filename ++ ":" ++ toString longNameState.lexline ++ ": " ++
        ("unexpected token: " ++ jsY_tokenstring longNameState.lookahead ++
          " (expected " ++ jsY_tokenstring Tok.SEMI ++ ")")) ∧
    jsP_expect Tok.SEMI longNameState =
      .error (⟨List.replicate 255 'a'⟩ ++
        "unexpected token: (end-of-file) (expected ';')") := by
  have hf : longNameState.filename = longName := rfl
  have h1 : longName.length = 300 := by
    simp only [longName, String.length, List.length_replicate]
  have h2 : (String.mk (List.replicate 255 'a')).length = 255 := by
    simp only [String.length, List.length_replicate]
  have hp : snprintf256 (longNameState.filename ++ ":" ++
      toString longNameState.lexline ++ ": ") = ⟨List.replicate 255 'a'⟩ := by
    rw [hf, snprintf256_append _ _ (by simp only [String.length_append, h1]; omega),
      snprintf256_append _ _ (by simp only [String.length_append, h1]; omega),
      snprintf256_append _ _ (by omega)]
    simp only [snprintf256, longName, List.take_replicate]
    exact congrArg String.mk (congrArg (fun n => List.replicate n 'a') (by decide))
  have hm : "unexpected token: " ++ jsY_tokenstring longNameState.lookahead ++
      " (expected " ++ jsY_tokenstring Tok.SEMI ++ ")" =
      "unexpected token: (end-of-file) (expected ';')" := by decide
  have h : jsP_expect Tok.SEMI longNameState =
      .error (⟨List.replicate 255 'a'⟩ ++
        "unexpected token: (end-of-file) (expected ';')") := by
    rw [jsP_expect_ne (by decide), hp, hm]
  refine ⟨by decide, ?_, h⟩
  rw [h, hm]
  intro he
  have hl := congrArg (fun r : Res Unit => match r with
    | .error m => m.length
    | _ => 0) he
  simp only [String.length_append, hf, h1, h2] at hl
  omega

/-- C15.  The function `jsP_accept` returns true and moves on by exactly one
token (the state after `jsP_next`: one token taken from the source, which
becomes the lookahead) when the lookahead equals `x`, and returns false with
the whole state unchanged otherwise; `jsP_expect` succeeds exactly when
`jsP_accept` returns true, with the same state, and otherwise raises the
syntax error whose message is the first 255 characters of `<file>:<line>: `
followed by `unexpected token: <seen> (expected <x>)`; that is the message
`<file>:<line>: unexpected token: <seen> (expected <x>)` whenever
`<file>:<line>: ` has at most 255 characters. -/
theorem jsP_accept_expect_spec (x : Tok) (J : js_State) :
    (J.lookahead = x →
      jsP_accept x J = .ok true (nextState J) ∧
      (nextState J).source = J.source.tail ∧
      (nextState J).lookahead = (J.source.head?.map Token.kind).getD Tok.EOF) ∧
    (J.lookahead ≠ x → jsP_accept x J = .ok false J) ∧
    (∀ J1, jsP_expect x J = .ok () J1 ↔ jsP_accept x J = .ok true J1) ∧
    (J.lookahead ≠ x →
      jsP_expect x J = .error (snprintf256 (J.filename ++ ":" ++ toString J.lexline ++ ": ") ++
        ("unexpected token: " ++ jsY_tokenstring J.lookahead ++
          " (expected " ++ jsY_tokenstring x ++ ")"))) ∧
    (J.lookahead ≠ x → (J.filename ++ ":" ++ toString J.lexline ++ ": ").length ≤ 255 →
      jsP_expect x J = .error (J.filename ++ ":" ++ toString J.lexline ++ ": " ++
        ("unexpected token: " ++ jsY_tokenstring J.lookahead ++
          " (expected " ++ jsY_tokenstring x ++ ")"))) := by
  refine ⟨fun h => ⟨jsP_accept_eq h, nextState_source J, nextState_lookahead J⟩,
    fun h => jsP_accept_ne h, fun J1 => ?_, fun h => jsP_expect_ne h,
    fun h hl => by rw [jsP_expect_ne h, snprintf256_of_le hl]⟩
  by_cases h : J.lookahead = x
  · rw [jsP_expect_eq h, jsP_accept_eq h]
    simp
  · rw [jsP_expect_ne h, jsP_accept_ne h]
    simp

/-- C15, on the tokens `;` `1`: `jsP_accept(';')` takes the `;` and leaves the
number as lookahead; `jsP_accept(')')` changes nothing; `jsP_expect(')')`
raises the error that names `';'` and `')'`. -/
theorem jsP_accept_expect_spec_witness :
    jsP_accept Tok.SEMI (startOfFile [.of .SEMI, .num 1]) =
      .ok true (nextState (startOfFile [.of .SEMI, .num 1])) ∧
    (nextState (startOfFile [.of .SEMI, .num 1])).lookahead = Tok.TK_NUMBER ∧
    (nextState (startOfFile [.of .SEMI, .num 1])).source = [] ∧
    jsP_accept Tok.RPAREN (startOfFile [.of .SEMI, .num 1]) =
      .ok false (startOfFile [.of .SEMI, .num 1]) ∧
    jsP_expect Tok.RPAREN (startOfFile [.of .SEMI, .num 1]) =
      .error "f.js:1: unexpected token: ';' (expected ')')" := by
  have h := jsP_accept_expect_spec Tok.SEMI (startOfFile [.of .SEMI, .num 1])
  have h' := jsP_accept_expect_spec Tok.RPAREN (startOfFile [.of .SEMI, .num 1])
  refine ⟨(h.1 rfl).1, rfl, rfl, h'.2.1 (by decide), ?_⟩
  rw [h'.2.2.2.2 (by decide) (by decide)]
  rfl

/-! ## Syntax errors on the way up through the expression levels -/

/-- The function `newexp` at a token other than `new` and `function` is `primary`. -/
theorem newexp_of_primary {J : js_State} {r : Res js_Ast}
    (h1 : J.lookahead ≠ Tok.TK_NEW) (h2 : J.lookahead ≠ Tok.TK_FUNCTION)
    (hp : Yields (fun R => primary R) J r) : Yields (fun R => newexp R) J r := by
  obtain ⟨n, hp⟩ := hp
  refine ⟨n, fun m hm => ?_⟩
  have hp := hp m hm
  dsimp only at hp ⊢
  simp [newexp, jsP_accept_ne h1, jsP_accept_ne h2, hp]

theorem callexp_error {J : js_State} {msg : String}
    (hp : Yields (fun R => newexp R) J (.error msg)) :
    Yields (fun R => callexp R) J (.error msg) := by
  obtain ⟨n, hp⟩ := hp
  refine ⟨n, fun m hm => ?_⟩
  have hp := hp m hm
  dsimp only at hp ⊢
  simp [callexp, hp]

theorem postfixexp_error {J : js_State} {msg : String}
    (hp : Yields (fun R => callexp R) J (.error msg)) :
    Yields (fun R => postfixexp R) J (.error msg) := by
  obtain ⟨n, hp⟩ := hp
  refine ⟨n, fun m hm => ?_⟩
  have hp := hp m hm
  dsimp only at hp ⊢
  simp [postfixexp, hp]

/-- A syntax error raised by the first operand of a level is raised by the
level. -/
theorem level_error {notin : Bool} {k : Nat} {J : js_State} {msg : String}
    (hk : 1 ≤ k ∧ k ≤ 13) (h : Yields (levelFn notin (k - 1)) J (.error msg)) :
    Yields (levelFn notin k) J (.error msg) := by
  obtain ⟨n, h⟩ := h
  refine ⟨n, fun m hm => ?_⟩
  have h := h m hm
  obtain ⟨h1, h13⟩ := hk
  interval_cases k <;> simp [levelFn] at h ⊢
  · simp only [multiplicative, bind_apply, h]
  · simp only [additive, bind_apply, h]
  · simp only [shift, bind_apply, h]
  · simp only [relational, bind_apply, h]
  · simp only [equality, bind_apply, h]
  · simp only [bitand, bind_apply, h]
  · simp only [bitxor, bind_apply, h]
  · simp only [bitor, bind_apply, h]
  · simp only [logand, bind_apply, h]
  · simp only [logor, bind_apply, h]
  · simp only [conditional, bind_apply, h]
  · simp only [assignment, bind_apply, h]
  · simp only [expression, bind_apply, h]

/-- A syntax error raised by `unary` at the start of an expression is raised
by `expression`. -/
theorem expression_error {notin : Bool} {J : js_State} {msg : String}
    (h : Yields (fun R => unary R) J (.error msg)) :
    Yields (fun R => expression R notin) J (.error msg) := by
  have h0 : Yields (levelFn notin 0) J (.error msg) := by
    rw [levelFn_zero]
    exact h
  have hk : ∀ k, k ≤ 13 → Yields (levelFn notin k) J (.error msg) := by
    intro k
    induction k with
    | zero => exact fun _ => h0
    | succ k ih => exact fun hk => level_error ⟨by omega, hk⟩ (ih (by omega))
  have := hk 13 le_rfl
  rwa [levelFn_thirteen] at this

/-- A statement that starts with an identifier: a syntax error in its
expression is the outcome of the statement. -/
theorem statement_identifier_error {J : js_State} {msg : String}
    (h : J.lookahead = Tok.TK_IDENTIFIER)
    (hA : Yields (fun R => expression R false) J (.error msg)) :
    Yields (fun R => statement R) J (.error msg) := by
  obtain ⟨n, hA⟩ := hA
  refine ⟨n, fun m hm => ?_⟩
  have hA := hA m hm
  dsimp only at hA ⊢
  simp [statement, jsP_accept_apply, h, hA]

/-- A statement that starts with an identifier and is not a label: a failure
of the statement terminator is the outcome of the statement. -/
theorem statement_identifier_semicolon_error {A : js_Ast} {J J1 : js_State} {msg : String}
    (h : J.lookahead = Tok.TK_IDENTIFIER)
    (hA : Yields (fun R => expression R false) J (.ok A J1))
    (hl : A.type? ≠ some .EXP_IDENTIFIER ∨ J1.lookahead ≠ Tok.COLON)
    (hs : jsP_semicolon J1 = .error msg) :
    Yields (fun R => statement R) J (.error msg) := by
  obtain ⟨n, hA⟩ := hA
  refine ⟨n, fun m hm => ?_⟩
  have hA := hA m hm
  dsimp only at hA ⊢
  rcases hl with hl | hl
  · simp [statement, jsP_accept_apply, h, hA, hl, hs]
  · by_cases ht : A.type? = some .EXP_IDENTIFIER <;>
      simp [statement, jsP_accept_apply, h, hA, hl, ht, hs]

/-- A syntax error in the first element of a script is the outcome of `script`. -/
theorem script_error {terminator : Tok} {J : js_State} {msg : String}
    (h : J.lookahead ≠ terminator)
    (he : Yields (fun R => scriptelement R) J (.error msg)) :
    Yields (fun R => script R terminator) J (.error msg) := by
  obtain ⟨n, he⟩ := he
  refine ⟨n, fun m hm => ?_⟩
  have he := he m hm
  dsimp only at he ⊢
  simp [script, h, he]

/-- A syntax error raised by `script` is the outcome of `jsP_parse`. -/
theorem jsP_parse_error_of_script {filename : String} {toks : List Token} {msg : String}
    {J : js_State}
    (h : Yields (fun R => script R Tok.EOF)
      (nextState { J with filename := filename, source := toks }) (.error msg)) :
    ∃ n, ∀ m, n ≤ m → jsP_parse m filename toks J = .error msg := by
  obtain ⟨n, h⟩ := h
  refine ⟨n, fun m hm => ?_⟩
  have h := h m hm
  dsimp only at h
  simp [jsP_parse, jsY_initlex, h]

/-! ## C16: reserved words -/

theorem jsY_findword_iff (s : String) (l : List String) : jsY_findword s l = true ↔ s ∈ l := by
  simp [jsY_findword]

/-- No word is in both tables. -/
theorem strictfuturewords_not_future {s : String} (h : s ∈ strictfuturewords) :
    s ∉ futurewords := by
  simp only [strictfuturewords, futurewords, List.mem_cons, List.mem_singleton,
    List.mem_nil_iff, or_false] at h ⊢
  repeat' (refine Or.elim h (fun h => ?_) (fun h => ?_))
  all_goals subst h
  all_goals decide

/-- The text of the error for a word of either table is stored whole. -/
theorem snprintf256_word {s : String} (h : s ∈ futurewords ∨ s ∈ strictfuturewords)
    (b : String) (hb : b.length ≤ 200) :
    snprintf256 ("'" ++ s ++ b) = "'" ++ s ++ b := by
  have hs : s.length ≤ 10 := by
    simp only [strictfuturewords, futurewords, List.mem_cons, List.mem_singleton,
      List.mem_nil_iff, or_false] at h
    rcases h with h | h
    · repeat' (refine Or.elim h (fun h => ?_) (fun h => ?_))
      all_goals subst h
      all_goals decide
    · repeat' (refine Or.elim h (fun h => ?_) (fun h => ?_))
      all_goals subst h
      all_goals decide
  refine snprintf256_of_le ?_
  rw [String.length_append, String.length_append]
  have : "'".length = 1 := rfl
  omega

/-- The function `checkfutureword` on a word of the table `futurewords`. -/
theorem checkfutureword_future {s : String} {J : js_State} (h : s ∈ futurewords) :
    checkfutureword s J = .error (snprintf256 (J.filename ++ ":" ++ toString J.lexline ++ ": ") ++
      ("'" ++ s ++ "' is a future reserved word")) := by
  simp [checkfutureword, (jsY_findword_iff s futurewords).mpr h, jsP_error,
    snprintf256_word (Or.inl h) "' is a future reserved word" (by decide)]

/-- The function `checkfutureword` on a word of the table `strictfuturewords`
in strict mode. -/
theorem checkfutureword_strict {s : String} {J : js_State} (h : s ∈ strictfuturewords)
    (hs : J.strict = true) :
    checkfutureword s J = .error (snprintf256 (J.filename ++ ":" ++ toString J.lexline ++ ": ") ++
      ("'" ++ s ++ "' is a strict mode future reserved word")) := by
  have h1 : jsY_findword s futurewords = false := by
    rw [Bool.eq_false_iff]
    exact fun hf => strictfuturewords_not_future h ((jsY_findword_iff _ _).mp hf)
  simp [checkfutureword, h1, (jsY_findword_iff s strictfuturewords).mpr h, hs, jsP_error,
    snprintf256_word (Or.inr h) "' is a strict mode future reserved word" (by decide)]

theorem findword_false {s : String} {l : List String} (h : s ∉ l) : jsY_findword s l = false := by
  rw [Bool.eq_false_iff]
  exact fun hf => h ((jsY_findword_iff _ _).mp hf)

/-- The function `identifiername` on an identifier or keyword token. -/
theorem identifiername_ok {J : js_State}
    (h : J.lookahead = Tok.TK_IDENTIFIER ∨ J.lookahead.isKeyword = true) :
    identifiername J = .ok (js_Ast.strnode .AST_IDENTIFIER J.astline J.text) (nextState J) := by
  rcases h with h | h <;> simp [identifiername, h]

/-- The function `callexp` on `x.name` followed by no further suffix. -/
theorem callexp_member {J : js_State} (h : J.lookahead = Tok.TK_IDENTIFIER)
    (hw1 : jsY_findword J.text futurewords = false)
    (hw2 : J.strict = false ∨ jsY_findword J.text strictfuturewords = false)
    (h1 : (advance 1 J).lookahead = Tok.DOT)
    (h2 : (advance 2 J).lookahead = Tok.TK_IDENTIFIER ∨ (advance 2 J).lookahead.isKeyword = true)
    (h3 : (advance 3 J).lookahead ≠ Tok.DOT ∧ (advance 3 J).lookahead ≠ Tok.LBRACK ∧
      (advance 3 J).lookahead ≠ Tok.LPAREN) :
    Yields (fun R => callexp R) J
      (.ok (js_Ast.new .EXP_MEMBER (advance 3 J).astline
        (js_Ast.strnode .EXP_IDENTIFIER J.astline J.text)
        (js_Ast.strnode .AST_IDENTIFIER (advance 2 J).astline (advance 2 J).text)
        .NULL .NULL) (advance 3 J)) := by
  refine ⟨1, fun m hm => ?_⟩
  obtain ⟨j, rfl⟩ : ∃ j, m = j + 1 := ⟨m - 1, by omega⟩
  simp only [advance] at h1 h2 h3
  dsimp only
  simp [callexp, newexp, jsP_accept_apply, h, primary_identifier h hw1 hw2, callexp_loop,
    h1, identifiername_ok h2, step, h3, advance]

/-- What `jsP_parse` returns on `a.class`: the member access. -/
theorem jsP_parse_aDotClass :
    ∃ n, ∀ m, n ≤ m → jsP_parse m "f.js" aDotClass initState =
      .ok (js_Ast.new .AST_LIST 1
        (js_Ast.new .EXP_MEMBER 1 (js_Ast.strnode .EXP_IDENTIFIER 0 "a")
          (js_Ast.strnode .AST_IDENTIFIER 1 "class") .NULL .NULL)
        .NULL .NULL .NULL) (advance 3 (startOfFile aDotClass)) := by
  have hc := callexp_member (J := startOfFile aDotClass) rfl (by decide) (Or.inl rfl) rfl
    (Or.inl rfl) (by decide)
  have hu := unary_of_postfixexp (J := startOfFile aDotClass) rfl
    (postfixexp_pass hc (Or.inr (by decide)))
  have hexp := @expression_of_level false 0 _ _ _ (Nat.zero_le _)
    (by rw [levelFn_zero]; exact hu) (by decide)
  have hs := statement_identifier_expression (J := startOfFile aDotClass) rfl hexp
    (Or.inl (by decide)) (jsP_semicolon_auto (by decide) (Or.inr (Or.inr rfl)))
  have hscr := script_cons (J := startOfFile aDotClass) (by decide)
    (scriptelement_statement (by decide) hs) (script_loop_done rfl)
  obtain ⟨n, hn⟩ := jsP_parse_of_script (J := initState) hscr
  refine ⟨n, fun m hm => ?_⟩
  rw [hn m hm]
  simp [js_Ast.new, js_Ast.strnode, jsP_foldconst, js_Ast.isNull]
  repeat' constructor

/-- What `jsP_parse` returns on a bare `class`: the syntax error of the
reserved word. -/
theorem jsP_parse_bareClass :
    ∃ n, ∀ m, n ≤ m → jsP_parse m "f.js" bareClass initState =
      .error "f.js:1: 'class' is a future reserved word" := by
  have hp : Yields (fun R => primary R) (startOfFile bareClass)
      (.error "f.js:1: 'class' is a future reserved word") :=
    Yields.of_eq fun R => by
      have hcf := checkfutureword_future (s := "class") (J := startOfFile bareClass)
        (by decide)
      have ht : (startOfFile bareClass).text = "class" := rfl
      have hl : (startOfFile bareClass).lookahead = Tok.TK_IDENTIFIER := rfl
      simp only [primary, bind_apply, getJ_apply, hl, if_true, ht, hcf]
      rfl
  have hu := unary_of_postfixexp (J := startOfFile bareClass) rfl
    (postfixexp_error (callexp_error (newexp_of_primary (by decide) (by decide) hp)))
  have hs := statement_identifier_error (J := startOfFile bareClass) rfl
    (expression_error hu)
  exact jsP_parse_error_of_script (J := initState)
    (script_error (by decide) (scriptelement_statement (by decide) hs))

/-- C16.  The tables are the six words `class` … `super` and the nine words
`implements` … `yield`.  On an identifier token, `identifier` and `primary`
raise the syntax error for a word of the first table whatever the mode, raise
it for a word of the second table when strict mode is active (the message
being the first 255 characters of `<file>:<line>: ` followed by the text that
names the word), and accept the
token otherwise (so a word of the second table is accepted outside strict
mode); `identifiername` accepts every identifier or keyword token without
looking at its text.  So `a.class` parses and a bare `class` is rejected. -/
theorem reserved_word_rule :
    futurewords = ["class", "const", "enum", "export", "extends", "super"] ∧
    strictfuturewords = ["implements", "interface", "let", "package", "private",
      "protected", "public", "static", "yield"] ∧
    (∀ (R : Rec) (J : js_State), J.lookahead = Tok.TK_IDENTIFIER → J.text ∈ futurewords →
      identifier J = .error (snprintf256 (J.filename ++ ":" ++ toString J.lexline ++ ": ") ++
        ("'" ++ J.text ++ "' is a future reserved word")) ∧
      primary R J = .error (snprintf256 (J.filename ++ ":" ++ toString J.lexline ++ ": ") ++
        ("'" ++ J.text ++ "' is a future reserved word"))) ∧
    (∀ (R : Rec) (J : js_State), J.lookahead = Tok.TK_IDENTIFIER →
      J.text ∈ strictfuturewords → J.strict = true →
      identifier J = .error (snprintf256 (J.filename ++ ":" ++ toString J.lexline ++ ": ") ++
        ("'" ++ J.text ++ "' is a strict mode future reserved word")) ∧
      primary R J = .error (snprintf256 (J.filename ++ ":" ++ toString J.lexline ++ ": ") ++
        ("'" ++ J.text ++ "' is a strict mode future reserved word"))) ∧
    (∀ (R : Rec) (J : js_State), J.lookahead = Tok.TK_IDENTIFIER → J.text ∉ futurewords →
      (J.strict = false ∨ J.text ∉ strictfuturewords) →
      identifier J = .ok (js_Ast.strnode .AST_IDENTIFIER J.astline J.text) (nextState J) ∧
      primary R J = .ok (js_Ast.strnode .EXP_IDENTIFIER J.astline J.text) (nextState J)) ∧
    (∀ J : js_State, (J.lookahead = Tok.TK_IDENTIFIER ∨ J.lookahead.isKeyword = true) →
      identifiername J =
        .ok (js_Ast.strnode .AST_IDENTIFIER J.astline J.text) (nextState J)) ∧
    (∃ n, ∀ m, n ≤ m → jsP_parse m "f.js" aDotClass initState =
      .ok (js_Ast.new .AST_LIST 1
        (js_Ast.new .EXP_MEMBER 1 (js_Ast.strnode .EXP_IDENTIFIER 0 "a")
          (js_Ast.strnode .AST_IDENTIFIER 1 "class") .NULL .NULL)
        .NULL .NULL .NULL) (advance 3 (startOfFile aDotClass))) ∧
    (∃ n, ∀ m, n ≤ m → jsP_parse m "f.js" bareClass initState =
      .error "f.js:1: 'class' is a future reserved word") := by
  refine ⟨rfl, rfl, ?_, ?_, ?_, fun J h => identifiername_ok h, jsP_parse_aDotClass,
    jsP_parse_bareClass⟩
  · intro R J h hw
    have hc := checkfutureword_future (J := J) hw
    constructor
    · simp [identifier, h, hc]
    · simp [primary, h, hc]
  · intro R J h hw hs
    have hc := checkfutureword_strict (J := J) hw hs
    constructor
    · simp [identifier, h, hc]
    · simp [primary, h, hc]
  · intro R J h hw hs
    have h1 := findword_false hw
    have h2 : J.strict = false ∨ jsY_findword J.text strictfuturewords = false :=
      hs.imp id findword_false
    exact ⟨identifier_ok h h1 h2, primary_identifier h h1 h2⟩

/-- C16 on states with the text `class` (rejected in any mode), `let` (rejected
in strict mode only), `x` (accepted) and on the keyword token of `a.if`. -/
theorem reserved_word_rule_witness :
    identifier (startOfFile bareClass) =
      .error "f.js:1: 'class' is a future reserved word" ∧
    identifier { startOfFile [.ident "let"] with strict := true } =
      .error "f.js:1: 'let' is a strict mode future reserved word" ∧
    identifier (startOfFile [.ident "let"]) =
      .ok (js_Ast.strnode .AST_IDENTIFIER 0 "let") (nextState (startOfFile [.ident "let"])) ∧
    identifiername (startOfFile [.of .TK_IF]) =
      .ok (js_Ast.strnode .AST_IDENTIFIER 0 "") (nextState (startOfFile [.of .TK_IF])) ∧
    identifiername (startOfFile bareClass) =
      .ok (js_Ast.strnode .AST_IDENTIFIER 0 "class") (nextState (startOfFile bareClass)) := by
  have R : Rec := fun _ _ => .nofuel
  refine ⟨?_, ?_, ?_, ?_, ?_⟩
  · rw [(reserved_word_rule.2.2.1 R (startOfFile bareClass) rfl (by decide)).1]
    rfl
  · rw [(reserved_word_rule.2.2.2.1 R { startOfFile [.ident "let"] with strict := true } rfl
      (by decide) rfl).1]
    rfl
  · exact (reserved_word_rule.2.2.2.2.1 R (startOfFile [.ident "let"]) rfl (by decide)
      (Or.inl rfl)).1
  · exact reserved_word_rule.2.2.2.2.2.1 (startOfFile [.of .TK_IF]) (Or.inr rfl)
  · exact reserved_word_rule.2.2.2.2.2.1 (startOfFile bareClass) (Or.inl rfl)

/-! ## C17: function declarations and function statements -/

/-- The function `parameters` at `)`: the empty parameter list. -/
theorem parameters_empty {R : Rec} {J : js_State} (h : J.lookahead = Tok.RPAREN) :
    parameters R J = .ok .NULL J := by
  simp [parameters, h]

/-- The function `funbody` on `{}`: the empty body. -/
theorem funbody_empty {R : Rec} {J : js_State} (h : J.lookahead = Tok.LBRACE)
    (h1 : (nextState J).lookahead = Tok.RBRACE) :
    funbody R J = .ok .NULL (advance 2 J) := by
  simp [funbody, jsP_expect_eq h, script, h1, jsP_expect_eq h1, advance]

/-- The function `fundec` after `function`: name, parameters and body make an
`AST_FUNDEC` node. -/
theorem fundec_of {a b c : js_Ast} {J Ja Jb Jc : js_State}
    (ha : identifier J = .ok a Ja) (h1 : Ja.lookahead = Tok.LPAREN)
    (hb : Yields (fun R => parameters R) (nextState Ja) (.ok b Jb))
    (h2 : Jb.lookahead = Tok.RPAREN)
    (hc : Yields (fun R => funbody R) (nextState Jb) (.ok c Jc)) :
    Yields (fun R => fundec R) J (.ok (js_Ast.new .AST_FUNDEC Jc.astline a b c .NULL) Jc) := by
  obtain ⟨n1, hb⟩ := hb
  obtain ⟨n2, hc⟩ := hc
  refine ⟨max n1 n2 + 1, fun m hm => ?_⟩
  obtain ⟨j, rfl⟩ : ∃ j, m = j + 1 := ⟨m - 1, by omega⟩
  have hb := hb (j + 1) (by omega)
  have hc := hc j (by omega)
  dsimp only at hb hc ⊢
  simp [fundec, ha, jsP_expect_eq h1, hb, jsP_expect_eq h2, step, hc]

/-- The function `funstm` after `function`: the same name, parameters and body
make `var name = function name(parameters) body`. -/
theorem funstm_of {a b c : js_Ast} {J Ja Jb Jc : js_State}
    (ha : identifier J = .ok a Ja) (h1 : Ja.lookahead = Tok.LPAREN)
    (hb : Yields (fun R => parameters R) (nextState Ja) (.ok b Jb))
    (h2 : Jb.lookahead = Tok.RPAREN)
    (hc : Yields (fun R => funbody R) (nextState Jb) (.ok c Jc)) :
    Yields (fun R => funstm R) J
      (.ok (js_Ast.new .STM_VAR Jc.astline
        (js_Ast.new .AST_LIST Jc.astline
          (js_Ast.new .EXP_VAR Jc.astline a
            (js_Ast.new .EXP_FUN Jc.astline a b c .NULL) .NULL .NULL)
          .NULL .NULL .NULL) .NULL .NULL .NULL) Jc) := by
  obtain ⟨n1, hb⟩ := hb
  obtain ⟨n2, hc⟩ := hc
  refine ⟨max n1 n2 + 1, fun m hm => ?_⟩
  obtain ⟨j, rfl⟩ : ∃ j, m = j + 1 := ⟨m - 1, by omega⟩
  have hb := hb (j + 1) (by omega)
  have hc := hc j (by omega)
  dsimp only at hb hc ⊢
  simp [funstm, ha, jsP_expect_eq h1, hb, jsP_expect_eq h2, step, hc]

/-- The function `scriptelement` at `function`: a function declaration. -/
theorem scriptelement_function {J : js_State} {r : Res js_Ast}
    (h : J.lookahead = Tok.TK_FUNCTION)
    (hA : Yields (fun R => fundec R) (nextState J) r) :
    Yields (fun R => scriptelement R) J r := by
  obtain ⟨n, hA⟩ := hA
  refine ⟨n, fun m hm => ?_⟩
  have hA := hA m hm
  dsimp only at hA ⊢
  simp [scriptelement, jsP_accept_eq h, hA]

/-- The function `statement` at `function`: the warning is written and the
function statement is parsed. -/
theorem statement_function {J : js_State} {r : Res js_Ast}
    (h : J.lookahead = Tok.TK_FUNCTION)
    (hA : Yields (fun R => funstm R) (funWarned (nextState J)) r) :
    Yields (fun R => statement R) J r := by
  obtain ⟨n, hA⟩ := hA
  refine ⟨n, fun m hm => ?_⟩
  have hA := hA m hm
  dsimp only [funWarned] at hA ⊢
  simp [statement, jsP_accept_apply, h, jsP_warning, hA]

/-- The function `funbody` around a non-empty script. -/
theorem funbody_of {a : js_Ast} {J J1 : js_State} (h : J.lookahead = Tok.LBRACE)
    (ha : Yields (fun R => script R Tok.RBRACE) (nextState J) (.ok a J1))
    (h1 : J1.lookahead = Tok.RBRACE) :
    Yields (fun R => funbody R) J (.ok a (nextState J1)) := by
  obtain ⟨n, ha⟩ := ha
  refine ⟨n, fun m hm => ?_⟩
  have ha := ha m hm
  dsimp only at ha ⊢
  simp [funbody, jsP_expect_eq h, ha, jsP_expect_eq h1]

/-- The declaration `function f(){}` after the token `function`, from a state
whose next five tokens are `f ( ) { }`. -/
theorem fundec_empty {J : js_State} (h0 : J.lookahead = Tok.TK_IDENTIFIER)
    (hw1 : jsY_findword J.text futurewords = false)
    (hw2 : J.strict = false ∨ jsY_findword J.text strictfuturewords = false)
    (h1 : (advance 1 J).lookahead = Tok.LPAREN) (h2 : (advance 2 J).lookahead = Tok.RPAREN)
    (h3 : (advance 3 J).lookahead = Tok.LBRACE) (h4 : (advance 4 J).lookahead = Tok.RBRACE) :
    Yields (fun R => fundec R) J
      (.ok (js_Ast.new .AST_FUNDEC (advance 5 J).astline
        (js_Ast.strnode .AST_IDENTIFIER J.astline J.text) .NULL .NULL .NULL) (advance 5 J)) :=
  fundec_of (identifier_ok h0 hw1 hw2) h1
    (Yields.of_eq fun _ => parameters_empty h2) h2
    (Yields.of_eq fun _ => funbody_empty (J := advance 3 J) h3 h4)

/-- The statement `function f(){}` after the token `function` and the warning. -/
theorem funstm_empty {J : js_State} (h0 : J.lookahead = Tok.TK_IDENTIFIER)
    (hw1 : jsY_findword J.text futurewords = false)
    (hw2 : J.strict = false ∨ jsY_findword J.text strictfuturewords = false)
    (h1 : (advance 1 J).lookahead = Tok.LPAREN) (h2 : (advance 2 J).lookahead = Tok.RPAREN)
    (h3 : (advance 3 J).lookahead = Tok.LBRACE) (h4 : (advance 4 J).lookahead = Tok.RBRACE) :
    Yields (fun R => funstm R) J
      (.ok (js_Ast.new .STM_VAR (advance 5 J).astline
        (js_Ast.new .AST_LIST (advance 5 J).astline
          (js_Ast.new .EXP_VAR (advance 5 J).astline
            (js_Ast.strnode .AST_IDENTIFIER J.astline J.text)
            (js_Ast.new .EXP_FUN (advance 5 J).astline
              (js_Ast.strnode .AST_IDENTIFIER J.astline J.text) .NULL .NULL .NULL)
            .NULL .NULL) .NULL .NULL .NULL) .NULL .NULL .NULL) (advance 5 J)) :=
  funstm_of (identifier_ok h0 hw1 hw2) h1
    (Yields.of_eq fun _ => parameters_empty h2) h2
    (Yields.of_eq fun _ => funbody_empty (J := advance 3 J) h3 h4)

/-- What `jsP_parse` returns on `function f(){}`. -/
theorem jsP_parse_funTop :
    ∃ n, ∀ m, n ≤ m → jsP_parse m "f.js" funTop initState =
      .ok (js_Ast.new .AST_LIST 1
        (js_Ast.new .AST_FUNDEC 1 (js_Ast.strnode .AST_IDENTIFIER 1 "f") .NULL .NULL .NULL)
        .NULL .NULL .NULL) (advance 6 (startOfFile funTop)) := by
  have hf := fundec_empty (J := advance 1 (startOfFile funTop)) rfl (by decide) (Or.inl rfl)
    rfl rfl rfl rfl
  have hscr := script_cons (J := startOfFile funTop) (by decide)
    (scriptelement_function rfl hf) (script_loop_done rfl)
  obtain ⟨n, hn⟩ := jsP_parse_of_script (J := initState) hscr
  refine ⟨n, fun m hm => ?_⟩
  rw [hn m hm]
  simp [js_Ast.new, js_Ast.strnode, jsP_foldconst, js_Ast.isNull]
  repeat' constructor

/-- What `jsP_parse` returns on `function f(){ function g(){} }`: the inner
function, directly inside a function body, is a declaration too. -/
theorem jsP_parse_funInFun :
    ∃ n, ∀ m, n ≤ m → jsP_parse m "f.js" funInFun initState =
      .ok (js_Ast.new .AST_LIST 1
        (js_Ast.new .AST_FUNDEC 1 (js_Ast.strnode .AST_IDENTIFIER 1 "f") .NULL
          (js_Ast.new .AST_LIST 1
            (js_Ast.new .AST_FUNDEC 1 (js_Ast.strnode .AST_IDENTIFIER 1 "g")
              .NULL .NULL .NULL) .NULL .NULL .NULL) .NULL)
        .NULL .NULL .NULL) (advance 12 (startOfFile funInFun)) := by
  have hg := fundec_empty (J := advance 6 (startOfFile funInFun)) rfl (by decide) (Or.inl rfl)
    rfl rfl rfl rfl
  have hbody := funbody_of (J := advance 4 (startOfFile funInFun)) rfl
    (script_cons (J := advance 5 (startOfFile funInFun)) (by decide)
      (scriptelement_function rfl hg) (script_loop_done rfl)) rfl
  have hf := fundec_of (J := advance 1 (startOfFile funInFun))
    (identifier_ok rfl (by decide) (Or.inl rfl)) rfl
    (Yields.of_eq fun R => parameters_empty (J := advance 3 (startOfFile funInFun)) rfl) rfl
    hbody
  have hscr := script_cons (J := startOfFile funInFun) (by decide)
    (scriptelement_function rfl hf) (script_loop_done rfl)
  obtain ⟨n, hn⟩ := jsP_parse_of_script (J := initState) hscr
  refine ⟨n, fun m hm => ?_⟩
  rw [hn m hm]
  simp [js_Ast.new, js_Ast.strnode, jsP_foldconst, js_Ast.isNull]
  repeat' constructor

/-- What `jsP_parse` returns on the block `{ function f(){} }`: the function in
statement position is a variable statement, and the warning is written. -/
theorem jsP_parse_funInBlock :
    ∃ n, ∀ m, n ≤ m → jsP_parse m "f.js" funInBlock initState =
      .ok (js_Ast.new .AST_LIST 1
        (js_Ast.new .STM_BLOCK 1
          (js_Ast.new .AST_LIST 1
            (js_Ast.new .STM_VAR 1
              (js_Ast.new .AST_LIST 1
                (js_Ast.new .EXP_VAR 1 (js_Ast.strnode .AST_IDENTIFIER 1 "f")
                  (js_Ast.new .EXP_FUN 1 (js_Ast.strnode .AST_IDENTIFIER 1 "f")
                    .NULL .NULL .NULL) .NULL .NULL)
                .NULL .NULL .NULL) .NULL .NULL .NULL)
            .NULL .NULL .NULL) .NULL .NULL .NULL)
        .NULL .NULL .NULL)
        (advance 6 (funWarned (advance 2 (startOfFile funInBlock)))) := by
  have hf := funstm_empty (J := funWarned (advance 2 (startOfFile funInBlock))) rfl
    (by decide) (Or.inl rfl) rfl rfl rfl rfl
  have hst := statement_function (J := advance 1 (startOfFile funInBlock)) rfl hf
  have hb := block_single (J := startOfFile funInBlock) rfl (by decide) hst rfl
  have hs : Yields (fun R => statement R) (startOfFile funInBlock) _ :=
    ⟨hb.choose, fun m hm => by
      have := hb.choose_spec m hm
      dsimp only at this ⊢
      rw [statement]
      simpa [show (startOfFile funInBlock).lookahead = Tok.LBRACE from rfl] using this⟩
  have hscr := script_cons (J := startOfFile funInBlock) (by decide)
    (scriptelement_statement (by decide) hs) (script_loop_done rfl)
  obtain ⟨n, hn⟩ := jsP_parse_of_script (J := initState) hscr
  refine ⟨n, fun m hm => ?_⟩
  rw [hn m hm]
  simp [js_Ast.new, js_Ast.strnode, jsP_foldconst, js_Ast.isNull]
  repeat' constructor

/-- C17.  At script-element position a `function` keyword followed by a name,
a parameter list and a body yields `AST_FUNDEC(name, params, body)`.  In
statement position the same tokens yield `STM_VAR` over a one-cell list whose
element is `EXP_VAR(name, EXP_FUN(name, params, body))`, with the same name
node in both places, after the warning has been written to the diagnostic
stream; the parse goes on.  The programs `function f(){}` and
`function f(){ function g(){} }` give declarations at top level and directly
inside a function body; the block `{ function f(){} }` gives the variable
statement and the warning. -/
theorem function_declaration_rule :
    (∀ (J Ja Jb Jc : js_State) (a b c : js_Ast), J.lookahead = Tok.TK_FUNCTION →
      identifier (nextState J) = .ok a Ja → Ja.lookahead = Tok.LPAREN →
      Yields (fun R => parameters R) (nextState Ja) (.ok b Jb) →
      Jb.lookahead = Tok.RPAREN →
      Yields (fun R => funbody R) (nextState Jb) (.ok c Jc) →
      Yields (fun R => scriptelement R) J
        (.ok (js_Ast.new .AST_FUNDEC Jc.astline a b c .NULL) Jc)) ∧
    (∀ (J Ja Jb Jc : js_State) (a b c : js_Ast), J.lookahead = Tok.TK_FUNCTION →
      identifier (funWarned (nextState J)) = .ok a Ja → Ja.lookahead = Tok.LPAREN →
      Yields (fun R => parameters R) (nextState Ja) (.ok b Jb) →
      Jb.lookahead = Tok.RPAREN →
      Yields (fun R => funbody R) (nextState Jb) (.ok c Jc) →
      Yields (fun R => statement R) J
        (.ok (js_Ast.new .STM_VAR Jc.astline
          (js_Ast.new .AST_LIST Jc.astline
            (js_Ast.new .EXP_VAR Jc.astline a
              (js_Ast.new .EXP_FUN Jc.astline a b c .NULL) .NULL .NULL)
            .NULL .NULL .NULL) .NULL .NULL .NULL) Jc)) ∧
    (∃ n, ∀ m, n ≤ m → jsP_parse m "f.js" funTop initState =
      .ok (js_Ast.new .AST_LIST 1
        (js_Ast.new .AST_FUNDEC 1 (js_Ast.strnode .AST_IDENTIFIER 1 "f") .NULL .NULL .NULL)
        .NULL .NULL .NULL) (advance 6 (startOfFile funTop))) ∧
    (∃ n, ∀ m, n ≤ m → jsP_parse m "f.js" funInFun initState =
      .ok (js_Ast.new .AST_LIST 1
        (js_Ast.new .AST_FUNDEC 1 (js_Ast.strnode .AST_IDENTIFIER 1 "f") .NULL
          (js_Ast.new .AST_LIST 1
            (js_Ast.new .AST_FUNDEC 1 (js_Ast.strnode .AST_IDENTIFIER 1 "g")
              .NULL .NULL .NULL) .NULL .NULL .NULL) .NULL)
        .NULL .NULL .NULL) (advance 12 (startOfFile funInFun))) ∧
    (∃ n, ∀ m, n ≤ m → jsP_parse m "f.js" funInBlock initState =
      .ok (js_Ast.new .AST_LIST 1
        (js_Ast.new .STM_BLOCK 1
          (js_Ast.new .AST_LIST 1
            (js_Ast.new .STM_VAR 1
              (js_Ast.new .AST_LIST 1
                (js_Ast.new .EXP_VAR 1 (js_Ast.strnode .AST_IDENTIFIER 1 "f")
                  (js_Ast.new .EXP_FUN 1 (js_Ast.strnode .AST_IDENTIFIER 1 "f")
                    .NULL .NULL .NULL) .NULL .NULL)
                .NULL .NULL .NULL) .NULL .NULL .NULL)
            .NULL .NULL .NULL) .NULL .NULL .NULL)
        .NULL .NULL .NULL)
        (advance 6 (funWarned (advance 2 (startOfFile funInBlock))))) ∧
    (advance 6 (funWarned (advance 2 (startOfFile funInBlock)))).stderr =
      ["f.js:1: warning: function statements are not standard"] :=
  ⟨fun _ _ _ _ _ _ _ h ha h1 hb h2 hc => scriptelement_function h (fundec_of ha h1 hb h2 hc),
   fun _ _ _ _ _ _ _ h ha h1 hb h2 hc => statement_function h (funstm_of ha h1 hb h2 hc),
   jsP_parse_funTop, jsP_parse_funInFun, jsP_parse_funInBlock, rfl⟩

/-- C17 on the tokens `function f(){}` read as a script element and, after `{`,
read as a statement. -/
theorem function_declaration_rule_witness :
    Yields (fun R => scriptelement R) (startOfFile funTop)
      (.ok (js_Ast.new .AST_FUNDEC 1 (js_Ast.strnode .AST_IDENTIFIER 1 "f") .NULL .NULL .NULL)
        (advance 6 (startOfFile funTop))) ∧
    Yields (fun R => statement R) (advance 1 (startOfFile funInBlock))
      (.ok (js_Ast.new .STM_VAR 1
        (js_Ast.new .AST_LIST 1
          (js_Ast.new .EXP_VAR 1 (js_Ast.strnode .AST_IDENTIFIER 1 "f")
            (js_Ast.new .EXP_FUN 1 (js_Ast.strnode .AST_IDENTIFIER 1 "f")
              .NULL .NULL .NULL) .NULL .NULL)
          .NULL .NULL .NULL) .NULL .NULL .NULL)
        (advance 5 (funWarned (advance 2 (startOfFile funInBlock))))) :=
  ⟨function_declaration_rule.1 (startOfFile funTop) _ _ _ _ _ _ rfl
     (identifier_ok (J := advance 1 (startOfFile funTop)) rfl (by decide) (Or.inl rfl)) rfl
     (Yields.of_eq fun R => parameters_empty (J := advance 3 (startOfFile funTop)) rfl) rfl
     (Yields.of_eq fun R => funbody_empty (J := advance 4 (startOfFile funTop)) rfl rfl),
   function_declaration_rule.2.1 (advance 1 (startOfFile funInBlock)) _ _ _ _ _ _ rfl
     (identifier_ok (J := funWarned (advance 2 (startOfFile funInBlock))) rfl (by decide)
       (Or.inl rfl)) rfl
     (Yields.of_eq fun R => parameters_empty
       (J := advance 2 (funWarned (advance 2 (startOfFile funInBlock)))) rfl) rfl
     (Yields.of_eq fun R => funbody_empty
       (J := advance 3 (funWarned (advance 2 (startOfFile funInBlock)))) rfl rfl)⟩

/-! ## C18: labelled statements -/

/-- A statement that starts with an identifier: when the expression is a
single identifier and `:` follows, the statement is a label. -/
theorem statement_label {a b : js_Ast} {J J1 J2 : js_State}
    (h : J.lookahead = Tok.TK_IDENTIFIER)
    (ha : Yields (fun R => expression R false) J (.ok a J1))
    (ht : a.type? = some .EXP_IDENTIFIER) (hc : J1.lookahead = Tok.COLON)
    (hb : Yields (fun R => statement R) (nextState J1) (.ok b J2)) :
    Yields (fun R => statement R) J
      (.ok (js_Ast.new .STM_LABEL J2.astline (a.setType .AST_IDENTIFIER) b .NULL .NULL)
        J2) := by
  obtain ⟨n1, ha⟩ := ha
  obtain ⟨n2, hb⟩ := hb
  refine ⟨max n1 n2 + 1, fun m hm => ?_⟩
  obtain ⟨j, rfl⟩ : ∃ j, m = j + 1 := ⟨m - 1, by omega⟩
  have ha := ha (j + 1) (by omega)
  have hb := hb j (by omega)
  dsimp only at ha hb ⊢
  rw [statement]
  simp [jsP_accept_apply, h, ha, ht, hc, step, hb]

/-- The expression `a + b` of two identifiers that are no reserved words,
followed by a token that ends the expression. -/
theorem expression_add_identifiers {J : js_State} (h0 : J.lookahead = Tok.TK_IDENTIFIER)
    (hw1 : jsY_findword J.text futurewords = false)
    (hw2 : J.strict = false ∨ jsY_findword J.text strictfuturewords = false)
    (h1 : (advance 1 J).lookahead = Tok.PLUS)
    (h2 : (advance 2 J).lookahead = Tok.TK_IDENTIFIER)
    (hv1 : jsY_findword (advance 2 J).text futurewords = false)
    (hv2 : (advance 2 J).strict = false ∨
      jsY_findword (advance 2 J).text strictfuturewords = false)
    (h3 : endsOperand (advance 3 J)) (h4 : endsExpression false (advance 3 J).lookahead) :
    Yields (fun R => expression R false) J
      (.ok (js_Ast.new .EXP_ADD (advance 3 J).astline
        (js_Ast.strnode .EXP_IDENTIFIER J.astline J.text)
        (js_Ast.strnode .EXP_IDENTIFIER (advance 2 J).astline (advance 2 J).text)
        .NULL .NULL) (advance 3 J)) := by
  have e1 : endsOperand (advance 1 J) := by
    simp [endsOperand, h1]
  have ha : Yields (levelFn false 1) J
      (.ok (js_Ast.strnode .EXP_IDENTIFIER J.astline J.text) (advance 1 J)) :=
    level_of_unary 1 (by omega) (unary_identifier h0 hw1 hw2 e1)
      (fun i ty hi => by
        rw [show (advance 1 J).lookahead = Tok.PLUS from h1]
        intro hb
        have := binop_some hb
        simp at this
        omega)
  have hb : Yields (levelFn false 1) (nextState (advance 1 J))
      (.ok (js_Ast.strnode .EXP_IDENTIFIER (advance 2 J).astline (advance 2 J).text)
        (advance 3 J)) :=
    level_of_unary 1 (by omega) (unary_identifier h2 hv1 hv2 h3)
      (fun i ty hi => by
        intro hb
        rw [h4.1] at hb
        cases hb)
  have hbin := @level_bin false 2 .EXP_ADD _ _ _ _ _ ⟨by omega, by omega⟩ ha
    (by rw [h1]; rfl) hb (fun ty => by rw [h4.1]; simp)
  exact expression_of_level (by omega) hbin h4

/-- What `jsP_parse` returns on `L : x`: the labelled statement. -/
theorem jsP_parse_labelled :
    ∃ n, ∀ m, n ≤ m → jsP_parse m "f.js" labelled initState =
      .ok (js_Ast.new .AST_LIST 1
        (js_Ast.new .STM_LABEL 1 (js_Ast.strnode .AST_IDENTIFIER 0 "L")
          (js_Ast.strnode .EXP_IDENTIFIER 1 "x") .NULL .NULL)
        .NULL .NULL .NULL) (advance 3 (startOfFile labelled)) := by
  have hL : Yields (fun R => expression R false) (startOfFile labelled)
      (.ok (js_Ast.strnode .EXP_IDENTIFIER 0 "L") (advance 1 (startOfFile labelled))) :=
    expression_identifier rfl (by decide) (Or.inl rfl) (by decide) (by decide)
  have hx : Yields (fun R => expression R false) (advance 2 (startOfFile labelled))
      (.ok (js_Ast.strnode .EXP_IDENTIFIER 1 "x") (advance 3 (startOfFile labelled))) :=
    expression_identifier rfl (by decide) (Or.inl rfl) (by decide) (by decide)
  have hsx := statement_identifier_expression (J := advance 2 (startOfFile labelled)) rfl hx
    (Or.inr (by decide)) (jsP_semicolon_auto (by decide) (Or.inr (Or.inr rfl)))
  have hs := statement_label (J := startOfFile labelled) rfl hL rfl rfl hsx
  have hscr := script_cons (J := startOfFile labelled) (by decide)
    (scriptelement_statement (by decide) hs) (script_loop_done rfl)
  obtain ⟨n, hn⟩ := jsP_parse_of_script (J := initState) hscr
  refine ⟨n, fun m hm => ?_⟩
  rw [hn m hm]
  simp [js_Ast.new, js_Ast.strnode, jsP_foldconst, js_Ast.isNull, js_Ast.setType]
  repeat' constructor

/-- What `jsP_parse` returns on `a + b : c`: the syntax error of the missing
statement terminator. -/
theorem jsP_parse_sumColon :
    ∃ n, ∀ m, n ≤ m → jsP_parse m "f.js" sumColon initState =
      .error "f.js:1: unexpected token: ':' (expected ';')" := by
  have he := expression_add_identifiers (J := startOfFile sumColon) rfl (by decide)
    (Or.inl rfl) rfl rfl (by decide) (Or.inl rfl) (by decide) (by decide)
  have hsemi : jsP_semicolon (advance 3 (startOfFile sumColon)) =
      .error "f.js:1: unexpected token: ':' (expected ';')" := by
    rw [jsP_semicolon_error (by decide) rfl (by decide) (by decide)]
    rfl
  have hs := statement_identifier_semicolon_error (J := startOfFile sumColon) rfl he
    (Or.inl (by decide)) hsemi
  exact jsP_parse_error_of_script (J := initState)
    (script_error (by decide) (scriptelement_statement (by decide) hs))

/-- C18.  A statement that starts with an identifier token is parsed as an
expression first.  If the expression is a single `EXP_IDENTIFIER` node and the
next token is `:`, the result is `STM_LABEL` over that node retagged
`AST_IDENTIFIER` and the target statement; if the expression is of another
kind, or another token follows, the expression is the statement, subject to
`jsP_semicolon`, whose error is then the error of the statement.  So `L : x`
is a label and `a + b : c` is a syntax error. -/
theorem label_rule :
    (∀ (J J1 J2 : js_State) (a b : js_Ast), J.lookahead = Tok.TK_IDENTIFIER →
      Yields (fun R => expression R false) J (.ok a J1) →
      a.type? = some .EXP_IDENTIFIER → J1.lookahead = Tok.COLON →
      Yields (fun R => statement R) (nextState J1) (.ok b J2) →
      Yields (fun R => statement R) J
        (.ok (js_Ast.new .STM_LABEL J2.astline (a.setType .AST_IDENTIFIER) b .NULL .NULL)
          J2) ∧
      (a.setType .AST_IDENTIFIER).type? = some .AST_IDENTIFIER ∧
      (a.setType .AST_IDENTIFIER).string = a.string) ∧
    (∀ (J J1 J2 : js_State) (a : js_Ast), J.lookahead = Tok.TK_IDENTIFIER →
      Yields (fun R => expression R false) J (.ok a J1) →
      (a.type? ≠ some .EXP_IDENTIFIER ∨ J1.lookahead ≠ Tok.COLON) →
      jsP_semicolon J1 = .ok () J2 →
      Yields (fun R => statement R) J (.ok a J2)) ∧
    (∀ (J J1 : js_State) (a : js_Ast) (msg : String), J.lookahead = Tok.TK_IDENTIFIER →
      Yields (fun R => expression R false) J (.ok a J1) →
      (a.type? ≠ some .EXP_IDENTIFIER ∨ J1.lookahead ≠ Tok.COLON) →
      jsP_semicolon J1 = .error msg →
      Yields (fun R => statement R) J (.error msg)) ∧
    (∃ n, ∀ m, n ≤ m → jsP_parse m "f.js" labelled initState =
      .ok (js_Ast.new .AST_LIST 1
        (js_Ast.new .STM_LABEL 1 (js_Ast.strnode .AST_IDENTIFIER 0 "L")
          (js_Ast.strnode .EXP_IDENTIFIER 1 "x") .NULL .NULL)
        .NULL .NULL .NULL) (advance 3 (startOfFile labelled))) ∧
    (∃ n, ∀ m, n ≤ m → jsP_parse m "f.js" sumColon initState =
      .error "f.js:1: unexpected token: ':' (expected ';')") := by
  refine ⟨fun J J1 J2 a b h ha ht hc hb => ⟨statement_label h ha ht hc hb, ?_, ?_⟩,
    fun _ _ _ _ h ha hl hs => statement_identifier_expression h ha hl hs,
    fun _ _ _ _ h ha hl hs => statement_identifier_semicolon_error h ha hl hs,
    jsP_parse_labelled, jsP_parse_sumColon⟩
  · cases a <;> simp [js_Ast.setType, js_Ast.type?] at ht ⊢
  · cases a <;> simp [js_Ast.setType, js_Ast.string]

/-- C18 on the statements `L : x` (a label), `a + b : c` (a syntax error) and
`x` (an expression statement). -/
theorem label_rule_witness :
    Yields (fun R => statement R) (startOfFile labelled)
      (.ok (js_Ast.new .STM_LABEL 1 (js_Ast.strnode .AST_IDENTIFIER 0 "L")
        (js_Ast.strnode .EXP_IDENTIFIER 1 "x") .NULL .NULL)
        (advance 3 (startOfFile labelled))) ∧
    Yields (fun R => statement R) (startOfFile sumColon)
      (.error "f.js:1: unexpected token: ':' (expected ';')") ∧
    Yields (fun R => statement R) (advance 2 (startOfFile labelled))
      (.ok (js_Ast.strnode .EXP_IDENTIFIER 1 "x") (advance 3 (startOfFile labelled))) := by
  have hx : Yields (fun R => expression R false) (advance 2 (startOfFile labelled))
      (.ok (js_Ast.strnode .EXP_IDENTIFIER 1 "x") (advance 3 (startOfFile labelled))) :=
    expression_identifier rfl (by decide) (Or.inl rfl) (by decide) (by decide)
  have hsx := label_rule.2.1 (advance 2 (startOfFile labelled)) _ _ _ rfl hx
    (Or.inr (by decide)) (jsP_semicolon_auto (by decide) (Or.inr (Or.inr rfl)))
  refine ⟨?_, ?_, hsx⟩
  · exact (label_rule.1 (startOfFile labelled) _ _ _ _ rfl
      (expression_identifier rfl (by decide) (Or.inl rfl) (by decide) (by decide))
      rfl rfl hsx).1
  · have he := expression_add_identifiers (J := startOfFile sumColon) rfl (by decide)
      (Or.inl rfl) rfl rfl (by decide) (Or.inl rfl) (by decide) (by decide)
    have hsemi : jsP_semicolon (advance 3 (startOfFile sumColon)) =
        .error "f.js:1: unexpected token: ':' (expected ';')" := by
      rw [jsP_semicolon_error (by decide) rfl (by decide) (by decide)]
      rfl
    exact label_rule.2.2.1 (startOfFile sumColon) _ _ _ rfl he (Or.inl (by decide)) hsemi

/-! ## C19: properties and accessors of an object literal -/

/-- The function `propname` on a number token. -/
theorem propname_number {J : js_State} (h : J.lookahead = Tok.TK_NUMBER) :
    propname J = .ok (js_Ast.numnode .EXP_NUMBER J.astline J.number) (nextState J) := by
  simp [propname, h]

/-- The function `propname` on a string token. -/
theorem propname_string {J : js_State} (h : J.lookahead = Tok.TK_STRING) :
    propname J = .ok (js_Ast.strnode .EXP_STRING J.astline J.text) (nextState J) := by
  simp [propname, h]

/-- The function `propname` on an identifier or keyword token. -/
theorem propname_name {J : js_State}
    (h : J.lookahead = Tok.TK_IDENTIFIER ∨ J.lookahead.isKeyword = true) :
    propname J = .ok (js_Ast.strnode .AST_IDENTIFIER J.astline J.text) (nextState J) := by
  have h1 : J.lookahead ≠ Tok.TK_NUMBER := by
    rcases h with h | h
    · simp [h]
    · intro h'
      simp [h', Tok.isKeyword] at h
  have h2 : J.lookahead ≠ Tok.TK_STRING := by
    rcases h with h | h
    · simp [h]
    · intro h'
      simp [h', Tok.isKeyword] at h
  simp [propname, h1, h2, identifiername_ok h]

/-- The accessor `get name () body`. -/
theorem propassign_get {name name2 body : js_Ast} {J J1 J2 J3 : js_State}
    (hn : propname J = .ok name J1) (h1 : J1.lookahead ≠ Tok.COLON)
    (ht : name.type? = some .AST_IDENTIFIER) (hs : name.string = some "get")
    (hn2 : propname J1 = .ok name2 J2) (h2 : J2.lookahead = Tok.LPAREN)
    (h3 : (advance 1 J2).lookahead = Tok.RPAREN)
    (hb : Yields (fun R => funbody R) (advance 2 J2) (.ok body J3)) :
    Yields (fun R => propassign R) J
      (.ok (js_Ast.new .EXP_PROP_GET J3.astline name2 .NULL body .NULL) J3) := by
  obtain ⟨n, hb⟩ := hb
  refine ⟨n + 1, fun m hm => ?_⟩
  obtain ⟨j, rfl⟩ : ∃ j, m = j + 1 := ⟨m - 1, by omega⟩
  have hb := hb j (by omega)
  simp only [advance] at h3 hb
  dsimp only at hb ⊢
  simp [propassign, hn, h1, ht, hs, hn2, jsP_expect_eq h2, jsP_expect_eq h3, step, hb]

/-- The accessor `set name (arg) body`. -/
theorem propassign_set {name name2 arg body : js_Ast} {J J1 J2 J3 J4 : js_State}
    (hn : propname J = .ok name J1) (h1 : J1.lookahead ≠ Tok.COLON)
    (ht : name.type? = some .AST_IDENTIFIER) (hs : name.string = some "set")
    (hn2 : propname J1 = .ok name2 J2) (h2 : J2.lookahead = Tok.LPAREN)
    (ha : identifier (nextState J2) = .ok arg J3) (h3 : J3.lookahead = Tok.RPAREN)
    (hb : Yields (fun R => funbody R) (nextState J3) (.ok body J4)) :
    Yields (fun R => propassign R) J
      (.ok (js_Ast.new .EXP_PROP_SET J4.astline name2
        (js_Ast.new .AST_LIST J4.astline arg .NULL .NULL .NULL) body .NULL) J4) := by
  obtain ⟨n, hb⟩ := hb
  refine ⟨n + 1, fun m hm => ?_⟩
  obtain ⟨j, rfl⟩ : ∃ j, m = j + 1 := ⟨m - 1, by omega⟩
  have hb := hb j (by omega)
  dsimp only at hb ⊢
  simp [propassign, hn, h1, ht, hs, hn2, jsP_expect_eq h2, ha, jsP_expect_eq h3, step, hb]

/-- The property `name : value`. -/
theorem propassign_val {name value : js_Ast} {J J1 J2 : js_State}
    (hn : propname J = .ok name J1) (h1 : J1.lookahead = Tok.COLON)
    (hv : Yields (fun R => assignment R false) (nextState J1) (.ok value J2)) :
    Yields (fun R => propassign R) J
      (.ok (js_Ast.new .EXP_PROP_VAL J2.astline name value .NULL .NULL) J2) := by
  obtain ⟨n, hv⟩ := hv
  refine ⟨n + 1, fun m hm => ?_⟩
  obtain ⟨j, rfl⟩ : ∃ j, m = j + 1 := ⟨m - 1, by omega⟩
  have hv := hv j (by omega)
  dsimp only at hv ⊢
  simp [propassign, hn, h1, jsP_expect_eq h1, step, hv]

/-- A name that starts no accessor and is not followed by `:`. -/
theorem propassign_error {name : js_Ast} {J J1 : js_State}
    (hn : propname J = .ok name J1) (h1 : J1.lookahead ≠ Tok.COLON)
    (ht : name.type? ≠ some .AST_IDENTIFIER ∨
      (name.string ≠ some "get" ∧ name.string ≠ some "set")) :
    Yields (fun R => propassign R) J
      (.error (snprintf256 (J1.filename ++ ":" ++ toString J1.lexline ++ ": ") ++
        ("unexpected token: " ++ jsY_tokenstring J1.lookahead ++
          " (expected " ++ jsY_tokenstring Tok.COLON ++ ")"))) :=
  Yields.of_eq fun R => by
    rcases ht with ht | ⟨hg, hs⟩
    · simp [propassign, hn, h1, ht, jsP_expect_ne h1]
    · simp [propassign, hn, h1, hg, hs, jsP_expect_ne h1]

/-- The function `primary` on an object literal of one property. -/
theorem primary_object_single {e : js_Ast} {J J1 : js_State} (h : J.lookahead = Tok.LBRACE)
    (h1 : (nextState J).lookahead ≠ Tok.RBRACE)
    (he : Yields (fun R => propassign R) (nextState J) (.ok e J1))
    (h2 : J1.lookahead = Tok.RBRACE) :
    Yields (fun R => primary R) J
      (.ok (js_Ast.new .EXP_OBJECT J1.astline
        (js_Ast.new .AST_LIST J1.astline e .NULL .NULL .NULL) .NULL .NULL .NULL)
        (nextState J1)) := by
  obtain ⟨n, he⟩ := he
  refine ⟨n, fun m hm => ?_⟩
  have he := he m hm
  dsimp only at he ⊢
  simp [primary, jsP_accept_apply, h, objectliteral, h1, he, objectliteral_loop, h2,
    jsP_expect_eq h2]

/-- The function `assignment` on a number token that ends the expression. -/
theorem assignment_number {J : js_State} (h : J.lookahead = Tok.TK_NUMBER)
    (he : endsOperand (nextState J)) (hb : binop false (nextState J).lookahead = none)
    (hq : (nextState J).lookahead ≠ Tok.QUESTION)
    (ha : assignop (nextState J).lookahead = none) :
    Yields (fun R => assignment R false) J
      (.ok (js_Ast.numnode .EXP_NUMBER J.astline J.number) (nextState J)) := by
  have := @assignment_of_unary false _ _ _ (unary_number h he) hb hq ha
  rwa [levelFn_twelve] at this

/-- C19.  Inside an object literal, after a property name that is an
identifier-token name with the text `get` and is not followed by `:`,
`propassign` reads a second name, `(`, `)` and a function body and returns
`EXP_PROP_GET(name2, null, body)`; with the text `set` it reads a second name,
`(`, one parameter, `)` and a body and returns `EXP_PROP_SET(name2, one-cell
list of the parameter, body)`.  A name followed by `:` gives
`EXP_PROP_VAL(name, value)` whatever its text, and any other name not followed
by `:` is a syntax error, whose message is the first 255 characters of
`<file>:<line>: ` followed by `unexpected token: <seen> (expected ':')`.  A
string token gives an `EXP_STRING` name, never an
accessor.  So `{get: 1}` has the ordinary property `get`. -/
theorem propassign_rule :
    (∀ (J J1 J2 J3 : js_State) (name name2 body : js_Ast),
      propname J = .ok name J1 → J1.lookahead ≠ Tok.COLON →
      name.type? = some .AST_IDENTIFIER → name.string = some "get" →
      propname J1 = .ok name2 J2 → J2.lookahead = Tok.LPAREN →
      (advance 1 J2).lookahead = Tok.RPAREN →
      Yields (fun R => funbody R) (advance 2 J2) (.ok body J3) →
      Yields (fun R => propassign R) J
        (.ok (js_Ast.new .EXP_PROP_GET J3.astline name2 .NULL body .NULL) J3)) ∧
    (∀ (J J1 J2 J3 J4 : js_State) (name name2 arg body : js_Ast),
      propname J = .ok name J1 → J1.lookahead ≠ Tok.COLON →
      name.type? = some .AST_IDENTIFIER → name.string = some "set" →
      propname J1 = .ok name2 J2 → J2.lookahead = Tok.LPAREN →
      identifier (nextState J2) = .ok arg J3 → J3.lookahead = Tok.RPAREN →
      Yields (fun R => funbody R) (nextState J3) (.ok body J4) →
      Yields (fun R => propassign R) J
        (.ok (js_Ast.new .EXP_PROP_SET J4.astline name2
          (js_Ast.new .AST_LIST J4.astline arg .NULL .NULL .NULL) body .NULL) J4)) ∧
    (∀ (J J1 J2 : js_State) (name value : js_Ast),
      propname J = .ok name J1 → J1.lookahead = Tok.COLON →
      Yields (fun R => assignment R false) (nextState J1) (.ok value J2) →
      Yields (fun R => propassign R) J
        (.ok (js_Ast.new .EXP_PROP_VAL J2.astline name value .NULL .NULL) J2)) ∧
    (∀ (J J1 : js_State) (name : js_Ast),
      propname J = .ok name J1 → J1.lookahead ≠ Tok.COLON →
      (name.type? ≠ some .AST_IDENTIFIER ∨
        (name.string ≠ some "get" ∧ name.string ≠ some "set")) →
      Yields (fun R => propassign R) J
        (.error (snprintf256 (J1.filename ++ ":" ++ toString J1.lexline ++ ": ") ++
          ("unexpected token: " ++ jsY_tokenstring J1.lookahead ++
            " (expected " ++ jsY_tokenstring Tok.COLON ++ ")")))) ∧
    (∀ J : js_State, J.lookahead = Tok.TK_STRING →
      propname J = .ok (js_Ast.strnode .EXP_STRING J.astline J.text) (nextState J) ∧
      (js_Ast.strnode .EXP_STRING J.astline J.text).type? ≠ some .AST_IDENTIFIER) ∧
    (∀ J : js_State, (J.lookahead = Tok.TK_IDENTIFIER ∨ J.lookahead.isKeyword = true) →
      propname J = .ok (js_Ast.strnode .AST_IDENTIFIER J.astline J.text) (nextState J)) ∧
    Yields (fun R => primary R) (startOfFile objGetValue)
      (.ok (js_Ast.new .EXP_OBJECT 1
        (js_Ast.new .AST_LIST 1
          (js_Ast.new .EXP_PROP_VAL 1 (js_Ast.strnode .AST_IDENTIFIER 1 "get")
            (js_Ast.numnode .EXP_NUMBER 1 (Dbl.fin 1)) .NULL .NULL)
          .NULL .NULL .NULL) .NULL .NULL .NULL) (advance 5 (startOfFile objGetValue))) := by
  refine ⟨fun _ _ _ _ _ _ _ hn h1 ht hs hn2 h2 h3 hb => propassign_get hn h1 ht hs hn2 h2 h3 hb,
    fun _ _ _ _ _ _ _ _ _ hn h1 ht hs hn2 h2 ha h3 hb =>
      propassign_set hn h1 ht hs hn2 h2 ha h3 hb,
    fun _ _ _ _ _ hn h1 hv => propassign_val hn h1 hv,
    fun _ _ _ hn h1 ht => propassign_error hn h1 ht,
    fun J h => ⟨propname_string h, by simp [js_Ast.strnode, js_Ast.type?]⟩,
    fun J h => propname_name h, ?_⟩
  exact primary_object_single (J := startOfFile objGetValue) rfl (by decide)
    (propassign_val (J := advance 1 (startOfFile objGetValue)) (propname_name (Or.inl rfl)) rfl
      (assignment_number (J := advance 3 (startOfFile objGetValue)) rfl (by decide) rfl
        (by decide) rfl)) rfl

/-- C19 on `get : 1` (an ordinary property), `get x(){}` and `set x(v){}`
(accessors), `"get" : 1` (an ordinary property with a string name) and
`"get" x(){}` (a syntax error). -/
theorem propassign_rule_witness :
    Yields (fun R => propassign R) (startOfFile getValue)
      (.ok (js_Ast.new .EXP_PROP_VAL 1 (js_Ast.strnode .AST_IDENTIFIER 0 "get")
        (js_Ast.numnode .EXP_NUMBER 1 (Dbl.fin 1)) .NULL .NULL)
        (advance 3 (startOfFile getValue))) ∧
    Yields (fun R => propassign R) (startOfFile getter)
      (.ok (js_Ast.new .EXP_PROP_GET 1 (js_Ast.strnode .AST_IDENTIFIER 1 "x") .NULL .NULL
        .NULL) (advance 6 (startOfFile getter))) ∧
    Yields (fun R => propassign R) (startOfFile setter)
      (.ok (js_Ast.new .EXP_PROP_SET 1 (js_Ast.strnode .AST_IDENTIFIER 1 "x")
        (js_Ast.new .AST_LIST 1 (js_Ast.strnode .AST_IDENTIFIER 1 "v") .NULL .NULL .NULL)
        .NULL .NULL) (advance 7 (startOfFile setter))) ∧
    Yields (fun R => propassign R) (startOfFile strGetValue)
      (.ok (js_Ast.new .EXP_PROP_VAL 1 (js_Ast.strnode .EXP_STRING 0 "get")
        (js_Ast.numnode .EXP_NUMBER 1 (Dbl.fin 1)) .NULL .NULL)
        (advance 3 (startOfFile strGetValue))) ∧
    Yields (fun R => propassign R) (startOfFile strGetter)
      (.error "f.js:1: unexpected token: (identifier) (expected ':')") := by
  refine ⟨?_, ?_, ?_, ?_, ?_⟩
  · exact propassign_rule.2.2.1 (startOfFile getValue) _ _ _ _
      (propname_name (Or.inl rfl)) rfl
      (assignment_number (J := advance 2 (startOfFile getValue)) rfl (by decide) rfl
        (by decide) rfl)
  · exact propassign_rule.1 (startOfFile getter) _ _ _ _ _ _
      (propname_name (Or.inl rfl)) (by decide) rfl rfl
      (propname_name (J := advance 1 (startOfFile getter)) (Or.inl rfl)) rfl rfl
      (Yields.of_eq fun R => funbody_empty (J := advance 4 (startOfFile getter)) rfl rfl)
  · exact propassign_rule.2.1 (startOfFile setter) _ _ _ _ _ _ _ _
      (propname_name (Or.inl rfl)) (by decide) rfl rfl
      (propname_name (J := advance 1 (startOfFile setter)) (Or.inl rfl)) rfl
      (identifier_ok (J := advance 3 (startOfFile setter)) rfl (by decide) (Or.inl rfl)) rfl
      (Yields.of_eq fun R => funbody_empty (J := advance 5 (startOfFile setter)) rfl rfl)
  · exact propassign_rule.2.2.1 (startOfFile strGetValue) _ _ _ _
      (propname_string rfl) rfl
      (assignment_number (J := advance 2 (startOfFile strGetValue)) rfl (by decide) rfl
        (by decide) rfl)
  · have h := propassign_rule.2.2.2.1 (startOfFile strGetter) _ _
      (propname_string rfl) (by decide) (Or.inl (by decide))
    exact h

/-! ## C20: missing elements of an array literal -/

/-- The function `arrayelement` at `,`: the placeholder, no token consumed. -/
theorem arrayelement_hole {R : Rec} {J : js_State} (h : J.lookahead = Tok.COMMA) :
    arrayelement R J = .ok (js_Ast.new .EXP_UNDEF J.astline .NULL .NULL .NULL .NULL) J := by
  simp [arrayelement, h]

/-- The function `arrayelement` at another token: an assignment expression. -/
theorem arrayelement_of {e : js_Ast} {J J1 : js_State} (h : J.lookahead ≠ Tok.COMMA)
    (he : Yields (fun R => assignment R false) J (.ok e J1)) :
    Yields (fun R => arrayelement R) J (.ok e J1) := by
  obtain ⟨n, he⟩ := he
  refine ⟨n + 1, fun m hm => ?_⟩
  obtain ⟨j, rfl⟩ : ∃ j, m = j + 1 := ⟨m - 1, by omega⟩
  have he := he j (by omega)
  dsimp only at he ⊢
  simp [arrayelement, h, step, he]

/-- The loop of `arrayliteral` at a token other than `,`: the list ends. -/
theorem arrayliteral_loop_done {R : Rec} {J : js_State} (h : J.lookahead ≠ Tok.COMMA) :
    arrayliteral_loop R J = .ok .NULL J := by
  simp [arrayliteral_loop, jsP_accept_ne h]

/-- The loop of `arrayliteral` at a `,` right before `]`: no cell is added. -/
theorem arrayliteral_loop_last {J : js_State} {r : Res js_Ast} (h : J.lookahead = Tok.COMMA)
    (h1 : (nextState J).lookahead = Tok.RBRACK)
    (hr : Yields (fun R => arrayliteral_loop R) (nextState J) r) :
    Yields (fun R => arrayliteral_loop R) J r := by
  obtain ⟨n, hr⟩ := hr
  refine ⟨n + 1, fun m hm => ?_⟩
  obtain ⟨j, rfl⟩ : ∃ j, m = j + 1 := ⟨m - 1, by omega⟩
  have hr := hr j (by omega)
  dsimp only at hr ⊢
  rw [arrayliteral_loop]
  simp [jsP_accept_eq h, h1, step, hr]

/-- The loop of `arrayliteral` at a `,` followed by an element (present or
missing): a cell is added for it and the loop goes round again. -/
theorem arrayliteral_loop_step {e l : js_Ast} {J J1 J2 : js_State}
    (h : J.lookahead = Tok.COMMA) (h1 : (nextState J).lookahead ≠ Tok.RBRACK)
    (he : Yields (fun R => arrayelement R) (nextState J) (.ok e J1))
    (hr : Yields (fun R => arrayliteral_loop R) J1 (.ok l J2)) :
    Yields (fun R => arrayliteral_loop R) J
      (.ok (js_Ast.new .AST_LIST J1.astline e l .NULL .NULL) J2) := by
  obtain ⟨n1, he⟩ := he
  obtain ⟨n2, hr⟩ := hr
  refine ⟨max n1 n2 + 1, fun m hm => ?_⟩
  obtain ⟨j, rfl⟩ : ∃ j, m = j + 1 := ⟨m - 1, by omega⟩
  have he := he (j + 1) (by omega)
  have hr := hr j (by omega)
  dsimp only at he hr ⊢
  rw [arrayliteral_loop]
  simp [jsP_accept_eq h, h1, he, step, hr]

/-- The function `arrayliteral` before `]`: the first cell and the loop. -/
theorem arrayliteral_cons {e l : js_Ast} {J J1 J2 : js_State}
    (h : J.lookahead ≠ Tok.RBRACK)
    (he : Yields (fun R => arrayelement R) J (.ok e J1))
    (hr : Yields (fun R => arrayliteral_loop R) J1 (.ok l J2)) :
    Yields (fun R => arrayliteral R) J
      (.ok (js_Ast.new .AST_LIST J1.astline e l .NULL .NULL) J2) := by
  obtain ⟨n1, he⟩ := he
  obtain ⟨n2, hr⟩ := hr
  refine ⟨max n1 n2, fun m hm => ?_⟩
  have he := he m (by omega)
  have hr := hr m (by omega)
  dsimp only at he hr ⊢
  simp [arrayliteral, h, he, hr]

/-- The function `primary` at `[`: the array literal up to `]`. -/
theorem primary_array {l : js_Ast} {J J1 : js_State} (h : J.lookahead = Tok.LBRACK)
    (hl : Yields (fun R => arrayliteral R) (nextState J) (.ok l J1))
    (h1 : J1.lookahead = Tok.RBRACK) :
    Yields (fun R => primary R) J
      (.ok (js_Ast.new .EXP_ARRAY J1.astline l .NULL .NULL .NULL) (nextState J1)) := by
  obtain ⟨n, hl⟩ := hl
  refine ⟨n, fun m hm => ?_⟩
  have hl := hl m hm
  dsimp only at hl ⊢
  simp [primary, jsP_accept_apply, h, hl, jsP_expect_eq h1]

/-- The token after an element position is `,` or `]`. -/
theorem restToks_head (r : List (Option ℚ)) (tail : List Token) {J : js_State}
    (h : At J (restToks r ++ .of .RBRACK :: tail)) :
    J.lookahead = Tok.COMMA ∨ J.lookahead = Tok.RBRACK := by
  cases r with
  | nil => exact Or.inr h.cons.1
  | cons y r => exact Or.inl h.cons.1

/-- A number literal as an array element. -/
theorem arrayelement_number (q : ℚ) (r : List (Option ℚ)) (tail : List Token) {J : js_State}
    (h : At J (Token.num q :: (restToks r ++ .of .RBRACK :: tail))) :
    Yields (fun R => arrayelement R) J
      (.ok (js_Ast.numnode .EXP_NUMBER J.astline (Dbl.fin q)) (nextState J)) := by
  have h1 : J.lookahead = Tok.TK_NUMBER := h.cons.1
  have hn := restToks_head r tail h.next
  have hnum : J.number = Dbl.fin q := h.cons.2.1
  rw [← hnum]
  refine arrayelement_of (by rw [h1]; decide) (assignment_number h1 ?_ ?_ ?_ ?_)
  · rcases hn with hn | hn <;> simp [endsOperand, hn]
  · rcases hn with hn | hn <;> rw [hn] <;> rfl
  · rcases hn with hn | hn <;> rw [hn] <;> decide
  · rcases hn with hn | hn <;> rw [hn] <;> rfl

theorem elementKinds_cons (line : Nat) (e l : js_Ast) :
    (js_Ast.new .AST_LIST line e l .NULL .NULL).elementKinds =
      (e.type?, e.number) :: l.elementKinds := by
  simp [js_Ast.elementKinds, js_Ast.elements, js_Ast.new]

/-- The loop of `arrayliteral` on the positions after the first: one cell for
each, a placeholder where the element is missing, except for a missing
element right before `]`. -/
theorem arrayliteral_loop_spec (tail : List Token) (rest : List (Option ℚ)) :
    ∀ J : js_State, At J (restToks rest ++ .of .RBRACK :: tail) →
      ∃ l J', Yields (fun R => arrayliteral_loop R) J (.ok l J') ∧
        At J' (.of .RBRACK :: tail) ∧ l.elementKinds = (restCells rest).map cellKind := by
  induction rest with
  | nil =>
    intro J hJ
    refine ⟨.NULL, J, Yields.of_eq fun R => arrayliteral_loop_done ?_, hJ, rfl⟩
    rw [show J.lookahead = Tok.RBRACK from hJ.cons.1]
    decide
  | cons x r ih =>
    intro J hJ
    have hc : J.lookahead = Tok.COMMA := hJ.cons.1
    have hJ1 : At (nextState J) (elemToks x ++ restToks r ++ .of .RBRACK :: tail) := by
      have := hJ.next
      simpa [restToks, List.append_assoc] using this
    cases x with
    | none =>
      simp only [elemToks, List.nil_append] at hJ1
      obtain ⟨l, J', hl, hJ', hk⟩ := ih (nextState J) hJ1
      cases r with
      | nil =>
        have h1 : (nextState J).lookahead = Tok.RBRACK := hJ1.cons.1
        refine ⟨l, J', arrayliteral_loop_last hc h1 hl, hJ', ?_⟩
        rw [hk]
        rfl
      | cons y r' =>
        have h1 : (nextState J).lookahead = Tok.COMMA := hJ1.cons.1
        refine ⟨_, J', arrayliteral_loop_step hc (by rw [h1]; decide)
          (Yields.of_eq fun R => arrayelement_hole h1) hl, hJ', ?_⟩
        rw [elementKinds_cons, hk]
        rfl
    | some q =>
      simp only [elemToks, List.singleton_append, List.cons_append] at hJ1
      obtain ⟨l, J', hl, hJ', hk⟩ := ih (nextState (nextState J)) hJ1.next
      have h1 : (nextState J).lookahead = Tok.TK_NUMBER := hJ1.cons.1
      refine ⟨_, J', arrayliteral_loop_step hc (by rw [h1]; decide)
        (arrayelement_number q r tail hJ1) hl, hJ', ?_⟩
      rw [elementKinds_cons, hk]
      simp [restCells, cellKind, js_Ast.numnode, js_Ast.type?, js_Ast.number]

/-- The function `arrayliteral` on element positions that are number literals
or missing. -/
theorem arrayliteral_spec (tail : List Token) (x0 : Option ℚ) (rest : List (Option ℚ))
    (J : js_State) (hJ : At J (arrayToks x0 rest ++ .of .RBRACK :: tail)) :
    ∃ l J', Yields (fun R => arrayliteral R) J (.ok l J') ∧
      At J' (.of .RBRACK :: tail) ∧ l.elementKinds = (arrayCells x0 rest).map cellKind := by
  cases x0 with
  | none =>
    simp only [arrayToks, elemToks, List.nil_append] at hJ
    cases rest with
    | nil =>
      refine ⟨.NULL, J, Yields.of_eq fun R => ?_, hJ, rfl⟩
      have h : J.lookahead = Tok.RBRACK := hJ.cons.1
      simp [arrayliteral, h]
    | cons y r =>
      obtain ⟨l, J', hl, hJ', hk⟩ := arrayliteral_loop_spec tail (y :: r) J hJ
      have h : J.lookahead = Tok.COMMA := hJ.cons.1
      refine ⟨_, J', arrayliteral_cons (by rw [h]; decide)
        (Yields.of_eq fun R => arrayelement_hole h) hl, hJ', ?_⟩
      rw [elementKinds_cons, hk]
      simp [arrayCells, cellKind, js_Ast.new, js_Ast.type?, js_Ast.number]
  | some q =>
    simp only [arrayToks, elemToks, List.singleton_append, List.cons_append] at hJ
    obtain ⟨l, J', hl, hJ', hk⟩ := arrayliteral_loop_spec tail rest (nextState J) hJ.next
    have h : J.lookahead = Tok.TK_NUMBER := hJ.cons.1
    refine ⟨_, J', arrayliteral_cons (by rw [h]; decide)
      (arrayelement_number q rest tail hJ) hl, hJ', ?_⟩
    rw [elementKinds_cons, hk]
    simp [arrayCells, cellKind, js_Ast.numnode, js_Ast.type?, js_Ast.number]

/-- What `primary` returns on `[1,,2]`: three cells, the second a placeholder. -/
theorem primary_array1Hole2 :
    Yields (fun R => primary R) (startOfFile array1Hole2)
      (.ok (js_Ast.new .EXP_ARRAY 1
        (js_Ast.new .AST_LIST 1 (js_Ast.numnode .EXP_NUMBER 1 (Dbl.fin 1))
          (js_Ast.new .AST_LIST 1 (js_Ast.new .EXP_UNDEF 1 .NULL .NULL .NULL .NULL)
            (js_Ast.new .AST_LIST 1 (js_Ast.numnode .EXP_NUMBER 1 (Dbl.fin 2))
              .NULL .NULL .NULL) .NULL .NULL) .NULL .NULL) .NULL .NULL .NULL)
        (advance 6 (startOfFile array1Hole2))) := by
  have e1 := arrayelement_number 1 [none, some 2] []
    (J := advance 1 (startOfFile array1Hole2)) ⟨startOfFile array1Hole2, rfl, rfl⟩
  have e2 := arrayelement_number 2 [] []
    (J := advance 4 (startOfFile array1Hole2)) ⟨advance 3 (startOfFile array1Hole2), rfl, rfl⟩
  have l3 := arrayliteral_loop_step (J := advance 3 (startOfFile array1Hole2)) rfl (by decide)
    e2 (Yields.of_eq fun R =>
      arrayliteral_loop_done (J := advance 5 (startOfFile array1Hole2)) (by decide))
  have l2 := arrayliteral_loop_step (J := advance 2 (startOfFile array1Hole2)) rfl (by decide)
    (Yields.of_eq fun R =>
      arrayelement_hole (J := advance 3 (startOfFile array1Hole2)) rfl) l3
  have l1 := arrayliteral_cons (J := advance 1 (startOfFile array1Hole2)) (by decide) e1 l2
  exact primary_array (J := startOfFile array1Hole2) rfl l1 rfl

/-- What `primary` returns on `[,1]`: two cells, the first a placeholder. -/
theorem primary_arrayHole1 :
    Yields (fun R => primary R) (startOfFile arrayHole1)
      (.ok (js_Ast.new .EXP_ARRAY 1
        (js_Ast.new .AST_LIST 1 (js_Ast.new .EXP_UNDEF 1 .NULL .NULL .NULL .NULL)
          (js_Ast.new .AST_LIST 1 (js_Ast.numnode .EXP_NUMBER 1 (Dbl.fin 1))
            .NULL .NULL .NULL) .NULL .NULL) .NULL .NULL .NULL)
        (advance 4 (startOfFile arrayHole1))) := by
  have e2 := arrayelement_number 1 [] []
    (J := advance 2 (startOfFile arrayHole1)) ⟨advance 1 (startOfFile arrayHole1), rfl, rfl⟩
  have l2 := arrayliteral_loop_step (J := advance 1 (startOfFile arrayHole1)) rfl (by decide)
    e2 (Yields.of_eq fun R =>
      arrayliteral_loop_done (J := advance 3 (startOfFile arrayHole1)) (by decide))
  have l1 := arrayliteral_cons (J := advance 1 (startOfFile arrayHole1)) (by decide)
    (Yields.of_eq fun R => arrayelement_hole (J := advance 1 (startOfFile arrayHole1)) rfl) l2
  exact primary_array (J := startOfFile arrayHole1) rfl l1 rfl

/-- C20.  In an array literal whose element positions hold number literals or
nothing, `arrayliteral` stops at `]` and returns a list with one cell for each
position, in order, the cell of a missing element being an `EXP_UNDEF`
placeholder; only a missing element right before `]` (a trailing comma) gets
no cell.  An element is missing exactly where `arrayelement` finds `,`.  So
`[1,,2]` yields the three cells 1, UNDEF, 2 and `[,1]` yields UNDEF, 1. -/
theorem array_hole_rule :
    (∀ (tail : List Token) (x0 : Option ℚ) (rest : List (Option ℚ)) (J : js_State),
      At J (arrayToks x0 rest ++ .of .RBRACK :: tail) →
      ∃ l J', Yields (fun R => arrayliteral R) J (.ok l J') ∧
        At J' (.of .RBRACK :: tail) ∧
        l.elementKinds = (arrayCells x0 rest).map cellKind) ∧
    (∀ (R : Rec) (J : js_State), J.lookahead = Tok.COMMA →
      arrayelement R J =
        .ok (js_Ast.new .EXP_UNDEF J.astline .NULL .NULL .NULL .NULL) J) ∧
    (∀ (x : Option ℚ) (y : Option ℚ) (r : List (Option ℚ)),
      restCells (x :: y :: r) = x :: restCells (y :: r)) ∧
    arrayCells (some 1) [none, some 2] = [some 1, none, some 2] ∧
    arrayCells none [some 1] = [none, some 1] ∧
    Yields (fun R => primary R) (startOfFile array1Hole2)
      (.ok (js_Ast.new .EXP_ARRAY 1
        (js_Ast.new .AST_LIST 1 (js_Ast.numnode .EXP_NUMBER 1 (Dbl.fin 1))
          (js_Ast.new .AST_LIST 1 (js_Ast.new .EXP_UNDEF 1 .NULL .NULL .NULL .NULL)
            (js_Ast.new .AST_LIST 1 (js_Ast.numnode .EXP_NUMBER 1 (Dbl.fin 2))
              .NULL .NULL .NULL) .NULL .NULL) .NULL .NULL) .NULL .NULL .NULL)
        (advance 6 (startOfFile array1Hole2))) ∧
    Yields (fun R => primary R) (startOfFile arrayHole1)
      (.ok (js_Ast.new .EXP_ARRAY 1
        (js_Ast.new .AST_LIST 1 (js_Ast.new .EXP_UNDEF 1 .NULL .NULL .NULL .NULL)
          (js_Ast.new .AST_LIST 1 (js_Ast.numnode .EXP_NUMBER 1 (Dbl.fin 1))
            .NULL .NULL .NULL) .NULL .NULL) .NULL .NULL .NULL)
        (advance 4 (startOfFile arrayHole1))) := by
  refine ⟨arrayliteral_spec, fun R J h => arrayelement_hole h, ?_, ?_, ?_,
    primary_array1Hole2, primary_arrayHole1⟩
  · intro x y r
    cases x <;> rfl
  · simp [arrayCells, restCells]
  · simp [arrayCells, restCells]

/-- C20 on the tokens between the brackets of `[1,,2]` and of `[,1]`. -/
theorem array_hole_rule_witness :
    (∃ l J', Yields (fun R => arrayliteral R) (advance 1 (startOfFile array1Hole2))
        (.ok l J') ∧
      l.elementKinds = [(some .EXP_NUMBER, Dbl.fin 1), (some .EXP_UNDEF, Dbl.fin 0),
        (some .EXP_NUMBER, Dbl.fin 2)]) ∧
    (∃ l J', Yields (fun R => arrayliteral R) (advance 1 (startOfFile arrayHole1))
        (.ok l J') ∧
      l.elementKinds = [(some .EXP_UNDEF, Dbl.fin 0), (some .EXP_NUMBER, Dbl.fin 1)]) := by
  constructor
  · obtain ⟨l, J', hl, -, hk⟩ := array_hole_rule.1 [] (some 1) [none, some 2]
      (advance 1 (startOfFile array1Hole2)) ⟨startOfFile array1Hole2, rfl, rfl⟩
    refine ⟨l, J', hl, ?_⟩
    rw [hk]
    simp [arrayCells, restCells, cellKind]
  · obtain ⟨l, J', hl, -, hk⟩ := array_hole_rule.1 [] none [some 1]
      (advance 1 (startOfFile arrayHole1)) ⟨startOfFile arrayHole1, rfl, rfl⟩
    refine ⟨l, J', hl, ?_⟩
    rw [hk]
    simp [arrayCells, restCells, cellKind]

/-! ## C21: a comma right before the closing bracket -/

/-- A missing last position right before `]` gets no cell. -/
theorem restCells_trailing (rest : List (Option ℚ)) : restCells (rest ++ [none]) = rest := by
  induction rest with
  | nil => rfl
  | cons x r ih =>
    cases h : r ++ [none] with
    | nil => simp at h
    | cons y r' =>
      rw [List.cons_append, h]
      rw [h] at ih
      cases x <;> simp [restCells, ih]

/-- What `primary` returns on `[1,]`: the single cell of the literal 1. -/
theorem primary_array1Comma :
    Yields (fun R => primary R) (startOfFile array1Comma)
      (.ok (js_Ast.new .EXP_ARRAY 1
        (js_Ast.new .AST_LIST 1 (js_Ast.numnode .EXP_NUMBER 1 (Dbl.fin 1))
          .NULL .NULL .NULL) .NULL .NULL .NULL)
        (advance 4 (startOfFile array1Comma))) := by
  have e1 := arrayelement_number 1 [none] []
    (J := advance 1 (startOfFile array1Comma)) ⟨startOfFile array1Comma, rfl, rfl⟩
  have l2 := arrayliteral_loop_last (J := advance 2 (startOfFile array1Comma)) rfl rfl
    (Yields.of_eq fun R =>
      arrayliteral_loop_done (J := advance 3 (startOfFile array1Comma)) (by decide))
  have l1 := arrayliteral_cons (J := advance 1 (startOfFile array1Comma)) (by decide) e1 l2
  exact primary_array (J := startOfFile array1Comma) rfl l1 rfl

/-- C21, as stated, fails on `[1,]`: between the brackets `arrayliteral` returns
the one cell of the literal 1 and stops at `]`, so no run of it returns a list
of two cells, let alone one ending in an `EXP_UNDEF` placeholder. -/
theorem trailing_comma_counterexample :
    Yields (fun R => arrayliteral R) (advance 1 (startOfFile array1Comma))
      (.ok (js_Ast.new .AST_LIST 1 (js_Ast.numnode .EXP_NUMBER 1 (Dbl.fin 1))
        .NULL .NULL .NULL) (advance 3 (startOfFile array1Comma))) ∧
    (advance 3 (startOfFile array1Comma)).lookahead = Tok.RBRACK ∧
    ¬ ∃ l J', Yields (fun R => arrayliteral R) (advance 1 (startOfFile array1Comma))
        (.ok l J') ∧
      l.elementKinds = [(some .EXP_NUMBER, Dbl.fin 1), (some .EXP_UNDEF, Dbl.fin 0)] := by
  have e1 := arrayelement_number 1 [none] []
    (J := advance 1 (startOfFile array1Comma)) ⟨startOfFile array1Comma, rfl, rfl⟩
  have l2 := arrayliteral_loop_last (J := advance 2 (startOfFile array1Comma)) rfl rfl
    (Yields.of_eq fun R =>
      arrayliteral_loop_done (J := advance 3 (startOfFile array1Comma)) (by decide))
  have l1 := arrayliteral_cons (J := advance 1 (startOfFile array1Comma)) (by decide) e1 l2
  refine ⟨l1, rfl, ?_⟩
  rintro ⟨l, J', hl, hk⟩
  have h := Yields.unique hl l1
  injection h with h1 h2
  rw [h1] at hk
  simp [js_Ast.elementKinds, js_Ast.elements, js_Ast.new] at hk

/-- C21, amended.  In an array literal whose element positions hold number
literals or nothing, a comma right before `]` adds no cell: for the positions
`x0, rest` followed by that comma, `arrayliteral` stops at `]` and returns
exactly one cell for each of `x0, rest`, in order (an `EXP_UNDEF` placeholder
where the position is empty), which is the list of cells it returns for the
same positions without the final comma when the last position holds an
element.  So `[1,]` yields the single cell 1. -/
theorem trailing_comma_rule :
    (∀ (tail : List Token) (x0 : Option ℚ) (rest : List (Option ℚ)) (J : js_State),
      At J (arrayToks x0 rest ++ .of .COMMA :: .of .RBRACK :: tail) →
      ∃ l J', Yields (fun R => arrayliteral R) J (.ok l J') ∧
        At J' (.of .RBRACK :: tail) ∧
        l.elementKinds = (x0 :: rest).map cellKind) ∧
    (∀ (x0 : Option ℚ) (rest : List (Option ℚ)) (q : ℚ),
      arrayCells x0 (rest ++ [some q]) = x0 :: (rest ++ [some q]) ∧
      arrayCells x0 (rest ++ [some q] ++ [none]) = x0 :: (rest ++ [some q])) ∧
    Yields (fun R => primary R) (startOfFile array1Comma)
      (.ok (js_Ast.new .EXP_ARRAY 1
        (js_Ast.new .AST_LIST 1 (js_Ast.numnode .EXP_NUMBER 1 (Dbl.fin 1))
          .NULL .NULL .NULL) .NULL .NULL .NULL)
        (advance 4 (startOfFile array1Comma))) := by
  refine ⟨?_, ?_, primary_array1Comma⟩
  · intro tail x0 rest J hJ
    have hJ1 : At J (arrayToks x0 (rest ++ [none]) ++ .of .RBRACK :: tail) := by
      have e : ∀ r : List (Option ℚ), restToks (r ++ [none]) = restToks r ++ [.of .COMMA] := by
        intro r
        induction r with
        | nil => rfl
        | cons x r ih => simp [restToks, ih]
      simpa [arrayToks, e, List.append_assoc] using hJ
    obtain ⟨l, J', hl, hJ', hk⟩ := arrayliteral_spec tail x0 (rest ++ [none]) J hJ1
    refine ⟨l, J', hl, hJ', ?_⟩
    rw [hk, arrayCells, restCells_trailing]
    simp
  · intro x0 rest q
    have e : restCells (rest ++ [some q]) = rest ++ [some q] := by
      induction rest with
      | nil => rfl
      | cons x r ih =>
        cases h : r ++ [some q] with
        | nil => simp at h
        | cons y r' =>
          rw [List.cons_append, h]
          rw [h] at ih
          cases x <;> simp [restCells, ih]
    constructor
    · rw [arrayCells, e]
      simp
    · rw [arrayCells, restCells_trailing]
      simp

/-- C21, amended, on the tokens between the brackets of `[1,]`. -/
theorem trailing_comma_rule_witness :
    ∃ l J', Yields (fun R => arrayliteral R) (advance 1 (startOfFile array1Comma))
        (.ok l J') ∧
      l.elementKinds = [(some .EXP_NUMBER, Dbl.fin 1)] := by
  obtain ⟨l, J', hl, -, hk⟩ := trailing_comma_rule.1 [] (some 1) []
    (advance 1 (startOfFile array1Comma)) ⟨startOfFile array1Comma, rfl, rfl⟩
  refine ⟨l, J', hl, ?_⟩
  rw [hk]
  simp [cellKind]

/-! ## C22: the entry point for a function given as parameter text and body text -/

/-- The loop of `parameters` at a token other than `,`: the list ends. -/
theorem parameters_loop_done {R : Rec} {J : js_State} (h : J.lookahead ≠ Tok.COMMA) :
    parameters_loop R J = .ok .NULL J := by
  simp [parameters_loop, jsP_accept_ne h]

/-- The loop of `parameters` at `,`: a cell for the identifier after it. -/
theorem parameters_loop_step {e l : js_Ast} {J J1 J2 : js_State}
    (h : J.lookahead = Tok.COMMA) (he : identifier (nextState J) = .ok e J1)
    (hr : Yields (fun R => parameters_loop R) J1 (.ok l J2)) :
    Yields (fun R => parameters_loop R) J
      (.ok (js_Ast.new .AST_LIST J1.astline e l .NULL .NULL) J2) := by
  obtain ⟨n, hr⟩ := hr
  refine ⟨n + 1, fun m hm => ?_⟩
  obtain ⟨j, rfl⟩ : ∃ j, m = j + 1 := ⟨m - 1, by omega⟩
  have hr := hr j (by omega)
  dsimp only at hr ⊢
  rw [parameters_loop]
  simp [jsP_accept_eq h, he, step, hr]

/-- The function `parameters` before `)`: the first identifier and the loop. -/
theorem parameters_cons {e l : js_Ast} {J J1 J2 : js_State}
    (h : J.lookahead ≠ Tok.RPAREN) (he : identifier J = .ok e J1)
    (hr : Yields (fun R => parameters_loop R) J1 (.ok l J2)) :
    Yields (fun R => parameters R) J
      (.ok (js_Ast.new .AST_LIST J1.astline e l .NULL .NULL) J2) := by
  obtain ⟨n, hr⟩ := hr
  refine ⟨n, fun m hm => ?_⟩
  have hr := hr m hm
  dsimp only at hr ⊢
  simp [parameters, h, he, hr, jsP_list]

theorem elementNames_cons (line : Nat) (e l : js_Ast) :
    (js_Ast.new .AST_LIST line e l .NULL .NULL).elementNames =
      (e.type?, e.string) :: l.elementNames := by
  simp [js_Ast.elementNames, js_Ast.elements, js_Ast.new]

/-- An identifier token whose name is no reserved word. -/
theorem identifier_plain {x : String} {ts : List Token} {J : js_State}
    (h : At J (Token.ident x :: ts)) (hx : plainName x) :
    identifier J = .ok (js_Ast.strnode .AST_IDENTIFIER J.astline x) (nextState J) := by
  have h1 : J.lookahead = Tok.TK_IDENTIFIER := h.cons.1
  have h2 : J.text = x := h.cons.2.2.1
  have := identifier_ok h1 (by rw [h2]; exact hx.1) (Or.inr (by rw [h2]; exact hx.2))
  rw [this, h2]

/-- The loop of `parameters` on the names after the first: one cell for each,
in order, up to the first token that is no `,`. -/
theorem parameters_loop_spec (tail : List Token)
    (htail : ∀ t ts, tail = t :: ts → t.kind ≠ Tok.COMMA) :
    ∀ (rest : List String), (∀ x ∈ rest, plainName x) →
      ∀ J : js_State, At J (paramRest rest ++ tail) →
      ∃ l J', Yields (fun R => parameters_loop R) J (.ok l J') ∧
        At J' tail ∧
        l.elementNames = rest.map fun x => (some .AST_IDENTIFIER, some x) := by
  intro rest
  induction rest with
  | nil =>
    intro _ J hJ
    refine ⟨.NULL, J, Yields.of_eq fun R => parameters_loop_done ?_, hJ, rfl⟩
    simp only [paramRest, List.nil_append] at hJ
    cases tail with
    | nil => rw [hJ.nil.1]; decide
    | cons t ts => rw [hJ.cons.1]; exact htail t ts rfl
  | cons x r ih =>
    intro hx J hJ
    have hc : J.lookahead = Tok.COMMA := hJ.cons.1
    have hJ1 : At (nextState J) (Token.ident x :: (paramRest r ++ tail)) := hJ.next
    obtain ⟨l, J', hl, hJ', hk⟩ :=
      ih (fun y hy => hx y (List.mem_cons_of_mem _ hy)) (nextState (nextState J)) hJ1.next
    refine ⟨_, J', parameters_loop_step hc
      (identifier_plain hJ1 (hx x (List.mem_cons_self _ _))) hl, hJ', ?_⟩
    rw [elementNames_cons, hk]
    simp [js_Ast.strnode, js_Ast.type?, js_Ast.string]

/-- The function `parameters` on the parameter text `x0, x1, ..., xn`: the list
of the identifiers, in order. -/
theorem parameters_spec (tail : List Token)
    (htail : ∀ t ts, tail = t :: ts → t.kind ≠ Tok.COMMA)
    (x0 : String) (rest : List String) (hx : ∀ x ∈ x0 :: rest, plainName x)
    (J : js_State) (hJ : At J (paramToks x0 rest ++ tail)) :
    ∃ l J', Yields (fun R => parameters R) J (.ok l J') ∧ At J' tail ∧
      l.elementNames = (x0 :: rest).map fun x => (some .AST_IDENTIFIER, some x) := by
  have hJ0 : At J (Token.ident x0 :: (paramRest rest ++ tail)) := hJ
  obtain ⟨l, J', hl, hJ', hk⟩ := parameters_loop_spec tail htail rest
    (fun y hy => hx y (List.mem_cons_of_mem _ hy)) (nextState J) hJ0.next
  have h : J.lookahead = Tok.TK_IDENTIFIER := hJ0.cons.1
  refine ⟨_, J', parameters_cons (by rw [h]; decide)
    (identifier_plain hJ0 (hx x0 (List.mem_cons_self _ _))) hl, hJ', ?_⟩
  rw [elementNames_cons, hk]
  simp [js_Ast.strnode, js_Ast.type?, js_Ast.string]

/-- The function `jsP_parse` on an empty text: the null program. -/
theorem jsP_parse_empty (fuel : Nat) (filename : String) (J : js_State) :
    jsP_parse fuel filename [] J =
      .ok .NULL (nextState { J with filename := filename, source := [] }) := by
  simp [jsP_parse, jsY_initlex, script, nextState, js_Ast.isNull]

/-- The function `jsP_parsefunction` without parameter text. -/
theorem jsP_parsefunction_none {fuel : Nat} {filename : String} {body : List Token}
    {J Jb : js_State} {b : js_Ast} (hb : jsP_parse fuel filename body J = .ok b Jb) :
    jsP_parsefunction fuel filename none body J =
      .ok (js_Ast.new .EXP_FUN Jb.astline .NULL .NULL b .NULL) Jb := by
  simp [jsP_parsefunction, hb, EXP3]

/-- The function `jsP_parsefunction` with a parameter text. -/
theorem jsP_parsefunction_some {fuel : Nat} {filename : String} {ps body : List Token}
    {J Jp Jb : js_State} {p b : js_Ast}
    (hp : parameters (run fuel) (nextState { J with filename := filename, source := ps }) =
      .ok p Jp)
    (hb : jsP_parse fuel filename body Jp = .ok b Jb) :
    jsP_parsefunction fuel filename (some ps) body J =
      .ok (js_Ast.new .EXP_FUN Jb.astline .NULL p b .NULL) Jb := by
  simp [jsP_parsefunction, jsY_initlex, hp, hb, EXP3]

/-- The tree returned by `jsP_parse` has no foldable node. -/
theorem jsP_parse_result_folded {fuel : Nat} {filename : String} {source : List Token}
    {J J1 : js_State} {p : js_Ast} (h : jsP_parse fuel filename source J = .ok p J1) :
    p.folded = true := by
  obtain ⟨p0, J0, hs, rfl⟩ := jsP_parse_ok h
  cases hn : p0.isNull
  · simp only [Bool.false_eq_true, if_false]
    exact jsP_foldconst_folded p0 ((script_run_numLeaves fuel Tok.EOF).out J0 p0 J1 hs)
  · cases p0
    · simp [js_Ast.folded]
    · simp [js_Ast.isNull] at hn

/-- What `parameters` returns on the parameter text `a, b`. -/
theorem parameters_paramsAB :
    Yields (fun R => parameters R) (startOfFile (paramToks "a" ["b"]))
      (.ok (js_Ast.new .AST_LIST 1 (js_Ast.strnode .AST_IDENTIFIER 0 "a")
        (js_Ast.new .AST_LIST 1 (js_Ast.strnode .AST_IDENTIFIER 1 "b") .NULL .NULL .NULL)
        .NULL .NULL) (advance 3 (startOfFile (paramToks "a" ["b"])))) := by
  have hb : identifier (advance 2 (startOfFile (paramToks "a" ["b"]))) = _ :=
    @identifier_plain "b" [] _
      ⟨advance 1 (startOfFile (paramToks "a" ["b"])), rfl, rfl⟩ (by decide)
  have ha : identifier (startOfFile (paramToks "a" ["b"])) = _ :=
    @identifier_plain "a" (paramRest ["b"]) _
      ⟨{ initState with filename := "f.js", source := paramToks "a" ["b"] }, rfl, rfl⟩
      (by decide)
  have l2 := parameters_loop_step (J := advance 1 (startOfFile (paramToks "a" ["b"]))) rfl hb
    (Yields.of_eq fun R =>
      parameters_loop_done (J := advance 3 (startOfFile (paramToks "a" ["b"]))) (by decide))
  exact parameters_cons (J := startOfFile (paramToks "a" ["b"])) (by decide) ha l2

/-- What `jsP_parse` returns on `~0` after the parameter text `a, b`. -/
theorem jsP_parse_bitnotZero_after :
    ∃ n, ∀ m, n ≤ m →
      jsP_parse m "f.js" bitnotZero (advance 3 (startOfFile (paramToks "a" ["b"]))) =
      .ok (js_Ast.new .AST_LIST 1 (js_Ast.numnode .EXP_NUMBER 1 (Dbl.fin (-1)))
        .NULL .NULL .NULL)
        (advance 3 { advance 3 (startOfFile (paramToks "a" ["b"])) with
          filename := "f.js", source := bitnotZero }) := by
  have h0 : Yields (fun R => unary R)
      (advance 2 { advance 3 (startOfFile (paramToks "a" ["b"])) with
        filename := "f.js", source := bitnotZero })
      (.ok (js_Ast.numnode .EXP_NUMBER 1 (Dbl.fin 0))
        (advance 3 { advance 3 (startOfFile (paramToks "a" ["b"])) with
          filename := "f.js", source := bitnotZero })) :=
    unary_number rfl (by decide)
  have hn := unary_bitnot (J := advance 1 { advance 3 (startOfFile (paramToks "a" ["b"])) with
    filename := "f.js", source := bitnotZero }) rfl h0
  have hexp := @expression_of_level false 0 _ _ _ (Nat.zero_le _)
    (by rw [levelFn_zero]; exact hn) (by decide)
  have hs := statement_expression (J := (advance 1 { advance 3 (startOfFile (paramToks "a" ["b"])) with
      filename := "f.js", source := bitnotZero })) rfl hexp
    (jsP_semicolon_auto (by decide) (Or.inr (Or.inr rfl)))
  have hscr := script_cons (J := (advance 1 { advance 3 (startOfFile (paramToks "a" ["b"])) with
      filename := "f.js", source := bitnotZero })) (by decide)
    (scriptelement_statement (by decide) hs) (script_loop_done rfl)
  obtain ⟨n, hn⟩ := jsP_parse_of_script
    (J := advance 3 (startOfFile (paramToks "a" ["b"]))) hscr
  refine ⟨n, fun m hm => ?_⟩
  rw [hn m hm]
  simp [js_Ast.new, js_Ast.numnode, jsP_foldconst, js_Ast.isNull, jsP_setnumnode,
    js_Ast.number, toint32_zero, Dbl.ofInt]
  rfl

/-- What `jsP_parsefunction` returns on the parameter text `a, b` and the body
text `~0`. -/
theorem jsP_parsefunction_paramsAB :
    ∃ n, ∀ m, n ≤ m →
      jsP_parsefunction m "f.js" (some (paramToks "a" ["b"])) bitnotZero initState =
      .ok (js_Ast.new .EXP_FUN 1 .NULL
        (js_Ast.new .AST_LIST 1 (js_Ast.strnode .AST_IDENTIFIER 0 "a")
          (js_Ast.new .AST_LIST 1 (js_Ast.strnode .AST_IDENTIFIER 1 "b") .NULL .NULL .NULL)
          .NULL .NULL)
        (js_Ast.new .AST_LIST 1 (js_Ast.numnode .EXP_NUMBER 1 (Dbl.fin (-1)))
          .NULL .NULL .NULL) .NULL)
        (advance 3 { advance 3 (startOfFile (paramToks "a" ["b"])) with
          filename := "f.js", source := bitnotZero }) := by
  obtain ⟨n1, hp⟩ := parameters_paramsAB
  obtain ⟨n2, hb⟩ := jsP_parse_bitnotZero_after
  refine ⟨max n1 n2, fun m hm => ?_⟩
  have hp := hp m (by omega)
  have hb := hb m (by omega)
  dsimp only at hp
  exact jsP_parsefunction_some hp hb

/-- C22.  The function `jsP_parsefunction` returns an `EXP_FUN` node whose name
slot is null, whose parameter slot is null when no parameter text is given
and otherwise the list that `parameters` returns on the parameter text, and
whose body slot is the tree that `jsP_parse` returns on the body text, a
folded tree.  On the parameter text `x0, x1, ..., xn` (names that are no
reserved words) `parameters` returns the list of the identifiers in order,
whatever the state before; `jsP_parse` returns null on an empty body text; so
with enough fuel `jsP_parsefunction` on such a parameter text and an empty
body returns `EXP_FUN(null, list, null)`.  On the parameter text `a, b` and
the body `~0` it returns the function of parameters a, b whose body is the
one statement -1. -/
theorem jsP_parsefunction_spec :
    (∀ (fuel : Nat) (filename : String) (body : List Token) (J Jb : js_State) (b : js_Ast),
      jsP_parse fuel filename body J = .ok b Jb →
      jsP_parsefunction fuel filename none body J =
        .ok (js_Ast.new .EXP_FUN Jb.astline .NULL .NULL b .NULL) Jb ∧ b.folded = true) ∧
    (∀ (fuel : Nat) (filename : String) (ps body : List Token) (J Jp Jb : js_State)
      (p b : js_Ast),
      parameters (run fuel) (nextState { J with filename := filename, source := ps }) =
        .ok p Jp →
      jsP_parse fuel filename body Jp = .ok b Jb →
      jsP_parsefunction fuel filename (some ps) body J =
        .ok (js_Ast.new .EXP_FUN Jb.astline .NULL p b .NULL) Jb ∧ b.folded = true) ∧
    (∀ (fuel : Nat) (filename : String) (J : js_State),
      jsP_parse fuel filename [] J =
        .ok .NULL (nextState { J with filename := filename, source := [] })) ∧
    (∀ (filename : String) (x0 : String) (rest : List String) (J : js_State),
      (∀ x ∈ x0 :: rest, plainName x) →
      ∃ l Jp n,
        l.elementNames = (x0 :: rest).map (fun x => (some .AST_IDENTIFIER, some x)) ∧
        (∀ m, n ≤ m → parameters (run m)
          (nextState { J with filename := filename, source := paramToks x0 rest }) =
            .ok l Jp) ∧
        ∀ m, n ≤ m →
          jsP_parsefunction m filename (some (paramToks x0 rest)) [] J =
            .ok (js_Ast.new .EXP_FUN Jp.lexline .NULL l .NULL .NULL)
              (nextState { Jp with filename := filename, source := [] })) ∧
    (∃ n, ∀ m, n ≤ m →
      jsP_parsefunction m "f.js" (some (paramToks "a" ["b"])) bitnotZero initState =
      .ok (js_Ast.new .EXP_FUN 1 .NULL
        (js_Ast.new .AST_LIST 1 (js_Ast.strnode .AST_IDENTIFIER 0 "a")
          (js_Ast.new .AST_LIST 1 (js_Ast.strnode .AST_IDENTIFIER 1 "b") .NULL .NULL .NULL)
          .NULL .NULL)
        (js_Ast.new .AST_LIST 1 (js_Ast.numnode .EXP_NUMBER 1 (Dbl.fin (-1)))
          .NULL .NULL .NULL) .NULL)
        (advance 3 { advance 3 (startOfFile (paramToks "a" ["b"])) with
          filename := "f.js", source := bitnotZero })) := by
  refine ⟨?_, ?_, jsP_parse_empty, ?_, jsP_parsefunction_paramsAB⟩
  · intro fuel filename body J Jb b hb
    exact ⟨jsP_parsefunction_none hb, jsP_parse_result_folded hb⟩
  · intro fuel filename ps body J Jp Jb p b hp hb
    exact ⟨jsP_parsefunction_some hp hb, jsP_parse_result_folded hb⟩
  · intro filename x0 rest J hx
    obtain ⟨l, Jp, ⟨n, hl⟩, -, hk⟩ := parameters_spec [] (by simp) x0 rest hx
      (nextState { J with filename := filename, source := paramToks x0 rest })
      (by simpa using At.start { J with filename := filename, source := paramToks x0 rest })
    refine ⟨l, Jp, n, hk, hl, fun m hm => ?_⟩
    have h := jsP_parsefunction_some (hl m hm) (jsP_parse_empty m filename Jp)
    rw [h]
    simp [nextState]

/-- C22 on the body text `~0` without parameter text. -/
theorem jsP_parsefunction_spec_witness :
    ∃ n, jsP_parsefunction n "f.js" none bitnotZero initState =
      .ok (js_Ast.new .EXP_FUN 1 .NULL .NULL
        (js_Ast.new .AST_LIST 1 (js_Ast.numnode .EXP_NUMBER 1 (Dbl.fin (-1)))
          .NULL .NULL .NULL) .NULL) (nextState (nextState (startOfFile bitnotZero))) := by
  obtain ⟨n, h⟩ := jsP_parse_bitnotZero
  exact ⟨n, (jsP_parsefunction_spec.1 n _ _ _ _ _ (h n le_rfl)).1⟩

/-! ## Functions on the arena -/

@[simp] theorem act_bind_apply {α β : Type} (x : Act α) (f : α → Act β) (H : Arena) :
    (x >>= f) H = match x H with
      | (some v, H1) => f v H1
      | (none, H1) => (none, H1) := rfl

@[simp] theorem act_pure_apply {α : Type} (v : α) (H : Arena) :
    (pure v : Act α) H = (some v, H) := rfl

namespace Arena

@[simp] theorem getH_apply (H : Arena) : getH H = (some H, H) := rfl

@[simp] theorem load_apply (p : Nat) (H : Arena) : load p H = (H.mem p, H) := rfl

@[simp] theorem fail_apply {α : Type} (H : Arena) : (fail : Act α) H = (none, H) := rfl

@[simp] theorem setGcast_apply (p : Ptr) (H : Arena) :
    setGcast p H = (some (), { H with gcast := p }) := rfl

theorem modify_live {p : Nat} {n : Node} {H : Arena} (f : Node → Node)
    (h : H.mem p = some n) :
    modify p f H = (some (), { H with mem := Function.update H.mem p (some (f n)) }) := by
  simp [modify, h]

theorem modify_dead {p : Nat} {H : Arena} (f : Node → Node) (h : H.mem p = none) :
    modify p f H = (none, H) := by
  simp [modify, h]

theorem Frame.refl (H : Arena) : Frame H H :=
  ⟨rfl, rfl, rfl, rfl, rfl, fun _ h => h, fun _ n h => ⟨n, h, rfl, rfl, rfl, rfl, rfl, rfl⟩⟩

theorem Frame.trans {H H1 H2 : Arena} (h1 : Frame H H1) (h2 : Frame H1 H2) : Frame H H2 := by
  refine ⟨h2.brk.trans h1.brk, h2.gcast.trans h1.gcast, h2.astline.trans h1.astline,
    h2.freed.trans h1.freed, h2.freedJumps.trans h1.freedJumps,
    fun q h => h2.dead q (h1.dead q h), fun q n h => ?_⟩
  obtain ⟨n1, e1, a1, b1, c1, d1, f1, g1⟩ := h1.live q n h
  obtain ⟨n2, e2, a2, b2, c2, d2, f2, g2⟩ := h2.live q n1 e1
  exact ⟨n2, e2, a2.trans a1, b2.trans b1, c2.trans c1, d2.trans d1, f2.trans f1,
    g2.trans g1⟩

/-- The ownership list is the same in an arena that differs only in kinds,
numbers and child slots. -/
theorem Chain.under_frame {H H1 : Arena} (hF : Frame H H1) :
    ∀ (l : List Nat) (p : Ptr), H.Chain p l → H1.Chain p l := by
  intro l
  induction l with
  | nil => intro p h; exact h
  | cons q l ih =>
    rintro p ⟨hp, n, hn, hc⟩
    obtain ⟨n1, e1, g1, -⟩ := hF.live q n hn
    exact ⟨hp, n1, e1, ih _ (by rw [g1]; exact hc)⟩

theorem Owns.of_frame {H H1 : Arena} {l : List Nat} (hF : Frame H H1) (h : Owns H l) :
    Owns H1 l := by
  refine ⟨?_, h.nodup, fun q hq => hF.dead q (h.fresh q (by rw [← hF.brk]; exact hq))⟩
  rw [hF.gcast]
  exact Chain.under_frame hF l _ h.chain

/-- The arena function `x` changes at most kinds, numbers and child slots. -/
structure Keeps {α : Type} (x : Act α) : Prop where
  out : ∀ H, Frame H (x H).2

theorem Keeps.pure_act {α : Type} (v : α) : Keeps (pure v : Act α) := ⟨fun H => Frame.refl H⟩

theorem Keeps.fail {α : Type} : Keeps (fail : Act α) := ⟨fun H => Frame.refl H⟩

theorem Keeps.load (p : Nat) : Keeps (load p) := ⟨fun H => Frame.refl H⟩

theorem Keeps.bind_act {α β : Type} {x : Act α} {f : α → Act β} (hx : Keeps x)
    (hf : ∀ v, Keeps (f v)) : Keeps (x >>= f) := by
  refine ⟨fun H => ?_⟩
  have h1 := hx.out H
  rw [act_bind_apply]
  cases hr : x H with
  | mk r H1 =>
    rw [hr] at h1
    cases r with
    | none => exact h1
    | some v => exact Frame.trans h1 ((hf v).out H1)

theorem Keeps.ite_act {α : Type} {c : Prop} [Decidable c] {x y : Act α} (hx : Keeps x)
    (hy : Keeps y) : Keeps (if c then x else y) := by
  split
  · exact hx
  · exact hy

/-- An assignment to the kind, the number or the child slots of a block. -/
theorem Keeps.modify_fields (p : Nat) (f : Node → Node)
    (hf : ∀ n, (f n).gcnext = n.gcnext ∧ (f n).parent = n.parent ∧ (f n).line = n.line ∧
      (f n).string = n.string ∧ (f n).jumps = n.jumps ∧ (f n).casejump = n.casejump) :
    Keeps (modify p f) := by
  refine ⟨fun H => ?_⟩
  cases h : H.mem p with
  | none => rw [modify_dead f h]; exact Frame.refl H
  | some n =>
    rw [modify_live f h]
    refine ⟨rfl, rfl, rfl, rfl, rfl, fun q hq => ?_, fun q m hm => ?_⟩
    · have : q ≠ p := fun e => by rw [e, h] at hq; cases hq
      simp [Function.update_noteq this, hq]
    · by_cases e : q = p
      · subst e
        rw [h] at hm
        cases hm
        exact ⟨f n, by simp, hf n⟩
      · exact ⟨m, by simp [Function.update_noteq e, hm], rfl, rfl, rfl, rfl, rfl, rfl⟩

theorem jsP_setnumnode_keeps (node : Nat) (x : Dbl) : Keeps (jsP_setnumnode node x) := by
  unfold jsP_setnumnode
  refine Keeps.bind_act (Keeps.modify_fields _ _ fun n => ⟨rfl, rfl, rfl, rfl, rfl, rfl⟩) fun _ => ?_
  refine Keeps.bind_act (Keeps.modify_fields _ _ fun n => ⟨rfl, rfl, rfl, rfl, rfl, rfl⟩) fun _ => ?_
  refine Keeps.bind_act (Keeps.modify_fields _ _ fun n => ⟨rfl, rfl, rfl, rfl, rfl, rfl⟩) fun _ => ?_
  exact Keeps.pure_act _

theorem numberAt_keeps (p : Ptr) : Keeps (numberAt p) := by
  cases p with
  | none => exact Keeps.fail
  | some q => exact Keeps.bind_act (Keeps.load q) fun _ => Keeps.pure_act _

theorem orZero_keeps {f : Nat → Act Bool} (hf : ∀ q, Keeps (f q)) (p : Ptr) :
    Keeps (orZero f p) := by
  cases p with
  | none => exact Keeps.pure_act _
  | some q => exact hf q

/-- Folding changes at most kinds, numbers and child slots of live blocks,
whatever the bound on its depth and whether or not it fails. -/
theorem jsP_foldconst_keeps (fuel : Nat) : ∀ node, Keeps (jsP_foldconst fuel node) := by
  induction fuel with
  | zero => intro node; exact Keeps.fail
  | succ fuel ih =>
    intro node
    rw [jsP_foldconst]
    repeat' first
      | exact Keeps.pure_act _
      | exact Keeps.load _
      | exact jsP_setnumnode_keeps _ _
      | exact numberAt_keeps _
      | exact orZero_keeps ih _
      | apply Keeps.ite_act
      | apply Keeps.bind_act
      | intro _


theorem setParent_spec {H : Arena} {x : Ptr} (node : Nat) (hx : Valid H x) :
    setParent x node H = (some (), { H with mem := (fun q =>
      if x = some q then (H.mem q).map (fun n => { n with parent := some node })
      else H.mem q) }) := by
  cases x with
  | none => simp [setParent]
  | some p =>
    obtain ⟨n, hn⟩ := hx p rfl
    rw [setParent, modify_live _ hn]
    congr 2
    funext q
    by_cases e : q = p
    · subst e
      simp [hn]
    · have e' : ¬ p = q := fun h => e h.symm
      simp [Function.update_noteq e, e']

theorem Valid.setParent {H : Arena} {x y : Ptr} (node : Nat) (hx : Valid H x)
    (hy : Valid H y) : Valid (Arena.setParent x node H).2 y := by
  rw [setParent_spec node hx]
  intro q hq
  obtain ⟨n, hn⟩ := hy q hq
  by_cases e : x = some q
  · exact ⟨{ n with parent := some node }, by simp [e, hn]⟩
  · exact ⟨n, by simp [e, hn]⟩


/-- The statement `if (x) x->parent = node;` in an arena that holds the new
node at `node` and, elsewhere, the blocks of `H` with some parents set. -/
theorem setParent_mid {H M : Arena} {x : Ptr} {node : Nat} {N : Node} {P : Nat → Bool}
    (hx : Valid H x) (hne : x ≠ some node) (hN : M.mem node = some N)
    (hM : ∀ q, q ≠ node → M.mem q =
      (H.mem q).map (fun n => if P q then { n with parent := some node } else n)) :
    ∃ M1, setParent x node M = (some (), M1) ∧ M1.brk = M.brk ∧ M1.gcast = M.gcast ∧
      M1.astline = M.astline ∧ M1.freed = M.freed ∧ M1.freedJumps = M.freedJumps ∧
      M1.mem node = some N ∧
      ∀ q, q ≠ node → M1.mem q = (H.mem q).map
        (fun n => if (P q || decide (x = some q)) then { n with parent := some node } else n) := by
  have hv : Valid M x := by
    intro q hq
    obtain ⟨n, hn⟩ := hx q hq
    have : q ≠ node := fun e => hne (by rw [hq, e])
    rw [hM q this, hn]
    exact ⟨_, rfl⟩
  refine ⟨_, setParent_spec node hv, rfl, rfl, rfl, rfl, rfl, ?_, ?_⟩
  · simp [hne, hN]
  · intro q hq
    by_cases e : x = some q
    · simp only [e, if_true, hM q hq, decide_True, Bool.or_true]
      cases H.mem q with
      | none => rfl
      | some n => cases P q <;> rfl
    · simp only [e, if_false, hM q hq, decide_False, Bool.or_false]

/-- The second half of `jsP_newnode`, from the first `if (a) a->parent = node;`
on, in an arena that holds the new node at `node` and, elsewhere, the blocks
of `H`. -/
theorem jsP_newnode_links {H M : Arena} {node : Nat} {N : Node} (a b c d : Ptr)
    (ha : Valid H a) (hb : Valid H b) (hc : Valid H c) (hd : Valid H d)
    (ha' : a ≠ some node) (hb' : b ≠ some node) (hc' : c ≠ some node) (hd' : d ≠ some node)
    (hN : M.mem node = some N) (hM : ∀ q, q ≠ node → M.mem q = H.mem q) :
    ∃ M1, (do
        setParent a node
        setParent b node
        setParent c node
        setParent d node
        let J ← getH
        modify node fun n => { n with gcnext := J.gcast }
        setGcast (some node)
        pure node : Act Nat) M = (some node, M1) ∧
      M1.brk = M.brk ∧ M1.gcast = some node ∧ M1.astline = M.astline ∧
      M1.freed = M.freed ∧ M1.freedJumps = M.freedJumps ∧
      M1.mem node = some { N with gcnext := M.gcast } ∧
      ∀ q, q ≠ node → M1.mem q = (H.mem q).map fun n =>
        if a = some q ∨ b = some q ∨ c = some q ∨ d = some q
        then { n with parent := some node } else n := by
  have hM0 : ∀ q, q ≠ node → M.mem q = (H.mem q).map
      (fun n => if (fun _ : Nat => false) q then { n with parent := some node } else n) := by
    intro q hq
    rw [hM q hq]
    cases H.mem q <;> rfl
  obtain ⟨M1, e1, b1, g1, l1, f1, j1, n1, m1⟩ := setParent_mid ha ha' hN hM0
  obtain ⟨M2, e2, b2, g2, l2, f2, j2, n2, m2⟩ := setParent_mid hb hb' n1 m1
  obtain ⟨M3, e3, b3, g3, l3, f3, j3, n3, m3⟩ := setParent_mid hc hc' n2 m2
  obtain ⟨M4, e4, b4, g4, l4, f4, j4, n4, m4⟩ := setParent_mid hd hd' n3 m3
  refine ⟨{ M4 with mem := Function.update M4.mem node (some { N with gcnext := M4.gcast }),
                     gcast := some node }, ?_, ?_⟩
  · simp only [act_bind_apply, e1, e2, e3, e4, getH_apply, modify_live _ n4, setGcast_apply,
      act_pure_apply]
  · refine ⟨?_, rfl, ?_, ?_, ?_, ?_, ?_⟩
    · simp [b4, b3, b2, b1]
    · simp [l4, l3, l2, l1]
    · simp [f4, f3, f2, f1]
    · simp [j4, j3, j2, j1]
    · simp [g4, g3, g2, g1]
    · intro q hq
      simp only [Function.update_noteq hq, m4 q hq]
      congr 1
      funext n
      simp only [Bool.false_or, Bool.or_eq_true, decide_eq_true_eq, or_assoc]

/-- What `jsP_newnode` does to an arena in which no block beyond `brk` is live,
on children that are null or live. -/
theorem jsP_newnode_spec (H : Arena) (type : js_AstType) (a b c d : Ptr)
    (hf : ∀ q, H.brk ≤ q → H.mem q = none)
    (ha : Valid H a) (hb : Valid H b) (hc : Valid H c) (hd : Valid H d) :
    (jsP_newnode type a b c d H).1 = some H.brk ∧
    (jsP_newnode type a b c d H).2.brk = H.brk + 1 ∧
    (jsP_newnode type a b c d H).2.gcast = some H.brk ∧
    (jsP_newnode type a b c d H).2.astline = H.astline ∧
    (jsP_newnode type a b c d H).2.freed = H.freed ∧
    (jsP_newnode type a b c d H).2.freedJumps = H.freedJumps ∧
    (jsP_newnode type a b c d H).2.mem H.brk =
      some { type := type, line := H.astline, parent := none, a := a, b := b, c := c, d := d,
             number := Dbl.fin 0, string := none, jumps := [], casejump := 0,
             gcnext := H.gcast } ∧
    ∀ q, q ≠ H.brk → (jsP_newnode type a b c d H).2.mem q =
      (H.mem q).map fun n =>
        if a = some q ∨ b = some q ∨ c = some q ∨ d = some q
        then { n with parent := some H.brk } else n := by
  have h0 : H.mem H.brk = none := hf _ le_rfl
  have hne : ∀ x : Ptr, Valid H x → x ≠ some H.brk := by
    intro x hx e
    obtain ⟨n, hn⟩ := hx _ e
    rw [h0] at hn
    cases hn
  have hM00 : ∀ q, q ≠ H.brk → (Function.update H.mem H.brk
      (some ({ type := type, line := H.astline, parent := none, a := a, b := b, c := c,
               d := d, number := Dbl.fin 0, string := none, jumps := [], casejump := 0,
               gcnext := none } : Node))) q = H.mem q :=
    fun q hq => Function.update_noteq hq _ _
  obtain ⟨M1, e, b1, g1, l1, f1, j1, n1, m1⟩ := @jsP_newnode_links H
    { H with mem := (Function.update H.mem H.brk
        (some { type := type, line := H.astline, parent := none, a := a, b := b, c := c,
                d := d, number := Dbl.fin 0, string := none, jumps := [], casejump := 0,
                gcnext := none })),
             brk := H.brk + 1 } H.brk _ a b c d ha hb hc hd (hne a ha) (hne b hb) (hne c hc)
    (hne d hd) (Function.update_same _ _ _) hM00
  have e0 : jsP_newnode type a b c d H = (some H.brk, M1) := by
    rw [← e]
    simp only [jsP_newnode, act_bind_apply, js_malloc, getH_apply]
    rw [modify_live _ (Function.update_same _ _ _)]
    simp only []
    rw [modify_live _ (Function.update_same _ _ _)]
    simp only [Function.update_idem, Node.blank]
  rw [e0]
  exact ⟨rfl, b1, g1, l1, f1, j1, n1, m1⟩


/-- The ownership list depends only on the links of its own blocks. -/
theorem Chain.mono {H H1 : Arena} :
    ∀ (l : List Nat) (p : Ptr),
      (∀ q ∈ l, ∀ n, H.mem q = some n → ∃ n1, H1.mem q = some n1 ∧ n1.gcnext = n.gcnext) →
      H.Chain p l → H1.Chain p l := by
  intro l
  induction l with
  | nil => intro p _ h; exact h
  | cons q l ih =>
    rintro p hl ⟨hp, n, hn, hc⟩
    obtain ⟨n1, e1, g1⟩ := hl q (List.mem_cons_self _ _) n hn
    exact ⟨hp, n1, e1, ih _ (fun q' hq' => hl q' (List.mem_cons_of_mem _ hq'))
      (by rw [g1]; exact hc)⟩

/-- Every block of the ownership list is live. -/
theorem Chain.live {H : Arena} :
    ∀ (l : List Nat) (p : Ptr), H.Chain p l → ∀ q ∈ l, ∃ n, H.mem q = some n := by
  intro l
  induction l with
  | nil => intro p _ q hq; cases hq
  | cons q0 l ih =>
    rintro p ⟨_, n, hn, hc⟩ q hq
    rcases List.mem_cons.mp hq with rfl | hq
    · exact ⟨n, hn⟩
    · exact ih _ hc q hq

/-- From a given pointer there is one ownership list. -/
theorem Chain.list_unique {H : Arena} :
    ∀ (l l1 : List Nat) (p : Ptr), H.Chain p l → H.Chain p l1 → l = l1 := by
  intro l
  induction l with
  | nil =>
    intro l1 p h h1
    cases l1 with
    | nil => rfl
    | cons q l1 =>
      have h : p = none := h
      rw [h] at h1
      cases h1.1
  | cons q l ih =>
    intro l1 p h h1
    obtain ⟨hp, n, hn, hc⟩ := h
    cases l1 with
    | nil =>
      have h1 : p = none := h1
      rw [h1] at hp
      cases hp
    | cons q1 l1 =>
      obtain ⟨hp1, n1, hn1, hc1⟩ := h1
      rw [hp] at hp1
      cases hp1
      rw [hn] at hn1
      cases hn1
      rw [ih l1 _ hc hc1]

/-- After `jsP_newnode` the arena owns the new node and the nodes it owned. -/
theorem Owns.after_newnode {H : Arena} {l : List Nat} (h : Owns H l) (type : js_AstType)
    (a b c d : Ptr) (ha : Valid H a) (hb : Valid H b) (hc : Valid H c) (hd : Valid H d) :
    Owns (jsP_newnode type a b c d H).2 (H.brk :: l) := by
  obtain ⟨-, e1, e2, -, -, -, e3, e4⟩ := jsP_newnode_spec H type a b c d h.fresh ha hb hc hd
  have h0 : H.mem H.brk = none := h.fresh _ le_rfl
  have hlive := Chain.live l _ h.chain
  have hnot : H.brk ∉ l := by
    intro hm
    obtain ⟨n, hn⟩ := hlive _ hm
    rw [h0] at hn
    cases hn
  refine ⟨?_, List.nodup_cons.mpr ⟨hnot, h.nodup⟩, ?_⟩
  · rw [e2]
    refine ⟨rfl, _, e3, ?_⟩
    refine Chain.mono l _ (fun q hq n hn => ?_) h.chain
    have hq' : q ≠ H.brk := fun e => hnot (e ▸ hq)
    rw [e4 q hq', hn]
    refine ⟨_, rfl, ?_⟩
    split <;> rfl
  · intro q hq
    rw [e1] at hq
    rw [e4 q (by omega), h.fresh q (by omega)]
    rfl

theorem jsP_freejumps_spec (js : List js_JumpList) (H : Arena) :
    jsP_freejumps js H = (some (), { H with freedJumps := H.freedJumps + js.length }) := by
  induction js generalizing H with
  | nil => rfl
  | cons j js ih =>
    rw [jsP_freejumps, act_bind_apply]
    simp only [js_freeJump]
    rw [ih]
    simp [Nat.add_assoc, Nat.add_comm 1]

theorem js_free_live {p : Nat} {n : Node} {H : Arena} (h : H.mem p = some n) :
    js_free p H =
      (some (), { H with
                  mem := Function.update H.mem p none
                  freed := p :: H.freed }) := by
  simp [js_free, h]

/-- The loop of `jsP_freeparse` along an ownership list: with enough fuel it
frees each block of the list, in order, and nothing else. -/
theorem jsP_freeparse_loop_spec :
    ∀ (l : List Nat) (p : Ptr) (H : Arena) (fuel : Nat), H.Chain p l → l.Nodup →
      l.length ≤ fuel →
      ∃ H1, jsP_freeparse_loop fuel p H = (some (), H1) ∧
        H1.freed = l.reverse ++ H.freed ∧
        (∀ q, H1.mem q = if q ∈ l then none else H.mem q) ∧
        H1.brk = H.brk ∧ H1.gcast = H.gcast ∧ H1.astline = H.astline ∧
        H1.freedJumps = H.freedJumps +
          (l.map fun q => ((H.mem q).map fun n => n.jumps.length).getD 0).sum := by
  intro l
  induction l with
  | nil =>
    intro p H fuel hc _ _
    have hp : p = none := hc
    subst hp
    refine ⟨H, ?_, by simp, by simp, rfl, rfl, rfl, by simp⟩
    cases fuel <;> rfl
  | cons q l ih =>
    rintro p H fuel ⟨hp, n, hn, hc⟩ hnd hfuel
    subst hp
    obtain ⟨hq, hnd'⟩ := List.nodup_cons.mp hnd
    obtain ⟨j, rfl⟩ : ∃ j, fuel = j + 1 := ⟨fuel - 1, by simp at hfuel; omega⟩
    have hc' : Chain
        { H with
          mem := Function.update H.mem q none
          freed := q :: H.freed
          freedJumps := H.freedJumps + n.jumps.length } n.gcnext l := by
      refine Chain.mono l _ (fun q' hq' n' hn' => ⟨n', ?_, rfl⟩) hc
      have : q' ≠ q := fun e => hq (e ▸ hq')
      simp [Function.update_noteq this, hn']
    obtain ⟨H1, e1, f1, m1, b1, g1, a1, j1⟩ := ih _ _ j hc' hnd' (by simp at hfuel; omega)
    refine ⟨H1, ?_, ?_, ?_, b1, g1, a1, ?_⟩
    · rw [jsP_freeparse_loop]
      simp only [act_bind_apply, load_apply, hn, jsP_freejumps_spec]
      rw [js_free_live (n := n) (by simpa using hn)]
      simpa using e1
    · rw [f1]
      simp
    · intro q'
      rw [m1 q']
      by_cases e : q' = q
      · subst e
        simp [hq]
      · simp [e, Function.update_noteq e]
    · rw [j1]
      simp only [List.map_cons, List.sum_cons, hn, Option.map_some', Option.getD_some]
      have : (l.map fun q' => ((Function.update H.mem q none q').map
          fun n => n.jumps.length).getD 0) =
          (l.map fun q' => ((H.mem q').map fun n => n.jumps.length).getD 0) := by
        apply List.map_congr_left
        intro q' hq'
        have : q' ≠ q := fun e => hq (e ▸ hq')
        simp [Function.update_noteq this]
      rw [this]
      omega

/-- The function `jsP_freeparse` on an arena that owns the nodes `l`: with
enough fuel it frees each of them once, in the order of the list, and nothing
else, and leaves the list empty. -/
theorem jsP_freeparse_spec {H : Arena} {l : List Nat} (h : Owns H l) (fuel : Nat)
    (hfuel : l.length ≤ fuel) :
    ∃ H1, jsP_freeparse fuel H = (some (), H1) ∧ H1.gcast = none ∧
      H1.freed = l.reverse ++ H.freed ∧
      (∀ q, H1.mem q = if q ∈ l then none else H.mem q) ∧
      H1.brk = H.brk ∧ H1.astline = H.astline ∧
      H1.freedJumps = H.freedJumps +
        (l.map fun q => ((H.mem q).map fun n => n.jumps.length).getD 0).sum ∧
      Owns H1 [] := by
  obtain ⟨H1, e1, f1, m1, b1, g1, a1, j1⟩ :=
    jsP_freeparse_loop_spec l H.gcast H fuel h.chain h.nodup hfuel
  refine ⟨{ H1 with gcast := none }, ?_, rfl, f1, m1, b1, a1, j1, ⟨rfl, List.nodup_nil, ?_⟩⟩
  · simp [jsP_freeparse, e1]
  · intro q hq
    show H1.mem q = none
    rw [m1 q]
    split
    · rfl
    · exact h.fresh q (by rw [← b1]; exact hq)

/-- The function `jsP_freeparse` on an arena whose list is empty. -/
theorem jsP_freeparse_empty (H : Arena) (h : H.gcast = none) (fuel : Nat) :
    jsP_freeparse fuel H = (some (), H) := by
  cases H with
  | mk mem brk gcast astline freed freedJumps =>
    simp only at h
    subst h
    cases fuel <;> rfl


/-- An assignment that leaves `gcnext` alone keeps the ownership list. -/
theorem Owns.after_modify {H : Arena} {l : List Nat} (h : Owns H l) (p : Nat) (f : Node → Node)
    (hf : ∀ n, (f n).gcnext = n.gcnext) :
    Owns (Arena.modify p f H).2 l ∧ (Arena.modify p f H).2.brk = H.brk ∧
      (Arena.modify p f H).2.freed = H.freed := by
  cases hp : H.mem p with
  | none =>
    rw [modify_dead f hp]
    exact ⟨h, rfl, rfl⟩
  | some n =>
    rw [modify_live f hp]
    refine ⟨⟨?_, h.nodup, fun q hq => ?_⟩, rfl, rfl⟩
    · refine Chain.mono l _ (fun q _ m hm => ?_) h.chain
      by_cases e : q = p
      · subst e
        rw [hp] at hm
        cases hm
        exact ⟨f n, by simp, hf n⟩
      · exact ⟨m, by simp [Function.update_noteq e, hm], rfl⟩
    · have e : q ≠ p := fun e => by
        have := h.fresh q hq
        rw [e, hp] at this
        cases this
      simp [Function.update_noteq e, h.fresh q hq]

end Arena

/-- A step that creates a node succeeds and puts the new node in front of the
ownership list; another step leaves the list as it is. -/
theorem ArenaOp.run_owns (op : ArenaOp) {H : Arena} {l : List Nat} (h : H.Owns l)
    (hv : op.valid H) :
    (op.run H).2.Owns ((List.range' H.brk (ArenaOp.created [op])).reverse ++ l) ∧
      (op.run H).2.brk = H.brk + ArenaOp.created [op] ∧ (op.run H).2.freed = H.freed := by
  cases op with
  | newnode type a b c d =>
    obtain ⟨ha, hb, hc, hd⟩ := hv
    obtain ⟨e0, e1, -, -, e4, -⟩ := Arena.jsP_newnode_spec H type a b c d h.fresh ha hb hc hd
    have ho := Arena.Owns.after_newnode h type a b c d ha hb hc hd
    cases hr : Arena.jsP_newnode type a b c d H with
    | mk r H1 =>
      rw [hr] at e0 e1 e4 ho
      simp only at e0
      subst e0
      simp only [ArenaOp.run, act_bind_apply, hr, ArenaOp.created]
      exact ⟨by simpa using ho, e1, e4⟩
  | newstrnode type s =>
    have hn : H.Valid none := fun q hq => by cases hq
    obtain ⟨e0, e1, -, -, e4, -⟩ :=
      Arena.jsP_newnode_spec H type none none none none h.fresh hn hn hn hn
    have ho := Arena.Owns.after_newnode h type none none none none hn hn hn hn
    cases hr : Arena.jsP_newnode type none none none none H with
    | mk r H1 =>
      rw [hr] at e0 e1 e4 ho
      simp only at e0
      subst e0
      obtain ⟨m1, m2, m3⟩ := Arena.Owns.after_modify ho H.brk
        (fun n => { n with string := some s }) (fun _ => rfl)
      cases hm : Arena.modify H.brk (fun n => { n with string := some s }) H1 with
      | mk r2 H2 =>
        rw [hm] at m1 m2 m3
        simp only [] at m1 m2 m3 e1 e4
        cases r2 <;>
          simp only [ArenaOp.run, Arena.jsP_newstrnode, act_bind_apply, hr, hm,
            ArenaOp.created, act_pure_apply] <;>
          exact ⟨by simpa using m1, by omega, m3.trans e4⟩
  | newnumnode type x =>
    have hn : H.Valid none := fun q hq => by cases hq
    obtain ⟨e0, e1, -, -, e4, -⟩ :=
      Arena.jsP_newnode_spec H type none none none none h.fresh hn hn hn hn
    have ho := Arena.Owns.after_newnode h type none none none none hn hn hn hn
    cases hr : Arena.jsP_newnode type none none none none H with
    | mk r H1 =>
      rw [hr] at e0 e1 e4 ho
      simp only at e0
      subst e0
      obtain ⟨m1, m2, m3⟩ := Arena.Owns.after_modify ho H.brk
        (fun n => { n with number := x }) (fun _ => rfl)
      cases hm : Arena.modify H.brk (fun n => { n with number := x }) H1 with
      | mk r2 H2 =>
        rw [hm] at m1 m2 m3
        simp only [] at m1 m2 m3 e1 e4
        cases r2 <;>
          simp only [ArenaOp.run, Arena.jsP_newnumnode, act_bind_apply, hr, hm,
            ArenaOp.created, act_pure_apply] <;>
          exact ⟨by simpa using m1, by omega, m3.trans e4⟩
  | setnumnode node x =>
    have hF := (Arena.jsP_setnumnode_keeps node x).out H
    cases hr : Arena.jsP_setnumnode node x H with
    | mk r H1 =>
      rw [hr] at hF
      cases r <;> simp only [ArenaOp.run, act_bind_apply, hr, ArenaOp.created] <;>
        exact ⟨by simpa using Arena.Owns.of_frame hF h, by simpa using hF.brk, hF.freed⟩
  | foldconst fuel node =>
    have hF := (Arena.jsP_foldconst_keeps fuel node).out H
    cases hr : Arena.jsP_foldconst fuel node H with
    | mk r H1 =>
      rw [hr] at hF
      cases r <;> simp only [ArenaOp.run, act_bind_apply, hr, ArenaOp.created] <;>
        exact ⟨by simpa using Arena.Owns.of_frame hF h, by simpa using hF.brk, hF.freed⟩

theorem ArenaOp.created_cons (op : ArenaOp) (ops : List ArenaOp) :
    ArenaOp.created (op :: ops) = ArenaOp.created [op] + ArenaOp.created ops := by
  cases op <;> simp [ArenaOp.created, Nat.add_comm]

/-- A session on an arena that owns the nodes `l`: however far it gets, the
arena then owns the nodes created, latest first, and the nodes of `l`. -/
theorem ArenaOp.runAll_owns :
    ∀ (ops : List ArenaOp) (H : Arena) (l : List Nat), H.Owns l → ArenaOp.allValid ops H →
      (ArenaOp.runAll ops H).1 = some () →
      (ArenaOp.runAll ops H).2.Owns
        ((List.range' H.brk (ArenaOp.created ops)).reverse ++ l) ∧
      (ArenaOp.runAll ops H).2.brk = H.brk + ArenaOp.created ops ∧
      (ArenaOp.runAll ops H).2.freed = H.freed := by
  intro ops
  induction ops with
  | nil =>
    intro H l h _ _
    exact ⟨by simpa [ArenaOp.created] using h, rfl, rfl⟩
  | cons op ops ih =>
    intro H l h hv hs
    obtain ⟨o1, b1, f1⟩ := op.run_owns h hv.1
    have hv2 := hv.2
    cases hr : op.run H with
    | mk r H1 =>
      rw [hr] at o1 b1 f1 hv2
      cases r with
      | none =>
        simp [ArenaOp.runAll, hr] at hs
      | some u =>
        have hs' : (ArenaOp.runAll ops H1).1 = some () := by
          simpa [ArenaOp.runAll, hr] using hs
        obtain ⟨o2, b2, f2⟩ := ih H1 _ o1 hv2 hs'
        have e : ArenaOp.runAll (op :: ops) H = ArenaOp.runAll ops H1 := by
          simp [ArenaOp.runAll, hr]
        rw [e, ArenaOp.created_cons, Nat.add_comm (ArenaOp.created [op])]
        refine ⟨?_, by rw [b2, b1]; omega, by rw [f2, f1]⟩
        have el : (List.range' H.brk (ArenaOp.created ops + ArenaOp.created [op])).reverse ++ l
            = (List.range' H1.brk (ArenaOp.created ops)).reverse ++
              ((List.range' H.brk (ArenaOp.created [op])).reverse ++ l) := by
          simp only [] at b1
          rw [b1, ← List.append_assoc, ← List.reverse_append, List.range'_append_1,
            Nat.add_comm (ArenaOp.created ops)]
        rw [el]
        exact o2

namespace Arena

/-- Folding a block that is a numeric literal: nothing changes. -/
theorem jsP_foldconst_number {H : Arena} {node : Nat} {n : Node} (fuel : Nat)
    (hn : H.mem node = some n) (ht : n.type = .EXP_NUMBER) :
    jsP_foldconst (fuel + 1) node H = (some true, H) := by
  rw [jsP_foldconst]
  simp [hn, ht]

/-- Folding a block of kind `EXP_NEG` over a numeric literal: the block is
rewritten in place to the literal of the negated number. -/
theorem jsP_foldconst_neg_number {H : Arena} {node p : Nat} {n m : Node} (fuel : Nat)
    (hn : H.mem node = some n) (ht : n.type = .EXP_NEG) (ha : n.a = some p)
    (hb : n.b = none) (hc : n.c = none) (hd : n.d = none)
    (hm : H.mem p = some m) (hmt : m.type = .EXP_NUMBER) :
    jsP_foldconst (fuel + 2) node H =
      (some true, { H with mem := (Function.update H.mem node
        (some { n with type := .EXP_NUMBER, number := Dbl.neg m.number, a := none, b := none,
                       c := none, d := none })) }) := by
  obtain ⟨type, line, parent, a, b, c, d, number, string, jumps, casejump, gcnext⟩ := n
  simp only at ht ha hb hc hd
  subst ht ha hb hc hd
  rw [jsP_foldconst]
  simp [hn, orZero, jsP_foldconst_number fuel hm hmt, numberAt, hm, jsP_setnumnode, modify,
    Function.update_idem]

end Arena

/-- An arena whose list is empty and in which no block is live owns nothing. -/
theorem Arena.owns_empty : Arena.empty.Owns [] :=
  ⟨rfl, List.nodup_nil, fun _ _ => rfl⟩

/-! ## C23: the arena is released node by node, once each -/

/-- The session of `-1`: the literal, the negation over it, and the fold. -/
theorem ArenaOp.session_neg :
    ∃ H2 : Arena,
      ArenaOp.runAll [.newnumnode .EXP_NUMBER (Dbl.fin 1),
        .newnode .EXP_NEG (some 0) none none none, .foldconst 2 1] Arena.empty =
        (some (), H2) ∧
      ArenaOp.allValid [.newnumnode .EXP_NUMBER (Dbl.fin 1),
        .newnode .EXP_NEG (some 0) none none none, .foldconst 2 1] Arena.empty ∧
      H2.mem 1 = some { type := .EXP_NUMBER, line := 1, parent := none, a := none, b := none,
                        c := none, d := none, number := Dbl.fin (-1), string := none,
                        jumps := [], casejump := 0, gcnext := some 0 } := by
  have vn : ∀ H : Arena, H.Valid none := fun _ q hq => by cases hq
  have e1 : ArenaOp.run (.newnumnode .EXP_NUMBER (Dbl.fin 1)) Arena.empty =
      (some (), (ArenaOp.run (.newnumnode .EXP_NUMBER (Dbl.fin 1)) Arena.empty).2) := rfl
  have m0 : (ArenaOp.run (.newnumnode .EXP_NUMBER (Dbl.fin 1)) Arena.empty).2.mem 0 =
      some { type := .EXP_NUMBER, line := 1, parent := none, a := none, b := none,
             c := none, d := none, number := Dbl.fin 1, string := none, jumps := [],
             casejump := 0, gcnext := none } := rfl
  have b0 : (ArenaOp.run (.newnumnode .EXP_NUMBER (Dbl.fin 1)) Arena.empty).2.brk = 1 := rfl
  have a0 : (ArenaOp.run (.newnumnode .EXP_NUMBER (Dbl.fin 1)) Arena.empty).2.astline = 1 :=
    rfl
  have g0 : (ArenaOp.run (.newnumnode .EXP_NUMBER (Dbl.fin 1)) Arena.empty).2.gcast =
      some 0 := rfl
  have o1 := (ArenaOp.run_owns (.newnumnode .EXP_NUMBER (Dbl.fin 1)) Arena.owns_empty
    trivial).1
  generalize (ArenaOp.run (.newnumnode .EXP_NUMBER (Dbl.fin 1)) Arena.empty).2 = H1
    at e1 m0 b0 a0 g0 o1
  have v0 : H1.Valid (some 0) := fun q hq => by cases hq; exact ⟨_, m0⟩
  obtain ⟨r1, -, -, -, -, -, m1, f1⟩ := Arena.jsP_newnode_spec H1 .EXP_NEG (some 0)
    none none none o1.fresh v0 (vn _) (vn _) (vn _)
  rw [b0] at r1 m1 f1
  rw [a0, g0] at m1
  have f1' := f1 0 (by decide)
  rw [m0] at f1'
  simp only [Option.map_some', true_or, if_true] at f1'
  have e2 : ArenaOp.run (.newnode .EXP_NEG (some 0) none none none) H1 =
      (some (), (Arena.jsP_newnode .EXP_NEG (some 0) none none none H1).2) := by
    cases hr : Arena.jsP_newnode .EXP_NEG (some 0) none none none H1 with
    | mk r H2 =>
      rw [hr] at r1
      simp only at r1
      subst r1
      simp [ArenaOp.run, hr]
  have e3 := Arena.jsP_foldconst_neg_number 0 m1 rfl rfl rfl rfl rfl f1' rfl
  obtain ⟨H3, e3', m3⟩ : ∃ H3, ArenaOp.run (.foldconst 2 1)
      (Arena.jsP_newnode .EXP_NEG (some 0) none none none H1).2 = (some (), H3) ∧
      H3.mem 1 = some { type := .EXP_NUMBER, line := 1, parent := none, a := none, b := none,
                        c := none, d := none, number := Dbl.fin (-1), string := none,
                        jumps := [], casejump := 0, gcnext := some 0 } := by
    refine ⟨_, by simp only [ArenaOp.run, act_bind_apply, e3, act_pure_apply]; rfl, ?_⟩
    simp [Dbl.neg]
  refine ⟨H3, ?_, ?_, m3⟩
  · simp only [ArenaOp.runAll, act_bind_apply, e1, e2, e3', act_pure_apply]
  · refine ⟨trivial, ?_, trivial, trivial⟩
    rw [e1]
    exact ⟨v0, vn _, vn _, vn _⟩

/-- C23.  With the arena described by its ownership list (the blocks met from
`J->gcast` along `gcnext`, which is determined by the arena):
`jsP_freeparse`, given fuel for one round per node, passes each node of the
list to `js_free` exactly once, in the order of the list, frees no other
block, and leaves the list empty.  After a session of node creations,
rewrites and folds that started on an empty list and ran to its end, the
nodes freed are exactly the blocks handed out during the session, as many as
nodes were created, and none of these blocks is live any more.  Constant folding and `jsP_setnumnode`, whatever the
fuel and whether or not the fold fails, leave the ownership list, the blocks
that are live and the blocks freed as they are.  On an arena whose list is
empty `jsP_freeparse` changes nothing. -/
theorem jsP_freeparse_frees_all :
    (∀ (H : Arena) (l : List Nat) (fuel : Nat), H.Owns l → l.length ≤ fuel →
      ∃ H1, Arena.jsP_freeparse fuel H = (some (), H1) ∧ H1.gcast = none ∧ H1.Owns [] ∧
        H1.freed = l.reverse ++ H.freed ∧ l.Nodup ∧
        ∀ q, H1.mem q = if q ∈ l then none else H.mem q) ∧
    (∀ (H : Arena) (l l1 : List Nat), H.Owns l → H.Owns l1 → l = l1) ∧
    (∀ (ops : List ArenaOp) (H : Arena) (fuel : Nat), H.Owns [] → ArenaOp.allValid ops H →
      (ArenaOp.runAll ops H).1 = some () → ArenaOp.created ops ≤ fuel →
      (ArenaOp.runAll ops H).2.brk = H.brk + ArenaOp.created ops ∧
      ∃ H1, Arena.jsP_freeparse fuel (ArenaOp.runAll ops H).2 = (some (), H1) ∧
        H1.gcast = none ∧
        H1.freed = List.range' H.brk (ArenaOp.created ops) ++ H.freed ∧
        H1.freed.length = H.freed.length + ArenaOp.created ops ∧
        ∀ q, H.brk ≤ q → H1.mem q = none) ∧
    (∀ (fuel node : Nat) (H : Arena) (l : List Nat), H.Owns l →
      (Arena.jsP_foldconst fuel node H).2.Owns l ∧
      (Arena.jsP_foldconst fuel node H).2.freed = H.freed ∧
      (Arena.jsP_foldconst fuel node H).2.brk = H.brk ∧
      ∀ q, (H.mem q = none ↔ (Arena.jsP_foldconst fuel node H).2.mem q = none)) ∧
    (∀ (node : Nat) (x : Dbl) (H : Arena) (l : List Nat), H.Owns l →
      (Arena.jsP_setnumnode node x H).2.Owns l ∧
      (Arena.jsP_setnumnode node x H).2.freed = H.freed) ∧
    (∀ (H : Arena) (fuel : Nat), H.gcast = none →
      Arena.jsP_freeparse fuel H = (some (), H)) := by
  refine ⟨?_, ?_, ?_, ?_, ?_, fun H fuel h => Arena.jsP_freeparse_empty H h fuel⟩
  · intro H l fuel h hfuel
    obtain ⟨H1, e, g, f, m, -, -, -, o⟩ := Arena.jsP_freeparse_spec h fuel hfuel
    exact ⟨H1, e, g, o, f, h.nodup, m⟩
  · intro H l l1 h h1
    exact Arena.Chain.list_unique _ _ _ h.chain h1.chain
  · intro ops H fuel h hv hs hfuel
    obtain ⟨o, b, f⟩ := ArenaOp.runAll_owns ops H [] h hv hs
    obtain ⟨H1, e, g, f1, m, -, -, -, -⟩ := Arena.jsP_freeparse_spec o fuel (by simpa using hfuel)
    refine ⟨b, H1, e, g, ?_, ?_, ?_⟩
    · rw [f1, f]
      simp
    · rw [f1, f]
      simp [Nat.add_comm]
    · intro q hge
      rw [m q]
      split
      · rfl
      · rename_i hq
        have hq' : ¬ (H.brk ≤ q ∧ q < H.brk + ArenaOp.created ops) := by
          simpa [List.mem_range'_1] using hq
        exact o.fresh q (by rw [b]; omega)
  · intro fuel node H l h
    have hF := (Arena.jsP_foldconst_keeps fuel node).out H
    refine ⟨Arena.Owns.of_frame hF h, hF.freed, hF.brk, fun q => ⟨hF.dead q, fun hq => ?_⟩⟩
    cases hm : H.mem q with
    | none => rfl
    | some n =>
      obtain ⟨n1, e1, -⟩ := hF.live q n hm
      rw [e1] at hq
      cases hq
  · intro node x H l h
    have hF := (Arena.jsP_setnumnode_keeps node x).out H
    exact ⟨Arena.Owns.of_frame hF h, hF.freed⟩

/-- C23 on the session of `-1` in an empty arena (the literal, the negation
over it, the fold, which rewrites the negation to the literal -1): with fuel
2, `jsP_freeparse` then frees the blocks 1 and 0, once each, and leaves the
list empty; called again, with no fuel, it changes nothing. -/
theorem jsP_freeparse_frees_all_witness :
    ∃ H2 H3 : Arena,
      ArenaOp.runAll [.newnumnode .EXP_NUMBER (Dbl.fin 1),
        .newnode .EXP_NEG (some 0) none none none, .foldconst 2 1] Arena.empty =
        (some (), H2) ∧
      Arena.jsP_freeparse 2 H2 = (some (), H3) ∧ H3.gcast = none ∧ H3.freed = [0, 1] ∧
      (∀ q, H3.mem q = none) ∧ Arena.jsP_freeparse 0 H3 = (some (), H3) := by
  obtain ⟨H2, e, hv, -⟩ := ArenaOp.session_neg
  have hs : (ArenaOp.runAll [.newnumnode .EXP_NUMBER (Dbl.fin 1),
      .newnode .EXP_NEG (some 0) none none none, .foldconst 2 1] Arena.empty).1 = some () := by
    rw [e]
  obtain ⟨-, H3, e3, g3, f3, -, m3⟩ := jsP_freeparse_frees_all.2.2.1
    [.newnumnode .EXP_NUMBER (Dbl.fin 1), .newnode .EXP_NEG (some 0) none none none,
      .foldconst 2 1] Arena.empty 2 Arena.owns_empty hv hs (by decide)
  rw [e] at e3
  exact ⟨H2, H3, e, e3, g3, f3, fun q => m3 q (Nat.zero_le q),
    jsP_freeparse_frees_all.2.2.2.2.2 H3 0 g3⟩

/-! ## C24: what `jsP_newnode` does to the arena -/

/-- C24.  In an arena that owns the nodes `l`, on child pointers that are null
or live, `jsP_newnode(type, a, b, c, d)` returns the address of a block that
was not live before.  After it that block has the given kind, the child
slots a, b, c, d, the line `J->astline`, the number 0, a null string, an
empty jump list, case jump 0 and a null parent, and its `gcnext` is the old
head of the list.  Every other block is as before, except that the parent of
each non-null child is the new node; no block is freed and `J->astline` is
unchanged; the next block to hand out is the one after the new node.  The new node is the new head of the ownership list, which holds
the new node and then exactly the nodes owned before. -/
theorem jsP_newnode_frame (H : Arena) (l : List Nat) (type : js_AstType) (a b c d : Ptr)
    (h : H.Owns l) (ha : H.Valid a) (hb : H.Valid b) (hc : H.Valid c) (hd : H.Valid d) :
    (Arena.jsP_newnode type a b c d H).1 = some H.brk ∧ H.mem H.brk = none ∧
    (Arena.jsP_newnode type a b c d H).2.mem H.brk =
      some { type := type, line := H.astline, parent := none, a := a, b := b, c := c, d := d,
             number := Dbl.fin 0, string := none, jumps := [], casejump := 0,
             gcnext := H.gcast } ∧
    (∀ q, q ≠ H.brk → (Arena.jsP_newnode type a b c d H).2.mem q =
      (H.mem q).map fun n =>
        if a = some q ∨ b = some q ∨ c = some q ∨ d = some q
        then { n with parent := some H.brk } else n) ∧
    (Arena.jsP_newnode type a b c d H).2.gcast = some H.brk ∧
    (Arena.jsP_newnode type a b c d H).2.brk = H.brk + 1 ∧
    (Arena.jsP_newnode type a b c d H).2.Owns (H.brk :: l) ∧
    (∀ l1, (Arena.jsP_newnode type a b c d H).2.Owns l1 → l1 = H.brk :: l) ∧
    (Arena.jsP_newnode type a b c d H).2.astline = H.astline ∧
    (Arena.jsP_newnode type a b c d H).2.freed = H.freed ∧
    (Arena.jsP_newnode type a b c d H).2.freedJumps = H.freedJumps := by
  obtain ⟨e0, e1, e2, e3, e4, e5, e6, e7⟩ :=
    Arena.jsP_newnode_spec H type a b c d h.fresh ha hb hc hd
  have ho := Arena.Owns.after_newnode h type a b c d ha hb hc hd
  exact ⟨e0, h.fresh _ le_rfl, e6, e7, e2, e1, ho,
    fun l1 h1 => Arena.Chain.list_unique _ _ _ h1.chain ho.chain, e3, e4, e5⟩

/-- C24 on the node of `-1`, created after its literal in an empty arena: the
literal is the block 0 and the negation the block 1, whose child slot a is
the block 0; the parent of the block 0 becomes the block 1 and nothing else
of it changes; the arena owns the blocks 1 and 0. -/
theorem jsP_newnode_frame_witness :
    (Arena.jsP_newnode .EXP_NEG (some 0) none none none
      (Arena.jsP_newnode .EXP_NUMBER none none none none Arena.empty).2).1 = some 1 ∧
    (Arena.jsP_newnode .EXP_NEG (some 0) none none none
      (Arena.jsP_newnode .EXP_NUMBER none none none none Arena.empty).2).2.Owns [1, 0] ∧
    (Arena.jsP_newnode .EXP_NEG (some 0) none none none
      (Arena.jsP_newnode .EXP_NUMBER none none none none Arena.empty).2).2.mem 1 =
      some { type := .EXP_NEG, line := 1, parent := none, a := some 0, b := none,
             c := none, d := none, number := Dbl.fin 0, string := none, jumps := [],
             casejump := 0, gcnext := some 0 } ∧
    (Arena.jsP_newnode .EXP_NEG (some 0) none none none
      (Arena.jsP_newnode .EXP_NUMBER none none none none Arena.empty).2).2.mem 0 =
      some { type := .EXP_NUMBER, line := 1, parent := some 1, a := none, b := none,
             c := none, d := none, number := Dbl.fin 0, string := none, jumps := [],
             casejump := 0, gcnext := none } := by
  have vn : ∀ H : Arena, H.Valid none := fun _ q hq => by cases hq
  obtain ⟨-, -, m0, -, g0, b0, o0, -, a0, -⟩ := jsP_newnode_frame Arena.empty [] .EXP_NUMBER
    none none none none Arena.owns_empty (vn _) (vn _) (vn _) (vn _)
  have eb : Arena.empty.brk = 0 := rfl
  have ea : Arena.empty.astline = 1 := rfl
  have eg : Arena.empty.gcast = none := rfl
  rw [eb] at m0 g0 b0 o0
  rw [ea] at m0 a0
  rw [eg] at m0
  obtain ⟨r1, -, m1, f1, -, -, o1, -⟩ := jsP_newnode_frame
    (Arena.jsP_newnode .EXP_NUMBER none none none none Arena.empty).2 [0] .EXP_NEG (some 0)
    none none none o0
    (fun q hq => by cases hq; exact ⟨_, m0⟩) (vn _) (vn _) (vn _)
  rw [b0] at r1 m1 f1 o1
  rw [a0, g0] at m1
  refine ⟨r1, o1, m1, ?_⟩
  rw [f1 0 (by decide), m0]
  simp

/-! ## C25: the `notin` flag -/

/-- With `notin` set, an operand followed by `in` is the whole expression. -/
theorem expression_notin {k : Nat} {A : js_Ast} {J J1 : js_State} (hk : k ≤ 10)
    (hA : Yields (levelFn true k) J (.ok A J1)) (h1 : J1.lookahead = Tok.TK_IN) :
    Yields (fun R => expression R true) J (.ok A J1) :=
  expression_of_level hk hA (by rw [h1]; decide)

/-- With `notin` clear, `A in B` is an `EXP_IN` node. -/
theorem expression_in {A B : js_Ast} {J J1 J2 : js_State}
    (hA : Yields (levelFn false 3) J (.ok A J1)) (h1 : J1.lookahead = Tok.TK_IN)
    (hB : Yields (levelFn false 3) (nextState J1) (.ok B J2))
    (hend : endsExpression false J2.lookahead) :
    Yields (fun R => expression R false) J
      (.ok (js_Ast.new .EXP_IN J2.astline A B .NULL .NULL) J2) := by
  have h4 := @level_bin false 4 .EXP_IN A B J J1 J2 (by omega) hA (by rw [h1]; rfl) hB
    (fun ty => by rw [hend.1]; simp)
  exact expression_of_level (by omega) h4 hend

/-- An identifier that is no reserved word, as an operand of `in`. -/
theorem shift_identifier {notin : Bool} {J : js_State} (h : J.lookahead = Tok.TK_IDENTIFIER)
    (hw1 : jsY_findword J.text futurewords = false)
    (hw2 : J.strict = false ∨ jsY_findword J.text strictfuturewords = false)
    (he : endsOperand (nextState J))
    (hno : ∀ i ty, 0 < i → i ≤ 3 → binop notin (nextState J).lookahead ≠ some (i, ty)) :
    Yields (levelFn notin 3) J
      (.ok (js_Ast.strnode .EXP_IDENTIFIER J.astline J.text) (nextState J)) := by
  have h0 : Yields (levelFn notin 0) J
      (.ok (js_Ast.strnode .EXP_IDENTIFIER J.astline J.text) (nextState J)) := by
    rw [levelFn_zero]
    exact unary_identifier h hw1 hw2 he
  exact level_lift (Nat.zero_le _) (by omega) h0 hno

/-- What `expression` with `notin` set returns on `x in obj`: the identifier
`x`, stopping at `in`. -/
theorem expression_true_xInObj :
    Yields (fun R => expression R true) (startOf xInObj)
      (.ok (js_Ast.strnode .EXP_IDENTIFIER 0 "x") (advance 1 (startOf xInObj))) :=
  @expression_notin 0 _ _ _ (by omega)
    (by rw [levelFn_zero]
        exact unary_identifier (J := startOf xInObj) rfl (by decide) (Or.inl rfl) (by decide))
    rfl

/-- What `expression` with `notin` clear returns on `x in obj`. -/
theorem expression_false_xInObj :
    Yields (fun R => expression R false) (startOf xInObj)
      (.ok (js_Ast.new .EXP_IN 1 (js_Ast.strnode .EXP_IDENTIFIER 0 "x")
        (js_Ast.strnode .EXP_IDENTIFIER 1 "obj") .NULL .NULL) (advance 3 (startOf xInObj))) :=
  expression_in
    (shift_identifier (J := startOf xInObj) rfl (by decide) (Or.inl rfl) (by decide)
      (by intro i ty h1 h2; simp [show (nextState (startOf xInObj)).lookahead = Tok.TK_IN from rfl,
            binop]; omega))
    rfl
    (shift_identifier (J := advance 2 (startOf xInObj)) rfl (by decide) (Or.inl rfl) (by decide)
      (by intro i ty h1 h2
          simp [show (nextState (advance 2 (startOf xInObj))).lookahead = Tok.EOF from rfl,
            binop]))
    (by decide)

/-- The statement `for (init in b) c` whose `init`, parsed with `notin` set, is
an operand followed by `in`. -/
theorem statement_for_in {k : Nat} {a b c : js_Ast} {J J2 J3 J4 : js_State} (hk : k ≤ 10)
    (h : J.lookahead = Tok.TK_FOR) (h0 : (nextState J).lookahead = Tok.LPAREN)
    (h1 : (advance 2 J).lookahead ≠ Tok.TK_VAR) (hs : (advance 2 J).lookahead ≠ Tok.SEMI)
    (ha : Yields (levelFn true k) (advance 2 J) (.ok a J2))
    (h2 : J2.lookahead = Tok.TK_IN)
    (hb : Yields (fun R => expression R false) (nextState J2) (.ok b J3))
    (h3 : J3.lookahead = Tok.RPAREN)
    (hc : Yields (fun R => statement R) (nextState J3) (.ok c J4)) :
    Yields (fun R => statement R) J
      (.ok (js_Ast.new .STM_FOR_IN J4.astline a b c .NULL) J4) := by
  have hi : Yields (fun R => forInit R) (nextState (nextState J)) (.ok a J2) := by
    obtain ⟨n, hn⟩ := expression_notin hk ha h2
    refine ⟨n, fun m hm => ?_⟩
    have hn := hn m hm
    have hs' : (nextState (nextState J)).lookahead ≠ Tok.SEMI := hs
    dsimp only at hn ⊢
    simp only [forInit, hs', ne_eq, not_false_eq_true, if_true]
    exact hn
  exact statement_for h (forstatement_in h0 h1 hi h2 hb h3 hc)

/-- What `statement` returns on `for (x in obj) ;`. -/
theorem statement_forIn :
    Yields (fun R => statement R) (startOf forIn)
      (.ok (js_Ast.new .STM_FOR_IN 1 (js_Ast.strnode .EXP_IDENTIFIER 1 "x")
        (js_Ast.strnode .EXP_IDENTIFIER 1 "obj")
        (js_Ast.new .STM_EMPTY 1 .NULL .NULL .NULL .NULL) .NULL)
        (advance 7 (startOf forIn))) :=
  @statement_for_in 0 _ _ _ (startOf forIn) _ _ _ (by omega) rfl rfl (by decide) (by decide)
    (by rw [levelFn_zero]
        exact unary_identifier (J := advance 2 (startOf forIn)) rfl (by decide) (Or.inl rfl)
          (by decide))
    rfl
    (expression_identifier (J := advance 4 (startOf forIn)) rfl (by decide) (Or.inl rfl)
      (by decide) (by decide))
    rfl
    (Yields.of_eq fun _ => statement_empty (J := advance 6 (startOf forIn)) rfl)

/-- C25.  The token `in` is an operator of the relational level only when the
`notin` flag is clear, and the flag changes nothing else.  With the flag set,
an operand followed by `in` is the whole expression: `expression` returns the
operand and leaves `in` as the lookahead.  With the flag clear, an operand,
`in`, and an operand followed by a token that continues no expression make
the node `EXP_IN` of the two operands.  On the tokens `x in obj`,
`expression` returns the identifier `x` and stops at `in` when the flag is
set, and returns `IN(x, obj)` when it is clear.  Hence a `for` head whose
initial clause is an operand followed by `in` takes the `for-in` branch:
`for (a in b) c` parses to `STM_FOR_IN(a, b, c)`, as on `for (x in obj) ;`. -/
theorem notin_rule :
    (binop true Tok.TK_IN = none ∧ binop false Tok.TK_IN = some (4, .EXP_IN) ∧
      ∀ t, t ≠ Tok.TK_IN → binop true t = binop false t) ∧
    (∀ (k : Nat) (A : js_Ast) (J J1 : js_State), k ≤ 10 →
      Yields (levelFn true k) J (.ok A J1) → J1.lookahead = Tok.TK_IN →
      Yields (fun R => expression R true) J (.ok A J1)) ∧
    (∀ (A B : js_Ast) (J J1 J2 : js_State),
      Yields (levelFn false 3) J (.ok A J1) → J1.lookahead = Tok.TK_IN →
      Yields (levelFn false 3) (nextState J1) (.ok B J2) →
      endsExpression false J2.lookahead →
      Yields (fun R => expression R false) J
        (.ok (js_Ast.new .EXP_IN J2.astline A B .NULL .NULL) J2)) ∧
    (Yields (fun R => expression R true) (startOf xInObj)
        (.ok (js_Ast.strnode .EXP_IDENTIFIER 0 "x") (advance 1 (startOf xInObj))) ∧
      (advance 1 (startOf xInObj)).lookahead = Tok.TK_IN) ∧
    Yields (fun R => expression R false) (startOf xInObj)
      (.ok (js_Ast.new .EXP_IN 1 (js_Ast.strnode .EXP_IDENTIFIER 0 "x")
        (js_Ast.strnode .EXP_IDENTIFIER 1 "obj") .NULL .NULL) (advance 3 (startOf xInObj))) ∧
    (∀ (k : Nat) (a b c : js_Ast) (J J2 J3 J4 : js_State), k ≤ 10 →
      J.lookahead = Tok.TK_FOR → (nextState J).lookahead = Tok.LPAREN →
      (advance 2 J).lookahead ≠ Tok.TK_VAR → (advance 2 J).lookahead ≠ Tok.SEMI →
      Yields (levelFn true k) (advance 2 J) (.ok a J2) → J2.lookahead = Tok.TK_IN →
      Yields (fun R => expression R false) (nextState J2) (.ok b J3) →
      J3.lookahead = Tok.RPAREN →
      Yields (fun R => statement R) (nextState J3) (.ok c J4) →
      Yields (fun R => statement R) J
        (.ok (js_Ast.new .STM_FOR_IN J4.astline a b c .NULL) J4)) ∧
    Yields (fun R => statement R) (startOf forIn)
      (.ok (js_Ast.new .STM_FOR_IN 1 (js_Ast.strnode .EXP_IDENTIFIER 1 "x")
        (js_Ast.strnode .EXP_IDENTIFIER 1 "obj")
        (js_Ast.new .STM_EMPTY 1 .NULL .NULL .NULL .NULL) .NULL)
        (advance 7 (startOf forIn))) := by
  refine ⟨⟨rfl, rfl, ?_⟩, fun k A J J1 hk hA h1 => expression_notin hk hA h1,
    fun A B J J1 J2 hA h1 hB hend => expression_in hA h1 hB hend,
    ⟨expression_true_xInObj, rfl⟩, expression_false_xInObj,
    fun k a b c J J2 J3 J4 hk h h0 h1 hs ha h2 hb h3 hc =>
      statement_for_in hk h h0 h1 hs ha h2 hb h3 hc,
    statement_forIn⟩
  intro t ht
  cases t <;> first | rfl | exact absurd rfl ht

/-- C25 on the operand `x` of `x in obj`, parsed by `unary`. -/
theorem notin_rule_witness :
    Yields (fun R => expression R true) (startOf xInObj)
      (.ok (js_Ast.strnode .EXP_IDENTIFIER 0 "x") (advance 1 (startOf xInObj))) :=
  notin_rule.2.1 0 _ (startOf xInObj) _ (by omega)
    (by rw [levelFn_zero]
        exact unary_identifier (J := startOf xInObj) rfl (by decide) (Or.inl rfl) (by decide))
    rfl

/-! ## C26: the `with` statement -/

/-- The `with` branch of `statement` in strict mode: the syntax error, raised
in the state right after the keyword. -/
theorem statement_with_strict (R : Rec) {J : js_State} (h : J.lookahead = Tok.TK_WITH)
    (hs : J.strict = true) :
    statement R J = .error
      (snprintf256 (J.filename ++ ":" ++ toString (nextState J).lexline ++ ": ") ++
      "'with' statements are not allowed in strict mode") := by
  have hs' : (nextState J).strict = true := by
    rw [← hs]
    unfold nextState
    cases J.source <;> rfl
  have hf : (nextState J).filename = J.filename := by
    unfold nextState
    cases J.source <;> rfl
  simp [statement, jsP_accept_apply, h, hs', jsP_error, hf,
    (snprintf256_of_le (by decide) :
      snprintf256 "'with' statements are not allowed in strict mode" = _)]

/-- The `with` branch of `statement` outside strict mode. -/
theorem statement_with {a b : js_Ast} {J J1 J2 : js_State} (h : J.lookahead = Tok.TK_WITH)
    (hs : J.strict = false) (h0 : (nextState J).lookahead = Tok.LPAREN)
    (ha : Yields (fun R => expression R false) (advance 2 J) (.ok a J1))
    (h1 : J1.lookahead = Tok.RPAREN)
    (hb : Yields (fun R => statement R) (nextState J1) (.ok b J2)) :
    Yields (fun R => statement R) J
      (.ok (js_Ast.new .STM_WITH J2.astline a b .NULL .NULL) J2) := by
  have hs' : (nextState J).strict = false := by
    rw [← hs]
    unfold nextState
    cases J.source <;> rfl
  obtain ⟨n1, ha⟩ := ha
  obtain ⟨n2, hb⟩ := hb
  refine ⟨max n1 n2 + 1, fun m hm => ?_⟩
  obtain ⟨j, rfl⟩ : ∃ j, m = j + 1 := ⟨m - 1, by omega⟩
  have ha := ha (j + 1) (by omega)
  have hb := hb j (by omega)
  dsimp only [advance] at ha hb ⊢
  rw [statement]
  simp [jsP_accept_apply, h, hs', jsP_expect_eq h0, ha, jsP_expect_eq h1, step, hb]

/-- What `statement` returns on `with (o) ;` outside strict mode. -/
theorem statement_withStm :
    Yields (fun R => statement R) (startOfFile withStm)
      (.ok (js_Ast.new .STM_WITH 1 (js_Ast.strnode .EXP_IDENTIFIER 1 "o")
        (js_Ast.new .STM_EMPTY 1 .NULL .NULL .NULL .NULL) .NULL .NULL)
        (advance 5 (startOfFile withStm))) :=
  statement_with (J := startOfFile withStm) rfl rfl rfl
    (expression_identifier (J := advance 2 (startOfFile withStm)) rfl (by decide) (Or.inl rfl)
      (by decide) (by decide))
    rfl
    (Yields.of_eq fun _ => statement_empty (J := advance 4 (startOfFile withStm)) rfl)

/-- C26.  In strict mode the `with` branch of `statement` raises the syntax
error "'with' statements are not allowed in strict mode" in the state right
after the keyword, whatever the rest of the input and whatever the parse
functions it could call would do; it is reported at the line of the token
after `with`, the message being the first 255 characters of `<file>:<line>: `
followed by that text.  Outside strict mode `with ( e ) s` makes the node
`STM_WITH(e, s)`.  So `with (o) ;` and `with }` both raise the same error in
strict mode, and `with (o) ;` parses to `STM_WITH(o, empty)` outside it. -/
theorem with_strict_rule :
    (∀ (R : Rec) (J : js_State), J.lookahead = Tok.TK_WITH → J.strict = true →
      statement R J = .error
        (snprintf256 (J.filename ++ ":" ++ toString (nextState J).lexline ++ ": ") ++
        "'with' statements are not allowed in strict mode")) ∧
    (∀ (a b : js_Ast) (J J1 J2 : js_State), J.lookahead = Tok.TK_WITH → J.strict = false →
      (nextState J).lookahead = Tok.LPAREN →
      Yields (fun R => expression R false) (advance 2 J) (.ok a J1) →
      J1.lookahead = Tok.RPAREN →
      Yields (fun R => statement R) (nextState J1) (.ok b J2) →
      Yields (fun R => statement R) J
        (.ok (js_Ast.new .STM_WITH J2.astline a b .NULL .NULL) J2)) ∧
    (∀ R : Rec, statement R (strictStartOfFile withStm) =
      .error "f.js:1: 'with' statements are not allowed in strict mode") ∧
    (∀ R : Rec, statement R (strictStartOfFile withBrace) =
      .error "f.js:1: 'with' statements are not allowed in strict mode") ∧
    Yields (fun R => statement R) (startOfFile withStm)
      (.ok (js_Ast.new .STM_WITH 1 (js_Ast.strnode .EXP_IDENTIFIER 1 "o")
        (js_Ast.new .STM_EMPTY 1 .NULL .NULL .NULL .NULL) .NULL .NULL)
        (advance 5 (startOfFile withStm))) := by
  refine ⟨fun R J h hs => statement_with_strict R h hs,
    fun a b J J1 J2 h hs h0 ha h1 hb => statement_with h hs h0 ha h1 hb, ?_, ?_,
    statement_withStm⟩
  · intro R
    rw [statement_with_strict R (J := strictStartOfFile withStm) rfl rfl]
    rfl
  · intro R
    rw [statement_with_strict R (J := strictStartOfFile withBrace) rfl rfl]
    rfl

/-- C26 on `with (o) ;`, in strict mode and outside it. -/
theorem with_strict_rule_witness :
    (∀ R : Rec, statement R (strictStartOfFile withStm) =
      .error ("f.js" ++ ":" ++ toString (nextState (strictStartOfFile withStm)).lexline ++
        ": " ++ "'with' statements are not allowed in strict mode")) ∧
    Yields (fun R => statement R) (startOfFile withStm)
      (.ok (js_Ast.new .STM_WITH 1 (js_Ast.strnode .EXP_IDENTIFIER 1 "o")
        (js_Ast.new .STM_EMPTY 1 .NULL .NULL .NULL .NULL) .NULL .NULL)
        (advance 5 (startOfFile withStm))) :=
  ⟨fun R => with_strict_rule.1 R (strictStartOfFile withStm) rfl rfl,
   with_strict_rule.2.1 _ _ (startOfFile withStm) _ _ rfl rfl rfl
    (expression_identifier (J := advance 2 (startOfFile withStm)) rfl (by decide) (Or.inl rfl)
      (by decide) (by decide))
    rfl
    (Yields.of_eq fun _ => statement_empty (J := advance 4 (startOfFile withStm)) rfl)⟩

/-! ## Residues modulo `2^32` -/

/-- The residue `wrap32 n` is congruent to `n` modulo `2^32`. -/
theorem wrap32_congr (n : Int) : (wrap32 n - n) % 4294967296 = 0 := by
  unfold wrap32
  simp only
  split <;> omega

/-- The only integer of the signed 32-bit range congruent to `n`. -/
theorem wrap32_unique (n r : Int) :
    (-2147483648 ≤ r ∧ r < 2147483648 ∧ (r - n) % 4294967296 = 0) ↔ r = wrap32 n := by
  constructor
  · rintro ⟨h0, h1, h2⟩
    unfold wrap32
    simp only
    split <;> omega
  · rintro rfl
    exact ⟨(wrap32_range n).1, (wrap32_range n).2, wrap32_congr n⟩

/-- The function `touint32` on a finite value. -/
theorem touint32_fin (q : ℚ) :
    (touint32 (Dbl.fin q) : Int) = Dbl.truncQ q % 4294967296 := by
  unfold touint32
  rw [toint32_fin, Int.toNat_of_nonneg (Int.emod_nonneg _ (by norm_num))]
  unfold wrap32
  simp only
  split <;> omega

/-- The only integer of the unsigned 32-bit range congruent to `n`. -/
theorem emod_unique (n r : Int) :
    (0 ≤ r ∧ r < 4294967296 ∧ (r - n) % 4294967296 = 0) ↔ r = n % 4294967296 := by
  constructor
  · rintro ⟨h0, h1, h2⟩
    omega
  · rintro rfl
    omega

/-- A numeric literal folds to itself. -/
theorem jsP_foldconst_numnode (line : Nat) (x : Dbl) :
    jsP_foldconst (js_Ast.numnode .EXP_NUMBER line x) =
      (js_Ast.numnode .EXP_NUMBER line x, true) := by
  simp [jsP_foldconst, js_Ast.numnode]

/-! ## C28: the conversions to 32-bit integers -/

/-- C28.  The function `toint32` returns 0 on NaN, on the infinities and on
the zeros; on every finite `d` it returns the one integer `r` with
`-2^31 ≤ r < 2^31` that is congruent modulo `2^32` to `d` truncated toward
zero (which is 0 again when `d` is zero).  The function `touint32` returns 0
in the same cases and on every finite `d` the one integer of `[0, 2^32)` in
that residue class.  For instance `2^31` gives `-2^31` and `2^31`, and `-1`
gives `-1` and `4294967295`. -/
theorem toint32_spec :
    (toint32 .nan = 0 ∧ (∀ s, toint32 (.inf s) = 0) ∧ toint32 .negzero = 0 ∧
      toint32 (.fin 0) = 0) ∧
    (touint32 .nan = 0 ∧ (∀ s, touint32 (.inf s) = 0) ∧ touint32 .negzero = 0 ∧
      touint32 (.fin 0) = 0) ∧
    (∀ (q : ℚ) (r : Int),
      (-2147483648 ≤ r ∧ r < 2147483648 ∧ (r - Dbl.truncQ q) % 4294967296 = 0) ↔
        r = toint32 (.fin q)) ∧
    (∀ (q : ℚ) (r : Int),
      (0 ≤ r ∧ r < 4294967296 ∧ (r - Dbl.truncQ q) % 4294967296 = 0) ↔
        r = (touint32 (.fin q) : Int)) ∧
    (∀ q : ℚ, ((touint32 (.fin q) : Int) - toint32 (.fin q)) % 4294967296 = 0) ∧
    (∀ q : ℚ, Dbl.truncQ q = if 0 ≤ q then ⌊q⌋ else ⌈q⌉) ∧
    toint32 (.fin 2147483648) = -2147483648 ∧ touint32 (.fin 2147483648) = 2147483648 ∧
    toint32 (.fin (-1)) = -1 ∧ touint32 (.fin (-1)) = 4294967295 := by
  have z : toint32 (.fin 0) = 0 := toint32_zero
  have t31 : Dbl.truncQ 2147483648 = 2147483648 := by
    have := Dbl.truncQ_intCast 2147483648
    simpa using this
  have tm1 : Dbl.truncQ (-1) = -1 := by
    have := Dbl.truncQ_intCast (-1)
    simpa using this
  have a31 : toint32 (.fin 2147483648) = -2147483648 := by
    rw [toint32_fin, t31]
    decide
  have am1 : toint32 (.fin (-1)) = -1 := by
    rw [toint32_fin, tm1]
    decide
  refine ⟨⟨?_, ?_, ?_, z⟩, ⟨?_, ?_, ?_, ?_⟩, ?_, ?_, ?_, fun q => rfl, a31, ?_, am1, ?_⟩
  · simp [toint32, Dbl.isfinite]
  · intro s
    simp [toint32, Dbl.isfinite]
  · simp [toint32, Dbl.isfinite, Dbl.isZero]
  · simp [touint32, toint32, Dbl.isfinite]
  · intro s
    simp [touint32, toint32, Dbl.isfinite]
  · simp [touint32, toint32, Dbl.isfinite, Dbl.isZero]
  · simp [touint32, z]
  · intro q r
    rw [toint32_fin]
    exact wrap32_unique _ r
  · intro q r
    rw [touint32_fin]
    exact emod_unique _ r
  · intro q
    rw [touint32_fin, toint32_fin]
    have := wrap32_congr (Dbl.truncQ q)
    omega
  · simp [touint32, a31]
  · simp [touint32, am1]

/-! ## C27: folding the unary operators -/

/-- Folding a node of kind `EXP_NEG` over an operand that folds to a literal. -/
theorem jsP_foldconst_neg (line : Nat) (a b c d : js_Ast) (number : Dbl)
    (string : Option String) (ha : (jsP_foldconst a).2 = true) :
    jsP_foldconst (.node .EXP_NEG line a b c d number string) =
      (.node .EXP_NUMBER line .NULL .NULL .NULL .NULL
        (Dbl.neg (jsP_foldconst a).1.number) string, true) := by
  simp [jsP_foldconst, ha, jsP_setnumnode]

/-- Folding a node of kind `EXP_POS` over an operand that folds to a literal. -/
theorem jsP_foldconst_pos (line : Nat) (a b c d : js_Ast) (number : Dbl)
    (string : Option String) (ha : (jsP_foldconst a).2 = true) :
    jsP_foldconst (.node .EXP_POS line a b c d number string) =
      (.node .EXP_NUMBER line .NULL .NULL .NULL .NULL
        (jsP_foldconst a).1.number string, true) := by
  simp [jsP_foldconst, ha, jsP_setnumnode]

/-- Folding a node of kind `EXP_BITNOT` over an operand that folds to a literal. -/
theorem jsP_foldconst_bitnot_of (line : Nat) (a b c d : js_Ast) (number : Dbl)
    (string : Option String) (ha : (jsP_foldconst a).2 = true) :
    jsP_foldconst (.node .EXP_BITNOT line a b c d number string) =
      (.node .EXP_NUMBER line .NULL .NULL .NULL .NULL
        (Dbl.ofInt (-(ToInt32 (jsP_foldconst a).1.number) - 1)) string, true) := by
  simp [jsP_foldconst, ha, jsP_setnumnode, toint32_eq_ToInt32]

theorem ToInt32_three_halves : ToInt32 (Dbl.fin (3 / 2)) = 1 := by
  have hf : ⌊|(3 / 2 : ℚ)|⌋ = 1 := by
    rw [abs_of_nonneg (by norm_num), Int.floor_eq_iff]
    constructor <;> norm_num
  have hlt : ¬ ((3 / 2 : ℚ) < 0) := by norm_num
  simp only [ToInt32, hf, hlt, if_false]
  decide

/-- C27, as stated, fails on `-1.5` and on `+1.5`: the fold rewrites the
negation of the literal 1.5 to the literal -1.5 and the identity to the
literal 1.5, whereas ToInt32 of 1.5 is 1, so that the operators applied to
ToInt32 of the operand would give -1 and 1. -/
theorem unary_fold_counterexample :
    ToInt32 (Dbl.fin (3 / 2)) = 1 ∧
    (jsP_foldconst (js_Ast.new .EXP_NEG 1 (js_Ast.numnode .EXP_NUMBER 1 (Dbl.fin (3 / 2)))
      .NULL .NULL .NULL)).1 = js_Ast.numnode .EXP_NUMBER 1 (Dbl.fin (-(3 / 2))) ∧
    (jsP_foldconst (js_Ast.new .EXP_NEG 1 (js_Ast.numnode .EXP_NUMBER 1 (Dbl.fin (3 / 2)))
      .NULL .NULL .NULL)).1 ≠
        js_Ast.numnode .EXP_NUMBER 1 (Dbl.ofInt (-(ToInt32 (Dbl.fin (3 / 2))))) ∧
    (jsP_foldconst (js_Ast.new .EXP_POS 1 (js_Ast.numnode .EXP_NUMBER 1 (Dbl.fin (3 / 2)))
      .NULL .NULL .NULL)).1 = js_Ast.numnode .EXP_NUMBER 1 (Dbl.fin (3 / 2)) ∧
    (jsP_foldconst (js_Ast.new .EXP_POS 1 (js_Ast.numnode .EXP_NUMBER 1 (Dbl.fin (3 / 2)))
      .NULL .NULL .NULL)).1 ≠
        js_Ast.numnode .EXP_NUMBER 1 (Dbl.ofInt (ToInt32 (Dbl.fin (3 / 2)))) := by
  have hn : (jsP_foldconst (js_Ast.new .EXP_NEG 1
      (js_Ast.numnode .EXP_NUMBER 1 (Dbl.fin (3 / 2))) .NULL .NULL .NULL)).1 =
      js_Ast.numnode .EXP_NUMBER 1 (Dbl.fin (-(3 / 2))) := by
    rw [js_Ast.new, jsP_foldconst_neg _ _ _ _ _ _ _ (by rw [jsP_foldconst_numnode]),
      jsP_foldconst_numnode]
    simp [js_Ast.numnode, js_Ast.number, Dbl.neg]
  have hp : (jsP_foldconst (js_Ast.new .EXP_POS 1
      (js_Ast.numnode .EXP_NUMBER 1 (Dbl.fin (3 / 2))) .NULL .NULL .NULL)).1 =
      js_Ast.numnode .EXP_NUMBER 1 (Dbl.fin (3 / 2)) := by
    rw [js_Ast.new, jsP_foldconst_pos _ _ _ _ _ _ _ (by rw [jsP_foldconst_numnode]),
      jsP_foldconst_numnode]
    simp [js_Ast.numnode, js_Ast.number]
  refine ⟨ToInt32_three_halves, hn, ?_, hp, ?_⟩
  · rw [hn, ToInt32_three_halves]
    simp only [js_Ast.numnode, Dbl.ofInt, ne_eq, js_Ast.node.injEq, Dbl.fin.injEq, true_and,
      and_true]
    norm_num
  · rw [hp, ToInt32_three_halves]
    simp only [js_Ast.numnode, Dbl.ofInt, ne_eq, js_Ast.node.injEq, Dbl.fin.injEq, true_and,
      and_true]
    norm_num

/-- C27, amended.  For a unary node whose operand folded to a numeric literal
x, the fold rewrites the node to a numeric literal without children, keeping
its line: for `EXP_NEG` the literal is the negation of the double x itself
(the sign is flipped: `-q` for a finite non-zero `q`, the other zero for a
zero, the other infinity for an infinity, NaN for NaN), for `EXP_POS` it is x
itself, and only for `EXP_BITNOT` it goes through the 32-bit conversion: the
literal is `-ToInt32(x) - 1`, the bitwise complement of ToInt32(x), where
ToInt32 gives 0 on non-finite and zero x and otherwise reduces x truncated
toward zero modulo `2^32` into the signed 32-bit range. -/
theorem unary_fold_rule (line : Nat) (a b c d : js_Ast) (number : Dbl)
    (string : Option String) (ha : (jsP_foldconst a).2 = true) :
    jsP_foldconst (.node .EXP_NEG line a b c d number string) =
      (.node .EXP_NUMBER line .NULL .NULL .NULL .NULL
        (Dbl.neg (jsP_foldconst a).1.number) string, true) ∧
    jsP_foldconst (.node .EXP_POS line a b c d number string) =
      (.node .EXP_NUMBER line .NULL .NULL .NULL .NULL
        (jsP_foldconst a).1.number string, true) ∧
    jsP_foldconst (.node .EXP_BITNOT line a b c d number string) =
      (.node .EXP_NUMBER line .NULL .NULL .NULL .NULL
        (Dbl.ofInt (-(ToInt32 (jsP_foldconst a).1.number) - 1)) string, true) ∧
    (∀ q : ℚ, q ≠ 0 → Dbl.neg (.fin q) = .fin (-q)) ∧
    Dbl.neg (.fin 0) = .negzero ∧ Dbl.neg .negzero = .fin 0 ∧
    (∀ s, Dbl.neg (.inf s) = .inf (!s)) ∧ Dbl.neg .nan = .nan ∧
    (∀ x : Dbl, -2147483648 ≤ -(ToInt32 x) - 1 ∧ -(ToInt32 x) - 1 < 2147483648 ∧
      (x.isfinite = false ∨ x.isZero = true → ToInt32 x = 0) ∧
      ∀ q : ℚ, x = .fin q → (ToInt32 x - Dbl.truncQ q) % 4294967296 = 0) := by
  refine ⟨jsP_foldconst_neg line a b c d number string ha,
    jsP_foldconst_pos line a b c d number string ha,
    jsP_foldconst_bitnot_of line a b c d number string ha, ?_, rfl, rfl, fun s => rfl, rfl, ?_⟩
  · intro q hq
    simp [Dbl.neg, hq]
  · intro x
    rw [← toint32_eq_ToInt32]
    refine ⟨?_, ?_, ?_, ?_⟩
    · cases x with
      | fin q => rw [toint32_fin]; have := wrap32_range (Dbl.truncQ q); omega
      | nan => simp [toint32, Dbl.isfinite]
      | inf s => simp [toint32, Dbl.isfinite]
      | negzero => simp [toint32, Dbl.isfinite, Dbl.isZero]
    · cases x with
      | fin q => rw [toint32_fin]; have := wrap32_range (Dbl.truncQ q); omega
      | nan => simp [toint32, Dbl.isfinite]
      | inf s => simp [toint32, Dbl.isfinite]
      | negzero => simp [toint32, Dbl.isfinite, Dbl.isZero]
    · intro h
      rcases h with h | h <;> simp [toint32, h]
    · rintro q rfl
      rw [toint32_fin]
      exact wrap32_congr _

/-- C27, amended, on the operand 1.5: the three literals are -1.5, 1.5 and -2. -/
theorem unary_fold_rule_witness :
    jsP_foldconst (.node .EXP_NEG 1 (js_Ast.numnode .EXP_NUMBER 1 (Dbl.fin (3 / 2)))
        .NULL .NULL .NULL (Dbl.fin 0) none) =
      (.node .EXP_NUMBER 1 .NULL .NULL .NULL .NULL (Dbl.fin (-(3 / 2))) none, true) ∧
    jsP_foldconst (.node .EXP_POS 1 (js_Ast.numnode .EXP_NUMBER 1 (Dbl.fin (3 / 2)))
        .NULL .NULL .NULL (Dbl.fin 0) none) =
      (.node .EXP_NUMBER 1 .NULL .NULL .NULL .NULL (Dbl.fin (3 / 2)) none, true) ∧
    jsP_foldconst (.node .EXP_BITNOT 1 (js_Ast.numnode .EXP_NUMBER 1 (Dbl.fin (3 / 2)))
        .NULL .NULL .NULL (Dbl.fin 0) none) =
      (.node .EXP_NUMBER 1 .NULL .NULL .NULL .NULL (Dbl.fin (-2)) none, true) := by
  have h := unary_fold_rule 1 (js_Ast.numnode .EXP_NUMBER 1 (Dbl.fin (3 / 2))) .NULL .NULL
    .NULL (Dbl.fin 0) none (by rw [jsP_foldconst_numnode])
  have e : (jsP_foldconst (js_Ast.numnode .EXP_NUMBER 1 (Dbl.fin (3 / 2)))).1.number =
      Dbl.fin (3 / 2) := by
    rw [jsP_foldconst_numnode]
    rfl
  rw [e, ToInt32_three_halves] at h
  refine ⟨?_, h.2.1, ?_⟩
  · rw [h.1]
    simp [Dbl.neg]
  · rw [h.2.2.1]
    simp [Dbl.ofInt]

/-! ## C29: folding the shift operators -/

/-- The function `touint32` computes the conversion ToUint32 of the standard. -/
theorem touint32_eq_ToUint32 (x : Dbl) : (touint32 x : Int) = ToUint32 x := by
  cases x with
  | nan => simp [touint32, toint32, ToUint32, Dbl.isfinite]
  | inf s => simp [touint32, toint32, ToUint32, Dbl.isfinite]
  | negzero => simp [touint32, toint32, ToUint32, Dbl.isfinite, Dbl.isZero]
  | fin q =>
    rw [touint32_fin]
    have hp : (if q < 0 then (-1 : Int) else 1) * ⌊|q|⌋ = Dbl.truncQ q := by
      unfold Dbl.truncQ
      by_cases h : 0 ≤ q
      · simp [h, not_lt.mpr h, abs_of_nonneg h]
      · have h' : q < 0 := not_le.mp h
        simp [h, h', abs_of_neg h', Int.floor_neg]
    simp only [ToUint32, hp]
    norm_num

/-- The shift amount: the low five bits of `touint32 y`. -/
theorem shift_amount (y : Dbl) : touint32 y % 32 = (ToUint32 y % 32).toNat := by
  rw [← touint32_eq_ToUint32]
  omega

/-- An arithmetic right shift is the floor of the quotient by the power of two. -/
theorem shiftRight_floor (m : Int) (s : Nat) : m >>> s = ⌊(m : ℚ) / 2 ^ s⌋ := by
  rw [Int.shiftRight_eq_div_pow]
  have := Rat.floor_intCast_div_natCast m (2 ^ s)
  rw [← this]
  norm_num

/-- A logical right shift is the floor of the quotient by the power of two. -/
theorem nat_shiftRight_floor (m s : Nat) :
    ((m >>> s : Nat) : Int) = ⌊((m : Int) : ℚ) / 2 ^ s⌋ := by
  rw [Nat.shiftRight_eq_div_pow]
  have := Rat.floor_intCast_div_natCast (m : Int) (2 ^ s)
  push_cast at this ⊢
  rw [this]

/-- Folding a node of kind `EXP_SHL` over operands that fold to literals. -/
theorem jsP_foldconst_shl (line : Nat) (a b c d : js_Ast) (number : Dbl)
    (string : Option String) (ha : (jsP_foldconst a).2 = true)
    (hb : (jsP_foldconst b).2 = true) :
    jsP_foldconst (.node .EXP_SHL line a b c d number string) =
      (.node .EXP_NUMBER line .NULL .NULL .NULL .NULL
        (Dbl.ofInt (wrap32 (ToInt32 (jsP_foldconst a).1.number *
          2 ^ (ToUint32 (jsP_foldconst b).1.number % 32).toNat))) string, true) := by
  simp [jsP_foldconst, ha, hb, jsP_setnumnode, toint32_eq_ToInt32, shift_amount]

/-- Folding a node of kind `EXP_SHR` over operands that fold to literals. -/
theorem jsP_foldconst_shr (line : Nat) (a b c d : js_Ast) (number : Dbl)
    (string : Option String) (ha : (jsP_foldconst a).2 = true)
    (hb : (jsP_foldconst b).2 = true) :
    jsP_foldconst (.node .EXP_SHR line a b c d number string) =
      (.node .EXP_NUMBER line .NULL .NULL .NULL .NULL
        (Dbl.ofInt ⌊(ToInt32 (jsP_foldconst a).1.number : ℚ) /
          2 ^ (ToUint32 (jsP_foldconst b).1.number % 32).toNat⌋) string, true) := by
  simp [jsP_foldconst, ha, hb, jsP_setnumnode, toint32_eq_ToInt32, shift_amount,
    shiftRight_floor]

/-- Folding a node of kind `EXP_USHR` over operands that fold to literals. -/
theorem jsP_foldconst_ushr (line : Nat) (a b c d : js_Ast) (number : Dbl)
    (string : Option String) (ha : (jsP_foldconst a).2 = true)
    (hb : (jsP_foldconst b).2 = true) :
    jsP_foldconst (.node .EXP_USHR line a b c d number string) =
      (.node .EXP_NUMBER line .NULL .NULL .NULL .NULL
        (Dbl.ofInt ⌊(ToUint32 (jsP_foldconst a).1.number : ℚ) /
          2 ^ (ToUint32 (jsP_foldconst b).1.number % 32).toNat⌋) string, true) := by
  simp only [jsP_foldconst, ha, hb, jsP_setnumnode, shift_amount, nat_shiftRight_floor,
    touint32_eq_ToUint32]
  simp

theorem ToInt32_intCast (n : Int) : ToInt32 (Dbl.fin (n : ℚ)) = wrap32 n := by
  rw [← toint32_eq_ToInt32, toint32_fin, Dbl.truncQ_intCast]

theorem ToUint32_intCast (n : Int) : ToUint32 (Dbl.fin (n : ℚ)) = n % 4294967296 := by
  rw [← touint32_eq_ToUint32, touint32_fin, Dbl.truncQ_intCast]

theorem jsP_foldconst_numnode_number (line : Nat) (x : Dbl) :
    (jsP_foldconst (js_Ast.numnode .EXP_NUMBER line x)).1.number = x := by
  rw [jsP_foldconst_numnode]
  rfl

/-- The tree of `1 << 32` folds to the literal 1. -/
theorem jsP_foldconst_oneShl32 (l0 l1 l2 : Nat) :
    jsP_foldconst (js_Ast.new .EXP_SHL l0 (js_Ast.numnode .EXP_NUMBER l1 (Dbl.fin 1))
      (js_Ast.numnode .EXP_NUMBER l2 (Dbl.fin 32)) .NULL .NULL) =
      (js_Ast.numnode .EXP_NUMBER l0 (Dbl.fin 1), true) := by
  have h := jsP_foldconst_shl l0 (js_Ast.numnode .EXP_NUMBER l1 (Dbl.fin 1))
    (js_Ast.numnode .EXP_NUMBER l2 (Dbl.fin 32)) .NULL .NULL (Dbl.fin 0) none
    (by rw [jsP_foldconst_numnode]) (by rw [jsP_foldconst_numnode])
  have h1 : ToInt32 (Dbl.fin 1) = 1 := by
    have := ToInt32_intCast 1
    simpa [wrap32] using this
  have h2 : ToUint32 (Dbl.fin 32) = 32 := by
    have := ToUint32_intCast 32
    simpa using this
  rw [jsP_foldconst_numnode_number, jsP_foldconst_numnode_number, h1, h2] at h
  unfold js_Ast.new
  rw [h]
  simp [wrap32, Dbl.ofInt, js_Ast.numnode]

/-- The tree of `-1 >>> 0` folds to the literal 4294967295. -/
theorem jsP_foldconst_negOneUshr0 (l0 l1 l2 l3 : Nat) :
    jsP_foldconst (js_Ast.new .EXP_USHR l0
      (js_Ast.new .EXP_NEG l1 (js_Ast.numnode .EXP_NUMBER l2 (Dbl.fin 1)) .NULL .NULL .NULL)
      (js_Ast.numnode .EXP_NUMBER l3 (Dbl.fin 0)) .NULL .NULL) =
      (js_Ast.numnode .EXP_NUMBER l0 (Dbl.fin 4294967295), true) := by
  have hn : jsP_foldconst (js_Ast.new .EXP_NEG l1 (js_Ast.numnode .EXP_NUMBER l2 (Dbl.fin 1))
      .NULL .NULL .NULL) = (js_Ast.numnode .EXP_NUMBER l1 (Dbl.fin (-1)), true) := by
    simp [js_Ast.new, js_Ast.numnode, jsP_foldconst, jsP_setnumnode, js_Ast.number, Dbl.neg]
  have h := jsP_foldconst_ushr l0
    (js_Ast.new .EXP_NEG l1 (js_Ast.numnode .EXP_NUMBER l2 (Dbl.fin 1)) .NULL .NULL .NULL)
    (js_Ast.numnode .EXP_NUMBER l3 (Dbl.fin 0)) .NULL .NULL (Dbl.fin 0) none
    (by rw [hn]) (by rw [jsP_foldconst_numnode])
  have h1 : ToUint32 (Dbl.fin (-1)) = 4294967295 := by
    have := ToUint32_intCast (-1)
    simpa using this
  have h2 : ToUint32 (Dbl.fin 0) = 0 := by
    have := ToUint32_intCast 0
    simpa using this
  have e : (js_Ast.numnode .EXP_NUMBER l1 (Dbl.fin (-1))).number = Dbl.fin (-1) := rfl
  rw [hn, jsP_foldconst_numnode_number] at h
  simp only [e, h1, h2] at h
  have e2 : js_Ast.new .EXP_USHR l0
      (js_Ast.new .EXP_NEG l1 (js_Ast.numnode .EXP_NUMBER l2 (Dbl.fin 1)) .NULL .NULL .NULL)
      (js_Ast.numnode .EXP_NUMBER l3 (Dbl.fin 0)) .NULL .NULL =
      .node .EXP_USHR l0
      (js_Ast.new .EXP_NEG l1 (js_Ast.numnode .EXP_NUMBER l2 (Dbl.fin 1)) .NULL .NULL .NULL)
      (js_Ast.numnode .EXP_NUMBER l3 (Dbl.fin 0)) .NULL .NULL (Dbl.fin 0) none := rfl
  rw [e2, h]
  simp [Dbl.ofInt, js_Ast.numnode]

/-- The prefix `-` of `unary`. -/
theorem unary_neg {A : js_Ast} {J J1 : js_State} (h : J.lookahead = Tok.MINUS)
    (hA : Yields (fun R => unary R) (nextState J) (.ok A J1)) :
    Yields (fun R => unary R) J
      (.ok (js_Ast.new .EXP_NEG J1.astline A .NULL .NULL .NULL) J1) := by
  obtain ⟨n, hA⟩ := hA
  refine ⟨n + 1, fun m hm => ?_⟩
  obtain ⟨j, rfl⟩ : ∃ j, m = j + 1 := ⟨m - 1, by omega⟩
  have hA := hA j (by omega)
  dsimp only at hA ⊢
  rw [unary]
  simp [jsP_accept_apply, h, step, hA]

/-- A shift of two operands parsed by `unary`, as an expression statement at
the end of the input. -/
theorem statement_shift {ty : js_AstType} {A B : js_Ast} {J J1 J2 : js_State}
    (h0 : statementTok J.lookahead = false)
    (hA : Yields (fun R => unary R) J (.ok A J1))
    (hop : binop false J1.lookahead = some (3, ty))
    (hB : Yields (fun R => unary R) (nextState J1) (.ok B J2))
    (h2 : J2.lookahead = Tok.EOF) :
    Yields (fun R => statement R) J (.ok (js_Ast.new ty J2.astline A B .NULL .NULL) J2) := by
  have a2 : Yields (levelFn false 2) J (.ok A J1) :=
    level_lift (Nat.zero_le _) (by omega) (by rw [levelFn_zero]; exact hA)
      (fun i ty' h1 h3 => binop_level_ne hop (by omega))
  have b2 : Yields (levelFn false 2) (nextState J1) (.ok B J2) :=
    level_lift (Nat.zero_le _) (by omega) (by rw [levelFn_zero]; exact hB)
      (fun i ty' _ _ => by rw [h2]; simp [binop])
  have h3 := @level_bin false 3 ty A B J J1 J2 (by omega) a2 hop b2
    (fun ty' => by rw [h2]; simp [binop])
  have he := expression_of_level (by omega) h3 (by rw [h2]; decide)
  exact statement_expression h0 he (jsP_semicolon_auto (by rw [h2]; decide) (Or.inr (Or.inr h2)))

/-- What `jsP_parse` returns on `1 << 32`: one statement, the literal 1. -/
theorem jsP_parse_oneShl32 :
    ∃ n, ∀ m, n ≤ m → jsP_parse m "f.js" oneShl32 initState =
      .ok (js_Ast.new .AST_LIST 1 (js_Ast.numnode .EXP_NUMBER 1 (Dbl.fin 1))
        .NULL .NULL .NULL) (advance 3 (startOfFile oneShl32)) := by
  have hs : Yields (fun R => statement R) (startOfFile oneShl32)
      (.ok (js_Ast.new .EXP_SHL 1 (js_Ast.numnode .EXP_NUMBER 0 (Dbl.fin 1))
        (js_Ast.numnode .EXP_NUMBER 1 (Dbl.fin 32)) .NULL .NULL)
        (advance 3 (startOfFile oneShl32))) :=
    @statement_shift .EXP_SHL _ _ (startOfFile oneShl32) _ _ rfl
      (unary_number rfl (by decide)) rfl
      (unary_number (J := advance 2 (startOfFile oneShl32)) rfl (by decide)) rfl
  have hscr : Yields (fun R => script R Tok.EOF) (startOfFile oneShl32)
      (.ok (js_Ast.new .AST_LIST 1
        (js_Ast.new .EXP_SHL 1 (js_Ast.numnode .EXP_NUMBER 0 (Dbl.fin 1))
          (js_Ast.numnode .EXP_NUMBER 1 (Dbl.fin 32)) .NULL .NULL) .NULL .NULL .NULL)
        (advance 3 (startOfFile oneShl32))) :=
    script_cons (J := startOfFile oneShl32) (by decide)
      (scriptelement_statement (by decide) hs) (script_loop_done rfl)
  obtain ⟨n, hn⟩ := jsP_parse_of_script (J := initState) hscr
  refine ⟨n, fun m hm => ?_⟩
  rw [hn m hm]
  have hf := jsP_foldconst_oneShl32 1 0 1
  have hk := jsP_foldconst_keep .AST_LIST 1
    (js_Ast.new .EXP_SHL 1 (js_Ast.numnode .EXP_NUMBER 0 (Dbl.fin 1))
      (js_Ast.numnode .EXP_NUMBER 1 (Dbl.fin 32)) .NULL .NULL) .NULL .NULL .NULL (Dbl.fin 0)
    none (by decide) (by rw [hf]; rfl)
  rw [hf] at hk
  have e : js_Ast.new .AST_LIST 1
      (js_Ast.new .EXP_SHL 1 (js_Ast.numnode .EXP_NUMBER 0 (Dbl.fin 1))
        (js_Ast.numnode .EXP_NUMBER 1 (Dbl.fin 32)) .NULL .NULL) .NULL .NULL .NULL =
      .node .AST_LIST 1
      (js_Ast.new .EXP_SHL 1 (js_Ast.numnode .EXP_NUMBER 0 (Dbl.fin 1))
        (js_Ast.numnode .EXP_NUMBER 1 (Dbl.fin 32)) .NULL .NULL) .NULL .NULL .NULL (Dbl.fin 0)
      none := rfl
  rw [e, hk]
  simp [jsP_foldconst, js_Ast.new, js_Ast.isNull]

/-- What `jsP_parse` returns on `-1 >>> 0`: one statement, the literal
4294967295. -/
theorem jsP_parse_negOneUshr0 :
    ∃ n, ∀ m, n ≤ m → jsP_parse m "f.js" negOneUshr0 initState =
      .ok (js_Ast.new .AST_LIST 1 (js_Ast.numnode .EXP_NUMBER 1 (Dbl.fin 4294967295))
        .NULL .NULL .NULL) (advance 4 (startOfFile negOneUshr0)) := by
  have hs : Yields (fun R => statement R) (startOfFile negOneUshr0)
      (.ok (js_Ast.new .EXP_USHR 1
        (js_Ast.new .EXP_NEG 1 (js_Ast.numnode .EXP_NUMBER 1 (Dbl.fin 1)) .NULL .NULL .NULL)
        (js_Ast.numnode .EXP_NUMBER 1 (Dbl.fin 0)) .NULL .NULL)
        (advance 4 (startOfFile negOneUshr0))) :=
    @statement_shift .EXP_USHR _ _ (startOfFile negOneUshr0) _ _ rfl
      (unary_neg rfl (unary_number (J := advance 1 (startOfFile negOneUshr0)) rfl (by decide)))
      rfl
      (unary_number (J := advance 3 (startOfFile negOneUshr0)) rfl (by decide)) rfl
  have hscr : Yields (fun R => script R Tok.EOF) (startOfFile negOneUshr0)
      (.ok (js_Ast.new .AST_LIST 1
        (js_Ast.new .EXP_USHR 1
          (js_Ast.new .EXP_NEG 1 (js_Ast.numnode .EXP_NUMBER 1 (Dbl.fin 1)) .NULL .NULL .NULL)
          (js_Ast.numnode .EXP_NUMBER 1 (Dbl.fin 0)) .NULL .NULL) .NULL .NULL .NULL)
        (advance 4 (startOfFile negOneUshr0))) :=
    script_cons (J := startOfFile negOneUshr0) (by decide)
      (scriptelement_statement (by decide) hs) (script_loop_done rfl)
  obtain ⟨n, hn⟩ := jsP_parse_of_script (J := initState) hscr
  refine ⟨n, fun m hm => ?_⟩
  rw [hn m hm]
  have hf := jsP_foldconst_negOneUshr0 1 1 1 1
  have hk := jsP_foldconst_keep .AST_LIST 1
    (js_Ast.new .EXP_USHR 1
      (js_Ast.new .EXP_NEG 1 (js_Ast.numnode .EXP_NUMBER 1 (Dbl.fin 1)) .NULL .NULL .NULL)
      (js_Ast.numnode .EXP_NUMBER 1 (Dbl.fin 0)) .NULL .NULL) .NULL .NULL .NULL (Dbl.fin 0)
    none (by decide) (by rw [hf]; rfl)
  rw [hf] at hk
  have e : js_Ast.new .AST_LIST 1
      (js_Ast.new .EXP_USHR 1
        (js_Ast.new .EXP_NEG 1 (js_Ast.numnode .EXP_NUMBER 1 (Dbl.fin 1)) .NULL .NULL .NULL)
        (js_Ast.numnode .EXP_NUMBER 1 (Dbl.fin 0)) .NULL .NULL) .NULL .NULL .NULL =
      .node .AST_LIST 1
      (js_Ast.new .EXP_USHR 1
        (js_Ast.new .EXP_NEG 1 (js_Ast.numnode .EXP_NUMBER 1 (Dbl.fin 1)) .NULL .NULL .NULL)
        (js_Ast.numnode .EXP_NUMBER 1 (Dbl.fin 0)) .NULL .NULL) .NULL .NULL .NULL (Dbl.fin 0)
      none := rfl
  rw [e, hk]
  simp [jsP_foldconst, js_Ast.new, js_Ast.isNull]

/-- C29.  For a node of kind `EXP_SHL`, `EXP_SHR` or `EXP_USHR` whose operands
folded to the numeric literals x and y, with `s = ToUint32(y) mod 32`, the
fold rewrites the node to a numeric literal without children: for `EXP_SHL`
the integer of the signed 32-bit range congruent modulo `2^32` to
`ToInt32(x) * 2^s`, for `EXP_SHR` the floor of `ToInt32(x) / 2^s`, for
`EXP_USHR` the floor of `ToUint32(x) / 2^s`, which is never negative.  The
shift amount is below 32, and a 32 counts as 0.  The program `1 << 32` parses
to the one statement 1, and `-1 >>> 0` to the one statement 4294967295. -/
theorem shift_fold_rule :
    (∀ (line : Nat) (a b c d : js_Ast) (number : Dbl) (string : Option String),
      (jsP_foldconst a).2 = true → (jsP_foldconst b).2 = true →
      jsP_foldconst (.node .EXP_SHL line a b c d number string) =
        (.node .EXP_NUMBER line .NULL .NULL .NULL .NULL
          (Dbl.ofInt (wrap32 (ToInt32 (jsP_foldconst a).1.number *
            2 ^ (ToUint32 (jsP_foldconst b).1.number % 32).toNat))) string, true) ∧
      jsP_foldconst (.node .EXP_SHR line a b c d number string) =
        (.node .EXP_NUMBER line .NULL .NULL .NULL .NULL
          (Dbl.ofInt ⌊(ToInt32 (jsP_foldconst a).1.number : ℚ) /
            2 ^ (ToUint32 (jsP_foldconst b).1.number % 32).toNat⌋) string, true) ∧
      jsP_foldconst (.node .EXP_USHR line a b c d number string) =
        (.node .EXP_NUMBER line .NULL .NULL .NULL .NULL
          (Dbl.ofInt ⌊(ToUint32 (jsP_foldconst a).1.number : ℚ) /
            2 ^ (ToUint32 (jsP_foldconst b).1.number % 32).toNat⌋) string, true)) ∧
    (∀ n r : Int,
      (-2147483648 ≤ r ∧ r < 2147483648 ∧ (r - n) % 4294967296 = 0) ↔ r = wrap32 n) ∧
    (∀ x y : Dbl, (ToUint32 y % 32).toNat < 32 ∧ 0 ≤ ToUint32 x ∧ ToUint32 x < 4294967296 ∧
      0 ≤ ⌊(ToUint32 x : ℚ) / 2 ^ (ToUint32 y % 32).toNat⌋) ∧
    ((ToUint32 (Dbl.fin 32) % 32).toNat = 0 ∧ (ToUint32 (Dbl.fin 0) % 32).toNat = 0) ∧
    (∃ n, ∀ m, n ≤ m → jsP_parse m "f.js" oneShl32 initState =
      .ok (js_Ast.new .AST_LIST 1 (js_Ast.numnode .EXP_NUMBER 1 (Dbl.fin 1))
        .NULL .NULL .NULL) (advance 3 (startOfFile oneShl32))) ∧
    (∃ n, ∀ m, n ≤ m → jsP_parse m "f.js" negOneUshr0 initState =
      .ok (js_Ast.new .AST_LIST 1 (js_Ast.numnode .EXP_NUMBER 1 (Dbl.fin 4294967295))
        .NULL .NULL .NULL) (advance 4 (startOfFile negOneUshr0))) := by
  refine ⟨fun line a b c d number string ha hb =>
      ⟨jsP_foldconst_shl line a b c d number string ha hb,
       jsP_foldconst_shr line a b c d number string ha hb,
       jsP_foldconst_ushr line a b c d number string ha hb⟩,
    wrap32_unique, ?_, ?_, jsP_parse_oneShl32, jsP_parse_negOneUshr0⟩
  · intro x y
    have hx : 0 ≤ ToUint32 x ∧ ToUint32 x < 4294967296 := by
      rw [← touint32_eq_ToUint32]
      unfold touint32
      omega
    have hy : 0 ≤ ToUint32 y := by
      rw [← touint32_eq_ToUint32]
      omega
    refine ⟨by omega, hx.1, hx.2, ?_⟩
    apply Int.floor_nonneg.mpr
    have : (0 : ℚ) ≤ (ToUint32 x : ℚ) := by exact_mod_cast hx.1
    positivity
  · have h32 : ToUint32 (Dbl.fin 32) = 32 := by
      have := ToUint32_intCast 32
      simpa using this
    have h0 : ToUint32 (Dbl.fin 0) = 0 := by
      have := ToUint32_intCast 0
      simpa using this
    rw [h32, h0]
    decide

/-- C29 on the trees of `1 << 32`, `-8 >> 1` and `-1 >>> 0`: the literals 1, -4
and 4294967295. -/
theorem shift_fold_rule_witness :
    (jsP_foldconst (js_Ast.new .EXP_SHL 1 (js_Ast.numnode .EXP_NUMBER 1 (Dbl.fin 1))
      (js_Ast.numnode .EXP_NUMBER 1 (Dbl.fin 32)) .NULL .NULL)).1 =
        js_Ast.numnode .EXP_NUMBER 1 (Dbl.fin 1) ∧
    (jsP_foldconst (js_Ast.new .EXP_SHR 1 (js_Ast.numnode .EXP_NUMBER 1 (Dbl.fin (-8)))
      (js_Ast.numnode .EXP_NUMBER 1 (Dbl.fin 1)) .NULL .NULL)).1 =
        js_Ast.numnode .EXP_NUMBER 1 (Dbl.fin (-4)) ∧
    (jsP_foldconst (js_Ast.new .EXP_USHR 1 (js_Ast.numnode .EXP_NUMBER 1 (Dbl.fin (-1)))
      (js_Ast.numnode .EXP_NUMBER 1 (Dbl.fin 0)) .NULL .NULL)).1 =
        js_Ast.numnode .EXP_NUMBER 1 (Dbl.fin 4294967295) := by
  have i1 : ToInt32 (Dbl.fin 1) = 1 := by
    have := ToInt32_intCast 1
    simpa [wrap32] using this
  have i8 : ToInt32 (Dbl.fin (-8)) = -8 := by
    have := ToInt32_intCast (-8)
    simpa [wrap32] using this
  have u32 : ToUint32 (Dbl.fin 32) = 32 := by
    have := ToUint32_intCast 32
    simpa using this
  have u1 : ToUint32 (Dbl.fin 1) = 1 := by
    have := ToUint32_intCast 1
    simpa using this
  have u0 : ToUint32 (Dbl.fin 0) = 0 := by
    have := ToUint32_intCast 0
    simpa using this
  have um1 : ToUint32 (Dbl.fin (-1)) = 4294967295 := by
    have := ToUint32_intCast (-1)
    simpa using this
  have h1 := (shift_fold_rule.1 1 (js_Ast.numnode .EXP_NUMBER 1 (Dbl.fin 1))
    (js_Ast.numnode .EXP_NUMBER 1 (Dbl.fin 32)) .NULL .NULL (Dbl.fin 0) none
    (by rw [jsP_foldconst_numnode]) (by rw [jsP_foldconst_numnode])).1
  have h2 := (shift_fold_rule.1 1 (js_Ast.numnode .EXP_NUMBER 1 (Dbl.fin (-8)))
    (js_Ast.numnode .EXP_NUMBER 1 (Dbl.fin 1)) .NULL .NULL (Dbl.fin 0) none
    (by rw [jsP_foldconst_numnode]) (by rw [jsP_foldconst_numnode])).2.1
  have h3 := (shift_fold_rule.1 1 (js_Ast.numnode .EXP_NUMBER 1 (Dbl.fin (-1)))
    (js_Ast.numnode .EXP_NUMBER 1 (Dbl.fin 0)) .NULL .NULL (Dbl.fin 0) none
    (by rw [jsP_foldconst_numnode]) (by rw [jsP_foldconst_numnode])).2.2
  rw [jsP_foldconst_numnode_number, jsP_foldconst_numnode_number] at h1 h2 h3
  rw [i1, u32] at h1
  rw [i8, u1] at h2
  rw [um1, u0] at h3
  refine ⟨?_, ?_, ?_⟩
  · show (jsP_foldconst (.node .EXP_SHL 1 _ _ .NULL .NULL (Dbl.fin 0) none)).1 = _
    rw [h1]
    simp [wrap32, Dbl.ofInt, js_Ast.numnode]
  · show (jsP_foldconst (.node .EXP_SHR 1 _ _ .NULL .NULL (Dbl.fin 0) none)).1 = _
    rw [h2]
    have e : ((1 : Int) % 32).toNat = 1 := by decide
    have e4 : ⌊((-8 : Int) : ℚ) / 2 ^ 1⌋ = -4 := by
      rw [Int.floor_eq_iff]
      norm_num
    rw [e, e4]
    simp [Dbl.ofInt, js_Ast.numnode]
  · show (jsP_foldconst (.node .EXP_USHR 1 _ _ .NULL .NULL (Dbl.fin 0) none)).1 = _
    rw [h3]
    simp [Dbl.ofInt, js_Ast.numnode]

/-! ## C30: folding keeps numeric literals leaves -/

/-- Folding a tree whose `EXP_NUMBER` nodes have no children gives such a tree. -/
theorem jsP_foldconst_keeps_numLeaves (t : js_Ast) (h : t.numLeaves = true) :
    (jsP_foldconst t).1.numLeaves = true := by
  induction t with
  | NULL => simp [jsP_foldconst, js_Ast.numLeaves]
  | node type line a b c d number string iha ihb ihc ihd =>
    have h' := h
    simp only [js_Ast.numLeaves, Bool.and_eq_true, Bool.or_eq_true, bne_iff_ne] at h
    obtain ⟨⟨⟨⟨h0, ha⟩, hb⟩, hc⟩, hd⟩ := h
    by_cases ht : type = .EXP_NUMBER
    · subst ht
      simpa [jsP_foldconst] using h'
    · by_cases hf : foldable type (jsP_foldconst a).1 (jsP_foldconst b).1 = true
      · obtain ⟨x, hx⟩ := jsP_foldconst_rewrite type line a b c d number string hf
        rw [hx]
        simp [js_Ast.numLeaves, js_Ast.isNull]
      · have hf' : foldable type (jsP_foldconst a).1 (jsP_foldconst b).1 = false := by
          simpa using hf
        rw [jsP_foldconst_keep type line a b c d number string ht hf']
        simp [js_Ast.numLeaves, ht, iha ha, ihb hb, ihc hc, ihd hd]

/-- C30.  If every `EXP_NUMBER` node of a tree has four null child slots, then
so has every `EXP_NUMBER` node of the tree that `jsP_foldconst` makes of it;
and each node that the fold rewrites (a foldable kind over folded numeric
literals) becomes an `EXP_NUMBER` node with four null child slots. -/
theorem jsP_foldconst_leaf_invariant :
    (∀ t : js_Ast, t.numLeaves = true → (jsP_foldconst t).1.numLeaves = true) ∧
    (∀ (type : js_AstType) (line : Nat) (a b c d : js_Ast) (number : Dbl)
      (string : Option String),
      foldable type (jsP_foldconst a).1 (jsP_foldconst b).1 = true →
      ∃ x, (jsP_foldconst (.node type line a b c d number string)).1 =
        .node .EXP_NUMBER line .NULL .NULL .NULL .NULL x string) := by
  refine ⟨jsP_foldconst_keeps_numLeaves, ?_⟩
  intro type line a b c d number string hf
  obtain ⟨x, hx⟩ := jsP_foldconst_rewrite type line a b c d number string hf
  exact ⟨x, by rw [hx]⟩

/-- C30 on the tree of `(1 + 2) * x`: the sum is rewritten to a literal
without children and the tree after the fold keeps the invariant. -/
theorem jsP_foldconst_leaf_invariant_witness :
    (js_Ast.new .EXP_MUL 1
      (js_Ast.new .EXP_ADD 1 (js_Ast.numnode .EXP_NUMBER 1 (Dbl.fin 1))
        (js_Ast.numnode .EXP_NUMBER 1 (Dbl.fin 2)) .NULL .NULL)
      (js_Ast.strnode .EXP_IDENTIFIER 1 "x") .NULL .NULL).numLeaves = true ∧
    (jsP_foldconst (js_Ast.new .EXP_MUL 1
      (js_Ast.new .EXP_ADD 1 (js_Ast.numnode .EXP_NUMBER 1 (Dbl.fin 1))
        (js_Ast.numnode .EXP_NUMBER 1 (Dbl.fin 2)) .NULL .NULL)
      (js_Ast.strnode .EXP_IDENTIFIER 1 "x") .NULL .NULL)).1.numLeaves = true :=
  ⟨by decide, jsP_foldconst_leaf_invariant.1 _ (by decide)⟩

/-! ## C35: the label of `break` and `continue` may follow a newline -/

/-- The function `identifieropt` at an identifier that is no reserved word:
the identifier is taken, whatever the newline flag. -/
theorem identifieropt_identifier {J : js_State} (h : J.lookahead = Tok.TK_IDENTIFIER)
    (hx : plainName J.text) :
    identifieropt J = .ok (js_Ast.strnode .AST_IDENTIFIER J.astline J.text) (nextState J) := by
  simp [identifieropt, h, identifier_ok h hx.1 (Or.inr hx.2)]

/-- The function `identifieropt` at any other token: null, nothing consumed. -/
theorem identifieropt_none {J : js_State} (h : J.lookahead ≠ Tok.TK_IDENTIFIER) :
    identifieropt J = .ok .NULL J := by
  simp [identifieropt, h]

/-- The `break` branch of `statement`. -/
theorem statement_break {R : Rec} {J J1 J2 : js_State} {a : js_Ast}
    (h : J.lookahead = Tok.TK_BREAK)
    (ha : identifieropt (nextState J) = .ok a J1)
    (hs : jsP_semicolon J1 = .ok () J2) :
    statement R J = .ok (js_Ast.new .STM_BREAK J2.astline a .NULL .NULL .NULL) J2 := by
  simp [statement, jsP_accept_apply, h, ha, hs]

/-- The `continue` branch of `statement`. -/
theorem statement_continue {R : Rec} {J J1 J2 : js_State} {a : js_Ast}
    (h : J.lookahead = Tok.TK_CONTINUE)
    (ha : identifieropt (nextState J) = .ok a J1)
    (hs : jsP_semicolon J1 = .ok () J2) :
    statement R J = .ok (js_Ast.new .STM_CONTINUE J2.astline a .NULL .NULL .NULL) J2 := by
  simp [statement, jsP_accept_apply, h, ha, hs]

/-- What `jsP_parse` returns on `break`, newline, `foo`. -/
theorem jsP_parse_breakNewlineFoo :
    ∃ n, ∀ m, n ≤ m → jsP_parse m "f.js" breakNewlineFoo initState =
      .ok (js_Ast.new .AST_LIST 2
        (js_Ast.new .STM_BREAK 2 (js_Ast.strnode .AST_IDENTIFIER 1 "foo") .NULL .NULL .NULL)
        .NULL .NULL .NULL)
        (advance 2 (startOfFile breakNewlineFoo)) := by
  have hstm : Yields (fun R => statement R) (startOfFile breakNewlineFoo)
      (.ok (js_Ast.new .STM_BREAK 2 (js_Ast.strnode .AST_IDENTIFIER 1 "foo")
        .NULL .NULL .NULL) (advance 2 (startOfFile breakNewlineFoo))) :=
    Yields.of_eq fun R => statement_break (J := startOfFile breakNewlineFoo) rfl
      (identifieropt_identifier (J := nextState (startOfFile breakNewlineFoo)) rfl
        (by decide))
      (jsP_semicolon_auto (by decide) (Or.inr (Or.inr rfl)))
  have hscr := script_cons (J := startOfFile breakNewlineFoo) (by decide)
    (scriptelement_statement (by decide) hstm) (script_loop_done rfl)
  obtain ⟨n, hn⟩ := jsP_parse_of_script (J := initState) hscr
  refine ⟨n, fun m hm => ?_⟩
  rw [hn m hm]
  simp [js_Ast.new, js_Ast.strnode, jsP_foldconst, js_Ast.isNull]
  rfl

/-- What `jsP_parse` returns on `continue`, newline, `foo`. -/
theorem jsP_parse_continueNewlineFoo :
    ∃ n, ∀ m, n ≤ m → jsP_parse m "f.js" continueNewlineFoo initState =
      .ok (js_Ast.new .AST_LIST 2
        (js_Ast.new .STM_CONTINUE 2 (js_Ast.strnode .AST_IDENTIFIER 1 "foo")
          .NULL .NULL .NULL)
        .NULL .NULL .NULL)
        (advance 2 (startOfFile continueNewlineFoo)) := by
  have hstm : Yields (fun R => statement R) (startOfFile continueNewlineFoo)
      (.ok (js_Ast.new .STM_CONTINUE 2 (js_Ast.strnode .AST_IDENTIFIER 1 "foo")
        .NULL .NULL .NULL) (advance 2 (startOfFile continueNewlineFoo))) :=
    Yields.of_eq fun R => statement_continue (J := startOfFile continueNewlineFoo) rfl
      (identifieropt_identifier (J := nextState (startOfFile continueNewlineFoo)) rfl
        (by decide))
      (jsP_semicolon_auto (by decide) (Or.inr (Or.inr rfl)))
  have hscr := script_cons (J := startOfFile continueNewlineFoo) (by decide)
    (scriptelement_statement (by decide) hstm) (script_loop_done rfl)
  obtain ⟨n, hn⟩ := jsP_parse_of_script (J := initState) hscr
  refine ⟨n, fun m hm => ?_⟩
  rw [hn m hm]
  simp [js_Ast.new, js_Ast.strnode, jsP_foldconst, js_Ast.isNull]
  rfl

/-- C35.  After `break` or `continue`, an identifier token that is no reserved
word is taken as the label whatever its newline flag: `statement` returns
`STM_BREAK(label)` or `STM_CONTINUE(label)` as soon as the statement
terminator is accepted after the identifier, for every handle and every
state.  On the tokens of `break`, newline, `foo` the parser returns a list of
one cell holding `STM_BREAK(foo)`, and likewise for `continue`. -/
theorem break_label_rule :
    (∀ (R : Rec) (J J2 : js_State) (stm : js_AstType) (k : Tok),
      (k = Tok.TK_BREAK ∧ stm = .STM_BREAK ∨ k = Tok.TK_CONTINUE ∧ stm = .STM_CONTINUE) →
      J.lookahead = k →
      (nextState J).lookahead = Tok.TK_IDENTIFIER → plainName (nextState J).text →
      jsP_semicolon (nextState (nextState J)) = .ok () J2 →
      statement R J = .ok (js_Ast.new stm J2.astline
        (js_Ast.strnode .AST_IDENTIFIER (nextState J).astline (nextState J).text)
        .NULL .NULL .NULL) J2) ∧
    (∃ n, ∀ m, n ≤ m → jsP_parse m "f.js" breakNewlineFoo initState =
      .ok (js_Ast.new .AST_LIST 2
        (js_Ast.new .STM_BREAK 2 (js_Ast.strnode .AST_IDENTIFIER 1 "foo") .NULL .NULL .NULL)
        .NULL .NULL .NULL)
        (advance 2 (startOfFile breakNewlineFoo))) ∧
    (∃ n, ∀ m, n ≤ m → jsP_parse m "f.js" continueNewlineFoo initState =
      .ok (js_Ast.new .AST_LIST 2
        (js_Ast.new .STM_CONTINUE 2 (js_Ast.strnode .AST_IDENTIFIER 1 "foo")
          .NULL .NULL .NULL)
        .NULL .NULL .NULL)
        (advance 2 (startOfFile continueNewlineFoo))) := by
  refine ⟨?_, jsP_parse_breakNewlineFoo, jsP_parse_continueNewlineFoo⟩
  intro R J J2 stm k hk h hi hx hs
  rcases hk with ⟨rfl, rfl⟩ | ⟨rfl, rfl⟩
  · exact statement_break h (identifieropt_identifier hi hx) hs
  · exact statement_continue h (identifieropt_identifier hi hx) hs

/-- C35 on `break`, newline, `foo`, where the identifier carries the newline
flag. -/
theorem break_label_rule_witness :
    (nextState (startOfFile breakNewlineFoo)).newline = true ∧
    ∀ R : Rec, statement R (startOfFile breakNewlineFoo) =
      .ok (js_Ast.new .STM_BREAK 2 (js_Ast.strnode .AST_IDENTIFIER 1 "foo")
        .NULL .NULL .NULL) (advance 2 (startOfFile breakNewlineFoo)) :=
  ⟨rfl, fun R => break_label_rule.1 R (startOfFile breakNewlineFoo) _ .STM_BREAK .TK_BREAK
    (Or.inl ⟨rfl, rfl⟩) rfl rfl (by decide)
    (jsP_semicolon_auto (J := advance 2 (startOfFile breakNewlineFoo)) (by decide)
      (Or.inr (Or.inr rfl)))⟩

/-! ## C36: `jsP_parsefunction` on an empty parameter text -/

/-- The function `identifier` at any token but an identifier: the syntax error
naming the token seen. -/
theorem identifier_error {J : js_State} (h : J.lookahead ≠ Tok.TK_IDENTIFIER) :
    identifier J = .error (snprintf256 (J.filename ++ ":" ++ toString J.lexline ++ ": ") ++
      ("unexpected token: " ++ jsY_tokenstring J.lookahead ++ " (expected identifier)")) := by
  simp [identifier, h, jsP_error,
    snprintf256_token_tail "unexpected token: " " (expected identifier)" _ (by decide)]

/-- The function `parameters` at a token that is neither `)` nor an
identifier: the error of `identifier`, whatever the handle. -/
theorem parameters_error {R : Rec} {J : js_State} (h1 : J.lookahead ≠ Tok.RPAREN)
    (h2 : J.lookahead ≠ Tok.TK_IDENTIFIER) :
    parameters R J = .error (snprintf256 (J.filename ++ ":" ++ toString J.lexline ++ ": ") ++
      ("unexpected token: " ++ jsY_tokenstring J.lookahead ++ " (expected identifier)")) := by
  simp [parameters, h1, identifier_error h2]

/-- The function `parameters` at `)`: the null list, nothing consumed. -/
theorem parameters_rparen {R : Rec} {J : js_State} (h : J.lookahead = Tok.RPAREN) :
    parameters R J = .ok .NULL J := by
  simp [parameters, h]

/-- C36.  Called with a parameter text that holds no token, `jsP_parsefunction`
raises the syntax error of `identifier` at end of input, for every recursion
bound, body text and state; the body is not parsed.  Its message is the first
255 characters of `<file>:<line>: ` followed by
`unexpected token: (end-of-file) (expected identifier)`.  Called without
parameter text it returns the function whose parameter slot is null as soon
as the body parses. -/
theorem jsP_parsefunction_empty_params :
    (∀ (fuel : Nat) (filename : String) (body : List Token) (J : js_State),
      jsP_parsefunction fuel filename (some []) body J =
        .error (snprintf256 (filename ++ ":" ++ toString J.lexline ++ ": ") ++
          "unexpected token: (end-of-file) (expected identifier)")) ∧
    (∀ (fuel : Nat) (filename : String) (body : List Token) (J Jb : js_State) (b : js_Ast),
      jsP_parse fuel filename body J = .ok b Jb →
      jsP_parsefunction fuel filename none body J =
        .ok (js_Ast.new .EXP_FUN Jb.astline .NULL .NULL b .NULL) Jb) := by
  refine ⟨fun fuel filename body J => ?_, fun fuel filename body J Jb b hb =>
    jsP_parsefunction_none hb⟩
  have h := @parameters_error (run fuel)
    (nextState { J with filename := filename, source := [] }) (by simp [nextState])
    (by simp [nextState])
  simp only [jsP_parsefunction, jsY_initlex, bind_apply, jsP_next_apply, h]
  simp [nextState, jsY_tokenstring]

/-- C36 on the empty parameter text and the body `~0`, and on the same body
without parameter text. -/
theorem jsP_parsefunction_empty_params_witness :
    jsP_parsefunction 0 "f.js" (some []) bitnotZero initState =
      .error "f.js:0: unexpected token: (end-of-file) (expected identifier)" ∧
    ∃ n, jsP_parsefunction n "f.js" none bitnotZero initState =
      .ok (js_Ast.new .EXP_FUN 1 .NULL .NULL
        (js_Ast.new .AST_LIST 1 (js_Ast.numnode .EXP_NUMBER 1 (Dbl.fin (-1)))
          .NULL .NULL .NULL) .NULL) (nextState (nextState (startOfFile bitnotZero))) := by
  obtain ⟨n, h⟩ := jsP_parse_bitnotZero
  exact ⟨(jsP_parsefunction_empty_params.1 0 "f.js" bitnotZero initState).trans rfl,
    n, jsP_parsefunction_empty_params.2 n _ _ _ _ _ (h n le_rfl)⟩

/-! ## C37: the separators of an object literal -/

/-- The loop of `objectliteral` at `,` or `;` followed by a property. -/
theorem objectliteral_loop_sep {e rest : js_Ast} {J J1 J2 : js_State}
    (h : J.lookahead = Tok.COMMA ∨ J.lookahead = Tok.SEMI)
    (h1 : (nextState J).lookahead ≠ Tok.RBRACE)
    (he : Yields (fun R => propassign R) (nextState J) (.ok e J1))
    (hr : Yields (fun R => objectliteral_loop R) J1 (.ok rest J2)) :
    Yields (fun R => objectliteral_loop R) J
      (.ok (js_Ast.new .AST_LIST J1.astline e rest .NULL .NULL) J2) := by
  obtain ⟨n1, he⟩ := he
  obtain ⟨n2, hr⟩ := hr
  refine ⟨max n1 n2 + 1, fun m hm => ?_⟩
  obtain ⟨j, rfl⟩ : ∃ j, m = j + 1 := ⟨m - 1, by omega⟩
  have he := he (j + 1) (by omega)
  have hr := hr j (by omega)
  dsimp only at he hr ⊢
  rw [objectliteral_loop]
  rcases h with h | h
  · simp [jsP_accept_apply, h, h1, he, step, hr]
  · simp [jsP_accept_apply, h, h1, he, step, hr]

/-- The loop of `objectliteral` at `,` or `;` followed by `}`: the trailing
separator is consumed and the list ends. -/
theorem objectliteral_loop_trailing {R : Rec} {J : js_State}
    (h : J.lookahead = Tok.COMMA ∨ J.lookahead = Tok.SEMI)
    (h1 : (nextState J).lookahead = Tok.RBRACE) :
    objectliteral_loop R J = .ok .NULL (nextState J) := by
  rcases h with h | h
  · simp [objectliteral_loop, jsP_accept_apply, h, h1]
  · simp [objectliteral_loop, jsP_accept_apply, h, h1]

/-- The loop of `objectliteral` at a property name preceded by a newline and
by no separator. -/
theorem objectliteral_loop_newline {e rest : js_Ast} {J J1 J2 : js_State}
    (hc : J.lookahead ≠ Tok.COMMA) (hs : J.lookahead ≠ Tok.SEMI)
    (hn : J.newline = true) (h1 : J.lookahead ≠ Tok.RBRACE)
    (he : Yields (fun R => propassign R) J (.ok e J1))
    (hr : Yields (fun R => objectliteral_loop R) J1 (.ok rest J2)) :
    Yields (fun R => objectliteral_loop R) J
      (.ok (js_Ast.new .AST_LIST J1.astline e rest .NULL .NULL) J2) := by
  obtain ⟨n1, he⟩ := he
  obtain ⟨n2, hr⟩ := hr
  refine ⟨max n1 n2 + 1, fun m hm => ?_⟩
  obtain ⟨j, rfl⟩ : ∃ j, m = j + 1 := ⟨m - 1, by omega⟩
  have he := he (j + 1) (by omega)
  have hr := hr j (by omega)
  dsimp only at he hr ⊢
  rw [objectliteral_loop]
  simp [jsP_accept_apply, hc, hs, hn, h1, he, step, hr]

/-- The loop of `objectliteral` at `}`: the list ends, nothing consumed. -/
theorem objectliteral_loop_rbrace {R : Rec} {J : js_State}
    (h : J.lookahead = Tok.RBRACE) : objectliteral_loop R J = .ok .NULL J := by
  by_cases hn : J.newline = true <;> simp [objectliteral_loop, jsP_accept_apply, h, hn]

/-- The loop of `objectliteral` at a token that is no separator and is not
preceded by a newline: the list ends, nothing consumed. -/
theorem objectliteral_loop_stop {R : Rec} {J : js_State}
    (hc : J.lookahead ≠ Tok.COMMA) (hs : J.lookahead ≠ Tok.SEMI)
    (hn : J.newline = false) : objectliteral_loop R J = .ok .NULL J := by
  simp [objectliteral_loop, jsP_accept_apply, hc, hs, hn]

/-- The function `primary` on an object literal: the first property, the loop,
then `}`. -/
theorem primary_object {e rest : js_Ast} {J J1 J2 : js_State}
    (h : J.lookahead = Tok.LBRACE) (h1 : (nextState J).lookahead ≠ Tok.RBRACE)
    (he : Yields (fun R => propassign R) (nextState J) (.ok e J1))
    (hr : Yields (fun R => objectliteral_loop R) J1 (.ok rest J2))
    (h2 : J2.lookahead = Tok.RBRACE) :
    Yields (fun R => primary R) J
      (.ok (js_Ast.new .EXP_OBJECT J2.astline
        (js_Ast.new .AST_LIST J1.astline e rest .NULL .NULL) .NULL .NULL .NULL)
        (nextState J2)) := by
  obtain ⟨n1, he⟩ := he
  obtain ⟨n2, hr⟩ := hr
  refine ⟨max n1 n2, fun m hm => ?_⟩
  have he := he m (by omega)
  have hr := hr m (by omega)
  dsimp only at he hr ⊢
  simp [primary, jsP_accept_apply, h, objectliteral, h1, he, hr, jsP_expect_eq h2, jsP_list]

/-- The function `primary` on an object literal whose property list is not
followed by `}`: the syntax error expecting `}`. -/
theorem primary_object_unclosed {e rest : js_Ast} {J J1 J2 : js_State}
    (h : J.lookahead = Tok.LBRACE) (h1 : (nextState J).lookahead ≠ Tok.RBRACE)
    (he : Yields (fun R => propassign R) (nextState J) (.ok e J1))
    (hr : Yields (fun R => objectliteral_loop R) J1 (.ok rest J2))
    (h2 : J2.lookahead ≠ Tok.RBRACE) :
    Yields (fun R => primary R) J
      (.error (snprintf256 (J2.filename ++ ":" ++ toString J2.lexline ++ ": ") ++
        ("unexpected token: " ++ jsY_tokenstring J2.lookahead ++
          " (expected " ++ jsY_tokenstring Tok.RBRACE ++ ")"))) := by
  obtain ⟨n1, he⟩ := he
  obtain ⟨n2, hr⟩ := hr
  refine ⟨max n1 n2, fun m hm => ?_⟩
  have he := he m (by omega)
  have hr := hr m (by omega)
  dsimp only at he hr ⊢
  simp [primary, jsP_accept_apply, h, objectliteral, h1, he, hr, jsP_expect_ne h2]

/-- The property `name : number` where the token after the number continues
no expression. -/
theorem propassign_name_number {J : js_State} (h0 : J.lookahead = Tok.TK_IDENTIFIER)
    (h1 : (advance 1 J).lookahead = Tok.COLON)
    (h2 : (advance 2 J).lookahead = Tok.TK_NUMBER)
    (he : endsOperand (advance 3 J)) (hb : binop false (advance 3 J).lookahead = none)
    (hq : (advance 3 J).lookahead ≠ Tok.QUESTION)
    (ha : assignop (advance 3 J).lookahead = none) :
    Yields (fun R => propassign R) J
      (.ok (js_Ast.new .EXP_PROP_VAL (advance 3 J).astline
        (js_Ast.strnode .AST_IDENTIFIER J.astline J.text)
        (js_Ast.numnode .EXP_NUMBER (advance 2 J).astline (advance 2 J).number)
        .NULL .NULL) (advance 3 J)) :=
  propassign_val (propname_name (Or.inl h0)) h1
    (assignment_number (J := advance 2 J) h2 he hb hq ha)

/-- The object literal `{a:1, b:2}`. -/
theorem primary_objComma :
    Yields (fun R => primary R) (startOfFile objComma)
      (.ok (js_Ast.new .EXP_OBJECT 1
        (js_Ast.new .AST_LIST 1
          (js_Ast.new .EXP_PROP_VAL 1 (js_Ast.strnode .AST_IDENTIFIER 1 "a")
            (js_Ast.numnode .EXP_NUMBER 1 (Dbl.fin 1)) .NULL .NULL)
          (js_Ast.new .AST_LIST 1
            (js_Ast.new .EXP_PROP_VAL 1 (js_Ast.strnode .AST_IDENTIFIER 1 "b")
              (js_Ast.numnode .EXP_NUMBER 1 (Dbl.fin 2)) .NULL .NULL)
            .NULL .NULL .NULL) .NULL .NULL) .NULL .NULL .NULL)
        (advance 9 (startOfFile objComma))) :=
  primary_object (J := startOfFile objComma) rfl (by decide)
    (propassign_name_number (J := advance 1 (startOfFile objComma)) rfl rfl rfl
      (by decide) rfl (by decide) rfl)
    (objectliteral_loop_sep (J := advance 4 (startOfFile objComma)) (Or.inl rfl) (by decide)
      (propassign_name_number (J := advance 5 (startOfFile objComma)) rfl rfl rfl
        (by decide) rfl (by decide) rfl)
      (Yields.of_eq fun R =>
        objectliteral_loop_rbrace (J := advance 8 (startOfFile objComma)) rfl))
    rfl

/-- The object literal `{a:1; b:2}`. -/
theorem primary_objSemi :
    Yields (fun R => primary R) (startOfFile objSemi)
      (.ok (js_Ast.new .EXP_OBJECT 1
        (js_Ast.new .AST_LIST 1
          (js_Ast.new .EXP_PROP_VAL 1 (js_Ast.strnode .AST_IDENTIFIER 1 "a")
            (js_Ast.numnode .EXP_NUMBER 1 (Dbl.fin 1)) .NULL .NULL)
          (js_Ast.new .AST_LIST 1
            (js_Ast.new .EXP_PROP_VAL 1 (js_Ast.strnode .AST_IDENTIFIER 1 "b")
              (js_Ast.numnode .EXP_NUMBER 1 (Dbl.fin 2)) .NULL .NULL)
            .NULL .NULL .NULL) .NULL .NULL) .NULL .NULL .NULL)
        (advance 9 (startOfFile objSemi))) :=
  primary_object (J := startOfFile objSemi) rfl (by decide)
    (propassign_name_number (J := advance 1 (startOfFile objSemi)) rfl rfl rfl
      (by decide) rfl (by decide) rfl)
    (objectliteral_loop_sep (J := advance 4 (startOfFile objSemi)) (Or.inr rfl) (by decide)
      (propassign_name_number (J := advance 5 (startOfFile objSemi)) rfl rfl rfl
        (by decide) rfl (by decide) rfl)
      (Yields.of_eq fun R =>
        objectliteral_loop_rbrace (J := advance 8 (startOfFile objSemi)) rfl))
    rfl

/-- The object literal `{a:1`, newline, `b:2}`. -/
theorem primary_objNewline :
    Yields (fun R => primary R) (startOfFile objNewline)
      (.ok (js_Ast.new .EXP_OBJECT 2
        (js_Ast.new .AST_LIST 1
          (js_Ast.new .EXP_PROP_VAL 1 (js_Ast.strnode .AST_IDENTIFIER 1 "a")
            (js_Ast.numnode .EXP_NUMBER 1 (Dbl.fin 1)) .NULL .NULL)
          (js_Ast.new .AST_LIST 2
            (js_Ast.new .EXP_PROP_VAL 2 (js_Ast.strnode .AST_IDENTIFIER 1 "b")
              (js_Ast.numnode .EXP_NUMBER 2 (Dbl.fin 2)) .NULL .NULL)
            .NULL .NULL .NULL) .NULL .NULL) .NULL .NULL .NULL)
        (advance 8 (startOfFile objNewline))) :=
  primary_object (J := startOfFile objNewline) rfl (by decide)
    (propassign_name_number (J := advance 1 (startOfFile objNewline)) rfl rfl rfl
      (by decide) rfl (by decide) rfl)
    (objectliteral_loop_newline (J := advance 4 (startOfFile objNewline)) (by decide)
      (by decide) rfl (by decide)
      (propassign_name_number (J := advance 4 (startOfFile objNewline)) rfl rfl rfl
        (by decide) rfl (by decide) rfl)
      (Yields.of_eq fun R =>
        objectliteral_loop_rbrace (J := advance 7 (startOfFile objNewline)) rfl))
    rfl

/-- The object literal `{a:1,}`. -/
theorem primary_objTrailing :
    Yields (fun R => primary R) (startOfFile objTrailing)
      (.ok (js_Ast.new .EXP_OBJECT 1
        (js_Ast.new .AST_LIST 1
          (js_Ast.new .EXP_PROP_VAL 1 (js_Ast.strnode .AST_IDENTIFIER 1 "a")
            (js_Ast.numnode .EXP_NUMBER 1 (Dbl.fin 1)) .NULL .NULL)
          .NULL .NULL .NULL) .NULL .NULL .NULL)
        (advance 6 (startOfFile objTrailing))) :=
  primary_object (J := startOfFile objTrailing) rfl (by decide)
    (propassign_name_number (J := advance 1 (startOfFile objTrailing)) rfl rfl rfl
      (by decide) rfl (by decide) rfl)
    (Yields.of_eq fun R =>
      objectliteral_loop_trailing (J := advance 4 (startOfFile objTrailing)) (Or.inl rfl) rfl)
    rfl

/-- The object literal `{a:1 b:2}` on one line: the syntax error expecting `}`. -/
theorem primary_objNoSep :
    Yields (fun R => primary R) (startOfFile objNoSep)
      (.error "f.js:1: unexpected token: (identifier) (expected '\x7d')") :=
  primary_object_unclosed (J := startOfFile objNoSep) rfl (by decide)
    (propassign_name_number (J := advance 1 (startOfFile objNoSep)) rfl rfl rfl
      (by decide) rfl (by decide) rfl)
    (Yields.of_eq fun R =>
      objectliteral_loop_stop (J := advance 4 (startOfFile objNoSep)) (by decide) (by decide)
        rfl)
    (by decide)

/-- C37.  After a property of an object literal, the loop of `objectliteral`
goes on to the next property when it accepts `,` or `;`, or when it accepts
neither and the lookahead is preceded by a newline; in each case it stops
without a further property when the lookahead then is `}`, which allows one
trailing separator.  At a token that is no separator and is not preceded by
a newline it stops, and `primary` then raises the error expecting `}` unless
that token is `}`.  So `{a:1, b:2}`, `{a:1; b:2}` and `{a:1`, newline, `b:2}`
have two properties in order, `{a:1,}` has one, and `{a:1 b:2}` on one line
is the error `unexpected token: (identifier) (expected '}')`.  The message
of the error is the first 255 characters of `<file>:<line>: ` followed by
that text. -/
theorem objectliteral_separators :
    (∀ (J J1 J2 : js_State) (e rest : js_Ast),
      J.lookahead = Tok.COMMA ∨ J.lookahead = Tok.SEMI →
      (nextState J).lookahead ≠ Tok.RBRACE →
      Yields (fun R => propassign R) (nextState J) (.ok e J1) →
      Yields (fun R => objectliteral_loop R) J1 (.ok rest J2) →
      Yields (fun R => objectliteral_loop R) J
        (.ok (js_Ast.new .AST_LIST J1.astline e rest .NULL .NULL) J2)) ∧
    (∀ (R : Rec) (J : js_State), J.lookahead = Tok.COMMA ∨ J.lookahead = Tok.SEMI →
      (nextState J).lookahead = Tok.RBRACE →
      objectliteral_loop R J = .ok .NULL (nextState J)) ∧
    (∀ (J J1 J2 : js_State) (e rest : js_Ast),
      J.lookahead ≠ Tok.COMMA → J.lookahead ≠ Tok.SEMI → J.newline = true →
      J.lookahead ≠ Tok.RBRACE →
      Yields (fun R => propassign R) J (.ok e J1) →
      Yields (fun R => objectliteral_loop R) J1 (.ok rest J2) →
      Yields (fun R => objectliteral_loop R) J
        (.ok (js_Ast.new .AST_LIST J1.astline e rest .NULL .NULL) J2)) ∧
    (∀ (R : Rec) (J : js_State), J.lookahead = Tok.RBRACE →
      objectliteral_loop R J = .ok .NULL J) ∧
    (∀ (R : Rec) (J : js_State), J.lookahead ≠ Tok.COMMA → J.lookahead ≠ Tok.SEMI →
      J.newline = false → objectliteral_loop R J = .ok .NULL J) ∧
    (∀ (J J1 J2 : js_State) (e rest : js_Ast),
      J.lookahead = Tok.LBRACE → (nextState J).lookahead ≠ Tok.RBRACE →
      Yields (fun R => propassign R) (nextState J) (.ok e J1) →
      Yields (fun R => objectliteral_loop R) J1 (.ok rest J2) →
      (J2.lookahead = Tok.RBRACE →
        Yields (fun R => primary R) J
          (.ok (js_Ast.new .EXP_OBJECT J2.astline
            (js_Ast.new .AST_LIST J1.astline e rest .NULL .NULL) .NULL .NULL .NULL)
            (nextState J2))) ∧
      (J2.lookahead ≠ Tok.RBRACE →
        Yields (fun R => primary R) J
          (.error (snprintf256 (J2.filename ++ ":" ++ toString J2.lexline ++ ": ") ++
            ("unexpected token: " ++ jsY_tokenstring J2.lookahead ++
              " (expected " ++ jsY_tokenstring Tok.RBRACE ++ ")"))))) ∧
    (∃ p J1, Yields (fun R => primary R) (startOfFile objComma) (.ok p J1) ∧
      p.a.elementNames = [(some .EXP_PROP_VAL, none), (some .EXP_PROP_VAL, none)] ∧
      (p.a.elements.map fun e => e.a.string) = [some "a", some "b"]) ∧
    (∃ p J1, Yields (fun R => primary R) (startOfFile objSemi) (.ok p J1) ∧
      (p.a.elements.map fun e => e.a.string) = [some "a", some "b"]) ∧
    (∃ p J1, Yields (fun R => primary R) (startOfFile objNewline) (.ok p J1) ∧
      (p.a.elements.map fun e => e.a.string) = [some "a", some "b"]) ∧
    (∃ p J1, Yields (fun R => primary R) (startOfFile objTrailing) (.ok p J1) ∧
      (p.a.elements.map fun e => e.a.string) = [some "a"]) ∧
    Yields (fun R => primary R) (startOfFile objNoSep)
      (.error "f.js:1: unexpected token: (identifier) (expected '\x7d')") := by
  refine ⟨fun J J1 J2 e rest h h1 he hr => objectliteral_loop_sep h h1 he hr,
    fun R J h h1 => objectliteral_loop_trailing h h1,
    fun J J1 J2 e rest hc hs hn h1 he hr => objectliteral_loop_newline hc hs hn h1 he hr,
    fun R J h => objectliteral_loop_rbrace h,
    fun R J hc hs hn => objectliteral_loop_stop hc hs hn,
    fun J J1 J2 e rest h h1 he hr =>
      ⟨fun h2 => primary_object h h1 he hr h2, fun h2 => primary_object_unclosed h h1 he hr h2⟩,
    ⟨_, _, primary_objComma, by decide, by decide⟩,
    ⟨_, _, primary_objSemi, by decide⟩,
    ⟨_, _, primary_objNewline, by decide⟩,
    ⟨_, _, primary_objTrailing, by decide⟩,
    primary_objNoSep⟩

/-- C37 on the loop of `{a:1,}` at its trailing comma. -/
theorem objectliteral_separators_witness :
    ∀ R : Rec, objectliteral_loop R (advance 4 (startOfFile objTrailing)) =
      .ok .NULL (advance 5 (startOfFile objTrailing)) :=
  fun R => objectliteral_separators.2.1 R (advance 4 (startOfFile objTrailing))
    (Or.inl rfl) rfl

/-! ## C38: folding never reassociates -/

/-- A node of a kind other than `EXP_NUMBER` whose first child does not fold
to a number is not rewritten: only its children are folded. -/
theorem jsP_foldconst_left_open (type : js_AstType) (line : Nat) (a b c d : js_Ast)
    (number : Dbl) (string : Option String) (h : type ≠ .EXP_NUMBER)
    (ha : (jsP_foldconst a).2 = false) :
    jsP_foldconst (.node type line a b c d number string) =
      (.node type line (jsP_foldconst a).1 (jsP_foldconst b).1 (jsP_foldconst c).1
        (jsP_foldconst d).1 number string, false) := by
  simp [jsP_foldconst, h, ha]

/-- Folding an identifier leaves it as it is. -/
theorem jsP_foldconst_identifier (line : Nat) (x : String) :
    jsP_foldconst (js_Ast.strnode .EXP_IDENTIFIER line x) =
      (js_Ast.strnode .EXP_IDENTIFIER line x, false) := by
  simp [js_Ast.strnode, jsP_foldconst]

/-- The sum of two literals with an open right operand: the inner sum is
folded, the outer node stays. -/
theorem jsP_foldconst_sumLeft (l1 l2 lm ln : Nat) (m n : Dbl) (X : js_Ast)
    (hX : jsP_foldconst X = (X, false)) :
    jsP_foldconst (js_Ast.new .EXP_ADD l1
        (js_Ast.new .EXP_ADD l2 (js_Ast.numnode .EXP_NUMBER lm m)
          (js_Ast.numnode .EXP_NUMBER ln n) .NULL .NULL) X .NULL .NULL) =
      (js_Ast.new .EXP_ADD l1 (js_Ast.numnode .EXP_NUMBER l2 (Dbl.add m n)) X .NULL .NULL,
        false) := by
  simp [js_Ast.new, js_Ast.numnode, jsP_foldconst, jsP_setnumnode, js_Ast.number, hX]

/-- A left-nested node whose innermost left operand does not fold to a number
is left as it is, whatever literals follow. -/
theorem jsP_foldconst_sumRight (ty1 ty2 : js_AstType) (l1 l2 lm ln : Nat) (m n : Dbl)
    (X : js_Ast) (h1 : ty1 ≠ .EXP_NUMBER) (h2 : ty2 ≠ .EXP_NUMBER)
    (hX : jsP_foldconst X = (X, false)) :
    jsP_foldconst (js_Ast.new ty1 l1
        (js_Ast.new ty2 l2 X (js_Ast.numnode .EXP_NUMBER lm m) .NULL .NULL)
        (js_Ast.numnode .EXP_NUMBER ln n) .NULL .NULL) =
      (js_Ast.new ty1 l1
        (js_Ast.new ty2 l2 X (js_Ast.numnode .EXP_NUMBER lm m) .NULL .NULL)
        (js_Ast.numnode .EXP_NUMBER ln n) .NULL .NULL, false) := by
  have hm : jsP_foldconst (js_Ast.numnode .EXP_NUMBER lm m) =
      (js_Ast.numnode .EXP_NUMBER lm m, true) := by simp [js_Ast.numnode, jsP_foldconst]
  have hn : jsP_foldconst (js_Ast.numnode .EXP_NUMBER ln n) =
      (js_Ast.numnode .EXP_NUMBER ln n, true) := by simp [js_Ast.numnode, jsP_foldconst]
  have hnull : jsP_foldconst .NULL = (.NULL, false) := by simp [jsP_foldconst]
  have hin : jsP_foldconst (js_Ast.new ty2 l2 X (js_Ast.numnode .EXP_NUMBER lm m)
      .NULL .NULL) =
      (js_Ast.new ty2 l2 X (js_Ast.numnode .EXP_NUMBER lm m) .NULL .NULL, false) := by
    unfold js_Ast.new
    rw [jsP_foldconst_left_open _ _ _ _ _ _ _ _ h2 (by rw [hX]), hX, hm, hnull]
  unfold js_Ast.new at hin ⊢
  rw [jsP_foldconst_left_open _ _ _ _ _ _ _ _ h1 (by rw [hin]), hin, hn, hnull]

/-- The three operands of a sum `A + B + C` at the additive level: the tree
nests to the left. -/
theorem additive_three {A B C : js_Ast} {J J1 J2 J3 : js_State}
    (hA : Yields (levelFn false 1) J (.ok A J1))
    (h1 : J1.lookahead = Tok.PLUS)
    (hB : Yields (levelFn false 1) (nextState J1) (.ok B J2))
    (h2 : J2.lookahead = Tok.PLUS)
    (hC : Yields (levelFn false 1) (nextState J2) (.ok C J3))
    (h3 : ∀ ty, binop false J3.lookahead ≠ some (2, ty)) :
    Yields (levelFn false 2) J
      (.ok (js_Ast.new .EXP_ADD J3.astline (js_Ast.new .EXP_ADD J2.astline A B .NULL .NULL)
        C .NULL .NULL) J3) :=
  level_loop (k := 2) ⟨by omega, by omega⟩ hA
    (loop_step (k := 2) ⟨by omega, by omega⟩ (by rw [h1]; rfl) hB
      (loop_step (k := 2) ⟨by omega, by omega⟩ (by rw [h2]; rfl) hC
        (loop_done (k := 2) ⟨by omega, by omega⟩ h3)))

/-- An operand followed by `+` is returned by the multiplicative level. -/
theorem multiplicative_before_plus {A : js_Ast} {J J1 : js_State}
    (hA : Yields (fun R => unary R) J (.ok A J1)) (h1 : J1.lookahead = Tok.PLUS) :
    Yields (levelFn false 1) J (.ok A J1) :=
  level_of_unary 1 (by omega) hA (fun i ty hi => by
    rw [h1]
    intro hb
    have := binop_some hb
    simp at this
    omega)

/-- An operand followed by end of input is returned by the multiplicative level. -/
theorem multiplicative_before_eof {A : js_Ast} {J J1 : js_State}
    (hA : Yields (fun R => unary R) J (.ok A J1)) (h1 : J1.lookahead = Tok.EOF) :
    Yields (levelFn false 1) J (.ok A J1) :=
  level_of_unary 1 (by omega) hA (fun i ty hi => by
    rw [h1]
    intro hb
    cases hb)

/-- What `script` returns on `m + n + x`, before folding. -/
theorem script_sumLeft (m n : ℚ) (x : String) (hx : plainName x) :
    Yields (fun R => script R Tok.EOF) (startOfFile (sumLeft m n x))
      (.ok (js_Ast.new .AST_LIST 1
        (js_Ast.new .EXP_ADD 1
          (js_Ast.new .EXP_ADD 1 (js_Ast.numnode .EXP_NUMBER 0 (Dbl.fin m))
            (js_Ast.numnode .EXP_NUMBER 1 (Dbl.fin n)) .NULL .NULL)
          (js_Ast.strnode .EXP_IDENTIFIER 1 x) .NULL .NULL) .NULL .NULL .NULL)
        (advance 5 (startOfFile (sumLeft m n x)))) := by
  have e1 : endsOperand (advance 1 (startOfFile (sumLeft m n x))) :=
    ⟨by show Tok.PLUS ≠ _; decide, by show Tok.PLUS ≠ _; decide,
      by show Tok.PLUS ≠ _; decide,
      Or.inr ⟨by show Tok.PLUS ≠ _; decide, by show Tok.PLUS ≠ _; decide⟩⟩
  have e3 : endsOperand (advance 3 (startOfFile (sumLeft m n x))) :=
    ⟨by show Tok.PLUS ≠ _; decide, by show Tok.PLUS ≠ _; decide,
      by show Tok.PLUS ≠ _; decide,
      Or.inr ⟨by show Tok.PLUS ≠ _; decide, by show Tok.PLUS ≠ _; decide⟩⟩
  have e5 : endsOperand (advance 5 (startOfFile (sumLeft m n x))) :=
    ⟨by show Tok.EOF ≠ _; decide, by show Tok.EOF ≠ _; decide,
      by show Tok.EOF ≠ _; decide,
      Or.inr ⟨by show Tok.EOF ≠ _; decide, by show Tok.EOF ≠ _; decide⟩⟩
  have hA := multiplicative_before_plus
    (unary_number (J := startOfFile (sumLeft m n x)) rfl e1) rfl
  have hB := multiplicative_before_plus
    (unary_number (J := advance 2 (startOfFile (sumLeft m n x))) rfl e3) rfl
  have hC := multiplicative_before_eof
    (unary_identifier (J := advance 4 (startOfFile (sumLeft m n x))) rfl hx.1
      (Or.inr hx.2) e5) rfl
  have hsum := additive_three hA rfl hB rfl hC
    (fun ty => by show binop false Tok.EOF ≠ _; simp [binop])
  have hexp := @expression_of_level false 2 _ _ _ (by omega) hsum
    (by show endsExpression false Tok.EOF; decide)
  have hs := statement_expression (J := startOfFile (sumLeft m n x)) rfl hexp
    (jsP_semicolon_auto (J := advance 5 (startOfFile (sumLeft m n x)))
      (by show Tok.EOF ≠ _; decide) (Or.inr (Or.inr rfl)))
  exact script_cons (J := startOfFile (sumLeft m n x)) (by show Tok.TK_NUMBER ≠ _; decide)
    (scriptelement_statement (by show Tok.TK_NUMBER ≠ _; decide) hs) (script_loop_done rfl)

/-- What `script` returns on `x + m + n`, before folding. -/
theorem script_sumRight (x : String) (m n : ℚ) (hx : plainName x) :
    Yields (fun R => script R Tok.EOF) (startOfFile (sumRight x m n))
      (.ok (js_Ast.new .AST_LIST 1
        (js_Ast.new .EXP_ADD 1
          (js_Ast.new .EXP_ADD 1 (js_Ast.strnode .EXP_IDENTIFIER 0 x)
            (js_Ast.numnode .EXP_NUMBER 1 (Dbl.fin m)) .NULL .NULL)
          (js_Ast.numnode .EXP_NUMBER 1 (Dbl.fin n)) .NULL .NULL) .NULL .NULL .NULL)
        (advance 5 (startOfFile (sumRight x m n)))) := by
  have e1 : endsOperand (advance 1 (startOfFile (sumRight x m n))) :=
    ⟨by show Tok.PLUS ≠ _; decide, by show Tok.PLUS ≠ _; decide,
      by show Tok.PLUS ≠ _; decide,
      Or.inr ⟨by show Tok.PLUS ≠ _; decide, by show Tok.PLUS ≠ _; decide⟩⟩
  have e3 : endsOperand (advance 3 (startOfFile (sumRight x m n))) :=
    ⟨by show Tok.PLUS ≠ _; decide, by show Tok.PLUS ≠ _; decide,
      by show Tok.PLUS ≠ _; decide,
      Or.inr ⟨by show Tok.PLUS ≠ _; decide, by show Tok.PLUS ≠ _; decide⟩⟩
  have e5 : endsOperand (advance 5 (startOfFile (sumRight x m n))) :=
    ⟨by show Tok.EOF ≠ _; decide, by show Tok.EOF ≠ _; decide,
      by show Tok.EOF ≠ _; decide,
      Or.inr ⟨by show Tok.EOF ≠ _; decide, by show Tok.EOF ≠ _; decide⟩⟩
  have hA := multiplicative_before_plus
    (unary_identifier (J := startOfFile (sumRight x m n)) rfl hx.1 (Or.inr hx.2) e1) rfl
  have hB := multiplicative_before_plus
    (unary_number (J := advance 2 (startOfFile (sumRight x m n))) rfl e3) rfl
  have hC := multiplicative_before_eof
    (unary_number (J := advance 4 (startOfFile (sumRight x m n))) rfl e5) rfl
  have hsum := additive_three hA rfl hB rfl hC
    (fun ty => by show binop false Tok.EOF ≠ _; simp [binop])
  have hexp := @expression_of_level false 2 _ _ _ (by omega) hsum
    (by show endsExpression false Tok.EOF; decide)
  have hs := statement_identifier_expression (J := startOfFile (sumRight x m n)) rfl hexp
    (Or.inl (by simp [js_Ast.new, js_Ast.type?]))
    (jsP_semicolon_auto (J := advance 5 (startOfFile (sumRight x m n)))
      (by show Tok.EOF ≠ _; decide) (Or.inr (Or.inr rfl)))
  exact script_cons (J := startOfFile (sumRight x m n))
    (by show Tok.TK_IDENTIFIER ≠ _; decide)
    (scriptelement_statement (by show Tok.TK_IDENTIFIER ≠ _; decide) hs)
    (script_loop_done rfl)

/-- C38.  For an identifier `x` that is no reserved word and numeric literals
`m`, `n`: the parser returns for `m + n + x` the one statement
`ADD(literal m+n, x)`, the inner sum folded into one literal, and for
`x + m + n` the one statement `ADD(ADD(x, m), n)`, which is the tree `script`
built, with no node rewritten.  In general a node of a kind other than
`EXP_NUMBER` whose first child does not fold to a number is not rewritten by
`jsP_foldconst`. -/
theorem no_reassociation (m n : ℚ) (x : String) (hx : plainName x) :
    (∃ k, ∀ fuel, k ≤ fuel → jsP_parse fuel "f.js" (sumLeft m n x) initState =
      .ok (js_Ast.new .AST_LIST 1
        (js_Ast.new .EXP_ADD 1
          (js_Ast.numnode .EXP_NUMBER 1 (Dbl.add (Dbl.fin m) (Dbl.fin n)))
          (js_Ast.strnode .EXP_IDENTIFIER 1 x) .NULL .NULL) .NULL .NULL .NULL)
        (advance 5 (startOfFile (sumLeft m n x)))) ∧
    (∃ k, ∀ fuel, k ≤ fuel → jsP_parse fuel "f.js" (sumRight x m n) initState =
      .ok (js_Ast.new .AST_LIST 1
        (js_Ast.new .EXP_ADD 1
          (js_Ast.new .EXP_ADD 1 (js_Ast.strnode .EXP_IDENTIFIER 0 x)
            (js_Ast.numnode .EXP_NUMBER 1 (Dbl.fin m)) .NULL .NULL)
          (js_Ast.numnode .EXP_NUMBER 1 (Dbl.fin n)) .NULL .NULL) .NULL .NULL .NULL)
        (advance 5 (startOfFile (sumRight x m n)))) ∧
    Yields (fun R => script R Tok.EOF) (startOfFile (sumRight x m n))
      (.ok (js_Ast.new .AST_LIST 1
        (js_Ast.new .EXP_ADD 1
          (js_Ast.new .EXP_ADD 1 (js_Ast.strnode .EXP_IDENTIFIER 0 x)
            (js_Ast.numnode .EXP_NUMBER 1 (Dbl.fin m)) .NULL .NULL)
          (js_Ast.numnode .EXP_NUMBER 1 (Dbl.fin n)) .NULL .NULL) .NULL .NULL .NULL)
        (advance 5 (startOfFile (sumRight x m n)))) ∧
    (∀ (type : js_AstType) (line : Nat) (a b c d : js_Ast) (number : Dbl)
      (string : Option String), type ≠ .EXP_NUMBER → (jsP_foldconst a).2 = false →
      jsP_foldconst (.node type line a b c d number string) =
        (.node type line (jsP_foldconst a).1 (jsP_foldconst b).1 (jsP_foldconst c).1
          (jsP_foldconst d).1 number string, false)) := by
  refine ⟨?_, ?_, script_sumRight x m n hx, jsP_foldconst_left_open⟩
  · obtain ⟨k, hk⟩ := jsP_parse_of_script (J := initState) (script_sumLeft m n x hx)
    refine ⟨k, fun fuel hf => ?_⟩
    rw [hk fuel hf]
    have hl := jsP_foldconst_left_open .AST_LIST 1
      (js_Ast.new .EXP_ADD 1
        (js_Ast.new .EXP_ADD 1 (js_Ast.numnode .EXP_NUMBER 0 (Dbl.fin m))
          (js_Ast.numnode .EXP_NUMBER 1 (Dbl.fin n)) .NULL .NULL)
        (js_Ast.strnode .EXP_IDENTIFIER 1 x) .NULL .NULL) .NULL .NULL .NULL (Dbl.fin 0) none
      (by decide)
      (by rw [jsP_foldconst_sumLeft _ _ _ _ _ _ _ (jsP_foldconst_identifier 1 x)])
    rw [jsP_foldconst_sumLeft _ _ _ _ _ _ _ (jsP_foldconst_identifier 1 x)] at hl
    have hnull : jsP_foldconst .NULL = (.NULL, false) := by simp [jsP_foldconst]
    rw [hnull] at hl
    have e : js_Ast.new .AST_LIST 1
        (js_Ast.new .EXP_ADD 1
          (js_Ast.new .EXP_ADD 1 (js_Ast.numnode .EXP_NUMBER 0 (Dbl.fin m))
            (js_Ast.numnode .EXP_NUMBER 1 (Dbl.fin n)) .NULL .NULL)
          (js_Ast.strnode .EXP_IDENTIFIER 1 x) .NULL .NULL) .NULL .NULL .NULL =
        .node .AST_LIST 1 (js_Ast.new .EXP_ADD 1
          (js_Ast.new .EXP_ADD 1 (js_Ast.numnode .EXP_NUMBER 0 (Dbl.fin m))
            (js_Ast.numnode .EXP_NUMBER 1 (Dbl.fin n)) .NULL .NULL)
          (js_Ast.strnode .EXP_IDENTIFIER 1 x) .NULL .NULL) .NULL .NULL .NULL (Dbl.fin 0) none :=
      rfl
    rw [e, hl]
    rfl
  · obtain ⟨k, hk⟩ := jsP_parse_of_script (J := initState) (script_sumRight x m n hx)
    refine ⟨k, fun fuel hf => ?_⟩
    rw [hk fuel hf]
    have hl := jsP_foldconst_left_open .AST_LIST 1
      (js_Ast.new .EXP_ADD 1
        (js_Ast.new .EXP_ADD 1 (js_Ast.strnode .EXP_IDENTIFIER 0 x)
          (js_Ast.numnode .EXP_NUMBER 1 (Dbl.fin m)) .NULL .NULL)
        (js_Ast.numnode .EXP_NUMBER 1 (Dbl.fin n)) .NULL .NULL) .NULL .NULL .NULL
      (Dbl.fin 0) none (by decide)
      (by rw [jsP_foldconst_sumRight _ _ _ _ _ _ _ _ _ (by decide) (by decide)
        (jsP_foldconst_identifier 0 x)])
    rw [jsP_foldconst_sumRight _ _ _ _ _ _ _ _ _ (by decide) (by decide)
      (jsP_foldconst_identifier 0 x)] at hl
    have hnull : jsP_foldconst .NULL = (.NULL, false) := by simp [jsP_foldconst]
    rw [hnull] at hl
    have e : js_Ast.new .AST_LIST 1
        (js_Ast.new .EXP_ADD 1
          (js_Ast.new .EXP_ADD 1 (js_Ast.strnode .EXP_IDENTIFIER 0 x)
            (js_Ast.numnode .EXP_NUMBER 1 (Dbl.fin m)) .NULL .NULL)
          (js_Ast.numnode .EXP_NUMBER 1 (Dbl.fin n)) .NULL .NULL) .NULL .NULL .NULL =
        .node .AST_LIST 1 (js_Ast.new .EXP_ADD 1
          (js_Ast.new .EXP_ADD 1 (js_Ast.strnode .EXP_IDENTIFIER 0 x)
            (js_Ast.numnode .EXP_NUMBER 1 (Dbl.fin m)) .NULL .NULL)
          (js_Ast.numnode .EXP_NUMBER 1 (Dbl.fin n)) .NULL .NULL) .NULL .NULL .NULL
          (Dbl.fin 0) none := rfl
    rw [e, hl]
    rfl

/-- C38 on `1 + 2 + x`, whose inner sum folds to the literal 3. -/
theorem no_reassociation_witness :
    plainName "x" ∧
    ∃ k, ∀ fuel, k ≤ fuel → jsP_parse fuel "f.js" (sumLeft 1 2 "x") initState =
      .ok (js_Ast.new .AST_LIST 1
        (js_Ast.new .EXP_ADD 1 (js_Ast.numnode .EXP_NUMBER 1 (Dbl.fin 3))
          (js_Ast.strnode .EXP_IDENTIFIER 1 "x") .NULL .NULL) .NULL .NULL .NULL)
        (advance 5 (startOfFile (sumLeft 1 2 "x"))) := by
  refine ⟨by decide, ?_⟩
  have h := (no_reassociation 1 2 "x" (by decide)).1
  have e : Dbl.add (Dbl.fin 1) (Dbl.fin 2) = Dbl.fin 3 := by
    have := Dbl.add_int 1 2 (by norm_num)
    simpa using this
  rw [e] at h
  exact h

/-! ## The parse functions change the state through `jsP_next` and
`jsP_warning` only -/

theorem reach_trans {J J1 J2 : js_State} (h1 : Reach J J1) (h2 : Reach J1 J2) :
    Reach J J2 := by
  induction h2 with
  | refl => exact h1
  | next _ ih => exact Reach.next ih
  | warn w _ ih => exact Reach.warn w ih

theorem moves_bind {α β : Type} {x : P α} {f : α → P β}
    (hx : Moves x) (hf : ∀ v, Moves (f v)) : Moves (x >>= f) := by
  refine ⟨fun J v J1 h => ?_⟩
  simp only [bind_apply] at h
  cases hxJ : x J with
  | ok w J2 =>
    rw [hxJ] at h
    exact reach_trans (hx.out J w J2 hxJ) ((hf w).out J2 v J1 h)
  | error m => rw [hxJ] at h; cases h
  | nofuel => rw [hxJ] at h; cases h

theorem moves_pure {α : Type} (v : α) : Moves (pure v : P α) := by
  refine ⟨fun J w J1 hw => ?_⟩
  simp only [pure_apply, Res.ok.injEq] at hw
  rw [← hw.2]
  exact Reach.refl

theorem moves_error {α : Type} (msg : String) : Moves (jsP_error msg : P α) := by
  refine ⟨fun J w J1 hw => ?_⟩
  simp [jsP_error] at hw

theorem moves_ite {α : Type} {c : Prop} [Decidable c] {x y : P α}
    (hx : Moves x) (hy : Moves y) : Moves (if c then x else y) := by
  split
  · exact hx
  · exact hy

theorem moves_getJ : Moves getJ := by
  refine ⟨fun J w J1 hw => ?_⟩
  simp only [getJ_apply, Res.ok.injEq] at hw
  rw [← hw.2]
  exact Reach.refl

theorem moves_next : Moves jsP_next := by
  refine ⟨fun J w J1 hw => ?_⟩
  simp only [jsP_next_apply, Res.ok.injEq] at hw
  rw [← hw.2]
  exact Reach.next Reach.refl

theorem moves_accept (x : Tok) : Moves (jsP_accept x) := by
  refine ⟨fun J w J1 hw => ?_⟩
  rw [jsP_accept_apply] at hw
  split at hw
  · simp only [Res.ok.injEq] at hw
    rw [← hw.2]
    exact Reach.next Reach.refl
  · simp only [Res.ok.injEq] at hw
    rw [← hw.2]
    exact Reach.refl

theorem moves_warning (msg : String) : Moves (jsP_warning msg) := by
  refine ⟨fun J w J1 hw => ?_⟩
  simp only [jsP_warning, Res.ok.injEq] at hw
  rw [← hw.2]
  exact Reach.warn _ Reach.refl

theorem moves_newnode (t : js_AstType) (a b c d : js_Ast) :
    Moves (jsP_newnode t a b c d) := by
  refine ⟨fun J w J1 hw => ?_⟩
  simp only [jsP_newnode_apply, Res.ok.injEq] at hw
  rw [← hw.2]
  exact Reach.refl

theorem moves_newstrnode (t : js_AstType) (s : String) : Moves (jsP_newstrnode t s) := by
  refine ⟨fun J w J1 hw => ?_⟩
  simp only [jsP_newstrnode_apply, Res.ok.injEq] at hw
  rw [← hw.2]
  exact Reach.refl

theorem moves_newnumnode (t : js_AstType) (x : Dbl) : Moves (jsP_newnumnode t x) := by
  refine ⟨fun J w J1 hw => ?_⟩
  simp only [jsP_newnumnode_apply, Res.ok.injEq] at hw
  rw [← hw.2]
  exact Reach.refl

theorem moves_expect (x : Tok) : Moves (jsP_expect x) := by
  simp only [jsP_expect]
  repeat' first
    | with_reducible apply moves_accept
    | with_reducible apply moves_getJ
    | with_reducible apply moves_pure
    | with_reducible apply moves_error
    | with_reducible apply moves_ite
    | with_reducible apply moves_bind
    | intro _

theorem moves_semicolon : Moves jsP_semicolon := by
  simp only [jsP_semicolon]
  repeat' first
    | with_reducible apply moves_next
    | with_reducible apply moves_getJ
    | with_reducible apply moves_pure
    | with_reducible apply moves_error
    | with_reducible apply moves_ite
    | with_reducible apply moves_bind
    | intro _

theorem moves_checkfutureword (s : String) : Moves (checkfutureword s) := by
  simp only [checkfutureword]
  repeat' first
    | with_reducible apply moves_getJ
    | with_reducible apply moves_pure
    | with_reducible apply moves_error
    | with_reducible apply moves_ite
    | with_reducible apply moves_bind
    | intro _

/-! Every parse function moves the state through `jsP_next` and `jsP_warning`
only, provided the calls through the handle do. -/

theorem identifier_moves :
    Moves (identifier) := by
  simp only [identifier, EXP0, EXP1, EXP2, EXP3, STM4, LIST, jsP_list]
  repeat' first
    | with_reducible apply moves_getJ
    | with_reducible apply moves_next
    | with_reducible apply moves_checkfutureword
    | with_reducible apply moves_newstrnode
    | with_reducible apply moves_pure
    | with_reducible apply moves_error
    | with_reducible apply moves_ite
    | with_reducible apply moves_bind
    | intro _

theorem identifieropt_moves :
    Moves (identifieropt) := by
  simp only [identifieropt, EXP0, EXP1, EXP2, EXP3, STM4, LIST, jsP_list]
  repeat' first
    | with_reducible apply identifier_moves
    | with_reducible apply moves_getJ
    | with_reducible apply moves_pure
    | with_reducible apply moves_ite
    | with_reducible apply moves_bind
    | intro _

theorem identifiername_moves :
    Moves (identifiername) := by
  simp only [identifiername, EXP0, EXP1, EXP2, EXP3, STM4, LIST, jsP_list]
  repeat' first
    | with_reducible apply identifier_moves
    | with_reducible apply moves_getJ
    | with_reducible apply moves_next
    | with_reducible apply moves_newstrnode
    | with_reducible apply moves_pure
    | with_reducible apply moves_error
    | with_reducible apply moves_ite
    | with_reducible apply moves_bind
    | intro _

theorem arrayelement_moves {R : Rec} (hR : ∀ fn, Moves (R fn)) :
    Moves (arrayelement R) := by
  simp only [arrayelement, EXP0, EXP1, EXP2, EXP3, STM4, LIST, jsP_list]
  repeat' first
    | with_reducible apply hR
    | with_reducible apply moves_getJ
    | with_reducible apply moves_newnode
    | with_reducible apply moves_pure
    | with_reducible apply moves_ite
    | with_reducible apply moves_bind
    | intro _

theorem arrayliteral_loop_moves {R : Rec} (hR : ∀ fn, Moves (R fn)) :
    Moves (arrayliteral_loop R) := by
  simp only [arrayliteral_loop, EXP0, EXP1, EXP2, EXP3, STM4, LIST, jsP_list]
  repeat' first
    | with_reducible apply hR
    | with_reducible apply arrayelement_moves hR
    | with_reducible apply moves_getJ
    | with_reducible apply moves_accept
    | with_reducible apply moves_newnode
    | with_reducible apply moves_pure
    | with_reducible apply moves_ite
    | with_reducible apply moves_bind
    | intro _

theorem arrayliteral_moves {R : Rec} (hR : ∀ fn, Moves (R fn)) :
    Moves (arrayliteral R) := by
  simp only [arrayliteral, EXP0, EXP1, EXP2, EXP3, STM4, LIST, jsP_list]
  repeat' first
    | with_reducible apply hR
    | with_reducible apply arrayelement_moves hR
    | with_reducible apply arrayliteral_loop_moves hR
    | with_reducible apply moves_getJ
    | with_reducible apply moves_newnode
    | with_reducible apply moves_pure
    | with_reducible apply moves_ite
    | with_reducible apply moves_bind
    | intro _

theorem propname_moves :
    Moves (propname) := by
  simp only [propname, EXP0, EXP1, EXP2, EXP3, STM4, LIST, jsP_list]
  repeat' first
    | with_reducible apply identifiername_moves
    | with_reducible apply moves_getJ
    | with_reducible apply moves_next
    | with_reducible apply moves_newstrnode
    | with_reducible apply moves_newnumnode
    | with_reducible apply moves_pure
    | with_reducible apply moves_ite
    | with_reducible apply moves_bind
    | intro _

theorem parameters_loop_moves {R : Rec} (hR : ∀ fn, Moves (R fn)) :
    Moves (parameters_loop R) := by
  simp only [parameters_loop, EXP0, EXP1, EXP2, EXP3, STM4, LIST, jsP_list]
  repeat' first
    | with_reducible apply hR
    | with_reducible apply identifier_moves
    | with_reducible apply moves_accept
    | with_reducible apply moves_newnode
    | with_reducible apply moves_pure
    | with_reducible apply moves_ite
    | with_reducible apply moves_bind
    | intro _

theorem parameters_moves {R : Rec} (hR : ∀ fn, Moves (R fn)) :
    Moves (parameters R) := by
  simp only [parameters, EXP0, EXP1, EXP2, EXP3, STM4, LIST, jsP_list]
  repeat' first
    | with_reducible apply hR
    | with_reducible apply identifier_moves
    | with_reducible apply parameters_loop_moves hR
    | with_reducible apply moves_getJ
    | with_reducible apply moves_newnode
    | with_reducible apply moves_pure
    | with_reducible apply moves_ite
    | with_reducible apply moves_bind
    | intro _

theorem propassign_moves {R : Rec} (hR : ∀ fn, Moves (R fn)) :
    Moves (propassign R) := by
  simp only [propassign, EXP0, EXP1, EXP2, EXP3, STM4, LIST, jsP_list]
  repeat' first
    | with_reducible apply hR
    | with_reducible apply identifier_moves
    | with_reducible apply propname_moves
    | with_reducible apply moves_getJ
    | with_reducible apply moves_expect
    | with_reducible apply moves_newnode
    | with_reducible apply moves_pure
    | with_reducible apply moves_ite
    | with_reducible apply moves_bind
    | intro _

theorem objectliteral_loop_moves {R : Rec} (hR : ∀ fn, Moves (R fn)) :
    Moves (objectliteral_loop R) := by
  simp only [objectliteral_loop, EXP0, EXP1, EXP2, EXP3, STM4, LIST, jsP_list]
  repeat' first
    | with_reducible apply hR
    | with_reducible apply propassign_moves hR
    | with_reducible apply moves_getJ
    | with_reducible apply moves_accept
    | with_reducible apply moves_newnode
    | with_reducible apply moves_pure
    | with_reducible apply moves_ite
    | with_reducible apply moves_bind
    | intro _

theorem objectliteral_moves {R : Rec} (hR : ∀ fn, Moves (R fn)) :
    Moves (objectliteral R) := by
  simp only [objectliteral, EXP0, EXP1, EXP2, EXP3, STM4, LIST, jsP_list]
  repeat' first
    | with_reducible apply hR
    | with_reducible apply objectliteral_loop_moves hR
    | with_reducible apply propassign_moves hR
    | with_reducible apply moves_getJ
    | with_reducible apply moves_newnode
    | with_reducible apply moves_pure
    | with_reducible apply moves_ite
    | with_reducible apply moves_bind
    | intro _

theorem fundec_moves {R : Rec} (hR : ∀ fn, Moves (R fn)) :
    Moves (fundec R) := by
  simp only [fundec, EXP0, EXP1, EXP2, EXP3, STM4, LIST, jsP_list]
  repeat' first
    | with_reducible apply hR
    | with_reducible apply identifier_moves
    | with_reducible apply parameters_moves hR
    | with_reducible apply moves_expect
    | with_reducible apply moves_newnode
    | with_reducible apply moves_pure
    | with_reducible apply moves_ite
    | with_reducible apply moves_bind
    | intro _

theorem funstm_moves {R : Rec} (hR : ∀ fn, Moves (R fn)) :
    Moves (funstm R) := by
  simp only [funstm, EXP0, EXP1, EXP2, EXP3, STM4, LIST, jsP_list]
  repeat' first
    | with_reducible apply hR
    | with_reducible apply identifier_moves
    | with_reducible apply parameters_moves hR
    | with_reducible apply moves_expect
    | with_reducible apply moves_newnode
    | with_reducible apply moves_pure
    | with_reducible apply moves_ite
    | with_reducible apply moves_bind
    | intro _

theorem funexp_moves {R : Rec} (hR : ∀ fn, Moves (R fn)) :
    Moves (funexp R) := by
  simp only [funexp, EXP0, EXP1, EXP2, EXP3, STM4, LIST, jsP_list]
  repeat' first
    | with_reducible apply hR
    | with_reducible apply identifieropt_moves
    | with_reducible apply parameters_moves hR
    | with_reducible apply moves_expect
    | with_reducible apply moves_newnode
    | with_reducible apply moves_pure
    | with_reducible apply moves_ite
    | with_reducible apply moves_bind
    | intro _

theorem primary_moves {R : Rec} (hR : ∀ fn, Moves (R fn)) :
    Moves (primary R) := by
  simp only [primary, EXP0, EXP1, EXP2, EXP3, STM4, LIST, jsP_list]
  repeat' first
    | with_reducible apply hR
    | with_reducible apply arrayliteral_moves hR
    | with_reducible apply objectliteral_moves hR
    | with_reducible apply moves_getJ
    | with_reducible apply moves_next
    | with_reducible apply moves_accept
    | with_reducible apply moves_expect
    | with_reducible apply moves_checkfutureword
    | with_reducible apply moves_newnode
    | with_reducible apply moves_newstrnode
    | with_reducible apply moves_newnumnode
    | with_reducible apply moves_pure
    | with_reducible apply moves_error
    | with_reducible apply moves_ite
    | with_reducible apply moves_bind
    | intro _

theorem arguments_loop_moves {R : Rec} (hR : ∀ fn, Moves (R fn)) :
    Moves (arguments_loop R) := by
  simp only [arguments_loop, EXP0, EXP1, EXP2, EXP3, STM4, LIST, jsP_list]
  repeat' first
    | with_reducible apply hR
    | with_reducible apply moves_accept
    | with_reducible apply moves_newnode
    | with_reducible apply moves_pure
    | with_reducible apply moves_ite
    | with_reducible apply moves_bind
    | intro _

theorem arguments_moves {R : Rec} (hR : ∀ fn, Moves (R fn)) :
    Moves (arguments R) := by
  simp only [arguments, EXP0, EXP1, EXP2, EXP3, STM4, LIST, jsP_list]
  repeat' first
    | with_reducible apply hR
    | with_reducible apply arguments_loop_moves hR
    | with_reducible apply moves_getJ
    | with_reducible apply moves_newnode
    | with_reducible apply moves_pure
    | with_reducible apply moves_ite
    | with_reducible apply moves_bind
    | intro _

theorem newexp_moves {R : Rec} (hR : ∀ fn, Moves (R fn)) :
    Moves (newexp R) := by
  simp only [newexp, EXP0, EXP1, EXP2, EXP3, STM4, LIST, jsP_list]
  repeat' first
    | with_reducible apply hR
    | with_reducible apply arguments_moves hR
    | with_reducible apply funexp_moves hR
    | with_reducible apply primary_moves hR
    | with_reducible apply moves_accept
    | with_reducible apply moves_expect
    | with_reducible apply moves_newnode
    | with_reducible apply moves_pure
    | with_reducible apply moves_ite
    | with_reducible apply moves_bind
    | intro _

theorem memberexp_loop_moves {R : Rec} (hR : ∀ fn, Moves (R fn)) (a : js_Ast) :
    Moves (memberexp_loop R a) := by
  simp only [memberexp_loop, EXP0, EXP1, EXP2, EXP3, STM4, LIST, jsP_list]
  repeat' first
    | with_reducible apply hR
    | with_reducible apply identifiername_moves
    | with_reducible apply moves_accept
    | with_reducible apply moves_expect
    | with_reducible apply moves_newnode
    | with_reducible apply moves_pure
    | with_reducible apply moves_ite
    | with_reducible apply moves_bind
    | intro _

theorem memberexp_moves {R : Rec} (hR : ∀ fn, Moves (R fn)) :
    Moves (memberexp R) := by
  simp only [memberexp, EXP0, EXP1, EXP2, EXP3, STM4, LIST, jsP_list]
  repeat' first
    | with_reducible apply hR
    | with_reducible apply memberexp_loop_moves hR
    | with_reducible apply newexp_moves hR
    | with_reducible apply moves_pure
    | with_reducible apply moves_ite
    | with_reducible apply moves_bind
    | intro _

theorem callexp_loop_moves {R : Rec} (hR : ∀ fn, Moves (R fn)) (a : js_Ast) :
    Moves (callexp_loop R a) := by
  simp only [callexp_loop, EXP0, EXP1, EXP2, EXP3, STM4, LIST, jsP_list]
  repeat' first
    | with_reducible apply hR
    | with_reducible apply arguments_moves hR
    | with_reducible apply identifiername_moves
    | with_reducible apply moves_accept
    | with_reducible apply moves_expect
    | with_reducible apply moves_newnode
    | with_reducible apply moves_pure
    | with_reducible apply moves_ite
    | with_reducible apply moves_bind
    | intro _

theorem callexp_moves {R : Rec} (hR : ∀ fn, Moves (R fn)) :
    Moves (callexp R) := by
  simp only [callexp, EXP0, EXP1, EXP2, EXP3, STM4, LIST, jsP_list]
  repeat' first
    | with_reducible apply hR
    | with_reducible apply callexp_loop_moves hR
    | with_reducible apply newexp_moves hR
    | with_reducible apply moves_pure
    | with_reducible apply moves_ite
    | with_reducible apply moves_bind
    | intro _

theorem postfixexp_moves {R : Rec} (hR : ∀ fn, Moves (R fn)) :
    Moves (postfixexp R) := by
  simp only [postfixexp, EXP0, EXP1, EXP2, EXP3, STM4, LIST, jsP_list]
  repeat' first
    | with_reducible apply hR
    | with_reducible apply callexp_moves hR
    | with_reducible apply moves_getJ
    | with_reducible apply moves_accept
    | with_reducible apply moves_newnode
    | with_reducible apply moves_pure
    | with_reducible apply moves_ite
    | with_reducible apply moves_bind
    | intro _

theorem unary_moves {R : Rec} (hR : ∀ fn, Moves (R fn)) :
    Moves (unary R) := by
  simp only [unary, EXP0, EXP1, EXP2, EXP3, STM4, LIST, jsP_list]
  repeat' first
    | with_reducible apply hR
    | with_reducible apply postfixexp_moves hR
    | with_reducible apply moves_accept
    | with_reducible apply moves_newnode
    | with_reducible apply moves_pure
    | with_reducible apply moves_ite
    | with_reducible apply moves_bind
    | intro _

theorem multiplicative_loop_moves {R : Rec} (hR : ∀ fn, Moves (R fn)) (a : js_Ast) :
    Moves (multiplicative_loop R a) := by
  simp only [multiplicative_loop, EXP0, EXP1, EXP2, EXP3, STM4, LIST, jsP_list]
  repeat' first
    | with_reducible apply hR
    | with_reducible apply unary_moves hR
    | with_reducible apply moves_accept
    | with_reducible apply moves_newnode
    | with_reducible apply moves_pure
    | with_reducible apply moves_ite
    | with_reducible apply moves_bind
    | intro _

theorem multiplicative_moves {R : Rec} (hR : ∀ fn, Moves (R fn)) :
    Moves (multiplicative R) := by
  simp only [multiplicative, EXP0, EXP1, EXP2, EXP3, STM4, LIST, jsP_list]
  repeat' first
    | with_reducible apply hR
    | with_reducible apply multiplicative_loop_moves hR
    | with_reducible apply unary_moves hR
    | with_reducible apply moves_pure
    | with_reducible apply moves_ite
    | with_reducible apply moves_bind
    | intro _

theorem additive_loop_moves {R : Rec} (hR : ∀ fn, Moves (R fn)) (a : js_Ast) :
    Moves (additive_loop R a) := by
  simp only [additive_loop, EXP0, EXP1, EXP2, EXP3, STM4, LIST, jsP_list]
  repeat' first
    | with_reducible apply hR
    | with_reducible apply multiplicative_moves hR
    | with_reducible apply moves_accept
    | with_reducible apply moves_newnode
    | with_reducible apply moves_pure
    | with_reducible apply moves_ite
    | with_reducible apply moves_bind
    | intro _

theorem additive_moves {R : Rec} (hR : ∀ fn, Moves (R fn)) :
    Moves (additive R) := by
  simp only [additive, EXP0, EXP1, EXP2, EXP3, STM4, LIST, jsP_list]
  repeat' first
    | with_reducible apply hR
    | with_reducible apply additive_loop_moves hR
    | with_reducible apply multiplicative_moves hR
    | with_reducible apply moves_pure
    | with_reducible apply moves_ite
    | with_reducible apply moves_bind
    | intro _

theorem shift_loop_moves {R : Rec} (hR : ∀ fn, Moves (R fn)) (a : js_Ast) :
    Moves (shift_loop R a) := by
  simp only [shift_loop, EXP0, EXP1, EXP2, EXP3, STM4, LIST, jsP_list]
  repeat' first
    | with_reducible apply hR
    | with_reducible apply additive_moves hR
    | with_reducible apply moves_accept
    | with_reducible apply moves_newnode
    | with_reducible apply moves_pure
    | with_reducible apply moves_ite
    | with_reducible apply moves_bind
    | intro _

theorem shift_moves {R : Rec} (hR : ∀ fn, Moves (R fn)) :
    Moves (shift R) := by
  simp only [shift, EXP0, EXP1, EXP2, EXP3, STM4, LIST, jsP_list]
  repeat' first
    | with_reducible apply hR
    | with_reducible apply additive_moves hR
    | with_reducible apply shift_loop_moves hR
    | with_reducible apply moves_pure
    | with_reducible apply moves_ite
    | with_reducible apply moves_bind
    | intro _

theorem relational_loop_moves {R : Rec} (hR : ∀ fn, Moves (R fn)) (notin : Bool) (a : js_Ast) :
    Moves (relational_loop R notin a) := by
  simp only [relational_loop, EXP0, EXP1, EXP2, EXP3, STM4, LIST, jsP_list]
  repeat' first
    | with_reducible apply hR
    | with_reducible apply shift_moves hR
    | with_reducible apply moves_accept
    | with_reducible apply moves_newnode
    | with_reducible apply moves_pure
    | with_reducible apply moves_ite
    | with_reducible apply moves_bind
    | intro _

theorem relational_moves {R : Rec} (hR : ∀ fn, Moves (R fn)) (notin : Bool) :
    Moves (relational R notin) := by
  simp only [relational, EXP0, EXP1, EXP2, EXP3, STM4, LIST, jsP_list]
  repeat' first
    | with_reducible apply hR
    | with_reducible apply relational_loop_moves hR
    | with_reducible apply shift_moves hR
    | with_reducible apply moves_pure
    | with_reducible apply moves_ite
    | with_reducible apply moves_bind
    | intro _

theorem equality_loop_moves {R : Rec} (hR : ∀ fn, Moves (R fn)) (notin : Bool) (a : js_Ast) :
    Moves (equality_loop R notin a) := by
  simp only [equality_loop, EXP0, EXP1, EXP2, EXP3, STM4, LIST, jsP_list]
  repeat' first
    | with_reducible apply hR
    | with_reducible apply relational_moves hR
    | with_reducible apply moves_accept
    | with_reducible apply moves_newnode
    | with_reducible apply moves_pure
    | with_reducible apply moves_ite
    | with_reducible apply moves_bind
    | intro _

theorem equality_moves {R : Rec} (hR : ∀ fn, Moves (R fn)) (notin : Bool) :
    Moves (equality R notin) := by
  simp only [equality, EXP0, EXP1, EXP2, EXP3, STM4, LIST, jsP_list]
  repeat' first
    | with_reducible apply hR
    | with_reducible apply equality_loop_moves hR
    | with_reducible apply relational_moves hR
    | with_reducible apply moves_pure
    | with_reducible apply moves_ite
    | with_reducible apply moves_bind
    | intro _

theorem bitand_loop_moves {R : Rec} (hR : ∀ fn, Moves (R fn)) (notin : Bool) (a : js_Ast) :
    Moves (bitand_loop R notin a) := by
  simp only [bitand_loop, EXP0, EXP1, EXP2, EXP3, STM4, LIST, jsP_list]
  repeat' first
    | with_reducible apply hR
    | with_reducible apply equality_moves hR
    | with_reducible apply moves_accept
    | with_reducible apply moves_newnode
    | with_reducible apply moves_pure
    | with_reducible apply moves_ite
    | with_reducible apply moves_bind
    | intro _

theorem bitand_moves {R : Rec} (hR : ∀ fn, Moves (R fn)) (notin : Bool) :
    Moves (bitand R notin) := by
  simp only [bitand, EXP0, EXP1, EXP2, EXP3, STM4, LIST, jsP_list]
  repeat' first
    | with_reducible apply hR
    | with_reducible apply bitand_loop_moves hR
    | with_reducible apply equality_moves hR
    | with_reducible apply moves_pure
    | with_reducible apply moves_ite
    | with_reducible apply moves_bind
    | intro _

theorem bitxor_loop_moves {R : Rec} (hR : ∀ fn, Moves (R fn)) (notin : Bool) (a : js_Ast) :
    Moves (bitxor_loop R notin a) := by
  simp only [bitxor_loop, EXP0, EXP1, EXP2, EXP3, STM4, LIST, jsP_list]
  repeat' first
    | with_reducible apply hR
    | with_reducible apply bitand_moves hR
    | with_reducible apply moves_accept
    | with_reducible apply moves_newnode
    | with_reducible apply moves_pure
    | with_reducible apply moves_ite
    | with_reducible apply moves_bind
    | intro _

theorem bitxor_moves {R : Rec} (hR : ∀ fn, Moves (R fn)) (notin : Bool) :
    Moves (bitxor R notin) := by
  simp only [bitxor, EXP0, EXP1, EXP2, EXP3, STM4, LIST, jsP_list]
  repeat' first
    | with_reducible apply hR
    | with_reducible apply bitand_moves hR
    | with_reducible apply bitxor_loop_moves hR
    | with_reducible apply moves_pure
    | with_reducible apply moves_ite
    | with_reducible apply moves_bind
    | intro _

theorem bitor_loop_moves {R : Rec} (hR : ∀ fn, Moves (R fn)) (notin : Bool) (a : js_Ast) :
    Moves (bitor_loop R notin a) := by
  simp only [bitor_loop, EXP0, EXP1, EXP2, EXP3, STM4, LIST, jsP_list]
  repeat' first
    | with_reducible apply hR
    | with_reducible apply bitxor_moves hR
    | with_reducible apply moves_accept
    | with_reducible apply moves_newnode
    | with_reducible apply moves_pure
    | with_reducible apply moves_ite
    | with_reducible apply moves_bind
    | intro _

theorem bitor_moves {R : Rec} (hR : ∀ fn, Moves (R fn)) (notin : Bool) :
    Moves (bitor R notin) := by
  simp only [bitor, EXP0, EXP1, EXP2, EXP3, STM4, LIST, jsP_list]
  repeat' first
    | with_reducible apply hR
    | with_reducible apply bitor_loop_moves hR
    | with_reducible apply bitxor_moves hR
    | with_reducible apply moves_pure
    | with_reducible apply moves_ite
    | with_reducible apply moves_bind
    | intro _

theorem logand_moves {R : Rec} (hR : ∀ fn, Moves (R fn)) (notin : Bool) :
    Moves (logand R notin) := by
  simp only [logand, EXP0, EXP1, EXP2, EXP3, STM4, LIST, jsP_list]
  repeat' first
    | with_reducible apply hR
    | with_reducible apply bitor_moves hR
    | with_reducible apply moves_accept
    | with_reducible apply moves_newnode
    | with_reducible apply moves_pure
    | with_reducible apply moves_ite
    | with_reducible apply moves_bind
    | intro _

theorem logor_moves {R : Rec} (hR : ∀ fn, Moves (R fn)) (notin : Bool) :
    Moves (logor R notin) := by
  simp only [logor, EXP0, EXP1, EXP2, EXP3, STM4, LIST, jsP_list]
  repeat' first
    | with_reducible apply hR
    | with_reducible apply logand_moves hR
    | with_reducible apply moves_accept
    | with_reducible apply moves_newnode
    | with_reducible apply moves_pure
    | with_reducible apply moves_ite
    | with_reducible apply moves_bind
    | intro _

theorem conditional_moves {R : Rec} (hR : ∀ fn, Moves (R fn)) (notin : Bool) :
    Moves (conditional R notin) := by
  simp only [conditional, EXP0, EXP1, EXP2, EXP3, STM4, LIST, jsP_list]
  repeat' first
    | with_reducible apply hR
    | with_reducible apply logor_moves hR
    | with_reducible apply moves_accept
    | with_reducible apply moves_expect
    | with_reducible apply moves_newnode
    | with_reducible apply moves_pure
    | with_reducible apply moves_ite
    | with_reducible apply moves_bind
    | intro _

theorem assignment_moves {R : Rec} (hR : ∀ fn, Moves (R fn)) (notin : Bool) :
    Moves (assignment R notin) := by
  simp only [assignment, EXP0, EXP1, EXP2, EXP3, STM4, LIST, jsP_list]
  repeat' first
    | with_reducible apply hR
    | with_reducible apply conditional_moves hR
    | with_reducible apply moves_accept
    | with_reducible apply moves_newnode
    | with_reducible apply moves_pure
    | with_reducible apply moves_ite
    | with_reducible apply moves_bind
    | intro _

theorem expression_loop_moves {R : Rec} (hR : ∀ fn, Moves (R fn)) (notin : Bool) (a : js_Ast) :
    Moves (expression_loop R notin a) := by
  simp only [expression_loop, EXP0, EXP1, EXP2, EXP3, STM4, LIST, jsP_list]
  repeat' first
    | with_reducible apply hR
    | with_reducible apply assignment_moves hR
    | with_reducible apply moves_accept
    | with_reducible apply moves_newnode
    | with_reducible apply moves_pure
    | with_reducible apply moves_ite
    | with_reducible apply moves_bind
    | intro _

theorem expression_moves {R : Rec} (hR : ∀ fn, Moves (R fn)) (notin : Bool) :
    Moves (expression R notin) := by
  simp only [expression, EXP0, EXP1, EXP2, EXP3, STM4, LIST, jsP_list]
  repeat' first
    | with_reducible apply hR
    | with_reducible apply assignment_moves hR
    | with_reducible apply expression_loop_moves hR
    | with_reducible apply moves_pure
    | with_reducible apply moves_ite
    | with_reducible apply moves_bind
    | intro _

theorem vardec_moves {R : Rec} (hR : ∀ fn, Moves (R fn)) (notin : Bool) :
    Moves (vardec R notin) := by
  simp only [vardec, EXP0, EXP1, EXP2, EXP3, STM4, LIST, jsP_list]
  repeat' first
    | with_reducible apply hR
    | with_reducible apply assignment_moves hR
    | with_reducible apply identifier_moves
    | with_reducible apply moves_accept
    | with_reducible apply moves_newnode
    | with_reducible apply moves_pure
    | with_reducible apply moves_ite
    | with_reducible apply moves_bind
    | intro _

theorem vardeclist_loop_moves {R : Rec} (hR : ∀ fn, Moves (R fn)) (notin : Bool) :
    Moves (vardeclist_loop R notin) := by
  simp only [vardeclist_loop, EXP0, EXP1, EXP2, EXP3, STM4, LIST, jsP_list]
  repeat' first
    | with_reducible apply hR
    | with_reducible apply vardec_moves hR
    | with_reducible apply moves_accept
    | with_reducible apply moves_newnode
    | with_reducible apply moves_pure
    | with_reducible apply moves_ite
    | with_reducible apply moves_bind
    | intro _

theorem vardeclist_moves {R : Rec} (hR : ∀ fn, Moves (R fn)) (notin : Bool) :
    Moves (vardeclist R notin) := by
  simp only [vardeclist, EXP0, EXP1, EXP2, EXP3, STM4, LIST, jsP_list]
  repeat' first
    | with_reducible apply hR
    | with_reducible apply vardec_moves hR
    | with_reducible apply vardeclist_loop_moves hR
    | with_reducible apply moves_newnode
    | with_reducible apply moves_pure
    | with_reducible apply moves_ite
    | with_reducible apply moves_bind
    | intro _

theorem statementlist_loop_moves {R : Rec} (hR : ∀ fn, Moves (R fn)) :
    Moves (statementlist_loop R) := by
  simp only [statementlist_loop, EXP0, EXP1, EXP2, EXP3, STM4, LIST, jsP_list]
  repeat' first
    | with_reducible apply hR
    | with_reducible apply moves_getJ
    | with_reducible apply moves_newnode
    | with_reducible apply moves_pure
    | with_reducible apply moves_ite
    | with_reducible apply moves_bind
    | intro _

theorem statementlist_moves {R : Rec} (hR : ∀ fn, Moves (R fn)) :
    Moves (statementlist R) := by
  simp only [statementlist, EXP0, EXP1, EXP2, EXP3, STM4, LIST, jsP_list]
  repeat' first
    | with_reducible apply hR
    | with_reducible apply statementlist_loop_moves hR
    | with_reducible apply moves_getJ
    | with_reducible apply moves_newnode
    | with_reducible apply moves_pure
    | with_reducible apply moves_ite
    | with_reducible apply moves_bind
    | intro _

theorem caseclause_moves {R : Rec} (hR : ∀ fn, Moves (R fn)) :
    Moves (caseclause R) := by
  simp only [caseclause, EXP0, EXP1, EXP2, EXP3, STM4, LIST, jsP_list]
  repeat' first
    | with_reducible apply hR
    | with_reducible apply expression_moves hR
    | with_reducible apply statementlist_moves hR
    | with_reducible apply moves_getJ
    | with_reducible apply moves_accept
    | with_reducible apply moves_expect
    | with_reducible apply moves_newnode
    | with_reducible apply moves_pure
    | with_reducible apply moves_error
    | with_reducible apply moves_ite
    | with_reducible apply moves_bind
    | intro _

theorem caselist_loop_moves {R : Rec} (hR : ∀ fn, Moves (R fn)) :
    Moves (caselist_loop R) := by
  simp only [caselist_loop, EXP0, EXP1, EXP2, EXP3, STM4, LIST, jsP_list]
  repeat' first
    | with_reducible apply hR
    | with_reducible apply caseclause_moves hR
    | with_reducible apply moves_getJ
    | with_reducible apply moves_newnode
    | with_reducible apply moves_pure
    | with_reducible apply moves_ite
    | with_reducible apply moves_bind
    | intro _

theorem caselist_moves {R : Rec} (hR : ∀ fn, Moves (R fn)) :
    Moves (caselist R) := by
  simp only [caselist, EXP0, EXP1, EXP2, EXP3, STM4, LIST, jsP_list]
  repeat' first
    | with_reducible apply hR
    | with_reducible apply caseclause_moves hR
    | with_reducible apply caselist_loop_moves hR
    | with_reducible apply moves_getJ
    | with_reducible apply moves_newnode
    | with_reducible apply moves_pure
    | with_reducible apply moves_ite
    | with_reducible apply moves_bind
    | intro _

theorem block_moves {R : Rec} (hR : ∀ fn, Moves (R fn)) :
    Moves (block R) := by
  simp only [block, EXP0, EXP1, EXP2, EXP3, STM4, LIST, jsP_list]
  repeat' first
    | with_reducible apply hR
    | with_reducible apply statementlist_moves hR
    | with_reducible apply moves_expect
    | with_reducible apply moves_newnode
    | with_reducible apply moves_pure
    | with_reducible apply moves_ite
    | with_reducible apply moves_bind
    | intro _

theorem forexpression_moves {R : Rec} (hR : ∀ fn, Moves (R fn)) (end_ : Tok) :
    Moves (forexpression R end_) := by
  simp only [forexpression, EXP0, EXP1, EXP2, EXP3, STM4, LIST, jsP_list]
  repeat' first
    | with_reducible apply hR
    | with_reducible apply expression_moves hR
    | with_reducible apply moves_getJ
    | with_reducible apply moves_expect
    | with_reducible apply moves_pure
    | with_reducible apply moves_ite
    | with_reducible apply moves_bind
    | intro _

theorem forstatement_moves {R : Rec} (hR : ∀ fn, Moves (R fn)) :
    Moves (forstatement R) := by
  simp only [forstatement, EXP0, EXP1, EXP2, EXP3, STM4, LIST, jsP_list]
  repeat' first
    | with_reducible apply hR
    | with_reducible apply expression_moves hR
    | with_reducible apply forexpression_moves hR
    | with_reducible apply vardeclist_moves hR
    | with_reducible apply moves_getJ
    | with_reducible apply moves_accept
    | with_reducible apply moves_expect
    | with_reducible apply moves_newnode
    | with_reducible apply moves_pure
    | with_reducible apply moves_error
    | with_reducible apply moves_ite
    | with_reducible apply moves_bind
    | intro _

theorem statement_moves {R : Rec} (hR : ∀ fn, Moves (R fn)) :
    Moves (statement R) := by
  simp only [statement, EXP0, EXP1, EXP2, EXP3, STM4, LIST, jsP_list]
  repeat' first
    | with_reducible apply hR
    | with_reducible apply block_moves hR
    | with_reducible apply caselist_moves hR
    | with_reducible apply expression_moves hR
    | with_reducible apply forstatement_moves hR
    | with_reducible apply funstm_moves hR
    | with_reducible apply identifier_moves
    | with_reducible apply identifieropt_moves
    | with_reducible apply vardeclist_moves hR
    | with_reducible apply moves_getJ
    | with_reducible apply moves_accept
    | with_reducible apply moves_expect
    | with_reducible apply moves_semicolon
    | with_reducible apply moves_warning
    | with_reducible apply moves_newnode
    | with_reducible apply moves_pure
    | with_reducible apply moves_error
    | with_reducible apply moves_ite
    | with_reducible apply moves_bind
    | intro _

theorem scriptelement_moves {R : Rec} (hR : ∀ fn, Moves (R fn)) :
    Moves (scriptelement R) := by
  simp only [scriptelement, EXP0, EXP1, EXP2, EXP3, STM4, LIST, jsP_list]
  repeat' first
    | with_reducible apply hR
    | with_reducible apply fundec_moves hR
    | with_reducible apply statement_moves hR
    | with_reducible apply moves_accept
    | with_reducible apply moves_pure
    | with_reducible apply moves_ite
    | with_reducible apply moves_bind
    | intro _

theorem script_loop_moves {R : Rec} (hR : ∀ fn, Moves (R fn)) (terminator : Tok) :
    Moves (script_loop R terminator) := by
  simp only [script_loop, EXP0, EXP1, EXP2, EXP3, STM4, LIST, jsP_list]
  repeat' first
    | with_reducible apply hR
    | with_reducible apply scriptelement_moves hR
    | with_reducible apply moves_getJ
    | with_reducible apply moves_newnode
    | with_reducible apply moves_pure
    | with_reducible apply moves_ite
    | with_reducible apply moves_bind
    | intro _

theorem script_moves {R : Rec} (hR : ∀ fn, Moves (R fn)) (terminator : Tok) :
    Moves (script R terminator) := by
  simp only [script, EXP0, EXP1, EXP2, EXP3, STM4, LIST, jsP_list]
  repeat' first
    | with_reducible apply hR
    | with_reducible apply script_loop_moves hR
    | with_reducible apply scriptelement_moves hR
    | with_reducible apply moves_getJ
    | with_reducible apply moves_newnode
    | with_reducible apply moves_pure
    | with_reducible apply moves_ite
    | with_reducible apply moves_bind
    | intro _

theorem funbody_moves {R : Rec} (hR : ∀ fn, Moves (R fn)) :
    Moves (funbody R) := by
  simp only [funbody, EXP0, EXP1, EXP2, EXP3, STM4, LIST, jsP_list]
  repeat' first
    | with_reducible apply hR
    | with_reducible apply script_moves hR
    | with_reducible apply moves_expect
    | with_reducible apply moves_pure
    | with_reducible apply moves_ite
    | with_reducible apply moves_bind
    | intro _

theorem step_moves {R : Rec} (hR : ∀ fn, Moves (R fn)) (fn : Fn) : Moves (step R fn) := by
  cases fn <;> simp only [step]
  · exact expression_moves hR _
  · exact assignment_moves hR _
  · exact memberexp_moves hR
  · exact statement_moves hR
  · exact funbody_moves hR
  · exact unary_moves hR
  · exact logand_moves hR _
  · exact logor_moves hR _
  · exact arrayliteral_loop_moves hR
  · exact objectliteral_loop_moves hR
  · exact parameters_loop_moves hR
  · exact arguments_loop_moves hR
  · exact memberexp_loop_moves hR _
  · exact callexp_loop_moves hR _
  · exact multiplicative_loop_moves hR _
  · exact additive_loop_moves hR _
  · exact shift_loop_moves hR _
  · exact relational_loop_moves hR _ _
  · exact equality_loop_moves hR _ _
  · exact bitand_loop_moves hR _ _
  · exact bitxor_loop_moves hR _ _
  · exact bitor_loop_moves hR _ _
  · exact expression_loop_moves hR _ _
  · exact vardeclist_loop_moves hR _
  · exact statementlist_loop_moves hR
  · exact caselist_loop_moves hR
  · exact script_loop_moves hR _

theorem run_moves (n : Nat) (fn : Fn) : Moves (run n fn) := by
  induction n generalizing fn with
  | zero => exact ⟨fun J v J1 hv => by simp [run] at hv⟩
  | succ n ih => exact step_moves ih fn

theorem script_run_moves (n : Nat) (terminator : Tok) :
    Moves (script (run n) terminator) :=
  script_moves (run_moves n) terminator

/-! ## Termination: every parse function returns or raises -/

theorem size_next_le (J : js_State) : (nextState J).size ≤ J.size := by
  unfold nextState js_State.size
  cases h : J.source with
  | nil => simp
  | cons t ts =>
    simp only [List.length_cons]
    split <;> split <;> omega

theorem size_next_lt {J : js_State} (h : J.lookahead ≠ Tok.EOF) :
    (nextState J).size + 1 ≤ J.size := by
  unfold nextState js_State.size
  cases hs : J.source with
  | nil => simp [h]
  | cons t ts =>
    simp only [List.length_cons, h, ↓reduceIte]
    split <;> omega

theorem total_weaken {α : Type} {k k1 k2 : Int} {x x1 : P α} (h : Total k k1 x x1)
    (h12 : k1 ≤ k2) : Total k k2 x x1 :=
  ⟨fun J hJ => ⟨(h.out J hJ).1, (h.out J hJ).2.1,
    fun v J1 hv => le_trans ((h.out J hJ).2.2 v J1 hv) h12⟩⟩

theorem total_bind {α β : Type} {k k1 k2 : Int} {x x1 : P α} {f f1 : α → P β}
    (hx : Total k k1 x x1) (hf : ∀ v, Total k1 k2 (f v) (f1 v)) :
    Total k k2 (x >>= f) (x1 >>= f1) := by
  refine ⟨fun J hJ => ?_⟩
  obtain ⟨e, ne, hs⟩ := hx.out J hJ
  simp only [bind_apply]
  rw [← e]
  cases hxJ : x J with
  | ok w J2 =>
    obtain ⟨e2, ne2, hs2⟩ := (hf w).out J2 (hs w J2 hxJ)
    exact ⟨e2, ne2, hs2⟩
  | error m => exact ⟨rfl, by simp, fun v J1 h => by cases h⟩
  | nofuel => exact absurd hxJ ne

theorem total_leaf {α : Type} {k : Int} {x : P α} (h0 : ∀ J, x J ≠ .nofuel)
    (h1 : ∀ J v J1, x J = .ok v J1 → J1.size ≤ J.size) : Total k k x x :=
  ⟨fun J hJ => ⟨rfl, h0 J, fun v J1 hv => by have := h1 J v J1 hv; omega⟩⟩

theorem total_pure {α : Type} {k : Int} (v : α) : Total k k (pure v : P α) (pure v) :=
  total_leaf (fun J => by simp) (fun J v J1 h => by
    simp only [pure_apply, Res.ok.injEq] at h
    rw [h.2])

theorem total_error {α : Type} {k : Int} (msg : String) :
    Total k (k - 1) (jsP_error msg : P α) (jsP_error msg) :=
  ⟨fun J hJ => ⟨rfl, by simp [jsP_error], fun v J1 h => by simp [jsP_error] at h⟩⟩

theorem total_ite {α : Type} {k k1 k2 : Int} {c : Prop} [Decidable c] {x y x1 y1 : P α}
    (hx : Total k k1 x x1) (hy : Total k k2 y y1) :
    Total k (max k1 k2) (if c then x else y) (if c then x1 else y1) := by
  split
  · exact total_weaken hx (le_max_left _ _)
  · exact total_weaken hy (le_max_right _ _)

theorem total_getJ {k : Int} : Total k k getJ getJ :=
  total_leaf (fun J => by simp) (fun J v J1 h => by
    simp only [getJ_apply, Res.ok.injEq] at h
    rw [h.2])

theorem total_next {k : Int} : Total k k jsP_next jsP_next :=
  total_leaf (fun J => by simp) (fun J v J1 h => by
    simp only [jsP_next_apply, Res.ok.injEq] at h
    rw [← h.2]
    exact size_next_le J)

theorem total_accept {k : Int} (x : Tok) : Total k k (jsP_accept x) (jsP_accept x) :=
  total_leaf (fun J => by rw [jsP_accept_apply]; split <;> simp) (fun J v J1 h => by
    rw [jsP_accept_apply] at h
    split at h <;> simp only [Res.ok.injEq] at h <;> rw [← h.2]
    exact size_next_le J)

theorem total_warning {k : Int} (msg : String) :
    Total k k (jsP_warning msg) (jsP_warning msg) :=
  total_leaf (fun J => by simp [jsP_warning]) (fun J v J1 h => by
    simp only [jsP_warning, Res.ok.injEq] at h
    rw [← h.2]
    exact le_rfl)

theorem total_newnode {k : Int} (t : js_AstType) (a b c d : js_Ast) :
    Total k k (jsP_newnode t a b c d) (jsP_newnode t a b c d) :=
  total_leaf (fun J => by simp) (fun J v J1 h => by
    simp only [jsP_newnode_apply, Res.ok.injEq] at h
    rw [h.2])

theorem total_newstrnode {k : Int} (t : js_AstType) (s : String) :
    Total k k (jsP_newstrnode t s) (jsP_newstrnode t s) :=
  total_leaf (fun J => by simp) (fun J v J1 h => by
    simp only [jsP_newstrnode_apply, Res.ok.injEq] at h
    rw [h.2])

theorem total_newnumnode {k : Int} (t : js_AstType) (x : Dbl) :
    Total k k (jsP_newnumnode t x) (jsP_newnumnode t x) :=
  total_leaf (fun J => by simp) (fun J v J1 h => by
    simp only [jsP_newnumnode_apply, Res.ok.injEq] at h
    rw [h.2])

/-- An accepted token other than end-of-input is consumed. -/
theorem total_accept_ite {α : Type} {k k1 k2 : Int} {x : Tok} {A B A1 B1 : P α}
    (hx : x ≠ Tok.EOF) (hA : Total (k - 1) k1 A A1) (hB : Total k k2 B B1) :
    Total k (max k1 k2) (jsP_accept x >>= fun b => if b = true then A else B)
      (jsP_accept x >>= fun b => if b = true then A1 else B1) := by
  refine ⟨fun J hJ => ?_⟩
  simp only [bind_apply, jsP_accept_apply]
  by_cases h : J.lookahead = x
  · simp only [h, ↓reduceIte]
    have hlt := size_next_lt (J := J) (by rw [h]; exact hx)
    obtain ⟨e, ne, hs⟩ := hA.out (nextState J) (by omega)
    exact ⟨e, ne, fun v J1 hv => le_trans (hs v J1 hv) (le_max_left _ _)⟩
  · simp only [h, ↓reduceIte, Bool.false_eq_true]
    obtain ⟨e, ne, hs⟩ := hB.out J hJ
    exact ⟨e, ne, fun v J1 hv => le_trans (hs v J1 hv) (le_max_right _ _)⟩

/-- An expected token other than end-of-input is consumed. -/
theorem total_expect {k : Int} {x : Tok} (hx : x ≠ Tok.EOF) :
    Total k (k - 1) (jsP_expect x) (jsP_expect x) := by
  refine ⟨fun J hJ => ?_⟩
  by_cases h : J.lookahead = x
  · rw [jsP_expect_eq h]
    have hlt := size_next_lt (J := J) (by rw [h]; exact hx)
    refine ⟨rfl, by simp, fun v J1 hv => ?_⟩
    simp only [Res.ok.injEq] at hv
    rw [← hv.2]
    omega
  · rw [jsP_expect_ne h]
    exact ⟨rfl, by simp, fun v J1 hv => by cases hv⟩

theorem total_semicolon {k : Int} : Total k k jsP_semicolon jsP_semicolon := by
  have h : Total k (max k (max k (k - 1))) jsP_semicolon jsP_semicolon := by
    simp only [jsP_semicolon]
    exact total_bind total_getJ (fun J => total_ite total_next
      (total_ite (total_pure _) (total_error _)))
  exact total_weaken h (by omega)

theorem total_checkfutureword {k : Int} (s : String) :
    Total k k (checkfutureword s) (checkfutureword s) := by
  have h : Total k (max (k - 1) (max (k - 1) k)) (checkfutureword s) (checkfutureword s) := by
    simp only [checkfutureword]
    exact total_bind total_getJ (fun J => total_ite (total_error _)
      (total_ite (total_error _) (total_pure _)))
  exact total_weaken h (by omega)

/-- A call through a settled handle. -/
theorem total_call {n k : Int} {R R1 : Rec} (hR : Settled n R R1) (fn : Fn)
    (hk : 2 * k + 1 < n) : Total k k (R fn) (R1 fn) := by
  refine ⟨fun J hJ => ?_⟩
  have hr : fn.rank ≤ 1 := by cases fn <;> simp [Fn.rank]
  obtain ⟨e, ne, hs⟩ := hR.out fn J (by simp only [Fn.depth]; push_cast; omega)
  exact ⟨e, ne, fun v J1 hv => by have := hs v J1 hv; omega⟩

/-- A call through a settled handle of an entry point that consumes. -/
theorem total_call_strict {n k : Int} {R R1 : Rec} (hR : Settled n R R1) (fn : Fn)
    (hs : fn.strict = true) (hk : 2 * k < n) : Total k (k - 1) (R fn) (R1 fn) := by
  refine ⟨fun J hJ => ?_⟩
  have hr : fn.rank = 0 := by cases fn <;> simp [Fn.rank, Fn.strict] at hs ⊢
  obtain ⟨e, ne, h⟩ := hR.out fn J (by simp only [Fn.depth, hr]; push_cast; omega)
  refine ⟨e, ne, fun v J1 hv => ?_⟩
  have := h v J1 hv
  simp only [hs, ↓reduceIte] at this
  omega

theorem checkfutureword_cases (s : String) (J : js_State) :
    checkfutureword s J = .ok () J ∨ ∃ m, checkfutureword s J = .error m := by
  simp only [checkfutureword, bind_apply, getJ_apply]
  split
  · exact Or.inr ⟨_, rfl⟩
  · split
    · exact Or.inr ⟨_, rfl⟩
    · exact Or.inl rfl

/-- The outcome of a function that consumes the lookahead, which is not
end-of-input, or raises. -/
theorem total_token {α : Type} {k : Int} {J : js_State} {r r1 : Res α}
    (hr : (∃ v, r = .ok v (nextState J)) ∨ ∃ m, r = .error m) (hr1 : r1 = r)
    (h0 : J.lookahead ≠ Tok.EOF) (hJ : (J.size : Int) ≤ k) :
    r = r1 ∧ r ≠ .nofuel ∧ ∀ v J1, r = .ok v J1 → (J1.size : Int) ≤ k - 1 := by
  have hlt := size_next_lt h0
  subst hr1
  rcases hr with ⟨w, rfl⟩ | ⟨m, rfl⟩
  · refine ⟨rfl, by simp, fun v J1 hv => ?_⟩
    simp only [Res.ok.injEq] at hv
    rw [← hv.2]
    omega
  · exact ⟨rfl, by simp, fun v J1 hv => by cases hv⟩

theorem identifier_total {k : Int} : Total k (k - 1) identifier identifier := by
  refine ⟨fun J hJ => ?_⟩
  by_cases h : J.lookahead = Tok.TK_IDENTIFIER
  · refine total_token ?_ rfl (by rw [h]; decide) hJ
    rcases checkfutureword_cases J.text J with hc | ⟨m, hc⟩
    · exact Or.inl ⟨js_Ast.strnode .AST_IDENTIFIER J.astline J.text,
        by simp [identifier, h, hc]⟩
    · exact Or.inr ⟨m, by simp [identifier, h, hc]⟩
  · rw [identifier_error h]
    exact ⟨rfl, by simp, fun v J1 hv => by cases hv⟩

theorem identifieropt_total {k : Int} : Total k k identifieropt identifieropt := by
  have h : Total k (max (k - 1) k) identifieropt identifieropt := by
    simp only [identifieropt]
    exact total_bind total_getJ (fun J => total_ite identifier_total (total_pure _))
  exact total_weaken h (by omega)

theorem identifiername_total {k : Int} : Total k (k - 1) identifiername identifiername := by
  refine ⟨fun J hJ => ?_⟩
  by_cases h : J.lookahead = Tok.TK_IDENTIFIER ∨ J.lookahead.isKeyword = true
  · refine total_token (Or.inl ⟨_, identifiername_ok h⟩) rfl ?_ hJ
    rcases h with h | h
    · rw [h]; decide
    · intro h'
      rw [h'] at h
      simp [Tok.isKeyword] at h
  · have : identifiername J = .error
        (snprintf256 (J.filename ++ ":" ++ toString J.lexline ++ ": ") ++
          ("unexpected token: " ++ jsY_tokenstring J.lookahead ++
            " (expected identifier or keyword)")) := by
      simp only [not_or] at h
      simp [identifiername, h.1, h.2, jsP_error,
        snprintf256_token_tail "unexpected token: " " (expected identifier or keyword)" _
          (by decide)]
    rw [this]
    exact ⟨rfl, by simp, fun v J1 hv => by cases hv⟩

theorem propname_total {k : Int} : Total k (k - 1) propname propname := by
  refine ⟨fun J hJ => ?_⟩
  by_cases h1 : J.lookahead = Tok.TK_NUMBER
  · exact total_token (Or.inl ⟨_, propname_number h1⟩) rfl (by rw [h1]; decide) hJ
  · by_cases h2 : J.lookahead = Tok.TK_STRING
    · exact total_token (Or.inl ⟨_, propname_string h2⟩) rfl (by rw [h2]; decide) hJ
    · have : propname J = identifiername J := by simp [propname, h1, h2]
      rw [this]
      exact identifiername_total.out J hJ

set_option linter.unusedTactic false
set_option linter.unreachableTactic false

/-! Every parse function returns or raises, and gives the same outcome with
either handle, when the two handles are settled below the depth it needs. -/

theorem arrayelement_total {R R1 : Rec} {n : Int} (hR : Settled n R R1)
    (k : Int) (hk : 2 * k < n) :
    Total k (k) (arrayelement R) (arrayelement R1) := by
  apply total_weaken
  · simp only [arrayelement, EXP0, EXP1, EXP2, EXP3, STM4, LIST, jsP_list]
    repeat' first
      | omega
      | decide
      | assumption
      | (refine total_call_strict hR _ rfl ?_; omega)
      | (refine total_call hR _ ?_; omega)
      | with_reducible apply total_getJ
      | with_reducible apply total_newnode
      | with_reducible apply total_ite
      | with_reducible apply total_bind
      | intro _
  · omega

theorem arrayliteral_loop_total {R R1 : Rec} {n : Int} (hR : Settled n R R1)
    (k : Int) (hk : 2 * k ≤ n) :
    Total k (k) (arrayliteral_loop R) (arrayliteral_loop R1) := by
  apply total_weaken
  · simp only [arrayliteral_loop, EXP0, EXP1, EXP2, EXP3, STM4, LIST, jsP_list]
    repeat' first
      | omega
      | decide
      | assumption
      | (refine total_call_strict hR _ rfl ?_; omega)
      | (refine total_call hR _ ?_; omega)
      | with_reducible apply arrayelement_total hR
      | with_reducible apply total_accept_ite
      | with_reducible apply total_getJ
      | with_reducible apply total_accept _
      | with_reducible apply total_newnode
      | with_reducible apply total_pure
      | with_reducible apply total_ite
      | with_reducible apply total_bind
      | intro _
  · omega

theorem arrayliteral_total {R R1 : Rec} {n : Int} (hR : Settled n R R1)
    (k : Int) (hk : 2 * k < n) :
    Total k (k) (arrayliteral R) (arrayliteral R1) := by
  apply total_weaken
  · simp only [arrayliteral, EXP0, EXP1, EXP2, EXP3, STM4, LIST, jsP_list]
    repeat' first
      | omega
      | decide
      | assumption
      | (refine total_call_strict hR _ rfl ?_; omega)
      | (refine total_call hR _ ?_; omega)
      | with_reducible apply arrayelement_total hR
      | with_reducible apply arrayliteral_loop_total hR
      | with_reducible apply total_getJ
      | with_reducible apply total_newnode
      | with_reducible apply total_pure
      | with_reducible apply total_ite
      | with_reducible apply total_bind
      | intro _
  · omega

theorem parameters_loop_total {R R1 : Rec} {n : Int} (hR : Settled n R R1)
    (k : Int) (hk : 2 * k ≤ n) :
    Total k (k) (parameters_loop R) (parameters_loop R1) := by
  apply total_weaken
  · simp only [parameters_loop, EXP0, EXP1, EXP2, EXP3, STM4, LIST, jsP_list]
    repeat' first
      | omega
      | decide
      | assumption
      | (refine total_call_strict hR _ rfl ?_; omega)
      | (refine total_call hR _ ?_; omega)
      | with_reducible apply identifier_total
      | with_reducible apply total_accept_ite
      | with_reducible apply total_accept _
      | with_reducible apply total_newnode
      | with_reducible apply total_pure
      | with_reducible apply total_ite
      | with_reducible apply total_bind
      | intro _
  · omega

theorem parameters_total {R R1 : Rec} {n : Int} (hR : Settled n R R1)
    (k : Int) (hk : 2 * k ≤ n) :
    Total k (k) (parameters R) (parameters R1) := by
  apply total_weaken
  · simp only [parameters, EXP0, EXP1, EXP2, EXP3, STM4, LIST, jsP_list]
    repeat' first
      | omega
      | decide
      | assumption
      | (refine total_call_strict hR _ rfl ?_; omega)
      | (refine total_call hR _ ?_; omega)
      | with_reducible apply identifier_total
      | with_reducible apply parameters_loop_total hR
      | with_reducible apply total_getJ
      | with_reducible apply total_newnode
      | with_reducible apply total_pure
      | with_reducible apply total_ite
      | with_reducible apply total_bind
      | intro _
  · omega

theorem propassign_total {R R1 : Rec} {n : Int} (hR : Settled n R R1)
    (k : Int) (hk : 2 * k ≤ n) :
    Total k (k - 1) (propassign R) (propassign R1) := by
  apply total_weaken
  · simp only [propassign, EXP0, EXP1, EXP2, EXP3, STM4, LIST, jsP_list]
    repeat' first
      | omega
      | decide
      | assumption
      | (refine total_call_strict hR _ rfl ?_; omega)
      | (refine total_call hR _ ?_; omega)
      | with_reducible apply identifier_total
      | with_reducible apply propname_total
      | with_reducible apply total_expect
      | with_reducible apply total_getJ
      | with_reducible apply total_newnode
      | with_reducible apply total_ite
      | with_reducible apply total_bind
      | intro _
  · omega

theorem objectliteral_loop_total {R R1 : Rec} {n : Int} (hR : Settled n R R1)
    (k : Int) (hk : 2 * k ≤ n) :
    Total k (k) (objectliteral_loop R) (objectliteral_loop R1) := by
  apply total_weaken
  · simp only [objectliteral_loop, EXP0, EXP1, EXP2, EXP3, STM4, LIST, jsP_list]
    repeat' first
      | omega
      | decide
      | assumption
      | (refine total_call_strict hR _ rfl ?_; omega)
      | (refine total_call hR _ ?_; omega)
      | with_reducible apply propassign_total hR
      | with_reducible apply total_accept_ite
      | with_reducible apply total_getJ
      | with_reducible apply total_accept _
      | with_reducible apply total_newnode
      | with_reducible apply total_pure
      | with_reducible apply total_ite
      | with_reducible apply total_bind
      | intro _
  · omega

theorem objectliteral_total {R R1 : Rec} {n : Int} (hR : Settled n R R1)
    (k : Int) (hk : 2 * k ≤ n) :
    Total k (k) (objectliteral R) (objectliteral R1) := by
  apply total_weaken
  · simp only [objectliteral, EXP0, EXP1, EXP2, EXP3, STM4, LIST, jsP_list]
    repeat' first
      | omega
      | decide
      | assumption
      | (refine total_call_strict hR _ rfl ?_; omega)
      | (refine total_call hR _ ?_; omega)
      | with_reducible apply objectliteral_loop_total hR
      | with_reducible apply propassign_total hR
      | with_reducible apply total_getJ
      | with_reducible apply total_newnode
      | with_reducible apply total_pure
      | with_reducible apply total_ite
      | with_reducible apply total_bind
      | intro _
  · omega

theorem fundec_total {R R1 : Rec} {n : Int} (hR : Settled n R R1)
    (k : Int) (hk : 2 * k ≤ n) :
    Total k (k - 1) (fundec R) (fundec R1) := by
  apply total_weaken
  · simp only [fundec, EXP0, EXP1, EXP2, EXP3, STM4, LIST, jsP_list]
    repeat' first
      | omega
      | decide
      | assumption
      | (refine total_call_strict hR _ rfl ?_; omega)
      | (refine total_call hR _ ?_; omega)
      | with_reducible apply identifier_total
      | with_reducible apply parameters_total hR
      | with_reducible apply total_expect
      | with_reducible apply total_newnode
      | with_reducible apply total_ite
      | with_reducible apply total_bind
      | intro _
  · omega

theorem funstm_total {R R1 : Rec} {n : Int} (hR : Settled n R R1)
    (k : Int) (hk : 2 * k ≤ n) :
    Total k (k - 1) (funstm R) (funstm R1) := by
  apply total_weaken
  · simp only [funstm, EXP0, EXP1, EXP2, EXP3, STM4, LIST, jsP_list]
    repeat' first
      | omega
      | decide
      | assumption
      | (refine total_call_strict hR _ rfl ?_; omega)
      | (refine total_call hR _ ?_; omega)
      | with_reducible apply identifier_total
      | with_reducible apply parameters_total hR
      | with_reducible apply total_expect
      | with_reducible apply total_newnode
      | with_reducible apply total_ite
      | with_reducible apply total_bind
      | intro _
  · omega

theorem funexp_total {R R1 : Rec} {n : Int} (hR : Settled n R R1)
    (k : Int) (hk : 2 * k ≤ n) :
    Total k (k - 1) (funexp R) (funexp R1) := by
  apply total_weaken
  · simp only [funexp, EXP0, EXP1, EXP2, EXP3, STM4, LIST, jsP_list]
    repeat' first
      | omega
      | decide
      | assumption
      | (refine total_call_strict hR _ rfl ?_; omega)
      | (refine total_call hR _ ?_; omega)
      | with_reducible apply identifieropt_total
      | with_reducible apply parameters_total hR
      | with_reducible apply total_expect
      | with_reducible apply total_newnode
      | with_reducible apply total_ite
      | with_reducible apply total_bind
      | intro _
  · omega

theorem primary_total {R R1 : Rec} {n : Int} (hR : Settled n R R1)
    (k : Int) (hk : 2 * k ≤ n) :
    Total k (k - 1) (primary R) (primary R1) := by
  have hrest : Total k (k - 1)
    (do
      if (← jsP_accept Tok.TK_THIS) then EXP0 .EXP_THIS
      else if (← jsP_accept Tok.TK_NULL) then EXP0 .EXP_NULL
      else if (← jsP_accept Tok.TK_TRUE) then EXP0 .EXP_TRUE
      else if (← jsP_accept Tok.TK_FALSE) then EXP0 .EXP_FALSE
      else if (← jsP_accept Tok.LBRACE) then
        let l ← objectliteral R
        let a ← EXP1 .EXP_OBJECT l
        jsP_expect Tok.RBRACE
        pure a
      else if (← jsP_accept Tok.LBRACK) then
        let l ← arrayliteral R
        let a ← EXP1 .EXP_ARRAY l
        jsP_expect Tok.RBRACK
        pure a
      else if (← jsP_accept Tok.LPAREN) then
        let a ← R (.expression false)
        jsP_expect Tok.RPAREN
        pure a
      else
        let J ← getJ
        jsP_error ("unexpected token in expression: " ++ jsY_tokenstring J.lookahead)
      : P js_Ast)
    (do
      if (← jsP_accept Tok.TK_THIS) then EXP0 .EXP_THIS
      else if (← jsP_accept Tok.TK_NULL) then EXP0 .EXP_NULL
      else if (← jsP_accept Tok.TK_TRUE) then EXP0 .EXP_TRUE
      else if (← jsP_accept Tok.TK_FALSE) then EXP0 .EXP_FALSE
      else if (← jsP_accept Tok.LBRACE) then
        let l ← objectliteral R1
        let a ← EXP1 .EXP_OBJECT l
        jsP_expect Tok.RBRACE
        pure a
      else if (← jsP_accept Tok.LBRACK) then
        let l ← arrayliteral R1
        let a ← EXP1 .EXP_ARRAY l
        jsP_expect Tok.RBRACK
        pure a
      else if (← jsP_accept Tok.LPAREN) then
        let a ← R1 (.expression false)
        jsP_expect Tok.RPAREN
        pure a
      else
        let J ← getJ
        jsP_error ("unexpected token in expression: " ++ jsY_tokenstring J.lookahead)
      : P js_Ast) := by
    apply total_weaken
    · simp only [EXP0, EXP1, EXP2, EXP3, STM4, LIST, jsP_list]
      repeat' first
        | omega
        | decide
        | assumption
        | (refine total_call_strict hR _ rfl ?_; omega)
        | (refine total_call hR _ ?_; omega)
        | with_reducible apply arrayliteral_total hR
        | with_reducible apply objectliteral_total hR
        | with_reducible apply total_accept_ite
        | with_reducible apply total_expect
        | with_reducible apply total_getJ
        | with_reducible apply total_next
        | with_reducible apply total_accept _
        | with_reducible apply total_checkfutureword
        | with_reducible apply total_newnode
        | with_reducible apply total_newstrnode
        | with_reducible apply total_newnumnode
        | with_reducible apply total_pure
        | with_reducible apply total_error
        | with_reducible apply total_ite
        | with_reducible apply total_bind
        | intro _
    · omega
  refine ⟨fun J hJ => ?_⟩
  by_cases h1 : J.lookahead = Tok.TK_IDENTIFIER
  · rcases checkfutureword_cases J.text J with hc | ⟨m, hc⟩
    · have e : ∀ R : Rec, primary R J =
          .ok (js_Ast.strnode .EXP_IDENTIFIER J.astline J.text) (nextState J) :=
        fun R => by simp [primary, h1, hc]
      rw [e R, e R1]
      exact total_token (Or.inl ⟨_, rfl⟩) rfl (by rw [h1]; decide) hJ
    · have e : ∀ R : Rec, primary R J = .error m := fun R => by simp [primary, h1, hc]
      rw [e R, e R1]
      exact total_token (Or.inr ⟨_, rfl⟩) rfl (by rw [h1]; decide) hJ
  by_cases h2 : J.lookahead = Tok.TK_STRING
  · have e : ∀ R : Rec, primary R J =
        .ok (js_Ast.strnode .EXP_STRING J.astline J.text) (nextState J) :=
      fun R => by simp [primary, h2]
    rw [e R, e R1]
    exact total_token (Or.inl ⟨_, rfl⟩) rfl (by rw [h2]; decide) hJ
  by_cases h3 : J.lookahead = Tok.TK_REGEXP
  · have e : ∀ R : Rec, primary R J =
        .ok ((js_Ast.strnode .EXP_REGEXP J.astline J.text).setNumber J.number)
          (nextState J) :=
      fun R => by simp [primary, h3]
    rw [e R, e R1]
    exact total_token (Or.inl ⟨_, rfl⟩) rfl (by rw [h3]; decide) hJ
  by_cases h4 : J.lookahead = Tok.TK_NUMBER
  · rw [primary_number h4, primary_number h4]
    exact total_token (Or.inl ⟨_, rfl⟩) rfl (by rw [h4]; decide) hJ
  have e : ∀ RR : Rec, primary RR J = (do
      if (← jsP_accept Tok.TK_THIS) then EXP0 .EXP_THIS
      else if (← jsP_accept Tok.TK_NULL) then EXP0 .EXP_NULL
      else if (← jsP_accept Tok.TK_TRUE) then EXP0 .EXP_TRUE
      else if (← jsP_accept Tok.TK_FALSE) then EXP0 .EXP_FALSE
      else if (← jsP_accept Tok.LBRACE) then
        let l ← objectliteral RR
        let a ← EXP1 .EXP_OBJECT l
        jsP_expect Tok.RBRACE
        pure a
      else if (← jsP_accept Tok.LBRACK) then
        let l ← arrayliteral RR
        let a ← EXP1 .EXP_ARRAY l
        jsP_expect Tok.RBRACK
        pure a
      else if (← jsP_accept Tok.LPAREN) then
        let a ← RR (.expression false)
        jsP_expect Tok.RPAREN
        pure a
      else
        let J ← getJ
        jsP_error ("unexpected token in expression: " ++ jsY_tokenstring J.lookahead)
      : P js_Ast) J := by
    intro RR
    simp only [primary, bind_apply, getJ_apply, h1, h2, h3, h4, ↓reduceIte]
  rw [e R, e R1]
  exact hrest.out J hJ

theorem arguments_loop_total {R R1 : Rec} {n : Int} (hR : Settled n R R1)
    (k : Int) (hk : 2 * k ≤ n) :
    Total k (k) (arguments_loop R) (arguments_loop R1) := by
  apply total_weaken
  · simp only [arguments_loop, EXP0, EXP1, EXP2, EXP3, STM4, LIST, jsP_list]
    repeat' first
      | omega
      | decide
      | assumption
      | (refine total_call_strict hR _ rfl ?_; omega)
      | (refine total_call hR _ ?_; omega)
      | with_reducible apply total_accept_ite
      | with_reducible apply total_accept _
      | with_reducible apply total_newnode
      | with_reducible apply total_pure
      | with_reducible apply total_ite
      | with_reducible apply total_bind
      | intro _
  · omega

theorem arguments_total {R R1 : Rec} {n : Int} (hR : Settled n R R1)
    (k : Int) (hk : 2 * k < n) :
    Total k (k) (arguments R) (arguments R1) := by
  apply total_weaken
  · simp only [arguments, EXP0, EXP1, EXP2, EXP3, STM4, LIST, jsP_list]
    repeat' first
      | omega
      | decide
      | assumption
      | (refine total_call_strict hR _ rfl ?_; omega)
      | (refine total_call hR _ ?_; omega)
      | with_reducible apply arguments_loop_total hR
      | with_reducible apply total_getJ
      | with_reducible apply total_newnode
      | with_reducible apply total_pure
      | with_reducible apply total_ite
      | with_reducible apply total_bind
      | intro _
  · omega

theorem newexp_total {R R1 : Rec} {n : Int} (hR : Settled n R R1)
    (k : Int) (hk : 2 * k ≤ n) :
    Total k (k - 1) (newexp R) (newexp R1) := by
  apply total_weaken
  · simp only [newexp, EXP0, EXP1, EXP2, EXP3, STM4, LIST, jsP_list]
    repeat' first
      | omega
      | decide
      | assumption
      | (refine total_call_strict hR _ rfl ?_; omega)
      | (refine total_call hR _ ?_; omega)
      | with_reducible apply arguments_total hR
      | with_reducible apply funexp_total hR
      | with_reducible apply primary_total hR
      | with_reducible apply total_accept_ite
      | with_reducible apply total_expect
      | with_reducible apply total_accept _
      | with_reducible apply total_newnode
      | with_reducible apply total_ite
      | with_reducible apply total_bind
      | intro _
  · omega

theorem memberexp_loop_total {R R1 : Rec} {n : Int} (hR : Settled n R R1) (a : js_Ast)
    (k : Int) (hk : 2 * k ≤ n) :
    Total k (k) (memberexp_loop R a) (memberexp_loop R1 a) := by
  apply total_weaken
  · simp only [memberexp_loop, EXP0, EXP1, EXP2, EXP3, STM4, LIST, jsP_list]
    repeat' first
      | omega
      | decide
      | assumption
      | (refine total_call_strict hR _ rfl ?_; omega)
      | (refine total_call hR _ ?_; omega)
      | with_reducible apply identifiername_total
      | with_reducible apply total_accept_ite
      | with_reducible apply total_expect
      | with_reducible apply total_accept _
      | with_reducible apply total_newnode
      | with_reducible apply total_pure
      | with_reducible apply total_ite
      | with_reducible apply total_bind
      | intro _
  · omega

theorem memberexp_total {R R1 : Rec} {n : Int} (hR : Settled n R R1)
    (k : Int) (hk : 2 * k ≤ n) :
    Total k (k - 1) (memberexp R) (memberexp R1) := by
  apply total_weaken
  · simp only [memberexp, EXP0, EXP1, EXP2, EXP3, STM4, LIST, jsP_list]
    repeat' first
      | omega
      | decide
      | assumption
      | (refine total_call_strict hR _ rfl ?_; omega)
      | (refine total_call hR _ ?_; omega)
      | with_reducible apply memberexp_loop_total hR
      | with_reducible apply newexp_total hR
      | with_reducible apply total_bind
      | intro _
  · omega

theorem callexp_loop_total {R R1 : Rec} {n : Int} (hR : Settled n R R1) (a : js_Ast)
    (k : Int) (hk : 2 * k ≤ n) :
    Total k (k) (callexp_loop R a) (callexp_loop R1 a) := by
  apply total_weaken
  · simp only [callexp_loop, EXP0, EXP1, EXP2, EXP3, STM4, LIST, jsP_list]
    repeat' first
      | omega
      | decide
      | assumption
      | (refine total_call_strict hR _ rfl ?_; omega)
      | (refine total_call hR _ ?_; omega)
      | with_reducible apply arguments_total hR
      | with_reducible apply identifiername_total
      | with_reducible apply total_accept_ite
      | with_reducible apply total_expect
      | with_reducible apply total_accept _
      | with_reducible apply total_newnode
      | with_reducible apply total_pure
      | with_reducible apply total_ite
      | with_reducible apply total_bind
      | intro _
  · omega

theorem callexp_total {R R1 : Rec} {n : Int} (hR : Settled n R R1)
    (k : Int) (hk : 2 * k ≤ n) :
    Total k (k - 1) (callexp R) (callexp R1) := by
  apply total_weaken
  · simp only [callexp, EXP0, EXP1, EXP2, EXP3, STM4, LIST, jsP_list]
    repeat' first
      | omega
      | decide
      | assumption
      | (refine total_call_strict hR _ rfl ?_; omega)
      | (refine total_call hR _ ?_; omega)
      | with_reducible apply callexp_loop_total hR
      | with_reducible apply newexp_total hR
      | with_reducible apply total_bind
      | intro _
  · omega

theorem postfixexp_total {R R1 : Rec} {n : Int} (hR : Settled n R R1)
    (k : Int) (hk : 2 * k ≤ n) :
    Total k (k - 1) (postfixexp R) (postfixexp R1) := by
  apply total_weaken
  · simp only [postfixexp, EXP0, EXP1, EXP2, EXP3, STM4, LIST, jsP_list]
    repeat' first
      | omega
      | decide
      | assumption
      | (refine total_call_strict hR _ rfl ?_; omega)
      | (refine total_call hR _ ?_; omega)
      | with_reducible apply callexp_total hR
      | with_reducible apply total_accept_ite
      | with_reducible apply total_getJ
      | with_reducible apply total_accept _
      | with_reducible apply total_newnode
      | with_reducible apply total_pure
      | with_reducible apply total_ite
      | with_reducible apply total_bind
      | intro _
  · omega

theorem unary_total {R R1 : Rec} {n : Int} (hR : Settled n R R1)
    (k : Int) (hk : 2 * k ≤ n) :
    Total k (k - 1) (unary R) (unary R1) := by
  apply total_weaken
  · simp only [unary, EXP0, EXP1, EXP2, EXP3, STM4, LIST, jsP_list]
    repeat' first
      | omega
      | decide
      | assumption
      | (refine total_call_strict hR _ rfl ?_; omega)
      | (refine total_call hR _ ?_; omega)
      | with_reducible apply postfixexp_total hR
      | with_reducible apply total_accept_ite
      | with_reducible apply total_accept _
      | with_reducible apply total_newnode
      | with_reducible apply total_ite
      | with_reducible apply total_bind
      | intro _
  · omega

theorem multiplicative_loop_total {R R1 : Rec} {n : Int} (hR : Settled n R R1) (a : js_Ast)
    (k : Int) (hk : 2 * k ≤ n) :
    Total k (k) (multiplicative_loop R a) (multiplicative_loop R1 a) := by
  apply total_weaken
  · simp only [multiplicative_loop, EXP0, EXP1, EXP2, EXP3, STM4, LIST, jsP_list]
    repeat' first
      | omega
      | decide
      | assumption
      | (refine total_call_strict hR _ rfl ?_; omega)
      | (refine total_call hR _ ?_; omega)
      | with_reducible apply unary_total hR
      | with_reducible apply total_accept_ite
      | with_reducible apply total_accept _
      | with_reducible apply total_newnode
      | with_reducible apply total_pure
      | with_reducible apply total_ite
      | with_reducible apply total_bind
      | intro _
  · omega

theorem multiplicative_total {R R1 : Rec} {n : Int} (hR : Settled n R R1)
    (k : Int) (hk : 2 * k ≤ n) :
    Total k (k - 1) (multiplicative R) (multiplicative R1) := by
  apply total_weaken
  · simp only [multiplicative, EXP0, EXP1, EXP2, EXP3, STM4, LIST, jsP_list]
    repeat' first
      | omega
      | decide
      | assumption
      | (refine total_call_strict hR _ rfl ?_; omega)
      | (refine total_call hR _ ?_; omega)
      | with_reducible apply multiplicative_loop_total hR
      | with_reducible apply unary_total hR
      | with_reducible apply total_bind
      | intro _
  · omega

theorem additive_loop_total {R R1 : Rec} {n : Int} (hR : Settled n R R1) (a : js_Ast)
    (k : Int) (hk : 2 * k ≤ n) :
    Total k (k) (additive_loop R a) (additive_loop R1 a) := by
  apply total_weaken
  · simp only [additive_loop, EXP0, EXP1, EXP2, EXP3, STM4, LIST, jsP_list]
    repeat' first
      | omega
      | decide
      | assumption
      | (refine total_call_strict hR _ rfl ?_; omega)
      | (refine total_call hR _ ?_; omega)
      | with_reducible apply multiplicative_total hR
      | with_reducible apply total_accept_ite
      | with_reducible apply total_accept _
      | with_reducible apply total_newnode
      | with_reducible apply total_pure
      | with_reducible apply total_ite
      | with_reducible apply total_bind
      | intro _
  · omega

theorem additive_total {R R1 : Rec} {n : Int} (hR : Settled n R R1)
    (k : Int) (hk : 2 * k ≤ n) :
    Total k (k - 1) (additive R) (additive R1) := by
  apply total_weaken
  · simp only [additive, EXP0, EXP1, EXP2, EXP3, STM4, LIST, jsP_list]
    repeat' first
      | omega
      | decide
      | assumption
      | (refine total_call_strict hR _ rfl ?_; omega)
      | (refine total_call hR _ ?_; omega)
      | with_reducible apply additive_loop_total hR
      | with_reducible apply multiplicative_total hR
      | with_reducible apply total_bind
      | intro _
  · omega

theorem shift_loop_total {R R1 : Rec} {n : Int} (hR : Settled n R R1) (a : js_Ast)
    (k : Int) (hk : 2 * k ≤ n) :
    Total k (k) (shift_loop R a) (shift_loop R1 a) := by
  apply total_weaken
  · simp only [shift_loop, EXP0, EXP1, EXP2, EXP3, STM4, LIST, jsP_list]
    repeat' first
      | omega
      | decide
      | assumption
      | (refine total_call_strict hR _ rfl ?_; omega)
      | (refine total_call hR _ ?_; omega)
      | with_reducible apply additive_total hR
      | with_reducible apply total_accept_ite
      | with_reducible apply total_accept _
      | with_reducible apply total_newnode
      | with_reducible apply total_pure
      | with_reducible apply total_ite
      | with_reducible apply total_bind
      | intro _
  · omega

theorem shift_total {R R1 : Rec} {n : Int} (hR : Settled n R R1)
    (k : Int) (hk : 2 * k ≤ n) :
    Total k (k - 1) (shift R) (shift R1) := by
  apply total_weaken
  · simp only [shift, EXP0, EXP1, EXP2, EXP3, STM4, LIST, jsP_list]
    repeat' first
      | omega
      | decide
      | assumption
      | (refine total_call_strict hR _ rfl ?_; omega)
      | (refine total_call hR _ ?_; omega)
      | with_reducible apply additive_total hR
      | with_reducible apply shift_loop_total hR
      | with_reducible apply total_ite
      | with_reducible apply total_bind
      | intro _
  · omega

theorem relational_loop_total {R R1 : Rec} {n : Int} (hR : Settled n R R1) (notin : Bool) (a : js_Ast)
    (k : Int) (hk : 2 * k ≤ n) :
    Total k (k) (relational_loop R notin a) (relational_loop R1 notin a) := by
  apply total_weaken
  · simp only [relational_loop, EXP0, EXP1, EXP2, EXP3, STM4, LIST, jsP_list]
    repeat' first
      | omega
      | decide
      | assumption
      | (refine total_call_strict hR _ rfl ?_; omega)
      | (refine total_call hR _ ?_; omega)
      | with_reducible apply shift_total hR
      | with_reducible apply total_accept_ite
      | with_reducible apply total_accept _
      | with_reducible apply total_newnode
      | with_reducible apply total_pure
      | with_reducible apply total_ite
      | with_reducible apply total_bind
      | intro _
  · omega

theorem relational_total {R R1 : Rec} {n : Int} (hR : Settled n R R1) (notin : Bool)
    (k : Int) (hk : 2 * k ≤ n) :
    Total k (k - 1) (relational R notin) (relational R1 notin) := by
  apply total_weaken
  · simp only [relational, EXP0, EXP1, EXP2, EXP3, STM4, LIST, jsP_list]
    repeat' first
      | omega
      | decide
      | assumption
      | (refine total_call_strict hR _ rfl ?_; omega)
      | (refine total_call hR _ ?_; omega)
      | with_reducible apply relational_loop_total hR
      | with_reducible apply shift_total hR
      | with_reducible apply total_ite
      | with_reducible apply total_bind
      | intro _
  · omega

theorem equality_loop_total {R R1 : Rec} {n : Int} (hR : Settled n R R1) (notin : Bool) (a : js_Ast)
    (k : Int) (hk : 2 * k ≤ n) :
    Total k (k) (equality_loop R notin a) (equality_loop R1 notin a) := by
  apply total_weaken
  · simp only [equality_loop, EXP0, EXP1, EXP2, EXP3, STM4, LIST, jsP_list]
    repeat' first
      | omega
      | decide
      | assumption
      | (refine total_call_strict hR _ rfl ?_; omega)
      | (refine total_call hR _ ?_; omega)
      | with_reducible apply relational_total hR
      | with_reducible apply total_accept_ite
      | with_reducible apply total_accept _
      | with_reducible apply total_newnode
      | with_reducible apply total_pure
      | with_reducible apply total_ite
      | with_reducible apply total_bind
      | intro _
  · omega

theorem equality_total {R R1 : Rec} {n : Int} (hR : Settled n R R1) (notin : Bool)
    (k : Int) (hk : 2 * k ≤ n) :
    Total k (k - 1) (equality R notin) (equality R1 notin) := by
  apply total_weaken
  · simp only [equality, EXP0, EXP1, EXP2, EXP3, STM4, LIST, jsP_list]
    repeat' first
      | omega
      | decide
      | assumption
      | (refine total_call_strict hR _ rfl ?_; omega)
      | (refine total_call hR _ ?_; omega)
      | with_reducible apply equality_loop_total hR
      | with_reducible apply relational_total hR
      | with_reducible apply total_bind
      | intro _
  · omega

theorem bitand_loop_total {R R1 : Rec} {n : Int} (hR : Settled n R R1) (notin : Bool) (a : js_Ast)
    (k : Int) (hk : 2 * k ≤ n) :
    Total k (k) (bitand_loop R notin a) (bitand_loop R1 notin a) := by
  apply total_weaken
  · simp only [bitand_loop, EXP0, EXP1, EXP2, EXP3, STM4, LIST, jsP_list]
    repeat' first
      | omega
      | decide
      | assumption
      | (refine total_call_strict hR _ rfl ?_; omega)
      | (refine total_call hR _ ?_; omega)
      | with_reducible apply equality_total hR
      | with_reducible apply total_accept_ite
      | with_reducible apply total_accept _
      | with_reducible apply total_newnode
      | with_reducible apply total_pure
      | with_reducible apply total_ite
      | with_reducible apply total_bind
      | intro _
  · omega

theorem bitand_total {R R1 : Rec} {n : Int} (hR : Settled n R R1) (notin : Bool)
    (k : Int) (hk : 2 * k ≤ n) :
    Total k (k - 1) (bitand R notin) (bitand R1 notin) := by
  apply total_weaken
  · simp only [bitand, EXP0, EXP1, EXP2, EXP3, STM4, LIST, jsP_list]
    repeat' first
      | omega
      | decide
      | assumption
      | (refine total_call_strict hR _ rfl ?_; omega)
      | (refine total_call hR _ ?_; omega)
      | with_reducible apply bitand_loop_total hR
      | with_reducible apply equality_total hR
      | with_reducible apply total_bind
      | intro _
  · omega

theorem bitxor_loop_total {R R1 : Rec} {n : Int} (hR : Settled n R R1) (notin : Bool) (a : js_Ast)
    (k : Int) (hk : 2 * k ≤ n) :
    Total k (k) (bitxor_loop R notin a) (bitxor_loop R1 notin a) := by
  apply total_weaken
  · simp only [bitxor_loop, EXP0, EXP1, EXP2, EXP3, STM4, LIST, jsP_list]
    repeat' first
      | omega
      | decide
      | assumption
      | (refine total_call_strict hR _ rfl ?_; omega)
      | (refine total_call hR _ ?_; omega)
      | with_reducible apply bitand_total hR
      | with_reducible apply total_accept_ite
      | with_reducible apply total_accept _
      | with_reducible apply total_newnode
      | with_reducible apply total_pure
      | with_reducible apply total_ite
      | with_reducible apply total_bind
      | intro _
  · omega

theorem bitxor_total {R R1 : Rec} {n : Int} (hR : Settled n R R1) (notin : Bool)
    (k : Int) (hk : 2 * k ≤ n) :
    Total k (k - 1) (bitxor R notin) (bitxor R1 notin) := by
  apply total_weaken
  · simp only [bitxor, EXP0, EXP1, EXP2, EXP3, STM4, LIST, jsP_list]
    repeat' first
      | omega
      | decide
      | assumption
      | (refine total_call_strict hR _ rfl ?_; omega)
      | (refine total_call hR _ ?_; omega)
      | with_reducible apply bitand_total hR
      | with_reducible apply bitxor_loop_total hR
      | with_reducible apply total_bind
      | intro _
  · omega

theorem bitor_loop_total {R R1 : Rec} {n : Int} (hR : Settled n R R1) (notin : Bool) (a : js_Ast)
    (k : Int) (hk : 2 * k ≤ n) :
    Total k (k) (bitor_loop R notin a) (bitor_loop R1 notin a) := by
  apply total_weaken
  · simp only [bitor_loop, EXP0, EXP1, EXP2, EXP3, STM4, LIST, jsP_list]
    repeat' first
      | omega
      | decide
      | assumption
      | (refine total_call_strict hR _ rfl ?_; omega)
      | (refine total_call hR _ ?_; omega)
      | with_reducible apply bitxor_total hR
      | with_reducible apply total_accept_ite
      | with_reducible apply total_accept _
      | with_reducible apply total_newnode
      | with_reducible apply total_pure
      | with_reducible apply total_ite
      | with_reducible apply total_bind
      | intro _
  · omega

theorem bitor_total {R R1 : Rec} {n : Int} (hR : Settled n R R1) (notin : Bool)
    (k : Int) (hk : 2 * k ≤ n) :
    Total k (k - 1) (bitor R notin) (bitor R1 notin) := by
  apply total_weaken
  · simp only [bitor, EXP0, EXP1, EXP2, EXP3, STM4, LIST, jsP_list]
    repeat' first
      | omega
      | decide
      | assumption
      | (refine total_call_strict hR _ rfl ?_; omega)
      | (refine total_call hR _ ?_; omega)
      | with_reducible apply bitor_loop_total hR
      | with_reducible apply bitxor_total hR
      | with_reducible apply total_bind
      | intro _
  · omega

theorem logand_total {R R1 : Rec} {n : Int} (hR : Settled n R R1) (notin : Bool)
    (k : Int) (hk : 2 * k ≤ n) :
    Total k (k - 1) (logand R notin) (logand R1 notin) := by
  apply total_weaken
  · simp only [logand, EXP0, EXP1, EXP2, EXP3, STM4, LIST, jsP_list]
    repeat' first
      | omega
      | decide
      | assumption
      | (refine total_call_strict hR _ rfl ?_; omega)
      | (refine total_call hR _ ?_; omega)
      | with_reducible apply bitor_total hR
      | with_reducible apply total_accept_ite
      | with_reducible apply total_accept _
      | with_reducible apply total_newnode
      | with_reducible apply total_pure
      | with_reducible apply total_ite
      | with_reducible apply total_bind
      | intro _
  · omega

theorem logor_total {R R1 : Rec} {n : Int} (hR : Settled n R R1) (notin : Bool)
    (k : Int) (hk : 2 * k ≤ n) :
    Total k (k - 1) (logor R notin) (logor R1 notin) := by
  apply total_weaken
  · simp only [logor, EXP0, EXP1, EXP2, EXP3, STM4, LIST, jsP_list]
    repeat' first
      | omega
      | decide
      | assumption
      | (refine total_call_strict hR _ rfl ?_; omega)
      | (refine total_call hR _ ?_; omega)
      | with_reducible apply logand_total hR
      | with_reducible apply total_accept_ite
      | with_reducible apply total_accept _
      | with_reducible apply total_newnode
      | with_reducible apply total_pure
      | with_reducible apply total_ite
      | with_reducible apply total_bind
      | intro _
  · omega

theorem conditional_total {R R1 : Rec} {n : Int} (hR : Settled n R R1) (notin : Bool)
    (k : Int) (hk : 2 * k ≤ n) :
    Total k (k - 1) (conditional R notin) (conditional R1 notin) := by
  apply total_weaken
  · simp only [conditional, EXP0, EXP1, EXP2, EXP3, STM4, LIST, jsP_list]
    repeat' first
      | omega
      | decide
      | assumption
      | (refine total_call_strict hR _ rfl ?_; omega)
      | (refine total_call hR _ ?_; omega)
      | with_reducible apply logor_total hR
      | with_reducible apply total_accept_ite
      | with_reducible apply total_expect
      | with_reducible apply total_accept _
      | with_reducible apply total_newnode
      | with_reducible apply total_pure
      | with_reducible apply total_ite
      | with_reducible apply total_bind
      | intro _
  · omega

theorem assignment_total {R R1 : Rec} {n : Int} (hR : Settled n R R1) (notin : Bool)
    (k : Int) (hk : 2 * k ≤ n) :
    Total k (k - 1) (assignment R notin) (assignment R1 notin) := by
  apply total_weaken
  · simp only [assignment, EXP0, EXP1, EXP2, EXP3, STM4, LIST, jsP_list]
    repeat' first
      | omega
      | decide
      | assumption
      | (refine total_call_strict hR _ rfl ?_; omega)
      | (refine total_call hR _ ?_; omega)
      | with_reducible apply conditional_total hR
      | with_reducible apply total_accept_ite
      | with_reducible apply total_accept _
      | with_reducible apply total_newnode
      | with_reducible apply total_pure
      | with_reducible apply total_ite
      | with_reducible apply total_bind
      | intro _
  · omega

theorem expression_loop_total {R R1 : Rec} {n : Int} (hR : Settled n R R1) (notin : Bool) (a : js_Ast)
    (k : Int) (hk : 2 * k ≤ n) :
    Total k (k) (expression_loop R notin a) (expression_loop R1 notin a) := by
  apply total_weaken
  · simp only [expression_loop, EXP0, EXP1, EXP2, EXP3, STM4, LIST, jsP_list]
    repeat' first
      | omega
      | decide
      | assumption
      | (refine total_call_strict hR _ rfl ?_; omega)
      | (refine total_call hR _ ?_; omega)
      | with_reducible apply assignment_total hR
      | with_reducible apply total_accept_ite
      | with_reducible apply total_accept _
      | with_reducible apply total_newnode
      | with_reducible apply total_pure
      | with_reducible apply total_ite
      | with_reducible apply total_bind
      | intro _
  · omega

theorem expression_total {R R1 : Rec} {n : Int} (hR : Settled n R R1) (notin : Bool)
    (k : Int) (hk : 2 * k ≤ n) :
    Total k (k - 1) (expression R notin) (expression R1 notin) := by
  apply total_weaken
  · simp only [expression, EXP0, EXP1, EXP2, EXP3, STM4, LIST, jsP_list]
    repeat' first
      | omega
      | decide
      | assumption
      | (refine total_call_strict hR _ rfl ?_; omega)
      | (refine total_call hR _ ?_; omega)
      | with_reducible apply assignment_total hR
      | with_reducible apply expression_loop_total hR
      | with_reducible apply total_bind
      | intro _
  · omega

theorem vardec_total {R R1 : Rec} {n : Int} (hR : Settled n R R1) (notin : Bool)
    (k : Int) (hk : 2 * k ≤ n) :
    Total k (k - 1) (vardec R notin) (vardec R1 notin) := by
  apply total_weaken
  · simp only [vardec, EXP0, EXP1, EXP2, EXP3, STM4, LIST, jsP_list]
    repeat' first
      | omega
      | decide
      | assumption
      | (refine total_call_strict hR _ rfl ?_; omega)
      | (refine total_call hR _ ?_; omega)
      | with_reducible apply assignment_total hR
      | with_reducible apply identifier_total
      | with_reducible apply total_accept_ite
      | with_reducible apply total_accept _
      | with_reducible apply total_newnode
      | with_reducible apply total_ite
      | with_reducible apply total_bind
      | intro _
  · omega

theorem vardeclist_loop_total {R R1 : Rec} {n : Int} (hR : Settled n R R1) (notin : Bool)
    (k : Int) (hk : 2 * k ≤ n) :
    Total k (k) (vardeclist_loop R notin) (vardeclist_loop R1 notin) := by
  apply total_weaken
  · simp only [vardeclist_loop, EXP0, EXP1, EXP2, EXP3, STM4, LIST, jsP_list]
    repeat' first
      | omega
      | decide
      | assumption
      | (refine total_call_strict hR _ rfl ?_; omega)
      | (refine total_call hR _ ?_; omega)
      | with_reducible apply vardec_total hR
      | with_reducible apply total_accept_ite
      | with_reducible apply total_accept _
      | with_reducible apply total_newnode
      | with_reducible apply total_pure
      | with_reducible apply total_ite
      | with_reducible apply total_bind
      | intro _
  · omega

theorem vardeclist_total {R R1 : Rec} {n : Int} (hR : Settled n R R1) (notin : Bool)
    (k : Int) (hk : 2 * k ≤ n) :
    Total k (k - 1) (vardeclist R notin) (vardeclist R1 notin) := by
  apply total_weaken
  · simp only [vardeclist, EXP0, EXP1, EXP2, EXP3, STM4, LIST, jsP_list]
    repeat' first
      | omega
      | decide
      | assumption
      | (refine total_call_strict hR _ rfl ?_; omega)
      | (refine total_call hR _ ?_; omega)
      | with_reducible apply vardec_total hR
      | with_reducible apply vardeclist_loop_total hR
      | with_reducible apply total_newnode
      | with_reducible apply total_pure
      | with_reducible apply total_bind
      | intro _
  · omega

theorem statementlist_loop_total {R R1 : Rec} {n : Int} (hR : Settled n R R1)
    (k : Int) (hk : 2 * k < n) :
    Total k (k) (statementlist_loop R) (statementlist_loop R1) := by
  apply total_weaken
  · simp only [statementlist_loop, EXP0, EXP1, EXP2, EXP3, STM4, LIST, jsP_list]
    repeat' first
      | omega
      | decide
      | assumption
      | (refine total_call_strict hR _ rfl ?_; omega)
      | (refine total_call hR _ ?_; omega)
      | with_reducible apply total_getJ
      | with_reducible apply total_newnode
      | with_reducible apply total_pure
      | with_reducible apply total_ite
      | with_reducible apply total_bind
      | intro _
  · omega

theorem statementlist_total {R R1 : Rec} {n : Int} (hR : Settled n R R1)
    (k : Int) (hk : 2 * k < n) :
    Total k (k) (statementlist R) (statementlist R1) := by
  apply total_weaken
  · simp only [statementlist, EXP0, EXP1, EXP2, EXP3, STM4, LIST, jsP_list]
    repeat' first
      | omega
      | decide
      | assumption
      | (refine total_call_strict hR _ rfl ?_; omega)
      | (refine total_call hR _ ?_; omega)
      | with_reducible apply statementlist_loop_total hR
      | with_reducible apply total_getJ
      | with_reducible apply total_newnode
      | with_reducible apply total_pure
      | with_reducible apply total_ite
      | with_reducible apply total_bind
      | intro _
  · omega

theorem caseclause_total {R R1 : Rec} {n : Int} (hR : Settled n R R1)
    (k : Int) (hk : 2 * k ≤ n) :
    Total k (k - 1) (caseclause R) (caseclause R1) := by
  apply total_weaken
  · simp only [caseclause, EXP0, EXP1, EXP2, EXP3, STM4, LIST, jsP_list]
    repeat' first
      | omega
      | decide
      | assumption
      | (refine total_call_strict hR _ rfl ?_; omega)
      | (refine total_call hR _ ?_; omega)
      | with_reducible apply expression_total hR
      | with_reducible apply statementlist_total hR
      | with_reducible apply total_accept_ite
      | with_reducible apply total_expect
      | with_reducible apply total_getJ
      | with_reducible apply total_accept _
      | with_reducible apply total_newnode
      | with_reducible apply total_error
      | with_reducible apply total_ite
      | with_reducible apply total_bind
      | intro _
  · omega

theorem caselist_loop_total {R R1 : Rec} {n : Int} (hR : Settled n R R1)
    (k : Int) (hk : 2 * k ≤ n) :
    Total k (k) (caselist_loop R) (caselist_loop R1) := by
  apply total_weaken
  · simp only [caselist_loop, EXP0, EXP1, EXP2, EXP3, STM4, LIST, jsP_list]
    repeat' first
      | omega
      | decide
      | assumption
      | (refine total_call_strict hR _ rfl ?_; omega)
      | (refine total_call hR _ ?_; omega)
      | with_reducible apply caseclause_total hR
      | with_reducible apply total_getJ
      | with_reducible apply total_newnode
      | with_reducible apply total_pure
      | with_reducible apply total_ite
      | with_reducible apply total_bind
      | intro _
  · omega

theorem caselist_total {R R1 : Rec} {n : Int} (hR : Settled n R R1)
    (k : Int) (hk : 2 * k ≤ n) :
    Total k (k) (caselist R) (caselist R1) := by
  apply total_weaken
  · simp only [caselist, EXP0, EXP1, EXP2, EXP3, STM4, LIST, jsP_list]
    repeat' first
      | omega
      | decide
      | assumption
      | (refine total_call_strict hR _ rfl ?_; omega)
      | (refine total_call hR _ ?_; omega)
      | with_reducible apply caseclause_total hR
      | with_reducible apply caselist_loop_total hR
      | with_reducible apply total_getJ
      | with_reducible apply total_newnode
      | with_reducible apply total_pure
      | with_reducible apply total_ite
      | with_reducible apply total_bind
      | intro _
  · omega

theorem block_total {R R1 : Rec} {n : Int} (hR : Settled n R R1)
    (k : Int) (hk : 2 * k ≤ n) :
    Total k (k - 1) (block R) (block R1) := by
  apply total_weaken
  · simp only [block, EXP0, EXP1, EXP2, EXP3, STM4, LIST, jsP_list]
    repeat' first
      | omega
      | decide
      | assumption
      | (refine total_call_strict hR _ rfl ?_; omega)
      | (refine total_call hR _ ?_; omega)
      | with_reducible apply statementlist_total hR
      | with_reducible apply total_expect
      | with_reducible apply total_newnode
      | with_reducible apply total_bind
      | intro _
  · omega

theorem forexpression_total {R R1 : Rec} {n : Int} (hR : Settled n R R1) (end_ : Tok) (hend : end_ ≠ Tok.EOF)
    (k : Int) (hk : 2 * k ≤ n) :
    Total k (k - 1) (forexpression R end_) (forexpression R1 end_) := by
  apply total_weaken
  · simp only [forexpression, EXP0, EXP1, EXP2, EXP3, STM4, LIST, jsP_list]
    repeat' first
      | omega
      | decide
      | assumption
      | (refine total_call_strict hR _ rfl ?_; omega)
      | (refine total_call hR _ ?_; omega)
      | with_reducible apply expression_total hR
      | with_reducible apply total_expect
      | with_reducible apply total_getJ
      | with_reducible apply total_pure
      | with_reducible apply total_ite
      | with_reducible apply total_bind
      | intro _
  · omega

theorem forstatement_total {R R1 : Rec} {n : Int} (hR : Settled n R R1)
    (k : Int) (hk : 2 * k ≤ n) :
    Total k (k - 1) (forstatement R) (forstatement R1) := by
  apply total_weaken
  · simp only [forstatement, EXP0, EXP1, EXP2, EXP3, STM4, LIST, jsP_list]
    repeat' first
      | omega
      | decide
      | assumption
      | (refine total_call_strict hR _ rfl ?_; omega)
      | (refine total_call hR _ ?_; omega)
      | with_reducible apply expression_total hR
      | with_reducible apply forexpression_total hR
      | with_reducible apply vardeclist_total hR
      | with_reducible apply total_accept_ite
      | with_reducible apply total_expect
      | with_reducible apply total_getJ
      | with_reducible apply total_accept _
      | with_reducible apply total_newnode
      | with_reducible apply total_pure
      | with_reducible apply total_error
      | with_reducible apply total_ite
      | with_reducible apply total_bind
      | intro _
  · omega

theorem statement_total {R R1 : Rec} {n : Int} (hR : Settled n R R1)
    (k : Int) (hk : 2 * k ≤ n) :
    Total k (k - 1) (statement R) (statement R1) := by
  apply total_weaken
  · simp only [statement, EXP0, EXP1, EXP2, EXP3, STM4, LIST, jsP_list]
    repeat' first
      | omega
      | decide
      | assumption
      | (refine total_call_strict hR _ rfl ?_; omega)
      | (refine total_call hR _ ?_; omega)
      | with_reducible apply block_total hR
      | with_reducible apply caselist_total hR
      | with_reducible apply expression_total hR
      | with_reducible apply forstatement_total hR
      | with_reducible apply funstm_total hR
      | with_reducible apply identifier_total
      | with_reducible apply identifieropt_total
      | with_reducible apply vardeclist_total hR
      | with_reducible apply total_accept_ite
      | with_reducible apply total_expect
      | with_reducible apply total_getJ
      | with_reducible apply total_accept _
      | with_reducible apply total_semicolon
      | with_reducible apply total_warning
      | with_reducible apply total_newnode
      | with_reducible apply total_pure
      | with_reducible apply total_error
      | with_reducible apply total_ite
      | with_reducible apply total_bind
      | intro _
  · omega

theorem scriptelement_total {R R1 : Rec} {n : Int} (hR : Settled n R R1)
    (k : Int) (hk : 2 * k ≤ n) :
    Total k (k - 1) (scriptelement R) (scriptelement R1) := by
  apply total_weaken
  · simp only [scriptelement, EXP0, EXP1, EXP2, EXP3, STM4, LIST, jsP_list]
    repeat' first
      | omega
      | decide
      | assumption
      | (refine total_call_strict hR _ rfl ?_; omega)
      | (refine total_call hR _ ?_; omega)
      | with_reducible apply fundec_total hR
      | with_reducible apply statement_total hR
      | with_reducible apply total_accept_ite
      | with_reducible apply total_accept _
      | with_reducible apply total_ite
      | with_reducible apply total_bind
      | intro _
  · omega

theorem script_loop_total {R R1 : Rec} {n : Int} (hR : Settled n R R1) (terminator : Tok)
    (k : Int) (hk : 2 * k ≤ n) :
    Total k (k) (script_loop R terminator) (script_loop R1 terminator) := by
  apply total_weaken
  · simp only [script_loop, EXP0, EXP1, EXP2, EXP3, STM4, LIST, jsP_list]
    repeat' first
      | omega
      | decide
      | assumption
      | (refine total_call_strict hR _ rfl ?_; omega)
      | (refine total_call hR _ ?_; omega)
      | with_reducible apply scriptelement_total hR
      | with_reducible apply total_getJ
      | with_reducible apply total_newnode
      | with_reducible apply total_pure
      | with_reducible apply total_ite
      | with_reducible apply total_bind
      | intro _
  · omega

theorem script_total {R R1 : Rec} {n : Int} (hR : Settled n R R1) (terminator : Tok)
    (k : Int) (hk : 2 * k ≤ n) :
    Total k (k) (script R terminator) (script R1 terminator) := by
  apply total_weaken
  · simp only [script, EXP0, EXP1, EXP2, EXP3, STM4, LIST, jsP_list]
    repeat' first
      | omega
      | decide
      | assumption
      | (refine total_call_strict hR _ rfl ?_; omega)
      | (refine total_call hR _ ?_; omega)
      | with_reducible apply script_loop_total hR
      | with_reducible apply scriptelement_total hR
      | with_reducible apply total_getJ
      | with_reducible apply total_newnode
      | with_reducible apply total_pure
      | with_reducible apply total_ite
      | with_reducible apply total_bind
      | intro _
  · omega

theorem funbody_total {R R1 : Rec} {n : Int} (hR : Settled n R R1)
    (k : Int) (hk : 2 * k ≤ n) :
    Total k (k - 1) (funbody R) (funbody R1) := by
  apply total_weaken
  · simp only [funbody, EXP0, EXP1, EXP2, EXP3, STM4, LIST, jsP_list]
    repeat' first
      | omega
      | decide
      | assumption
      | (refine total_call_strict hR _ rfl ?_; omega)
      | (refine total_call hR _ ?_; omega)
      | with_reducible apply script_total hR
      | with_reducible apply total_expect
      | with_reducible apply total_pure
      | with_reducible apply total_bind
      | intro _
  · omega

/-- One unfolding of an entry point, over handles settled below the depth it
needs. -/
theorem step_total {R R1 : Rec} {n : Int} (hR : Settled n R R1) (fn : Fn) (k : Int)
    (hk : 2 * k + fn.rank ≤ n) :
    Total k (k - (if fn.strict then 1 else 0)) (step R fn) (step R1 fn) := by
  cases fn <;> simp only [step, Fn.strict, Fn.rank] at hk ⊢
  · exact total_weaken (expression_total hR _ k (by omega)) (by simp)
  · exact total_weaken (assignment_total hR _ k (by omega)) (by simp)
  · exact total_weaken (memberexp_total hR k (by omega)) (by simp)
  · exact total_weaken (statement_total hR k (by omega)) (by simp)
  · exact total_weaken (funbody_total hR k (by omega)) (by simp)
  · exact total_weaken (unary_total hR k (by omega)) (by simp)
  · exact total_weaken (logand_total hR _ k (by omega)) (by simp)
  · exact total_weaken (logor_total hR _ k (by omega)) (by simp)
  · exact total_weaken (arrayliteral_loop_total hR k (by omega)) (by simp)
  · exact total_weaken (objectliteral_loop_total hR k (by omega)) (by simp)
  · exact total_weaken (parameters_loop_total hR k (by omega)) (by simp)
  · exact total_weaken (arguments_loop_total hR k (by omega)) (by simp)
  · exact total_weaken (memberexp_loop_total hR _ k (by omega)) (by simp)
  · exact total_weaken (callexp_loop_total hR _ k (by omega)) (by simp)
  · exact total_weaken (multiplicative_loop_total hR _ k (by omega)) (by simp)
  · exact total_weaken (additive_loop_total hR _ k (by omega)) (by simp)
  · exact total_weaken (shift_loop_total hR _ k (by omega)) (by simp)
  · exact total_weaken (relational_loop_total hR _ _ k (by omega)) (by simp)
  · exact total_weaken (equality_loop_total hR _ _ k (by omega)) (by simp)
  · exact total_weaken (bitand_loop_total hR _ _ k (by omega)) (by simp)
  · exact total_weaken (bitxor_loop_total hR _ _ k (by omega)) (by simp)
  · exact total_weaken (bitor_loop_total hR _ _ k (by omega)) (by simp)
  · exact total_weaken (expression_loop_total hR _ _ k (by omega)) (by simp)
  · exact total_weaken (vardeclist_loop_total hR _ k (by omega)) (by simp)
  · exact total_weaken (statementlist_loop_total hR k (by omega)) (by simp)
  · exact total_weaken (caselist_loop_total hR k (by omega)) (by simp)
  · exact total_weaken (script_loop_total hR _ k (by omega)) (by simp)

/-- With a recursion depth above what the entry point needs in the state, the
outcome is settled: it is the same for every such depth, it is not `nofuel`,
and a returned state has no more tokens left, and fewer for the entry points
that consume. -/
theorem run_total (m m1 : Nat) (fn : Fn) (J : js_State) (h : fn.depth J < m)
    (h1 : fn.depth J < m1) :
    run m fn J = run m1 fn J ∧ run m fn J ≠ .nofuel ∧
      ∀ v J1, run m fn J = .ok v J1 → J1.size + (if fn.strict then 1 else 0) ≤ J.size := by
  induction m generalizing m1 fn J with
  | zero => omega
  | succ a ih =>
    obtain ⟨b, rfl⟩ : ∃ b, m1 = b + 1 := ⟨m1 - 1, by omega⟩
    have hR : Settled (fn.depth J : Int) (run a) (run b) :=
      ⟨fun fn2 J2 h2 => ih b fn2 J2 (by omega) (by omega)⟩
    obtain ⟨e, ne, hs⟩ := (step_total hR fn J.size (by simp [Fn.depth])).out J le_rfl
    refine ⟨e, ne, fun v J1 hv => ?_⟩
    have := hs v J1 hv
    cases hst : fn.strict <;> simp only [hst, ↓reduceIte, Bool.false_eq_true] at this ⊢ <;>
      omega

theorem run_settled {n : Int} {m m1 : Nat} (h : n ≤ m) (h1 : n ≤ m1) :
    Settled n (run m) (run m1) :=
  ⟨fun fn J hJ => run_total m m1 fn J (by omega) (by omega)⟩

/-! ## C33: the parser terminates -/

/-- The state in which `jsP_parse` calls `script` has at most as many tokens
left as the source has. -/
theorem size_start (J : js_State) (filename : String) (source : List Token) :
    (nextState { J with filename := filename, source := source }).size ≤ source.length := by
  unfold nextState js_State.size
  cases source with
  | nil => simp
  | cons t ts =>
    simp only [List.length_cons]
    split <;> omega

/-- The function `script` under a recursion depth of twice the tokens left. -/
theorem script_settled (fuel fuel1 : Nat) (terminator : Tok) (J : js_State)
    (h : 2 * J.size ≤ fuel) (h1 : 2 * J.size ≤ fuel1) :
    script (run fuel) terminator J = script (run fuel1) terminator J ∧
      script (run fuel) terminator J ≠ .nofuel ∧
      ∀ v J1, script (run fuel) terminator J = .ok v J1 → J1.size ≤ J.size := by
  have hR : Settled ((2 * J.size : Nat) : Int) (run fuel) (run fuel1) :=
    run_settled (by omega) (by omega)
  obtain ⟨e, ne, hs⟩ := (script_total hR terminator J.size (by push_cast; omega)).out J le_rfl
  exact ⟨e, ne, fun v J1 hv => by have := hs v J1 hv; omega⟩

/-- The function `jsP_parse` under a recursion depth of twice the length of
the source: the outcome does not depend on the depth and is not `nofuel`. -/
theorem jsP_parse_settled (fuel fuel1 : Nat) (filename : String) (source : List Token)
    (J : js_State) (h : 2 * source.length ≤ fuel) (h1 : 2 * source.length ≤ fuel1) :
    jsP_parse fuel filename source J = jsP_parse fuel1 filename source J ∧
      jsP_parse fuel filename source J ≠ .nofuel := by
  have h0 := size_start J filename source
  obtain ⟨e, ne, -⟩ := script_settled fuel fuel1 Tok.EOF
    (nextState { J with filename := filename, source := source }) (by omega) (by omega)
  simp only [jsP_parse, jsY_initlex, bind_apply, jsP_next_apply]
  rw [← e]
  cases hs : script (run fuel) Tok.EOF
      (nextState { J with filename := filename, source := source }) with
  | ok v J1 =>
    refine ⟨rfl, ?_⟩
    dsimp only
    split <;> simp
  | error m => exact ⟨rfl, by simp⟩
  | nofuel => exact absurd hs ne

/-- C33.  For every file name, every finite source and every state, there is
an outcome of `jsP_parse`, a returned tree or a syntax error and not
`nofuel`, that every recursion depth of at least twice the length of the
source gives.  The reason: an entry point run with a depth above twice the
tokens left (one more for the loop of `statementlist`) returns or raises, a
state it returns has no more tokens left than the state before, and fewer for
the entry points `expression`, `assignment`, `memberexp`, `statement`,
`funbody`, `unary`, `logand` and `logor`; and one unfolding of an entry point
consults the handle only where fewer tokens are left (or, in the loop of
`statementlist`, for the statement at its head), so that two handles that
agree there give the same outcome. -/
theorem jsP_parse_terminates (filename : String) (source : List Token) (J : js_State) :
    (∃ r : Res js_Ast, r ≠ .nofuel ∧
      ∀ fuel, 2 * source.length ≤ fuel → jsP_parse fuel filename source J = r) ∧
    (∀ (fuel : Nat) (fn : Fn) (J0 : js_State), fn.depth J0 < fuel →
      run fuel fn J0 ≠ .nofuel ∧
      ∀ v J1, run fuel fn J0 = .ok v J1 →
        J1.size + (if fn.strict then 1 else 0) ≤ J0.size) ∧
    (∀ (R R1 : Rec) (fn : Fn) (J0 : js_State),
      (∀ fn2 J2, fn2.depth J2 < fn.depth J0 →
        R fn2 J2 = R1 fn2 J2 ∧ R fn2 J2 ≠ .nofuel ∧
        ∀ v J1, R fn2 J2 = .ok v J1 → J1.size + (if fn2.strict then 1 else 0) ≤ J2.size) →
      step R fn J0 = step R1 fn J0 ∧ step R fn J0 ≠ .nofuel) := by
  refine ⟨⟨jsP_parse (2 * source.length) filename source J,
    (jsP_parse_settled _ _ filename source J le_rfl le_rfl).2,
    fun fuel hf => (jsP_parse_settled _ _ filename source J hf le_rfl).1⟩, ?_, ?_⟩
  · intro fuel fn J0 h
    exact (run_total fuel fuel fn J0 h h).2
  · intro R R1 fn J0 h
    have hR : Settled (fn.depth J0 : Int) R R1 :=
      ⟨fun fn2 J2 h2 => h fn2 J2 (by omega)⟩
    obtain ⟨e, ne, -⟩ := (step_total hR fn J0.size (by simp [Fn.depth])).out J0 le_rfl
    exact ⟨e, ne⟩

/-- C33 on the source `~0` of two tokens: the recursion depth 4 is enough. -/
theorem jsP_parse_terminates_witness :
    2 * bitnotZero.length ≤ 4 ∧
    jsP_parse 4 "f.js" bitnotZero initState =
      .ok (js_Ast.new .AST_LIST 1 (js_Ast.numnode .EXP_NUMBER 1 (Dbl.fin (-1)))
        .NULL .NULL .NULL) (nextState (nextState (startOfFile bitnotZero))) := by
  refine ⟨by decide, ?_⟩
  obtain ⟨r, -, hr⟩ := (jsP_parse_terminates "f.js" bitnotZero initState).1
  obtain ⟨n, hn⟩ := jsP_parse_bitnotZero
  have h4 := hr 4 (by decide)
  have hm := hr (max n 4) (by simp [bitnotZero])
  rw [h4, ← hm]
  exact hn _ (le_max_left _ _)

/-! ## A deeper recursion bound keeps every outcome other than `nofuel` -/

theorem stable_refl {α : Type} (x : P α) : Stable x x := ⟨fun _ _ => rfl⟩

theorem stable_bind {α β : Type} {x x1 : P α} {f f1 : α → P β}
    (hx : Stable x x1) (hf : ∀ v, Stable (f v) (f1 v)) : Stable (x >>= f) (x1 >>= f1) := by
  refine ⟨fun J h => ?_⟩
  simp only [bind_apply] at h ⊢
  cases hxJ : x J with
  | ok w J2 =>
    rw [hxJ] at h
    rw [hx.out J (by rw [hxJ]; simp)]
    simp only [hxJ]
    exact (hf w).out J2 h
  | error m =>
    rw [hx.out J (by rw [hxJ]; simp)]
    simp only [hxJ]
  | nofuel => rw [hxJ] at h; exact absurd rfl h

theorem stable_ite {α : Type} {c : Prop} [Decidable c] {x y x1 y1 : P α}
    (hx : Stable x x1) (hy : Stable y y1) :
    Stable (if c then x else y) (if c then x1 else y1) := by
  split
  · exact hx
  · exact hy

set_option linter.unusedTactic false
set_option linter.unreachableTactic false

/-! Every parse function keeps its outcome when the handle is replaced by one
that keeps the outcomes of the first. -/

theorem arrayelement_stable {R R1 : Rec} (hR : ∀ fn, Stable (R fn) (R1 fn)) :
    Stable (arrayelement R) (arrayelement R1) := by
  simp only [arrayelement]
  repeat' first
    | with_reducible exact stable_refl _
    | with_reducible apply hR
    | with_reducible apply stable_ite
    | with_reducible apply stable_bind
    | intro _

theorem arrayliteral_loop_stable {R R1 : Rec} (hR : ∀ fn, Stable (R fn) (R1 fn)) :
    Stable (arrayliteral_loop R) (arrayliteral_loop R1) := by
  simp only [arrayliteral_loop]
  repeat' first
    | with_reducible exact stable_refl _
    | with_reducible apply hR
    | with_reducible apply arrayelement_stable hR
    | with_reducible apply stable_ite
    | with_reducible apply stable_bind
    | intro _

theorem arrayliteral_stable {R R1 : Rec} (hR : ∀ fn, Stable (R fn) (R1 fn)) :
    Stable (arrayliteral R) (arrayliteral R1) := by
  simp only [arrayliteral]
  repeat' first
    | with_reducible exact stable_refl _
    | with_reducible apply hR
    | with_reducible apply arrayelement_stable hR
    | with_reducible apply arrayliteral_loop_stable hR
    | with_reducible apply stable_ite
    | with_reducible apply stable_bind
    | intro _

theorem parameters_loop_stable {R R1 : Rec} (hR : ∀ fn, Stable (R fn) (R1 fn)) :
    Stable (parameters_loop R) (parameters_loop R1) := by
  simp only [parameters_loop]
  repeat' first
    | with_reducible exact stable_refl _
    | with_reducible apply hR
    | with_reducible apply stable_ite
    | with_reducible apply stable_bind
    | intro _

theorem parameters_stable {R R1 : Rec} (hR : ∀ fn, Stable (R fn) (R1 fn)) :
    Stable (parameters R) (parameters R1) := by
  simp only [parameters]
  repeat' first
    | with_reducible exact stable_refl _
    | with_reducible apply hR
    | with_reducible apply parameters_loop_stable hR
    | with_reducible apply stable_ite
    | with_reducible apply stable_bind
    | intro _

theorem propassign_stable {R R1 : Rec} (hR : ∀ fn, Stable (R fn) (R1 fn)) :
    Stable (propassign R) (propassign R1) := by
  simp only [propassign]
  repeat' first
    | with_reducible exact stable_refl _
    | with_reducible apply hR
    | with_reducible apply stable_ite
    | with_reducible apply stable_bind
    | intro _

theorem objectliteral_loop_stable {R R1 : Rec} (hR : ∀ fn, Stable (R fn) (R1 fn)) :
    Stable (objectliteral_loop R) (objectliteral_loop R1) := by
  simp only [objectliteral_loop]
  repeat' first
    | with_reducible exact stable_refl _
    | with_reducible apply hR
    | with_reducible apply propassign_stable hR
    | with_reducible apply stable_ite
    | with_reducible apply stable_bind
    | intro _

theorem objectliteral_stable {R R1 : Rec} (hR : ∀ fn, Stable (R fn) (R1 fn)) :
    Stable (objectliteral R) (objectliteral R1) := by
  simp only [objectliteral]
  repeat' first
    | with_reducible exact stable_refl _
    | with_reducible apply hR
    | with_reducible apply objectliteral_loop_stable hR
    | with_reducible apply propassign_stable hR
    | with_reducible apply stable_ite
    | with_reducible apply stable_bind
    | intro _

theorem fundec_stable {R R1 : Rec} (hR : ∀ fn, Stable (R fn) (R1 fn)) :
    Stable (fundec R) (fundec R1) := by
  simp only [fundec]
  repeat' first
    | with_reducible exact stable_refl _
    | with_reducible apply hR
    | with_reducible apply parameters_stable hR
    | with_reducible apply stable_bind
    | intro _

theorem funstm_stable {R R1 : Rec} (hR : ∀ fn, Stable (R fn) (R1 fn)) :
    Stable (funstm R) (funstm R1) := by
  simp only [funstm]
  repeat' first
    | with_reducible exact stable_refl _
    | with_reducible apply hR
    | with_reducible apply parameters_stable hR
    | with_reducible apply stable_bind
    | intro _

theorem funexp_stable {R R1 : Rec} (hR : ∀ fn, Stable (R fn) (R1 fn)) :
    Stable (funexp R) (funexp R1) := by
  simp only [funexp]
  repeat' first
    | with_reducible exact stable_refl _
    | with_reducible apply hR
    | with_reducible apply parameters_stable hR
    | with_reducible apply stable_bind
    | intro _

theorem primary_stable {R R1 : Rec} (hR : ∀ fn, Stable (R fn) (R1 fn)) :
    Stable (primary R) (primary R1) := by
  simp only [primary]
  repeat' first
    | with_reducible exact stable_refl _
    | with_reducible apply hR
    | with_reducible apply arrayliteral_stable hR
    | with_reducible apply objectliteral_stable hR
    | with_reducible apply stable_ite
    | with_reducible apply stable_bind
    | intro _

theorem arguments_loop_stable {R R1 : Rec} (hR : ∀ fn, Stable (R fn) (R1 fn)) :
    Stable (arguments_loop R) (arguments_loop R1) := by
  simp only [arguments_loop]
  repeat' first
    | with_reducible exact stable_refl _
    | with_reducible apply hR
    | with_reducible apply stable_ite
    | with_reducible apply stable_bind
    | intro _

theorem arguments_stable {R R1 : Rec} (hR : ∀ fn, Stable (R fn) (R1 fn)) :
    Stable (arguments R) (arguments R1) := by
  simp only [arguments]
  repeat' first
    | with_reducible exact stable_refl _
    | with_reducible apply hR
    | with_reducible apply arguments_loop_stable hR
    | with_reducible apply stable_ite
    | with_reducible apply stable_bind
    | intro _

theorem newexp_stable {R R1 : Rec} (hR : ∀ fn, Stable (R fn) (R1 fn)) :
    Stable (newexp R) (newexp R1) := by
  simp only [newexp]
  repeat' first
    | with_reducible exact stable_refl _
    | with_reducible apply hR
    | with_reducible apply arguments_stable hR
    | with_reducible apply funexp_stable hR
    | with_reducible apply primary_stable hR
    | with_reducible apply stable_ite
    | with_reducible apply stable_bind
    | intro _

theorem memberexp_loop_stable {R R1 : Rec} (hR : ∀ fn, Stable (R fn) (R1 fn)) (a : js_Ast) :
    Stable (memberexp_loop R a) (memberexp_loop R1 a) := by
  simp only [memberexp_loop]
  repeat' first
    | with_reducible exact stable_refl _
    | with_reducible apply hR
    | with_reducible apply stable_ite
    | with_reducible apply stable_bind
    | intro _

theorem memberexp_stable {R R1 : Rec} (hR : ∀ fn, Stable (R fn) (R1 fn)) :
    Stable (memberexp R) (memberexp R1) := by
  simp only [memberexp]
  repeat' first
    | with_reducible exact stable_refl _
    | with_reducible apply hR
    | with_reducible apply memberexp_loop_stable hR
    | with_reducible apply newexp_stable hR
    | with_reducible apply stable_bind
    | intro _

theorem callexp_loop_stable {R R1 : Rec} (hR : ∀ fn, Stable (R fn) (R1 fn)) (a : js_Ast) :
    Stable (callexp_loop R a) (callexp_loop R1 a) := by
  simp only [callexp_loop]
  repeat' first
    | with_reducible exact stable_refl _
    | with_reducible apply hR
    | with_reducible apply arguments_stable hR
    | with_reducible apply stable_ite
    | with_reducible apply stable_bind
    | intro _

theorem callexp_stable {R R1 : Rec} (hR : ∀ fn, Stable (R fn) (R1 fn)) :
    Stable (callexp R) (callexp R1) := by
  simp only [callexp]
  repeat' first
    | with_reducible exact stable_refl _
    | with_reducible apply hR
    | with_reducible apply callexp_loop_stable hR
    | with_reducible apply newexp_stable hR
    | with_reducible apply stable_bind
    | intro _

theorem postfixexp_stable {R R1 : Rec} (hR : ∀ fn, Stable (R fn) (R1 fn)) :
    Stable (postfixexp R) (postfixexp R1) := by
  simp only [postfixexp]
  repeat' first
    | with_reducible exact stable_refl _
    | with_reducible apply hR
    | with_reducible apply callexp_stable hR
    | with_reducible apply stable_ite
    | with_reducible apply stable_bind
    | intro _

theorem unary_stable {R R1 : Rec} (hR : ∀ fn, Stable (R fn) (R1 fn)) :
    Stable (unary R) (unary R1) := by
  simp only [unary]
  repeat' first
    | with_reducible exact stable_refl _
    | with_reducible apply hR
    | with_reducible apply postfixexp_stable hR
    | with_reducible apply stable_ite
    | with_reducible apply stable_bind
    | intro _

theorem multiplicative_loop_stable {R R1 : Rec} (hR : ∀ fn, Stable (R fn) (R1 fn)) (a : js_Ast) :
    Stable (multiplicative_loop R a) (multiplicative_loop R1 a) := by
  simp only [multiplicative_loop]
  repeat' first
    | with_reducible exact stable_refl _
    | with_reducible apply hR
    | with_reducible apply unary_stable hR
    | with_reducible apply stable_ite
    | with_reducible apply stable_bind
    | intro _

theorem multiplicative_stable {R R1 : Rec} (hR : ∀ fn, Stable (R fn) (R1 fn)) :
    Stable (multiplicative R) (multiplicative R1) := by
  simp only [multiplicative]
  repeat' first
    | with_reducible exact stable_refl _
    | with_reducible apply hR
    | with_reducible apply multiplicative_loop_stable hR
    | with_reducible apply unary_stable hR
    | with_reducible apply stable_bind
    | intro _

theorem additive_loop_stable {R R1 : Rec} (hR : ∀ fn, Stable (R fn) (R1 fn)) (a : js_Ast) :
    Stable (additive_loop R a) (additive_loop R1 a) := by
  simp only [additive_loop]
  repeat' first
    | with_reducible exact stable_refl _
    | with_reducible apply hR
    | with_reducible apply multiplicative_stable hR
    | with_reducible apply stable_ite
    | with_reducible apply stable_bind
    | intro _

theorem additive_stable {R R1 : Rec} (hR : ∀ fn, Stable (R fn) (R1 fn)) :
    Stable (additive R) (additive R1) := by
  simp only [additive]
  repeat' first
    | with_reducible exact stable_refl _
    | with_reducible apply hR
    | with_reducible apply additive_loop_stable hR
    | with_reducible apply multiplicative_stable hR
    | with_reducible apply stable_bind
    | intro _

theorem shift_loop_stable {R R1 : Rec} (hR : ∀ fn, Stable (R fn) (R1 fn)) (a : js_Ast) :
    Stable (shift_loop R a) (shift_loop R1 a) := by
  simp only [shift_loop]
  repeat' first
    | with_reducible exact stable_refl _
    | with_reducible apply hR
    | with_reducible apply additive_stable hR
    | with_reducible apply stable_ite
    | with_reducible apply stable_bind
    | intro _

theorem shift_stable {R R1 : Rec} (hR : ∀ fn, Stable (R fn) (R1 fn)) :
    Stable (shift R) (shift R1) := by
  simp only [shift]
  repeat' first
    | with_reducible exact stable_refl _
    | with_reducible apply hR
    | with_reducible apply additive_stable hR
    | with_reducible apply shift_loop_stable hR
    | with_reducible apply stable_bind
    | intro _

theorem relational_loop_stable {R R1 : Rec} (hR : ∀ fn, Stable (R fn) (R1 fn)) (notin : Bool) (a : js_Ast) :
    Stable (relational_loop R notin a) (relational_loop R1 notin a) := by
  simp only [relational_loop]
  repeat' first
    | with_reducible exact stable_refl _
    | with_reducible apply hR
    | with_reducible apply shift_stable hR
    | with_reducible apply stable_ite
    | with_reducible apply stable_bind
    | intro _

theorem relational_stable {R R1 : Rec} (hR : ∀ fn, Stable (R fn) (R1 fn)) (notin : Bool) :
    Stable (relational R notin) (relational R1 notin) := by
  simp only [relational]
  repeat' first
    | with_reducible exact stable_refl _
    | with_reducible apply hR
    | with_reducible apply relational_loop_stable hR
    | with_reducible apply shift_stable hR
    | with_reducible apply stable_bind
    | intro _

theorem equality_loop_stable {R R1 : Rec} (hR : ∀ fn, Stable (R fn) (R1 fn)) (notin : Bool) (a : js_Ast) :
    Stable (equality_loop R notin a) (equality_loop R1 notin a) := by
  simp only [equality_loop]
  repeat' first
    | with_reducible exact stable_refl _
    | with_reducible apply hR
    | with_reducible apply relational_stable hR
    | with_reducible apply stable_ite
    | with_reducible apply stable_bind
    | intro _

theorem equality_stable {R R1 : Rec} (hR : ∀ fn, Stable (R fn) (R1 fn)) (notin : Bool) :
    Stable (equality R notin) (equality R1 notin) := by
  simp only [equality]
  repeat' first
    | with_reducible exact stable_refl _
    | with_reducible apply hR
    | with_reducible apply equality_loop_stable hR
    | with_reducible apply relational_stable hR
    | with_reducible apply stable_bind
    | intro _

theorem bitand_loop_stable {R R1 : Rec} (hR : ∀ fn, Stable (R fn) (R1 fn)) (notin : Bool) (a : js_Ast) :
    Stable (bitand_loop R notin a) (bitand_loop R1 notin a) := by
  simp only [bitand_loop]
  repeat' first
    | with_reducible exact stable_refl _
    | with_reducible apply hR
    | with_reducible apply equality_stable hR
    | with_reducible apply stable_ite
    | with_reducible apply stable_bind
    | intro _

theorem bitand_stable {R R1 : Rec} (hR : ∀ fn, Stable (R fn) (R1 fn)) (notin : Bool) :
    Stable (bitand R notin) (bitand R1 notin) := by
  simp only [bitand]
  repeat' first
    | with_reducible exact stable_refl _
    | with_reducible apply hR
    | with_reducible apply bitand_loop_stable hR
    | with_reducible apply equality_stable hR
    | with_reducible apply stable_bind
    | intro _

theorem bitxor_loop_stable {R R1 : Rec} (hR : ∀ fn, Stable (R fn) (R1 fn)) (notin : Bool) (a : js_Ast) :
    Stable (bitxor_loop R notin a) (bitxor_loop R1 notin a) := by
  simp only [bitxor_loop]
  repeat' first
    | with_reducible exact stable_refl _
    | with_reducible apply hR
    | with_reducible apply bitand_stable hR
    | with_reducible apply stable_ite
    | with_reducible apply stable_bind
    | intro _

theorem bitxor_stable {R R1 : Rec} (hR : ∀ fn, Stable (R fn) (R1 fn)) (notin : Bool) :
    Stable (bitxor R notin) (bitxor R1 notin) := by
  simp only [bitxor]
  repeat' first
    | with_reducible exact stable_refl _
    | with_reducible apply hR
    | with_reducible apply bitand_stable hR
    | with_reducible apply bitxor_loop_stable hR
    | with_reducible apply stable_bind
    | intro _

theorem bitor_loop_stable {R R1 : Rec} (hR : ∀ fn, Stable (R fn) (R1 fn)) (notin : Bool) (a : js_Ast) :
    Stable (bitor_loop R notin a) (bitor_loop R1 notin a) := by
  simp only [bitor_loop]
  repeat' first
    | with_reducible exact stable_refl _
    | with_reducible apply hR
    | with_reducible apply bitxor_stable hR
    | with_reducible apply stable_ite
    | with_reducible apply stable_bind
    | intro _

theorem bitor_stable {R R1 : Rec} (hR : ∀ fn, Stable (R fn) (R1 fn)) (notin : Bool) :
    Stable (bitor R notin) (bitor R1 notin) := by
  simp only [bitor]
  repeat' first
    | with_reducible exact stable_refl _
    | with_reducible apply hR
    | with_reducible apply bitor_loop_stable hR
    | with_reducible apply bitxor_stable hR
    | with_reducible apply stable_bind
    | intro _

theorem logand_stable {R R1 : Rec} (hR : ∀ fn, Stable (R fn) (R1 fn)) (notin : Bool) :
    Stable (logand R notin) (logand R1 notin) := by
  simp only [logand]
  repeat' first
    | with_reducible exact stable_refl _
    | with_reducible apply hR
    | with_reducible apply bitor_stable hR
    | with_reducible apply stable_ite
    | with_reducible apply stable_bind
    | intro _

theorem logor_stable {R R1 : Rec} (hR : ∀ fn, Stable (R fn) (R1 fn)) (notin : Bool) :
    Stable (logor R notin) (logor R1 notin) := by
  simp only [logor]
  repeat' first
    | with_reducible exact stable_refl _
    | with_reducible apply hR
    | with_reducible apply logand_stable hR
    | with_reducible apply stable_ite
    | with_reducible apply stable_bind
    | intro _

theorem conditional_stable {R R1 : Rec} (hR : ∀ fn, Stable (R fn) (R1 fn)) (notin : Bool) :
    Stable (conditional R notin) (conditional R1 notin) := by
  simp only [conditional]
  repeat' first
    | with_reducible exact stable_refl _
    | with_reducible apply hR
    | with_reducible apply logor_stable hR
    | with_reducible apply stable_ite
    | with_reducible apply stable_bind
    | intro _

theorem assignment_stable {R R1 : Rec} (hR : ∀ fn, Stable (R fn) (R1 fn)) (notin : Bool) :
    Stable (assignment R notin) (assignment R1 notin) := by
  simp only [assignment]
  repeat' first
    | with_reducible exact stable_refl _
    | with_reducible apply hR
    | with_reducible apply conditional_stable hR
    | with_reducible apply stable_ite
    | with_reducible apply stable_bind
    | intro _

theorem expression_loop_stable {R R1 : Rec} (hR : ∀ fn, Stable (R fn) (R1 fn)) (notin : Bool) (a : js_Ast) :
    Stable (expression_loop R notin a) (expression_loop R1 notin a) := by
  simp only [expression_loop]
  repeat' first
    | with_reducible exact stable_refl _
    | with_reducible apply hR
    | with_reducible apply assignment_stable hR
    | with_reducible apply stable_ite
    | with_reducible apply stable_bind
    | intro _

theorem expression_stable {R R1 : Rec} (hR : ∀ fn, Stable (R fn) (R1 fn)) (notin : Bool) :
    Stable (expression R notin) (expression R1 notin) := by
  simp only [expression]
  repeat' first
    | with_reducible exact stable_refl _
    | with_reducible apply hR
    | with_reducible apply assignment_stable hR
    | with_reducible apply expression_loop_stable hR
    | with_reducible apply stable_bind
    | intro _

theorem vardec_stable {R R1 : Rec} (hR : ∀ fn, Stable (R fn) (R1 fn)) (notin : Bool) :
    Stable (vardec R notin) (vardec R1 notin) := by
  simp only [vardec]
  repeat' first
    | with_reducible exact stable_refl _
    | with_reducible apply hR
    | with_reducible apply assignment_stable hR
    | with_reducible apply stable_ite
    | with_reducible apply stable_bind
    | intro _

theorem vardeclist_loop_stable {R R1 : Rec} (hR : ∀ fn, Stable (R fn) (R1 fn)) (notin : Bool) :
    Stable (vardeclist_loop R notin) (vardeclist_loop R1 notin) := by
  simp only [vardeclist_loop]
  repeat' first
    | with_reducible exact stable_refl _
    | with_reducible apply hR
    | with_reducible apply vardec_stable hR
    | with_reducible apply stable_ite
    | with_reducible apply stable_bind
    | intro _

theorem vardeclist_stable {R R1 : Rec} (hR : ∀ fn, Stable (R fn) (R1 fn)) (notin : Bool) :
    Stable (vardeclist R notin) (vardeclist R1 notin) := by
  simp only [vardeclist]
  repeat' first
    | with_reducible exact stable_refl _
    | with_reducible apply hR
    | with_reducible apply vardec_stable hR
    | with_reducible apply vardeclist_loop_stable hR
    | with_reducible apply stable_bind
    | intro _

theorem statementlist_loop_stable {R R1 : Rec} (hR : ∀ fn, Stable (R fn) (R1 fn)) :
    Stable (statementlist_loop R) (statementlist_loop R1) := by
  simp only [statementlist_loop]
  repeat' first
    | with_reducible exact stable_refl _
    | with_reducible apply hR
    | with_reducible apply stable_ite
    | with_reducible apply stable_bind
    | intro _

theorem statementlist_stable {R R1 : Rec} (hR : ∀ fn, Stable (R fn) (R1 fn)) :
    Stable (statementlist R) (statementlist R1) := by
  simp only [statementlist]
  repeat' first
    | with_reducible exact stable_refl _
    | with_reducible apply hR
    | with_reducible apply statementlist_loop_stable hR
    | with_reducible apply stable_ite
    | with_reducible apply stable_bind
    | intro _

theorem caseclause_stable {R R1 : Rec} (hR : ∀ fn, Stable (R fn) (R1 fn)) :
    Stable (caseclause R) (caseclause R1) := by
  simp only [caseclause]
  repeat' first
    | with_reducible exact stable_refl _
    | with_reducible apply hR
    | with_reducible apply expression_stable hR
    | with_reducible apply statementlist_stable hR
    | with_reducible apply stable_ite
    | with_reducible apply stable_bind
    | intro _

theorem caselist_loop_stable {R R1 : Rec} (hR : ∀ fn, Stable (R fn) (R1 fn)) :
    Stable (caselist_loop R) (caselist_loop R1) := by
  simp only [caselist_loop]
  repeat' first
    | with_reducible exact stable_refl _
    | with_reducible apply hR
    | with_reducible apply caseclause_stable hR
    | with_reducible apply stable_ite
    | with_reducible apply stable_bind
    | intro _

theorem caselist_stable {R R1 : Rec} (hR : ∀ fn, Stable (R fn) (R1 fn)) :
    Stable (caselist R) (caselist R1) := by
  simp only [caselist]
  repeat' first
    | with_reducible exact stable_refl _
    | with_reducible apply hR
    | with_reducible apply caseclause_stable hR
    | with_reducible apply caselist_loop_stable hR
    | with_reducible apply stable_ite
    | with_reducible apply stable_bind
    | intro _

theorem block_stable {R R1 : Rec} (hR : ∀ fn, Stable (R fn) (R1 fn)) :
    Stable (block R) (block R1) := by
  simp only [block]
  repeat' first
    | with_reducible exact stable_refl _
    | with_reducible apply hR
    | with_reducible apply statementlist_stable hR
    | with_reducible apply stable_bind
    | intro _

theorem forexpression_stable {R R1 : Rec} (hR : ∀ fn, Stable (R fn) (R1 fn)) (end_ : Tok) :
    Stable (forexpression R end_) (forexpression R1 end_) := by
  simp only [forexpression]
  repeat' first
    | with_reducible exact stable_refl _
    | with_reducible apply hR
    | with_reducible apply expression_stable hR
    | with_reducible apply stable_ite
    | with_reducible apply stable_bind
    | intro _

theorem forstatement_stable {R R1 : Rec} (hR : ∀ fn, Stable (R fn) (R1 fn)) :
    Stable (forstatement R) (forstatement R1) := by
  simp only [forstatement]
  repeat' first
    | with_reducible exact stable_refl _
    | with_reducible apply hR
    | with_reducible apply expression_stable hR
    | with_reducible apply forexpression_stable hR
    | with_reducible apply vardeclist_stable hR
    | with_reducible apply stable_ite
    | with_reducible apply stable_bind
    | intro _

theorem statement_stable {R R1 : Rec} (hR : ∀ fn, Stable (R fn) (R1 fn)) :
    Stable (statement R) (statement R1) := by
  simp only [statement]
  repeat' first
    | with_reducible exact stable_refl _
    | with_reducible apply hR
    | with_reducible apply block_stable hR
    | with_reducible apply caselist_stable hR
    | with_reducible apply expression_stable hR
    | with_reducible apply forstatement_stable hR
    | with_reducible apply funstm_stable hR
    | with_reducible apply vardeclist_stable hR
    | with_reducible apply stable_ite
    | with_reducible apply stable_bind
    | intro _

theorem scriptelement_stable {R R1 : Rec} (hR : ∀ fn, Stable (R fn) (R1 fn)) :
    Stable (scriptelement R) (scriptelement R1) := by
  simp only [scriptelement]
  repeat' first
    | with_reducible exact stable_refl _
    | with_reducible apply hR
    | with_reducible apply fundec_stable hR
    | with_reducible apply statement_stable hR
    | with_reducible apply stable_ite
    | with_reducible apply stable_bind
    | intro _

theorem script_loop_stable {R R1 : Rec} (hR : ∀ fn, Stable (R fn) (R1 fn)) (terminator : Tok) :
    Stable (script_loop R terminator) (script_loop R1 terminator) := by
  simp only [script_loop]
  repeat' first
    | with_reducible exact stable_refl _
    | with_reducible apply hR
    | with_reducible apply scriptelement_stable hR
    | with_reducible apply stable_ite
    | with_reducible apply stable_bind
    | intro _

theorem script_stable {R R1 : Rec} (hR : ∀ fn, Stable (R fn) (R1 fn)) (terminator : Tok) :
    Stable (script R terminator) (script R1 terminator) := by
  simp only [script]
  repeat' first
    | with_reducible exact stable_refl _
    | with_reducible apply hR
    | with_reducible apply script_loop_stable hR
    | with_reducible apply scriptelement_stable hR
    | with_reducible apply stable_ite
    | with_reducible apply stable_bind
    | intro _

theorem funbody_stable {R R1 : Rec} (hR : ∀ fn, Stable (R fn) (R1 fn)) :
    Stable (funbody R) (funbody R1) := by
  simp only [funbody]
  repeat' first
    | with_reducible exact stable_refl _
    | with_reducible apply hR
    | with_reducible apply script_stable hR
    | with_reducible apply stable_bind
    | intro _

theorem step_stable {R R1 : Rec} (hR : ∀ fn, Stable (R fn) (R1 fn)) (fn : Fn) :
    Stable (step R fn) (step R1 fn) := by
  cases fn <;> simp only [step]
  · exact expression_stable hR _
  · exact assignment_stable hR _
  · exact memberexp_stable hR
  · exact statement_stable hR
  · exact funbody_stable hR
  · exact unary_stable hR
  · exact logand_stable hR _
  · exact logor_stable hR _
  · exact arrayliteral_loop_stable hR
  · exact objectliteral_loop_stable hR
  · exact parameters_loop_stable hR
  · exact arguments_loop_stable hR
  · exact memberexp_loop_stable hR _
  · exact callexp_loop_stable hR _
  · exact multiplicative_loop_stable hR _
  · exact additive_loop_stable hR _
  · exact shift_loop_stable hR _
  · exact relational_loop_stable hR _ _
  · exact equality_loop_stable hR _ _
  · exact bitand_loop_stable hR _ _
  · exact bitxor_loop_stable hR _ _
  · exact bitor_loop_stable hR _ _
  · exact expression_loop_stable hR _ _
  · exact vardeclist_loop_stable hR _
  · exact statementlist_loop_stable hR
  · exact caselist_loop_stable hR
  · exact script_loop_stable hR _

theorem run_succ_stable (n : Nat) (fn : Fn) : Stable (run n fn) (run (n + 1) fn) := by
  induction n generalizing fn with
  | zero => exact ⟨fun J h => absurd rfl h⟩
  | succ n ih => exact step_stable ih fn

/-- An outcome other than `nofuel` of an entry point is its outcome under
every deeper recursion bound. -/
theorem run_stable {n m : Nat} (h : n ≤ m) (fn : Fn) : Stable (run n fn) (run m fn) := by
  induction m, h using Nat.le_induction with
  | base => exact stable_refl _
  | succ k _ ih =>
    exact ⟨fun J hJ => by rw [(run_succ_stable k fn).out J (by rw [ih.out J hJ]; exact hJ),
      ih.out J hJ]⟩

/-- An outcome other than `nofuel` of a parse function under some recursion
bound is its outcome under every deeper bound. -/
theorem yields_of_run {α : Type} {F : Rec → P α}
    (hF : ∀ R R1 : Rec, (∀ fn, Stable (R fn) (R1 fn)) → Stable (F R) (F R1))
    {n : Nat} {J : js_State} {r : Res α} (h : F (run n) J = r) (hr : r ≠ .nofuel) :
    Yields F J r :=
  ⟨n, fun m hm => by
    rw [(hF (run n) (run m) (fun fn => run_stable hm fn)).out J (by rw [h]; exact hr), h]⟩

/-! ## C34: a returned parse has consumed the source -/

theorem eofLast_next {J : js_State} (h : EofLast J) : EofLast (nextState J) := by
  unfold EofLast nextState at *
  cases hs : J.source with
  | nil => simp
  | cons t ts =>
    rw [hs] at h
    simp only
    exact ⟨fun u hu => h.1 u (List.mem_cons_of_mem _ hu),
      fun he => absurd he (h.1 t (List.mem_cons_self _ _))⟩

theorem eofLast_reach {J J1 : js_State} (h : EofLast J) (hr : Reach J J1) : EofLast J1 := by
  induction hr with
  | refl => exact h
  | next _ ih => exact eofLast_next ih
  | warn w _ ih => exact ih

/-- The state in which `jsP_parse` calls `script`, when no token of the source
is end-of-input. -/
theorem eofLast_start {source : List Token} (h : ∀ t ∈ source, t.kind ≠ Tok.EOF)
    (J : js_State) (filename : String) :
    EofLast (nextState { J with filename := filename, source := source }) ∧
    ((nextState { J with filename := filename, source := source }).lookahead = Tok.EOF ↔
      source = []) := by
  cases source with
  | nil => simp [EofLast, nextState]
  | cons t ts =>
    have ht := h t (List.mem_cons_self _ _)
    simp only [EofLast, nextState, ht, reduceCtorEq, iff_false, not_false_eq_true, and_true,
      false_implies]
    exact fun u hu => h u (List.mem_cons_of_mem _ hu)

theorem isList_cell {line : Nat} {e rest : js_Ast} (h : rest.isList = true) :
    (js_Ast.new .AST_LIST line e rest .NULL .NULL).isList = true := by
  simp [js_Ast.new, js_Ast.isList, js_Ast.isNull, h]

theorem elements_cell (line : Nat) (e rest : js_Ast) :
    (js_Ast.new .AST_LIST line e rest .NULL .NULL).elements = e :: rest.elements := by
  simp [js_Ast.new, js_Ast.elements]

/-- The loop of `script`, when it returns, has stopped at the terminator and
returns one cell for each script element it parsed, in order. -/
theorem script_loop_elements (n : Nat) (t : Tok) (J J1 : js_State) (v : js_Ast)
    (h : run n (.script_loop t) J = .ok v J1) :
    ∃ es, ScriptElements t J es J1 ∧ v.isList = true ∧ v.elements = es := by
  induction n generalizing J v with
  | zero => simp [run] at h
  | succ n ih =>
    simp only [run_succ, step] at h
    rw [script_loop] at h
    simp only [bind_apply, getJ_apply] at h
    by_cases hl : J.lookahead = t
    · simp only [hl, ne_eq, not_true_eq_false, ↓reduceIte, pure_apply, Res.ok.injEq] at h
      obtain ⟨rfl, rfl⟩ := h
      exact ⟨[], ScriptElements.nil hl, rfl, rfl⟩
    · simp only [ne_eq, hl, not_false_eq_true, ↓reduceIte] at h
      cases he : scriptelement (run n) J with
      | ok e J2 =>
        simp only [bind_apply, he, LIST_apply] at h
        cases hr : run n (.script_loop t) J2 with
        | ok rest J3 =>
          simp only [bind_apply, hr, pure_apply, new_setB, Res.ok.injEq] at h
          obtain ⟨rfl, rfl⟩ := h
          obtain ⟨es, hes, hlist, hel⟩ := ih J2 rest hr
          exact ⟨e :: es, ScriptElements.cons hl
            (yields_of_run (F := fun R => scriptelement R)
              (fun R R1 hR => scriptelement_stable hR) he (by simp)) hes,
            isList_cell hlist, by rw [elements_cell, hel]⟩
        | error m => simp [hr] at h
        | nofuel => simp [hr] at h
      | error m => simp [he] at h
      | nofuel => simp [he] at h

/-- The function `script`, when it returns, has stopped at the terminator and
returns one cell for each script element it parsed, in order; the list is
null exactly when the first lookahead is the terminator. -/
theorem script_elements (n : Nat) (t : Tok) (J J1 : js_State) (v : js_Ast)
    (h : script (run n) t J = .ok v J1) :
    (v = .NULL ↔ J.lookahead = t) ∧
    ∃ es, ScriptElements t J es J1 ∧ v.isList = true ∧ v.elements = es := by
  rw [script] at h
  simp only [bind_apply, getJ_apply] at h
  by_cases hl : J.lookahead = t
  · simp only [hl, ↓reduceIte, pure_apply, Res.ok.injEq] at h
    obtain ⟨rfl, rfl⟩ := h
    exact ⟨by simp [hl], [], ScriptElements.nil hl, rfl, rfl⟩
  · simp only [hl, ↓reduceIte] at h
    cases he : scriptelement (run n) J with
    | ok e J2 =>
      simp only [bind_apply, he, LIST_apply] at h
      have hstep : script_loop (run n) t J2 = run (n + 1) (.script_loop t) J2 := rfl
      rw [hstep] at h
      cases hr : run (n + 1) (.script_loop t) J2 with
      | ok rest J3 =>
        simp only [bind_apply, hr, pure_apply, new_setB, jsP_list, Res.ok.injEq] at h
        obtain ⟨rfl, rfl⟩ := h
        obtain ⟨es, hes, hlist, hel⟩ := script_loop_elements (n + 1) t J2 _ rest hr
        refine ⟨by simp [hl, js_Ast.new], e :: es, ScriptElements.cons hl
          (yields_of_run (F := fun R => scriptelement R)
            (fun R R1 hR => scriptelement_stable hR) he (by simp)) hes,
          isList_cell hlist, by rw [elements_cell, hel]⟩
      | error m => simp [hr] at h
      | nofuel => simp [hr] at h
    | error m => simp [he] at h
    | nofuel => simp [he] at h

/-- The last state of a sequence of script elements has the terminator as its
lookahead. -/
theorem scriptElements_stop {t : Tok} {J J1 : js_State} {es : List js_Ast}
    (h : ScriptElements t J es J1) : J1.lookahead = t := by
  induction h with
  | nil h => exact h
  | cons _ _ _ ih => exact ih

/-- Folding a well-formed list folds its elements and keeps its cells. -/
theorem jsP_foldconst_list (p : js_Ast) (h : p.isList = true) :
    (jsP_foldconst p).1.isList = true ∧
    (jsP_foldconst p).1.elements = p.elements.map fun e => (jsP_foldconst e).1 := by
  induction p with
  | NULL => simp [jsP_foldconst, js_Ast.isList, js_Ast.elements]
  | node type line a b c d number string _ ihb _ _ =>
    by_cases ht : type = .AST_LIST
    · subst ht
      simp only [js_Ast.isList, Bool.and_eq_true] at h
      obtain ⟨⟨hc, hd⟩, hb⟩ := h
      have hc' : c = .NULL := by cases c <;> simp [js_Ast.isNull] at hc ⊢
      have hd' : d = .NULL := by cases d <;> simp [js_Ast.isNull] at hd ⊢
      subst hc' hd'
      rw [jsP_foldconst_keep _ _ _ _ _ _ _ _ (by decide) (by simp [foldable, foldsUnary,
        foldsBinary])]
      have hn : jsP_foldconst .NULL = (.NULL, false) := by simp [jsP_foldconst]
      simp [hn, js_Ast.isList, js_Ast.isNull, js_Ast.elements, (ihb hb).1, (ihb hb).2]
    · cases type <;> simp [js_Ast.isList] at h ht

/-- C34.  Whenever `jsP_parse` returns, on a source none of whose tokens is
end-of-input: the lookahead is end-of-input and no token is left in the
source; the tree is null exactly when the source is empty; and the tree is a
well-formed list whose elements are, in order, the folded trees that
successive calls of `scriptelement` return from the first token on, up to
end-of-input. -/
theorem jsP_parse_consumes_all (fuel : Nat) (filename : String) (source : List Token)
    (J J1 : js_State) (v : js_Ast) (hsrc : ∀ t ∈ source, t.kind ≠ Tok.EOF)
    (h : jsP_parse fuel filename source J = .ok v J1) :
    J1.lookahead = Tok.EOF ∧ J1.source = [] ∧ (v = .NULL ↔ source = []) ∧
    ∃ es, ScriptElements Tok.EOF
        (nextState { J with filename := filename, source := source }) es J1 ∧
      v.isList = true ∧ v.elements = es.map fun e => (jsP_foldconst e).1 := by
  obtain ⟨hstart, hnil⟩ := eofLast_start hsrc J filename
  simp only [jsP_parse, jsY_initlex, bind_apply, jsP_next_apply] at h
  cases hs : script (run fuel) Tok.EOF
      (nextState { J with filename := filename, source := source }) with
  | ok p J2 =>
    rw [hs] at h
    obtain ⟨hnull, es, hes, hlist, hel⟩ := script_elements fuel Tok.EOF _ J2 p hs
    have hJ : J2 = J1 ∧ v = if p.isNull then p else (jsP_foldconst p).1 := by
      dsimp only at h
      split at h <;> simp_all
    obtain ⟨rfl, rfl⟩ := hJ
    have hlast := eofLast_reach hstart ((script_run_moves fuel Tok.EOF).out _ p J2 hs)
    refine ⟨scriptElements_stop hes, hlast.2 (scriptElements_stop hes), ?_, es, hes, ?_⟩
    · rw [← hnil, ← hnull]
      cases p with
      | NULL => simp [js_Ast.isNull]
      | node type line a b c d number string =>
        simp only [js_Ast.isNull, Bool.false_eq_true, ↓reduceIte, reduceCtorEq, iff_false]
        have ht : type = .AST_LIST := by
          cases type <;> simp [js_Ast.isList] at hlist ⊢
        subst ht
        rw [jsP_foldconst_keep _ _ _ _ _ _ _ _ (by decide) (by simp [foldable, foldsUnary,
          foldsBinary])]
        simp
    · cases hp : p.isNull
      · simp only [Bool.false_eq_true, ↓reduceIte]
        rw [← hel]
        exact jsP_foldconst_list p hlist
      · cases p with
        | NULL =>
          simp only [js_Ast.isNull, ↓reduceIte, js_Ast.elements] at hel ⊢
          rw [← hel]
          exact ⟨rfl, rfl⟩
        | node type line a b c d number string => simp [js_Ast.isNull] at hp
  | error m => simp [hs] at h
  | nofuel => simp [hs] at h

/-- C34 on the source `~0`: the parse returns, at end-of-input with an empty
source, a list of one element. -/
theorem jsP_parse_consumes_all_witness :
    ∃ n v J1, jsP_parse n "f.js" bitnotZero initState = .ok v J1 ∧
      J1.lookahead = Tok.EOF ∧ J1.source = [] ∧ v ≠ .NULL := by
  obtain ⟨n, h⟩ := jsP_parse_bitnotZero
  have hc := jsP_parse_consumes_all n "f.js" bitnotZero initState _ _ (by decide)
    (h n le_rfl)
  exact ⟨n, _, _, h n le_rfl, hc.1, hc.2.1, by simp [js_Ast.new]⟩

/-! ## C32: `jsP_list` sets the parent of each cell to the cell before it -/

namespace Arena

/-- From a given pointer there is one chain of cells. -/
theorem cells_unique {H : Arena} :
    ∀ (l l1 : List Nat) (p : Ptr), H.Cells p l → H.Cells p l1 → l = l1 := by
  intro l
  induction l with
  | nil =>
    intro l1 p h h1
    cases l1 with
    | nil => rfl
    | cons q l1 =>
      have h : p = none := h
      rw [h] at h1
      cases h1.1
  | cons q l ih =>
    intro l1 p h h1
    obtain ⟨hp, n, hn, hc⟩ := h
    cases l1 with
    | nil =>
      have h1 : p = none := h1
      rw [h1] at hp
      cases hp
    | cons q1 l1 =>
      obtain ⟨hp1, n1, hn1, hc1⟩ := h1
      rw [hp] at hp1
      cases hp1
      rw [hn] at hn1
      cases hn1
      rw [ih l1 _ hc hc1]

/-- The chain from a cell of a chain is no longer than the chain. -/
theorem cells_suffix {H : Arena} :
    ∀ (l : List Nat) (p : Ptr), H.Cells p l → ∀ q ∈ l,
      ∃ l2, H.Cells (some q) l2 ∧ l2.length ≤ l.length := by
  intro l
  induction l with
  | nil => intro p _ q hq; cases hq
  | cons q0 l ih =>
    rintro p ⟨hp, n, hn, hc⟩ q hq
    rcases List.mem_cons.mp hq with rfl | hq
    · exact ⟨q :: l, ⟨rfl, n, hn, hc⟩, le_rfl⟩
    · obtain ⟨l2, h2, hl⟩ := ih _ hc q hq
      exact ⟨l2, h2, by simp only [List.length_cons]; omega⟩

/-- A chain of cells that ends at the null pointer meets no cell twice. -/
theorem cells_nodup {H : Arena} : ∀ (l : List Nat) (p : Ptr), H.Cells p l → l.Nodup := by
  intro l
  induction l with
  | nil => intro p _; exact List.nodup_nil
  | cons q l ih =>
    rintro p ⟨hp, n, hn, hc⟩
    refine List.nodup_cons.mpr ⟨fun hq => ?_, ih _ hc⟩
    obtain ⟨l2, h2, hl⟩ := cells_suffix l _ hc q hq
    have := cells_unique _ _ _ h2 (show H.Cells (some q) (q :: l) from ⟨rfl, n, hn, hc⟩)
    rw [this] at hl
    simp only [List.length_cons] at hl
    omega

/-- A chain of cells is a chain in every arena that has the same child slot
`b` in its cells. -/
theorem cells_mono {H H1 : Arena} :
    ∀ (l : List Nat) (p : Ptr),
      (∀ q ∈ l, ∀ n, H.mem q = some n → ∃ n1, H1.mem q = some n1 ∧ n1.b = n.b) →
      H.Cells p l → H1.Cells p l := by
  intro l
  induction l with
  | nil => intro p _ h; exact h
  | cons q l ih =>
    rintro p hl ⟨hp, n, hn, hc⟩
    obtain ⟨n1, e1, g1⟩ := hl q (List.mem_cons_self _ _) n hn
    exact ⟨hp, n1, e1, ih _ (fun q' hq' => hl q' (List.mem_cons_of_mem _ hq'))
      (by rw [g1]; exact hc)⟩

theorem parentsSet_congr {H H0 H1 : Arena} :
    ∀ (l : List Nat) (prev : Nat), (∀ x ∈ l, H.mem x = H0.mem x) →
      ParentsSet H0 H1 prev l → ParentsSet H H1 prev l := by
  intro l
  induction l with
  | nil => intro prev _ _; trivial
  | cons q l ih =>
    rintro prev hx ⟨⟨n, hn, hn1⟩, hrest⟩
    exact ⟨⟨n, by rw [hx q (List.mem_cons_self _ _)]; exact hn, hn1⟩,
      ih q (fun x hxl => hx x (List.mem_cons_of_mem _ hxl)) hrest⟩

/-- The loop of `jsP_list` along a chain of cells. -/
theorem jsP_list_loop_spec :
    ∀ (l : List Nat) (fuel prev : Nat) (p : Ptr) (H : Arena),
      H.Cells p l → l.Nodup → l.length ≤ fuel →
      ∃ H1, jsP_list_loop fuel prev p H = (some (), H1) ∧ H1.brk = H.brk ∧
        H1.gcast = H.gcast ∧ H1.astline = H.astline ∧ H1.freed = H.freed ∧
        H1.freedJumps = H.freedJumps ∧ (∀ q, q ∉ l → H1.mem q = H.mem q) ∧
        ParentsSet H H1 prev l := by
  intro l
  induction l with
  | nil =>
    intro fuel prev p H hc _ _
    have hp : p = none := hc
    subst hp
    refine ⟨H, ?_, rfl, rfl, rfl, rfl, rfl, fun _ _ => rfl, trivial⟩
    cases fuel <;> rfl
  | cons q l ih =>
    rintro fuel prev p H ⟨hp, n, hn, hc⟩ hnd hlen
    subst hp
    obtain ⟨f, rfl⟩ : ∃ f, fuel = f + 1 := ⟨fuel - 1, by
      simp only [List.length_cons] at hlen; omega⟩
    obtain ⟨hq, hnd'⟩ := List.nodup_cons.mp hnd
    have hmemA : ∀ x, x ≠ q →
        (Function.update H.mem q (some { n with parent := some prev })) x = H.mem x :=
      fun x hx => Function.update_noteq hx _ _
    have hcA : Cells
        { H with mem := (Function.update H.mem q (some { n with parent := some prev })) }
        n.b l := by
      refine cells_mono l _ (fun x hx m hm => ⟨m, ?_, rfl⟩) hc
      have : x ≠ q := fun e => hq (e ▸ hx)
      simp only [hmemA x this, hm]
    obtain ⟨H1, e1, b1, g1, a1, f1, j1, m1, p1⟩ := ih f q n.b _ hcA hnd'
      (by simp only [List.length_cons] at hlen; omega)
    refine ⟨H1, ?_, b1, g1, a1, f1, j1, ?_, ?_, ?_⟩
    · rw [jsP_list_loop]
      simp only [act_bind_apply]
      rw [modify_live _ hn]
      simp only [load_apply, Function.update_same]
      exact e1
    · intro x hx
      have hxq : x ≠ q := fun e => hx (e ▸ List.mem_cons_self _ _)
      have hxl : x ∉ l := fun e => hx (List.mem_cons_of_mem _ e)
      rw [m1 x hxl]
      exact hmemA x hxq
    · refine ⟨n, hn, ?_⟩
      rw [m1 q hq]
      simp only [Function.update_same]
    · refine parentsSet_congr l q (fun x hx => ?_) p1
      have : x ≠ q := fun e => hq (e ▸ hx)
      simp only [hmemA x this]

/-- What `jsP_list` does on a chain of cells that starts at `head`. -/
theorem jsP_list_spec {H : Arena} {head : Nat} {rest : List Nat}
    (hc : H.Cells (some head) (head :: rest)) (fuel : Nat) (hf : rest.length ≤ fuel) :
    ∃ H1, jsP_list fuel head H = (some head, H1) ∧ H1.brk = H.brk ∧
      H1.gcast = H.gcast ∧ H1.astline = H.astline ∧ H1.freed = H.freed ∧
      H1.freedJumps = H.freedJumps ∧ (∀ q, q ∉ rest → H1.mem q = H.mem q) ∧
      ParentsSet H H1 head rest := by
  have hnd := cells_nodup _ _ hc
  obtain ⟨-, n, hn, hr⟩ := hc
  obtain ⟨H1, e1, h1⟩ := jsP_list_loop_spec rest fuel head n.b H hr
    (List.nodup_cons.mp hnd).2 hf
  refine ⟨H1, ?_, h1⟩
  simp only [jsP_list, act_bind_apply, load_apply, hn, e1, act_pure_apply]

/-- A list is a chain of cells. -/
theorem listAt_cells {H : Arena} {par : Nat → Ptr} :
    ∀ (l : List Nat) (es : List Ptr) (first p : Ptr),
      ListAt H par first p l es → H.Cells p l := by
  intro l
  induction l with
  | nil =>
    intro es first p h
    cases es with
    | nil => exact h
    | cons e es => simp [ListAt] at h
  | cons q l ih =>
    intro es first p h
    cases es with
    | nil => simp [ListAt] at h
    | cons e es =>
      obtain ⟨hp, n, hn, -, -, -, hr⟩ := h
      exact ⟨hp, n, hn, ih es _ _ hr⟩

/-- A list whose cells have got their parents set by `jsP_list`. -/
theorem listAt_parents {H H1 : Arena} {par : Nat → Ptr} :
    ∀ (l : List Nat) (es : List Ptr) (first p : Ptr) (prev : Nat),
      ListAt H par first p l es → ParentsSet H H1 prev l →
      ListAt H1 (fun q => some q) (some prev) p l es := by
  intro l
  induction l with
  | nil =>
    intro es first p prev h _
    cases es with
    | nil => exact h
    | cons e es => simp [ListAt] at h
  | cons q l ih =>
    intro es first p prev h hp
    cases es with
    | nil => simp [ListAt] at h
    | cons e es =>
      obtain ⟨hp0, n, hn, ht, ha, -, hr⟩ := h
      obtain ⟨⟨n', hn', hn1⟩, hrest⟩ := hp
      rw [hn] at hn'
      cases hn'
      exact ⟨hp0, _, hn1, ht, ha, rfl, ih es _ _ q hr hrest⟩

/-- The cell that `LIST(e)` creates, and the arena after it. -/
theorem newcell_spec (H : Arena) (e : Ptr) (hf : ∀ q, H.brk ≤ q → H.mem q = none)
    (he : Valid H e) :
    ∃ Ha, jsP_newnode .AST_LIST e none none none H = (some H.brk, Ha) ∧
      Ha.brk = H.brk + 1 ∧
      Ha.mem H.brk =
        some { type := .AST_LIST, line := H.astline, parent := none, a := e, b := none,
               c := none, d := none, number := Dbl.fin 0, string := none, jumps := [],
               casejump := 0, gcnext := H.gcast } ∧
      ∀ q, q ≠ H.brk → Ha.mem q =
        (H.mem q).map fun n => if e = some q then { n with parent := some H.brk } else n := by
  have hv : Valid H none := fun q hq => by cases hq
  obtain ⟨h1, h2, -, -, -, -, h7, h8⟩ := jsP_newnode_spec H .AST_LIST e none none none hf he
    hv hv hv
  refine ⟨(jsP_newnode .AST_LIST e none none none H).2, ?_, h2, h7, fun q hq => ?_⟩
  · rw [← h1]
  · rw [h8 q hq]
    simp

/-- The statements `tail = tail->b = LIST(e)` for the elements `es`, from a
tail whose child slot `b` is null: the new cells follow the tail in order. -/
theorem listExtend_spec :
    ∀ (es : List Ptr) (H : Arena) (tail : Nat) (nt : Node),
      (∀ q, H.brk ≤ q → H.mem q = none) → H.mem tail = some nt → nt.b = none →
      (∀ e ∈ es, Valid H e) → (∀ e ∈ es, e ≠ some tail) →
      ∃ H1 b1, listExtend tail es H = (some (), H1) ∧
        (∀ q, H1.brk ≤ q → H1.mem q = none) ∧
        H1.mem tail = some { nt with b := b1 } ∧
        (∀ q, q < H.brk → q ≠ tail → (∀ e ∈ es, e ≠ some q) → H1.mem q = H.mem q) ∧
        ListAt H1 (fun _ => none) none b1 (List.range' H.brk es.length) es := by
  intro es
  induction es with
  | nil =>
    intro H tail nt hf ht hb _ _
    refine ⟨H, none, rfl, hf, ?_, fun _ _ _ _ => rfl, rfl⟩
    rw [ht, ← hb]
  | cons e es ih =>
    intro H tail nt hf ht hb hv hne
    have hve := hv e (List.mem_cons_self _ _)
    obtain ⟨Ha, ea, ba, ca, ma⟩ := newcell_spec H e hf hve
    have htl : tail < H.brk := by
      by_contra h
      rw [hf tail (by omega)] at ht
      cases ht
    have hta : Ha.mem tail = some nt := by
      rw [ma tail (by omega), ht]
      simp [hne e (List.mem_cons_self _ _)]
    have hmemB : ∀ x, x ≠ tail →
        (Function.update Ha.mem tail (some { nt with b := some H.brk })) x = Ha.mem x :=
      fun x hx => Function.update_noteq hx _ _
    have hlive : ∀ q n, H.mem q = some n → q < H.brk := by
      intro q n hq
      by_contra h
      rw [hf q (by omega)] at hq
      cases hq
    obtain ⟨H1, b1, e1, f1, t1, u1, l1⟩ := ih
      { Ha with mem := (Function.update Ha.mem tail (some { nt with b := some H.brk })) }
      H.brk _
      (by
        intro q hq
        simp only [ba] at hq
        simp only
        rw [hmemB q (by omega), ma q (by omega), hf q (by omega)]
        rfl)
      (by
        simp only
        rw [hmemB _ (by omega), ca])
      rfl
      (by
        intro e' he' q hq
        obtain ⟨n, hn⟩ := hv e' (List.mem_cons_of_mem _ he') q hq
        have hql := hlive q n hn
        have hqt : q ≠ tail := fun h =>
          hne e' (List.mem_cons_of_mem _ he') (by rw [hq, h])
        exact ⟨_, (hmemB q hqt).trans (by rw [ma q (by omega), hn]; rfl)⟩)
      (by
        intro e' he' heq
        obtain ⟨n, hn⟩ := hv e' (List.mem_cons_of_mem _ he') _ heq
        have := hlive _ n hn
        omega)
    refine ⟨H1, some H.brk, ?_, f1, ?_, ?_, ?_⟩
    · rw [listExtend]
      simp only [act_bind_apply, ea]
      rw [modify_live _ hta]
      exact e1
    · rw [u1 tail (by simp only [ba]; omega) (by omega)
        (fun e' he' => hne e' (List.mem_cons_of_mem _ he'))]
      simp only [Function.update_same]
    · intro q hq hqt hqe
      rw [u1 q (by simp only [ba]; omega) (by omega)
        (fun e' he' => hqe e' (List.mem_cons_of_mem _ he'))]
      simp only
      rw [hmemB q hqt, ma q (by omega)]
      simp [hqe e (List.mem_cons_self _ _)]
    · simp only [List.length_cons, List.range'_succ]
      exact ⟨rfl, _, t1, rfl, rfl, rfl, by simpa [ba] using l1⟩

/-- The list that the list statements build on elements that are parsed
already: the cells are new blocks in order, one for each element, and
`jsP_list` has set the parent of each cell but the first to the cell before
it. -/
theorem listBuild_spec (H : Arena) (e : Ptr) (es : List Ptr) (fuel : Nat)
    (hf : ∀ q, H.brk ≤ q → H.mem q = none) (he : Valid H e) (hes : ∀ x ∈ es, Valid H x)
    (hfuel : es.length ≤ fuel) :
    ∃ H1, listBuild fuel e es H = (some H.brk, H1) ∧
      ListAt H1 (fun q => some q) none (some H.brk)
        (List.range' H.brk (es.length + 1)) (e :: es) := by
  obtain ⟨Ha, ea, ba, ca, ma⟩ := newcell_spec H e hf he
  have hlive : ∀ q n, H.mem q = some n → q < H.brk := by
    intro q n hq
    by_contra h
    rw [hf q (by omega)] at hq
    cases hq
  obtain ⟨Hb, b1, eb, fb, tb, ub, lb⟩ := listExtend_spec es Ha H.brk _
    (by
      intro q hq
      rw [ma q (by omega), hf q (by omega)]
      rfl)
    ca rfl
    (by
      intro x hx q hq
      obtain ⟨n, hn⟩ := hes x hx q hq
      have := hlive q n hn
      exact ⟨_, by rw [ma q (by omega), hn]; rfl⟩)
    (by
      intro x hx heq
      obtain ⟨n, hn⟩ := hes x hx _ heq
      have := hlive _ n hn
      omega)
  have hraw : ListAt Hb (fun _ => none) none (some H.brk)
      (H.brk :: List.range' (H.brk + 1) es.length) (e :: es) :=
    ⟨rfl, _, tb, rfl, rfl, rfl, by simpa [ba] using lb⟩
  obtain ⟨H1, e1, -, -, -, -, -, m1, p1⟩ := jsP_list_spec (listAt_cells _ _ _ _ hraw) fuel
    (by simpa using hfuel)
  refine ⟨H1, ?_, ?_⟩
  · simp only [listBuild, act_bind_apply, ea, eb, e1]
  · simp only [List.range'_succ]
    obtain ⟨-, n, hn, ht, ha, hp, hr⟩ := hraw
    refine ⟨rfl, n, ?_, ht, ha, hp, listAt_parents _ _ _ _ _ hr p1⟩
    rw [m1 H.brk (by simp), hn]

end Arena

/-- C32.  On a chain of cells `head, c2, ..., cn` linked through the child
slot `b` up to the null pointer, `jsP_list(head)` with a loop bound of at
least `n - 1` rounds returns `head`; every block that is not one of
`c2, ..., cn` is as it was, the head among them, so that the parent of the
head is unchanged; and each cell `ci` from the second on has got the cell
before it as parent and kept its kind, its child slots and every other
field.  So the list that the list statements of `parameters`, `arguments`,
`vardeclist`, `statementlist`, `caselist` and `script` build on elements
`e1, ..., en` is a chain of `n` new `AST_LIST` cells whose first children are
the elements in order, the head with a null parent and every further cell
with the cell before it as parent. -/
theorem jsP_list_parents :
    (∀ (H : Arena) (head : Nat) (rest : List Nat) (fuel : Nat),
      H.Cells (some head) (head :: rest) → rest.length ≤ fuel →
      ∃ H1, Arena.jsP_list fuel head H = (some head, H1) ∧ H1.brk = H.brk ∧
        H1.gcast = H.gcast ∧ H1.astline = H.astline ∧ H1.freed = H.freed ∧
        H1.freedJumps = H.freedJumps ∧ (∀ q, q ∉ rest → H1.mem q = H.mem q) ∧
        H1.mem head = H.mem head ∧ Arena.ParentsSet H H1 head rest) ∧
    (∀ (H : Arena) (e : Ptr) (es : List Ptr) (fuel : Nat),
      (∀ q, H.brk ≤ q → H.mem q = none) → H.Valid e → (∀ x ∈ es, H.Valid x) →
      es.length ≤ fuel →
      ∃ H1, Arena.listBuild fuel e es H = (some H.brk, H1) ∧
        Arena.ListAt H1 (fun q => some q) none (some H.brk)
          (List.range' H.brk (es.length + 1)) (e :: es)) := by
  refine ⟨fun H head rest fuel hc hf => ?_, fun H e es fuel hf he hes hfuel =>
    Arena.listBuild_spec H e es fuel hf he hes hfuel⟩
  have hnd := Arena.cells_nodup _ _ hc
  obtain ⟨H1, e1, b1, g1, a1, f1, j1, m1, p1⟩ := Arena.jsP_list_spec hc fuel hf
  exact ⟨H1, e1, b1, g1, a1, f1, j1, m1, m1 head (List.nodup_cons.mp hnd).1, p1⟩

/-- C32 on the list built in the empty arena on two null elements: two cells,
the blocks 0 and 1, the parent of the second being the first. -/
theorem jsP_list_parents_witness :
    ∃ H1, Arena.listBuild 1 none [none] Arena.empty = (some 0, H1) ∧
      Arena.ListAt H1 (fun q => some q) none (some 0) [0, 1] [none, none] := by
  obtain ⟨H1, h1, h2⟩ := jsP_list_parents.2 Arena.empty none [none] 1 (fun _ _ => rfl)
    (fun q hq => by cases hq) (fun x hx q hq => by
      simp only [List.mem_singleton] at hx
      subst hx
      cases hq) le_rfl
  exact ⟨H1, h1, h2⟩

/-! ## The lines stamped on the nodes -/

theorem inOrder_next {J : js_State} (h : J.inOrder) :
    (nextState J).inOrder ∧ J.astline ≤ (nextState J).astline := by
  obtain ⟨h1, h2, h3⟩ := h
  unfold nextState js_State.inOrder
  cases hs : J.source with
  | nil => simp [h1]
  | cons t ts =>
    rw [hs] at h2 h3
    simp only
    rw [List.pairwise_cons] at h3
    exact ⟨⟨h2 t (List.mem_cons_self _ _), h3.1, h3.2⟩, h1⟩

theorem span_null {s e : Nat} (h : s ≤ e) : Span s .NULL e :=
  ⟨h, rfl, fun l hl => by simp [js_Ast.linesPre] at hl⟩

theorem span_mono {s s1 e e1 : Nat} {v : js_Ast} (h : Span s v e) (hs : s1 ≤ s)
    (he : e ≤ e1) : Span s1 v e1 :=
  ⟨by have := h.1; omega, h.2.1, fun l hl => by have := h.2.2 l hl; omega⟩

/-- A node other than a list cell over trees created before it. -/
theorem span_node {t : js_AstType} {s line : Nat} {a b c d : js_Ast} (ht : t ≠ .AST_LIST)
    (ha : Span s a line) (hb : Span s b line) (hc : Span s c line) (hd : Span s d line) :
    Span s (js_Ast.new t line a b c d) line := by
  refine ⟨ha.1, ?_, ?_⟩
  · simp only [js_Ast.new, js_Ast.lineOrdered, ha.2.1, hb.2.1, hc.2.1, hd.2.1, ht,
      Bool.and_self, Bool.true_and, ↓reduceIte, Bool.and_eq_true, List.all_eq_true,
      decide_eq_true_eq]
    exact ⟨⟨⟨fun l hl => (ha.2.2 l hl).2, fun l hl => (hc.2.2 l hl).2⟩,
      fun l hl => (hd.2.2 l hl).2⟩, fun l hl => (hb.2.2 l hl).2⟩
  · intro l hl
    simp only [js_Ast.new, js_Ast.linesPre, List.mem_cons, List.mem_append] at hl
    rcases hl with rfl | ((hl | hl) | hl) | hl
    · exact ⟨ha.1, le_rfl⟩
    · exact ha.2.2 l hl
    · exact hb.2.2 l hl
    · exact hc.2.2 l hl
    · exact hd.2.2 l hl

/-- A list cell over its element, created before it, and the rest of the
list, created after it. -/
theorem span_cell {s line e : Nat} {x rest : js_Ast} (hx : Span s x line)
    (hr : Span line rest e) : Span s (js_Ast.new .AST_LIST line x rest .NULL .NULL) e := by
  refine ⟨le_trans hx.1 hr.1, ?_, ?_⟩
  · simp only [js_Ast.new, js_Ast.lineOrdered, hx.2.1, hr.2.1, js_Ast.linesPre,
      Bool.and_self, Bool.true_and, ↓reduceIte, Bool.and_eq_true, List.all_eq_true,
      decide_eq_true_eq, List.all_nil, Bool.and_true]
    exact ⟨fun l hl => (hx.2.2 l hl).2, fun l hl => (hr.2.2 l hl).1⟩
  · intro l hl
    simp only [js_Ast.new, js_Ast.linesPre, List.mem_cons, List.mem_append, List.append_nil,
      List.not_mem_nil, or_false] at hl
    have h1 := hx.1
    have h2 := hr.1
    rcases hl with rfl | hl | hl
    · exact ⟨h1, h2⟩
    · have := hx.2.2 l hl
      omega
    · have := hr.2.2 l hl
      omega

theorem span_setNumber {s e : Nat} {a : js_Ast} (x : Dbl) (h : Span s a e) :
    Span s (a.setNumber x) e := by
  cases a with
  | NULL => exact h
  | node t l a b c d n str => exact h

theorem span_setString {s e : Nat} {a : js_Ast} (x : String) (h : Span s a e) :
    Span s (a.setString x) e := by
  cases a with
  | NULL => exact h
  | node t l a b c d n str => exact h

/-- The kind of a node that is no list cell may change to another such kind. -/
theorem span_setType {s e : Nat} {a : js_Ast} {t0 t : js_AstType} (h0 : a.type? = some t0)
    (ht0 : t0 ≠ .AST_LIST) (ht : t ≠ .AST_LIST) (h : Span s a e) : Span s (a.setType t) e := by
  cases a with
  | NULL => exact h
  | node t1 l a b c d n str =>
    simp only [js_Ast.type?, Option.some.injEq] at h0
    subst h0
    refine ⟨h.1, ?_, h.2.2⟩
    have := h.2.1
    simp only [js_Ast.lineOrdered, ht0, ↓reduceIte] at this
    simp only [js_Ast.setType, js_Ast.lineOrdered, ht, ↓reduceIte]
    exact this

theorem lined_bind {α β : Type} {lo : Nat} {Q1 : α → Nat → Prop} {Q : β → Nat → Prop}
    {x : P α} {f : α → P β} (hx : Lined lo Q1 x)
    (hf : ∀ v e, lo ≤ e → Q1 v e → Lined e Q (f v)) : Lined lo Q (x >>= f) := by
  refine ⟨fun J v J1 hJ hlo h => ?_⟩
  simp only [bind_apply] at h
  cases hxJ : x J with
  | ok w J2 =>
    rw [hxJ] at h
    obtain ⟨o2, a2, q2⟩ := hx.out J w J2 hJ hlo hxJ
    obtain ⟨o1, a1, q1⟩ := (hf w J2.astline (by omega) q2).out J2 v J1 o2 le_rfl h
    exact ⟨o1, by omega, q1⟩
  | error m => rw [hxJ] at h; cases h
  | nofuel => rw [hxJ] at h; cases h

theorem lined_ite {α : Type} {lo : Nat} {Q : α → Nat → Prop} {c : Prop} [Decidable c]
    {x y : P α} (hx : Lined lo Q x) (hy : Lined lo Q y) : Lined lo Q (if c then x else y) := by
  split
  · exact hx
  · exact hy

theorem lined_error {α : Type} {lo : Nat} {Q : α → Nat → Prop} (msg : String) :
    Lined lo Q (jsP_error msg : P α) :=
  ⟨fun J v J1 _ _ h => by simp [jsP_error] at h⟩

/-- A function that leaves the state as it is. -/
theorem lined_still {α : Type} {lo : Nat} {Q : α → Nat → Prop} {x : P α}
    (h : ∀ J v J1, x J = .ok v J1 → J1 = J ∧ ∀ e, lo ≤ e → Q v e) : Lined lo Q x :=
  ⟨fun J v J1 hJ hlo hx => by
    obtain ⟨rfl, hq⟩ := h J v J1 hx
    exact ⟨hJ, le_rfl, hq _ hlo⟩⟩

theorem lined_pure_true {α : Type} {lo : Nat} (v : α) :
    Lined lo (fun _ _ => True) (pure v : P α) :=
  lined_still fun J w J1 h => by
    simp only [pure_apply, Res.ok.injEq] at h
    exact ⟨h.2.symm, fun _ _ => trivial⟩

theorem lined_pure_null {lo s : Nat} (hs : s ≤ lo) :
    Lined lo (Span s) (pure .NULL : P js_Ast) :=
  lined_still fun J w J1 h => by
    simp only [pure_apply, Res.ok.injEq] at h
    rw [← h.1]
    exact ⟨h.2.symm, fun e he => span_null (by omega)⟩

theorem lined_pure_ast {lo s e : Nat} {a : js_Ast} (ha : Span s a e) (he : e ≤ lo) :
    Lined lo (Span s) (pure a : P js_Ast) :=
  lined_still fun J w J1 h => by
    simp only [pure_apply, Res.ok.injEq] at h
    rw [← h.1]
    exact ⟨h.2.symm, fun e1 he1 => span_mono ha le_rfl (by omega)⟩

theorem lined_pure_setNumber {lo s e : Nat} {a : js_Ast} (x : Dbl) (ha : Span s a e)
    (he : e ≤ lo) : Lined lo (Span s) (pure (a.setNumber x) : P js_Ast) :=
  lined_pure_ast (span_setNumber x ha) he

theorem lined_pure_pair {lo s eb ec : Nat} {b c : js_Ast} (hb : Span s b eb)
    (hc : Span s c ec) (h1 : eb ≤ lo) (h2 : ec ≤ lo) :
    Lined lo (PairSpan s) (pure (b, c) : P (js_Ast × js_Ast)) :=
  lined_still fun J w J1 h => by
    simp only [pure_apply, Res.ok.injEq] at h
    rw [← h.1]
    exact ⟨h.2.symm, fun e1 he1 =>
      ⟨span_mono hb le_rfl (by omega), span_mono hc le_rfl (by omega)⟩⟩

theorem lined_pure_pair_null {lo s : Nat} (hs : s ≤ lo) :
    Lined lo (PairSpan s) (pure (js_Ast.NULL, js_Ast.NULL) : P (js_Ast × js_Ast)) :=
  lined_pure_pair (span_null hs) (span_null hs) le_rfl le_rfl

theorem lined_getJ {lo : Nat} : Lined lo (fun _ _ => True) getJ :=
  lined_still fun J w J1 h => by
    simp only [getJ_apply, Res.ok.injEq] at h
    exact ⟨h.2.symm, fun _ _ => trivial⟩

theorem lined_next {lo : Nat} : Lined lo (fun _ _ => True) jsP_next :=
  ⟨fun J v J1 hJ _ h => by
    simp only [jsP_next_apply, Res.ok.injEq] at h
    rw [← h.2]
    exact ⟨(inOrder_next hJ).1, (inOrder_next hJ).2, trivial⟩⟩

theorem lined_accept {lo : Nat} (x : Tok) : Lined lo (fun _ _ => True) (jsP_accept x) :=
  ⟨fun J v J1 hJ _ h => by
    rw [jsP_accept_apply] at h
    split at h <;> simp only [Res.ok.injEq] at h <;> rw [← h.2]
    · exact ⟨(inOrder_next hJ).1, (inOrder_next hJ).2, trivial⟩
    · exact ⟨hJ, le_rfl, trivial⟩⟩

theorem lined_warning {lo : Nat} (msg : String) :
    Lined lo (fun _ _ => True) (jsP_warning msg) :=
  ⟨fun J v J1 hJ _ h => by
    simp only [jsP_warning, Res.ok.injEq] at h
    rw [← h.2]
    exact ⟨hJ, le_rfl, trivial⟩⟩

theorem lined_expect {lo : Nat} (x : Tok) : Lined lo (fun _ _ => True) (jsP_expect x) := by
  simp only [jsP_expect]
  exact lined_bind (lined_accept x) (fun b e _ _ => lined_ite
    (lined_bind lined_getJ (fun J e1 _ _ => lined_error _)) (lined_pure_true _))

theorem lined_semicolon {lo : Nat} : Lined lo (fun _ _ => True) jsP_semicolon := by
  simp only [jsP_semicolon]
  exact lined_bind lined_getJ (fun J e _ _ => lined_ite lined_next
    (lined_ite (lined_pure_true _) (lined_error _)))

theorem lined_checkfutureword {lo : Nat} (s : String) :
    Lined lo (fun _ _ => True) (checkfutureword s) := by
  simp only [checkfutureword]
  exact lined_bind lined_getJ (fun J e _ _ => lined_ite (lined_error _)
    (lined_ite (lined_error _) (lined_pure_true _)))

/-- A node of any kind without children. -/
theorem lined_node0 {lo s : Nat} (t : js_AstType) (hs : s ≤ lo) :
    Lined lo (Span s) (jsP_newnode t .NULL .NULL .NULL .NULL) :=
  ⟨fun J v J1 hJ hlo h => by
    simp only [jsP_newnode_apply, Res.ok.injEq] at h
    obtain ⟨rfl, rfl⟩ := h
    refine ⟨hJ, le_rfl, by omega, ?_, ?_⟩
    · simp [js_Ast.new, js_Ast.lineOrdered, js_Ast.linesPre]
    · intro l hl
      simp only [js_Ast.new, js_Ast.linesPre, List.append_nil, List.mem_singleton] at hl
      omega⟩

theorem lined_newstrnode {lo s : Nat} (t : js_AstType) (x : String) (hs : s ≤ lo) :
    Lined lo (Span s) (jsP_newstrnode t x) := by
  simp only [jsP_newstrnode]
  exact lined_bind (lined_node0 t hs) (fun v e he hv => lined_pure_ast
    (span_setString x hv) le_rfl)

theorem lined_newnumnode {lo s : Nat} (t : js_AstType) (x : Dbl) (hs : s ≤ lo) :
    Lined lo (Span s) (jsP_newnumnode t x) := by
  simp only [jsP_newnumnode]
  exact lined_bind (lined_node0 t hs) (fun v e he hv => lined_pure_ast
    (span_setNumber x hv) le_rfl)

/-- A node other than a list cell over trees created before it. -/
theorem lined_node4 {lo s ea eb ec ed : Nat} {t : js_AstType} {a b c d : js_Ast}
    (ht : t ≠ .AST_LIST) (ha : Span s a ea) (hb : Span s b eb) (hc : Span s c ec)
    (hd : Span s d ed) (h1 : ea ≤ lo) (h2 : eb ≤ lo) (h3 : ec ≤ lo) (h4 : ed ≤ lo) :
    Lined lo (Span s) (jsP_newnode t a b c d) :=
  ⟨fun J v J1 hJ hlo h => by
    simp only [jsP_newnode_apply, Res.ok.injEq] at h
    obtain ⟨rfl, rfl⟩ := h
    exact ⟨hJ, le_rfl, span_node ht (span_mono ha le_rfl (by omega))
      (span_mono hb le_rfl (by omega)) (span_mono hc le_rfl (by omega))
      (span_mono hd le_rfl (by omega))⟩⟩

theorem lined_node3 {lo s ea eb ec : Nat} {t : js_AstType} {a b c : js_Ast}
    (ht : t ≠ .AST_LIST) (ha : Span s a ea) (hb : Span s b eb) (hc : Span s c ec)
    (h1 : ea ≤ lo) (h2 : eb ≤ lo) (h3 : ec ≤ lo) :
    Lined lo (Span s) (jsP_newnode t a b c .NULL) :=
  lined_node4 ht ha hb hc (span_null (le_trans ha.1 h1)) h1 h2 h3 le_rfl

theorem lined_node2 {lo s ea eb : Nat} {t : js_AstType} {a b : js_Ast}
    (ht : t ≠ .AST_LIST) (ha : Span s a ea) (hb : Span s b eb)
    (h1 : ea ≤ lo) (h2 : eb ≤ lo) :
    Lined lo (Span s) (jsP_newnode t a b .NULL .NULL) :=
  lined_node3 ht ha hb (span_null (le_trans ha.1 h1)) h1 h2 le_rfl

/-- A node of any kind, a list cell too, over one tree created before it. -/
theorem lined_node1 {lo s ea : Nat} (t : js_AstType) {a : js_Ast} (ha : Span s a ea)
    (h1 : ea ≤ lo) : Lined lo (Span s) (jsP_newnode t a .NULL .NULL .NULL) := by
  by_cases ht : t = .AST_LIST
  · subst ht
    exact ⟨fun J v J1 hJ hlo h => by
      simp only [jsP_newnode_apply, Res.ok.injEq] at h
      obtain ⟨rfl, rfl⟩ := h
      exact ⟨hJ, le_rfl, span_cell (span_mono ha le_rfl (by omega)) (span_null le_rfl)⟩⟩
  · exact lined_node2 ht ha (span_null (le_trans ha.1 h1)) h1 le_rfl

theorem lined_node_ac {lo s ea ec : Nat} {t : js_AstType} {a c : js_Ast}
    (ht : t ≠ .AST_LIST) (ha : Span s a ea) (hc : Span s c ec)
    (h1 : ea ≤ lo) (h3 : ec ≤ lo) :
    Lined lo (Span s) (jsP_newnode t a .NULL c .NULL) :=
  lined_node3 ht ha (span_null (le_trans ha.1 h1)) hc h1 le_rfl h3

theorem lined_node4_pair {lo s ea ebc ed : Nat} {t : js_AstType} {a d : js_Ast}
    {bc : js_Ast × js_Ast} (ht : t ≠ .AST_LIST) (ha : Span s a ea) (hbc : PairSpan s bc ebc)
    (hd : Span s d ed) (h1 : ea ≤ lo) (h2 : ebc ≤ lo) (h4 : ed ≤ lo) :
    Lined lo (Span s) (jsP_newnode t a bc.1 bc.2 d) :=
  lined_node4 ht ha hbc.1 hbc.2 hd h1 h2 h2 h4

/-- The label of a labelled statement. -/
theorem lined_node2_label {lo s ea eb : Nat} {a b : js_Ast}
    (h0 : a.type? = some .EXP_IDENTIFIER) (ha : Span s a ea) (hb : Span s b eb)
    (h1 : ea ≤ lo) (h2 : eb ≤ lo) :
    Lined lo (Span s) (jsP_newnode .STM_LABEL (a.setType .AST_IDENTIFIER) b .NULL .NULL) :=
  lined_node2 (by decide) (span_setType h0 (by decide) (by decide) ha) hb h1 h2

/-- A list cell and the rest of its list: `tail = tail->b = LIST(x)` followed
by the cells that the loop adds after it. -/
theorem lined_list {lo s ex : Nat} {x : js_Ast} {rest : P js_Ast} (hx : Span s x ex)
    (h1 : ex ≤ lo) (hr : ∀ lo1, lo ≤ lo1 → Lined lo1 (Span lo1) rest) :
    Lined lo (Span s) (jsP_newnode .AST_LIST x .NULL .NULL .NULL >>= fun cell =>
      rest >>= fun r => pure (cell.setB r)) := by
  refine ⟨fun J v J1 hJ hlo h => ?_⟩
  simp only [bind_apply, jsP_newnode_apply] at h
  cases hrJ : rest J with
  | ok w J2 =>
    rw [hrJ] at h
    simp only [pure_apply, new_setB, Res.ok.injEq] at h
    obtain ⟨rfl, rfl⟩ := h
    obtain ⟨o2, a2, q2⟩ := (hr J.astline hlo).out J w J2 hJ le_rfl hrJ
    exact ⟨o2, a2, span_cell (span_mono hx le_rfl (by omega)) q2⟩
  | error m => rw [hrJ] at h; cases h
  | nofuel => rw [hrJ] at h; cases h

/-- A token accepted under a condition: the branch taken after it knows the
condition. -/
theorem lined_guard {α : Type} {lo : Nat} {Q : α → Nat → Prop} {c : Prop} [Decidable c]
    {x : Tok} {A B : P α} (hA : c → Lined lo Q A) (hB : Lined lo Q B) :
    Lined lo Q ((if c then jsP_accept x else pure false) >>= fun b =>
      if b = true then A else B) := by
  by_cases hc : c
  · simp only [hc, ↓reduceIte]
    exact lined_bind (lined_accept x) (fun b e he _ =>
      lined_ite ⟨fun J v J1 hJ hlo h => (hA hc).out J v J1 hJ (by omega) h⟩
        ⟨fun J v J1 hJ hlo h => hB.out J v J1 hJ (by omega) h⟩)
  · simp only [hc, ↓reduceIte]
    refine ⟨fun J v J1 hJ hlo h => ?_⟩
    simp only [bind_apply, pure_apply, Bool.false_eq_true, ↓reduceIte] at h
    exact hB.out J v J1 hJ hlo h

/-- A call of an entry point that carries no tree. -/
theorem lined_call0 {R : Rec} {lo s : Nat}
    (hR : ∀ fn lo s e, Span s (Fn.arg fn) e → e ≤ lo → Lined lo (Span s) (R fn))
    (fn : Fn) (h : fn.arg = .NULL) (hs : s ≤ lo) : Lined lo (Span s) (R fn) :=
  hR fn lo s lo (by rw [h]; exact span_null hs) le_rfl

set_option linter.unusedTactic false
set_option linter.unreachableTactic false

/-! Every parse function keeps the lines in order: over a handle that does, the
tree it returns is ordered, made of the trees it was given and of nodes stamped
between the line at its start and the line at its end. -/

theorem identifier_lines (lo s : Nat) (hs : s ≤ lo) :
    Lined lo (Span s) (identifier) := by
  simp only [identifier, EXP0, EXP1, EXP2, EXP3, STM4, LIST, jsP_list]
  repeat' first
    | with_reducible apply lined_bind
    | with_reducible refine lined_ite ?_ ?_
    | exact lined_getJ
    | exact lined_next
    | exact lined_checkfutureword _
    | exact lined_error _
    | exact lined_newstrnode (s := s) _ _ (by omega)
    | exact lined_pure_ast (s := s) (by assumption) (by omega)
    | intro _

theorem identifieropt_lines (lo s : Nat) (hs : s ≤ lo) :
    Lined lo (Span s) (identifieropt) := by
  simp only [identifieropt, EXP0, EXP1, EXP2, EXP3, STM4, LIST, jsP_list]
  repeat' first
    | with_reducible apply lined_bind
    | with_reducible refine lined_ite ?_ ?_
    | exact identifier_lines _ s (by omega)
    | exact identifier_lines _ _ le_rfl
    | exact lined_getJ
    | exact lined_pure_null (s := s) (by omega)
    | exact lined_pure_null le_rfl
    | intro _

theorem identifiername_lines (lo s : Nat) (hs : s ≤ lo) :
    Lined lo (Span s) (identifiername) := by
  simp only [identifiername, EXP0, EXP1, EXP2, EXP3, STM4, LIST, jsP_list]
  repeat' first
    | with_reducible apply lined_bind
    | with_reducible refine lined_ite ?_ ?_
    | exact identifier_lines _ s (by omega)
    | exact identifier_lines _ _ le_rfl
    | exact lined_getJ
    | exact lined_next
    | exact lined_error _
    | exact lined_newstrnode (s := s) _ _ (by omega)
    | exact lined_pure_ast (s := s) (by assumption) (by omega)
    | intro _

theorem arrayelement_lines {R : Rec}
    (hR : ∀ fn lo s e, Span s (Fn.arg fn) e → e ≤ lo → Lined lo (Span s) (R fn))
    (lo s : Nat) (hs : s ≤ lo) :
    Lined lo (Span s) (arrayelement R) := by
  simp only [arrayelement, EXP0, EXP1, EXP2, EXP3, STM4, LIST, jsP_list]
  repeat' first
    | with_reducible apply lined_bind
    | with_reducible refine lined_ite ?_ ?_
    | exact lined_call0 (s := s) hR _ rfl (by omega)
    | exact lined_call0 hR _ rfl le_rfl
    | exact hR _ _ s _ (by assumption) (by omega)
    | exact lined_getJ
    | exact lined_node0 (s := s) _ (by omega)
    | intro _

theorem arrayliteral_loop_lines {R : Rec}
    (hR : ∀ fn lo s e, Span s (Fn.arg fn) e → e ≤ lo → Lined lo (Span s) (R fn))
    (lo s : Nat) (hs : s ≤ lo) :
    Lined lo (Span s) (arrayliteral_loop R) := by
  simp only [arrayliteral_loop, EXP0, EXP1, EXP2, EXP3, STM4, LIST, jsP_list]
  repeat' first
    | with_reducible refine lined_list (s := s) (by assumption) (by omega) (fun lo1 h1 => ?_)
    | with_reducible apply lined_bind
    | with_reducible refine lined_ite ?_ ?_
    | exact arrayelement_lines hR _ s (by omega)
    | exact arrayelement_lines hR _ _ le_rfl
    | exact lined_call0 (s := s) hR _ rfl (by omega)
    | exact lined_call0 hR _ rfl le_rfl
    | exact hR _ _ s _ (by assumption) (by omega)
    | exact lined_getJ
    | exact lined_accept _
    | exact lined_node1 (s := s) _ (by assumption) (by omega)
    | exact lined_pure_null (s := s) (by omega)
    | exact lined_pure_null le_rfl
    | intro _

theorem arrayliteral_lines {R : Rec}
    (hR : ∀ fn lo s e, Span s (Fn.arg fn) e → e ≤ lo → Lined lo (Span s) (R fn))
    (lo s : Nat) (hs : s ≤ lo) :
    Lined lo (Span s) (arrayliteral R) := by
  simp only [arrayliteral, EXP0, EXP1, EXP2, EXP3, STM4, LIST, jsP_list]
  repeat' first
    | with_reducible refine lined_list (s := s) (by assumption) (by omega) (fun lo1 h1 => ?_)
    | with_reducible apply lined_bind
    | with_reducible refine lined_ite ?_ ?_
    | exact arrayelement_lines hR _ s (by omega)
    | exact arrayelement_lines hR _ _ le_rfl
    | exact arrayliteral_loop_lines hR _ s (by omega)
    | exact arrayliteral_loop_lines hR _ _ le_rfl
    | exact lined_call0 (s := s) hR _ rfl (by omega)
    | exact lined_call0 hR _ rfl le_rfl
    | exact hR _ _ s _ (by assumption) (by omega)
    | exact lined_getJ
    | exact lined_node1 (s := s) _ (by assumption) (by omega)
    | exact lined_pure_null (s := s) (by omega)
    | exact lined_pure_null le_rfl
    | intro _

theorem propname_lines (lo s : Nat) (hs : s ≤ lo) :
    Lined lo (Span s) (propname) := by
  simp only [propname, EXP0, EXP1, EXP2, EXP3, STM4, LIST, jsP_list]
  repeat' first
    | with_reducible apply lined_bind
    | with_reducible refine lined_ite ?_ ?_
    | exact identifiername_lines _ s (by omega)
    | exact identifiername_lines _ _ le_rfl
    | exact lined_getJ
    | exact lined_next
    | exact lined_newstrnode (s := s) _ _ (by omega)
    | exact lined_newnumnode (s := s) _ _ (by omega)
    | exact lined_pure_ast (s := s) (by assumption) (by omega)
    | intro _

theorem parameters_loop_lines {R : Rec}
    (hR : ∀ fn lo s e, Span s (Fn.arg fn) e → e ≤ lo → Lined lo (Span s) (R fn))
    (lo s : Nat) (hs : s ≤ lo) :
    Lined lo (Span s) (parameters_loop R) := by
  simp only [parameters_loop, EXP0, EXP1, EXP2, EXP3, STM4, LIST, jsP_list]
  repeat' first
    | with_reducible refine lined_list (s := s) (by assumption) (by omega) (fun lo1 h1 => ?_)
    | with_reducible apply lined_bind
    | with_reducible refine lined_ite ?_ ?_
    | exact identifier_lines _ s (by omega)
    | exact identifier_lines _ _ le_rfl
    | exact lined_call0 (s := s) hR _ rfl (by omega)
    | exact lined_call0 hR _ rfl le_rfl
    | exact hR _ _ s _ (by assumption) (by omega)
    | exact lined_accept _
    | exact lined_node1 (s := s) _ (by assumption) (by omega)
    | exact lined_pure_null (s := s) (by omega)
    | exact lined_pure_null le_rfl
    | intro _

theorem parameters_lines {R : Rec}
    (hR : ∀ fn lo s e, Span s (Fn.arg fn) e → e ≤ lo → Lined lo (Span s) (R fn))
    (lo s : Nat) (hs : s ≤ lo) :
    Lined lo (Span s) (parameters R) := by
  simp only [parameters, EXP0, EXP1, EXP2, EXP3, STM4, LIST, jsP_list]
  repeat' first
    | with_reducible refine lined_list (s := s) (by assumption) (by omega) (fun lo1 h1 => ?_)
    | with_reducible apply lined_bind
    | with_reducible refine lined_ite ?_ ?_
    | exact identifier_lines _ s (by omega)
    | exact identifier_lines _ _ le_rfl
    | exact parameters_loop_lines hR _ s (by omega)
    | exact parameters_loop_lines hR _ _ le_rfl
    | exact lined_call0 (s := s) hR _ rfl (by omega)
    | exact lined_call0 hR _ rfl le_rfl
    | exact hR _ _ s _ (by assumption) (by omega)
    | exact lined_getJ
    | exact lined_node1 (s := s) _ (by assumption) (by omega)
    | exact lined_pure_null (s := s) (by omega)
    | exact lined_pure_null le_rfl
    | intro _

theorem propassign_lines {R : Rec}
    (hR : ∀ fn lo s e, Span s (Fn.arg fn) e → e ≤ lo → Lined lo (Span s) (R fn))
    (lo s : Nat) (hs : s ≤ lo) :
    Lined lo (Span s) (propassign R) := by
  simp only [propassign, EXP0, EXP1, EXP2, EXP3, STM4, LIST, jsP_list]
  repeat' first
    | with_reducible apply lined_bind
    | with_reducible refine lined_ite ?_ ?_
    | exact identifier_lines _ s (by omega)
    | exact identifier_lines _ _ le_rfl
    | exact propname_lines _ s (by omega)
    | exact propname_lines _ _ le_rfl
    | exact lined_call0 (s := s) hR _ rfl (by omega)
    | exact lined_call0 hR _ rfl le_rfl
    | exact hR _ _ s _ (by assumption) (by omega)
    | exact lined_getJ
    | exact lined_expect _
    | exact lined_node1 (s := s) _ (by assumption) (by omega)
    | exact lined_node2 (s := s) (by decide) (by assumption) (by assumption) (by omega) (by omega)
    | exact lined_node_ac (s := s) (by decide) (by assumption) (by assumption) (by omega) (by omega)
    | exact lined_node3 (s := s) (by decide) (by assumption) (by assumption) (by assumption) (by omega) (by omega) (by omega)
    | intro _

theorem objectliteral_loop_lines {R : Rec}
    (hR : ∀ fn lo s e, Span s (Fn.arg fn) e → e ≤ lo → Lined lo (Span s) (R fn))
    (lo s : Nat) (hs : s ≤ lo) :
    Lined lo (Span s) (objectliteral_loop R) := by
  simp only [objectliteral_loop, EXP0, EXP1, EXP2, EXP3, STM4, LIST, jsP_list]
  repeat' first
    | with_reducible refine lined_list (s := s) (by assumption) (by omega) (fun lo1 h1 => ?_)
    | with_reducible apply lined_bind
    | with_reducible refine lined_ite ?_ ?_
    | exact propassign_lines hR _ s (by omega)
    | exact propassign_lines hR _ _ le_rfl
    | exact lined_call0 (s := s) hR _ rfl (by omega)
    | exact lined_call0 hR _ rfl le_rfl
    | exact hR _ _ s _ (by assumption) (by omega)
    | exact lined_getJ
    | exact lined_accept _
    | exact lined_node1 (s := s) _ (by assumption) (by omega)
    | exact lined_pure_null (s := s) (by omega)
    | exact lined_pure_null le_rfl
    | exact lined_pure_true _
    | intro _

theorem objectliteral_lines {R : Rec}
    (hR : ∀ fn lo s e, Span s (Fn.arg fn) e → e ≤ lo → Lined lo (Span s) (R fn))
    (lo s : Nat) (hs : s ≤ lo) :
    Lined lo (Span s) (objectliteral R) := by
  simp only [objectliteral, EXP0, EXP1, EXP2, EXP3, STM4, LIST, jsP_list]
  repeat' first
    | with_reducible refine lined_list (s := s) (by assumption) (by omega) (fun lo1 h1 => ?_)
    | with_reducible apply lined_bind
    | with_reducible refine lined_ite ?_ ?_
    | exact objectliteral_loop_lines hR _ s (by omega)
    | exact objectliteral_loop_lines hR _ _ le_rfl
    | exact propassign_lines hR _ s (by omega)
    | exact propassign_lines hR _ _ le_rfl
    | exact lined_call0 (s := s) hR _ rfl (by omega)
    | exact lined_call0 hR _ rfl le_rfl
    | exact hR _ _ s _ (by assumption) (by omega)
    | exact lined_getJ
    | exact lined_node1 (s := s) _ (by assumption) (by omega)
    | exact lined_pure_null (s := s) (by omega)
    | exact lined_pure_null le_rfl
    | intro _

theorem fundec_lines {R : Rec}
    (hR : ∀ fn lo s e, Span s (Fn.arg fn) e → e ≤ lo → Lined lo (Span s) (R fn))
    (lo s : Nat) (hs : s ≤ lo) :
    Lined lo (Span s) (fundec R) := by
  simp only [fundec, EXP0, EXP1, EXP2, EXP3, STM4, LIST, jsP_list]
  repeat' first
    | with_reducible apply lined_bind
    | exact identifier_lines _ s (by omega)
    | exact identifier_lines _ _ le_rfl
    | exact parameters_lines hR _ s (by omega)
    | exact parameters_lines hR _ _ le_rfl
    | exact lined_call0 (s := s) hR _ rfl (by omega)
    | exact lined_call0 hR _ rfl le_rfl
    | exact hR _ _ s _ (by assumption) (by omega)
    | exact lined_expect _
    | exact lined_node3 (s := s) (by decide) (by assumption) (by assumption) (by assumption) (by omega) (by omega) (by omega)
    | intro _

theorem funstm_lines {R : Rec}
    (hR : ∀ fn lo s e, Span s (Fn.arg fn) e → e ≤ lo → Lined lo (Span s) (R fn))
    (lo s : Nat) (hs : s ≤ lo) :
    Lined lo (Span s) (funstm R) := by
  simp only [funstm, EXP0, EXP1, EXP2, EXP3, STM4, LIST, jsP_list]
  repeat' first
    | with_reducible apply lined_bind
    | exact identifier_lines _ s (by omega)
    | exact identifier_lines _ _ le_rfl
    | exact parameters_lines hR _ s (by omega)
    | exact parameters_lines hR _ _ le_rfl
    | exact lined_call0 (s := s) hR _ rfl (by omega)
    | exact lined_call0 hR _ rfl le_rfl
    | exact hR _ _ s _ (by assumption) (by omega)
    | exact lined_expect _
    | exact lined_node1 (s := s) _ (by assumption) (by omega)
    | exact lined_node2 (s := s) (by decide) (by assumption) (by assumption) (by omega) (by omega)
    | exact lined_node3 (s := s) (by decide) (by assumption) (by assumption) (by assumption) (by omega) (by omega) (by omega)
    | intro _

theorem funexp_lines {R : Rec}
    (hR : ∀ fn lo s e, Span s (Fn.arg fn) e → e ≤ lo → Lined lo (Span s) (R fn))
    (lo s : Nat) (hs : s ≤ lo) :
    Lined lo (Span s) (funexp R) := by
  simp only [funexp, EXP0, EXP1, EXP2, EXP3, STM4, LIST, jsP_list]
  repeat' first
    | with_reducible apply lined_bind
    | exact identifieropt_lines _ s (by omega)
    | exact identifieropt_lines _ _ le_rfl
    | exact parameters_lines hR _ s (by omega)
    | exact parameters_lines hR _ _ le_rfl
    | exact lined_call0 (s := s) hR _ rfl (by omega)
    | exact lined_call0 hR _ rfl le_rfl
    | exact hR _ _ s _ (by assumption) (by omega)
    | exact lined_expect _
    | exact lined_node3 (s := s) (by decide) (by assumption) (by assumption) (by assumption) (by omega) (by omega) (by omega)
    | intro _

theorem primary_lines {R : Rec}
    (hR : ∀ fn lo s e, Span s (Fn.arg fn) e → e ≤ lo → Lined lo (Span s) (R fn))
    (lo s : Nat) (hs : s ≤ lo) :
    Lined lo (Span s) (primary R) := by
  simp only [primary, EXP0, EXP1, EXP2, EXP3, STM4, LIST, jsP_list]
  repeat' first
    | with_reducible apply lined_bind
    | with_reducible refine lined_ite ?_ ?_
    | exact arrayliteral_lines hR _ s (by omega)
    | exact arrayliteral_lines hR _ _ le_rfl
    | exact objectliteral_lines hR _ s (by omega)
    | exact objectliteral_lines hR _ _ le_rfl
    | exact lined_call0 (s := s) hR _ rfl (by omega)
    | exact lined_call0 hR _ rfl le_rfl
    | exact hR _ _ s _ (by assumption) (by omega)
    | exact lined_getJ
    | exact lined_next
    | exact lined_accept _
    | exact lined_expect _
    | exact lined_checkfutureword _
    | exact lined_error _
    | exact lined_newstrnode (s := s) _ _ (by omega)
    | exact lined_newnumnode (s := s) _ _ (by omega)
    | exact lined_node0 (s := s) _ (by omega)
    | exact lined_node1 (s := s) _ (by assumption) (by omega)
    | exact lined_pure_setNumber (s := s) _ (by assumption) (by omega)
    | exact lined_pure_ast (s := s) (by assumption) (by omega)
    | intro _

theorem arguments_loop_lines {R : Rec}
    (hR : ∀ fn lo s e, Span s (Fn.arg fn) e → e ≤ lo → Lined lo (Span s) (R fn))
    (lo s : Nat) (hs : s ≤ lo) :
    Lined lo (Span s) (arguments_loop R) := by
  simp only [arguments_loop, EXP0, EXP1, EXP2, EXP3, STM4, LIST, jsP_list]
  repeat' first
    | with_reducible refine lined_list (s := s) (by assumption) (by omega) (fun lo1 h1 => ?_)
    | with_reducible apply lined_bind
    | with_reducible refine lined_ite ?_ ?_
    | exact lined_call0 (s := s) hR _ rfl (by omega)
    | exact lined_call0 hR _ rfl le_rfl
    | exact hR _ _ s _ (by assumption) (by omega)
    | exact lined_accept _
    | exact lined_node1 (s := s) _ (by assumption) (by omega)
    | exact lined_pure_null (s := s) (by omega)
    | exact lined_pure_null le_rfl
    | intro _

theorem arguments_lines {R : Rec}
    (hR : ∀ fn lo s e, Span s (Fn.arg fn) e → e ≤ lo → Lined lo (Span s) (R fn))
    (lo s : Nat) (hs : s ≤ lo) :
    Lined lo (Span s) (arguments R) := by
  simp only [arguments, EXP0, EXP1, EXP2, EXP3, STM4, LIST, jsP_list]
  repeat' first
    | with_reducible refine lined_list (s := s) (by assumption) (by omega) (fun lo1 h1 => ?_)
    | with_reducible apply lined_bind
    | with_reducible refine lined_ite ?_ ?_
    | exact arguments_loop_lines hR _ s (by omega)
    | exact arguments_loop_lines hR _ _ le_rfl
    | exact lined_call0 (s := s) hR _ rfl (by omega)
    | exact lined_call0 hR _ rfl le_rfl
    | exact hR _ _ s _ (by assumption) (by omega)
    | exact lined_getJ
    | exact lined_node1 (s := s) _ (by assumption) (by omega)
    | exact lined_pure_null (s := s) (by omega)
    | exact lined_pure_null le_rfl
    | intro _

theorem newexp_lines {R : Rec}
    (hR : ∀ fn lo s e, Span s (Fn.arg fn) e → e ≤ lo → Lined lo (Span s) (R fn))
    (lo s : Nat) (hs : s ≤ lo) :
    Lined lo (Span s) (newexp R) := by
  simp only [newexp, EXP0, EXP1, EXP2, EXP3, STM4, LIST, jsP_list]
  repeat' first
    | with_reducible apply lined_bind
    | with_reducible refine lined_ite ?_ ?_
    | exact arguments_lines hR _ s (by omega)
    | exact arguments_lines hR _ _ le_rfl
    | exact funexp_lines hR _ s (by omega)
    | exact funexp_lines hR _ _ le_rfl
    | exact primary_lines hR _ s (by omega)
    | exact primary_lines hR _ _ le_rfl
    | exact lined_call0 (s := s) hR _ rfl (by omega)
    | exact lined_call0 hR _ rfl le_rfl
    | exact hR _ _ s _ (by assumption) (by omega)
    | exact lined_accept _
    | exact lined_expect _
    | exact lined_node1 (s := s) _ (by assumption) (by omega)
    | exact lined_node2 (s := s) (by decide) (by assumption) (by assumption) (by omega) (by omega)
    | intro _

theorem memberexp_loop_lines {R : Rec}
    (hR : ∀ fn lo s e, Span s (Fn.arg fn) e → e ≤ lo → Lined lo (Span s) (R fn))
    (a : js_Ast) (lo s e : Nat) (ha : Span s a e) (he : e ≤ lo) :
    Lined lo (Span s) (memberexp_loop R a) := by
  have hs : s ≤ lo := le_trans ha.1 he
  simp only [memberexp_loop, EXP0, EXP1, EXP2, EXP3, STM4, LIST, jsP_list]
  repeat' first
    | with_reducible apply lined_bind
    | with_reducible refine lined_ite ?_ ?_
    | exact identifiername_lines _ s (by omega)
    | exact identifiername_lines _ _ le_rfl
    | exact lined_call0 (s := s) hR _ rfl (by omega)
    | exact lined_call0 hR _ rfl le_rfl
    | exact hR _ _ s _ (by assumption) (by omega)
    | exact lined_accept _
    | exact lined_expect _
    | exact lined_node2 (s := s) (by decide) (by assumption) (by assumption) (by omega) (by omega)
    | exact lined_pure_ast (s := s) (by assumption) (by omega)
    | intro _

theorem memberexp_lines {R : Rec}
    (hR : ∀ fn lo s e, Span s (Fn.arg fn) e → e ≤ lo → Lined lo (Span s) (R fn))
    (lo s : Nat) (hs : s ≤ lo) :
    Lined lo (Span s) (memberexp R) := by
  simp only [memberexp, EXP0, EXP1, EXP2, EXP3, STM4, LIST, jsP_list]
  repeat' first
    | with_reducible apply lined_bind
    | exact memberexp_loop_lines hR _ _ s _ (by assumption) (by omega)
    | exact newexp_lines hR _ s (by omega)
    | exact newexp_lines hR _ _ le_rfl
    | exact lined_call0 (s := s) hR _ rfl (by omega)
    | exact lined_call0 hR _ rfl le_rfl
    | exact hR _ _ s _ (by assumption) (by omega)
    | intro _

theorem callexp_loop_lines {R : Rec}
    (hR : ∀ fn lo s e, Span s (Fn.arg fn) e → e ≤ lo → Lined lo (Span s) (R fn))
    (a : js_Ast) (lo s e : Nat) (ha : Span s a e) (he : e ≤ lo) :
    Lined lo (Span s) (callexp_loop R a) := by
  have hs : s ≤ lo := le_trans ha.1 he
  simp only [callexp_loop, EXP0, EXP1, EXP2, EXP3, STM4, LIST, jsP_list]
  repeat' first
    | with_reducible apply lined_bind
    | with_reducible refine lined_ite ?_ ?_
    | exact arguments_lines hR _ s (by omega)
    | exact arguments_lines hR _ _ le_rfl
    | exact identifiername_lines _ s (by omega)
    | exact identifiername_lines _ _ le_rfl
    | exact lined_call0 (s := s) hR _ rfl (by omega)
    | exact lined_call0 hR _ rfl le_rfl
    | exact hR _ _ s _ (by assumption) (by omega)
    | exact lined_accept _
    | exact lined_expect _
    | exact lined_node2 (s := s) (by decide) (by assumption) (by assumption) (by omega) (by omega)
    | exact lined_pure_ast (s := s) (by assumption) (by omega)
    | intro _

theorem callexp_lines {R : Rec}
    (hR : ∀ fn lo s e, Span s (Fn.arg fn) e → e ≤ lo → Lined lo (Span s) (R fn))
    (lo s : Nat) (hs : s ≤ lo) :
    Lined lo (Span s) (callexp R) := by
  simp only [callexp, EXP0, EXP1, EXP2, EXP3, STM4, LIST, jsP_list]
  repeat' first
    | with_reducible apply lined_bind
    | exact callexp_loop_lines hR _ _ s _ (by assumption) (by omega)
    | exact newexp_lines hR _ s (by omega)
    | exact newexp_lines hR _ _ le_rfl
    | exact lined_call0 (s := s) hR _ rfl (by omega)
    | exact lined_call0 hR _ rfl le_rfl
    | exact hR _ _ s _ (by assumption) (by omega)
    | intro _

theorem postfixexp_lines {R : Rec}
    (hR : ∀ fn lo s e, Span s (Fn.arg fn) e → e ≤ lo → Lined lo (Span s) (R fn))
    (lo s : Nat) (hs : s ≤ lo) :
    Lined lo (Span s) (postfixexp R) := by
  simp only [postfixexp, EXP0, EXP1, EXP2, EXP3, STM4, LIST, jsP_list]
  repeat' first
    | with_reducible refine lined_guard ?_ ?_
    | with_reducible apply lined_bind
    | with_reducible refine lined_ite ?_ ?_
    | exact callexp_lines hR _ s (by omega)
    | exact callexp_lines hR _ _ le_rfl
    | exact lined_call0 (s := s) hR _ rfl (by omega)
    | exact lined_call0 hR _ rfl le_rfl
    | exact hR _ _ s _ (by assumption) (by omega)
    | exact lined_getJ
    | exact lined_accept _
    | exact lined_node1 (s := s) _ (by assumption) (by omega)
    | exact lined_pure_ast (s := s) (by assumption) (by omega)
    | exact lined_pure_true _
    | intro _

theorem unary_lines {R : Rec}
    (hR : ∀ fn lo s e, Span s (Fn.arg fn) e → e ≤ lo → Lined lo (Span s) (R fn))
    (lo s : Nat) (hs : s ≤ lo) :
    Lined lo (Span s) (unary R) := by
  simp only [unary, EXP0, EXP1, EXP2, EXP3, STM4, LIST, jsP_list]
  repeat' first
    | with_reducible apply lined_bind
    | with_reducible refine lined_ite ?_ ?_
    | exact postfixexp_lines hR _ s (by omega)
    | exact postfixexp_lines hR _ _ le_rfl
    | exact lined_call0 (s := s) hR _ rfl (by omega)
    | exact lined_call0 hR _ rfl le_rfl
    | exact hR _ _ s _ (by assumption) (by omega)
    | exact lined_accept _
    | exact lined_node1 (s := s) _ (by assumption) (by omega)
    | intro _

theorem multiplicative_loop_lines {R : Rec}
    (hR : ∀ fn lo s e, Span s (Fn.arg fn) e → e ≤ lo → Lined lo (Span s) (R fn))
    (a : js_Ast) (lo s e : Nat) (ha : Span s a e) (he : e ≤ lo) :
    Lined lo (Span s) (multiplicative_loop R a) := by
  have hs : s ≤ lo := le_trans ha.1 he
  simp only [multiplicative_loop, EXP0, EXP1, EXP2, EXP3, STM4, LIST, jsP_list]
  repeat' first
    | with_reducible apply lined_bind
    | with_reducible refine lined_ite ?_ ?_
    | exact unary_lines hR _ s (by omega)
    | exact unary_lines hR _ _ le_rfl
    | exact lined_call0 (s := s) hR _ rfl (by omega)
    | exact lined_call0 hR _ rfl le_rfl
    | exact hR _ _ s _ (by assumption) (by omega)
    | exact lined_accept _
    | exact lined_node2 (s := s) (by decide) (by assumption) (by assumption) (by omega) (by omega)
    | exact lined_pure_ast (s := s) (by assumption) (by omega)
    | intro _

theorem multiplicative_lines {R : Rec}
    (hR : ∀ fn lo s e, Span s (Fn.arg fn) e → e ≤ lo → Lined lo (Span s) (R fn))
    (lo s : Nat) (hs : s ≤ lo) :
    Lined lo (Span s) (multiplicative R) := by
  simp only [multiplicative, EXP0, EXP1, EXP2, EXP3, STM4, LIST, jsP_list]
  repeat' first
    | with_reducible apply lined_bind
    | exact multiplicative_loop_lines hR _ _ s _ (by assumption) (by omega)
    | exact unary_lines hR _ s (by omega)
    | exact unary_lines hR _ _ le_rfl
    | exact lined_call0 (s := s) hR _ rfl (by omega)
    | exact lined_call0 hR _ rfl le_rfl
    | exact hR _ _ s _ (by assumption) (by omega)
    | intro _

theorem additive_loop_lines {R : Rec}
    (hR : ∀ fn lo s e, Span s (Fn.arg fn) e → e ≤ lo → Lined lo (Span s) (R fn))
    (a : js_Ast) (lo s e : Nat) (ha : Span s a e) (he : e ≤ lo) :
    Lined lo (Span s) (additive_loop R a) := by
  have hs : s ≤ lo := le_trans ha.1 he
  simp only [additive_loop, EXP0, EXP1, EXP2, EXP3, STM4, LIST, jsP_list]
  repeat' first
    | with_reducible apply lined_bind
    | with_reducible refine lined_ite ?_ ?_
    | exact multiplicative_lines hR _ s (by omega)
    | exact multiplicative_lines hR _ _ le_rfl
    | exact lined_call0 (s := s) hR _ rfl (by omega)
    | exact lined_call0 hR _ rfl le_rfl
    | exact hR _ _ s _ (by assumption) (by omega)
    | exact lined_accept _
    | exact lined_node2 (s := s) (by decide) (by assumption) (by assumption) (by omega) (by omega)
    | exact lined_pure_ast (s := s) (by assumption) (by omega)
    | intro _

theorem additive_lines {R : Rec}
    (hR : ∀ fn lo s e, Span s (Fn.arg fn) e → e ≤ lo → Lined lo (Span s) (R fn))
    (lo s : Nat) (hs : s ≤ lo) :
    Lined lo (Span s) (additive R) := by
  simp only [additive, EXP0, EXP1, EXP2, EXP3, STM4, LIST, jsP_list]
  repeat' first
    | with_reducible apply lined_bind
    | exact additive_loop_lines hR _ _ s _ (by assumption) (by omega)
    | exact multiplicative_lines hR _ s (by omega)
    | exact multiplicative_lines hR _ _ le_rfl
    | exact lined_call0 (s := s) hR _ rfl (by omega)
    | exact lined_call0 hR _ rfl le_rfl
    | exact hR _ _ s _ (by assumption) (by omega)
    | intro _

theorem shift_loop_lines {R : Rec}
    (hR : ∀ fn lo s e, Span s (Fn.arg fn) e → e ≤ lo → Lined lo (Span s) (R fn))
    (a : js_Ast) (lo s e : Nat) (ha : Span s a e) (he : e ≤ lo) :
    Lined lo (Span s) (shift_loop R a) := by
  have hs : s ≤ lo := le_trans ha.1 he
  simp only [shift_loop, EXP0, EXP1, EXP2, EXP3, STM4, LIST, jsP_list]
  repeat' first
    | with_reducible apply lined_bind
    | with_reducible refine lined_ite ?_ ?_
    | exact additive_lines hR _ s (by omega)
    | exact additive_lines hR _ _ le_rfl
    | exact lined_call0 (s := s) hR _ rfl (by omega)
    | exact lined_call0 hR _ rfl le_rfl
    | exact hR _ _ s _ (by assumption) (by omega)
    | exact lined_accept _
    | exact lined_node2 (s := s) (by decide) (by assumption) (by assumption) (by omega) (by omega)
    | exact lined_pure_ast (s := s) (by assumption) (by omega)
    | intro _

theorem shift_lines {R : Rec}
    (hR : ∀ fn lo s e, Span s (Fn.arg fn) e → e ≤ lo → Lined lo (Span s) (R fn))
    (lo s : Nat) (hs : s ≤ lo) :
    Lined lo (Span s) (shift R) := by
  simp only [shift, EXP0, EXP1, EXP2, EXP3, STM4, LIST, jsP_list]
  repeat' first
    | with_reducible apply lined_bind
    | exact additive_lines hR _ s (by omega)
    | exact additive_lines hR _ _ le_rfl
    | exact shift_loop_lines hR _ _ s _ (by assumption) (by omega)
    | exact lined_call0 (s := s) hR _ rfl (by omega)
    | exact lined_call0 hR _ rfl le_rfl
    | exact hR _ _ s _ (by assumption) (by omega)
    | intro _

theorem relational_loop_lines {R : Rec}
    (hR : ∀ fn lo s e, Span s (Fn.arg fn) e → e ≤ lo → Lined lo (Span s) (R fn))
    (notin : Bool) (a : js_Ast) (lo s e : Nat) (ha : Span s a e) (he : e ≤ lo) :
    Lined lo (Span s) (relational_loop R notin a) := by
  have hs : s ≤ lo := le_trans ha.1 he
  simp only [relational_loop, EXP0, EXP1, EXP2, EXP3, STM4, LIST, jsP_list]
  repeat' first
    | with_reducible refine lined_guard ?_ ?_
    | with_reducible apply lined_bind
    | with_reducible refine lined_ite ?_ ?_
    | exact shift_lines hR _ s (by omega)
    | exact shift_lines hR _ _ le_rfl
    | exact lined_call0 (s := s) hR _ rfl (by omega)
    | exact lined_call0 hR _ rfl le_rfl
    | exact hR _ _ s _ (by assumption) (by omega)
    | exact lined_accept _
    | exact lined_node2 (s := s) (by decide) (by assumption) (by assumption) (by omega) (by omega)
    | exact lined_pure_ast (s := s) (by assumption) (by omega)
    | exact lined_pure_true _
    | intro _

theorem relational_lines {R : Rec}
    (hR : ∀ fn lo s e, Span s (Fn.arg fn) e → e ≤ lo → Lined lo (Span s) (R fn))
    (notin : Bool) (lo s : Nat) (hs : s ≤ lo) :
    Lined lo (Span s) (relational R notin) := by
  simp only [relational, EXP0, EXP1, EXP2, EXP3, STM4, LIST, jsP_list]
  repeat' first
    | with_reducible apply lined_bind
    | exact relational_loop_lines hR _ _ _ s _ (by assumption) (by omega)
    | exact shift_lines hR _ s (by omega)
    | exact shift_lines hR _ _ le_rfl
    | exact lined_call0 (s := s) hR _ rfl (by omega)
    | exact lined_call0 hR _ rfl le_rfl
    | exact hR _ _ s _ (by assumption) (by omega)
    | intro _

theorem equality_loop_lines {R : Rec}
    (hR : ∀ fn lo s e, Span s (Fn.arg fn) e → e ≤ lo → Lined lo (Span s) (R fn))
    (notin : Bool) (a : js_Ast) (lo s e : Nat) (ha : Span s a e) (he : e ≤ lo) :
    Lined lo (Span s) (equality_loop R notin a) := by
  have hs : s ≤ lo := le_trans ha.1 he
  simp only [equality_loop, EXP0, EXP1, EXP2, EXP3, STM4, LIST, jsP_list]
  repeat' first
    | with_reducible apply lined_bind
    | with_reducible refine lined_ite ?_ ?_
    | exact relational_lines hR _ _ s (by omega)
    | exact relational_lines hR _ _ _ le_rfl
    | exact lined_call0 (s := s) hR _ rfl (by omega)
    | exact lined_call0 hR _ rfl le_rfl
    | exact hR _ _ s _ (by assumption) (by omega)
    | exact lined_accept _
    | exact lined_node2 (s := s) (by decide) (by assumption) (by assumption) (by omega) (by omega)
    | exact lined_pure_ast (s := s) (by assumption) (by omega)
    | intro _

theorem equality_lines {R : Rec}
    (hR : ∀ fn lo s e, Span s (Fn.arg fn) e → e ≤ lo → Lined lo (Span s) (R fn))
    (notin : Bool) (lo s : Nat) (hs : s ≤ lo) :
    Lined lo (Span s) (equality R notin) := by
  simp only [equality, EXP0, EXP1, EXP2, EXP3, STM4, LIST, jsP_list]
  repeat' first
    | with_reducible apply lined_bind
    | exact equality_loop_lines hR _ _ _ s _ (by assumption) (by omega)
    | exact relational_lines hR _ _ s (by omega)
    | exact relational_lines hR _ _ _ le_rfl
    | exact lined_call0 (s := s) hR _ rfl (by omega)
    | exact lined_call0 hR _ rfl le_rfl
    | exact hR _ _ s _ (by assumption) (by omega)
    | intro _

theorem bitand_loop_lines {R : Rec}
    (hR : ∀ fn lo s e, Span s (Fn.arg fn) e → e ≤ lo → Lined lo (Span s) (R fn))
    (notin : Bool) (a : js_Ast) (lo s e : Nat) (ha : Span s a e) (he : e ≤ lo) :
    Lined lo (Span s) (bitand_loop R notin a) := by
  have hs : s ≤ lo := le_trans ha.1 he
  simp only [bitand_loop, EXP0, EXP1, EXP2, EXP3, STM4, LIST, jsP_list]
  repeat' first
    | with_reducible apply lined_bind
    | with_reducible refine lined_ite ?_ ?_
    | exact equality_lines hR _ _ s (by omega)
    | exact equality_lines hR _ _ _ le_rfl
    | exact lined_call0 (s := s) hR _ rfl (by omega)
    | exact lined_call0 hR _ rfl le_rfl
    | exact hR _ _ s _ (by assumption) (by omega)
    | exact lined_accept _
    | exact lined_node2 (s := s) (by decide) (by assumption) (by assumption) (by omega) (by omega)
    | exact lined_pure_ast (s := s) (by assumption) (by omega)
    | intro _

theorem bitand_lines {R : Rec}
    (hR : ∀ fn lo s e, Span s (Fn.arg fn) e → e ≤ lo → Lined lo (Span s) (R fn))
    (notin : Bool) (lo s : Nat) (hs : s ≤ lo) :
    Lined lo (Span s) (bitand R notin) := by
  simp only [bitand, EXP0, EXP1, EXP2, EXP3, STM4, LIST, jsP_list]
  repeat' first
    | with_reducible apply lined_bind
    | exact bitand_loop_lines hR _ _ _ s _ (by assumption) (by omega)
    | exact equality_lines hR _ _ s (by omega)
    | exact equality_lines hR _ _ _ le_rfl
    | exact lined_call0 (s := s) hR _ rfl (by omega)
    | exact lined_call0 hR _ rfl le_rfl
    | exact hR _ _ s _ (by assumption) (by omega)
    | intro _

theorem bitxor_loop_lines {R : Rec}
    (hR : ∀ fn lo s e, Span s (Fn.arg fn) e → e ≤ lo → Lined lo (Span s) (R fn))
    (notin : Bool) (a : js_Ast) (lo s e : Nat) (ha : Span s a e) (he : e ≤ lo) :
    Lined lo (Span s) (bitxor_loop R notin a) := by
  have hs : s ≤ lo := le_trans ha.1 he
  simp only [bitxor_loop, EXP0, EXP1, EXP2, EXP3, STM4, LIST, jsP_list]
  repeat' first
    | with_reducible apply lined_bind
    | with_reducible refine lined_ite ?_ ?_
    | exact bitand_lines hR _ _ s (by omega)
    | exact bitand_lines hR _ _ _ le_rfl
    | exact lined_call0 (s := s) hR _ rfl (by omega)
    | exact lined_call0 hR _ rfl le_rfl
    | exact hR _ _ s _ (by assumption) (by omega)
    | exact lined_accept _
    | exact lined_node2 (s := s) (by decide) (by assumption) (by assumption) (by omega) (by omega)
    | exact lined_pure_ast (s := s) (by assumption) (by omega)
    | intro _

theorem bitxor_lines {R : Rec}
    (hR : ∀ fn lo s e, Span s (Fn.arg fn) e → e ≤ lo → Lined lo (Span s) (R fn))
    (notin : Bool) (lo s : Nat) (hs : s ≤ lo) :
    Lined lo (Span s) (bitxor R notin) := by
  simp only [bitxor, EXP0, EXP1, EXP2, EXP3, STM4, LIST, jsP_list]
  repeat' first
    | with_reducible apply lined_bind
    | exact bitand_lines hR _ _ s (by omega)
    | exact bitand_lines hR _ _ _ le_rfl
    | exact bitxor_loop_lines hR _ _ _ s _ (by assumption) (by omega)
    | exact lined_call0 (s := s) hR _ rfl (by omega)
    | exact lined_call0 hR _ rfl le_rfl
    | exact hR _ _ s _ (by assumption) (by omega)
    | intro _

theorem bitor_loop_lines {R : Rec}
    (hR : ∀ fn lo s e, Span s (Fn.arg fn) e → e ≤ lo → Lined lo (Span s) (R fn))
    (notin : Bool) (a : js_Ast) (lo s e : Nat) (ha : Span s a e) (he : e ≤ lo) :
    Lined lo (Span s) (bitor_loop R notin a) := by
  have hs : s ≤ lo := le_trans ha.1 he
  simp only [bitor_loop, EXP0, EXP1, EXP2, EXP3, STM4, LIST, jsP_list]
  repeat' first
    | with_reducible apply lined_bind
    | with_reducible refine lined_ite ?_ ?_
    | exact bitxor_lines hR _ _ s (by omega)
    | exact bitxor_lines hR _ _ _ le_rfl
    | exact lined_call0 (s := s) hR _ rfl (by omega)
    | exact lined_call0 hR _ rfl le_rfl
    | exact hR _ _ s _ (by assumption) (by omega)
    | exact lined_accept _
    | exact lined_node2 (s := s) (by decide) (by assumption) (by assumption) (by omega) (by omega)
    | exact lined_pure_ast (s := s) (by assumption) (by omega)
    | intro _

theorem bitor_lines {R : Rec}
    (hR : ∀ fn lo s e, Span s (Fn.arg fn) e → e ≤ lo → Lined lo (Span s) (R fn))
    (notin : Bool) (lo s : Nat) (hs : s ≤ lo) :
    Lined lo (Span s) (bitor R notin) := by
  simp only [bitor, EXP0, EXP1, EXP2, EXP3, STM4, LIST, jsP_list]
  repeat' first
    | with_reducible apply lined_bind
    | exact bitor_loop_lines hR _ _ _ s _ (by assumption) (by omega)
    | exact bitxor_lines hR _ _ s (by omega)
    | exact bitxor_lines hR _ _ _ le_rfl
    | exact lined_call0 (s := s) hR _ rfl (by omega)
    | exact lined_call0 hR _ rfl le_rfl
    | exact hR _ _ s _ (by assumption) (by omega)
    | intro _

theorem logand_lines {R : Rec}
    (hR : ∀ fn lo s e, Span s (Fn.arg fn) e → e ≤ lo → Lined lo (Span s) (R fn))
    (notin : Bool) (lo s : Nat) (hs : s ≤ lo) :
    Lined lo (Span s) (logand R notin) := by
  simp only [logand, EXP0, EXP1, EXP2, EXP3, STM4, LIST, jsP_list]
  repeat' first
    | with_reducible apply lined_bind
    | with_reducible refine lined_ite ?_ ?_
    | exact bitor_lines hR _ _ s (by omega)
    | exact bitor_lines hR _ _ _ le_rfl
    | exact lined_call0 (s := s) hR _ rfl (by omega)
    | exact lined_call0 hR _ rfl le_rfl
    | exact hR _ _ s _ (by assumption) (by omega)
    | exact lined_accept _
    | exact lined_node2 (s := s) (by decide) (by assumption) (by assumption) (by omega) (by omega)
    | exact lined_pure_ast (s := s) (by assumption) (by omega)
    | intro _

theorem logor_lines {R : Rec}
    (hR : ∀ fn lo s e, Span s (Fn.arg fn) e → e ≤ lo → Lined lo (Span s) (R fn))
    (notin : Bool) (lo s : Nat) (hs : s ≤ lo) :
    Lined lo (Span s) (logor R notin) := by
  simp only [logor, EXP0, EXP1, EXP2, EXP3, STM4, LIST, jsP_list]
  repeat' first
    | with_reducible apply lined_bind
    | with_reducible refine lined_ite ?_ ?_
    | exact logand_lines hR _ _ s (by omega)
    | exact logand_lines hR _ _ _ le_rfl
    | exact lined_call0 (s := s) hR _ rfl (by omega)
    | exact lined_call0 hR _ rfl le_rfl
    | exact hR _ _ s _ (by assumption) (by omega)
    | exact lined_accept _
    | exact lined_node2 (s := s) (by decide) (by assumption) (by assumption) (by omega) (by omega)
    | exact lined_pure_ast (s := s) (by assumption) (by omega)
    | intro _

theorem conditional_lines {R : Rec}
    (hR : ∀ fn lo s e, Span s (Fn.arg fn) e → e ≤ lo → Lined lo (Span s) (R fn))
    (notin : Bool) (lo s : Nat) (hs : s ≤ lo) :
    Lined lo (Span s) (conditional R notin) := by
  simp only [conditional, EXP0, EXP1, EXP2, EXP3, STM4, LIST, jsP_list]
  repeat' first
    | with_reducible apply lined_bind
    | with_reducible refine lined_ite ?_ ?_
    | exact logor_lines hR _ _ s (by omega)
    | exact logor_lines hR _ _ _ le_rfl
    | exact lined_call0 (s := s) hR _ rfl (by omega)
    | exact lined_call0 hR _ rfl le_rfl
    | exact hR _ _ s _ (by assumption) (by omega)
    | exact lined_accept _
    | exact lined_expect _
    | exact lined_node3 (s := s) (by decide) (by assumption) (by assumption) (by assumption) (by omega) (by omega) (by omega)
    | exact lined_pure_ast (s := s) (by assumption) (by omega)
    | intro _

theorem assignment_lines {R : Rec}
    (hR : ∀ fn lo s e, Span s (Fn.arg fn) e → e ≤ lo → Lined lo (Span s) (R fn))
    (notin : Bool) (lo s : Nat) (hs : s ≤ lo) :
    Lined lo (Span s) (assignment R notin) := by
  simp only [assignment, EXP0, EXP1, EXP2, EXP3, STM4, LIST, jsP_list]
  repeat' first
    | with_reducible apply lined_bind
    | with_reducible refine lined_ite ?_ ?_
    | exact conditional_lines hR _ _ s (by omega)
    | exact conditional_lines hR _ _ _ le_rfl
    | exact lined_call0 (s := s) hR _ rfl (by omega)
    | exact lined_call0 hR _ rfl le_rfl
    | exact hR _ _ s _ (by assumption) (by omega)
    | exact lined_accept _
    | exact lined_node2 (s := s) (by decide) (by assumption) (by assumption) (by omega) (by omega)
    | exact lined_pure_ast (s := s) (by assumption) (by omega)
    | intro _

theorem expression_loop_lines {R : Rec}
    (hR : ∀ fn lo s e, Span s (Fn.arg fn) e → e ≤ lo → Lined lo (Span s) (R fn))
    (notin : Bool) (a : js_Ast) (lo s e : Nat) (ha : Span s a e) (he : e ≤ lo) :
    Lined lo (Span s) (expression_loop R notin a) := by
  have hs : s ≤ lo := le_trans ha.1 he
  simp only [expression_loop, EXP0, EXP1, EXP2, EXP3, STM4, LIST, jsP_list]
  repeat' first
    | with_reducible apply lined_bind
    | with_reducible refine lined_ite ?_ ?_
    | exact assignment_lines hR _ _ s (by omega)
    | exact assignment_lines hR _ _ _ le_rfl
    | exact lined_call0 (s := s) hR _ rfl (by omega)
    | exact lined_call0 hR _ rfl le_rfl
    | exact hR _ _ s _ (by assumption) (by omega)
    | exact lined_accept _
    | exact lined_node2 (s := s) (by decide) (by assumption) (by assumption) (by omega) (by omega)
    | exact lined_pure_ast (s := s) (by assumption) (by omega)
    | intro _

theorem expression_lines {R : Rec}
    (hR : ∀ fn lo s e, Span s (Fn.arg fn) e → e ≤ lo → Lined lo (Span s) (R fn))
    (notin : Bool) (lo s : Nat) (hs : s ≤ lo) :
    Lined lo (Span s) (expression R notin) := by
  simp only [expression, EXP0, EXP1, EXP2, EXP3, STM4, LIST, jsP_list]
  repeat' first
    | with_reducible apply lined_bind
    | exact assignment_lines hR _ _ s (by omega)
    | exact assignment_lines hR _ _ _ le_rfl
    | exact expression_loop_lines hR _ _ _ s _ (by assumption) (by omega)
    | exact lined_call0 (s := s) hR _ rfl (by omega)
    | exact lined_call0 hR _ rfl le_rfl
    | exact hR _ _ s _ (by assumption) (by omega)
    | intro _

theorem vardec_lines {R : Rec}
    (hR : ∀ fn lo s e, Span s (Fn.arg fn) e → e ≤ lo → Lined lo (Span s) (R fn))
    (notin : Bool) (lo s : Nat) (hs : s ≤ lo) :
    Lined lo (Span s) (vardec R notin) := by
  simp only [vardec, EXP0, EXP1, EXP2, EXP3, STM4, LIST, jsP_list]
  repeat' first
    | with_reducible apply lined_bind
    | with_reducible refine lined_ite ?_ ?_
    | exact assignment_lines hR _ _ s (by omega)
    | exact assignment_lines hR _ _ _ le_rfl
    | exact identifier_lines _ s (by omega)
    | exact identifier_lines _ _ le_rfl
    | exact lined_call0 (s := s) hR _ rfl (by omega)
    | exact lined_call0 hR _ rfl le_rfl
    | exact hR _ _ s _ (by assumption) (by omega)
    | exact lined_accept _
    | exact lined_node1 (s := s) _ (by assumption) (by omega)
    | exact lined_node2 (s := s) (by decide) (by assumption) (by assumption) (by omega) (by omega)
    | intro _

theorem vardeclist_loop_lines {R : Rec}
    (hR : ∀ fn lo s e, Span s (Fn.arg fn) e → e ≤ lo → Lined lo (Span s) (R fn))
    (notin : Bool) (lo s : Nat) (hs : s ≤ lo) :
    Lined lo (Span s) (vardeclist_loop R notin) := by
  simp only [vardeclist_loop, EXP0, EXP1, EXP2, EXP3, STM4, LIST, jsP_list]
  repeat' first
    | with_reducible refine lined_list (s := s) (by assumption) (by omega) (fun lo1 h1 => ?_)
    | with_reducible apply lined_bind
    | with_reducible refine lined_ite ?_ ?_
    | exact vardec_lines hR _ _ s (by omega)
    | exact vardec_lines hR _ _ _ le_rfl
    | exact lined_call0 (s := s) hR _ rfl (by omega)
    | exact lined_call0 hR _ rfl le_rfl
    | exact hR _ _ s _ (by assumption) (by omega)
    | exact lined_accept _
    | exact lined_node1 (s := s) _ (by assumption) (by omega)
    | exact lined_pure_null (s := s) (by omega)
    | exact lined_pure_null le_rfl
    | intro _

theorem vardeclist_lines {R : Rec}
    (hR : ∀ fn lo s e, Span s (Fn.arg fn) e → e ≤ lo → Lined lo (Span s) (R fn))
    (notin : Bool) (lo s : Nat) (hs : s ≤ lo) :
    Lined lo (Span s) (vardeclist R notin) := by
  simp only [vardeclist, EXP0, EXP1, EXP2, EXP3, STM4, LIST, jsP_list]
  repeat' first
    | with_reducible refine lined_list (s := s) (by assumption) (by omega) (fun lo1 h1 => ?_)
    | with_reducible apply lined_bind
    | exact vardec_lines hR _ _ s (by omega)
    | exact vardec_lines hR _ _ _ le_rfl
    | exact vardeclist_loop_lines hR _ _ s (by omega)
    | exact vardeclist_loop_lines hR _ _ _ le_rfl
    | exact lined_call0 (s := s) hR _ rfl (by omega)
    | exact lined_call0 hR _ rfl le_rfl
    | exact hR _ _ s _ (by assumption) (by omega)
    | exact lined_node1 (s := s) _ (by assumption) (by omega)
    | intro _

theorem statementlist_loop_lines {R : Rec}
    (hR : ∀ fn lo s e, Span s (Fn.arg fn) e → e ≤ lo → Lined lo (Span s) (R fn))
    (lo s : Nat) (hs : s ≤ lo) :
    Lined lo (Span s) (statementlist_loop R) := by
  simp only [statementlist_loop, EXP0, EXP1, EXP2, EXP3, STM4, LIST, jsP_list]
  repeat' first
    | with_reducible refine lined_list (s := s) (by assumption) (by omega) (fun lo1 h1 => ?_)
    | with_reducible apply lined_bind
    | with_reducible refine lined_ite ?_ ?_
    | exact lined_call0 (s := s) hR _ rfl (by omega)
    | exact lined_call0 hR _ rfl le_rfl
    | exact hR _ _ s _ (by assumption) (by omega)
    | exact lined_getJ
    | exact lined_node1 (s := s) _ (by assumption) (by omega)
    | exact lined_pure_null (s := s) (by omega)
    | exact lined_pure_null le_rfl
    | intro _

theorem statementlist_lines {R : Rec}
    (hR : ∀ fn lo s e, Span s (Fn.arg fn) e → e ≤ lo → Lined lo (Span s) (R fn))
    (lo s : Nat) (hs : s ≤ lo) :
    Lined lo (Span s) (statementlist R) := by
  simp only [statementlist, EXP0, EXP1, EXP2, EXP3, STM4, LIST, jsP_list]
  repeat' first
    | with_reducible refine lined_list (s := s) (by assumption) (by omega) (fun lo1 h1 => ?_)
    | with_reducible apply lined_bind
    | with_reducible refine lined_ite ?_ ?_
    | exact statementlist_loop_lines hR _ s (by omega)
    | exact statementlist_loop_lines hR _ _ le_rfl
    | exact lined_call0 (s := s) hR _ rfl (by omega)
    | exact lined_call0 hR _ rfl le_rfl
    | exact hR _ _ s _ (by assumption) (by omega)
    | exact lined_getJ
    | exact lined_node1 (s := s) _ (by assumption) (by omega)
    | exact lined_pure_null (s := s) (by omega)
    | exact lined_pure_null le_rfl
    | intro _

theorem caseclause_lines {R : Rec}
    (hR : ∀ fn lo s e, Span s (Fn.arg fn) e → e ≤ lo → Lined lo (Span s) (R fn))
    (lo s : Nat) (hs : s ≤ lo) :
    Lined lo (Span s) (caseclause R) := by
  simp only [caseclause, EXP0, EXP1, EXP2, EXP3, STM4, LIST, jsP_list]
  repeat' first
    | with_reducible apply lined_bind
    | with_reducible refine lined_ite ?_ ?_
    | exact expression_lines hR _ _ s (by omega)
    | exact expression_lines hR _ _ _ le_rfl
    | exact statementlist_lines hR _ s (by omega)
    | exact statementlist_lines hR _ _ le_rfl
    | exact lined_call0 (s := s) hR _ rfl (by omega)
    | exact lined_call0 hR _ rfl le_rfl
    | exact hR _ _ s _ (by assumption) (by omega)
    | exact lined_getJ
    | exact lined_accept _
    | exact lined_expect _
    | exact lined_error _
    | exact lined_node1 (s := s) _ (by assumption) (by omega)
    | exact lined_node2 (s := s) (by decide) (by assumption) (by assumption) (by omega) (by omega)
    | intro _

theorem caselist_loop_lines {R : Rec}
    (hR : ∀ fn lo s e, Span s (Fn.arg fn) e → e ≤ lo → Lined lo (Span s) (R fn))
    (lo s : Nat) (hs : s ≤ lo) :
    Lined lo (Span s) (caselist_loop R) := by
  simp only [caselist_loop, EXP0, EXP1, EXP2, EXP3, STM4, LIST, jsP_list]
  repeat' first
    | with_reducible refine lined_list (s := s) (by assumption) (by omega) (fun lo1 h1 => ?_)
    | with_reducible apply lined_bind
    | with_reducible refine lined_ite ?_ ?_
    | exact caseclause_lines hR _ s (by omega)
    | exact caseclause_lines hR _ _ le_rfl
    | exact lined_call0 (s := s) hR _ rfl (by omega)
    | exact lined_call0 hR _ rfl le_rfl
    | exact hR _ _ s _ (by assumption) (by omega)
    | exact lined_getJ
    | exact lined_node1 (s := s) _ (by assumption) (by omega)
    | exact lined_pure_null (s := s) (by omega)
    | exact lined_pure_null le_rfl
    | intro _

theorem caselist_lines {R : Rec}
    (hR : ∀ fn lo s e, Span s (Fn.arg fn) e → e ≤ lo → Lined lo (Span s) (R fn))
    (lo s : Nat) (hs : s ≤ lo) :
    Lined lo (Span s) (caselist R) := by
  simp only [caselist, EXP0, EXP1, EXP2, EXP3, STM4, LIST, jsP_list]
  repeat' first
    | with_reducible refine lined_list (s := s) (by assumption) (by omega) (fun lo1 h1 => ?_)
    | with_reducible apply lined_bind
    | with_reducible refine lined_ite ?_ ?_
    | exact caseclause_lines hR _ s (by omega)
    | exact caseclause_lines hR _ _ le_rfl
    | exact caselist_loop_lines hR _ s (by omega)
    | exact caselist_loop_lines hR _ _ le_rfl
    | exact lined_call0 (s := s) hR _ rfl (by omega)
    | exact lined_call0 hR _ rfl le_rfl
    | exact hR _ _ s _ (by assumption) (by omega)
    | exact lined_getJ
    | exact lined_node1 (s := s) _ (by assumption) (by omega)
    | exact lined_pure_null (s := s) (by omega)
    | exact lined_pure_null le_rfl
    | intro _

theorem block_lines {R : Rec}
    (hR : ∀ fn lo s e, Span s (Fn.arg fn) e → e ≤ lo → Lined lo (Span s) (R fn))
    (lo s : Nat) (hs : s ≤ lo) :
    Lined lo (Span s) (block R) := by
  simp only [block, EXP0, EXP1, EXP2, EXP3, STM4, LIST, jsP_list]
  repeat' first
    | with_reducible apply lined_bind
    | exact statementlist_lines hR _ s (by omega)
    | exact statementlist_lines hR _ _ le_rfl
    | exact lined_call0 (s := s) hR _ rfl (by omega)
    | exact lined_call0 hR _ rfl le_rfl
    | exact hR _ _ s _ (by assumption) (by omega)
    | exact lined_expect _
    | exact lined_node1 (s := s) _ (by assumption) (by omega)
    | intro _

theorem forexpression_lines {R : Rec}
    (hR : ∀ fn lo s e, Span s (Fn.arg fn) e → e ≤ lo → Lined lo (Span s) (R fn))
    (end_ : Tok) (lo s : Nat) (hs : s ≤ lo) :
    Lined lo (Span s) (forexpression R end_) := by
  simp only [forexpression, EXP0, EXP1, EXP2, EXP3, STM4, LIST, jsP_list]
  repeat' first
    | with_reducible apply lined_bind
    | with_reducible refine lined_ite ?_ ?_
    | exact expression_lines hR _ _ s (by omega)
    | exact expression_lines hR _ _ _ le_rfl
    | exact lined_call0 (s := s) hR _ rfl (by omega)
    | exact lined_call0 hR _ rfl le_rfl
    | exact hR _ _ s _ (by assumption) (by omega)
    | exact lined_getJ
    | exact lined_expect _
    | exact lined_pure_null (s := s) (by omega)
    | exact lined_pure_null le_rfl
    | exact lined_pure_ast (s := s) (by assumption) (by omega)
    | intro _

theorem forstatement_lines {R : Rec}
    (hR : ∀ fn lo s e, Span s (Fn.arg fn) e → e ≤ lo → Lined lo (Span s) (R fn))
    (lo s : Nat) (hs : s ≤ lo) :
    Lined lo (Span s) (forstatement R) := by
  simp only [forstatement, EXP0, EXP1, EXP2, EXP3, STM4, LIST, jsP_list]
  repeat' first
    | with_reducible apply lined_bind
    | with_reducible refine lined_ite ?_ ?_
    | exact expression_lines hR _ _ s (by omega)
    | exact expression_lines hR _ _ _ le_rfl
    | exact forexpression_lines hR _ _ s (by omega)
    | exact forexpression_lines hR _ _ _ le_rfl
    | exact vardeclist_lines hR _ _ s (by omega)
    | exact vardeclist_lines hR _ _ _ le_rfl
    | exact lined_call0 (s := s) hR _ rfl (by omega)
    | exact lined_call0 hR _ rfl le_rfl
    | exact hR _ _ s _ (by assumption) (by omega)
    | exact lined_getJ
    | exact lined_accept _
    | exact lined_expect _
    | exact lined_error _
    | exact lined_node3 (s := s) (by decide) (by assumption) (by assumption) (by assumption) (by omega) (by omega) (by omega)
    | exact lined_node4 (s := s) (by decide) (by assumption) (by assumption) (by assumption) (by assumption) (by omega) (by omega) (by omega) (by omega)
    | exact lined_pure_null (s := s) (by omega)
    | exact lined_pure_null le_rfl
    | intro _

set_option maxHeartbeats 4000000 in
theorem statement_lines {R : Rec}
    (hR : ∀ fn lo s e, Span s (Fn.arg fn) e → e ≤ lo → Lined lo (Span s) (R fn))
    (lo s : Nat) (hs : s ≤ lo) :
    Lined lo (Span s) (statement R) := by
  simp only [statement, EXP0, EXP1, EXP2, EXP3, STM4, LIST, jsP_list]
  repeat' first
    | with_reducible refine lined_guard ?_ ?_
    | with_reducible apply lined_bind
    | with_reducible refine lined_ite ?_ ?_
    | exact block_lines hR _ s (by omega)
    | exact block_lines hR _ _ le_rfl
    | exact caselist_lines hR _ s (by omega)
    | exact caselist_lines hR _ _ le_rfl
    | exact expression_lines hR _ _ s (by omega)
    | exact expression_lines hR _ _ _ le_rfl
    | exact forstatement_lines hR _ s (by omega)
    | exact forstatement_lines hR _ _ le_rfl
    | exact funstm_lines hR _ s (by omega)
    | exact funstm_lines hR _ _ le_rfl
    | exact identifier_lines _ s (by omega)
    | exact identifier_lines _ _ le_rfl
    | exact identifieropt_lines _ s (by omega)
    | exact identifieropt_lines _ _ le_rfl
    | exact vardeclist_lines hR _ _ s (by omega)
    | exact vardeclist_lines hR _ _ _ le_rfl
    | exact lined_call0 (s := s) hR _ rfl (by omega)
    | exact lined_call0 hR _ rfl le_rfl
    | exact hR _ _ s _ (by assumption) (by omega)
    | exact lined_getJ
    | exact lined_accept _
    | exact lined_expect _
    | exact lined_semicolon
    | exact lined_warning _
    | exact lined_error _
    | exact lined_node0 (s := s) _ (by omega)
    | exact lined_node1 (s := s) _ (by assumption) (by omega)
    | exact lined_node2_label (s := s) (by assumption) (by assumption) (by assumption) (by omega) (by omega)
    | exact lined_node2 (s := s) (by decide) (by assumption) (by assumption) (by omega) (by omega)
    | exact lined_node3 (s := s) (by decide) (by assumption) (by assumption) (by assumption) (by omega) (by omega) (by omega)
    | exact lined_node4_pair (s := s) (by decide) (by assumption) (by assumption) (by assumption) (by omega) (by omega) (by omega)
    | exact lined_pure_pair (s := s) (by assumption) (by assumption) (by omega) (by omega)
    | exact lined_pure_pair_null (s := s) (by omega)
    | exact lined_node4 (s := s) (by decide) (by assumption) (by assumption) (by assumption) (by assumption) (by omega) (by omega) (by omega) (by omega)
    | exact lined_pure_null (s := s) (by omega)
    | exact lined_pure_null le_rfl
    | exact lined_pure_ast (s := s) (by assumption) (by omega)
    | exact lined_pure_true _
    | intro _

theorem scriptelement_lines {R : Rec}
    (hR : ∀ fn lo s e, Span s (Fn.arg fn) e → e ≤ lo → Lined lo (Span s) (R fn))
    (lo s : Nat) (hs : s ≤ lo) :
    Lined lo (Span s) (scriptelement R) := by
  simp only [scriptelement, EXP0, EXP1, EXP2, EXP3, STM4, LIST, jsP_list]
  repeat' first
    | with_reducible apply lined_bind
    | with_reducible refine lined_ite ?_ ?_
    | exact fundec_lines hR _ s (by omega)
    | exact fundec_lines hR _ _ le_rfl
    | exact statement_lines hR _ s (by omega)
    | exact statement_lines hR _ _ le_rfl
    | exact lined_call0 (s := s) hR _ rfl (by omega)
    | exact lined_call0 hR _ rfl le_rfl
    | exact hR _ _ s _ (by assumption) (by omega)
    | exact lined_accept _
    | intro _

theorem script_loop_lines {R : Rec}
    (hR : ∀ fn lo s e, Span s (Fn.arg fn) e → e ≤ lo → Lined lo (Span s) (R fn))
    (terminator : Tok) (lo s : Nat) (hs : s ≤ lo) :
    Lined lo (Span s) (script_loop R terminator) := by
  simp only [script_loop, EXP0, EXP1, EXP2, EXP3, STM4, LIST, jsP_list]
  repeat' first
    | with_reducible refine lined_list (s := s) (by assumption) (by omega) (fun lo1 h1 => ?_)
    | with_reducible apply lined_bind
    | with_reducible refine lined_ite ?_ ?_
    | exact scriptelement_lines hR _ s (by omega)
    | exact scriptelement_lines hR _ _ le_rfl
    | exact lined_call0 (s := s) hR _ rfl (by omega)
    | exact lined_call0 hR _ rfl le_rfl
    | exact hR _ _ s _ (by assumption) (by omega)
    | exact lined_getJ
    | exact lined_node1 (s := s) _ (by assumption) (by omega)
    | exact lined_pure_null (s := s) (by omega)
    | exact lined_pure_null le_rfl
    | intro _

theorem script_lines {R : Rec}
    (hR : ∀ fn lo s e, Span s (Fn.arg fn) e → e ≤ lo → Lined lo (Span s) (R fn))
    (terminator : Tok) (lo s : Nat) (hs : s ≤ lo) :
    Lined lo (Span s) (script R terminator) := by
  simp only [script, EXP0, EXP1, EXP2, EXP3, STM4, LIST, jsP_list]
  repeat' first
    | with_reducible refine lined_list (s := s) (by assumption) (by omega) (fun lo1 h1 => ?_)
    | with_reducible apply lined_bind
    | with_reducible refine lined_ite ?_ ?_
    | exact script_loop_lines hR _ _ s (by omega)
    | exact script_loop_lines hR _ _ _ le_rfl
    | exact scriptelement_lines hR _ s (by omega)
    | exact scriptelement_lines hR _ _ le_rfl
    | exact lined_call0 (s := s) hR _ rfl (by omega)
    | exact lined_call0 hR _ rfl le_rfl
    | exact hR _ _ s _ (by assumption) (by omega)
    | exact lined_getJ
    | exact lined_node1 (s := s) _ (by assumption) (by omega)
    | exact lined_pure_null (s := s) (by omega)
    | exact lined_pure_null le_rfl
    | intro _

theorem funbody_lines {R : Rec}
    (hR : ∀ fn lo s e, Span s (Fn.arg fn) e → e ≤ lo → Lined lo (Span s) (R fn))
    (lo s : Nat) (hs : s ≤ lo) :
    Lined lo (Span s) (funbody R) := by
  simp only [funbody, EXP0, EXP1, EXP2, EXP3, STM4, LIST, jsP_list]
  repeat' first
    | with_reducible apply lined_bind
    | exact script_lines hR _ _ s (by omega)
    | exact script_lines hR _ _ _ le_rfl
    | exact lined_call0 (s := s) hR _ rfl (by omega)
    | exact lined_call0 hR _ rfl le_rfl
    | exact hR _ _ s _ (by assumption) (by omega)
    | exact lined_expect _
    | exact lined_pure_ast (s := s) (by assumption) (by omega)
    | intro _

/-- One unfolding of an entry point keeps the lines in order. -/
theorem step_lines {R : Rec}
    (hR : ∀ fn lo s e, Span s (Fn.arg fn) e → e ≤ lo → Lined lo (Span s) (R fn))
    (fn : Fn) (lo s e : Nat) (ha : Span s fn.arg e) (he : e ≤ lo) :
    Lined lo (Span s) (step R fn) := by
  have hs : s ≤ lo := le_trans ha.1 he
  cases fn <;> simp only [step]
  · exact expression_lines hR _ _ _ hs
  · exact assignment_lines hR _ _ _ hs
  · exact memberexp_lines hR _ _ hs
  · exact statement_lines hR _ _ hs
  · exact funbody_lines hR _ _ hs
  · exact unary_lines hR _ _ hs
  · exact logand_lines hR _ _ _ hs
  · exact logor_lines hR _ _ _ hs
  · exact arrayliteral_loop_lines hR _ _ hs
  · exact objectliteral_loop_lines hR _ _ hs
  · exact parameters_loop_lines hR _ _ hs
  · exact arguments_loop_lines hR _ _ hs
  · exact memberexp_loop_lines hR _ _ _ _ ha he
  · exact callexp_loop_lines hR _ _ _ _ ha he
  · exact multiplicative_loop_lines hR _ _ _ _ ha he
  · exact additive_loop_lines hR _ _ _ _ ha he
  · exact shift_loop_lines hR _ _ _ _ ha he
  · exact relational_loop_lines hR _ _ _ _ _ ha he
  · exact equality_loop_lines hR _ _ _ _ _ ha he
  · exact bitand_loop_lines hR _ _ _ _ _ ha he
  · exact bitxor_loop_lines hR _ _ _ _ _ ha he
  · exact bitor_loop_lines hR _ _ _ _ _ ha he
  · exact expression_loop_lines hR _ _ _ _ _ ha he
  · exact vardeclist_loop_lines hR _ _ _ hs
  · exact statementlist_loop_lines hR _ _ hs
  · exact caselist_loop_lines hR _ _ hs
  · exact script_loop_lines hR _ _ _ hs

/-- Every entry point keeps the lines in order, whatever the recursion bound. -/
theorem run_lines (n : Nat) (fn : Fn) (lo s e : Nat) (ha : Span s fn.arg e) (he : e ≤ lo) :
    Lined lo (Span s) (run n fn) := by
  induction n generalizing fn lo s e with
  | zero => exact ⟨fun J v J1 _ _ h => by simp [run] at h⟩
  | succ n ih => exact step_lines (fun fn lo s e => ih fn lo s e) fn lo s e ha he

/-! ## C31: the lines of the nodes rise towards the root -/

/-- Constant folding keeps the lines in order: it leaves the line of every
node it keeps, and adds none. -/
theorem jsP_foldconst_lines (t : js_Ast) :
    (∀ l ∈ (jsP_foldconst t).1.linesPre, l ∈ t.linesPre) ∧
    (t.lineOrdered = true → (jsP_foldconst t).1.lineOrdered = true) := by
  induction t with
  | NULL => simp [jsP_foldconst]
  | node type line a b c d number string iha ihb ihc ihd =>
    by_cases h : type = .EXP_NUMBER
    · subst h
      simp [jsP_foldconst]
    · by_cases hf : foldable type (jsP_foldconst a).1 (jsP_foldconst b).1 = true
      · obtain ⟨x, hx⟩ := jsP_foldconst_rewrite type line a b c d number string hf
        rw [hx]
        simp [js_Ast.linesPre, js_Ast.lineOrdered]
      · rw [jsP_foldconst_keep type line a b c d number string h (by simpa using hf)]
        refine ⟨?_, ?_⟩
        · intro l hl
          simp only [js_Ast.linesPre, List.mem_cons, List.mem_append] at hl ⊢
          rcases hl with rfl | ((hl | hl) | hl) | hl
          · exact Or.inl rfl
          · exact Or.inr (Or.inl (Or.inl (Or.inl (iha.1 l hl))))
          · exact Or.inr (Or.inl (Or.inl (Or.inr (ihb.1 l hl))))
          · exact Or.inr (Or.inl (Or.inr (ihc.1 l hl)))
          · exact Or.inr (Or.inr (ihd.1 l hl))
        · intro ho
          simp only [js_Ast.lineOrdered, Bool.and_eq_true, List.all_eq_true,
            decide_eq_true_eq] at ho ⊢
          obtain ⟨⟨⟨⟨⟨⟨⟨oa, ob⟩, oc⟩, od⟩, la⟩, lc⟩, ld⟩, lb⟩ := ho
          refine ⟨⟨⟨⟨⟨⟨⟨iha.2 oa, ihb.2 ob⟩, ihc.2 oc⟩, ihd.2 od⟩,
            fun l hl => la l (iha.1 l hl)⟩, fun l hl => lc l (ihc.1 l hl)⟩,
            fun l hl => ld l (ihd.1 l hl)⟩, ?_⟩
          split
          · rename_i ht
            rw [if_pos ht] at lb
            simp only [List.all_eq_true, decide_eq_true_eq] at lb ⊢
            exact fun l hl => lb l (ihb.1 l hl)
          · rename_i ht
            rw [if_neg ht] at lb
            simp only [List.all_eq_true, decide_eq_true_eq] at lb ⊢
            exact fun l hl => lb l (ihb.1 l hl)

/-- The state in which `jsP_parse` calls `script`: its lines are in file order
when the lexer's line before parsing is at most the line of every token and
the lines of the tokens do not decrease. -/
theorem inOrder_start (J : js_State) (filename : String) (source : List Token)
    (hlex : ∀ t ∈ source, J.lexline ≤ t.line)
    (hsrc : source.Pairwise fun t u => t.line ≤ u.line) :
    (nextState { J with filename := filename, source := source }).inOrder ∧
    (nextState { J with filename := filename, source := source }).astline = J.lexline := by
  unfold nextState js_State.inOrder
  cases source with
  | nil => simp
  | cons t ts =>
    simp only
    rw [List.pairwise_cons] at hsrc
    exact ⟨⟨hlex t (List.mem_cons_self _ _), hsrc.1, hsrc.2⟩, trivial⟩

/-- What `jsP_parse` returns on `a +`, newline, `b`. -/
theorem jsP_parse_aPlusNewlineB :
    ∃ n, ∀ m, n ≤ m → jsP_parse m "f.js" aPlusNewlineB lineOne =
      .ok (js_Ast.new .AST_LIST 2
        (js_Ast.new .EXP_ADD 2 (js_Ast.strnode .EXP_IDENTIFIER 1 "a")
          (js_Ast.strnode .EXP_IDENTIFIER 1 "b") .NULL .NULL)
        .NULL .NULL .NULL)
        (advance 3 (nextState { lineOne with filename := "f.js", source := aPlusNewlineB })) := by
  have he := expression_add_identifiers
    (J := nextState { lineOne with filename := "f.js", source := aPlusNewlineB })
    rfl (by decide) (by decide) rfl rfl (by decide) (by decide) (by decide) (by decide)
  have hstm := statement_identifier_expression rfl he (Or.inl (by decide))
    (jsP_semicolon_auto (by decide) (Or.inr (Or.inr rfl)))
  have hscr := script_cons (by decide) (scriptelement_statement (by decide) hstm)
    (script_loop_done rfl)
  obtain ⟨n, hn⟩ := jsP_parse_of_script (J := lineOne) hscr
  refine ⟨n, fun m hm => ?_⟩
  rw [hn m hm]
  simp [js_Ast.new, js_Ast.strnode, jsP_foldconst, js_Ast.isNull]
  decide

/-- What `jsP_parse` returns on `a`, newline, `b`. -/
theorem jsP_parse_aNewlineB :
    ∃ n, ∀ m, n ≤ m → jsP_parse m "f.js" aNewlineB lineOne =
      .ok (js_Ast.new .AST_LIST 1 (js_Ast.strnode .EXP_IDENTIFIER 1 "a")
        (js_Ast.new .AST_LIST 2 (js_Ast.strnode .EXP_IDENTIFIER 1 "b") .NULL .NULL .NULL)
        .NULL .NULL)
        (advance 2 (nextState { lineOne with filename := "f.js", source := aNewlineB })) := by
  have he1 : Yields (fun R => expression R false) _ _ := expression_identifier
    (J := nextState { lineOne with filename := "f.js", source := aNewlineB })
    rfl (by decide) (by decide) (by decide) (by decide)
  have hstm1 := statement_identifier_expression rfl he1 (Or.inr (by decide))
    (jsP_semicolon_auto (by decide) (Or.inl rfl))
  have he2 : Yields (fun R => expression R false) _ _ := expression_identifier
    (J := advance 1 (nextState { lineOne with filename := "f.js", source := aNewlineB }))
    rfl (by decide) (by decide) (by decide) (by decide)
  have hstm2 := statement_identifier_expression rfl he2 (Or.inr (by decide))
    (jsP_semicolon_auto (by decide) (Or.inr (Or.inr rfl)))
  have hscr := script_cons (by decide) (scriptelement_statement (by decide) hstm1)
    (script_loop_step (by decide) (scriptelement_statement (by decide) hstm2)
      (script_loop_done rfl))
  obtain ⟨n, hn⟩ := jsP_parse_of_script (J := lineOne) hscr
  refine ⟨n, fun m hm => ?_⟩
  rw [hn m hm]
  simp [js_Ast.new, js_Ast.strnode, jsP_foldconst, js_Ast.isNull]
  decide

/-- C31, counterexample.  The tokens of `a`, newline, `b` and of `a +`,
newline, `b` carry non-decreasing lines, from the line 1 on which the lexer
stands before parsing, and both programs parse.  Along the depth-first
traversal in the order a, b, c, d the lines of the first tree are 1, 1, 2, 1
when a node comes before its children and again 1, 1, 2, 1 when it comes after
them, and the lines of the second tree are 2, 2, 1, 1 when a node comes before
its children: neither order is non-decreasing. -/
theorem line_order_counterexample :
    (∀ t ∈ aNewlineB, lineOne.lexline ≤ t.line) ∧
    aNewlineB.Pairwise (fun t u => t.line ≤ u.line) ∧
    (∀ t ∈ aPlusNewlineB, lineOne.lexline ≤ t.line) ∧
    aPlusNewlineB.Pairwise (fun t u => t.line ≤ u.line) ∧
    ∃ n, ∀ m, n ≤ m →
      (∃ v J1, jsP_parse m "f.js" aNewlineB lineOne = .ok v J1 ∧
        v.linesPre = [1, 1, 2, 1] ∧ v.linesPost = [1, 1, 2, 1] ∧
        ¬ v.linesPre.Pairwise (fun x y => x ≤ y) ∧
        ¬ v.linesPost.Pairwise (fun x y => x ≤ y)) ∧
      (∃ v J1, jsP_parse m "f.js" aPlusNewlineB lineOne = .ok v J1 ∧
        v.linesPre = [2, 2, 1, 1] ∧ ¬ v.linesPre.Pairwise (fun x y => x ≤ y)) := by
  obtain ⟨n1, h1⟩ := jsP_parse_aNewlineB
  obtain ⟨n2, h2⟩ := jsP_parse_aPlusNewlineB
  refine ⟨by decide, by decide, by decide, by decide, max n1 n2, fun m hm => ⟨?_, ?_⟩⟩
  · exact ⟨_, _, h1 m (by omega), by decide, by decide, by decide, by decide⟩
  · exact ⟨_, _, h2 m (by omega), by decide, by decide⟩

/-- C31.  For every program that parses, whose tokens carry non-decreasing
lines that are at least the line on which the lexer stands before parsing,
the lines stamped on the nodes of the tree returned by `jsP_parse` rise
towards the root: the line of a node is at least the line of every node below
it, except that a list cell is compared in this way with the nodes of its
element only, while every node in the rest of its list (slot `b`) carries at
least the line of the cell.  Every line of the tree lies between the line of
the lexer before parsing and the `astline` of the state after. -/
theorem jsP_parse_line_order (fuel : Nat) (filename : String) (source : List Token)
    (J J1 : js_State) (v : js_Ast)
    (hlex : ∀ t ∈ source, J.lexline ≤ t.line)
    (hsrc : source.Pairwise fun t u => t.line ≤ u.line)
    (h : jsP_parse fuel filename source J = .ok v J1) :
    v.lineOrdered = true ∧ ∀ l ∈ v.linesPre, J.lexline ≤ l ∧ l ≤ J1.astline := by
  obtain ⟨hstart, hline⟩ := inOrder_start J filename source hlex hsrc
  simp only [jsP_parse, jsY_initlex, bind_apply, jsP_next_apply] at h
  cases hs : script (run fuel) Tok.EOF
      (nextState { J with filename := filename, source := source }) with
  | ok p J2 =>
    rw [hs] at h
    have hJ : J2 = J1 ∧ v = if p.isNull then p else (jsP_foldconst p).1 := by
      dsimp only at h
      split at h <;> simp_all
    obtain ⟨rfl, rfl⟩ := hJ
    obtain ⟨_, _, _, ho, hl⟩ := (script_lines
      (fun fn lo s e => run_lines fuel fn lo s e) Tok.EOF J.lexline J.lexline le_rfl).out
      _ p J2 hstart (by rw [hline]) hs
    split
    · exact ⟨ho, hl⟩
    · exact ⟨(jsP_foldconst_lines p).2 ho, fun l h => hl l ((jsP_foldconst_lines p).1 l h)⟩
  | error m => rw [hs] at h; cases h
  | nofuel => rw [hs] at h; cases h

theorem jsP_parse_line_order_witness :
    ∃ n v J1, jsP_parse n "f.js" aNewlineB lineOne = .ok v J1 ∧
      v.linesPre = [1, 1, 2, 1] ∧ v.lineOrdered = true ∧
      ∀ l ∈ v.linesPre, lineOne.lexline ≤ l ∧ l ≤ J1.astline := by
  obtain ⟨n, hn⟩ := jsP_parse_aNewlineB
  exact ⟨n, _, _, hn n le_rfl, by decide,
    jsP_parse_line_order n "f.js" aNewlineB lineOne _ _ (by decide) (by decide) (hn n le_rfl)⟩

end Mujs

namespace ImageContext

/-! ## C39: the first matching pattern of a terrain image context -/

theorem matches_tiles_loop_iff (p : terrain_image_context) (tiles : image_tiles_vec)
    (n i : Nat) :
    matches_tiles_loop p tiles n i = true ↔
      ∀ j, i ≤ j → j < i + n → p.tiles j = 2 ∨ tiles j = (p.tiles j : Int) := by
  induction n generalizing i with
  | zero =>
    simp only [matches_tiles_loop, true_iff]
    intro j h1 h2
    omega
  | succ n ih =>
    rw [matches_tiles_loop]
    by_cases hc : p.tiles i ≠ 2 ∧ tiles i ≠ (p.tiles i : Int)
    · rw [if_pos hc]
      simp only [Bool.false_eq_true, false_iff, not_forall]
      refine ⟨i, le_rfl, by omega, ?_⟩
      rintro (h | h)
      · exact hc.1 h
      · exact hc.2 h
    · rw [if_neg hc, ih]
      constructor
      · intro h j h1 h2
        by_cases hj : j = i
        · subst hj
          by_cases h2' : p.tiles j = 2
          · exact Or.inl h2'
          · refine Or.inr ?_
            by_contra h3
            exact hc ⟨h2', h3⟩
        · exact h j (by omega) (by omega)
      · intro h j h1 h2
        exact h j (by omega) (by omega)

/-- The function `map_image_context_context_matches_tiles` decides `Matches`. -/
theorem matches_tiles_iff (p : terrain_image_context) (tiles : image_tiles_vec) :
    map_image_context_context_matches_tiles p tiles = true ↔ Matches p tiles := by
  rw [map_image_context_context_matches_tiles, matches_tiles_loop_iff]
  simp only [MAP_IMAGE_MAX_TILES, Matches, Nat.zero_add, Nat.zero_le, true_implies]

/-- The loop when no pattern from `i` on matches: nothing changes. -/
theorem get_terrain_image_loop_none (group : Nat) (tiles : image_tiles_vec)
    (orientation : Nat) (n i : Nat) (result : terrain_image) (G : Tables)
    (h : ∀ j, i ≤ j → j < i + n → ¬ Matches ((G group).context j) tiles) :
    get_terrain_image_loop group tiles orientation n i result G = (result, G) := by
  induction n generalizing i with
  | zero => rfl
  | succ n ih =>
    rw [get_terrain_image_loop]
    have h0 := h i le_rfl (by omega)
    rw [← matches_tiles_iff] at h0
    simp only [h0, Bool.false_eq_true, ↓reduceIte]
    exact ih (i + 1) (fun j h1 h2 => h j (by omega) (by omega))

/-- The loop when `k` is the first pattern from `i` on that matches. -/
theorem get_terrain_image_loop_first (group : Nat) (tiles : image_tiles_vec)
    (orientation : Nat) (n i k : Nat) (result : terrain_image) (G : Tables)
    (hik : i ≤ k) (hkn : k < i + n) (hk : Matches ((G group).context k) tiles)
    (h : ∀ j, i ≤ j → j < k → ¬ Matches ((G group).context j) tiles) :
    get_terrain_image_loop group tiles orientation n i result G =
      ({ is_valid := 1,
         group_offset := ((G group).context k).offset_for_orientation (orientation / 2),
         item_offset :=
           if (((G group).context k).current_item_offset + 1) % 256 ≥
               ((G group).context k).max_item_offset then 0
           else (((G group).context k).current_item_offset + 1) % 256,
         canal_offset := ((G group).context k).canal_offset },
       G.set group k { (G group).context k with
         current_item_offset :=
           if (((G group).context k).current_item_offset + 1) % 256 ≥
               ((G group).context k).max_item_offset then 0
           else (((G group).context k).current_item_offset + 1) % 256 }) := by
  induction n generalizing i with
  | zero => omega
  | succ n ih =>
    rw [get_terrain_image_loop]
    by_cases hi : i = k
    · subst hi
      rw [← matches_tiles_iff] at hk
      simp only [hk, ↓reduceIte]
    · have h0 := h i le_rfl (by omega)
      rw [← matches_tiles_iff] at h0
      simp only [h0, Bool.false_eq_true, ↓reduceIte]
      exact ih (i + 1) (by omega) (by omega) (fun j h1 h2 => h j (by omega) h2)

/-- C39.  The function `map_image_context_get_terrain_image` returns a result
with `is_valid = 1` if and only if some pattern of the table of the group
matches the tiles, and `is_valid = 0` otherwise, where the function
`map_image_context_context_matches_tiles` holds of a pattern exactly when at
each of the 8 positions the entry of the pattern is 2 or equals the tile
value.  When no pattern matches, the tables are unchanged and only `is_valid`
of the result is assigned.  When `k` is the first matching pattern in table
order, the offsets returned are those of pattern `k`, its
`current_item_offset` becomes the old value plus one (as an unsigned char),
or 0 when that reaches `max_item_offset`, every other pattern and every other
table is unchanged, and the `item_offset` returned is that new value, which
is 0 or less than `max_item_offset` of pattern `k`. -/
theorem get_terrain_image_spec (group : Nat) (tiles : image_tiles_vec) (orientation : Nat)
    (result : terrain_image) (G : Tables) :
    (∀ p, map_image_context_context_matches_tiles p tiles = true ↔ Matches p tiles) ∧
    ((map_image_context_get_terrain_image group tiles orientation result G).1.is_valid = 1 ↔
      ∃ k : Nat, (k : Int) < (G group).size ∧ Matches ((G group).context k) tiles) ∧
    ((¬ ∃ k : Nat, (k : Int) < (G group).size ∧ Matches ((G group).context k) tiles) →
      map_image_context_get_terrain_image group tiles orientation result G =
        ({ result with is_valid := 0 }, G)) ∧
    (∀ k : Nat, (k : Int) < (G group).size → Matches ((G group).context k) tiles →
      (∀ j, j < k → ¬ Matches ((G group).context j) tiles) →
      ∃ cur,
        cur = (if (((G group).context k).current_item_offset + 1) % 256 ≥
            ((G group).context k).max_item_offset then 0
          else (((G group).context k).current_item_offset + 1) % 256) ∧
        (map_image_context_get_terrain_image group tiles orientation result G).1 =
          { is_valid := 1,
            group_offset := ((G group).context k).offset_for_orientation (orientation / 2),
            item_offset := cur,
            canal_offset := ((G group).context k).canal_offset } ∧
        (cur = 0 ∨ cur < ((G group).context k).max_item_offset) ∧
        ((map_image_context_get_terrain_image group tiles orientation result G).2
            group).context k =
          { (G group).context k with current_item_offset := cur } ∧
        (∀ j, j ≠ k →
          ((map_image_context_get_terrain_image group tiles orientation result G).2
            group).context j = (G group).context j) ∧
        ((map_image_context_get_terrain_image group tiles orientation result G).2
            group).size = (G group).size ∧
        (∀ g, g ≠ group →
          (map_image_context_get_terrain_image group tiles orientation result G).2 g =
            G g)) := by
  have hfirst : ∀ k : Nat, (k : Int) < (G group).size → Matches ((G group).context k) tiles →
      (∀ j, j < k → ¬ Matches ((G group).context j) tiles) →
      map_image_context_get_terrain_image group tiles orientation result G =
        ({ is_valid := 1,
           group_offset := ((G group).context k).offset_for_orientation (orientation / 2),
           item_offset :=
             if (((G group).context k).current_item_offset + 1) % 256 ≥
                 ((G group).context k).max_item_offset then 0
             else (((G group).context k).current_item_offset + 1) % 256,
           canal_offset := ((G group).context k).canal_offset },
         G.set group k { (G group).context k with
           current_item_offset :=
             if (((G group).context k).current_item_offset + 1) % 256 ≥
                 ((G group).context k).max_item_offset then 0
             else (((G group).context k).current_item_offset + 1) % 256 }) := by
    intro k hk hm hj
    exact get_terrain_image_loop_first group tiles orientation _ 0 k _ G (Nat.zero_le _)
      (by omega) hm (fun j _ h2 => hj j h2)
  have hnone : (¬ ∃ k : Nat, (k : Int) < (G group).size ∧ Matches ((G group).context k) tiles) →
      map_image_context_get_terrain_image group tiles orientation result G =
        ({ result with is_valid := 0 }, G) := by
    intro h
    exact get_terrain_image_loop_none group tiles orientation _ 0 _ G
      (fun j _ h2 hm => h ⟨j, by omega, hm⟩)
  refine ⟨fun p => matches_tiles_iff p tiles, ?_, hnone, ?_⟩
  · constructor
    · intro h
      by_contra hno
      rw [hnone hno] at h
      simp at h
    · rintro ⟨k, hk, hm⟩
      classical
      have hex : ∃ k : Nat, (k : Int) < (G group).size ∧ Matches ((G group).context k) tiles :=
        ⟨k, hk, hm⟩
      have hk0 := Nat.find_spec hex
      have hmin : ∀ j, j < Nat.find hex → ¬ Matches ((G group).context j) tiles := by
        intro j hj hmj
        exact Nat.find_min hex hj ⟨by omega, hmj⟩
      rw [hfirst _ hk0.1 hk0.2 hmin]
  · intro k hk hm hj
    refine ⟨_, rfl, ?_, ?_, ?_, ?_, ?_, ?_⟩
    · rw [hfirst k hk hm hj]
    · split
      · exact Or.inl rfl
      · exact Or.inr (by omega)
    · rw [hfirst k hk hm hj]
      simp [Tables.set]
    · intro j hjk
      rw [hfirst k hk hm hj]
      simp [Tables.set, hjk]
    · rw [hfirst k hk hm hj]
      simp [Tables.set]
    · intro g hg
      rw [hfirst k hk hm hj]
      simp [Tables.set, hg]

/-- C39 on the head of the water table and tiles with water to the east and
west only: the sixth pattern is the first that matches, and its item offset
goes from 0 to 1. -/
theorem get_terrain_image_spec_witness :
    (map_image_context_get_terrain_image 0 tilesEastWest 0 ⟨7, 7, 7, 7⟩
        (fun _ => waterHead)).1 =
      { is_valid := 1, group_offset := 40, item_offset := 1, canal_offset := 0 } := by
  obtain ⟨cur, hc, h, -⟩ := (get_terrain_image_spec 0 tilesEastWest 0 ⟨7, 7, 7, 7⟩
    (fun _ => waterHead)).2.2.2 5 (by decide)
    (by
      intro i hi
      interval_cases i <;> simp [waterHead, pattern, tilesEastWest])
    (by
      intro j hj
      interval_cases j <;> simp [Matches, waterHead, pattern, tilesEastWest] <;>
        first
          | exact ⟨2, by decide, by decide⟩
          | exact ⟨0, by decide, by decide⟩
          | exact ⟨6, by decide, by decide⟩)
  rw [h, hc]
  simp [waterHead, pattern]

end ImageContext
